import Mathlib

/-! beebjit: Intel 8271 floppy disc controller

A shallow embedding of `src/intel_fdc.c`.  Every C function becomes a Lean
function of the same name over an explicit controller state.  Bytes are
natural numbers; stores into `uint8_t` objects reduce modulo 256.  Functions
that can end in `util_bail` or a failed `assert` return `Except Fault`.
Calls to `log_do_log` have no effect on the controller and are left out.
-/

set_option maxRecDepth 8192

/-- Ways in which the emulator process is ended: `util_bail`, a failed
`assert`, or an access through a null pointer. -/
inductive Fault where
  | bail
  | assertion
  | null_dereference
  deriving DecidableEq, Repr

/-! ## Enumerations -/

@[simp] abbrev k_intel_fdc_status : Nat := 0
@[simp] abbrev k_intel_fdc_result : Nat := 1
@[simp] abbrev k_intel_fdc_unknown_read_2 : Nat := 2
@[simp] abbrev k_intel_fdc_unknown_read_3 : Nat := 3
@[simp] abbrev k_intel_fdc_command : Nat := 0
@[simp] abbrev k_intel_fdc_parameter : Nat := 1
@[simp] abbrev k_intel_fdc_reset : Nat := 2
@[simp] abbrev k_intel_fdc_data : Nat := 4

@[simp] abbrev k_intel_fdc_status_flag_busy : Nat := 0x80
@[simp] abbrev k_intel_fdc_status_flag_command_full : Nat := 0x40
@[simp] abbrev k_intel_fdc_status_flag_param_full : Nat := 0x20
@[simp] abbrev k_intel_fdc_status_flag_result_ready : Nat := 0x10
@[simp] abbrev k_intel_fdc_status_flag_nmi : Nat := 0x08
@[simp] abbrev k_intel_fdc_status_flag_need_data : Nat := 0x04

@[simp] abbrev k_intel_fdc_result_ok : Nat := 0x00
@[simp] abbrev k_intel_fdc_result_clock_error : Nat := 0x08
@[simp] abbrev k_intel_fdc_result_late_dma : Nat := 0x0A
@[simp] abbrev k_intel_fdc_result_id_crc_error : Nat := 0x0C
@[simp] abbrev k_intel_fdc_result_data_crc_error : Nat := 0x0E
@[simp] abbrev k_intel_fdc_result_drive_not_ready : Nat := 0x10
@[simp] abbrev k_intel_fdc_result_write_protected : Nat := 0x12
@[simp] abbrev k_intel_fdc_result_sector_not_found : Nat := 0x18
@[simp] abbrev k_intel_fdc_result_flag_deleted_data : Nat := 0x20

@[simp] abbrev k_intel_fdc_command_SCAN_DATA : Nat := 0
@[simp] abbrev k_intel_fdc_command_SCAN_DATA_AND_DELETED : Nat := 1
@[simp] abbrev k_intel_fdc_command_WRITE_DATA : Nat := 2
@[simp] abbrev k_intel_fdc_command_WRITE_DELETED_DATA : Nat := 3
@[simp] abbrev k_intel_fdc_command_READ_DATA : Nat := 4
@[simp] abbrev k_intel_fdc_command_READ_DATA_AND_DELETED : Nat := 5
@[simp] abbrev k_intel_fdc_command_READ_ID : Nat := 6
@[simp] abbrev k_intel_fdc_command_VERIFY : Nat := 7
@[simp] abbrev k_intel_fdc_command_FORMAT : Nat := 8
@[simp] abbrev k_intel_fdc_command_UNUSED_9 : Nat := 9
@[simp] abbrev k_intel_fdc_command_SEEK : Nat := 10
@[simp] abbrev k_intel_fdc_command_READ_DRIVE_STATUS : Nat := 11
@[simp] abbrev k_intel_fdc_command_UNUSED_12 : Nat := 12
@[simp] abbrev k_intel_fdc_command_SPECIFY : Nat := 13
@[simp] abbrev k_intel_fdc_command_WRITE_SPECIAL_REGISTER : Nat := 14
@[simp] abbrev k_intel_fdc_command_READ_SPECIAL_REGISTER : Nat := 15

@[simp] abbrev k_intel_fdc_register_internal_pointer : Nat := 0x00
@[simp] abbrev k_intel_fdc_register_internal_count_msb_copy : Nat := 0x00
@[simp] abbrev k_intel_fdc_register_internal_param_count : Nat := 0x01
@[simp] abbrev k_intel_fdc_register_internal_seek_retry_count : Nat := 0x01
@[simp] abbrev k_intel_fdc_register_internal_param_data_marker : Nat := 0x02
@[simp] abbrev k_intel_fdc_register_internal_param_5 : Nat := 0x03
@[simp] abbrev k_intel_fdc_register_internal_param_4 : Nat := 0x04
@[simp] abbrev k_intel_fdc_register_internal_param_3 : Nat := 0x05
@[simp] abbrev k_intel_fdc_register_current_sector : Nat := 0x06
@[simp] abbrev k_intel_fdc_register_internal_param_2 : Nat := 0x06
@[simp] abbrev k_intel_fdc_register_internal_param_1 : Nat := 0x07
@[simp] abbrev k_intel_fdc_register_internal_header_pointer : Nat := 0x08
@[simp] abbrev k_intel_fdc_register_internal_ms_count_hi : Nat := 0x08
@[simp] abbrev k_intel_fdc_register_internal_ms_count_lo : Nat := 0x09
@[simp] abbrev k_intel_fdc_register_internal_seek_count : Nat := 0x0A
@[simp] abbrev k_intel_fdc_register_internal_id_sector : Nat := 0x0A
@[simp] abbrev k_intel_fdc_register_internal_seek_target_1 : Nat := 0x0B
@[simp] abbrev k_intel_fdc_register_internal_seek_target_2 : Nat := 0x0C
@[simp] abbrev k_intel_fdc_register_internal_id_track : Nat := 0x0C
@[simp] abbrev k_intel_fdc_register_head_step_rate : Nat := 0x0D
@[simp] abbrev k_intel_fdc_register_head_settle_time : Nat := 0x0E
@[simp] abbrev k_intel_fdc_register_head_load_unload : Nat := 0x0F
@[simp] abbrev k_intel_fdc_register_bad_track_1_drive_0 : Nat := 0x10
@[simp] abbrev k_intel_fdc_register_bad_track_2_drive_0 : Nat := 0x11
@[simp] abbrev k_intel_fdc_register_track_drive_0 : Nat := 0x12
@[simp] abbrev k_intel_fdc_register_internal_count_lsb : Nat := 0x13
@[simp] abbrev k_intel_fdc_register_internal_count_msb : Nat := 0x14
@[simp] abbrev k_intel_fdc_register_internal_drive_in_copy : Nat := 0x15
@[simp] abbrev k_intel_fdc_register_internal_gap2_skip : Nat := 0x15
@[simp] abbrev k_intel_fdc_register_internal_result : Nat := 0x16
@[simp] abbrev k_intel_fdc_register_mode : Nat := 0x17
@[simp] abbrev k_intel_fdc_register_internal_status : Nat := 0x17
@[simp] abbrev k_intel_fdc_register_bad_track_1_drive_1 : Nat := 0x18
@[simp] abbrev k_intel_fdc_register_bad_track_2_drive_1 : Nat := 0x19
@[simp] abbrev k_intel_fdc_register_track_drive_1 : Nat := 0x1A
@[simp] abbrev k_intel_fdc_register_internal_drive_in_latched : Nat := 0x1B
@[simp] abbrev k_intel_fdc_register_internal_index_pulse_count : Nat := 0x1C
@[simp] abbrev k_intel_fdc_register_internal_data : Nat := 0x1D
@[simp] abbrev k_intel_fdc_register_internal_parameter : Nat := 0x1E
@[simp] abbrev k_intel_fdc_register_internal_command : Nat := 0x1F
@[simp] abbrev k_intel_fdc_register_drive_in : Nat := 0x22
@[simp] abbrev k_intel_fdc_register_drive_out : Nat := 0x23

@[simp] abbrev k_intel_fdc_drive_out_select_1 : Nat := 0x80
@[simp] abbrev k_intel_fdc_drive_out_select_0 : Nat := 0x40
@[simp] abbrev k_intel_fdc_drive_out_side : Nat := 0x20
@[simp] abbrev k_intel_fdc_drive_out_low_head_current : Nat := 0x10
@[simp] abbrev k_intel_fdc_drive_out_load_head : Nat := 0x08
@[simp] abbrev k_intel_fdc_drive_out_direction : Nat := 0x04
@[simp] abbrev k_intel_fdc_drive_out_step : Nat := 0x02
@[simp] abbrev k_intel_fdc_drive_out_write_enable : Nat := 0x01

@[simp] abbrev k_intel_fdc_mode_single_actuator : Nat := 0x02
@[simp] abbrev k_intel_fdc_mode_dma : Nat := 0x01

@[simp] abbrev k_intel_num_registers : Nat := 32

/-- The values of the `parameter_callback` field
(`k_intel_fdc_parameter_accept_*`). -/
inductive ParameterCallback where
  | accept_none
  | accept_command
  | accept_specify
  deriving DecidableEq, Repr

/-- The values of the `index_pulse_callback` field
(`k_intel_fdc_index_pulse_*`). -/
inductive IndexPulseCallback where
  | none
  | timeout
  | spindown
  deriving DecidableEq, Repr

/-- The values of the `timer_state` field (`k_intel_fdc_timer_*`). -/
inductive TimerState where
  | none
  | seek_step
  | post_seek
  deriving DecidableEq, Repr

/-- The values of the `state` field (`k_intel_fdc_state_*`). -/
inductive FdcState where
  | null
  | idle
  | wait_no_index
  | wait_index
  | syncing_for_id_wait
  | syncing_for_id
  | check_id_marker
  | in_id
  | in_id_crc
  | syncing_for_data
  | check_data_marker
  | in_data
  | in_deleted_data
  | in_data_crc
  | skip_gap_2
  | write_gap_2
  | write_sector_data
  | format_gap_1
  | format_write_id
  | format_write_data
  | format_gap_3
  | format_gap_4
  deriving DecidableEq, Repr

/-! ## Collaborators -/

/-- Names the two drive objects a drive pointer can point to. -/
inductive DriveId where
  | drive_0
  | drive_1
  deriving DecidableEq, Repr

/-- Modelled from the spec: `disc_drive.c` is not among the sources, only its
callers are.  The drive is the record of what the interface functions
`is_spinning`, `get_track`, `is_write_protect`, `is_index_pulse` report and
what `start/stop_spinning`, `select_side` and `seek_track` change. -/
structure disc_drive_struct where
  is_spinning : Bool
  track : Nat
  is_write_protect : Bool
  is_index_pulse : Bool
  is_side_upper : Bool
  deriving DecidableEq, Repr

/-- One call of `disc_drive_write_byte(p_drive, data, clocks)`. -/
structure DriveWrite where
  p_drive : Option DriveId
  data : Nat
  clocks : Nat
  deriving DecidableEq, Repr

/-- Models `struct intel_fdc_struct` together with the objects it points to:
the two drives, the NMI level of the 6502 (`nmi_level`), the single timer
(`timer_running`, `timer_value`) and the sequence of bytes handed to
`disc_drive_write_byte` (`drive_writes`).  `uninit_post_seek_time` is the
indeterminate content of the local `post_seek_time` of
`intel_fdc_do_load_head`, which one path reads before any store. -/
structure intel_fdc_struct where
  nmi_level : Bool
  timer_running : Bool
  timer_value : Nat
  drive_0 : disc_drive_struct
  drive_1 : disc_drive_struct
  drive_writes : List DriveWrite
  uninit_post_seek_time : Nat
  p_drive_0 : Option DriveId
  p_drive_1 : Option DriveId
  p_current_drive : Option DriveId
  parameter_callback : ParameterCallback
  index_pulse_callback : IndexPulseCallback
  timer_state : TimerState
  regs : Nat → Nat
  drive_out : Nat
  shift_register : Nat
  num_shifts : Nat
  state : FdcState
  state_count : Nat
  state_is_index_pulse : Bool
  crc : Nat
  on_disc_crc : Nat

/-- The C store `regs[i] = v`. -/
def set_reg (regs : Nat → Nat) (i v : Nat) : Nat → Nat :=
  fun j => if j = i then v else regs j

/-- The C expression `x & ~bits` stored into a `uint8_t`. -/
def and_not8 (x bits : Nat) : Nat :=
  x &&& (0xFF ^^^ bits)

/-- The drive object behind a non-null drive pointer. -/
def get_drive (s : intel_fdc_struct) (d : DriveId) : disc_drive_struct :=
  match d with
  | DriveId.drive_0 => s.drive_0
  | DriveId.drive_1 => s.drive_1

/-- Replaces the drive object behind a non-null drive pointer. -/
def set_drive (s : intel_fdc_struct) (d : DriveId) (v : disc_drive_struct) :
    intel_fdc_struct :=
  match d with
  | DriveId.drive_0 => { s with drive_0 := v }
  | DriveId.drive_1 => { s with drive_1 := v }

/-- Modelled from the spec: `disc_drive_start_spinning` of the absent
`disc_drive.c`. -/
def disc_drive_start_spinning (s : intel_fdc_struct) (d : DriveId) :
    intel_fdc_struct :=
  set_drive s d { get_drive s d with is_spinning := true }

/-- Modelled from the spec: `disc_drive_stop_spinning` of the absent
`disc_drive.c`. -/
def disc_drive_stop_spinning (s : intel_fdc_struct) (d : DriveId) :
    intel_fdc_struct :=
  set_drive s d { get_drive s d with is_spinning := false }

/-- Modelled from the spec: `disc_drive_select_side` of the absent
`disc_drive.c`. -/
def disc_drive_select_side (s : intel_fdc_struct) (d : DriveId)
    (is_upper : Bool) : intel_fdc_struct :=
  set_drive s d { get_drive s d with is_side_upper := is_upper }

/-- Modelled from the spec: `disc_drive_seek_track` of the absent
`disc_drive.c`; the head moves by `delta` tracks and stops at track 0. -/
def disc_drive_seek_track (s : intel_fdc_struct) (d : DriveId) (delta : Int) :
    intel_fdc_struct :=
  set_drive s d
    { get_drive s d with track := (((get_drive s d).track : Int) + delta).toNat }

/-- Modelled from the spec: `disc_drive_write_byte` of the absent
`disc_drive.c`; the call is recorded with the pointer it was given. -/
def disc_drive_write_byte (s : intel_fdc_struct) (p : Option DriveId)
    (data clocks : Nat) : intel_fdc_struct :=
  { s with drive_writes := s.drive_writes ++ [⟨p, data, clocks⟩] }

/-- Modelled from the spec: `timing_stop_timer` of the absent `timing.c`. -/
def timing_stop_timer (s : intel_fdc_struct) : intel_fdc_struct :=
  { s with timer_running := false }

/-- Modelled from the spec: `timing_start_timer_with_value` of the absent
`timing.c`. -/
def timing_start_timer_with_value (s : intel_fdc_struct) (ticks : Nat) :
    intel_fdc_struct :=
  { s with timer_running := true, timer_value := ticks }

/-- Modelled from the spec: `state_6502_set_irq_level` of the absent
`state_6502.c`, for the NMI line. -/
def state_6502_set_irq_level (s : intel_fdc_struct) (level : Bool) :
    intel_fdc_struct :=
  { s with nmi_level := level }

/-! ## The controller -/

def intel_fdc_get_status (s : intel_fdc_struct) : Nat :=
  s.regs k_intel_fdc_register_internal_status

def intel_fdc_get_external_status (s : intel_fdc_struct) : Nat :=
  let status := intel_fdc_get_status s
  let status := and_not8 status 0x03
  let status := and_not8 status 0x40
  status

def intel_fdc_update_nmi (s : intel_fdc_struct) : intel_fdc_struct :=
  let status := intel_fdc_get_status s
  let level := decide (status &&& k_intel_fdc_status_flag_nmi ≠ 0)
  state_6502_set_irq_level s level

def intel_fdc_status_raise (s : intel_fdc_struct) (bits : Nat) :
    intel_fdc_struct :=
  let s := { s with
    regs := set_reg s.regs k_intel_fdc_register_internal_status
      ((s.regs k_intel_fdc_register_internal_status ||| bits) % 256) }
  if bits &&& k_intel_fdc_status_flag_nmi ≠ 0 then intel_fdc_update_nmi s else s

def intel_fdc_status_lower (s : intel_fdc_struct) (bits : Nat) :
    intel_fdc_struct :=
  let s := { s with
    regs := set_reg s.regs k_intel_fdc_register_internal_status
      (and_not8 (s.regs k_intel_fdc_register_internal_status) bits) }
  if bits &&& k_intel_fdc_status_flag_nmi ≠ 0 then intel_fdc_update_nmi s else s

def intel_fdc_get_result (s : intel_fdc_struct) : Nat :=
  s.regs k_intel_fdc_register_internal_result

def intel_fdc_set_result (s : intel_fdc_struct) (result : Nat) :
    intel_fdc_struct :=
  let s := { s with
    regs := set_reg s.regs k_intel_fdc_register_internal_result result }
  intel_fdc_status_raise s k_intel_fdc_status_flag_result_ready

def intel_fdc_get_internal_command (s : intel_fdc_struct) : Nat :=
  let command := s.regs k_intel_fdc_register_internal_command
  let command := command &&& 0x3C
  command >>> 2

def intel_fdc_command_is_writing (s : intel_fdc_struct) : Bool :=
  let command := intel_fdc_get_internal_command s
  if command = k_intel_fdc_command_WRITE_DATA ∨
      command = k_intel_fdc_command_WRITE_DELETED_DATA ∨
      command = k_intel_fdc_command_FORMAT then
    true
  else
    false

def intel_fdc_get_sector_size (s : intel_fdc_struct) : Nat :=
  let size := s.regs k_intel_fdc_register_internal_param_3 >>> 5
  128 <<< size

def intel_fdc_setup_sector_size (s : intel_fdc_struct) : intel_fdc_struct :=
  let size := intel_fdc_get_sector_size s
  let msb := (size / 128 - 1) % 256
  let regs := set_reg s.regs k_intel_fdc_register_internal_count_lsb 0x80
  let regs := set_reg regs k_intel_fdc_register_internal_count_msb msb
  let regs := set_reg regs k_intel_fdc_register_internal_count_msb_copy msb
  { s with regs := regs }

def intel_fdc_decrement_counter (s : intel_fdc_struct) :
    intel_fdc_struct × Bool :=
  let s := { s with
    regs := set_reg s.regs k_intel_fdc_register_internal_count_lsb
      ((s.regs k_intel_fdc_register_internal_count_lsb + 255) % 256) }
  if s.regs k_intel_fdc_register_internal_count_lsb ≠ 0 then
    (s, false)
  else
    let s := { s with
      regs := set_reg s.regs k_intel_fdc_register_internal_count_msb
        ((s.regs k_intel_fdc_register_internal_count_msb + 255) % 256) }
    if s.regs k_intel_fdc_register_internal_count_msb ≠ 0xFF then
      ({ s with
        regs := set_reg s.regs k_intel_fdc_register_internal_count_lsb 0x80 },
        false)
    else
      ({ s with
        regs := set_reg s.regs k_intel_fdc_register_internal_count_msb 0 },
        true)

def intel_fdc_start_index_pulse_timeout (s : intel_fdc_struct) :
    intel_fdc_struct :=
  { s with
    regs := set_reg s.regs k_intel_fdc_register_internal_index_pulse_count 3,
    index_pulse_callback := IndexPulseCallback.timeout }

def intel_fdc_set_drive_out (s : intel_fdc_struct) (drive_out : Nat) :
    intel_fdc_struct :=
  let s :=
    match s.p_current_drive with
    | some d =>
      if s.drive_out &&& k_intel_fdc_drive_out_load_head ≠ 0 then
        disc_drive_stop_spinning s d
      else s
    | none => s
  let select_bits := drive_out &&& 0xC0
  let p_current_drive :=
    if select_bits = 0x40 then s.p_drive_0
    else if select_bits = 0x80 then s.p_drive_1
    else none
  let s := { s with p_current_drive := p_current_drive }
  let s :=
    match p_current_drive with
    | some d =>
      let s :=
        if drive_out &&& k_intel_fdc_drive_out_load_head ≠ 0 then
          disc_drive_start_spinning s d
        else s
      disc_drive_select_side s d
        (decide (drive_out &&& k_intel_fdc_drive_out_side ≠ 0))
    | none => s
  { s with drive_out := drive_out }

def intel_fdc_drive_out_raise (s : intel_fdc_struct) (bits : Nat) :
    intel_fdc_struct :=
  let drive_out := (s.drive_out ||| bits) % 256
  intel_fdc_set_drive_out s drive_out

def intel_fdc_drive_out_lower (s : intel_fdc_struct) (bits : Nat) :
    intel_fdc_struct :=
  let drive_out := and_not8 s.drive_out bits
  intel_fdc_set_drive_out s drive_out

def intel_fdc_clear_callbacks (s : intel_fdc_struct) : intel_fdc_struct :=
  let s := { s with
    parameter_callback := ParameterCallback.accept_none,
    index_pulse_callback := IndexPulseCallback.none }
  if s.timer_state ≠ TimerState.none then
    let s := timing_stop_timer s
    { s with timer_state := TimerState.none }
  else s

def intel_fdc_lower_busy_and_log (s : intel_fdc_struct) : intel_fdc_struct :=
  intel_fdc_status_lower s k_intel_fdc_status_flag_busy

def intel_fdc_set_state (s : intel_fdc_struct) (state : FdcState) :
    intel_fdc_struct :=
  let s := { s with state := state, state_count := 0 }
  if state = FdcState.syncing_for_id ∨ state = FdcState.syncing_for_data then
    { s with shift_register := 0, num_shifts := 0 }
  else s

def intel_fdc_spindown (s : intel_fdc_struct) : intel_fdc_struct :=
  intel_fdc_drive_out_lower s
    (k_intel_fdc_drive_out_select_1 ||| k_intel_fdc_drive_out_select_0 |||
      k_intel_fdc_drive_out_load_head)

def intel_fdc_finish_simple_command (s : intel_fdc_struct) :
    intel_fdc_struct :=
  let s := intel_fdc_set_state s FdcState.idle
  let s := intel_fdc_lower_busy_and_log s
  let s := intel_fdc_clear_callbacks s
  let head_unload_count := s.regs k_intel_fdc_register_head_load_unload >>> 4
  if head_unload_count = 0 then
    intel_fdc_spindown s
  else if head_unload_count = 0xF then
    s
  else
    { s with
      regs := set_reg s.regs k_intel_fdc_register_internal_index_pulse_count
        head_unload_count,
      index_pulse_callback := IndexPulseCallback.spindown }

def intel_fdc_finish_command (s : intel_fdc_struct) (result : Nat) :
    intel_fdc_struct :=
  let s :=
    if result ≠ k_intel_fdc_result_ok then
      intel_fdc_drive_out_lower s
        (k_intel_fdc_drive_out_direction ||| k_intel_fdc_drive_out_step |||
          k_intel_fdc_drive_out_write_enable)
    else s
  let result := (result ||| intel_fdc_get_result s) % 256
  let s := intel_fdc_set_result s result
  let s := intel_fdc_status_raise s k_intel_fdc_status_flag_nmi
  intel_fdc_finish_simple_command s

def intel_fdc_command_abort (s : intel_fdc_struct) : intel_fdc_struct :=
  let s :=
    if s.state = FdcState.write_sector_data ∨
        s.state = FdcState.format_write_id ∨
        s.state = FdcState.format_write_data then
      disc_drive_write_byte s s.p_current_drive 0xFF 0xFF
    else s
  state_6502_set_irq_level s false

def intel_fdc_break_reset (s : intel_fdc_struct) : intel_fdc_struct :=
  let s := intel_fdc_command_abort s
  let s := intel_fdc_set_state s FdcState.idle
  let s := intel_fdc_clear_callbacks s
  let s := intel_fdc_set_drive_out s 0
  intel_fdc_status_lower s (intel_fdc_get_status s)

def intel_fdc_power_on_reset (s : intel_fdc_struct) :
    Except Fault intel_fdc_struct :=
  let s := intel_fdc_break_reset s
  if s.parameter_callback ≠ ParameterCallback.accept_none then
    Except.error Fault.assertion
  else if s.index_pulse_callback ≠ IndexPulseCallback.none then
    Except.error Fault.assertion
  else if s.timer_state ≠ TimerState.none then
    Except.error Fault.assertion
  else if s.state ≠ FdcState.idle then
    Except.error Fault.assertion
  else if s.p_current_drive ≠ none then
    Except.error Fault.assertion
  else if s.drive_out ≠ 0 then
    Except.error Fault.assertion
  else
    Except.ok { s with
      regs := fun _ => 0,
      state_count := 0,
      state_is_index_pulse := false }

def intel_fdc_start_syncing_for_header (s : intel_fdc_struct) :
    intel_fdc_struct :=
  let s := { s with
    regs := set_reg s.regs k_intel_fdc_register_internal_header_pointer 0x0C }
  intel_fdc_set_state s FdcState.syncing_for_id

def intel_fdc_set_timer_ms (s : intel_fdc_struct) (timer_state : TimerState)
    (wait_ms : Nat) : intel_fdc_struct :=
  let s := if s.timer_running then timing_stop_timer s else s
  let s := { s with timer_state := timer_state }
  timing_start_timer_with_value s ((wait_ms * 2000) % 4294967296)

def intel_fdc_get_WRPROT (s : intel_fdc_struct) : Bool :=
  match s.p_current_drive with
  | none => false
  | some d => (get_drive s d).is_write_protect

def intel_fdc_get_TRK0 (s : intel_fdc_struct) : Bool :=
  match s.p_current_drive with
  | none => false
  | some d => decide ((get_drive s d).track = 0)

def intel_fdc_get_INDEX (s : intel_fdc_struct) : Bool :=
  match s.p_current_drive with
  | none => false
  | some d => (get_drive s d).is_index_pulse

def intel_fdc_current_disc_is_spinning (s : intel_fdc_struct) : Bool :=
  match s.p_current_drive with
  | none => false
  | some d => (get_drive s d).is_spinning

def intel_fdc_read_drive_in (s : intel_fdc_struct) : Nat :=
  let drive_in := 0x81
  if intel_fdc_current_disc_is_spinning s then
    let drive_in := if intel_fdc_get_TRK0 s then drive_in ||| 0x02 else drive_in
    let drive_in := if s.drive_out &&& 0x40 ≠ 0 then drive_in ||| 0x04 else drive_in
    let drive_in := if s.drive_out &&& 0x80 ≠ 0 then drive_in ||| 0x40 else drive_in
    let drive_in := if intel_fdc_get_WRPROT s then drive_in ||| 0x08 else drive_in
    let drive_in := if intel_fdc_get_INDEX s then drive_in ||| 0x10 else drive_in
    drive_in
  else
    drive_in

def intel_fdc_do_read_drive_status (s : intel_fdc_struct) :
    intel_fdc_struct × Nat :=
  let drive_in := intel_fdc_read_drive_in s
  let s := { s with
    regs := set_reg s.regs k_intel_fdc_register_internal_drive_in_copy drive_in }
  let s := { s with
    regs := set_reg s.regs k_intel_fdc_register_internal_drive_in_latched
      ((s.regs k_intel_fdc_register_internal_drive_in_latched ||| 0xBB) % 256) }
  let drive_in := drive_in &&& s.regs k_intel_fdc_register_internal_drive_in_latched
  let s := { s with
    regs := set_reg s.regs k_intel_fdc_register_internal_drive_in_latched drive_in }
  (s, drive_in)

def intel_fdc_check_drive_ready (s : intel_fdc_struct) :
    intel_fdc_struct × Bool :=
  let s := (intel_fdc_do_read_drive_status s).1
  let mask :=
    if s.drive_out &&& k_intel_fdc_drive_out_select_1 ≠ 0 then 0x40 else 0x04
  if s.regs k_intel_fdc_register_internal_drive_in_latched &&& mask = 0 then
    (intel_fdc_finish_command s k_intel_fdc_result_drive_not_ready, false)
  else
    (s, true)

def intel_fdc_post_seek_dispatch (s : intel_fdc_struct) : intel_fdc_struct :=
  let s := { s with timer_state := TimerState.none }
  let r := intel_fdc_check_drive_ready s
  let s := r.1
  if r.2 = false then
    s
  else
    let command := intel_fdc_get_internal_command s
    let s :=
      if command = k_intel_fdc_command_READ_ID then
        intel_fdc_set_state s FdcState.wait_no_index
      else if command = k_intel_fdc_command_FORMAT then
        let s := intel_fdc_setup_sector_size s
        intel_fdc_set_state s FdcState.wait_no_index
      else if command = k_intel_fdc_command_SEEK then
        intel_fdc_finish_command s k_intel_fdc_result_ok
      else
        let s := intel_fdc_setup_sector_size s
        let s := intel_fdc_start_index_pulse_timeout s
        intel_fdc_start_syncing_for_header s
    if intel_fdc_command_is_writing s = true ∧
        s.regs k_intel_fdc_register_internal_drive_in_latched &&& 0x08 ≠ 0 then
      intel_fdc_finish_command s k_intel_fdc_result_write_protected
    else
      s

def intel_fdc_do_load_head (s : intel_fdc_struct) (is_settle : Bool) :
    intel_fdc_struct :=
  let r : intel_fdc_struct × Nat :=
    if s.drive_out &&& k_intel_fdc_drive_out_load_head = 0 then
      let s := intel_fdc_drive_out_raise s k_intel_fdc_drive_out_load_head
      let post_seek_time :=
        s.regs k_intel_fdc_register_head_load_unload &&& 0x0F
      (s, post_seek_time * 4)
    else if is_settle = true then
      (s, s.regs k_intel_fdc_register_head_settle_time * 2)
    else
      (s, s.uninit_post_seek_time % 4294967296)
  let s := r.1
  let post_seek_time := r.2
  if post_seek_time > 0 then
    intel_fdc_set_timer_ms s TimerState.post_seek post_seek_time
  else
    intel_fdc_post_seek_dispatch s

def intel_fdc_do_seek_step (s : intel_fdc_struct) :
    Except Fault intel_fdc_struct :=
  match s.p_current_drive with
  | none => Except.error Fault.assertion
  | some d =>
    if (get_drive s d).track = 0 ∧
        s.regs k_intel_fdc_register_internal_seek_target_2 = 0 then
      Except.ok (intel_fdc_do_load_head s true)
    else if s.regs k_intel_fdc_register_internal_seek_count = 0 then
      Except.ok (intel_fdc_do_load_head s true)
    else
      let s := { s with
        regs := set_reg s.regs k_intel_fdc_register_internal_seek_count
          ((s.regs k_intel_fdc_register_internal_seek_count + 255) % 256) }
      let s :=
        if s.drive_out &&& k_intel_fdc_drive_out_direction ≠ 0 then
          disc_drive_seek_track s d 1
        else
          disc_drive_seek_track s d (-1)
      let step_rate := s.regs k_intel_fdc_register_head_step_rate
      if step_rate = 0 then
        Except.error Fault.bail
      else
        Except.ok (intel_fdc_set_timer_ms s TimerState.seek_step (step_rate * 2))

def intel_fdc_timer_fired (s : intel_fdc_struct) :
    Except Fault intel_fdc_struct :=
  let s := timing_stop_timer s
  let s := { s with
    regs := set_reg s.regs k_intel_fdc_register_internal_ms_count_hi 0 }
  let s := { s with
    regs := set_reg s.regs k_intel_fdc_register_internal_ms_count_lo 0 }
  match s.timer_state with
  | TimerState.seek_step => intel_fdc_do_seek_step s
  | TimerState.post_seek => Except.ok (intel_fdc_post_seek_dispatch s)
  | TimerState.none => Except.error Fault.assertion

def intel_fdc_read (s : intel_fdc_struct) (addr : Nat) :
    Except Fault (intel_fdc_struct × Nat) :=
  let a := addr &&& 0x07
  if a = k_intel_fdc_status then
    Except.ok (s, intel_fdc_get_external_status s)
  else if a = k_intel_fdc_result then
    let result := intel_fdc_get_result s
    let s := intel_fdc_status_lower s
      (k_intel_fdc_status_flag_result_ready ||| k_intel_fdc_status_flag_nmi)
    Except.ok (s, result)
  else if a = k_intel_fdc_data ∨ a = k_intel_fdc_data + 1 ∨
      a = k_intel_fdc_data + 2 ∨ a = k_intel_fdc_data + 3 then
    let s := intel_fdc_status_lower s
      (k_intel_fdc_status_flag_need_data ||| k_intel_fdc_status_flag_nmi)
    Except.ok (s, s.regs k_intel_fdc_register_internal_data)
  else if a = k_intel_fdc_unknown_read_2 then
    Except.ok (s, s.regs k_intel_fdc_register_internal_count_msb)
  else if a = k_intel_fdc_unknown_read_3 then
    Except.ok (s, s.regs k_intel_fdc_register_internal_count_lsb)
  else
    Except.error Fault.assertion

def intel_fdc_read_register (s : intel_fdc_struct) (reg : Nat) : Nat :=
  let reg := reg &&& 0x3F
  if reg < k_intel_num_registers then
    s.regs reg
  else
    let reg := reg &&& 0x07
    if reg = k_intel_fdc_register_drive_in &&& 0x07 then
      intel_fdc_read_drive_in s
    else if reg = k_intel_fdc_register_drive_out &&& 0x07 then
      s.drive_out
    else
      0

def intel_fdc_write_register (s : intel_fdc_struct) (reg val : Nat) :
    intel_fdc_struct :=
  let reg := reg &&& 0x3F
  if reg < k_intel_num_registers then
    { s with regs := set_reg s.regs reg val }
  else
    let reg := reg &&& 0x07
    if reg = k_intel_fdc_register_drive_out &&& 0x07 then
      intel_fdc_set_drive_out s val
    else
      s

/-- The index of the first of the three per-drive registers (bad track 1, bad
track 2, current track) of the selected drive: `p_track_regs` of
`intel_fdc_do_seek`. -/
def intel_fdc_do_seek_track_regs (s : intel_fdc_struct) : Nat :=
  if s.drive_out &&& k_intel_fdc_drive_out_select_1 ≠ 0 then
    k_intel_fdc_register_bad_track_1_drive_1
  else
    k_intel_fdc_register_bad_track_1_drive_0

/-- The seek target `new_track` of `intel_fdc_do_seek` after the bad-track
adjustment, as computed at the top of that function. -/
def intel_fdc_do_seek_new_track (s : intel_fdc_struct) : Nat :=
  let new_track := s.regs k_intel_fdc_register_internal_param_1
  let new_track :=
    (new_track + s.regs k_intel_fdc_register_internal_seek_retry_count) % 256
  let p_track_regs := intel_fdc_do_seek_track_regs s
  if new_track > 0 then
    let new_track :=
      if s.regs (p_track_regs + 0) ≤ new_track then (new_track + 1) % 256
      else new_track
    let new_track :=
      if s.regs (p_track_regs + 1) ≤ new_track then (new_track + 1) % 256
      else new_track
    new_track
  else
    new_track

def intel_fdc_do_seek (s : intel_fdc_struct) : Except Fault intel_fdc_struct :=
  let p_track_regs := intel_fdc_do_seek_track_regs s
  let new_track := intel_fdc_do_seek_new_track s
  let s := { s with
    regs := set_reg s.regs k_intel_fdc_register_internal_seek_target_1 new_track }
  let s := { s with
    regs := set_reg s.regs k_intel_fdc_register_internal_seek_target_2 new_track }
  let s :=
    if new_track ≥ 43 then
      { s with
        drive_out := (s.drive_out ||| k_intel_fdc_drive_out_low_head_current) % 256 }
    else
      { s with
        drive_out := and_not8 s.drive_out k_intel_fdc_drive_out_low_head_current }
  let curr_track := s.regs (p_track_regs + 2)
  let curr_track := if new_track = 0 then 255 else curr_track
  if new_track = curr_track then
    Except.ok (intel_fdc_do_load_head s false)
  else
    let s :=
      if new_track > curr_track then
        let s := { s with
          regs := set_reg s.regs k_intel_fdc_register_internal_seek_count
            ((new_track - curr_track) % 256) }
        { s with
          drive_out := (s.drive_out ||| k_intel_fdc_drive_out_direction) % 256 }
      else if curr_track > new_track then
        let s := { s with
          regs := set_reg s.regs k_intel_fdc_register_internal_seek_count
            ((curr_track - new_track) % 256) }
        { s with
          drive_out := and_not8 s.drive_out k_intel_fdc_drive_out_direction }
      else
        s
    let s := { s with
      drive_out := and_not8 s.drive_out k_intel_fdc_drive_out_step }
    let s := { s with
      regs := set_reg s.regs (p_track_regs + 2)
        (s.regs k_intel_fdc_register_internal_seek_target_2) }
    let s :=
      if s.regs k_intel_fdc_register_mode &&&
          k_intel_fdc_mode_single_actuator ≠ 0 then
        let s := { s with
          regs := set_reg s.regs k_intel_fdc_register_track_drive_0
            (s.regs (p_track_regs + 2)) }
        { s with
          regs := set_reg s.regs k_intel_fdc_register_track_drive_1
            (s.regs (p_track_regs + 2)) }
      else
        s
    intel_fdc_do_seek_step s

/-- Modelled from the spec: the data mark patterns and the mark clock pattern
of the absent `ibm_disc_format.h` (section 4.1 of the specification). -/
@[simp] abbrev k_ibm_disc_mark_clock_pattern : Nat := 0xC7

/-- Modelled from the spec: the ID mark of the absent `ibm_disc_format.h`. -/
@[simp] abbrev k_ibm_disc_id_mark_data_pattern : Nat := 0xFE

/-- Modelled from the spec: the data mark of the absent
`ibm_disc_format.h`. -/
@[simp] abbrev k_ibm_disc_data_mark_data_pattern : Nat := 0xFB

/-- Modelled from the spec: the deleted-data mark of the absent
`ibm_disc_format.h`. -/
@[simp] abbrev k_ibm_disc_deleted_data_mark_data_pattern : Nat := 0xF8

def intel_fdc_do_command_dispatch (s : intel_fdc_struct) :
    Except Fault intel_fdc_struct :=
  let command := intel_fdc_get_internal_command s
  if command = k_intel_fdc_command_UNUSED_9 ∨
      command = k_intel_fdc_command_UNUSED_12 then
    Except.error Fault.bail
  else if command = k_intel_fdc_command_READ_DRIVE_STATUS then
    let r := intel_fdc_do_read_drive_status s
    let temp_u8 := r.2
    let s := intel_fdc_set_result r.1 temp_u8
    let s := { s with
      regs := set_reg s.regs k_intel_fdc_register_internal_drive_in_latched
        (s.regs k_intel_fdc_register_internal_drive_in_copy) }
    Except.ok (intel_fdc_finish_simple_command s)
  else if command = k_intel_fdc_command_SPECIFY then
    let s := { s with
      regs := set_reg s.regs k_intel_fdc_register_internal_pointer
        (s.regs k_intel_fdc_register_internal_param_1) }
    let s := { s with
      regs := set_reg s.regs k_intel_fdc_register_internal_param_count 3 }
    Except.ok { s with parameter_callback := ParameterCallback.accept_specify }
  else if command = k_intel_fdc_command_WRITE_SPECIAL_REGISTER then
    let s := intel_fdc_write_register s
      (s.regs k_intel_fdc_register_internal_param_1)
      (s.regs k_intel_fdc_register_internal_param_2)
    Except.ok (intel_fdc_lower_busy_and_log s)
  else if command = k_intel_fdc_command_READ_SPECIAL_REGISTER then
    let temp_u8 := intel_fdc_read_register s
      (s.regs k_intel_fdc_register_internal_param_1)
    let s := intel_fdc_set_result s temp_u8
    Except.ok (intel_fdc_finish_simple_command s)
  else if command = k_intel_fdc_command_READ_ID then
    if s.regs k_intel_fdc_register_internal_param_2 = 0 then
      intel_fdc_do_seek s
    else
      Except.ok (intel_fdc_start_syncing_for_header s)
  else
    let s :=
      if command = k_intel_fdc_command_WRITE_DATA then
        { s with
          regs := set_reg s.regs k_intel_fdc_register_internal_param_data_marker
            k_ibm_disc_data_mark_data_pattern }
      else if command = k_intel_fdc_command_WRITE_DELETED_DATA then
        { s with
          regs := set_reg s.regs k_intel_fdc_register_internal_param_data_marker
            k_ibm_disc_deleted_data_mark_data_pattern }
      else
        s
    intel_fdc_do_seek s

def intel_fdc_start_command (s : intel_fdc_struct) :
    Except Fault intel_fdc_struct :=
  let command_reg := s.regs k_intel_fdc_register_internal_command
  let s := (intel_fdc_do_read_drive_status s).1
  let s := { s with parameter_callback := ParameterCallback.accept_none }
  let select_bits := command_reg &&& 0xC0
  let s :=
    if select_bits ≠ s.drive_out &&& 0xC0 then
      let select_bits :=
        select_bits ||| (s.drive_out &&& k_intel_fdc_drive_out_side)
      intel_fdc_set_drive_out s select_bits
    else
      s
  let command_reg := command_reg &&& 0x3C
  let s := { s with
    regs := set_reg s.regs k_intel_fdc_register_internal_command command_reg }
  intel_fdc_do_command_dispatch s

def intel_fdc_command_written (s : intel_fdc_struct) (val : Nat) :
    Except Fault intel_fdc_struct :=
  let s := { s with
    regs := set_reg s.regs k_intel_fdc_register_internal_command val }
  let s := intel_fdc_status_raise s k_intel_fdc_status_flag_busy
  let s := intel_fdc_status_lower s k_intel_fdc_status_flag_command_full
  let s := intel_fdc_set_result s 0
  let s := { s with
    regs := set_reg s.regs k_intel_fdc_register_internal_param_3 1 }
  let s := { s with
    regs := set_reg s.regs k_intel_fdc_register_internal_param_4 1 }
  let num_params :=
    if s.regs k_intel_fdc_register_internal_command &&& 0x18 ≠ 0 then
      s.regs k_intel_fdc_register_internal_command &&& 0x03
    else
      5
  let s := { s with
    regs := set_reg s.regs k_intel_fdc_register_internal_param_count num_params }
  if num_params > 0 then
    let s := { s with
      regs := set_reg s.regs k_intel_fdc_register_internal_pointer 7 }
    Except.ok { s with parameter_callback := ParameterCallback.accept_command }
  else
    intel_fdc_start_command s

def intel_fdc_param_written (s : intel_fdc_struct) (val : Nat) :
    Except Fault intel_fdc_struct :=
  let s := { s with
    regs := set_reg s.regs k_intel_fdc_register_internal_parameter val }
  let s := intel_fdc_status_lower s k_intel_fdc_status_flag_result_ready
  match s.parameter_callback with
  | ParameterCallback.accept_none => Except.ok s
  | ParameterCallback.accept_command =>
    let s := intel_fdc_write_register s
      (s.regs k_intel_fdc_register_internal_pointer)
      (s.regs k_intel_fdc_register_internal_parameter)
    let s := { s with
      regs := set_reg s.regs k_intel_fdc_register_internal_pointer
        ((s.regs k_intel_fdc_register_internal_pointer + 255) % 256) }
    let s := { s with
      regs := set_reg s.regs k_intel_fdc_register_internal_param_count
        ((s.regs k_intel_fdc_register_internal_param_count + 255) % 256) }
    if s.regs k_intel_fdc_register_internal_param_count = 0 then
      intel_fdc_start_command s
    else
      Except.ok s
  | ParameterCallback.accept_specify =>
    let s := intel_fdc_write_register s
      (s.regs k_intel_fdc_register_internal_pointer)
      (s.regs k_intel_fdc_register_internal_parameter)
    let s := { s with
      regs := set_reg s.regs k_intel_fdc_register_internal_pointer
        ((s.regs k_intel_fdc_register_internal_pointer + 1) % 256) }
    let s := { s with
      regs := set_reg s.regs k_intel_fdc_register_internal_param_count
        ((s.regs k_intel_fdc_register_internal_param_count + 255) % 256) }
    if s.regs k_intel_fdc_register_internal_param_count = 0 then
      Except.ok (intel_fdc_finish_simple_command s)
    else
      Except.ok s

def intel_fdc_write (s : intel_fdc_struct) (addr val : Nat) :
    Except Fault intel_fdc_struct :=
  let a := addr &&& 0x07
  if a = k_intel_fdc_command then
    intel_fdc_command_written s val
  else if a = k_intel_fdc_parameter then
    intel_fdc_param_written s val
  else if a = k_intel_fdc_data ∨ a = k_intel_fdc_data + 1 ∨
      a = k_intel_fdc_data + 2 ∨ a = k_intel_fdc_data + 3 then
    let s := intel_fdc_status_lower s
      (k_intel_fdc_status_flag_need_data ||| k_intel_fdc_status_flag_nmi)
    Except.ok { s with
      regs := set_reg s.regs k_intel_fdc_register_internal_data val }
  else if a = k_intel_fdc_reset then
    if ¬ (val = 0 ∨ val = 1) then
      Except.error Fault.assertion
    else if val = 1 then
      Except.ok (intel_fdc_break_reset s)
    else
      Except.ok s
  else if a = 3 then
    Except.ok s
  else
    Except.error Fault.assertion

def intel_fdc_check_data_loss_ok (s : intel_fdc_struct) :
    intel_fdc_struct × Bool :=
  let ok := true
  let command := intel_fdc_get_internal_command s
  let ok :=
    if command = k_intel_fdc_command_SCAN_DATA ∨
        command = k_intel_fdc_command_SCAN_DATA_AND_DELETED then false
    else ok
  let ok :=
    if intel_fdc_get_status s &&& k_intel_fdc_status_flag_need_data ≠ 0 then
      false
    else ok
  if ok = true then
    (s, true)
  else
    let s := intel_fdc_command_abort s
    let s := intel_fdc_finish_command s k_intel_fdc_result_late_dma
    (s, false)

def intel_fdc_provide_data_byte (s : intel_fdc_struct) (byte : Nat) :
    intel_fdc_struct × Bool :=
  let r := intel_fdc_check_data_loss_ok s
  if r.2 = false then
    (r.1, false)
  else
    let s := r.1
    let s := { s with
      regs := set_reg s.regs k_intel_fdc_register_internal_data byte }
    let s := intel_fdc_status_raise s
      (k_intel_fdc_status_flag_nmi ||| k_intel_fdc_status_flag_need_data)
    (s, true)

def intel_fdc_consume_data_byte (s : intel_fdc_struct) :
    intel_fdc_struct × Bool :=
  let data := s.regs k_intel_fdc_register_internal_data
  let r := intel_fdc_check_data_loss_ok s
  if r.2 = false then
    (r.1, false)
  else
    let s := r.1
    let s := disc_drive_write_byte s s.p_current_drive data 0xFF
    (s, true)

def intel_fdc_check_crc (s : intel_fdc_struct) (error : Nat) :
    intel_fdc_struct × Bool :=
  if s.crc = s.on_disc_crc then
    (s, true)
  else
    (intel_fdc_finish_command s error, false)

def intel_fdc_check_completion (s : intel_fdc_struct) :
    Except Fault intel_fdc_struct :=
  let r := intel_fdc_check_drive_ready s
  if r.2 = false then
    Except.ok r.1
  else
    let s := r.1
    let s := intel_fdc_drive_out_lower s k_intel_fdc_drive_out_write_enable
    let s := intel_fdc_clear_callbacks s
    let s := { s with
      regs := set_reg s.regs k_intel_fdc_register_internal_param_3
        ((s.regs k_intel_fdc_register_internal_param_3 + 255) % 256) }
    if s.regs k_intel_fdc_register_internal_param_3 &&& 0x1F = 0 then
      Except.ok (intel_fdc_finish_command s k_intel_fdc_result_ok)
    else
      let s := { s with
        regs := set_reg s.regs k_intel_fdc_register_internal_param_2
          ((s.regs k_intel_fdc_register_internal_param_2 +
            (s.regs k_intel_fdc_register_internal_param_4 &&& 0x3F)) % 256) }
      intel_fdc_do_command_dispatch s

/-- Modelled from the spec: `ibm_disc_format_crc_init` of the absent
`ibm_disc_format.c`; the CRC-16 starts at 0xFFFF. -/
def ibm_disc_format_crc_init : Nat := 0xFFFF

/-- One shift of the CRC-16 register with polynomial 0x1021, no reflection. -/
def ibm_disc_format_crc_shift (crc : Nat) : Nat :=
  if crc &&& 0x8000 ≠ 0 then ((crc <<< 1) ^^^ 0x1021) % 65536
  else (crc <<< 1) % 65536

/-- Modelled from the spec: `ibm_disc_format_crc_add_byte` of the absent
`ibm_disc_format.c`; CRC-16 with polynomial 0x1021, no reflection and no
final XOR, folded most significant bit first. -/
def ibm_disc_format_crc_add_byte (crc byte : Nat) : Nat :=
  Nat.iterate ibm_disc_format_crc_shift 8 ((crc ^^^ (byte <<< 8)) % 65536)

def intel_fdc_byte_callback_reading (s : intel_fdc_struct)
    (data_byte clocks_byte : Nat) : Except Fault intel_fdc_struct :=
  let command := intel_fdc_get_internal_command s
  match s.state with
  | FdcState.skip_gap_2 =>
    let s := { s with
      regs := set_reg s.regs k_intel_fdc_register_internal_gap2_skip
        ((s.regs k_intel_fdc_register_internal_gap2_skip + 255) % 256) }
    if s.regs k_intel_fdc_register_internal_gap2_skip ≠ 0 then
      Except.ok s
    else if intel_fdc_command_is_writing s = true then
      Except.ok (intel_fdc_set_state s FdcState.write_gap_2)
    else
      Except.ok (intel_fdc_set_state s FdcState.syncing_for_data)
  | FdcState.check_id_marker =>
    if clocks_byte = k_ibm_disc_mark_clock_pattern ∧
        data_byte = k_ibm_disc_id_mark_data_pattern then
      let s := { s with crc := ibm_disc_format_crc_init }
      let s := { s with
        crc := ibm_disc_format_crc_add_byte s.crc
          k_ibm_disc_id_mark_data_pattern }
      Except.ok (intel_fdc_set_state s FdcState.in_id)
    else
      Except.ok (intel_fdc_start_syncing_for_header s)
  | FdcState.in_id =>
    let s := { s with crc := ibm_disc_format_crc_add_byte s.crc data_byte }
    let r :=
      if command = k_intel_fdc_command_READ_ID then
        intel_fdc_provide_data_byte s data_byte
      else
        (s, true)
    if r.2 = false then
      Except.ok r.1
    else
      let s := r.1
      let s := intel_fdc_write_register s
        (s.regs k_intel_fdc_register_internal_header_pointer) data_byte
      let s := { s with
        regs := set_reg s.regs k_intel_fdc_register_internal_header_pointer
          ((s.regs k_intel_fdc_register_internal_header_pointer + 255) % 256) }
      if s.regs k_intel_fdc_register_internal_header_pointer &&& 0x07 = 0 then
        let s := { s with on_disc_crc := 0 }
        Except.ok (intel_fdc_set_state s FdcState.in_id_crc)
      else
        Except.ok s
  | FdcState.in_id_crc =>
    let s := { s with on_disc_crc := (s.on_disc_crc <<< 8) % 65536 }
    let s := { s with on_disc_crc := (s.on_disc_crc ||| data_byte) % 65536 }
    let s := { s with state_count := (s.state_count + 1) % 4294967296 }
    if s.state_count = 2 then
      let r := intel_fdc_check_crc s k_intel_fdc_result_id_crc_error
      if r.2 = false then
        Except.ok r.1
      else
        let s := r.1
        if s.regs k_intel_fdc_register_internal_command = 0x18 then
          intel_fdc_check_completion s
        else if s.regs k_intel_fdc_register_internal_id_track ≠
            s.regs k_intel_fdc_register_internal_param_1 then
          let s := { s with
            regs := set_reg s.regs k_intel_fdc_register_internal_seek_retry_count
              ((s.regs k_intel_fdc_register_internal_seek_retry_count + 1) % 256) }
          if s.regs k_intel_fdc_register_internal_seek_retry_count = 3 then
            Except.ok
              (intel_fdc_finish_command s k_intel_fdc_result_sector_not_found)
          else
            intel_fdc_do_seek s
        else if s.regs k_intel_fdc_register_internal_id_sector =
            s.regs k_intel_fdc_register_internal_param_2 then
          let s := { s with
            regs := set_reg s.regs k_intel_fdc_register_internal_gap2_skip 11 }
          Except.ok (intel_fdc_set_state s FdcState.skip_gap_2)
        else
          Except.ok (intel_fdc_set_state s FdcState.syncing_for_id_wait)
    else
      Except.ok s
  | FdcState.check_data_marker =>
    if clocks_byte = k_ibm_disc_mark_clock_pattern ∧
        (data_byte = k_ibm_disc_data_mark_data_pattern ∨
          data_byte = k_ibm_disc_deleted_data_mark_data_pattern) then
      let r : intel_fdc_struct × FdcState :=
        if data_byte = k_ibm_disc_deleted_data_mark_data_pattern then
          (intel_fdc_set_result s k_intel_fdc_result_flag_deleted_data,
            FdcState.in_deleted_data)
        else
          (s, FdcState.in_data)
      let s := r.1
      let new_state := r.2
      let s := { s with crc := ibm_disc_format_crc_init }
      let s := { s with crc := ibm_disc_format_crc_add_byte s.crc data_byte }
      Except.ok (intel_fdc_set_state s new_state)
    else
      Except.ok (intel_fdc_finish_command s k_intel_fdc_result_clock_error)
  | FdcState.in_data =>
    let d := intel_fdc_decrement_counter s
    let s := d.1
    let is_done := d.2
    let s := { s with crc := ibm_disc_format_crc_add_byte s.crc data_byte }
    let r :=
      if command ≠ k_intel_fdc_command_VERIFY then
        intel_fdc_provide_data_byte s data_byte
      else
        (s, true)
    if r.2 = false then
      Except.ok r.1
    else
      let s := r.1
      if is_done = true then
        let s := { s with on_disc_crc := 0 }
        Except.ok (intel_fdc_set_state s FdcState.in_data_crc)
      else
        Except.ok s
  | FdcState.in_deleted_data =>
    let d := intel_fdc_decrement_counter s
    let s := d.1
    let is_done := d.2
    let s := { s with crc := ibm_disc_format_crc_add_byte s.crc data_byte }
    let r :=
      if command = k_intel_fdc_command_READ_DATA_AND_DELETED then
        intel_fdc_provide_data_byte s data_byte
      else
        (s, true)
    if r.2 = false then
      Except.ok r.1
    else
      let s := r.1
      if is_done = true then
        let s := { s with on_disc_crc := 0 }
        Except.ok (intel_fdc_set_state s FdcState.in_data_crc)
      else
        Except.ok s
  | FdcState.in_data_crc =>
    let s := { s with on_disc_crc := (s.on_disc_crc <<< 8) % 65536 }
    let s := { s with on_disc_crc := (s.on_disc_crc ||| data_byte) % 65536 }
    let s := { s with state_count := (s.state_count + 1) % 4294967296 }
    if s.state_count = 2 then
      let r := intel_fdc_check_crc s k_intel_fdc_result_data_crc_error
      if r.2 = false then
        Except.ok r.1
      else
        intel_fdc_check_completion r.1
    else
      Except.ok s
  | _ => Except.error Fault.assertion

def intel_fdc_byte_callback_writing (s : intel_fdc_struct) :
    Except Fault intel_fdc_struct :=
  let p_current_drive := s.p_current_drive
  match s.state with
  | FdcState.write_gap_2 =>
    let s := disc_drive_write_byte s p_current_drive 0x00 0xFF
    let s := { s with state_count := (s.state_count + 1) % 4294967296 }
    if s.state_count = 6 then
      Except.ok (intel_fdc_set_state s FdcState.write_sector_data)
    else
      Except.ok s
  | FdcState.write_sector_data =>
    let r : intel_fdc_struct × Bool :=
      if s.state_count = 0 then
        let mark_byte := s.regs k_intel_fdc_register_internal_param_data_marker
        let s := disc_drive_write_byte s p_current_drive mark_byte
          k_ibm_disc_mark_clock_pattern
        let s := { s with crc := ibm_disc_format_crc_init }
        ({ s with crc := ibm_disc_format_crc_add_byte s.crc mark_byte }, true)
      else if s.state_count < intel_fdc_get_sector_size s + 1 then
        let data := s.regs k_intel_fdc_register_internal_data
        let c := intel_fdc_consume_data_byte s
        if c.2 = false then
          (c.1, false)
        else
          let s := c.1
          ({ s with crc := ibm_disc_format_crc_add_byte s.crc data }, true)
      else if s.state_count = intel_fdc_get_sector_size s + 1 then
        (disc_drive_write_byte s p_current_drive ((s.crc >>> 8) % 256) 0xFF,
          true)
      else if s.state_count = intel_fdc_get_sector_size s + 2 then
        (disc_drive_write_byte s p_current_drive (s.crc &&& 0xFF) 0xFF, true)
      else
        (s, true)
    if r.2 = false then
      Except.ok r.1
    else
      let s := r.1
      let s := { s with state_count := (s.state_count + 1) % 4294967296 }
      if s.state_count = intel_fdc_get_sector_size s + 3 then
        intel_fdc_check_completion s
      else if s.state_count < intel_fdc_get_sector_size s + 1 then
        Except.ok (intel_fdc_status_raise s
          (k_intel_fdc_status_flag_nmi ||| k_intel_fdc_status_flag_need_data))
      else
        Except.ok s
  | FdcState.format_gap_1 =>
    let s :=
      if s.state_count < s.regs k_intel_fdc_register_internal_param_5 then
        disc_drive_write_byte s p_current_drive 0xFF 0xFF
      else
        disc_drive_write_byte s p_current_drive 0x00 0xFF
    let s := { s with state_count := (s.state_count + 1) % 4294967296 }
    if s.state_count = s.regs k_intel_fdc_register_internal_param_5 + 6 then
      Except.ok (intel_fdc_set_state s FdcState.format_write_id)
    else
      Except.ok s
  | FdcState.format_write_id =>
    let r : intel_fdc_struct × Bool :=
      if s.state_count = 0 then
        let s := disc_drive_write_byte s p_current_drive
          k_ibm_disc_id_mark_data_pattern k_ibm_disc_mark_clock_pattern
        let s := { s with crc := ibm_disc_format_crc_init }
        ({ s with
          crc := ibm_disc_format_crc_add_byte s.crc
            k_ibm_disc_id_mark_data_pattern }, true)
      else if s.state_count < 5 then
        let data := s.regs k_intel_fdc_register_internal_data
        let c := intel_fdc_consume_data_byte s
        if c.2 = false then
          (c.1, false)
        else
          let s := c.1
          ({ s with crc := ibm_disc_format_crc_add_byte s.crc data }, true)
      else if s.state_count = 5 then
        (disc_drive_write_byte s p_current_drive ((s.crc >>> 8) % 256) 0xFF,
          true)
      else if s.state_count = 6 then
        (disc_drive_write_byte s p_current_drive (s.crc &&& 0xFF) 0xFF, true)
      else if s.state_count < 18 then
        (disc_drive_write_byte s p_current_drive 0xFF 0xFF, true)
      else
        (disc_drive_write_byte s p_current_drive 0x00 0xFF, true)
    if r.2 = false then
      Except.ok r.1
    else
      let s := r.1
      let s := { s with state_count := (s.state_count + 1) % 4294967296 }
      if s.state_count < 5 then
        Except.ok (intel_fdc_status_raise s
          (k_intel_fdc_status_flag_nmi ||| k_intel_fdc_status_flag_need_data))
      else if s.state_count = 7 + 11 + 6 then
        Except.ok (intel_fdc_set_state s FdcState.format_write_data)
      else
        Except.ok s
  | FdcState.format_write_data =>
    let r : Except Fault intel_fdc_struct :=
      if s.state_count = 0 then
        let byte := k_ibm_disc_data_mark_data_pattern
        let s := disc_drive_write_byte s p_current_drive byte
          k_ibm_disc_mark_clock_pattern
        let s := { s with crc := ibm_disc_format_crc_init }
        Except.ok { s with crc := ibm_disc_format_crc_add_byte s.crc byte }
      else if s.state_count < intel_fdc_get_sector_size s + 1 then
        let byte := 0xE5
        let s := disc_drive_write_byte s p_current_drive byte 0xFF
        Except.ok { s with crc := ibm_disc_format_crc_add_byte s.crc byte }
      else if s.state_count = intel_fdc_get_sector_size s + 1 then
        if intel_fdc_get_sector_size s = 256 ∧ s.crc ≠ 0xA40C then
          Except.error Fault.assertion
        else
          Except.ok
            (disc_drive_write_byte s p_current_drive ((s.crc >>> 8) % 256) 0xFF)
      else
        Except.ok (disc_drive_write_byte s p_current_drive (s.crc &&& 0xFF) 0xFF)
    match r with
    | Except.error e => Except.error e
    | Except.ok s =>
      let s := { s with state_count := (s.state_count + 1) % 4294967296 }
      if s.state_count = intel_fdc_get_sector_size s + 3 then
        let s := { s with
          regs := set_reg s.regs k_intel_fdc_register_internal_param_3
            ((s.regs k_intel_fdc_register_internal_param_3 + 255) % 256) }
        if s.regs k_intel_fdc_register_internal_param_3 &&& 0x1F = 0 then
          Except.ok (intel_fdc_set_state s FdcState.format_gap_4)
        else
          Except.ok (intel_fdc_set_state s FdcState.format_gap_3)
      else
        Except.ok s
  | FdcState.format_gap_3 =>
    let s :=
      if s.state_count < s.regs k_intel_fdc_register_internal_param_2 then
        disc_drive_write_byte s p_current_drive 0xFF 0xFF
      else
        disc_drive_write_byte s p_current_drive 0x00 0xFF
    let s := { s with state_count := (s.state_count + 1) % 4294967296 }
    if s.state_count = s.regs k_intel_fdc_register_internal_param_2 + 6 then
      Except.ok (intel_fdc_set_state s FdcState.format_write_id)
    else
      Except.ok s
  | FdcState.format_gap_4 =>
    if s.state_is_index_pulse = true then
      Except.ok (intel_fdc_finish_command s k_intel_fdc_result_ok)
    else
      Except.ok (disc_drive_write_byte s p_current_drive 0xFF 0xFF)
  | _ => Except.error Fault.assertion

def intel_fdc_shift_data_bit (s : intel_fdc_struct) (bit : Nat) :
    Except Fault intel_fdc_struct :=
  match s.state with
  | FdcState.syncing_for_id_wait =>
    let s := { s with state_count := (s.state_count + 1) % 4294967296 }
    if s.state_count = 4 * 8 * 2 then
      Except.ok (intel_fdc_start_syncing_for_header s)
    else
      Except.ok s
  | FdcState.syncing_for_id | FdcState.syncing_for_data =>
    let state_count := s.state_count
    if bit = (if state_count &&& 1 = 0 then 1 else 0) then
      Except.ok { s with state_count := (s.state_count + 1) % 4294967296 }
    else if s.state_count ≥ 32 ∧ state_count &&& 1 ≠ 0 then
      if bit ≠ 1 then
        Except.error Fault.assertion
      else
        let s :=
          if s.state = FdcState.syncing_for_id then
            intel_fdc_set_state s FdcState.check_id_marker
          else
            intel_fdc_set_state s FdcState.check_data_marker
        Except.ok { s with shift_register := 3, num_shifts := 2 }
    else
      Except.ok { s with state_count := 0 }
  | FdcState.check_id_marker | FdcState.in_id | FdcState.in_id_crc
  | FdcState.check_data_marker | FdcState.in_data | FdcState.in_deleted_data
  | FdcState.in_data_crc | FdcState.skip_gap_2 =>
    let shift_register := s.shift_register
    let shift_register := (shift_register <<< 1) % 4294967296
    let shift_register := shift_register ||| bit
    let s := { s with shift_register := shift_register }
    let s := { s with num_shifts := (s.num_shifts + 1) % 4294967296 }
    if s.num_shifts ≠ 16 then
      Except.ok s
    else
      let clocks_byte := 0
      let data_byte := 0
      let clocks_byte :=
        if shift_register &&& 0x8000 ≠ 0 then clocks_byte ||| 0x80 else clocks_byte
      let clocks_byte :=
        if shift_register &&& 0x2000 ≠ 0 then clocks_byte ||| 0x40 else clocks_byte
      let clocks_byte :=
        if shift_register &&& 0x0800 ≠ 0 then clocks_byte ||| 0x20 else clocks_byte
      let clocks_byte :=
        if shift_register &&& 0x0200 ≠ 0 then clocks_byte ||| 0x10 else clocks_byte
      let clocks_byte :=
        if shift_register &&& 0x0080 ≠ 0 then clocks_byte ||| 0x08 else clocks_byte
      let clocks_byte :=
        if shift_register &&& 0x0020 ≠ 0 then clocks_byte ||| 0x04 else clocks_byte
      let clocks_byte :=
        if shift_register &&& 0x0008 ≠ 0 then clocks_byte ||| 0x02 else clocks_byte
      let clocks_byte :=
        if shift_register &&& 0x0002 ≠ 0 then clocks_byte ||| 0x01 else clocks_byte
      let data_byte :=
        if shift_register &&& 0x4000 ≠ 0 then data_byte ||| 0x80 else data_byte
      let data_byte :=
        if shift_register &&& 0x1000 ≠ 0 then data_byte ||| 0x40 else data_byte
      let data_byte :=
        if shift_register &&& 0x0400 ≠ 0 then data_byte ||| 0x20 else data_byte
      let data_byte :=
        if shift_register &&& 0x0100 ≠ 0 then data_byte ||| 0x10 else data_byte
      let data_byte :=
        if shift_register &&& 0x0040 ≠ 0 then data_byte ||| 0x08 else data_byte
      let data_byte :=
        if shift_register &&& 0x0010 ≠ 0 then data_byte ||| 0x04 else data_byte
      let data_byte :=
        if shift_register &&& 0x0004 ≠ 0 then data_byte ||| 0x02 else data_byte
      let data_byte :=
        if shift_register &&& 0x0001 ≠ 0 then data_byte ||| 0x01 else data_byte
      match intel_fdc_byte_callback_reading s data_byte clocks_byte with
      | Except.error e => Except.error e
      | Except.ok s => Except.ok { s with shift_register := 0, num_shifts := 0 }
  | FdcState.idle | FdcState.write_gap_2 => Except.ok s
  | _ => Except.error Fault.assertion

def intel_fdc_check_index_pulse (s : intel_fdc_struct) : intel_fdc_struct :=
  let was_index_pulse := s.state_is_index_pulse
  let s := { s with state_is_index_pulse := intel_fdc_get_INDEX s }
  if s.state_is_index_pulse = false ∨ was_index_pulse = true then
    s
  else
    match s.index_pulse_callback with
    | IndexPulseCallback.none => s
    | IndexPulseCallback.timeout =>
      let s := { s with
        regs := set_reg s.regs k_intel_fdc_register_internal_index_pulse_count
          ((s.regs k_intel_fdc_register_internal_index_pulse_count + 255) % 256) }
      if s.regs k_intel_fdc_register_internal_index_pulse_count = 0 then
        intel_fdc_finish_command s k_intel_fdc_result_sector_not_found
      else
        s
    | IndexPulseCallback.spindown =>
      let s := { s with
        regs := set_reg s.regs k_intel_fdc_register_internal_index_pulse_count
          ((s.regs k_intel_fdc_register_internal_index_pulse_count + 255) % 256) }
      if s.regs k_intel_fdc_register_internal_index_pulse_count = 0 then
        let s := intel_fdc_spindown s
        { s with index_pulse_callback := IndexPulseCallback.none }
      else
        s

/-- The body of the loop of `intel_fdc_byte_callback` that turns one disc byte
into sixteen bits, run for the `n` iterations that remain. -/
def intel_fdc_byte_callback_bits (n : Nat) (s : intel_fdc_struct)
    (data_byte clocks_byte : Nat) : Except Fault intel_fdc_struct :=
  match n with
  | 0 => Except.ok s
  | n + 1 =>
    let bit := if clocks_byte &&& 0x80 ≠ 0 then 1 else 0
    match intel_fdc_shift_data_bit s bit with
    | Except.error e => Except.error e
    | Except.ok s =>
      let bit := if data_byte &&& 0x80 ≠ 0 then 1 else 0
      match intel_fdc_shift_data_bit s bit with
      | Except.error e => Except.error e
      | Except.ok s =>
        let clocks_byte := (clocks_byte <<< 1) % 256
        let data_byte := (data_byte <<< 1) % 256
        intel_fdc_byte_callback_bits n s data_byte clocks_byte

def intel_fdc_byte_callback (s : intel_fdc_struct) (data_byte clocks_byte : Nat) :
    Except Fault intel_fdc_struct :=
  let p_current_drive := s.p_current_drive
  let command := intel_fdc_get_internal_command s
  match p_current_drive with
  | none => Except.error Fault.assertion
  | some d =>
    let s := intel_fdc_check_index_pulse s
    match s.state with
    | FdcState.idle =>
      if s.drive_out &&& k_intel_fdc_drive_out_write_enable ≠ 0 ∧
          (get_drive s d).is_write_protect = false then
        Except.ok (disc_drive_write_byte s p_current_drive 0x00 0x00)
      else
        Except.ok s
    | FdcState.wait_no_index =>
      if s.state_is_index_pulse = false then
        Except.ok (intel_fdc_set_state s FdcState.wait_index)
      else
        Except.ok s
    | FdcState.wait_index =>
      if s.state_is_index_pulse = false then
        Except.ok s
      else if command = k_intel_fdc_command_READ_ID then
        let s := intel_fdc_start_index_pulse_timeout s
        Except.ok (intel_fdc_start_syncing_for_header s)
      else if command ≠ k_intel_fdc_command_FORMAT then
        Except.error Fault.assertion
      else if s.regs k_intel_fdc_register_internal_param_4 ≠ 0 then
        Except.error Fault.bail
      else
        let s := intel_fdc_set_state s FdcState.format_gap_1
        intel_fdc_byte_callback_writing s
    | FdcState.syncing_for_id_wait | FdcState.syncing_for_id
    | FdcState.check_id_marker | FdcState.in_id | FdcState.in_id_crc
    | FdcState.skip_gap_2 | FdcState.syncing_for_data
    | FdcState.check_data_marker | FdcState.in_data
    | FdcState.in_deleted_data | FdcState.in_data_crc =>
      intel_fdc_byte_callback_bits 8 s data_byte clocks_byte
    | FdcState.write_gap_2 | FdcState.write_sector_data
    | FdcState.format_gap_1 | FdcState.format_write_id
    | FdcState.format_write_data | FdcState.format_gap_3
    | FdcState.format_gap_4 =>
      intel_fdc_byte_callback_writing s
    | FdcState.null => Except.error Fault.assertion

/-! ## Concrete controller states -/

/-- A drive at rest on track 0 holding a writable disc. -/
def disc_drive_at_rest : disc_drive_struct :=
  { is_spinning := false,
    track := 0,
    is_write_protect := false,
    is_index_pulse := false,
    is_side_upper := false }

/-- The controller after `intel_fdc_create`, `intel_fdc_set_drives` and
`intel_fdc_power_on_reset`: all registers zero, idle, no drive selected. -/
def intel_fdc_powered_on : intel_fdc_struct :=
  { nmi_level := false,
    timer_running := false,
    timer_value := 0,
    drive_0 := disc_drive_at_rest,
    drive_1 := disc_drive_at_rest,
    drive_writes := [],
    uninit_post_seek_time := 0,
    p_drive_0 := some DriveId.drive_0,
    p_drive_1 := some DriveId.drive_1,
    p_current_drive := none,
    parameter_callback := ParameterCallback.accept_none,
    index_pulse_callback := IndexPulseCallback.none,
    timer_state := TimerState.none,
    regs := fun _ => 0,
    drive_out := 0,
    shift_register := 0,
    num_shifts := 0,
    state := FdcState.idle,
    state_count := 0,
    state_is_index_pulse := false,
    crc := 0,
    on_disc_crc := 0 }

/-! ## Specification vocabulary -/

/-- The registers written by the head-load and post-seek machinery
(`intel_fdc_do_load_head`, `intel_fdc_post_seek_dispatch`,
`intel_fdc_finish_command` and what they call). -/
def post_seek_footprint (r : Nat) : Prop :=
  r = 0x00 ∨ r = 0x08 ∨ r = 0x13 ∨ r = 0x14 ∨ r = 0x15 ∨ r = 0x16 ∨
    r = 0x17 ∨ r = 0x1B ∨ r = 0x1C

/-- Relates a controller state `s` to a later state `t` when nothing outside
the reach of the head-load and post-seek machinery differs: registers
outside `post_seek_footprint`, the bytes written to the drives, the physical
track and write-protect state of both drives and the drive pointers are the
same, and the parameter callback is either kept or reset to "none". -/
def post_seek_frame (s t : intel_fdc_struct) : Prop :=
  (∀ r, ¬ post_seek_footprint r → t.regs r = s.regs r) ∧
    t.drive_writes = s.drive_writes ∧
    t.drive_0.track = s.drive_0.track ∧
    t.drive_1.track = s.drive_1.track ∧
    t.drive_0.is_write_protect = s.drive_0.is_write_protect ∧
    t.drive_1.is_write_protect = s.drive_1.is_write_protect ∧
    t.p_drive_0 = s.p_drive_0 ∧
    t.p_drive_1 = s.p_drive_1 ∧
    t.uninit_post_seek_time = s.uninit_post_seek_time ∧
    (t.parameter_callback = s.parameter_callback ∨
      t.parameter_callback = ParameterCallback.accept_none)

/-- A controller in the middle of a READ_DATA command (command register 0x10)
on drive 0, track 2: busy, with a data byte waiting to be collected (status
0x8C), the head loaded (drive-out 0x48), no bad tracks (0xFF) and the
three-pulse timeout armed. -/
def intel_fdc_reading_sector : intel_fdc_struct :=
  { intel_fdc_powered_on with
    nmi_level := true,
    drive_0 := { disc_drive_at_rest with is_spinning := true, track := 2 },
    p_current_drive := some DriveId.drive_0,
    index_pulse_callback := IndexPulseCallback.timeout,
    regs := fun r =>
      if r = 0x17 then 0x8C
      else if r = 0x1F then 0x10
      else if r = 0x1B then 0x85
      else if r = 0x1C then 3
      else if r = 0x12 then 2
      else if r = 0x10 then 0xFF
      else if r = 0x11 then 0xFF
      else if r = 0x18 then 0xFF
      else if r = 0x19 then 0xFF
      else if r = 0x0F then 0x28
      else if r = 0x0D then 3
      else if r = 0x07 then 2
      else if r = 0x06 then 4
      else if r = 0x05 then 0x23
      else if r = 0x04 then 1
      else 0,
    drive_out := 0x48,
    state := FdcState.in_data,
    state_count := 5 }

/-- The READ_DATA state `intel_fdc_reading_sector` after the host has
collected the waiting data byte: status 0x80, NMI line low. -/
def intel_fdc_reading_sector_collected : intel_fdc_struct :=
  { intel_fdc_reading_sector with
    nmi_level := false,
    regs := set_reg intel_fdc_reading_sector.regs 0x17 0x80 }

/-- A READ_DATA command for track 2 that has just received its parameters:
drive 0 is selected with the head loaded over track 2, and the track register
of drive 0 already holds 2. -/
def intel_fdc_seek_on_track : intel_fdc_struct :=
  { intel_fdc_reading_sector_collected with
    state := FdcState.idle,
    state_count := 0,
    index_pulse_callback := IndexPulseCallback.none }

/-- Modelled from the spec: the byte scheduler of the absent `disc_drive.c`.
Once per disc byte the selected drive reports its index-pulse level and calls
`intel_fdc_byte_callback` with the data and clocks byte under the head. -/
def disc_drive_deliver_byte (s : intel_fdc_struct) (ev : Bool × Nat × Nat) :
    Except Fault intel_fdc_struct :=
  let s :=
    match s.p_current_drive with
    | none => s
    | some d => set_drive s d { get_drive s d with is_index_pulse := ev.1 }
  intel_fdc_byte_callback s ev.2.1 ev.2.2

/-- Modelled from the spec: a run of the byte scheduler of the absent
`disc_drive.c` over successive disc bytes. -/
def disc_drive_deliver_bytes (s : intel_fdc_struct) :
    List (Bool × Nat × Nat) → Except Fault intel_fdc_struct
  | [] => Except.ok s
  | ev :: evs =>
    match disc_drive_deliver_byte s ev with
    | Except.error e => Except.error e
    | Except.ok t => disc_drive_deliver_bytes t evs

/-- A WRITE_DATA command (command register 0x08) on drive 0, whose disc is
write protected, at the moment the seek has ended: head loaded over track 2,
drive ready latched, write gate already open (drive-out 0x49). -/
def intel_fdc_write_on_protected_disc : intel_fdc_struct :=
  { intel_fdc_seek_on_track with
    drive_0 :=
      { disc_drive_at_rest with
        is_spinning := true, track := 2, is_write_protect := true },
    regs := set_reg intel_fdc_seek_on_track.regs 0x1F 0x08,
    drive_out := 0x49,
    timer_state := TimerState.post_seek }

/-- The registers written by a command dispatch that seeks: the post-seek
footprint, the data-marker parameter, the seek count and targets and the two
track registers. -/
def seek_footprint (r : Nat) : Prop :=
  post_seek_footprint r ∨ r = 0x02 ∨ r = 0x0A ∨ r = 0x0B ∨ r = 0x0C ∨
    r = 0x12 ∨ r = 0x1A

/-- Relates a controller state `s` to a later state `t` when the registers
outside `seek_footprint` are the same and the parameter callback is either
kept or reset to "none". -/
def seek_frame (s t : intel_fdc_struct) : Prop :=
  (∀ r, ¬ seek_footprint r → t.regs r = s.regs r) ∧
    (t.parameter_callback = s.parameter_callback ∨
      t.parameter_callback = ParameterCallback.accept_none)

/-- The controller at the end of successive sectors of a two-sector READ_DATA
command (parameter 3 = 0x22 on entry): the state in which
`intel_fdc_check_completion` is called for sector `j`. -/
def intel_fdc_sector_read (j : Nat) : intel_fdc_struct :=
  { intel_fdc_reading_sector_collected with
    state := FdcState.in_data_crc,
    state_count := 2,
    regs := set_reg (set_reg intel_fdc_reading_sector_collected.regs 0x05
      (0x22 - j)) 0x06 (4 + j) }

/-- Successive writes of bytes to MMIO address 1, the parameter register. -/
def intel_fdc_write_params (s : intel_fdc_struct) :
    List Nat → Except Fault intel_fdc_struct
  | [] => Except.ok s
  | v :: vs =>
    match intel_fdc_write s k_intel_fdc_parameter v with
    | Except.error e => Except.error e
    | Except.ok t => intel_fdc_write_params t vs

/-! ## The disc tool (`src/disc_tool.c`)

The tool reads and writes the raw 2µs pulse words of one track of a disc
image.  A C array reached through a pointer is a function from the index to
the element; `uint32_t` arithmetic that can leave its range is reduced modulo
`2 ^ 32`, and the 64-bit mark detector modulo `2 ^ 64`.  The number of tracks
per disc, a constant of the absent `ibm_disc_format.h` whose value the
specification does not give, is a parameter of every function that uses it.
-/

@[simp] abbrev k_max_sectors : Nat := 32

/-- Modelled from the spec: `k_ibm_disc_bytes_per_track` of the absent
`ibm_disc_format.h`; "a standard single-density track holds `bytes_per_track`
pulse words (typical value 3125)". -/
@[simp] abbrev k_ibm_disc_bytes_per_track : Nat := 3125

/-- The store `a[i] = v` into a C array. -/
def array_set (a : Nat → Nat) (i v : Nat) : Nat → Nat :=
  fun j => if j = i then v else a j

/-- Modelled from the spec: one bit cell of `ibm_disc_format_fm_to_2us_pulses`.
A cell takes four 2µs slots, two for the clock bit and two for the data bit;
a bit that is set puts a pulse in the first slot of its pair, so that clocks
0xFF with data 0x00 give the fingerprint 0x88888888 of the scanner. -/
def ibm_disc_format_fm_cell (clocks data : Nat) (i : Nat) : Nat :=
  (if clocks.testBit (7 - i) then 0x08 else 0) |||
    (if data.testBit (7 - i) then 0x02 else 0)

/-- Modelled from the spec: `ibm_disc_format_fm_to_2us_pulses` of the absent
`ibm_disc_format.c`.  "One disc byte occupies 32 bit-slots.  Alternating slots
hold a clock bit and a data bit; pairing `(clock[i], data[i])` encodes one bit
of each output byte", most significant bit first. -/
def ibm_disc_format_fm_to_2us_pulses (clocks data : Nat) : Nat :=
  (List.range 8).foldl
    (fun ret i => (ret <<< 4) ||| ibm_disc_format_fm_cell clocks data i) 0

/-- Modelled from the spec: `ibm_disc_format_2us_pulses_to_fm` of the absent
`ibm_disc_format.c`, returning `(clocks, data)`.  The 32 slots are taken four
at a time, most significant first; the first two slots of a group are the
clock bit and the last two the data bit, and a bit is set when a pulse falls
in either slot of its pair. -/
def ibm_disc_format_2us_pulses_to_fm (pulses : Nat) : Nat × Nat :=
  (List.range 8).foldl
    (fun (cd : Nat × Nat) i =>
      let group := (pulses >>> (28 - 4 * i)) &&& 0x0F
      (cd.1 * 2 + (if group &&& 0x0C ≠ 0 then 1 else 0),
        cd.2 * 2 + (if group &&& 0x03 ≠ 0 then 1 else 0)))
    (0, 0)

/-- Modelled from the spec: the disc image of the absent `disc.c`.
`pulses side track` is the buffer behind `disc_get_raw_pulses_buffer`, indexed
as the C pointer is; `flushed` lists the `disc_dirty_and_flush` calls, the
latest first. -/
structure disc_struct where
  pulses : Int → Nat → Nat → Nat
  flushed : List (Int × Nat)

/-- Modelled from the spec: `disc_get_raw_pulses_buffer` of the absent
`disc.c`. -/
def disc_get_raw_pulses_buffer (p_disc : disc_struct) (is_side_upper : Int)
    (track : Nat) : Nat → Nat :=
  p_disc.pulses is_side_upper track

/-- Modelled from the spec: `disc_dirty_and_flush` of the absent `disc.c`. -/
def disc_dirty_and_flush (p_disc : disc_struct) (is_side_upper : Int)
    (track : Nat) : disc_struct :=
  { p_disc with flushed := (is_side_upper, track) :: p_disc.flushed }

/-- Modelled from the spec: the sector descriptor `struct disc_tool_sector` of
the absent `disc_tool.h`: "bit position of ID mark (0 if none), bit position of
data mark (0 if none), header bytes (track/side/sector/size-code, 2-byte CRC),
header-CRC-error flag, data-CRC-error flag, deleted-data flag". -/
structure disc_tool_sector where
  bit_pos_header : Nat
  bit_pos_data : Nat
  is_deleted : Int
  header_bytes : Nat → Nat
  has_header_crc_error : Int
  has_data_crc_error : Int

/-- The descriptor left by the `memset` of a sector to zero bytes. -/
def disc_tool_sector_zero : disc_tool_sector :=
  { bit_pos_header := 0,
    bit_pos_data := 0,
    is_deleted := 0,
    header_bytes := fun _ => 0,
    has_header_crc_error := 0,
    has_data_crc_error := 0 }

structure disc_tool_struct where
  p_disc : Option disc_struct
  is_side_upper : Int
  track : Nat
  track_length : Nat
  pos : Nat
  sectors : Nat → disc_tool_sector
  num_sectors : Nat

def disc_tool_get_byte_pos (p_tool : disc_tool_struct) : Nat :=
  p_tool.pos / 32

def disc_tool_set_byte_pos (p_tool : disc_tool_struct) (pos : Nat) :
    disc_tool_struct :=
  let pos := if pos ≥ p_tool.track_length then 0 else pos
  { p_tool with pos := (pos * 32) % 2 ^ 32 }

def disc_tool_get_pulses (k_ibm_disc_tracks_per_disc : Nat)
    (p_tool : disc_tool_struct) : Option (Nat → Nat) :=
  match p_tool.p_disc with
  | none => none
  | some p_disc =>
    if p_tool.track ≥ k_ibm_disc_tracks_per_disc then
      none
    else
      some (disc_get_raw_pulses_buffer p_disc p_tool.is_side_upper
        p_tool.track)

/-- The store `p_pulses[i] = v` through the pointer that
`disc_tool_get_pulses` returned: it lands in the buffer of the selected side
and track of the disc image. -/
def disc_tool_store_pulses (p_tool : disc_tool_struct) (i v : Nat) :
    disc_tool_struct :=
  match p_tool.p_disc with
  | none => p_tool
  | some p_disc =>
    { p_tool with
      p_disc := some { p_disc with
        pulses := fun side track =>
          if side = p_tool.is_side_upper ∧ track = p_tool.track then
            array_set (p_disc.pulses side track) i v
          else
            p_disc.pulses side track } }

/-- The source loads `p_pulses[pulses_pos]` before it tests the pointer, so a
null pointer is dereferenced. -/
def disc_tool_read_pulses (k_ibm_disc_tracks_per_disc : Nat)
    (p_tool : disc_tool_struct) : Except Fault (disc_tool_struct × Nat) :=
  let pos := p_tool.pos
  let pulses_pos := pos / 32
  let bit_pos := pos % 32
  match disc_tool_get_pulses k_ibm_disc_tracks_per_disc p_tool with
  | none => Except.error Fault.null_dereference
  | some p_pulses =>
    let source_pulses := p_pulses pulses_pos
    let pulses := (source_pulses <<< bit_pos) % 2 ^ 32
    let next :=
      if pulses_pos = p_tool.track_length then
        (0, { p_tool with pos := bit_pos })
      else
        (pulses_pos + 1, { p_tool with pos := (p_tool.pos + 32) % 2 ^ 32 })
    let pulses :=
      if bit_pos > 0 then
        pulses ||| (p_pulses next.1 >>> (32 - bit_pos))
      else
        pulses
    Except.ok (next.2, pulses)

/-- The body of the loop of `disc_tool_read_fm_data` from index `i` on, for
`n` more bytes.  A null `p_clocks` or `p_data` is `none` and is not stored
to. -/
def disc_tool_read_fm_data_loop (k_ibm_disc_tracks_per_disc : Nat) :
    Nat → Nat → disc_tool_struct → Option (Nat → Nat) → Option (Nat → Nat) →
      Except Fault (disc_tool_struct × Option (Nat → Nat) × Option (Nat → Nat))
  | 0, _, p_tool, p_clocks, p_data => Except.ok (p_tool, p_clocks, p_data)
  | n + 1, i, p_tool, p_clocks, p_data =>
    match disc_tool_read_pulses k_ibm_disc_tracks_per_disc p_tool with
    | Except.error e => Except.error e
    | Except.ok (p_tool, pulses) =>
      let cd := ibm_disc_format_2us_pulses_to_fm pulses
      disc_tool_read_fm_data_loop k_ibm_disc_tracks_per_disc n (i + 1) p_tool
        (p_clocks.map (fun a => array_set a i cd.1))
        (p_data.map (fun a => array_set a i cd.2))

def disc_tool_read_fm_data (k_ibm_disc_tracks_per_disc : Nat)
    (p_tool : disc_tool_struct) (p_clocks p_data : Option (Nat → Nat))
    (len : Nat) :
    Except Fault (disc_tool_struct × Option (Nat → Nat) × Option (Nat → Nat)) :=
  disc_tool_read_fm_data_loop k_ibm_disc_tracks_per_disc len 0 p_tool
    p_clocks p_data

def disc_tool_commit_write (p_tool : disc_tool_struct) : disc_tool_struct :=
  match p_tool.p_disc with
  | none => p_tool
  | some p_disc =>
    { p_tool with
      p_disc := some
        (disc_dirty_and_flush p_disc p_tool.is_side_upper p_tool.track) }

/-- The clocks of byte `i` in the loop of `disc_tool_write_fm_data`: 0xFF
when `p_clocks` is null. -/
def disc_tool_write_fm_data_clocks (p_clocks : Option (Nat → Nat))
    (i : Nat) : Nat :=
  match p_clocks with
  | some a => a i
  | none => 0xFF

/-- One turn of the loop of `disc_tool_write_fm_data` on the tool and the
locals `pulses_pos` and `pos`. -/
def disc_tool_write_fm_data_step (p_clocks : Option (Nat → Nat))
    (p_data : Nat → Nat) (track_length : Nat)
    (v : disc_tool_struct × Nat × Nat) (i : Nat) :
    disc_tool_struct × Nat × Nat :=
  let clocks := disc_tool_write_fm_data_clocks p_clocks i
  let pulses := ibm_disc_format_fm_to_2us_pulses clocks (p_data i)
  let p_tool := disc_tool_store_pulses v.1 v.2.1 pulses
  let pulses_pos := (v.2.1 + 1) % 2 ^ 32
  if pulses_pos = track_length then
    (p_tool, 0, 0)
  else
    (p_tool, pulses_pos, (v.2.2 + 32) % 2 ^ 32)

def disc_tool_write_fm_data (k_ibm_disc_tracks_per_disc : Nat)
    (p_tool : disc_tool_struct) (p_clocks : Option (Nat → Nat))
    (p_data : Nat → Nat) (len : Nat) : Except Fault disc_tool_struct :=
  let pos := p_tool.pos
  let pulses_pos := pos / 32
  let bit_pos := pos % 32
  let track_length := p_tool.track_length
  if bit_pos ≠ 0 then
    Except.error Fault.assertion
  else
    match disc_tool_get_pulses k_ibm_disc_tracks_per_disc p_tool with
    | none => Except.ok p_tool
    | some _ =>
      let v := (List.range len).foldl
        (disc_tool_write_fm_data_step p_clocks p_data track_length)
        (p_tool, pulses_pos, pos)
      Except.ok (disc_tool_commit_write { v.1 with pos := v.2.2 })

def disc_tool_fill_fm_data (k_ibm_disc_tracks_per_disc : Nat)
    (p_tool : disc_tool_struct) (data : Nat) : disc_tool_struct :=
  match disc_tool_get_pulses k_ibm_disc_tracks_per_disc p_tool with
  | none => p_tool
  | some _ =>
    let pulses := ibm_disc_format_fm_to_2us_pulses 0xFF data
    let p_tool := (List.range k_ibm_disc_bytes_per_track).foldl
      (fun p_tool i => disc_tool_store_pulses p_tool i pulses) p_tool
    disc_tool_commit_write { p_tool with pos := 0 }

def disc_tool_crc_add_run (crc : Nat) (p_data : Nat → Nat) (length : Nat) :
    Nat :=
  (List.range length).foldl
    (fun crc i => ibm_disc_format_crc_add_byte crc (p_data i)) crc

/-- The tool together with the locals of `disc_tool_find_sectors` that live
across the turns of its first loop.  `p_sector` is the index of the descriptor
the pointer refers to, `none` for the null pointer. -/
structure disc_tool_scan where
  p_tool : disc_tool_struct
  shift_register : Nat
  num_shifts : Nat
  pulses : Nat
  num_sectors : Nat
  mark_detector : Nat
  p_sector : Option Nat

/-- The store of a whole descriptor into `p_tool->sectors[k]`. -/
def disc_tool_set_sector (p_tool : disc_tool_struct) (k : Nat)
    (sector : disc_tool_sector) : disc_tool_struct :=
  { p_tool with
    sectors := fun j => if j = k then sector else p_tool.sectors j }

/-- What pass 1 of `disc_tool_find_sectors` does once the mark detector holds
a mark with data byte `data`, at bit `i_pulses`. -/
def disc_tool_find_sectors_mark (v : disc_tool_scan) (i_pulses data : Nat) :
    Except Fault disc_tool_scan :=
  if data = k_ibm_disc_id_mark_data_pattern then
    if v.num_sectors = k_max_sectors then
      Except.error Fault.bail
    else
      Except.ok { v with
        p_tool := disc_tool_set_sector v.p_tool v.num_sectors
          { disc_tool_sector_zero with bit_pos_header := i_pulses },
        p_sector := some v.num_sectors,
        num_sectors := (v.num_sectors + 1) % 2 ^ 32,
        shift_register := 0,
        num_shifts := 0 }
  else if data = k_ibm_disc_data_mark_data_pattern ∨
      data = k_ibm_disc_deleted_data_mark_data_pattern then
    match v.p_sector with
    | none => Except.ok v
    | some k =>
      if (v.p_tool.sectors k).bit_pos_data ≠ 0 then
        Except.ok v
      else if (v.p_tool.sectors k).bit_pos_header = 0 then
        Except.error Fault.assertion
      else
        Except.ok { v with
          p_tool := disc_tool_set_sector v.p_tool k
            { v.p_tool.sectors k with
              bit_pos_data := i_pulses,
              is_deleted :=
                if data = k_ibm_disc_deleted_data_mark_data_pattern then 1
                else (v.p_tool.sectors k).is_deleted },
          shift_register := 0,
          num_shifts := 0 }
  else
    Except.ok v

/-- One turn of the first loop of `disc_tool_find_sectors`, for bit
`i_pulses`.  The 64-bit mark detector is passed to the 32-bit parameter of
`ibm_disc_format_2us_pulses_to_fm`, which keeps its low half. -/
def disc_tool_find_sectors_step (p_pulses : Option (Nat → Nat))
    (v : disc_tool_scan) (i_pulses : Nat) : Except Fault disc_tool_scan :=
  let loaded : Except Fault Nat :=
    if i_pulses &&& 31 = 0 then
      match p_pulses with
      | none => Except.error Fault.null_dereference
      | some a => Except.ok (a (i_pulses / 32))
    else
      Except.ok v.pulses
  match loaded with
  | Except.error e => Except.error e
  | Except.ok pulses =>
    let bit := if pulses &&& 0x80000000 ≠ 0 then 1 else 0
    let v := { v with
      mark_detector := ((v.mark_detector <<< 1) % 2 ^ 64) ||| bit,
      shift_register := ((v.shift_register <<< 1) % 2 ^ 32) ||| bit,
      num_shifts := (v.num_shifts + 1) % 2 ^ 32,
      pulses := (pulses <<< 1) % 2 ^ 32 }
    if v.mark_detector &&& 0xFFFFFFFF00000000 ≠ 0x8888888800000000 then
      Except.ok v
    else
      let cd := ibm_disc_format_2us_pulses_to_fm (v.mark_detector % 2 ^ 32)
      if cd.1 ≠ k_ibm_disc_mark_clock_pattern then
        Except.ok v
      else
        disc_tool_find_sectors_mark v i_pulses cd.2

/-- Pass 1 of `disc_tool_find_sectors`: `n` turns of the loop from bit
`i_pulses` on. -/
def disc_tool_find_sectors_pass_1 (p_pulses : Option (Nat → Nat)) :
    Nat → Nat → disc_tool_scan → Except Fault disc_tool_scan
  | 0, _, v => Except.ok v
  | n + 1, i_pulses, v =>
    match disc_tool_find_sectors_step p_pulses v i_pulses with
    | Except.error e => Except.error e
    | Except.ok v => disc_tool_find_sectors_pass_1 p_pulses n (i_pulses + 1) v

/-- The header check in a turn of the second loop of
`disc_tool_find_sectors`: the six bytes read at the header position are in
`p_sector->header_bytes`; the CRC of the ID mark and the first four is
compared with the last two. -/
def disc_tool_find_sectors_check_header (p_sector : disc_tool_sector) :
    disc_tool_sector :=
  let crc := ibm_disc_format_crc_init
  let crc := ibm_disc_format_crc_add_byte crc k_ibm_disc_id_mark_data_pattern
  let crc := disc_tool_crc_add_run crc p_sector.header_bytes 4
  let disc_crc := (p_sector.header_bytes 4 <<< 8) % 65536
  let disc_crc := disc_crc ||| p_sector.header_bytes 5
  if crc ≠ disc_crc then { p_sector with has_header_crc_error := 1 }
  else p_sector

/-- The sector size that a turn of the second loop of
`disc_tool_find_sectors` works out from the size code of the header. -/
def disc_tool_find_sectors_sector_size (p_sector : disc_tool_sector) : Nat :=
  let sector_size := 128 <<< (p_sector.header_bytes 3 &&& 0x07)
  if sector_size > 2048 then 2048 else sector_size

/-- The data check in a turn of the second loop of `disc_tool_find_sectors`:
`sector_data` holds the `sector_size + 2` bytes read at the data position; the
CRC of the data mark and the first `sector_size` of them is compared with the
last two. -/
def disc_tool_find_sectors_check_data (p_sector : disc_tool_sector)
    (sector_data : Nat → Nat) (sector_size : Nat) : disc_tool_sector :=
  let crc := ibm_disc_format_crc_init
  let data :=
    if p_sector.is_deleted ≠ 0 then k_ibm_disc_deleted_data_mark_data_pattern
    else k_ibm_disc_data_mark_data_pattern
  let crc := ibm_disc_format_crc_add_byte crc data
  let crc := disc_tool_crc_add_run crc sector_data sector_size
  let disc_crc := (sector_data sector_size <<< 8) % 65536
  let disc_crc := disc_crc ||| sector_data (sector_size + 1)
  if crc ≠ disc_crc then { p_sector with has_data_crc_error := 1 }
  else p_sector

/-- One turn of the second loop of `disc_tool_find_sectors`, for the
descriptor `i_sectors`.  The local array `sector_data` has no value before it
is read into; it starts here as zeros. -/
def disc_tool_find_sectors_check (k_ibm_disc_tracks_per_disc : Nat)
    (p_tool : disc_tool_struct) (i_sectors : Nat) :
    Except Fault disc_tool_struct :=
  let p_sector := p_tool.sectors i_sectors
  if p_sector.bit_pos_header = 0 then
    Except.error Fault.assertion
  else
    match disc_tool_read_fm_data k_ibm_disc_tracks_per_disc
        { p_tool with pos := p_sector.bit_pos_header } none
        (some p_sector.header_bytes) 6 with
    | Except.error e => Except.error e
    | Except.ok (p_tool, _, header_bytes) =>
      let p_sector := disc_tool_find_sectors_check_header
        { p_sector with
          header_bytes := header_bytes.getD p_sector.header_bytes }
      if p_sector.bit_pos_data = 0 then
        Except.ok (disc_tool_set_sector p_tool i_sectors p_sector)
      else
        match disc_tool_read_fm_data k_ibm_disc_tracks_per_disc
            { disc_tool_set_sector p_tool i_sectors p_sector with
              pos := p_sector.bit_pos_data }
            none (some (fun _ => 0))
            (disc_tool_find_sectors_sector_size p_sector + 2) with
        | Except.error e => Except.error e
        | Except.ok (p_tool, _, sector_data) =>
          Except.ok (disc_tool_set_sector p_tool i_sectors
            (disc_tool_find_sectors_check_data p_sector
              (sector_data.getD (fun _ => 0))
              (disc_tool_find_sectors_sector_size p_sector)))

/-- Pass 2 of `disc_tool_find_sectors`: `n` turns of the loop from the
descriptor `i_sectors` on. -/
def disc_tool_find_sectors_pass_2 (k_ibm_disc_tracks_per_disc : Nat) :
    Nat → Nat → disc_tool_struct → Except Fault disc_tool_struct
  | 0, _, p_tool => Except.ok p_tool
  | n + 1, i_sectors, p_tool =>
    match disc_tool_find_sectors_check k_ibm_disc_tracks_per_disc p_tool
        i_sectors with
    | Except.error e => Except.error e
    | Except.ok p_tool =>
      disc_tool_find_sectors_pass_2 k_ibm_disc_tracks_per_disc n
        (i_sectors + 1) p_tool

/-- The local `pulses` has no value before the first turn of the loop, which
loads it; it starts here as 0. -/
def disc_tool_find_sectors (k_ibm_disc_tracks_per_disc : Nat)
    (p_tool : disc_tool_struct) (is_mfm : Int) :
    Except Fault disc_tool_struct :=
  let p_pulses := disc_tool_get_pulses k_ibm_disc_tracks_per_disc p_tool
  let track_length := p_tool.track_length
  if is_mfm ≠ 0 then
    Except.error Fault.assertion
  else
    let p_tool := { p_tool with num_sectors := 0 }
    match p_tool.p_disc with
    | none => Except.ok p_tool
    | some _ =>
      let bit_length := (track_length * 32) % 2 ^ 32
      let v : disc_tool_scan :=
        { p_tool := p_tool,
          shift_register := 0,
          num_shifts := 0,
          pulses := 0,
          num_sectors := 0,
          mark_detector := 0,
          p_sector := none }
      match disc_tool_find_sectors_pass_1 p_pulses bit_length 0 v with
      | Except.error e => Except.error e
      | Except.ok v =>
        match disc_tool_find_sectors_pass_2 k_ibm_disc_tracks_per_disc
            v.num_sectors 0 v.p_tool with
        | Except.error e => Except.error e
        | Except.ok p_tool =>
          Except.ok { p_tool with num_sectors := v.num_sectors }

def disc_tool_get_sectors (p_tool : disc_tool_struct) :
    (Nat → disc_tool_sector) × Nat :=
  (p_tool.sectors, p_tool.num_sectors)

/-- The tool returned by `disc_tool_create`: `util_mallocz` hands out zeroed
memory. -/
def disc_tool_create : disc_tool_struct :=
  { p_disc := none,
    is_side_upper := 0,
    track := 0,
    track_length := 0,
    pos := 0,
    sectors := fun _ => disc_tool_sector_zero,
    num_sectors := 0 }

/-- A tool whose track is `track_length` pulse words long. -/
def disc_tool_with_track_length (track_length : Nat) : disc_tool_struct :=
  { disc_tool_create with track_length := track_length }

/-- Bit `i` of a track, counted from the most significant bit of word 0. -/
def disc_tool_track_bit (p_pulses : Nat → Nat) (i : Nat) : Nat :=
  (p_pulses (i / 32) >>> (31 - i % 32)) % 2

/-- The 32 consecutive bits from bit `pos` on of a track of `track_length`
words read as a circular bit stream, most significant first. -/
def disc_tool_circular_pulses (p_pulses : Nat → Nat) (track_length pos : Nat) :
    Nat :=
  (List.range 32).foldl
    (fun acc k =>
      acc * 2 + disc_tool_track_bit p_pulses ((pos + k) % (32 * track_length)))
    0

/-- A disc image whose tracks hold no pulse, with 0xFFFFFFFF in the word that
follows the 3125 words of a standard track. -/
def disc_with_word_after_track : disc_struct :=
  { pulses := fun _ _ i => if i = 3125 then 0xFFFFFFFF else 0,
    flushed := [] }

/-- A tool on track 0 of `disc_with_word_after_track`, a track of 3125 words,
positioned `bit_pos` bits into the last word of the track. -/
def disc_tool_in_last_word (bit_pos : Nat) : disc_tool_struct :=
  { disc_tool_create with
    p_disc := some disc_with_word_after_track,
    track_length := 3125,
    pos := 32 * 3124 + bit_pos }

/-- The number whose binary digits are the first `n` bits of a track. -/
def disc_tool_track_leading (p_pulses : Nat → Nat) : Nat → Nat
  | 0 => 0
  | n + 1 =>
    2 * disc_tool_track_leading p_pulses n + disc_tool_track_bit p_pulses n

/-- The data byte of the mark that ends at bit `i` of a track, if there is
one: the last 64 bits up to and including bit `i`, fewer at the start of the
track, hold 0x88888888 followed by a byte with the mark clock pattern. -/
def disc_tool_mark_at (p_pulses : Nat → Nat) (i : Nat) : Option Nat :=
  let detector := disc_tool_track_leading p_pulses (i + 1) % 2 ^ 64
  if detector &&& 0xFFFFFFFF00000000 = 0x8888888800000000 then
    let cd := ibm_disc_format_2us_pulses_to_fm (detector % 2 ^ 32)
    if cd.1 = k_ibm_disc_mark_clock_pattern then some cd.2 else none
  else
    none

/-- The number of ID marks that end among the first `n` bits of a track. -/
def disc_tool_id_marks (p_pulses : Nat → Nat) : Nat → Nat
  | 0 => 0
  | n + 1 =>
    disc_tool_id_marks p_pulses n +
      (if disc_tool_mark_at p_pulses n = some k_ibm_disc_id_mark_data_pattern
        then 1 else 0)

/-- The locals of the first loop of `disc_tool_find_sectors` after bit `i` of
the track has been shifted in, before the mark detector is looked at. -/
def disc_tool_scan_shift (p_pulses : Nat → Nat) (v : disc_tool_scan)
    (i : Nat) : disc_tool_scan :=
  { v with
    mark_detector := disc_tool_track_leading p_pulses (i + 1) % 2 ^ 64,
    shift_register :=
      ((v.shift_register <<< 1) % 2 ^ 32) ||| disc_tool_track_bit p_pulses i,
    num_shifts := (v.num_shifts + 1) % 2 ^ 32,
    pulses := (p_pulses (i / 32) <<< (i % 32 + 1)) % 2 ^ 32 }

/-- Invariant of the first loop of `disc_tool_find_sectors` before the turn
for bit `i`, on the locals that follow the bits of the track: the mark
detector holds the last 64 bits read, and `pulses` the rest of the current
word. -/
def disc_tool_scan_bits (p_pulses : Nat → Nat) (v : disc_tool_scan)
    (i : Nat) : Prop :=
  v.mark_detector = disc_tool_track_leading p_pulses i % 2 ^ 64 ∧
    (i % 32 ≠ 0 →
      v.pulses = (p_pulses (i / 32) <<< (i % 32)) % 2 ^ 32)

/-- Invariant of the first loop of `disc_tool_find_sectors` before the turn
for bit `i`, on the descriptors: at most 32 are in use, `p_sector` refers to
the last of them, their bit positions lie in the part of the track already
read, and nothing else of the tool `p_tool` that the scan started from has
changed. -/
def disc_tool_scan_sectors (p_tool : disc_tool_struct) (v : disc_tool_scan)
    (i : Nat) : Prop :=
  v.num_sectors ≤ 32 ∧
    (match v.p_sector with
      | none => v.num_sectors = 0
      | some k => k + 1 = v.num_sectors) ∧
    (∀ j, j < v.num_sectors →
      63 ≤ (v.p_tool.sectors j).bit_pos_header ∧
      (v.p_tool.sectors j).bit_pos_header < i ∧
      ((v.p_tool.sectors j).bit_pos_data = 0 ∨
        ((v.p_tool.sectors j).bit_pos_header <
            (v.p_tool.sectors j).bit_pos_data ∧
          (v.p_tool.sectors j).bit_pos_data < i))) ∧
    (∀ j, v.num_sectors ≤ j → v.p_tool.sectors j = p_tool.sectors j) ∧
    ∃ sectors, v.p_tool = { p_tool with sectors := sectors }

/-- Relates a tool to a later state of it in which at most the position and
the descriptors differ. -/
def disc_tool_same_track (p_tool t : disc_tool_struct) : Prop :=
  t.p_disc = p_tool.p_disc ∧ t.is_side_upper = p_tool.is_side_upper ∧
    t.track = p_tool.track ∧ t.track_length = p_tool.track_length ∧
    t.num_sectors = p_tool.num_sectors

/-- Relates the descriptors of a tool to those of a later state in which the
marks found by pass 1 are as they were. -/
def disc_tool_same_marks (p_tool t : disc_tool_struct) : Prop :=
  ∀ j, (t.sectors j).bit_pos_header = (p_tool.sectors j).bit_pos_header ∧
    (t.sectors j).bit_pos_data = (p_tool.sectors j).bit_pos_data ∧
    (t.sectors j).is_deleted = (p_tool.sectors j).is_deleted

/-- The words of the side and track that the tool is on, as the disc image
holds them; all zero without a disc. -/
def disc_tool_track_words (p_tool : disc_tool_struct) : Nat → Nat :=
  match p_tool.p_disc with
  | none => fun _ => 0
  | some p_disc => p_disc.pulses p_tool.is_side_upper p_tool.track

/-- A disc image whose tracks start with an ID mark and a data mark, each
behind a sync byte, in words 0 to 3. -/
def disc_with_marks : disc_struct :=
  { pulses := fun _ _ i =>
      if i = 0 then 0x88888888
      else if i = 1 then 0xAA222AA8
      else if i = 2 then 0x88888888
      else if i = 3 then 0xAA2228AA
      else 0,
    flushed := [] }

/-- A tool on track 0 of `disc_with_marks`, a track of 4 words. -/
def disc_tool_on_marks : disc_tool_struct :=
  { disc_tool_create with
    p_disc := some disc_with_marks,
    track_length := 4 }

/-- A disc image whose tracks hold a sync byte in every even word and an ID
mark in every odd word. -/
def disc_with_id_marks : disc_struct :=
  { pulses := fun _ _ i => if i % 2 = 0 then 0x88888888 else 0xAA222AA8,
    flushed := [] }

/-- A tool on track 0 of `disc_with_id_marks`, a track of `track_length`
words. -/
def disc_tool_on_id_marks (track_length : Nat) : disc_tool_struct :=
  { disc_tool_create with
    p_disc := some disc_with_id_marks,
    track_length := track_length }

/-- A tool with a disc, on the track whose number is the number of tracks per
disc, the first for which the disc has no pulse buffer, with the length of a
standard track. -/
def disc_tool_past_last_track (k_ibm_disc_tracks_per_disc : Nat) :
    disc_tool_struct :=
  { disc_tool_create with
    p_disc := some disc_with_marks,
    track := k_ibm_disc_tracks_per_disc,
    track_length := k_ibm_disc_bytes_per_track }

/-- Word `i` of the pulse buffer of a side and track of the disc image that
the tool is set on; zero without a disc. -/
def disc_tool_pulses (p_tool : disc_tool_struct) (side : Int)
    (track i : Nat) : Nat :=
  match p_tool.p_disc with
  | none => 0
  | some p_disc => p_disc.pulses side track i

/-- A pulse word that is the FM encoding of the clocks and data it decodes
to. -/
def ibm_disc_format_is_fm (pulses : Nat) : Prop :=
  ibm_disc_format_fm_to_2us_pulses
    (ibm_disc_format_2us_pulses_to_fm pulses).1
    (ibm_disc_format_2us_pulses_to_fm pulses).2 = pulses

/-- Reading `len` bytes of clocks and data at byte position `pos` with
`disc_tool_read_fm_data` and writing the same clocks and data back at `pos`
with `disc_tool_write_fm_data`. -/
def disc_tool_read_write_back (k_ibm_disc_tracks_per_disc : Nat)
    (p_tool : disc_tool_struct) (pos len : Nat) :
    Except Fault disc_tool_struct :=
  match disc_tool_read_fm_data k_ibm_disc_tracks_per_disc
      (disc_tool_set_byte_pos p_tool pos) (some (fun _ => 0))
      (some (fun _ => 0)) len with
  | Except.error e => Except.error e
  | Except.ok (p_tool, p_clocks, p_data) =>
    disc_tool_write_fm_data k_ibm_disc_tracks_per_disc
      (disc_tool_set_byte_pos p_tool pos) p_clocks
      (p_data.getD (fun _ => 0)) len

/-- A tool on track 0 of `disc_with_word_after_track`, with a track length of
3126 words, so that the word 0xFFFFFFFF is the last word of the track. -/
def disc_tool_on_long_track : disc_tool_struct :=
  { disc_tool_create with
    p_disc := some disc_with_word_after_track,
    track_length := 3126 }

instance : DecidablePred ibm_disc_format_is_fm :=
  fun pulses => inferInstanceAs (Decidable
    (ibm_disc_format_fm_to_2us_pulses
      (ibm_disc_format_2us_pulses_to_fm pulses).1
      (ibm_disc_format_2us_pulses_to_fm pulses).2 = pulses))

/-- No ID mark and no data mark ends at a bit from `a` up to, not including,
`b` of a track. -/
def disc_tool_no_marks (p_pulses : Nat → Nat) (a b : Nat) : Prop :=
  ∀ i, a ≤ i → i < b →
    disc_tool_mark_at p_pulses i ≠ some k_ibm_disc_id_mark_data_pattern ∧
    disc_tool_mark_at p_pulses i ≠ some k_ibm_disc_data_mark_data_pattern ∧
    disc_tool_mark_at p_pulses i ≠
      some k_ibm_disc_deleted_data_mark_data_pattern

instance (p_pulses : Nat → Nat) (a b : Nat) :
    Decidable (disc_tool_no_marks p_pulses a b) :=
  inferInstanceAs (Decidable (∀ i, a ≤ i → i < b →
    disc_tool_mark_at p_pulses i ≠ some k_ibm_disc_id_mark_data_pattern ∧
    disc_tool_mark_at p_pulses i ≠ some k_ibm_disc_data_mark_data_pattern ∧
    disc_tool_mark_at p_pulses i ≠
      some k_ibm_disc_deleted_data_mark_data_pattern))

/-- A descriptor as pass 1 of `disc_tool_find_sectors` leaves it for a sector
whose ID mark ends at bit `header` and whose data mark ends at bit `data`
(0 when it has none): the two positions, the deleted flag, and no CRC error
noted yet. -/
def disc_tool_sector_found (p_sector : disc_tool_sector)
    (header data : Nat) (deleted : Int) : Prop :=
  p_sector.bit_pos_header = header ∧ p_sector.bit_pos_data = data ∧
    p_sector.is_deleted = deleted ∧ p_sector.has_header_crc_error = 0 ∧
    p_sector.has_data_crc_error = 0

/-- The CRC that pass 2 of `disc_tool_find_sectors` works out for a record on
the track: the CRC-16 of the mark byte followed by `length` bytes. -/
def disc_tool_record_crc (mark : Nat) (p_data : Nat → Nat) (length : Nat) :
    Nat :=
  let crc := ibm_disc_format_crc_init
  let crc := ibm_disc_format_crc_add_byte crc mark
  disc_tool_crc_add_run crc p_data length

/-- The six bytes behind the ID mark of the example sector: track 0, head 0,
sector 1, size code 0, and the CRC 0xD2C3 of (0xFE, 0, 0, 1, 0). -/
def disc_tool_example_header (k : Nat) : Nat :=
  [0, 0, 1, 0, 0xD2, 0xC3].getD k 0

/-- The bytes behind the data mark of the example sector: 128 data bytes 0xE5
and the CRC 0x5D30 of (0xFB, 0xE5, ..., 0xE5). -/
def disc_tool_example_data (k : Nat) : Nat :=
  if k < 128 then 0xE5 else if k = 128 then 0x5D else if k = 129 then 0x30
  else 0

/-- The 140 words of the example sector: a sync byte, the ID mark, the six
bytes of `disc_tool_example_header`, a sync byte, the data mark 0xFB, and the
130 bytes of `disc_tool_example_data`. -/
def disc_tool_example_sector (i : Nat) : Nat :=
  if i = 0 then ibm_disc_format_fm_to_2us_pulses 0xFF 0x00
  else if i = 1 then
    ibm_disc_format_fm_to_2us_pulses k_ibm_disc_mark_clock_pattern
      k_ibm_disc_id_mark_data_pattern
  else if i < 8 then
    ibm_disc_format_fm_to_2us_pulses 0xFF (disc_tool_example_header (i - 2))
  else if i = 8 then ibm_disc_format_fm_to_2us_pulses 0xFF 0x00
  else if i = 9 then
    ibm_disc_format_fm_to_2us_pulses k_ibm_disc_mark_clock_pattern
      k_ibm_disc_data_mark_data_pattern
  else
    ibm_disc_format_fm_to_2us_pulses 0xFF (disc_tool_example_data (i - 10))

/-- A disc image whose tracks hold the example sector in words 0 to 139 and
gap bytes 0xFF behind it. -/
def disc_with_sector : disc_struct :=
  { pulses := fun _ _ i =>
      if i < 140 then disc_tool_example_sector i
      else ibm_disc_format_fm_to_2us_pulses 0xFF 0xFF,
    flushed := [] }

/-- A tool on track 0 of `disc_with_sector`, a track of `track_length`
words. -/
def disc_tool_on_sector (track_length : Nat) : disc_tool_struct :=
  { disc_tool_create with
    p_disc := some disc_with_sector,
    track_length := track_length }

/-- A disc image whose tracks hold 32 ID marks, each behind a sync byte, in
words 0 to 63, the example sector in words 64 to 203, and gap bytes 0xFF
behind it. -/
def disc_with_sector_after_32 : disc_struct :=
  { pulses := fun _ _ i =>
      if i < 64 then
        (if i % 2 = 0 then ibm_disc_format_fm_to_2us_pulses 0xFF 0x00
        else
          ibm_disc_format_fm_to_2us_pulses k_ibm_disc_mark_clock_pattern
            k_ibm_disc_id_mark_data_pattern)
      else if i < 204 then disc_tool_example_sector (i - 64)
      else ibm_disc_format_fm_to_2us_pulses 0xFF 0xFF,
    flushed := [] }

/-- A tool on track 0 of `disc_with_sector_after_32`, a track of 206 words. -/
def disc_tool_on_sector_after_32 : disc_tool_struct :=
  { disc_tool_create with
    p_disc := some disc_with_sector_after_32,
    track_length := 206 }

/-- A disc image whose tracks hold the example sector with one more sync byte
and data mark 0xFB, in words 8 and 9, between its header and its data record:
the data record of the example sector starts with the sync byte in word 10 and
the data mark in word 11. -/
def disc_with_sector_behind_mark : disc_struct :=
  { pulses := fun _ _ i =>
      if i < 8 then disc_tool_example_sector i
      else if i = 8 then ibm_disc_format_fm_to_2us_pulses 0xFF 0x00
      else if i = 9 then
        ibm_disc_format_fm_to_2us_pulses k_ibm_disc_mark_clock_pattern
          k_ibm_disc_data_mark_data_pattern
      else if i < 142 then disc_tool_example_sector (i - 2)
      else ibm_disc_format_fm_to_2us_pulses 0xFF 0xFF,
    flushed := [] }

/-- A tool on track 0 of `disc_with_sector_behind_mark`, a track of 144
words. -/
def disc_tool_on_sector_behind_mark : disc_tool_struct :=
  { disc_tool_create with
    p_disc := some disc_with_sector_behind_mark,
    track_length := 144 }

/-! ## Further definitions: controller states and the JIT compiler -/

/-- Successive calls of `intel_fdc_decrement_counter`, `n` of them: the
controller after the last call and the values the calls returned, first call
first. -/
def intel_fdc_decrement_counter_calls :
    Nat → intel_fdc_struct → intel_fdc_struct × List Bool
  | 0, s => (s, [])
  | n + 1, s =>
    let r := intel_fdc_decrement_counter s
    let rest := intel_fdc_decrement_counter_calls n r.1
    (rest.1, r.2 :: rest.2)

/-- A command for track 0 that has just received its parameters, as
`intel_fdc_seek_on_track`, with 0 in the first bad-track register of
drive 0. -/
def intel_fdc_seek_to_track_0 : intel_fdc_struct :=
  { intel_fdc_seek_on_track with
    regs := set_reg (set_reg intel_fdc_seek_on_track.regs 0x07 0) 0x10 0 }

/-- A command for track 2 that has just received its parameters, as
`intel_fdc_seek_on_track`, with track 1 marked bad in the first bad-track
register of drive 0. -/
def intel_fdc_seek_past_bad_track : intel_fdc_struct :=
  { intel_fdc_seek_on_track with
    regs := set_reg intel_fdc_seek_on_track.regs 0x10 1 }

/-- The controller `intel_fdc_seek_on_track`, whose head is loaded
(drive-out 0x48), with `junk` as the content that the local `post_seek_time`
of `intel_fdc_do_load_head` has before any store. -/
def intel_fdc_head_loaded (junk : Nat) : intel_fdc_struct :=
  { intel_fdc_seek_on_track with uninit_post_seek_time := junk }

/-- The call of `intel_fdc_check_index_pulse` in state `s` sees the index
level go from low to high: the level sampled at the previous call
(`state_is_index_pulse`) is low and the drive now reports the pulse. -/
def intel_fdc_index_pulse_rising (s : intel_fdc_struct) : Prop :=
  intel_fdc_get_INDEX s = true ∧ s.state_is_index_pulse = false

instance (s : intel_fdc_struct) : Decidable (intel_fdc_index_pulse_rising s) :=
  inferInstanceAs (Decidable
    (intel_fdc_get_INDEX s = true ∧ s.state_is_index_pulse = false))

/-- The number of calls among the first `j` calls of
`intel_fdc_check_index_pulse` that see the index level go from low to high,
where `st i` is the controller on entry to call `i + 1`. -/
def intel_fdc_index_pulse_edges (st : Nat → intel_fdc_struct) : Nat → Nat
  | 0 => 0
  | j + 1 =>
    intel_fdc_index_pulse_edges st j +
      (if intel_fdc_index_pulse_rising (st j) then 1 else 0)

/-- Modelled from the spec: the selected drive of the absent `disc_drive.c`
raising or lowering its index pulse, as `disc_drive_is_index_pulse` then
reports it. -/
def disc_drive_set_index_pulse (s : intel_fdc_struct) (level : Bool) :
    intel_fdc_struct :=
  match s.p_current_drive with
  | none => s
  | some d => set_drive s d { get_drive s d with is_index_pulse := level }

/-- The controller on entry to successive calls of
`intel_fdc_check_index_pulse`, call `j + 1` made with the index level
`levels j`, when nothing else happens between the calls. -/
def intel_fdc_check_index_pulse_calls (s : intel_fdc_struct)
    (levels : Nat → Bool) : Nat → intel_fdc_struct
  | 0 => disc_drive_set_index_pulse s (levels 0)
  | j + 1 =>
    disc_drive_set_index_pulse
      (intel_fdc_check_index_pulse
        (intel_fdc_check_index_pulse_calls s levels j))
      (levels (j + 1))

/-- The controller `intel_fdc_reading_sector` (head unload count 2) after
`intel_fdc_finish_simple_command`, on entry to successive calls of
`intel_fdc_check_index_pulse` that see the index level high, low, high, ... -/
def intel_fdc_unload_calls : Nat → intel_fdc_struct :=
  intel_fdc_check_index_pulse_calls
    (intel_fdc_finish_simple_command intel_fdc_reading_sector)
    (fun j => j % 2 == 0)

/-- The controller `intel_fdc_reading_sector` with the index-pulse timeout
just armed, on entry to successive calls of `intel_fdc_check_index_pulse`
that see the index level high, low, high, ... -/
def intel_fdc_timeout_calls : Nat → intel_fdc_struct :=
  intel_fdc_check_index_pulse_calls
    (intel_fdc_start_index_pulse_timeout intel_fdc_reading_sector)
    (fun j => j % 2 == 0)

/-- The controller `intel_fdc_reading_sector_collected` (READ_DATA for track
2, no bad tracks) on entry to the byte callback that delivers the second CRC
byte 0x34 of a header for track 5 with CRC 0x1234, with the seek retry count
at `j`. -/
def intel_fdc_track_mismatch (j : Nat) : intel_fdc_struct :=
  { intel_fdc_reading_sector_collected with
    state := FdcState.in_id_crc,
    state_count := 1,
    crc := 0x1234,
    on_disc_crc := 0x12,
    regs := set_reg (set_reg intel_fdc_reading_sector_collected.regs
      k_intel_fdc_register_internal_id_track 5)
      k_intel_fdc_register_internal_seek_retry_count j }

/-- A controller syncing for a sector header that has seen 33 bits of the
alternating pattern: 17 clock bits of 1 and 16 data bits of 0. -/
def intel_fdc_synced : intel_fdc_struct :=
  { intel_fdc_seek_on_track with
    index_pulse_callback := IndexPulseCallback.timeout,
    state := FdcState.syncing_for_id,
    state_count := 33 }

/-! ## The JIT compiler (`src/jit_compiler.c`) -/

/-- The tables and enumeration constants that `jit_compiler.c` takes from the
absent header `defs_6502.h`, as parameters: the per-opcode tables
`g_optypes` and `g_opmodes`, the per-mode table `g_opmodelens`, the
per-optype tables `g_opbranch`, `g_optype_sets_register` and
`g_optype_changes_carry`, and the constants the source names. -/
structure defs_6502 where
  g_optypes : Nat → Nat
  g_opmodes : Nat → Nat
  g_opmodelens : Nat → Nat
  g_opbranch : Nat → Nat
  g_optype_sets_register : Nat → Nat
  g_optype_changes_carry : Nat → Nat
  k_adc : Nat
  k_alr : Nat
  k_asl : Nat
  k_bcc : Nat
  k_bcs : Nat
  k_brk : Nat
  k_bvc : Nat
  k_bvs : Nat
  k_cmp : Nat
  k_cpx : Nat
  k_cpy : Nat
  k_jmp : Nat
  k_jsr : Nat
  k_lda : Nat
  k_ldx : Nat
  k_ldy : Nat
  k_lsr : Nat
  k_php : Nat
  k_pla : Nat
  k_rol : Nat
  k_ror : Nat
  k_sbc : Nat
  k_sei : Nat
  k_slo : Nat
  k_tax : Nat
  k_tay : Nat
  k_tsx : Nat
  k_txa : Nat
  k_tya : Nat
  k_nil : Nat
  k_acc : Nat
  k_imm : Nat
  k_zpg : Nat
  k_zpx : Nat
  k_zpy : Nat
  k_rel : Nat
  k_abs : Nat
  k_abx : Nat
  k_aby : Nat
  k_ind : Nat
  k_bra_y : Nat
  k_a : Nat
  k_x : Nat
  k_y : Nat
  k_6502_vector_irq : Nat

/-- The fields of `struct jit_compiler` that the compiler reads and writes.
`p_mem_read` is the 6502 memory, `host_address_resolver` the callback with its
object argument applied; the scratch buffer is left out. -/
structure jit_compiler where
  p_mem_read : Nat → Nat
  host_address_resolver : Nat → Nat
  debug : Int
  reg_a : Int
  reg_x : Int
  reg_y : Int
  flag_carry : Int
  flag_decimal : Int

structure jit_uop where
  opcode : Int
  value1 : Int
  value2 : Int
  optype : Int
  deriving DecidableEq, Repr

structure jit_opcode_details where
  opcode_6502 : Nat
  len : Nat
  branches : Nat
  uops : Nat → jit_uop

@[simp] abbrev k_value_unknown : Int := -1

@[simp] abbrev k_opcode_countdown : Int := 0x100
@[simp] abbrev k_opcode_debug : Int := 0x101
@[simp] abbrev k_opcode_FLAGA : Int := 0x102
@[simp] abbrev k_opcode_FLAGX : Int := 0x103
@[simp] abbrev k_opcode_FLAGY : Int := 0x104
@[simp] abbrev k_opcode_ADD_IMM : Int := 0x105
@[simp] abbrev k_opcode_LOAD_CARRY : Int := 0x106
@[simp] abbrev k_opcode_LOAD_CARRY_INV : Int := 0x107
@[simp] abbrev k_opcode_LOAD_OVERFLOW : Int := 0x108
@[simp] abbrev k_opcode_PUSH_16 : Int := 0x109
@[simp] abbrev k_opcode_SAVE_CARRY : Int := 0x10A
@[simp] abbrev k_opcode_SAVE_CARRY_INV : Int := 0x10B
@[simp] abbrev k_opcode_SAVE_OVERFLOW : Int := 0x10C
@[simp] abbrev k_opcode_STOA_IMM : Int := 0x10D
@[simp] abbrev k_opcode_SUB_IMM : Int := 0x10E

/-- The emitter functions of the absent assembler (`asm_x64_common.h`,
`asm_x64_jit.h`) that `jit_compiler_emit_uop` calls. -/
inductive asm_x64_emit where
  | jit_call_debug
  | jit_ADD_IMM
  | jit_FLAGA
  | jit_FLAGX
  | jit_FLAGY
  | jit_LOAD_CARRY
  | jit_LOAD_CARRY_INV
  | jit_LOAD_OVERFLOW
  | jit_PUSH_16
  | jit_SAVE_CARRY
  | jit_SAVE_CARRY_INV
  | jit_SAVE_OVERFLOW
  | jit_STOA_IMM
  | jit_SUB_IMM
  | instruction_EXIT
  | instruction_PHP
  | jit_BPL
  | instruction_CLC
  | instruction_PLP
  | jit_AND_IMM
  | jit_ROL_ACC
  | jit_BMI
  | instruction_SEC
  | instruction_PHA
  | jit_JMP
  | jit_BVC
  | instruction_CLI
  | instruction_PLA
  | jit_ADC_IMM
  | jit_ROR_ACC
  | jit_JMP_IND
  | jit_BVS
  | instruction_SEI
  | jit_STY_ABS
  | jit_STA_ABS
  | jit_STX_ABS
  | instruction_DEY
  | jit_BCC
  | instruction_TXS
  | jit_STA_ABX
  | jit_LDY_IMM
  | jit_LDX_IMM
  | jit_LDX_ABS
  | instruction_TAY
  | jit_LDA_IMM
  | instruction_TAX
  | jit_LDA_ABS
  | jit_BCS
  | instruction_CLV
  | instruction_TSX
  | jit_LDA_ABX
  | jit_CPY_IMM
  | instruction_INY
  | jit_CMP_IMM
  | instruction_DEX
  | jit_BNE
  | instruction_CLD
  | jit_CPX_IMM
  | jit_INC_ZPG
  | instruction_INX
  | jit_SBC_IMM
  | jit_BEQ
  | instruction_CRASH
  | instruction_SED
  | instruction_ILLEGAL
  deriving DecidableEq, Repr

/-- One call of an emitter function on the destination buffer: the function
and the arguments it is given after the buffer, already cast. -/
structure asm_x64_call where
  fn : asm_x64_emit
  args : List Nat
  deriving DecidableEq, Repr

/-- The cast `(uint8_t) v` of a 32-bit value. -/
def cast_uint8 (v : Int) : Nat := (v % 256).toNat

/-- The cast `(uint16_t) v` of a 32-bit value. -/
def cast_uint16 (v : Int) : Nat := (v % 65536).toNat

/-- The cast `(void*) (size_t) v` of a 32-bit value on the 64-bit host. -/
def cast_size_t (v : Int) : Nat := (v % 18446744073709551616).toNat

/-- The cast `(int8_t) b` of a byte. -/
def cast_int8 (b : Nat) : Int :=
  if b % 256 < 128 then (b % 256 : Nat) else ((b % 256 : Nat) : Int) - 256

/-- The cast `(int32_t) (size_t) p` of a host address. -/
def cast_int32 (p : Nat) : Int :=
  if p % 4294967296 < 2147483648 then (p % 4294967296 : Nat)
  else ((p % 4294967296 : Nat) : Int) - 4294967296

/-- A store through `p_uop` into slot `i` of the array `uops`. -/
def jit_uops_set (uops : Nat → jit_uop) (i : Nat) (u : jit_uop) :
    Nat → jit_uop :=
  fun j => if j = i then u else uops j

def jit_compiler_get_opcode_details (D : defs_6502) (p_compiler : jit_compiler)
    (p_details : jit_opcode_details) (addr_6502 : Nat) :
    Except Fault (jit_opcode_details × Nat) :=
  let p_mem_read := fun a : Nat => p_compiler.p_mem_read a % 256
  let addr_plus_1 := (addr_6502 + 1) % 65536
  let addr_plus_2 := (addr_6502 + 2) % 65536
  let jump_fixup := false
  let uops := p_details.uops
  let p_uop := 0
  let opcode_6502 := p_mem_read addr_6502
  let optype := D.g_optypes opcode_6502 % 256
  let opmode := D.g_opmodes opcode_6502 % 256
  let len := D.g_opmodelens opmode % 256
  let branches := D.g_opbranch optype
  let r : (Nat → jit_uop) × Nat :=
    if p_compiler.debug ≠ 0 then
      (jit_uops_set uops p_uop
        { uops p_uop with
          opcode := k_opcode_debug, optype := -1, value1 := addr_6502 },
        p_uop + 1)
    else (uops, p_uop)
  let uops := r.1
  let p_uop := r.2
  /- Pre-main uops. -/
  let r : (Nat → jit_uop) × Nat :=
    if optype = D.k_adc ∨ optype = D.k_bcc ∨ optype = D.k_bcs ∨
        optype = D.k_rol ∨ optype = D.k_ror then
      (jit_uops_set uops p_uop
        { uops p_uop with opcode := k_opcode_LOAD_CARRY, optype := -1 },
        p_uop + 1)
    else if optype = D.k_bvc ∨ optype = D.k_bvs then
      (jit_uops_set uops p_uop
        { uops p_uop with opcode := k_opcode_LOAD_OVERFLOW, optype := -1 },
        p_uop + 1)
    else if optype = D.k_sbc then
      (jit_uops_set uops p_uop
        { uops p_uop with opcode := k_opcode_LOAD_CARRY_INV, optype := -1 },
        p_uop + 1)
    else (uops, p_uop)
  let uops := r.1
  let p_uop := r.2
  /- Main uop. -/
  let p_main_uop := p_uop
  let uops := jit_uops_set uops p_main_uop
    { uops p_main_uop with opcode := opcode_6502, optype := optype }
  let m : Except Fault ((Nat → jit_uop) × Bool) :=
    if opmode = 0 ∨ opmode = D.k_nil ∨ opmode = D.k_acc then
      Except.ok (uops, jump_fixup)
    else if opmode = D.k_imm ∨ opmode = D.k_zpg ∨ opmode = D.k_zpx ∨
        opmode = D.k_zpy then
      Except.ok (jit_uops_set uops p_main_uop
        { uops p_main_uop with value1 := p_mem_read addr_plus_1 }, jump_fixup)
    else if opmode = D.k_rel then
      Except.ok (jit_uops_set uops p_main_uop
        { uops p_main_uop with
          value1 := (addr_6502 : Int) + 2 +
            cast_int8 (p_mem_read addr_plus_1) }, true)
    else if opmode = D.k_abs ∨ opmode = D.k_abx ∨ opmode = D.k_aby then
      Except.ok (jit_uops_set uops p_main_uop
        { uops p_main_uop with
          value1 := ((p_mem_read addr_plus_2 <<< 8) |||
            p_mem_read addr_plus_1 : Nat) },
        if optype = D.k_jmp ∨ optype = D.k_jsr then true else jump_fixup)
    else if opmode = D.k_ind then
      Except.ok (jit_uops_set uops p_main_uop
        { uops p_main_uop with
          value1 := ((p_mem_read addr_plus_2 <<< 8) |||
            p_mem_read addr_plus_1 : Nat) }, jump_fixup)
    else
      Except.error Fault.assertion
  match m with
  | Except.error e => Except.error e
  | Except.ok m =>
    let uops := m.1
    let jump_fixup := m.2
    let p_uop := p_uop + 1
    /- Post-main uops. -/
    let r : (Nat → jit_uop) × Nat :=
      if optype = D.k_adc then
        let uops := jit_uops_set uops p_uop
          { uops p_uop with opcode := k_opcode_SAVE_CARRY, optype := -1 }
        let p_uop := p_uop + 1
        let uops := jit_uops_set uops p_uop
          { uops p_uop with opcode := k_opcode_SAVE_OVERFLOW, optype := -1 }
        (uops, p_uop + 1)
      else if optype = D.k_alr ∨ optype = D.k_asl ∨ optype = D.k_lsr ∨
          optype = D.k_slo then
        (jit_uops_set uops p_uop
          { uops p_uop with opcode := k_opcode_SAVE_CARRY, optype := -1 },
          p_uop + 1)
      else if optype = D.k_brk then
        let uops := jit_uops_set uops p_main_uop
          { uops p_main_uop with
            opcode := k_opcode_PUSH_16, optype := -1,
            value1 := ((addr_6502 + 2) % 65536 : Nat) }
        /- PHP -/
        let uops := jit_uops_set uops p_uop
          { uops p_uop with opcode := 0x08, optype := D.k_php }
        let p_uop := p_uop + 1
        /- SEI -/
        let uops := jit_uops_set uops p_uop
          { uops p_uop with opcode := 0x78, optype := D.k_sei }
        let p_uop := p_uop + 1
        /- JMP ind -/
        let uops := jit_uops_set uops p_uop
          { uops p_uop with
            opcode := 0x6C, optype := D.k_jmp,
            value1 := D.k_6502_vector_irq }
        (uops, p_uop + 1)
      else if optype = D.k_cmp ∨ optype = D.k_cpx ∨ optype = D.k_cpy then
        (jit_uops_set uops p_uop
          { uops p_uop with opcode := k_opcode_SAVE_CARRY_INV, optype := -1 },
          p_uop + 1)
      else if optype = D.k_lda ∨ optype = D.k_txa ∨ optype = D.k_tya ∨
          optype = D.k_pla then
        (jit_uops_set uops p_uop
          { uops p_uop with opcode := k_opcode_FLAGA, optype := -1 },
          p_uop + 1)
      else if optype = D.k_ldx ∨ optype = D.k_tax ∨ optype = D.k_tsx then
        (jit_uops_set uops p_uop
          { uops p_uop with opcode := k_opcode_FLAGX, optype := -1 },
          p_uop + 1)
      else if optype = D.k_ldy ∨ optype = D.k_tay then
        (jit_uops_set uops p_uop
          { uops p_uop with opcode := k_opcode_FLAGY, optype := -1 },
          p_uop + 1)
      else if optype = D.k_rol ∨ optype = D.k_ror then
        let uops := jit_uops_set uops p_uop
          { uops p_uop with opcode := k_opcode_SAVE_CARRY, optype := -1 }
        let p_uop := p_uop + 1
        if opmode = D.k_acc then
          (jit_uops_set uops p_uop
            { uops p_uop with opcode := k_opcode_FLAGA, optype := -1 },
            p_uop + 1)
        else (uops, p_uop)
      else if optype = D.k_sbc then
        let uops := jit_uops_set uops p_uop
          { uops p_uop with opcode := k_opcode_SAVE_CARRY_INV, optype := -1 }
        let p_uop := p_uop + 1
        let uops := jit_uops_set uops p_uop
          { uops p_uop with opcode := k_opcode_SAVE_OVERFLOW, optype := -1 }
        (uops, p_uop + 1)
      else (uops, p_uop)
    let uops := r.1
    let p_uop := r.2
    let uops :=
      if jump_fixup = true then
        jit_uops_set uops p_main_uop
          { uops p_main_uop with
            value1 := cast_int32 (p_compiler.host_address_resolver
              (cast_uint16 (uops p_main_uop).value1)) }
      else uops
    Except.ok
      ({ p_details with
          opcode_6502 := opcode_6502, len := len, branches := branches,
          uops := uops },
        p_uop % 256)

def jit_compiler_emit_uop (p_uop : jit_uop) : asm_x64_call :=
  let opcode := p_uop.opcode
  let value1 := p_uop.value1
  let value2 := p_uop.value2
  if opcode = k_opcode_debug then
    ⟨asm_x64_emit.jit_call_debug, [cast_uint16 value1]⟩
  else if opcode = k_opcode_ADD_IMM then
    ⟨asm_x64_emit.jit_ADD_IMM, [cast_uint8 value1]⟩
  else if opcode = k_opcode_FLAGA then ⟨asm_x64_emit.jit_FLAGA, []⟩
  else if opcode = k_opcode_FLAGX then ⟨asm_x64_emit.jit_FLAGX, []⟩
  else if opcode = k_opcode_FLAGY then ⟨asm_x64_emit.jit_FLAGY, []⟩
  else if opcode = k_opcode_LOAD_CARRY then
    ⟨asm_x64_emit.jit_LOAD_CARRY, []⟩
  else if opcode = k_opcode_LOAD_CARRY_INV then
    ⟨asm_x64_emit.jit_LOAD_CARRY_INV, []⟩
  else if opcode = k_opcode_LOAD_OVERFLOW then
    ⟨asm_x64_emit.jit_LOAD_OVERFLOW, []⟩
  else if opcode = k_opcode_PUSH_16 then
    ⟨asm_x64_emit.jit_PUSH_16, [cast_uint16 value1]⟩
  else if opcode = k_opcode_SAVE_CARRY then
    ⟨asm_x64_emit.jit_SAVE_CARRY, []⟩
  else if opcode = k_opcode_SAVE_CARRY_INV then
    ⟨asm_x64_emit.jit_SAVE_CARRY_INV, []⟩
  else if opcode = k_opcode_SAVE_OVERFLOW then
    ⟨asm_x64_emit.jit_SAVE_OVERFLOW, []⟩
  else if opcode = k_opcode_STOA_IMM then
    ⟨asm_x64_emit.jit_STOA_IMM, [cast_uint16 value1, cast_uint8 value2]⟩
  else if opcode = k_opcode_SUB_IMM then
    ⟨asm_x64_emit.jit_SUB_IMM, [cast_uint8 value1]⟩
  else if opcode = 0x02 then ⟨asm_x64_emit.instruction_EXIT, []⟩
  else if opcode = 0x08 then ⟨asm_x64_emit.instruction_PHP, []⟩
  else if opcode = 0x10 then ⟨asm_x64_emit.jit_BPL, [cast_size_t value1]⟩
  else if opcode = 0x18 then ⟨asm_x64_emit.instruction_CLC, []⟩
  else if opcode = 0x28 then ⟨asm_x64_emit.instruction_PLP, []⟩
  else if opcode = 0x29 then ⟨asm_x64_emit.jit_AND_IMM, [cast_uint8 value1]⟩
  else if opcode = 0x2A then ⟨asm_x64_emit.jit_ROL_ACC, []⟩
  else if opcode = 0x30 then ⟨asm_x64_emit.jit_BMI, [cast_size_t value1]⟩
  else if opcode = 0x38 then ⟨asm_x64_emit.instruction_SEC, []⟩
  else if opcode = 0x48 then ⟨asm_x64_emit.instruction_PHA, []⟩
  else if opcode = 0x4C then ⟨asm_x64_emit.jit_JMP, [cast_size_t value1]⟩
  else if opcode = 0x50 then ⟨asm_x64_emit.jit_BVC, [cast_size_t value1]⟩
  else if opcode = 0x58 then ⟨asm_x64_emit.instruction_CLI, []⟩
  else if opcode = 0x68 then ⟨asm_x64_emit.instruction_PLA, []⟩
  else if opcode = 0x69 then ⟨asm_x64_emit.jit_ADC_IMM, [cast_uint8 value1]⟩
  else if opcode = 0x6A then ⟨asm_x64_emit.jit_ROR_ACC, []⟩
  else if opcode = 0x6C then
    ⟨asm_x64_emit.jit_JMP_IND, [cast_uint16 value1]⟩
  else if opcode = 0x70 then ⟨asm_x64_emit.jit_BVS, [cast_size_t value1]⟩
  else if opcode = 0x78 then ⟨asm_x64_emit.instruction_SEI, []⟩
  else if opcode = 0x84 ∨ opcode = 0x8C then
    /- Used for STY zpg (0x84) as well as STY abs. -/
    ⟨asm_x64_emit.jit_STY_ABS, [cast_uint16 value1]⟩
  else if opcode = 0x85 ∨ opcode = 0x8D then
    /- Used for STA zpg (0x85) as well as STA abs. -/
    ⟨asm_x64_emit.jit_STA_ABS, [cast_uint16 value1]⟩
  else if opcode = 0x86 ∨ opcode = 0x8E then
    /- Used for STX zpg (0x86) as well as STX abs. -/
    ⟨asm_x64_emit.jit_STX_ABS, [cast_uint16 value1]⟩
  else if opcode = 0x88 then ⟨asm_x64_emit.instruction_DEY, []⟩
  else if opcode = 0x90 then ⟨asm_x64_emit.jit_BCC, [cast_size_t value1]⟩
  else if opcode = 0x9A then ⟨asm_x64_emit.instruction_TXS, []⟩
  else if opcode = 0x9D then
    ⟨asm_x64_emit.jit_STA_ABX, [cast_uint16 value1]⟩
  else if opcode = 0xA0 then ⟨asm_x64_emit.jit_LDY_IMM, [cast_uint8 value1]⟩
  else if opcode = 0xA2 then ⟨asm_x64_emit.jit_LDX_IMM, [cast_uint8 value1]⟩
  else if opcode = 0xA6 then
    /- Actually LDX zpg but re-using LDX abs code. -/
    ⟨asm_x64_emit.jit_LDX_ABS, [cast_uint8 value1]⟩
  else if opcode = 0xA8 then ⟨asm_x64_emit.instruction_TAY, []⟩
  else if opcode = 0xA9 then ⟨asm_x64_emit.jit_LDA_IMM, [cast_uint8 value1]⟩
  else if opcode = 0xAA then ⟨asm_x64_emit.instruction_TAX, []⟩
  else if opcode = 0xAD then
    ⟨asm_x64_emit.jit_LDA_ABS, [cast_uint16 value1]⟩
  else if opcode = 0xB0 then ⟨asm_x64_emit.jit_BCS, [cast_size_t value1]⟩
  else if opcode = 0xB8 then ⟨asm_x64_emit.instruction_CLV, []⟩
  else if opcode = 0xBA then ⟨asm_x64_emit.instruction_TSX, []⟩
  else if opcode = 0xBD then
    ⟨asm_x64_emit.jit_LDA_ABX, [cast_uint16 value1]⟩
  else if opcode = 0xC0 then ⟨asm_x64_emit.jit_CPY_IMM, [cast_uint8 value1]⟩
  else if opcode = 0xC8 then ⟨asm_x64_emit.instruction_INY, []⟩
  else if opcode = 0xC9 then ⟨asm_x64_emit.jit_CMP_IMM, [cast_uint8 value1]⟩
  else if opcode = 0xCA then ⟨asm_x64_emit.instruction_DEX, []⟩
  else if opcode = 0xD0 then ⟨asm_x64_emit.jit_BNE, [cast_size_t value1]⟩
  else if opcode = 0xD8 then ⟨asm_x64_emit.instruction_CLD, []⟩
  else if opcode = 0xE0 then ⟨asm_x64_emit.jit_CPX_IMM, [cast_uint8 value1]⟩
  else if opcode = 0xE6 then ⟨asm_x64_emit.jit_INC_ZPG, [cast_uint8 value1]⟩
  else if opcode = 0xE8 then ⟨asm_x64_emit.instruction_INX, []⟩
  else if opcode = 0xE9 then ⟨asm_x64_emit.jit_SBC_IMM, [cast_uint8 value1]⟩
  else if opcode = 0xF0 then ⟨asm_x64_emit.jit_BEQ, [cast_size_t value1]⟩
  else if opcode = 0xF2 then ⟨asm_x64_emit.instruction_CRASH, []⟩
  else if opcode = 0xF8 then ⟨asm_x64_emit.instruction_SED, []⟩
  else ⟨asm_x64_emit.instruction_ILLEGAL, []⟩

/-- Returns the compiler state, the micro-op as rewritten in place and handed
to `jit_compiler_emit_uop`, and the emitter call made on the destination
buffer. -/
def jit_compiler_process_uop (D : defs_6502) (p_compiler : jit_compiler)
    (p_uop : jit_uop) : jit_compiler × jit_uop × asm_x64_call :=
  let opcode := p_uop.opcode
  let optype := p_uop.optype
  let value1 := p_uop.value1
  let opreg : Int := -1
  let changes_carry : Int := 0
  let opreg : Int :=
    if optype ≠ -1 then D.g_optype_sets_register optype.toNat else opreg
  let changes_carry : Int :=
    if optype ≠ -1 then D.g_optype_changes_carry optype.toNat
    else changes_carry
  /- Re-write the opcode if we have an optimization opportunity. -/
  let p_uop :=
    if opcode = 0x69 then
      if p_compiler.flag_carry = 0 then
        { p_uop with opcode := k_opcode_ADD_IMM }
      else p_uop
    else if opcode = 0x84 ∨ opcode = 0x8C then
      if p_compiler.reg_y ≠ k_value_unknown then
        { p_uop with opcode := k_opcode_STOA_IMM, value2 := p_compiler.reg_y }
      else p_uop
    else if opcode = 0x85 ∨ opcode = 0x8D then
      if p_compiler.reg_a ≠ k_value_unknown then
        { p_uop with opcode := k_opcode_STOA_IMM, value2 := p_compiler.reg_a }
      else p_uop
    else if opcode = 0x86 ∨ opcode = 0x8E then
      if p_compiler.reg_x ≠ k_value_unknown then
        { p_uop with opcode := k_opcode_STOA_IMM, value2 := p_compiler.reg_x }
      else p_uop
    else if opcode = 0xE9 then
      if p_compiler.flag_carry = 1 then
        { p_uop with opcode := k_opcode_SUB_IMM }
      else p_uop
    else p_uop
  let call := jit_compiler_emit_uop p_uop
  /- Update known state of registers, flags, etc. -/
  let p_compiler :=
    if opreg = D.k_a then { p_compiler with reg_a := k_value_unknown }
    else if opreg = D.k_x then { p_compiler with reg_x := k_value_unknown }
    else if opreg = D.k_y then { p_compiler with reg_y := k_value_unknown }
    else p_compiler
  let p_compiler :=
    if changes_carry ≠ 0 then
      { p_compiler with flag_carry := k_value_unknown }
    else p_compiler
  let p_compiler :=
    if opcode = 0x18 then { p_compiler with flag_carry := 0 }
    else if opcode = 0x38 then { p_compiler with flag_carry := 1 }
    else if opcode = 0xA0 then { p_compiler with reg_y := value1 }
    else if opcode = 0xA2 then { p_compiler with reg_x := value1 }
    else if opcode = 0xA9 then { p_compiler with reg_a := value1 }
    else if opcode = 0xD8 then { p_compiler with flag_decimal := 0 }
    else if opcode = 0xF8 then { p_compiler with flag_decimal := 1 }
    else p_compiler
  (p_compiler, p_uop, call)

/-- The loop over `i_uops` in `jit_compiler_compile_block`, with `n`
iterations left: each micro-op is processed in place and its emitter call is
added to the single-opcode buffer. -/
def jit_compiler_compile_block_uops (D : defs_6502) :
    Nat → Nat → jit_compiler → (Nat → jit_uop) → List asm_x64_call →
    jit_compiler × (Nat → jit_uop) × List asm_x64_call
  | 0, _, p_compiler, uops, p_single_opcode_buf =>
    (p_compiler, uops, p_single_opcode_buf)
  | n + 1, i_uops, p_compiler, uops, p_single_opcode_buf =>
    let r := jit_compiler_process_uop D p_compiler (uops i_uops)
    jit_compiler_compile_block_uops D n (i_uops + 1) r.1
      (jit_uops_set uops i_uops r.2.1) (p_single_opcode_buf ++ [r.2.2])

/-- One pass of the body of the loop of `jit_compiler_compile_block` up to
`util_buffer_append`: the instruction at `addr_6502` is taken apart, its
micro-ops are processed and the emitter calls are appended to `p_buf`. -/
def jit_compiler_compile_block_body (D : defs_6502) (p_compiler : jit_compiler)
    (opcode_details : jit_opcode_details) (p_buf : List asm_x64_call)
    (addr_6502 : Nat) :
    Except Fault (jit_compiler × jit_opcode_details × List asm_x64_call) :=
  match jit_compiler_get_opcode_details D p_compiler opcode_details
      addr_6502 with
  | Except.error e => Except.error e
  | Except.ok r =>
    let opcode_details := r.1
    let num_uops := r.2
    let u := jit_compiler_compile_block_uops D num_uops 0 p_compiler
      opcode_details.uops []
    Except.ok (u.1, { opcode_details with uops := u.2.1 }, p_buf ++ u.2.2)

/-- The `while (1)` loop of `jit_compiler_compile_block`, run for at most
`fuel` instructions; `none` when the fuel runs out before the loop is left. -/
def jit_compiler_compile_block_loop (D : defs_6502) :
    Nat → jit_compiler → jit_opcode_details → List asm_x64_call → Nat →
    Option (Except Fault (jit_compiler × List asm_x64_call))
  | 0, _, _, _, _ => none
  | fuel + 1, p_compiler, opcode_details, p_buf, addr_6502 =>
    match jit_compiler_compile_block_body D p_compiler opcode_details p_buf
        addr_6502 with
    | Except.error e => some (Except.error e)
    | Except.ok r =>
      let p_compiler := r.1
      let opcode_details := r.2.1
      let p_buf := r.2.2
      if opcode_details.branches = D.k_bra_y then
        some (Except.ok (p_compiler, p_buf))
      else
        jit_compiler_compile_block_loop D fuel p_compiler opcode_details p_buf
          ((addr_6502 + opcode_details.len) % 65536)

/-- The zero-initialised `struct jit_opcode_details`. -/
def jit_opcode_details_zero : jit_opcode_details :=
  { opcode_6502 := 0, len := 0, branches := 0, uops := fun _ => ⟨0, 0, 0, 0⟩ }

/-- The compiler state after the five resets at the top of
`jit_compiler_compile_block`. -/
def jit_compiler_reset (p_compiler : jit_compiler) : jit_compiler :=
  { p_compiler with
    reg_a := k_value_unknown,
    reg_x := k_value_unknown,
    reg_y := k_value_unknown,
    flag_carry := k_value_unknown,
    flag_decimal := k_value_unknown }

def jit_compiler_compile_block (D : defs_6502) (fuel : Nat)
    (p_compiler : jit_compiler) (p_buf : List asm_x64_call) (addr_6502 : Nat) :
    Option (Except Fault (jit_compiler × List asm_x64_call)) :=
  let opcode_details := jit_opcode_details_zero
  let p_compiler := jit_compiler_reset p_compiler
  jit_compiler_compile_block_loop D fuel p_compiler opcode_details p_buf
    addr_6502

/-- The length that `jit_compiler_get_opcode_details` stores for the
instruction at `addr_6502`. -/
def jit_compiler_opcode_len (D : defs_6502) (p_compiler : jit_compiler)
    (addr_6502 : Nat) : Nat :=
  D.g_opmodelens (D.g_opmodes (p_compiler.p_mem_read addr_6502 % 256) % 256) %
    256

/-- The branch class that `jit_compiler_get_opcode_details` stores for the
instruction at `addr_6502`. -/
def jit_compiler_opcode_branches (D : defs_6502) (p_compiler : jit_compiler)
    (addr_6502 : Nat) : Nat :=
  D.g_opbranch (D.g_optypes (p_compiler.p_mem_read addr_6502 % 256) % 256)

/-- The address of instruction `k` of the block that starts at `addr_6502`:
each instruction follows the one before it, with 16-bit wrapping. -/
def jit_compiler_block_addr (D : defs_6502) (p_compiler : jit_compiler)
    (addr_6502 : Nat) : Nat → Nat
  | 0 => addr_6502
  | k + 1 =>
    (jit_compiler_block_addr D p_compiler addr_6502 k +
      jit_compiler_opcode_len D p_compiler
        (jit_compiler_block_addr D p_compiler addr_6502 k)) % 65536

/-- The instructions at the listed addresses compiled one after the other,
each once and in the order of the list. -/
def jit_compiler_compile_opcodes (D : defs_6502) :
    List Nat → jit_compiler → jit_opcode_details → List asm_x64_call →
    Except Fault (jit_compiler × jit_opcode_details × List asm_x64_call)
  | [], p_compiler, opcode_details, p_buf =>
    Except.ok (p_compiler, opcode_details, p_buf)
  | addr :: addrs, p_compiler, opcode_details, p_buf =>
    match jit_compiler_compile_block_body D p_compiler opcode_details p_buf
        addr with
    | Except.error e => Except.error e
    | Except.ok r =>
      jit_compiler_compile_opcodes D addrs r.1 r.2.1 r.2.2

/-- Modelled from the spec: an instance of the tables and constants of the
absent header `defs_6502.h`, with distinct constants and the rows of the 6502
opcodes used in the examples below: BRK (0x00), CLC (0x18), SEC (0x38),
JMP abs (0x4C), ADC imm (0x69), STA abs (0x8D), LDA imm (0xA9), TAX (0xAA) and
SBC imm (0xE9).  JMP and BRK end a block; every other opcode byte is given as
a one-byte instruction of an optype of its own. -/
def defs_6502_example : defs_6502 :=
  { g_optypes := fun opcode =>
      if opcode = 0x00 then 2 else if opcode = 0x18 then 7
      else if opcode = 0x38 then 14 else if opcode = 0x4C then 19
      else if opcode = 0x69 then 23 else if opcode = 0x8D then 28
      else if opcode = 0xA9 then 37 else if opcode = 0xAA then 40
      else if opcode = 0xE9 then 54 else 1,
    g_opmodes := fun opcode =>
      if opcode = 0x4C ∨ opcode = 0x8D then 5
      else if opcode = 0x69 ∨ opcode = 0xA9 ∨ opcode = 0xE9 then 3
      else 1,
    g_opmodelens := fun opmode =>
      if opmode = 5 ∨ opmode = 8 ∨ opmode = 9 ∨ opmode = 12 then 3
      else if opmode = 0 ∨ opmode = 1 ∨ opmode = 2 then 1
      else 2,
    g_opbranch := fun optype =>
      if optype = 2 ∨ optype = 19 then 2 else 1,
    g_optype_sets_register := fun optype =>
      if optype = 23 ∨ optype = 37 ∨ optype = 54 then 1
      else if optype = 40 then 2
      else 0,
    g_optype_changes_carry := fun optype =>
      if optype = 7 ∨ optype = 14 ∨ optype = 23 ∨ optype = 54 then 1 else 0,
    k_brk := 2, k_asl := 4, k_php := 5, k_jsr := 8, k_rol := 12, k_lsr := 17,
    k_jmp := 19, k_bvc := 20, k_adc := 23, k_pla := 24, k_ror := 25,
    k_bvs := 26, k_sei := 27, k_txa := 32, k_bcc := 33, k_tya := 34,
    k_ldy := 36, k_lda := 37, k_ldx := 38, k_tay := 39, k_tax := 40,
    k_bcs := 41, k_tsx := 43, k_cpy := 44, k_cmp := 45, k_cpx := 46,
    k_sbc := 54, k_alr := 59, k_slo := 60,
    k_nil := 1, k_acc := 2, k_imm := 3, k_zpg := 4, k_abs := 5, k_zpx := 6,
    k_zpy := 7, k_abx := 8, k_aby := 9, k_ind := 12, k_rel := 13,
    k_bra_y := 2,
    k_a := 1, k_x := 2, k_y := 3,
    k_6502_vector_irq := 0xFFFE }

/-- A compiler with debug off over a memory that holds, from address 0x2000,
`LDA #$42; STA $1234; JMP $2000`, and zeroes elsewhere; host addresses are
0x10000000 plus the 6502 address. -/
def jit_compiler_example : jit_compiler :=
  { p_mem_read := fun a =>
      if a = 0x2000 then 0xA9 else if a = 0x2001 then 0x42
      else if a = 0x2002 then 0x8D else if a = 0x2003 then 0x34
      else if a = 0x2004 then 0x12 else if a = 0x2005 then 0x4C
      else if a = 0x2006 then 0x00 else if a = 0x2007 then 0x20
      else 0,
    host_address_resolver := fun a => 0x10000000 + a,
    debug := 0,
    reg_a := 0, reg_x := 0, reg_y := 0, flag_carry := 0, flag_decimal := 0 }

/-- The emitter calls in the result of `jit_compiler_compile_block`, when the
call returns. -/
def jit_compiler_emitted
    (r : Option (Except Fault (jit_compiler × List asm_x64_call))) :
    Option (List asm_x64_call) :=
  match r with
  | some (Except.ok r) => some r.2
  | _ => none

/-! ## Further definitions: tracked values, data marks, written bytes, the shift register -/

/-! ## The parts of `jit_compiler_get_opcode_details` -/

/-- The debug micro-op of `jit_compiler_get_opcode_details`: the array and the
index `p_uop` after the `if (p_compiler->debug)` block. -/
def jit_compiler_uops_debug (p_compiler : jit_compiler) (addr_6502 : Nat)
    (uops : Nat → jit_uop) (p_uop : Nat) : (Nat → jit_uop) × Nat :=
  if p_compiler.debug ≠ 0 then
    (jit_uops_set uops p_uop
      { uops p_uop with
        opcode := k_opcode_debug, optype := -1, value1 := addr_6502 },
      p_uop + 1)
  else (uops, p_uop)

/-- The pre-main switch of `jit_compiler_get_opcode_details`. -/
def jit_compiler_uops_pre_main (D : defs_6502) (optype : Nat)
    (uops : Nat → jit_uop) (p_uop : Nat) : (Nat → jit_uop) × Nat :=
  if optype = D.k_adc ∨ optype = D.k_bcc ∨ optype = D.k_bcs ∨
      optype = D.k_rol ∨ optype = D.k_ror then
    (jit_uops_set uops p_uop
      { uops p_uop with opcode := k_opcode_LOAD_CARRY, optype := -1 },
      p_uop + 1)
  else if optype = D.k_bvc ∨ optype = D.k_bvs then
    (jit_uops_set uops p_uop
      { uops p_uop with opcode := k_opcode_LOAD_OVERFLOW, optype := -1 },
      p_uop + 1)
  else if optype = D.k_sbc then
    (jit_uops_set uops p_uop
      { uops p_uop with opcode := k_opcode_LOAD_CARRY_INV, optype := -1 },
      p_uop + 1)
  else (uops, p_uop)

/-- The switch on the addressing mode in `jit_compiler_get_opcode_details`,
on the array in which the main micro-op already has its opcode and optype:
the array and `jump_fixup` after it, or the failed `assert(0)`. -/
def jit_compiler_uops_main (D : defs_6502) (p_compiler : jit_compiler)
    (optype opmode addr_6502 : Nat) (uops : Nat → jit_uop)
    (p_main_uop : Nat) : Except Fault ((Nat → jit_uop) × Bool) :=
  let p_mem_read := fun a : Nat => p_compiler.p_mem_read a % 256
  let addr_plus_1 := (addr_6502 + 1) % 65536
  let addr_plus_2 := (addr_6502 + 2) % 65536
  let jump_fixup := false
  if opmode = 0 ∨ opmode = D.k_nil ∨ opmode = D.k_acc then
    Except.ok (uops, jump_fixup)
  else if opmode = D.k_imm ∨ opmode = D.k_zpg ∨ opmode = D.k_zpx ∨
      opmode = D.k_zpy then
    Except.ok (jit_uops_set uops p_main_uop
      { uops p_main_uop with value1 := p_mem_read addr_plus_1 }, jump_fixup)
  else if opmode = D.k_rel then
    Except.ok (jit_uops_set uops p_main_uop
      { uops p_main_uop with
        value1 := (addr_6502 : Int) + 2 +
          cast_int8 (p_mem_read addr_plus_1) }, true)
  else if opmode = D.k_abs ∨ opmode = D.k_abx ∨ opmode = D.k_aby then
    Except.ok (jit_uops_set uops p_main_uop
      { uops p_main_uop with
        value1 := ((p_mem_read addr_plus_2 <<< 8) |||
          p_mem_read addr_plus_1 : Nat) },
      if optype = D.k_jmp ∨ optype = D.k_jsr then true else jump_fixup)
  else if opmode = D.k_ind then
    Except.ok (jit_uops_set uops p_main_uop
      { uops p_main_uop with
        value1 := ((p_mem_read addr_plus_2 <<< 8) |||
          p_mem_read addr_plus_1 : Nat) }, jump_fixup)
  else
    Except.error Fault.assertion

/-- The post-main switch of `jit_compiler_get_opcode_details`. -/
def jit_compiler_uops_post_main (D : defs_6502)
    (optype opmode addr_6502 p_main_uop : Nat) (uops : Nat → jit_uop)
    (p_uop : Nat) : (Nat → jit_uop) × Nat :=
  if optype = D.k_adc then
    let uops := jit_uops_set uops p_uop
      { uops p_uop with opcode := k_opcode_SAVE_CARRY, optype := -1 }
    let p_uop := p_uop + 1
    let uops := jit_uops_set uops p_uop
      { uops p_uop with opcode := k_opcode_SAVE_OVERFLOW, optype := -1 }
    (uops, p_uop + 1)
  else if optype = D.k_alr ∨ optype = D.k_asl ∨ optype = D.k_lsr ∨
      optype = D.k_slo then
    (jit_uops_set uops p_uop
      { uops p_uop with opcode := k_opcode_SAVE_CARRY, optype := -1 },
      p_uop + 1)
  else if optype = D.k_brk then
    let uops := jit_uops_set uops p_main_uop
      { uops p_main_uop with
        opcode := k_opcode_PUSH_16, optype := -1,
        value1 := ((addr_6502 + 2) % 65536 : Nat) }
    let uops := jit_uops_set uops p_uop
      { uops p_uop with opcode := 0x08, optype := D.k_php }
    let p_uop := p_uop + 1
    let uops := jit_uops_set uops p_uop
      { uops p_uop with opcode := 0x78, optype := D.k_sei }
    let p_uop := p_uop + 1
    let uops := jit_uops_set uops p_uop
      { uops p_uop with
        opcode := 0x6C, optype := D.k_jmp,
        value1 := D.k_6502_vector_irq }
    (uops, p_uop + 1)
  else if optype = D.k_cmp ∨ optype = D.k_cpx ∨ optype = D.k_cpy then
    (jit_uops_set uops p_uop
      { uops p_uop with opcode := k_opcode_SAVE_CARRY_INV, optype := -1 },
      p_uop + 1)
  else if optype = D.k_lda ∨ optype = D.k_txa ∨ optype = D.k_tya ∨
      optype = D.k_pla then
    (jit_uops_set uops p_uop
      { uops p_uop with opcode := k_opcode_FLAGA, optype := -1 },
      p_uop + 1)
  else if optype = D.k_ldx ∨ optype = D.k_tax ∨ optype = D.k_tsx then
    (jit_uops_set uops p_uop
      { uops p_uop with opcode := k_opcode_FLAGX, optype := -1 },
      p_uop + 1)
  else if optype = D.k_ldy ∨ optype = D.k_tay then
    (jit_uops_set uops p_uop
      { uops p_uop with opcode := k_opcode_FLAGY, optype := -1 },
      p_uop + 1)
  else if optype = D.k_rol ∨ optype = D.k_ror then
    let uops := jit_uops_set uops p_uop
      { uops p_uop with opcode := k_opcode_SAVE_CARRY, optype := -1 }
    let p_uop := p_uop + 1
    if opmode = D.k_acc then
      (jit_uops_set uops p_uop
        { uops p_uop with opcode := k_opcode_FLAGA, optype := -1 },
        p_uop + 1)
    else (uops, p_uop)
  else if optype = D.k_sbc then
    let uops := jit_uops_set uops p_uop
      { uops p_uop with opcode := k_opcode_SAVE_CARRY_INV, optype := -1 }
    let p_uop := p_uop + 1
    let uops := jit_uops_set uops p_uop
      { uops p_uop with opcode := k_opcode_SAVE_OVERFLOW, optype := -1 }
    (uops, p_uop + 1)
  else (uops, p_uop)

/-- The `if (jump_fixup)` block of `jit_compiler_get_opcode_details`. -/
def jit_compiler_uops_fixup (p_compiler : jit_compiler) (jump_fixup : Bool)
    (p_main_uop : Nat) (uops : Nat → jit_uop) : Nat → jit_uop :=
  if jump_fixup = true then
    jit_uops_set uops p_main_uop
      { uops p_main_uop with
        value1 := cast_int32 (p_compiler.host_address_resolver
          (cast_uint16 (uops p_main_uop).value1)) }
  else uops

/-- The opcode byte that `jit_compiler_get_opcode_details` reads at
`addr_6502`. -/
def jit_compiler_opcode_6502 (p_compiler : jit_compiler) (addr_6502 : Nat) :
    Nat :=
  p_compiler.p_mem_read addr_6502 % 256

/-- The optype of the instruction at `addr_6502`, as
`jit_compiler_get_opcode_details` reads it from `g_optypes`. -/
def jit_compiler_opcode_optype (D : defs_6502) (p_compiler : jit_compiler)
    (addr_6502 : Nat) : Nat :=
  D.g_optypes (p_compiler.p_mem_read addr_6502 % 256) % 256

/-- The addressing mode of the instruction at `addr_6502`, as
`jit_compiler_get_opcode_details` reads it from `g_opmodes`. -/
def jit_compiler_opcode_opmode (D : defs_6502) (p_compiler : jit_compiler)
    (addr_6502 : Nat) : Nat :=
  D.g_opmodes (p_compiler.p_mem_read addr_6502 % 256) % 256

/-- The array and the index of the main micro-op once the main micro-op has
its opcode and optype: `jit_compiler_get_opcode_details` up to the switch on
the addressing mode. -/
def jit_compiler_uops_head (D : defs_6502) (p_compiler : jit_compiler)
    (addr_6502 : Nat) (uops : Nat → jit_uop) : (Nat → jit_uop) × Nat :=
  let r := jit_compiler_uops_debug p_compiler addr_6502 uops 0
  let r := jit_compiler_uops_pre_main D
    (jit_compiler_opcode_optype D p_compiler addr_6502) r.1 r.2
  (jit_uops_set r.1 r.2
    { r.1 r.2 with
      opcode := jit_compiler_opcode_6502 p_compiler addr_6502,
      optype := jit_compiler_opcode_optype D p_compiler addr_6502 }, r.2)

/-- The arrays `u1` and `u2` hold the same opcode and optype in every slot
below `k`. -/
def jit_uops_agree_below (u1 u2 : Nat → jit_uop) (k : Nat) : Prop :=
  ∀ j, j < k → (u1 j).opcode = (u2 j).opcode ∧ (u1 j).optype = (u2 j).optype

/-! ## Tracking of registers and carry by the JIT compiler -/

/-- The local `opreg` of `jit_compiler_process_uop`: the register that the
optype of the micro-op writes according to `g_optype_sets_register`, or -1
for a micro-op without optype. -/
def jit_compiler_uop_opreg (D : defs_6502) (p_uop : jit_uop) : Int :=
  if p_uop.optype ≠ -1 then D.g_optype_sets_register p_uop.optype.toNat
  else -1

/-- The local `changes_carry` of `jit_compiler_process_uop`: the entry of
`g_optype_changes_carry` for the optype of the micro-op, or 0 for a micro-op
without optype. -/
def jit_compiler_uop_changes_carry (D : defs_6502) (p_uop : jit_uop) : Int :=
  if p_uop.optype ≠ -1 then D.g_optype_changes_carry p_uop.optype.toNat
  else 0

/-- A micro-op that does not affect the tracked carry: it is neither CLC
(0x18) nor SEC (0x38) and its optype does not change the carry. -/
def jit_compiler_uop_keeps_carry (D : defs_6502) (p_uop : jit_uop) : Prop :=
  p_uop.opcode ≠ 0x18 ∧ p_uop.opcode ≠ 0x38 ∧
    jit_compiler_uop_changes_carry D p_uop = 0

/-- The compiler state after the first `j` micro-ops of the sequence `uops`
have gone through `jit_compiler_process_uop`, one after the other, as in the
loops of `jit_compiler_compile_block`. -/
def jit_compiler_process_uops (D : defs_6502) (p_compiler : jit_compiler)
    (uops : Nat → jit_uop) : Nat → jit_compiler
  | 0 => p_compiler
  | j + 1 =>
    (jit_compiler_process_uop D
      (jit_compiler_process_uops D p_compiler uops j) (uops j)).1

/-- A compiler with debug off over a memory that holds, from address 0x3000,
`CLC; ADC #5; SEC; SBC #3; ADC #7; JMP $3000`, and zeroes elsewhere. -/
def jit_compiler_carry_example : jit_compiler :=
  { p_mem_read := fun a =>
      if a = 0x3000 then 0x18 else if a = 0x3001 then 0x69
      else if a = 0x3002 then 0x05 else if a = 0x3003 then 0x38
      else if a = 0x3004 then 0xE9 else if a = 0x3005 then 0x03
      else if a = 0x3006 then 0x69 else if a = 0x3007 then 0x07
      else if a = 0x3008 then 0x4C else if a = 0x3009 then 0x00
      else if a = 0x300A then 0x30 else 0,
    host_address_resolver := fun a => 0x10000000 + a,
    debug := 0,
    reg_a := 0, reg_x := 0, reg_y := 0, flag_carry := 0, flag_decimal := 0 }

/-- The micro-ops of `CLC; ADC #5`: CLC, LOAD_CARRY, ADC #5, SAVE_CARRY,
SAVE_OVERFLOW, with the optypes of `defs_6502_example`. -/
def jit_uops_clc_adc (j : Nat) : jit_uop :=
  if j = 0 then ⟨0x18, 0, 0, 7⟩
  else if j = 1 then ⟨k_opcode_LOAD_CARRY, 0, 0, -1⟩
  else if j = 2 then ⟨0x69, 5, 0, 23⟩
  else if j = 3 then ⟨k_opcode_SAVE_CARRY, 0, 0, -1⟩
  else ⟨k_opcode_SAVE_OVERFLOW, 0, 0, -1⟩

/-! ## Pass 1 of the sector scan: data marks -/

/-- The locals of `disc_tool_find_sectors` on entry to its first loop, with
`p_tool->num_sectors` already set to 0. -/
def disc_tool_scan_start (p_tool : disc_tool_struct) : disc_tool_scan :=
  { p_tool := { p_tool with num_sectors := 0 },
    shift_register := 0,
    num_shifts := 0,
    pulses := 0,
    num_sectors := 0,
    mark_detector := 0,
    p_sector := none }

/-- Invariant of the first loop of `disc_tool_find_sectors` on the deleted
flags: a descriptor in use that has no data position yet is not flagged as
deleted. -/
def disc_tool_scan_not_deleted (v : disc_tool_scan) : Prop :=
  ∀ j, j < v.num_sectors → (v.p_tool.sectors j).bit_pos_data = 0 →
    (v.p_tool.sectors j).is_deleted = 0

/-! ## Runs of the write and format states -/

/-- What one byte callback in a write or format state leaves for the next
one: the state and its count, the running CRC, the bytes handed to the drive
so far and the selected drive.  The host does not reach these; it reaches
the registers. -/
def intel_fdc_write_view (s : intel_fdc_struct) :
    FdcState × Nat × Nat × List DriveWrite × Option DriveId :=
  (s.state, s.state_count, s.crc, s.drive_writes, s.p_current_drive)

/-- The CRC after the bytes `b 0`, …, `b (n - 1)` have been added to `crc`
one after the other with `ibm_disc_format_crc_add_byte`. -/
def ibm_disc_format_crc_add_bytes (crc : Nat) (b : Nat → Nat) : Nat → Nat
  | 0 => crc
  | n + 1 =>
    ibm_disc_format_crc_add_byte (ibm_disc_format_crc_add_bytes crc b n) (b n)

/-- The calls `disc_drive_write_byte(p, data, clocks)` for the first `n`
pairs `(data, clocks)` of `f`. -/
def intel_fdc_written (p : Option DriveId) (f : Nat → Nat × Nat) (n : Nat) :
    List DriveWrite :=
  (List.range n).map (fun i => ⟨p, (f i).1, (f i).2⟩)

/-- Byte `i` of a gap of `n` bytes 0xFF followed by bytes 0x00, all with
clocks 0xFF. -/
def intel_fdc_gap_byte (n i : Nat) : Nat × Nat :=
  if i < n then (0xFF, 0xFF) else (0x00, 0xFF)

/-- Byte `i` of a record: the mark with the mark clock pattern, `size` bytes
`data 0`, …, then the high and the low byte of the CRC-16 of the mark and
these bytes. -/
def intel_fdc_record_byte (mark : Nat) (data : Nat → Nat) (size i : Nat) :
    Nat × Nat :=
  if i = 0 then (mark, k_ibm_disc_mark_clock_pattern)
  else if i < size + 1 then (data (i - 1), 0xFF)
  else if i = size + 1 then
    ((ibm_disc_format_crc_add_bytes
      (ibm_disc_format_crc_add_byte ibm_disc_format_crc_init mark) data
      size >>> 8) % 256, 0xFF)
  else
    (ibm_disc_format_crc_add_bytes
      (ibm_disc_format_crc_add_byte ibm_disc_format_crc_init mark) data
      size &&& 0xFF, 0xFF)

/-- Byte `i` of what the state format_write_id writes: the ID record with
the four header bytes `header 0`, …, `header 3`, then 11 bytes 0xFF and 6
bytes 0x00 of gap 2. -/
def intel_fdc_id_byte (header : Nat → Nat) (i : Nat) : Nat × Nat :=
  if i < 7 then intel_fdc_record_byte k_ibm_disc_id_mark_data_pattern header 4 i
  else if i < 18 then (0xFF, 0xFF)
  else (0x00, 0xFF)

/-- What the host leaves alone between two byte callbacks when it does no
more than read the status and write the data register: `s` is the state that
the next callback finds after the previous one returned `t`.  The view is
the same, and so is every register but the data register and the status
register. -/
def intel_fdc_host_kept (t s : intel_fdc_struct) : Prop :=
  intel_fdc_write_view s = intel_fdc_write_view t ∧
    ∀ r, r ≠ k_intel_fdc_register_internal_data →
      r ≠ k_intel_fdc_register_internal_status → s.regs r = t.regs r

/-- The state `s` has the view `v` and, but for the data register and the
status register, the registers `regs`. -/
def intel_fdc_write_inv
    (v : FdcState × Nat × Nat × List DriveWrite × Option DriveId)
    (regs : Nat → Nat) (s : intel_fdc_struct) : Prop :=
  intel_fdc_write_view s = v ∧
    ∀ r, r ≠ k_intel_fdc_register_internal_data →
      r ≠ k_intel_fdc_register_internal_status → s.regs r = regs r

/-- The host writes `val` to the data register of the controller. -/
def intel_fdc_host_data (s : intel_fdc_struct) (val : Nat) :
    intel_fdc_struct :=
  match intel_fdc_write s k_intel_fdc_data val with
  | Except.ok t => t
  | Except.error _ => s

/-- Successive calls of `intel_fdc_byte_callback_writing` from the state `s`,
with the host writing `host j` to the data register after call `j`: the
state on entry to call `j`. -/
def intel_fdc_write_run (s : intel_fdc_struct) (host : Nat → Nat) :
    Nat → intel_fdc_struct
  | 0 => s
  | j + 1 =>
    match intel_fdc_byte_callback_writing (intel_fdc_write_run s host j) with
    | Except.ok t => intel_fdc_host_data t (host j)
    | Except.error _ =>
      intel_fdc_host_data (intel_fdc_write_run s host j) (host j)

/-- A controller in the middle of a FORMAT of one 256-byte sector on drive 0,
about to write the data mark: state format_write_data with count 0, the
sector size register 0x21, the command register FORMAT. -/
def intel_fdc_formatting_data : intel_fdc_struct :=
  { intel_fdc_powered_on with
    p_current_drive := some DriveId.drive_0,
    regs := set_reg
      (set_reg intel_fdc_powered_on.regs k_intel_fdc_register_internal_param_3
        0x21)
      k_intel_fdc_register_internal_command 0x20,
    state := FdcState.format_write_data,
    state_count := 0 }

/-- A controller in the middle of a WRITE_DATA of one 128-byte sector on
drive 0, about to write the gap before the data record: state write_gap_2
with count 0, the sector size register 0x01, the data marker register 0xFB,
the command register WRITE_DATA. -/
def intel_fdc_writing_sector : intel_fdc_struct :=
  { intel_fdc_powered_on with
    p_current_drive := some DriveId.drive_0,
    regs := set_reg
      (set_reg
        (set_reg intel_fdc_powered_on.regs
          k_intel_fdc_register_internal_param_3 0x01)
        k_intel_fdc_register_internal_param_data_marker 0xFB)
      k_intel_fdc_register_internal_command 0x08,
    state := FdcState.write_gap_2,
    state_count := 0 }

/-- A controller at the start of the writing of a FORMAT of two 128-byte
sectors on drive 0: state format_gap_1 with count 0, gap 1 of 16 bytes
(param_5), gap 3 of 21 bytes (param_2), the sector size register 0x02, the
command register FORMAT. -/
def intel_fdc_formatting : intel_fdc_struct :=
  { intel_fdc_powered_on with
    p_current_drive := some DriveId.drive_0,
    regs := set_reg
      (set_reg
        (set_reg
          (set_reg intel_fdc_powered_on.regs
            k_intel_fdc_register_internal_param_3 0x02)
          k_intel_fdc_register_internal_param_5 16)
        k_intel_fdc_register_internal_param_2 21)
      k_intel_fdc_register_internal_command 0x20,
    state := FdcState.format_gap_1,
    state_count := 0 }

/-! ## The shift register of the read states -/

/-- The shift register after `n` iterations of the loop of
`intel_fdc_byte_callback` in a read state: each iteration shifts in the top
bit of the clocks byte, then the top bit of the data byte, and moves both
bytes up by one bit. -/
def intel_fdc_shift_bits : Nat → Nat → Nat → Nat → Nat
  | 0, shift_register, _, _ => shift_register
  | n + 1, shift_register, data_byte, clocks_byte =>
    let bit := if clocks_byte &&& 0x80 ≠ 0 then 1 else 0
    let shift_register := (shift_register <<< 1) % 4294967296 ||| bit
    let bit := if data_byte &&& 0x80 ≠ 0 then 1 else 0
    let shift_register := (shift_register <<< 1) % 4294967296 ||| bit
    intel_fdc_shift_bits n shift_register ((data_byte <<< 1) % 256)
      ((clocks_byte <<< 1) % 256)

/-- The clocks byte that `intel_fdc_shift_data_bit` takes out of the sixteen
bits of the shift register. -/
def intel_fdc_shift_register_clocks (shift_register : Nat) : Nat :=
  let clocks_byte := 0
  let clocks_byte :=
    if shift_register &&& 0x8000 ≠ 0 then clocks_byte ||| 0x80 else clocks_byte
  let clocks_byte :=
    if shift_register &&& 0x2000 ≠ 0 then clocks_byte ||| 0x40 else clocks_byte
  let clocks_byte :=
    if shift_register &&& 0x0800 ≠ 0 then clocks_byte ||| 0x20 else clocks_byte
  let clocks_byte :=
    if shift_register &&& 0x0200 ≠ 0 then clocks_byte ||| 0x10 else clocks_byte
  let clocks_byte :=
    if shift_register &&& 0x0080 ≠ 0 then clocks_byte ||| 0x08 else clocks_byte
  let clocks_byte :=
    if shift_register &&& 0x0020 ≠ 0 then clocks_byte ||| 0x04 else clocks_byte
  let clocks_byte :=
    if shift_register &&& 0x0008 ≠ 0 then clocks_byte ||| 0x02 else clocks_byte
  let clocks_byte :=
    if shift_register &&& 0x0002 ≠ 0 then clocks_byte ||| 0x01 else clocks_byte
  clocks_byte

/-- The data byte that `intel_fdc_shift_data_bit` takes out of the sixteen
bits of the shift register. -/
def intel_fdc_shift_register_data (shift_register : Nat) : Nat :=
  let data_byte := 0
  let data_byte :=
    if shift_register &&& 0x4000 ≠ 0 then data_byte ||| 0x80 else data_byte
  let data_byte :=
    if shift_register &&& 0x1000 ≠ 0 then data_byte ||| 0x40 else data_byte
  let data_byte :=
    if shift_register &&& 0x0400 ≠ 0 then data_byte ||| 0x20 else data_byte
  let data_byte :=
    if shift_register &&& 0x0100 ≠ 0 then data_byte ||| 0x10 else data_byte
  let data_byte :=
    if shift_register &&& 0x0040 ≠ 0 then data_byte ||| 0x08 else data_byte
  let data_byte :=
    if shift_register &&& 0x0010 ≠ 0 then data_byte ||| 0x04 else data_byte
  let data_byte :=
    if shift_register &&& 0x0004 ≠ 0 then data_byte ||| 0x02 else data_byte
  let data_byte :=
    if shift_register &&& 0x0001 ≠ 0 then data_byte ||| 0x01 else data_byte
  data_byte

/-- A byte put together from its eight bits, highest first, the way
`intel_fdc_shift_data_bit` does it. -/
def intel_fdc_byte_of_bits (b7 b6 b5 b4 b3 b2 b1 b0 : Bool) : Nat :=
  let v := 0
  let v := if b7 = true then v ||| 0x80 else v
  let v := if b6 = true then v ||| 0x40 else v
  let v := if b5 = true then v ||| 0x20 else v
  let v := if b4 = true then v ||| 0x10 else v
  let v := if b3 = true then v ||| 0x08 else v
  let v := if b2 = true then v ||| 0x04 else v
  let v := if b1 = true then v ||| 0x02 else v
  let v := if b0 = true then v ||| 0x01 else v
  v

/-- The states of `intel_fdc_shift_data_bit` that collect sixteen bits and
hand a byte to `intel_fdc_byte_callback_reading`. -/
def intel_fdc_state_takes_bytes (state : FdcState) : Prop :=
  state = FdcState.check_id_marker ∨ state = FdcState.in_id ∨
    state = FdcState.in_id_crc ∨ state = FdcState.check_data_marker ∨
    state = FdcState.in_data ∨ state = FdcState.in_deleted_data ∨
    state = FdcState.in_data_crc ∨ state = FdcState.skip_gap_2

/-- A controller in the middle of reading an ID: drive 0 selected, state
`in_id`, no bits collected. -/
def intel_fdc_reading_id : intel_fdc_struct :=
  { intel_fdc_powered_on with
    p_current_drive := some DriveId.drive_0,
    regs := set_reg
      (set_reg intel_fdc_powered_on.regs
        k_intel_fdc_register_internal_header_pointer 0x0C)
      k_intel_fdc_register_internal_command 0x18,
    state := FdcState.in_id,
    state_count := 0 }

/-! ## Reading an ID header -/

/-- What the host leaves alone between two byte callbacks of a read: the
state, its count, both CRCs and every register but data and status. -/
def intel_fdc_host_kept_reading (t s : intel_fdc_struct) : Prop :=
  s.state = t.state ∧ s.state_count = t.state_count ∧ s.crc = t.crc ∧
    s.on_disc_crc = t.on_disc_crc ∧
    ∀ r, r ≠ k_intel_fdc_register_internal_data →
      r ≠ k_intel_fdc_register_internal_status → s.regs r = t.regs r

/-- The controller after the host has read the data register. -/
def intel_fdc_host_read_data (s : intel_fdc_struct) : intel_fdc_struct :=
  match intel_fdc_read s k_intel_fdc_data with
  | Except.ok r => r.1
  | Except.error _ => s

/-- A run of `intel_fdc_byte_callback_reading` on the data bytes `bytes 0`,
`bytes 1`, … with clocks 0xFF, the host reading the data register after each
call: the state on entry to call `k + 1`. -/
def intel_fdc_read_run (s : intel_fdc_struct) (bytes : Nat → Nat) :
    Nat → intel_fdc_struct
  | 0 => s
  | k + 1 =>
    match intel_fdc_byte_callback_reading (intel_fdc_read_run s bytes k)
        (bytes k) 0xFF with
    | Except.ok t => intel_fdc_host_read_data t
    | Except.error _ => intel_fdc_host_read_data (intel_fdc_read_run s bytes k)

/-- The six bytes of an ID field after its mark: track 0x27, head 0,
sector 0x05, size code 1 and two CRC bytes. -/
def intel_fdc_id_field_example (k : Nat) : Nat :=
  match k with
  | 0 => 0x27
  | 1 => 0x00
  | 2 => 0x05
  | 3 => 0x01
  | 4 => 0x12
  | _ => 0x34

/-! ## A command written in the middle of a format -/

/-- Successive calls of `intel_fdc_byte_callback_writing` from the state `s`
with no access of the host in between: the state on entry to call `j`. -/
def intel_fdc_quiet_run (s : intel_fdc_struct) : Nat → intel_fdc_struct
  | 0 => s
  | j + 1 =>
    match intel_fdc_byte_callback_writing (intel_fdc_quiet_run s j) with
    | Except.ok t => t
    | Except.error _ => intel_fdc_quiet_run s j

/-- The host writes the command byte 0x00, which takes five parameters, and
the first three parameter bytes 0x00, 0x00 and 0x21, with four calls of
`intel_fdc_write`. -/
def intel_fdc_host_resize (s : intel_fdc_struct) :
    Except Fault intel_fdc_struct :=
  match intel_fdc_write s k_intel_fdc_command 0x00 with
  | Except.error e => Except.error e
  | Except.ok s =>
    match intel_fdc_write s k_intel_fdc_parameter 0x00 with
    | Except.error e => Except.error e
    | Except.ok s =>
      match intel_fdc_write s k_intel_fdc_parameter 0x00 with
      | Except.error e => Except.error e
      | Except.ok s => intel_fdc_write s k_intel_fdc_parameter 0x21

/-- A controller in the middle of a FORMAT of two 128-byte sectors on
drive 0, about to write the data mark of the first: the state
`intel_fdc_formatting` moved on to format_write_data with count 0. -/
def intel_fdc_formatting_small : intel_fdc_struct :=
  { intel_fdc_formatting with
    state := FdcState.format_write_data,
    state_count := 0 }

/-! ## The micro-ops of a block and the registers at run time -/

@[simp] theorem set_reg_same (regs : Nat → Nat) (i v : Nat) :
    set_reg regs i v i = v := by
  simp [set_reg]

theorem set_reg_other (regs : Nat → Nat) (i v j : Nat) (h : j ≠ i) :
    set_reg regs i v j = regs j := by
  simp [set_reg, h]

theorem and_not8_self : ∀ x : Nat, x < 256 → and_not8 x x = 0 := by
  unfold and_not8
  decide

theorem post_seek_frame_refl (s : intel_fdc_struct) : post_seek_frame s s := by
  simp [post_seek_frame]

theorem post_seek_frame_trans {s t u : intel_fdc_struct}
    (h1 : post_seek_frame s t) (h2 : post_seek_frame t u) :
    post_seek_frame s u := by
  obtain ⟨a1, a2, a3, a4, a5, a6, a7, a8, a9, a10⟩ := h1
  obtain ⟨b1, b2, b3, b4, b5, b6, b7, b8, b9, b10⟩ := h2
  refine ⟨fun r hr => (b1 r hr).trans (a1 r hr), b2.trans a2, b3.trans a3,
    b4.trans a4, b5.trans a5, b6.trans a6, b7.trans a7, b8.trans a8,
    b9.trans a9, ?_⟩
  rcases b10 with h | h
  · rw [h]
    exact a10
  · exact Or.inr h

/-- A change of status, result or index-pulse-count register alone stays
inside the post-seek frame. -/
theorem post_seek_frame_set_reg (s : intel_fdc_struct) (i v : Nat)
    (hi : post_seek_footprint i) :
    post_seek_frame s { s with regs := set_reg s.regs i v } := by
  refine ⟨fun r hr => ?_, rfl, rfl, rfl, rfl, rfl, rfl, rfl, rfl, Or.inl rfl⟩
  have : r ≠ i := fun h => hr (h ▸ hi)
  exact set_reg_other _ _ _ _ this

/-- What `intel_fdc_set_drive_out` can change: the spin and side state of the
drives, the current drive pointer and the drive-out latch. -/
theorem intel_fdc_set_drive_out_frame (s : intel_fdc_struct) (v : Nat) :
    ∃ d0 d1 p,
      intel_fdc_set_drive_out s v =
        { s with drive_0 := d0, drive_1 := d1, p_current_drive := p,
                 drive_out := v } ∧
      d0.track = s.drive_0.track ∧ d1.track = s.drive_1.track ∧
      d0.is_write_protect = s.drive_0.is_write_protect ∧
      d1.is_write_protect = s.drive_1.is_write_protect ∧
      d0.is_index_pulse = s.drive_0.is_index_pulse ∧
      d1.is_index_pulse = s.drive_1.is_index_pulse := by
  unfold intel_fdc_set_drive_out
  rcases hp : (if v &&& 0xC0 = 0x40 then s.p_drive_0
    else if v &&& 0xC0 = 0x80 then s.p_drive_1 else none) with _ | a <;>
  rcases hc : s.p_current_drive with _ | c <;>
    by_cases hl : s.drive_out &&& 8 = 0 <;>
    by_cases hv : v &&& 8 = 0 <;>
    (try cases c) <;> (try cases a) <;>
    simp only [hl, hv, hp, disc_drive_stop_spinning, disc_drive_start_spinning,
      disc_drive_select_side, set_drive, get_drive, if_true, if_false, ne_eq,
      not_true_eq_false, not_false_eq_true, k_intel_fdc_drive_out_load_head] <;>
    exact ⟨_, _, _, rfl, rfl, rfl, rfl, rfl, rfl, rfl⟩

@[simp] theorem intel_fdc_set_drive_out_regs (s : intel_fdc_struct) (v : Nat) :
    (intel_fdc_set_drive_out s v).regs = s.regs := by
  obtain ⟨d0, d1, p, h, -⟩ := intel_fdc_set_drive_out_frame s v
  rw [h]

@[simp] theorem intel_fdc_set_drive_out_drive_out (s : intel_fdc_struct) (v : Nat) :
    (intel_fdc_set_drive_out s v).drive_out = v := by
  obtain ⟨d0, d1, p, h, -⟩ := intel_fdc_set_drive_out_frame s v
  rw [h]

@[simp] theorem intel_fdc_set_drive_out_state (s : intel_fdc_struct) (v : Nat) :
    (intel_fdc_set_drive_out s v).state = s.state := by
  obtain ⟨d0, d1, p, h, -⟩ := intel_fdc_set_drive_out_frame s v
  rw [h]

@[simp] theorem intel_fdc_set_drive_out_state_count (s : intel_fdc_struct)
    (v : Nat) : (intel_fdc_set_drive_out s v).state_count = s.state_count := by
  obtain ⟨d0, d1, p, h, -⟩ := intel_fdc_set_drive_out_frame s v
  rw [h]

@[simp] theorem intel_fdc_set_drive_out_parameter_callback
    (s : intel_fdc_struct) (v : Nat) :
    (intel_fdc_set_drive_out s v).parameter_callback = s.parameter_callback := by
  obtain ⟨d0, d1, p, h, -⟩ := intel_fdc_set_drive_out_frame s v
  rw [h]

@[simp] theorem intel_fdc_set_drive_out_index_pulse_callback
    (s : intel_fdc_struct) (v : Nat) :
    (intel_fdc_set_drive_out s v).index_pulse_callback =
      s.index_pulse_callback := by
  obtain ⟨d0, d1, p, h, -⟩ := intel_fdc_set_drive_out_frame s v
  rw [h]

@[simp] theorem intel_fdc_set_drive_out_timer_state (s : intel_fdc_struct)
    (v : Nat) : (intel_fdc_set_drive_out s v).timer_state = s.timer_state := by
  obtain ⟨d0, d1, p, h, -⟩ := intel_fdc_set_drive_out_frame s v
  rw [h]

@[simp] theorem intel_fdc_set_drive_out_timer_running (s : intel_fdc_struct)
    (v : Nat) : (intel_fdc_set_drive_out s v).timer_running = s.timer_running := by
  obtain ⟨d0, d1, p, h, -⟩ := intel_fdc_set_drive_out_frame s v
  rw [h]

@[simp] theorem intel_fdc_set_drive_out_nmi_level (s : intel_fdc_struct)
    (v : Nat) : (intel_fdc_set_drive_out s v).nmi_level = s.nmi_level := by
  obtain ⟨d0, d1, p, h, -⟩ := intel_fdc_set_drive_out_frame s v
  rw [h]

@[simp] theorem intel_fdc_set_drive_out_drive_writes (s : intel_fdc_struct)
    (v : Nat) : (intel_fdc_set_drive_out s v).drive_writes = s.drive_writes := by
  obtain ⟨d0, d1, p, h, -⟩ := intel_fdc_set_drive_out_frame s v
  rw [h]

theorem intel_fdc_set_drive_out_none (s : intel_fdc_struct) :
    (intel_fdc_set_drive_out s 0).p_current_drive = none := by
  unfold intel_fdc_set_drive_out
  rcases hc : s.p_current_drive with _ | c <;>
    by_cases hl : s.drive_out &&& 8 = 0 <;>
    simp [hl, disc_drive_stop_spinning, set_drive, get_drive]

theorem intel_fdc_set_drive_out_post_seek_frame (s : intel_fdc_struct)
    (v : Nat) : post_seek_frame s (intel_fdc_set_drive_out s v) := by
  obtain ⟨d0, d1, p, h, h1, h2, h3, h4, -⟩ := intel_fdc_set_drive_out_frame s v
  rw [h]
  exact ⟨fun _ _ => rfl, rfl, h1, h2, h3, h4, rfl, rfl, rfl, Or.inl rfl⟩

theorem intel_fdc_status_raise_eq (s : intel_fdc_struct) (bits : Nat) :
    intel_fdc_status_raise s bits =
      { s with
        regs := set_reg s.regs 0x17 ((s.regs 0x17 ||| bits) % 256),
        nmi_level :=
          if bits &&& 8 ≠ 0 then decide ((s.regs 0x17 ||| bits) % 256 &&& 8 ≠ 0)
          else s.nmi_level } := by
  unfold intel_fdc_status_raise
  by_cases h : bits &&& 8 = 0 <;>
    simp [h, intel_fdc_update_nmi, intel_fdc_get_status,
      state_6502_set_irq_level]

theorem intel_fdc_status_lower_eq (s : intel_fdc_struct) (bits : Nat) :
    intel_fdc_status_lower s bits =
      { s with
        regs := set_reg s.regs 0x17 (and_not8 (s.regs 0x17) bits),
        nmi_level :=
          if bits &&& 8 ≠ 0 then decide (and_not8 (s.regs 0x17) bits &&& 8 ≠ 0)
          else s.nmi_level } := by
  unfold intel_fdc_status_lower
  by_cases h : bits &&& 8 = 0 <;>
    simp [h, intel_fdc_update_nmi, intel_fdc_get_status,
      state_6502_set_irq_level]

theorem intel_fdc_set_state_eq (s : intel_fdc_struct) (st : FdcState) :
    intel_fdc_set_state s st =
      { s with
        state := st,
        state_count := 0,
        shift_register :=
          if st = FdcState.syncing_for_id ∨ st = FdcState.syncing_for_data then 0
          else s.shift_register,
        num_shifts :=
          if st = FdcState.syncing_for_id ∨ st = FdcState.syncing_for_data then 0
          else s.num_shifts } := by
  unfold intel_fdc_set_state
  by_cases h : st = FdcState.syncing_for_id ∨ st = FdcState.syncing_for_data <;>
    simp [h]

theorem intel_fdc_clear_callbacks_eq (s : intel_fdc_struct) :
    intel_fdc_clear_callbacks s =
      { s with
        parameter_callback := ParameterCallback.accept_none,
        index_pulse_callback := IndexPulseCallback.none,
        timer_state := TimerState.none,
        timer_running :=
          if s.timer_state ≠ TimerState.none then false else s.timer_running } := by
  unfold intel_fdc_clear_callbacks
  by_cases h : s.timer_state = TimerState.none <;>
    simp [h, timing_stop_timer]

theorem intel_fdc_command_abort_eq (s : intel_fdc_struct) :
    intel_fdc_command_abort s =
      { s with
        nmi_level := false,
        drive_writes :=
          if s.state = FdcState.write_sector_data ∨
              s.state = FdcState.format_write_id ∨
              s.state = FdcState.format_write_data then
            s.drive_writes ++ [⟨s.p_current_drive, 0xFF, 0xFF⟩]
          else s.drive_writes } := by
  unfold intel_fdc_command_abort
  by_cases h : s.state = FdcState.write_sector_data ∨
      s.state = FdcState.format_write_id ∨
      s.state = FdcState.format_write_data <;>
    simp [h, disc_drive_write_byte, state_6502_set_irq_level]

theorem intel_fdc_set_result_eq (s : intel_fdc_struct) (v : Nat) :
    intel_fdc_set_result s v =
      { s with
        regs := set_reg (set_reg s.regs 0x16 v) 0x17
          ((s.regs 0x17 ||| 0x10) % 256) } := by
  unfold intel_fdc_set_result
  rw [intel_fdc_status_raise_eq]
  simp +decide [set_reg]

theorem not_post_seek_footprint {r : Nat} (h : ¬ post_seek_footprint r) :
    r ≠ 0x00 ∧ r ≠ 0x08 ∧ r ≠ 0x13 ∧ r ≠ 0x14 ∧ r ≠ 0x15 ∧ r ≠ 0x16 ∧
      r ≠ 0x17 ∧ r ≠ 0x1B ∧ r ≠ 0x1C := by
  simpa [post_seek_footprint, not_or] using h

/-- What `intel_fdc_finish_simple_command` does to the fields the claims
speak about. -/
theorem intel_fdc_finish_simple_command_summary (s : intel_fdc_struct) :
    (intel_fdc_finish_simple_command s).state = FdcState.idle ∧
      (intel_fdc_finish_simple_command s).parameter_callback =
        ParameterCallback.accept_none ∧
      (intel_fdc_finish_simple_command s).timer_state = TimerState.none ∧
      (intel_fdc_finish_simple_command s).regs 0x17 =
        and_not8 (s.regs 0x17) 0x80 ∧
      (∀ r, r ≠ 0x17 → r ≠ 0x1C →
        (intel_fdc_finish_simple_command s).regs r = s.regs r) ∧
      ((intel_fdc_finish_simple_command s).drive_out = s.drive_out ∨
        (intel_fdc_finish_simple_command s).drive_out =
          and_not8 s.drive_out 0xC8) ∧
      (intel_fdc_finish_simple_command s).nmi_level = s.nmi_level ∧
      post_seek_frame s (intel_fdc_finish_simple_command s) := by
  unfold intel_fdc_finish_simple_command intel_fdc_spindown
    intel_fdc_drive_out_lower intel_fdc_lower_busy_and_log
  simp only [intel_fdc_clear_callbacks_eq, intel_fdc_status_lower_eq,
    intel_fdc_set_state_eq]
  have hf : ∀ v, post_seek_frame s
      { s with
        state := FdcState.idle, state_count := 0,
        regs := set_reg s.regs 0x17 v,
        parameter_callback := ParameterCallback.accept_none,
        index_pulse_callback := IndexPulseCallback.none,
        timer_state := TimerState.none,
        timer_running := if s.timer_state ≠ TimerState.none then false
          else s.timer_running } := by
    intro v
    refine ⟨fun r hr => ?_, rfl, rfl, rfl, rfl, rfl, rfl, rfl, rfl, Or.inr rfl⟩
    have : r ≠ 0x17 := fun h => hr (by simp [post_seek_footprint, h])
    exact set_reg_other _ _ _ _ this
  by_cases h0 : s.regs 0x0F >>> 4 = 0
  · simp +decide [h0, set_reg]
    refine ⟨fun r h1 _ => by simp [h1], ?_⟩
    refine post_seek_frame_trans (hf (and_not8 (s.regs 0x17) 0x80)) ?_
    simpa [set_reg] using intel_fdc_set_drive_out_post_seek_frame _ _
  · by_cases hf15 : s.regs 0x0F >>> 4 = 0xF
    · simp +decide [h0, hf15, set_reg]
      refine ⟨fun r h1 _ => by simp [h1], ?_⟩
      simpa [set_reg] using hf (and_not8 (s.regs 0x17) 0x80)
    · simp +decide [h0, hf15, set_reg]
      refine ⟨fun r h1 h2 => by simp [h1, h2], ?_⟩
      refine ⟨fun r hr => ?_, rfl, rfl, rfl, rfl, rfl, rfl, rfl, rfl, Or.inr rfl⟩
      obtain ⟨-, -, -, -, -, -, h23, -, h28⟩ := not_post_seek_footprint hr
      simp [set_reg, h23, h28]

theorem byte_or_mod (x y : Nat) (hx : x < 256) (hy : y < 256) :
    (x ||| y) % 256 = x ||| y := by
  have := @Nat.or_lt_two_pow x y 8 hx hy
  omega

theorem and_not8_lt (x bits : Nat) (hx : x < 256) : and_not8 x bits < 256 := by
  unfold and_not8
  have := @Nat.and_le_left x (255 ^^^ bits)
  omega

theorem status_after_finish : ∀ st : Nat, st < 256 →
    and_not8 (((st ||| 0x10) % 256 ||| 0x08) % 256) 0x80 &&& 0x98 = 0x18 := by
  unfold and_not8
  decide

theorem drive_out_lowered_bits (d : Nat) :
    and_not8 d 0x07 &&& 0x07 = 0 ∧ and_not8 (and_not8 d 0x07) 0xC8 &&& 0x07 = 0 := by
  unfold and_not8
  constructor
  · rw [Nat.land_assoc]
    exact Nat.and_zero _
  · rw [Nat.land_assoc, Nat.land_assoc]
    exact Nat.and_zero _

theorem nmi_raised_bit (x : Nat) : ¬ ((x ||| 8) % 256 &&& 8 = 0) := by
  intro h
  have h1 := congrArg (fun n => Nat.testBit n 3) h
  have h8 : Nat.testBit 8 3 = true := by decide
  simp [Nat.testBit_and, Nat.testBit_or, Nat.testBit_mod_two_pow _ 8, h8] at h1

/-- The state `intel_fdc_finish_command` hands to
`intel_fdc_finish_simple_command`. -/
theorem intel_fdc_finish_command_unfold (s : intel_fdc_struct) (result : Nat) :
    ∃ m, intel_fdc_finish_command s result =
        intel_fdc_finish_simple_command m ∧
      m.regs 0x16 = (result ||| s.regs 0x16) % 256 ∧
      m.regs 0x17 = ((s.regs 0x17 ||| 0x10) % 256 ||| 0x08) % 256 ∧
      (∀ r, r ≠ 0x16 → r ≠ 0x17 → m.regs r = s.regs r) ∧
      m.nmi_level = true ∧
      (result ≠ 0 → m.drive_out = and_not8 s.drive_out 0x07) ∧
      (result = 0 → m.drive_out = s.drive_out) ∧
      post_seek_frame s m := by
  have hfr : ∀ a : intel_fdc_struct, post_seek_frame s a →
      post_seek_frame s
        (intel_fdc_status_raise
          (intel_fdc_set_result a ((result ||| intel_fdc_get_result a) % 256))
          k_intel_fdc_status_flag_nmi) := by
    intro a ha
    refine post_seek_frame_trans ha ?_
    rw [intel_fdc_status_raise_eq, intel_fdc_set_result_eq]
    refine ⟨fun r hr => ?_, rfl, rfl, rfl, rfl, rfl, rfl, rfl, rfl, Or.inl rfl⟩
    obtain ⟨-, -, -, -, -, h22, h23, -, -⟩ := not_post_seek_footprint hr
    simp [set_reg, h22, h23]
  by_cases hr : result = 0
  · refine ⟨_, by unfold intel_fdc_finish_command; rfl, ?_, ?_, ?_, ?_, ?_, ?_, ?_⟩
    · simp +decide [hr, intel_fdc_status_raise_eq, intel_fdc_set_result_eq,
        intel_fdc_get_result, set_reg]
    · simp +decide [hr, intel_fdc_status_raise_eq, intel_fdc_set_result_eq,
        intel_fdc_get_result, set_reg]
    · intro r h1 h2
      simp +decide [hr, intel_fdc_status_raise_eq, intel_fdc_set_result_eq,
        intel_fdc_get_result, set_reg, h1, h2]
    · simp +decide [hr, intel_fdc_status_raise_eq, intel_fdc_set_result_eq,
        intel_fdc_get_result, set_reg, nmi_raised_bit]
    · exact fun h => absurd hr h
    · intro _
      simp +decide [hr, intel_fdc_status_raise_eq, intel_fdc_set_result_eq]
    · simpa [hr] using hfr s (post_seek_frame_refl s)
  · refine ⟨_, by unfold intel_fdc_finish_command; rfl, ?_, ?_, ?_, ?_, ?_, ?_, ?_⟩
    · simp +decide [hr, intel_fdc_status_raise_eq, intel_fdc_set_result_eq,
        intel_fdc_get_result, set_reg, intel_fdc_drive_out_lower]
    · simp +decide [hr, intel_fdc_status_raise_eq, intel_fdc_set_result_eq,
        intel_fdc_get_result, set_reg, intel_fdc_drive_out_lower]
    · intro r h1 h2
      simp +decide [hr, intel_fdc_status_raise_eq, intel_fdc_set_result_eq,
        intel_fdc_get_result, set_reg, h1, h2, intel_fdc_drive_out_lower]
    · simp +decide [hr, intel_fdc_status_raise_eq, intel_fdc_set_result_eq,
        intel_fdc_get_result, set_reg, nmi_raised_bit]
    · intro _
      simp +decide [hr, intel_fdc_status_raise_eq, intel_fdc_set_result_eq,
        intel_fdc_drive_out_lower]
    · exact fun h => absurd h hr
    · simpa [hr, intel_fdc_drive_out_lower] using
        hfr _ (intel_fdc_set_drive_out_post_seek_frame s _)

/-- What `intel_fdc_finish_command` does to the fields the claims speak
about. -/
theorem intel_fdc_finish_command_summary (s : intel_fdc_struct) (result : Nat) :
    (intel_fdc_finish_command s result).state = FdcState.idle ∧
      (intel_fdc_finish_command s result).parameter_callback =
        ParameterCallback.accept_none ∧
      (intel_fdc_finish_command s result).timer_state = TimerState.none ∧
      (intel_fdc_finish_command s result).regs 0x16 =
        (result ||| s.regs 0x16) % 256 ∧
      (intel_fdc_finish_command s result).regs 0x17 =
        and_not8 (((s.regs 0x17 ||| 0x10) % 256 ||| 0x08) % 256) 0x80 ∧
      (∀ r, r ≠ 0x16 → r ≠ 0x17 → r ≠ 0x1C →
        (intel_fdc_finish_command s result).regs r = s.regs r) ∧
      (result ≠ 0 → (intel_fdc_finish_command s result).drive_out &&& 0x07 = 0) ∧
      (s.drive_out &&& 0x01 = 0 →
        (intel_fdc_finish_command s result).drive_out &&& 0x01 = 0) ∧
      (intel_fdc_finish_command s result).nmi_level = true ∧
      post_seek_frame s (intel_fdc_finish_command s result) := by
  obtain ⟨m, hm, m1, m2, m3, m4, m5, m6, m7⟩ :=
    intel_fdc_finish_command_unfold s result
  obtain ⟨f1, f2, f3, f4, f5, f6, f7, f8⟩ :=
    intel_fdc_finish_simple_command_summary m
  rw [hm]
  refine ⟨f1, f2, f3, ?_, ?_, ?_, ?_, ?_, ?_, post_seek_frame_trans m7 f8⟩
  · rw [f5 _ (by decide) (by decide), m1]
  · rw [f4, m2]
  · intro r h1 h2 h3
    rw [f5 _ h2 h3, m3 _ h1 h2]
  · intro hr
    rcases f6 with h | h <;> rw [h, m5 hr]
    · exact (drive_out_lowered_bits s.drive_out).1
    · exact (drive_out_lowered_bits s.drive_out).2
  · intro hw
    have hlow : ∀ d : Nat, d &&& 1 = 0 → and_not8 d 0xC8 &&& 1 = 0 := by
      intro d hd
      unfold and_not8
      rw [Nat.land_assoc, Nat.land_comm (255 ^^^ 200) 1, ← Nat.land_assoc, hd]
      exact Nat.zero_and _
    have hm0 : m.drive_out &&& 1 = 0 := by
      by_cases hr : result = 0
      · rw [m6 hr]
        exact hw
      · rw [m5 hr]
        unfold and_not8
        rw [Nat.land_assoc]
        exact Nat.and_zero _
    rcases f6 with h | h <;> rw [h]
    · exact hm0
    · exact hlow _ hm0
  · rw [f7, m4]

theorem nmi_raised_bit_of (x b : Nat) (hb : Nat.testBit b 3 = true) :
    ¬ ((x ||| b) % 256 &&& 8 = 0) := by
  intro h
  have h1 := congrArg (fun n => Nat.testBit n 3) h
  have h8 : Nat.testBit 8 3 = true := by decide
  simp [Nat.testBit_and, Nat.testBit_or, Nat.testBit_mod_two_pow _ 8, h8, hb] at h1

theorem intel_fdc_check_data_loss_ok_late (s : intel_fdc_struct)
    (h : s.regs 0x17 &&& 0x04 ≠ 0) :
    intel_fdc_check_data_loss_ok s =
      (intel_fdc_finish_command (intel_fdc_command_abort s) 0x0A, false) := by
  unfold intel_fdc_check_data_loss_ok
  simp [intel_fdc_get_status, h]

theorem intel_fdc_check_data_loss_ok_in_time (s : intel_fdc_struct)
    (h : s.regs 0x17 &&& 0x04 = 0)
    (h0 : intel_fdc_get_internal_command s ≠ 0)
    (h1 : intel_fdc_get_internal_command s ≠ 1) :
    intel_fdc_check_data_loss_ok s = (s, true) := by
  unfold intel_fdc_check_data_loss_ok
  simp [intel_fdc_get_status, h, h0, h1]

theorem intel_fdc_finish_command_frame (s : intel_fdc_struct) (result : Nat) :
    post_seek_frame s (intel_fdc_finish_command s result) :=
  (intel_fdc_finish_command_summary s result).2.2.2.2.2.2.2.2.2

theorem intel_fdc_do_read_drive_status_eq (s : intel_fdc_struct) :
    intel_fdc_do_read_drive_status s =
      ({ s with
        regs := set_reg (set_reg s.regs 0x15 (intel_fdc_read_drive_in s)) 0x1B
          (intel_fdc_read_drive_in s &&& (s.regs 0x1B ||| 0xBB) % 256) },
        intel_fdc_read_drive_in s &&& (s.regs 0x1B ||| 0xBB) % 256) := by
  unfold intel_fdc_do_read_drive_status
  simp [set_reg]
  funext j
  by_cases h1 : j = 27 <;> by_cases h2 : j = 21 <;> simp [set_reg, h1, h2]

theorem intel_fdc_do_read_drive_status_frame (s : intel_fdc_struct) :
    post_seek_frame s (intel_fdc_do_read_drive_status s).1 := by
  rw [intel_fdc_do_read_drive_status_eq]
  refine ⟨fun r hr => ?_, rfl, rfl, rfl, rfl, rfl, rfl, rfl, rfl, Or.inl rfl⟩
  obtain ⟨-, -, -, -, h21, -, -, h27, -⟩ := not_post_seek_footprint hr
  simp [set_reg, h21, h27]

/-- The two outcomes of `intel_fdc_check_drive_ready`. -/
theorem intel_fdc_check_drive_ready_cases (s : intel_fdc_struct) :
    intel_fdc_check_drive_ready s = ((intel_fdc_do_read_drive_status s).1, true) ∨
      intel_fdc_check_drive_ready s =
        (intel_fdc_finish_command (intel_fdc_do_read_drive_status s).1
          k_intel_fdc_result_drive_not_ready, false) := by
  unfold intel_fdc_check_drive_ready
  simp only []
  split_ifs
  · exact Or.inr rfl
  · exact Or.inl rfl
  · exact Or.inr rfl
  · exact Or.inl rfl

theorem intel_fdc_check_drive_ready_frame (s : intel_fdc_struct) :
    post_seek_frame s (intel_fdc_check_drive_ready s).1 := by
  rcases intel_fdc_check_drive_ready_cases s with h | h <;> rw [h]
  · exact intel_fdc_do_read_drive_status_frame s
  · exact post_seek_frame_trans (intel_fdc_do_read_drive_status_frame s)
      (intel_fdc_finish_command_frame _ _)

theorem intel_fdc_setup_sector_size_frame (s : intel_fdc_struct) :
    post_seek_frame s (intel_fdc_setup_sector_size s) := by
  unfold intel_fdc_setup_sector_size
  refine ⟨fun r hr => ?_, rfl, rfl, rfl, rfl, rfl, rfl, rfl, rfl, Or.inl rfl⟩
  obtain ⟨h0, -, h19, h20, -, -, -, -, -⟩ := not_post_seek_footprint hr
  simp [set_reg, h0, h19, h20]

theorem intel_fdc_start_index_pulse_timeout_frame (s : intel_fdc_struct) :
    post_seek_frame s (intel_fdc_start_index_pulse_timeout s) := by
  unfold intel_fdc_start_index_pulse_timeout
  refine ⟨fun r hr => ?_, rfl, rfl, rfl, rfl, rfl, rfl, rfl, rfl, Or.inl rfl⟩
  obtain ⟨-, -, -, -, -, -, -, -, h28⟩ := not_post_seek_footprint hr
  simp [set_reg, h28]

theorem intel_fdc_set_state_frame (s : intel_fdc_struct) (st : FdcState) :
    post_seek_frame s (intel_fdc_set_state s st) := by
  rw [intel_fdc_set_state_eq]
  exact ⟨fun _ _ => rfl, rfl, rfl, rfl, rfl, rfl, rfl, rfl, rfl, Or.inl rfl⟩

theorem intel_fdc_start_syncing_for_header_frame (s : intel_fdc_struct) :
    post_seek_frame s (intel_fdc_start_syncing_for_header s) := by
  unfold intel_fdc_start_syncing_for_header
  refine post_seek_frame_trans ?_ (intel_fdc_set_state_frame _ _)
  exact post_seek_frame_set_reg s 0x08 0x0C (by simp [post_seek_footprint])

theorem intel_fdc_set_timer_ms_frame (s : intel_fdc_struct) (ts : TimerState)
    (ms : Nat) : post_seek_frame s (intel_fdc_set_timer_ms s ts ms) := by
  unfold intel_fdc_set_timer_ms timing_start_timer_with_value timing_stop_timer
  split <;>
    exact ⟨fun _ _ => rfl, rfl, rfl, rfl, rfl, rfl, rfl, rfl, rfl, Or.inl rfl⟩

theorem intel_fdc_post_seek_dispatch_frame (s : intel_fdc_struct) :
    post_seek_frame s (intel_fdc_post_seek_dispatch s) := by
  unfold intel_fdc_post_seek_dispatch
  have h0 : post_seek_frame s { s with timer_state := TimerState.none } :=
    ⟨fun _ _ => rfl, rfl, rfl, rfl, rfl, rfl, rfl, rfl, rfl, Or.inl rfl⟩
  have h1 := post_seek_frame_trans h0
    (intel_fdc_check_drive_ready_frame { s with timer_state := TimerState.none })
  simp only []
  split_ifs <;>
    repeat (first
      | exact h1
      | refine post_seek_frame_trans ?_ (intel_fdc_finish_command_frame _ _)
      | refine post_seek_frame_trans ?_ (intel_fdc_set_state_frame _ _)
      | refine post_seek_frame_trans ?_ (intel_fdc_setup_sector_size_frame _)
      | refine post_seek_frame_trans ?_
          (intel_fdc_start_index_pulse_timeout_frame _)
      | refine post_seek_frame_trans ?_
          (intel_fdc_start_syncing_for_header_frame _))

theorem intel_fdc_do_load_head_frame (s : intel_fdc_struct) (is_settle : Bool) :
    post_seek_frame s (intel_fdc_do_load_head s is_settle) := by
  unfold intel_fdc_do_load_head intel_fdc_drive_out_raise
  simp only []
  split_ifs <;>
    repeat (first
      | exact post_seek_frame_refl s
      | refine post_seek_frame_trans ?_ (intel_fdc_set_timer_ms_frame _ _ _)
      | refine post_seek_frame_trans ?_ (intel_fdc_post_seek_dispatch_frame _)
      | refine post_seek_frame_trans ?_
          (intel_fdc_set_drive_out_post_seek_frame _ _))

theorem low_head_current_keeps_direction : ∀ d : Nat, d < 256 →
    (d ||| 0x10) % 256 &&& 0x04 = d &&& 0x04 := by
  decide

theorem intel_fdc_do_seek_track_regs_cases (s : intel_fdc_struct) :
    intel_fdc_do_seek_track_regs s = 0x18 ∨
      intel_fdc_do_seek_track_regs s = 0x10 := by
  unfold intel_fdc_do_seek_track_regs
  split_ifs
  · exact Or.inl rfl
  · exact Or.inr rfl

theorem intel_fdc_check_drive_ready_of_ready (s : intel_fdc_struct)
    (h : (intel_fdc_check_drive_ready s).2 = true) :
    intel_fdc_check_drive_ready s =
      ((intel_fdc_do_read_drive_status s).1, true) := by
  rcases intel_fdc_check_drive_ready_cases s with h1 | h1
  · exact h1
  · rw [h1] at h
    exact absurd h (by simp)

theorem intel_fdc_check_drive_ready_timer_state (s : intel_fdc_struct)
    (ts : TimerState) :
    (intel_fdc_check_drive_ready { s with timer_state := ts }).2 =
      (intel_fdc_check_drive_ready s).2 := by
  unfold intel_fdc_check_drive_ready
  simp only [intel_fdc_do_read_drive_status_eq]
  have hin : intel_fdc_read_drive_in { s with timer_state := ts } =
      intel_fdc_read_drive_in s := rfl
  simp only [hin]
  split_ifs <;> rfl

theorem intel_fdc_command_is_writing_iff (s : intel_fdc_struct) :
    intel_fdc_command_is_writing s = true ↔
      (intel_fdc_get_internal_command s = 2 ∨
        intel_fdc_get_internal_command s = 3 ∨
        intel_fdc_get_internal_command s = 8) := by
  unfold intel_fdc_command_is_writing
  simp

theorem intel_fdc_get_internal_command_congr (s t : intel_fdc_struct)
    (h : t.regs 0x1F = s.regs 0x1F) :
    intel_fdc_get_internal_command t = intel_fdc_get_internal_command s := by
  unfold intel_fdc_get_internal_command
  simp [h]

/-- With a ready, write-protected drive and a writing command,
`intel_fdc_post_seek_dispatch` ends in `intel_fdc_finish_command` with the
write-protected code, from a state that differs from the start only inside
the post-seek frame and has the same result and status registers. -/
theorem intel_fdc_post_seek_dispatch_write_protected (s : intel_fdc_struct)
    (hw : intel_fdc_command_is_writing s = true)
    (hready : (intel_fdc_check_drive_ready s).2 = true)
    (hwp : (intel_fdc_do_read_drive_status s).1.regs 0x1B &&& 0x08 ≠ 0) :
    ∃ m, intel_fdc_post_seek_dispatch s =
        intel_fdc_finish_command m k_intel_fdc_result_write_protected ∧
      m.regs 0x16 = s.regs 0x16 ∧ m.regs 0x17 = s.regs 0x17 ∧
      post_seek_frame s m := by
  have hr0 : (intel_fdc_check_drive_ready
      { s with timer_state := TimerState.none }).2 = true := by
    rw [intel_fdc_check_drive_ready_timer_state]
    exact hready
  have hr1 := intel_fdc_check_drive_ready_of_ready _ hr0
  have hcmd := (intel_fdc_command_is_writing_iff s).1 hw
  have hin : intel_fdc_read_drive_in { s with timer_state := TimerState.none } =
      intel_fdc_read_drive_in s := rfl
  have e1 : (intel_fdc_do_read_drive_status
      { s with timer_state := TimerState.none }).1.regs =
      (intel_fdc_do_read_drive_status s).1.regs := by
    simp only [intel_fdc_do_read_drive_status_eq, hin]
  have f1 : (intel_fdc_do_read_drive_status
      { s with timer_state := TimerState.none }).1.regs 0x1F = s.regs 0x1F := by
    rw [e1, intel_fdc_do_read_drive_status_eq]
    simp [set_reg]
  have f2 : (intel_fdc_do_read_drive_status
      { s with timer_state := TimerState.none }).1.regs 0x16 = s.regs 0x16 := by
    rw [e1, intel_fdc_do_read_drive_status_eq]
    simp [set_reg]
  have f3 : (intel_fdc_do_read_drive_status
      { s with timer_state := TimerState.none }).1.regs 0x17 = s.regs 0x17 := by
    rw [e1, intel_fdc_do_read_drive_status_eq]
    simp [set_reg]
  have f4 : (intel_fdc_do_read_drive_status
      { s with timer_state := TimerState.none }).1.regs 0x1B &&& 0x08 ≠ 0 := by
    rw [e1]
    exact hwp
  have f5 : post_seek_frame s (intel_fdc_do_read_drive_status
      { s with timer_state := TimerState.none }).1 :=
    post_seek_frame_trans
      ⟨fun _ _ => rfl, rfl, rfl, rfl, rfl, rfl, rfl, rfl, rfl, Or.inl rfl⟩
      (intel_fdc_do_read_drive_status_frame _)
  unfold intel_fdc_post_seek_dispatch
  simp only [hr1]
  generalize (intel_fdc_do_read_drive_status
      { s with timer_state := TimerState.none }).1 = s1 at f1 f2 f3 f4 f5 ⊢
  have hc1 : intel_fdc_get_internal_command s1 =
      intel_fdc_get_internal_command s :=
    intel_fdc_get_internal_command_congr s s1 f1
  have hwr : ∀ u : intel_fdc_struct, u.regs 0x1F = s1.regs 0x1F →
      intel_fdc_command_is_writing u = true := by
    intro u hu
    rw [intel_fdc_command_is_writing_iff,
      intel_fdc_get_internal_command_congr s1 u hu, hc1]
    exact hcmd
  rcases hcmd with h | h | h
  · refine ⟨intel_fdc_start_syncing_for_header
      (intel_fdc_start_index_pulse_timeout (intel_fdc_setup_sector_size s1)),
      ?_, ?_, ?_, ?_⟩
    · have hw2 := hwr (intel_fdc_start_syncing_for_header
        (intel_fdc_start_index_pulse_timeout (intel_fdc_setup_sector_size s1)))
        (by simp [intel_fdc_setup_sector_size,
          intel_fdc_start_index_pulse_timeout,
          intel_fdc_start_syncing_for_header, intel_fdc_set_state_eq, set_reg])
      have hb : (intel_fdc_start_syncing_for_header
          (intel_fdc_start_index_pulse_timeout
            (intel_fdc_setup_sector_size s1))).regs 0x1B = s1.regs 0x1B := by
        simp [intel_fdc_setup_sector_size, intel_fdc_start_index_pulse_timeout,
          intel_fdc_start_syncing_for_header, intel_fdc_set_state_eq, set_reg]
      simp +decide [hc1, h, hw2, hb, f4]
    · rw [← f2]
      simp [intel_fdc_setup_sector_size, intel_fdc_start_index_pulse_timeout,
        intel_fdc_start_syncing_for_header, intel_fdc_set_state_eq, set_reg]
    · rw [← f3]
      simp [intel_fdc_setup_sector_size, intel_fdc_start_index_pulse_timeout,
        intel_fdc_start_syncing_for_header, intel_fdc_set_state_eq, set_reg]
    · exact post_seek_frame_trans f5
        (post_seek_frame_trans (intel_fdc_setup_sector_size_frame _)
          (post_seek_frame_trans (intel_fdc_start_index_pulse_timeout_frame _)
            (intel_fdc_start_syncing_for_header_frame _)))
  · refine ⟨intel_fdc_start_syncing_for_header
      (intel_fdc_start_index_pulse_timeout (intel_fdc_setup_sector_size s1)),
      ?_, ?_, ?_, ?_⟩
    · have hw2 := hwr (intel_fdc_start_syncing_for_header
        (intel_fdc_start_index_pulse_timeout (intel_fdc_setup_sector_size s1)))
        (by simp [intel_fdc_setup_sector_size,
          intel_fdc_start_index_pulse_timeout,
          intel_fdc_start_syncing_for_header, intel_fdc_set_state_eq, set_reg])
      have hb : (intel_fdc_start_syncing_for_header
          (intel_fdc_start_index_pulse_timeout
            (intel_fdc_setup_sector_size s1))).regs 0x1B = s1.regs 0x1B := by
        simp [intel_fdc_setup_sector_size, intel_fdc_start_index_pulse_timeout,
          intel_fdc_start_syncing_for_header, intel_fdc_set_state_eq, set_reg]
      simp +decide [hc1, h, hw2, hb, f4]
    · rw [← f2]
      simp [intel_fdc_setup_sector_size, intel_fdc_start_index_pulse_timeout,
        intel_fdc_start_syncing_for_header, intel_fdc_set_state_eq, set_reg]
    · rw [← f3]
      simp [intel_fdc_setup_sector_size, intel_fdc_start_index_pulse_timeout,
        intel_fdc_start_syncing_for_header, intel_fdc_set_state_eq, set_reg]
    · exact post_seek_frame_trans f5
        (post_seek_frame_trans (intel_fdc_setup_sector_size_frame _)
          (post_seek_frame_trans (intel_fdc_start_index_pulse_timeout_frame _)
            (intel_fdc_start_syncing_for_header_frame _)))
  · refine ⟨intel_fdc_set_state (intel_fdc_setup_sector_size s1)
      FdcState.wait_no_index, ?_, ?_, ?_, ?_⟩
    · have hw2 := hwr (intel_fdc_set_state (intel_fdc_setup_sector_size s1)
        FdcState.wait_no_index)
        (by simp [intel_fdc_setup_sector_size, intel_fdc_set_state_eq, set_reg])
      have hb : (intel_fdc_set_state (intel_fdc_setup_sector_size s1)
          FdcState.wait_no_index).regs 0x1B = s1.regs 0x1B := by
        simp [intel_fdc_setup_sector_size, intel_fdc_set_state_eq, set_reg]
      simp +decide [hc1, h, hw2, hb, f4]
    · rw [← f2]
      simp [intel_fdc_setup_sector_size, intel_fdc_set_state_eq, set_reg]
    · rw [← f3]
      simp [intel_fdc_setup_sector_size, intel_fdc_set_state_eq, set_reg]
    · exact post_seek_frame_trans f5
        (post_seek_frame_trans (intel_fdc_setup_sector_size_frame _)
          (intel_fdc_set_state_frame _ _))

theorem intel_fdc_spindown_eq (s : intel_fdc_struct) :
    intel_fdc_spindown s = intel_fdc_set_drive_out s (and_not8 s.drive_out 0xC8) := by
  unfold intel_fdc_spindown intel_fdc_drive_out_lower
  rfl

theorem and_not8_keeps_write_enable_clear (d bits : Nat) (h : d &&& 1 = 0) :
    and_not8 d bits &&& 1 = 0 := by
  unfold and_not8
  rw [Nat.land_assoc, Nat.land_comm (255 ^^^ bits) 1, ← Nat.land_assoc, h]
  exact Nat.zero_and _

theorem intel_fdc_spindown_idle (a : intel_fdc_struct)
    (hs : a.state = FdcState.idle) (hw : a.drive_out &&& 0x01 = 0) :
    (intel_fdc_spindown a).state = FdcState.idle ∧
      (intel_fdc_spindown a).drive_out &&& 0x01 = 0 ∧
      (intel_fdc_spindown a).drive_writes = a.drive_writes := by
  rw [intel_fdc_spindown_eq]
  simp only [intel_fdc_set_drive_out_state, intel_fdc_set_drive_out_drive_out,
    intel_fdc_set_drive_out_drive_writes]
  exact ⟨hs, and_not8_keeps_write_enable_clear _ _ hw, trivial⟩

/-- In the idle state with the write gate closed, the index-pulse check keeps
the controller idle, keeps the write gate closed and writes nothing. -/
theorem intel_fdc_check_index_pulse_idle (u : intel_fdc_struct)
    (hs : u.state = FdcState.idle) (hw : u.drive_out &&& 0x01 = 0) :
    (intel_fdc_check_index_pulse u).state = FdcState.idle ∧
      (intel_fdc_check_index_pulse u).drive_out &&& 0x01 = 0 ∧
      (intel_fdc_check_index_pulse u).drive_writes = u.drive_writes := by
  unfold intel_fdc_check_index_pulse
  simp only []
  split_ifs <;> (try split) <;>
    first
    | exact ⟨hs, hw, rfl⟩
    | exact ⟨(intel_fdc_finish_command_summary _ _).1,
        (intel_fdc_finish_command_summary _ _).2.2.2.2.2.2.2.1 hw,
        (intel_fdc_finish_command_frame _ _).2.1⟩
    | exact intel_fdc_spindown_idle _ hs hw

/-- In the idle state with the write gate closed, a byte callback writes
nothing to the drive and leaves the controller idle with the gate closed. -/
theorem intel_fdc_byte_callback_idle (u t : intel_fdc_struct)
    (data_byte clocks_byte : Nat)
    (hs : u.state = FdcState.idle) (hw : u.drive_out &&& 0x01 = 0)
    (h : intel_fdc_byte_callback u data_byte clocks_byte = Except.ok t) :
    t.state = FdcState.idle ∧ t.drive_out &&& 0x01 = 0 ∧
      t.drive_writes = u.drive_writes := by
  obtain ⟨c1, c2, c3⟩ := intel_fdc_check_index_pulse_idle u hs hw
  unfold intel_fdc_byte_callback at h
  rcases hp : u.p_current_drive with _ | d
  · simp [hp] at h
  · simp only [hp, c1] at h
    have hw' : ¬ ((intel_fdc_check_index_pulse u).drive_out &&& 1 ≠ 0 ∧
        (get_drive (intel_fdc_check_index_pulse u) d).is_write_protect = false) :=
      fun hh => hh.1 c2
    simp only [k_intel_fdc_drive_out_write_enable, hw', if_false] at h
    cases h
    exact ⟨c1, c2, c3⟩

/-- From an idle state with the write gate closed, no run of disc bytes
reaches `disc_drive_write_byte`. -/
theorem disc_drive_deliver_bytes_idle (evs : List (Bool × Nat × Nat)) :
    ∀ u t : intel_fdc_struct, u.state = FdcState.idle →
      u.drive_out &&& 0x01 = 0 →
      disc_drive_deliver_bytes u evs = Except.ok t →
      t.state = FdcState.idle ∧ t.drive_out &&& 0x01 = 0 ∧
        t.drive_writes = u.drive_writes := by
  induction evs with
  | nil =>
    intro u t hs hw h
    simp only [disc_drive_deliver_bytes] at h
    cases h
    exact ⟨hs, hw, rfl⟩
  | cons ev evs ih =>
    intro u t hs hw h
    simp only [disc_drive_deliver_bytes] at h
    rcases hd : disc_drive_deliver_byte u ev with e | v
    · simp [hd] at h
    · simp only [hd] at h
      unfold disc_drive_deliver_byte at hd
      have hv : v.state = FdcState.idle ∧ v.drive_out &&& 0x01 = 0 ∧
          v.drive_writes = u.drive_writes := by
        rcases hp : u.p_current_drive with _ | d
        · simp only [hp] at hd
          exact intel_fdc_byte_callback_idle _ _ _ _ hs hw hd
        · simp only [hp] at hd
          have := intel_fdc_byte_callback_idle _ _ _ _
            (by cases d <;> simpa [set_drive] using hs)
            (by cases d <;> simpa [set_drive] using hw) hd
          refine ⟨this.1, this.2.1, this.2.2.trans ?_⟩
          cases d <;> rfl
      obtain ⟨i1, i2, i3⟩ := ih v t hv.1 hv.2.1 h
      exact ⟨i1, i2, i3.trans hv.2.2⟩

theorem seek_frame_refl (s : intel_fdc_struct) : seek_frame s s :=
  ⟨fun _ _ => rfl, Or.inl rfl⟩

theorem seek_frame_trans {s t u : intel_fdc_struct} (h1 : seek_frame s t)
    (h2 : seek_frame t u) : seek_frame s u := by
  refine ⟨fun r hr => (h2.1 r hr).trans (h1.1 r hr), ?_⟩
  rcases h2.2 with h | h
  · rw [h]
    exact h1.2
  · exact Or.inr h

theorem seek_frame_of_post_seek_frame {s t : intel_fdc_struct}
    (h : post_seek_frame s t) : seek_frame s t :=
  ⟨fun r hr => h.1 r (fun hp => hr (Or.inl hp)), h.2.2.2.2.2.2.2.2.2⟩

theorem not_seek_footprint {r : Nat} (h : ¬ seek_footprint r) :
    r ≠ 0x02 ∧ r ≠ 0x0A ∧ r ≠ 0x0B ∧ r ≠ 0x0C ∧ r ≠ 0x12 ∧ r ≠ 0x1A := by
  simp only [seek_footprint, not_or] at h
  exact ⟨h.2.1, h.2.2.1, h.2.2.2.1, h.2.2.2.2.1, h.2.2.2.2.2.1, h.2.2.2.2.2.2⟩

/-- A store into a register of the seek footprint stays inside the seek
frame. -/
theorem seek_frame_set_reg (s : intel_fdc_struct) (i v : Nat)
    (hi : seek_footprint i) :
    seek_frame s { s with regs := set_reg s.regs i v } := by
  refine ⟨fun r hr => ?_, Or.inl rfl⟩
  have : r ≠ i := fun h => hr (h ▸ hi)
  exact set_reg_other _ _ _ _ this

theorem intel_fdc_do_seek_step_frame (s t : intel_fdc_struct)
    (h : intel_fdc_do_seek_step s = Except.ok t) : seek_frame s t := by
  unfold intel_fdc_do_seek_step at h
  rcases hp : s.p_current_drive with _ | d
  · simp [hp] at h
  · simp only [hp] at h
    split_ifs at h
    · cases h
      exact seek_frame_of_post_seek_frame (intel_fdc_do_load_head_frame _ _)
    · cases h
      exact seek_frame_of_post_seek_frame (intel_fdc_do_load_head_frame _ _)
    · cases h
      refine seek_frame_trans ?_
        (seek_frame_of_post_seek_frame (intel_fdc_set_timer_ms_frame _ _ _))
      refine ⟨fun r hr => ?_, ?_⟩
      · obtain ⟨-, h10, -, -, -, -⟩ := not_seek_footprint hr
        cases d <;> simp [disc_drive_seek_track, set_drive, set_reg, h10]
      · cases d <;> exact Or.inl rfl
    · cases h
      refine seek_frame_trans ?_
        (seek_frame_of_post_seek_frame (intel_fdc_set_timer_ms_frame _ _ _))
      refine ⟨fun r hr => ?_, ?_⟩
      · obtain ⟨-, h10, -, -, -, -⟩ := not_seek_footprint hr
        cases d <;> simp [disc_drive_seek_track, set_drive, set_reg, h10]
      · cases d <;> exact Or.inl rfl

theorem intel_fdc_do_seek_frame (s t : intel_fdc_struct)
    (h : intel_fdc_do_seek s = Except.ok t) : seek_frame s t := by
  unfold intel_fdc_do_seek at h
  simp only [] at h
  have key : ∀ a : intel_fdc_struct,
      (∀ r, r ≠ 0x0A → r ≠ 0x0B → r ≠ 0x0C → r ≠ 0x12 → r ≠ 0x1A →
        a.regs r = s.regs r) →
      a.parameter_callback = s.parameter_callback → seek_frame s a := by
    intro a ha hb
    refine ⟨fun r hr => ?_, Or.inl hb⟩
    obtain ⟨-, h10, h11, h12, h18, h26⟩ := not_seek_footprint hr
    exact ha r h10 h11 h12 h18 h26
  split_ifs at h
  all_goals
    first
    | (cases h
       refine seek_frame_trans ?_
         (seek_frame_of_post_seek_frame (intel_fdc_do_load_head_frame _ _))
       refine key _ (fun r h10 h11 h12 h18 h26 => ?_) rfl
       simp [set_reg, h11, h12])
    | (refine seek_frame_trans ?_ (intel_fdc_do_seek_step_frame _ _ h)
       refine key _ (fun r h10 h11 h12 h18 h26 => ?_) rfl
       rcases intel_fdc_do_seek_track_regs_cases s with e | e <;>
         simp [set_reg, e, h10, h11, h12, h18, h26])

/-- A dispatch of one of the sector commands (internal command 0..7) stays
inside the seek frame. -/
theorem intel_fdc_do_command_dispatch_frame (s t : intel_fdc_struct)
    (hc : intel_fdc_get_internal_command s ≤ 7)
    (h : intel_fdc_do_command_dispatch s = Except.ok t) : seek_frame s t := by
  unfold intel_fdc_do_command_dispatch at h
  simp only [] at h
  have n9 : ¬ (intel_fdc_get_internal_command s = 9 ∨
      intel_fdc_get_internal_command s = 12) := by omega
  have n11 : ¬ intel_fdc_get_internal_command s = 11 := by omega
  have n13 : ¬ intel_fdc_get_internal_command s = 13 := by omega
  have n14 : ¬ intel_fdc_get_internal_command s = 14 := by omega
  have n15 : ¬ intel_fdc_get_internal_command s = 15 := by omega
  simp only [k_intel_fdc_command_UNUSED_9, k_intel_fdc_command_UNUSED_12,
    k_intel_fdc_command_READ_DRIVE_STATUS, k_intel_fdc_command_SPECIFY,
    k_intel_fdc_command_WRITE_SPECIAL_REGISTER,
    k_intel_fdc_command_READ_SPECIAL_REGISTER, n9, n11, n13, n14, n15,
    if_false] at h
  split_ifs at h
  · exact intel_fdc_do_seek_frame _ _ h
  · cases h
    exact seek_frame_of_post_seek_frame
      (intel_fdc_start_syncing_for_header_frame _)
  · exact seek_frame_trans
      (seek_frame_set_reg s 0x02 _ (by simp [seek_footprint]))
      (intel_fdc_do_seek_frame _ _ h)
  · exact seek_frame_trans
      (seek_frame_set_reg s 0x02 _ (by simp [seek_footprint]))
      (intel_fdc_do_seek_frame _ _ h)
  · exact intel_fdc_do_seek_frame _ _ h

theorem intel_fdc_write_register_parameter_callback (s : intel_fdc_struct)
    (reg val : Nat) :
    (intel_fdc_write_register s reg val).parameter_callback =
      s.parameter_callback := by
  unfold intel_fdc_write_register
  simp only []
  split_ifs
  · rfl
  · exact intel_fdc_set_drive_out_parameter_callback _ _
  · rfl

/-- No command dispatch ever arms the parameter callback for command
parameters. -/
theorem intel_fdc_do_command_dispatch_parameter_callback
    (s t : intel_fdc_struct)
    (h : intel_fdc_do_command_dispatch s = Except.ok t) :
    t.parameter_callback = s.parameter_callback ∨
      t.parameter_callback = ParameterCallback.accept_none ∨
      t.parameter_callback = ParameterCallback.accept_specify := by
  unfold intel_fdc_do_command_dispatch at h
  simp only [] at h
  split_ifs at h
  · cases h
    exact Or.inr (Or.inl (intel_fdc_finish_simple_command_summary _).2.1)
  · cases h
    exact Or.inr (Or.inr rfl)
  · cases h
    left
    unfold intel_fdc_lower_busy_and_log
    rw [intel_fdc_status_lower_eq]
    exact intel_fdc_write_register_parameter_callback _ _ _
  · cases h
    exact Or.inr (Or.inl (intel_fdc_finish_simple_command_summary _).2.1)
  · rcases (intel_fdc_do_seek_frame _ _ h).2 with e | e
    · exact Or.inl e
    · exact Or.inr (Or.inl e)
  · cases h
    left
    unfold intel_fdc_start_syncing_for_header
    rw [intel_fdc_set_state_eq]
  · rcases (intel_fdc_do_seek_frame _ _ h).2 with e | e
    · exact Or.inl e
    · exact Or.inr (Or.inl e)
  · rcases (intel_fdc_do_seek_frame _ _ h).2 with e | e
    · exact Or.inl e
    · exact Or.inr (Or.inl e)
  · rcases (intel_fdc_do_seek_frame _ _ h).2 with e | e
    · exact Or.inl e
    · exact Or.inr (Or.inl e)

/-- A started command never leaves the controller waiting for command
parameters. -/
theorem intel_fdc_start_command_parameter_callback (s t : intel_fdc_struct)
    (h : intel_fdc_start_command s = Except.ok t) :
    t.parameter_callback ≠ ParameterCallback.accept_command := by
  unfold intel_fdc_start_command at h
  simp only [] at h
  have := intel_fdc_do_command_dispatch_parameter_callback _ _ h
  split_ifs at this <;>
    simp only [intel_fdc_set_drive_out_parameter_callback] at this <;>
    rcases this with e | e | e <;> rw [e] <;> decide

theorem and_31_eq_mod (x : Nat) : x &&& 0x1F = x % 32 :=
  Nat.and_pow_two_sub_one_eq_mod x 5

/-- The branch `intel_fdc_check_completion` takes once the drive is found
ready: it finishes from a state `m` or re-dispatches from a state `m'`, both
with parameter 3 decremented and `m'` with parameter 2 advanced. -/
theorem intel_fdc_check_completion_ready (s : intel_fdc_struct)
    (hready : (intel_fdc_check_drive_ready s).2 = true) :
    ∃ m m', m.regs 0x05 = (s.regs 0x05 + 255) % 256 ∧
      m'.regs 0x05 = (s.regs 0x05 + 255) % 256 ∧
      m'.regs 0x06 = (s.regs 0x06 + (s.regs 0x04 &&& 0x3F)) % 256 ∧
      m'.regs 0x1F = s.regs 0x1F ∧
      intel_fdc_check_completion s =
        (if (s.regs 0x05 + 255) % 256 &&& 0x1F = 0 then
          Except.ok (intel_fdc_finish_command m k_intel_fdc_result_ok)
        else
          intel_fdc_do_command_dispatch m') := by
  have hr1 := intel_fdc_check_drive_ready_of_ready s hready
  refine ⟨{ intel_fdc_clear_callbacks
      (intel_fdc_drive_out_lower (intel_fdc_do_read_drive_status s).1
        k_intel_fdc_drive_out_write_enable) with
      regs := set_reg (intel_fdc_do_read_drive_status s).1.regs 0x05
        (((intel_fdc_do_read_drive_status s).1.regs 0x05 + 255) % 256) },
    { intel_fdc_clear_callbacks
      (intel_fdc_drive_out_lower (intel_fdc_do_read_drive_status s).1
        k_intel_fdc_drive_out_write_enable) with
      regs := set_reg
        (set_reg (intel_fdc_do_read_drive_status s).1.regs 0x05
          (((intel_fdc_do_read_drive_status s).1.regs 0x05 + 255) % 256))
        0x06 ((s.regs 0x06 + (s.regs 0x04 &&& 0x3F)) % 256) },
    ?_, ?_, ?_, ?_, ?_⟩
  · simp [intel_fdc_do_read_drive_status_eq, set_reg]
  · simp [intel_fdc_do_read_drive_status_eq, set_reg]
  · simp [intel_fdc_do_read_drive_status_eq, set_reg]
  · simp [intel_fdc_do_read_drive_status_eq, set_reg]
  · unfold intel_fdc_check_completion
    simp only [hr1]
    simp [intel_fdc_clear_callbacks_eq, intel_fdc_drive_out_lower, set_reg,
      intel_fdc_do_read_drive_status_eq]

theorem sector_countdown (p j : Nat) :
    (p % 32 ≠ 0 → j + 1 < p % 32 → (p + 255 * (j + 1)) % 32 ≠ 0) ∧
      (p % 32 = 0 → j + 1 < 32 → (p + 255 * (j + 1)) % 32 ≠ 0) ∧
      (p % 32 ≠ 0 → (p + 255 * (p % 32)) % 32 = 0) ∧
      (p % 32 = 0 → (p + 255 * 32) % 32 = 0) := by
  omega

theorem parameter_pointer_mask : ∀ p : Nat, p ≤ 7 → p &&& 0x3F = p := by
  decide

/-- One parameter byte written while the controller waits for command
parameters: the byte goes to the register the pointer names, pointer and
count go down by one, and the command starts exactly when the count reaches
zero. -/
theorem intel_fdc_param_written_step (t : intel_fdc_struct) (v p m : Nat)
    (hpcb : t.parameter_callback = ParameterCallback.accept_command)
    (hp : t.regs 0x00 = p) (hp3 : 3 ≤ p) (hp7 : p ≤ 7)
    (hm : t.regs 0x01 = m) (hm1 : 1 ≤ m) (hm5 : m ≤ 5) :
    ∃ t', t'.parameter_callback = ParameterCallback.accept_command ∧
      t'.regs 0x00 = p - 1 ∧ t'.regs 0x01 = m - 1 ∧ t'.regs p = v ∧
      (∀ r, r ≠ 0x00 → r ≠ 0x01 → r ≠ p → r ≠ 0x17 → r ≠ 0x1E →
        t'.regs r = t.regs r) ∧
      intel_fdc_write t k_intel_fdc_parameter v =
        (if m = 1 then intel_fdc_start_command t' else Except.ok t') := by
  have hmask := parameter_pointer_mask p hp7
  refine ⟨{ t with
    regs := set_reg (set_reg (set_reg (set_reg (set_reg t.regs 0x1E v) 0x17
      (and_not8 (t.regs 0x17) 0x10)) p v) 0x00 (p - 1)) 0x01 (m - 1) },
    hpcb, ?_, ?_, ?_, ?_, ?_⟩
  · simp [set_reg]
  · simp [set_reg]
  · have h0 : p ≠ 0 := by omega
    have h1 : p ≠ 1 := by omega
    simp [set_reg, h0, h1]
  · intro r h0 h1 h2 h3 h4
    simp [set_reg, h0, h1, h2, h3, h4]
  · have hpd : (p + 255) % 256 = p - 1 := by omega
    have hmd : (m + 255) % 256 = m - 1 := by omega
    have hp23 : p ≠ 23 := by omega
    have hp30 : p ≠ 30 := by omega
    have hp0 : p ≠ 0 := by omega
    have hp1 : p ≠ 1 := by omega
    have hp32 : p < 32 := by omega
    unfold intel_fdc_write intel_fdc_param_written
    simp +decide only [k_intel_fdc_parameter, k_intel_fdc_command,
      intel_fdc_status_lower_eq, hpcb, intel_fdc_write_register, if_false,
      if_true]
    have hc : (m - 1 = 0) ↔ m = 1 := by omega
    simp +decide [set_reg, hp, hm, hmask, hp32, hpd, hmd, hp0, hp1, hp23, hp30,
      Ne.symm hp0, Ne.symm hp1, hc]

/-- A command byte written to MMIO address 0: the expected parameter count
goes to register 1; with a count of zero the command starts from state `a`,
otherwise the controller waits in state `t0` with the pointer at register
7. -/
theorem intel_fdc_command_written_cases (s : intel_fdc_struct) (c : Nat) :
    ∃ a t0, a.regs 0x01 = (if c &&& 0x18 ≠ 0 then c &&& 0x03 else 5) ∧
      a.regs 0x1F = c ∧
      t0.regs 0x01 = (if c &&& 0x18 ≠ 0 then c &&& 0x03 else 5) ∧
      t0.regs 0x00 = 7 ∧
      t0.parameter_callback = ParameterCallback.accept_command ∧
      t0.regs 0x1F = c ∧
      intel_fdc_write s k_intel_fdc_command c =
        (if (if c &&& 0x18 ≠ 0 then c &&& 0x03 else 5) > 0 then Except.ok t0
          else intel_fdc_start_command a) := by
  refine ⟨{ s with
      regs := set_reg (set_reg (set_reg (set_reg (set_reg (set_reg (set_reg
        (set_reg s.regs 0x1F c)
        0x17 ((s.regs 0x17 ||| 0x80) % 256))
        0x17 (and_not8 ((s.regs 0x17 ||| 0x80) % 256) 0x40))
        0x16 0)
        0x17 ((and_not8 ((s.regs 0x17 ||| 0x80) % 256) 0x40 ||| 0x10) % 256))
        0x05 1) 0x04 1) 0x01
        (if c &&& 0x18 ≠ 0 then c &&& 0x03 else 5) },
    { s with
      regs := set_reg (set_reg (set_reg (set_reg (set_reg (set_reg (set_reg
        (set_reg (set_reg s.regs 0x1F c)
        0x17 ((s.regs 0x17 ||| 0x80) % 256))
        0x17 (and_not8 ((s.regs 0x17 ||| 0x80) % 256) 0x40))
        0x16 0)
        0x17 ((and_not8 ((s.regs 0x17 ||| 0x80) % 256) 0x40 ||| 0x10) % 256))
        0x05 1) 0x04 1) 0x01
        (if c &&& 0x18 ≠ 0 then c &&& 0x03 else 5)) 0x00 7,
      parameter_callback := ParameterCallback.accept_command },
    ?_, ?_, ?_, ?_, rfl, ?_, ?_⟩
  · simp [set_reg]
  · simp [set_reg]
  · simp [set_reg]
  · simp [set_reg]
  · simp [set_reg]
  · unfold intel_fdc_write intel_fdc_command_written
    simp +decide only [k_intel_fdc_command, intel_fdc_status_lower_eq,
      intel_fdc_status_raise_eq, intel_fdc_set_result_eq, if_true]
    simp +decide [set_reg]

theorem intel_fdc_write_params_single (t : intel_fdc_struct) (v : Nat) :
    intel_fdc_write_params t [v] = intel_fdc_write t k_intel_fdc_parameter v := by
  simp only [intel_fdc_write_params]
  cases intel_fdc_write t k_intel_fdc_parameter v <;> rfl

/-- A run of parameter writes while the controller waits for the `n`
parameters of a command, `k` of which have arrived: before the last one the
controller keeps waiting with every byte stored in descending registers, and
the write of the last one is the start of the command. -/
theorem intel_fdc_write_params_run (n : Nat) (hn : n ≤ 5) (vs : List Nat) :
    ∀ (t : intel_fdc_struct) (k : Nat),
      t.parameter_callback = ParameterCallback.accept_command →
      t.regs 0x00 = 7 - k → t.regs 0x01 = n - k → k + vs.length ≤ n →
      (k + vs.length < n →
        ∃ t', intel_fdc_write_params t vs = Except.ok t' ∧
          t'.parameter_callback = ParameterCallback.accept_command ∧
          t'.regs 0x00 = 7 - (k + vs.length) ∧
          t'.regs 0x01 = n - (k + vs.length) ∧
          (∀ i, i < vs.length → t'.regs (7 - (k + i)) = vs.getD i 0) ∧
          (∀ r, 7 - k < r → r ≠ 0x17 → r ≠ 0x1E → t'.regs r = t.regs r)) ∧
      (k + vs.length = n → vs ≠ [] →
        ∃ s', intel_fdc_write_params t vs = intel_fdc_start_command s' ∧
          (∀ i, i < vs.length → s'.regs (7 - (k + i)) = vs.getD i 0) ∧
          (∀ r, 7 - k < r → r ≠ 0x17 → r ≠ 0x1E → s'.regs r = t.regs r)) := by
  induction vs with
  | nil =>
    intro t k hpcb h0 h1 hlen
    refine ⟨fun _ => ⟨t, rfl, hpcb, by simpa using h0, by simpa using h1,
      fun i hi => absurd hi (by simp), fun _ _ _ _ => rfl⟩, fun _ h => absurd rfl h⟩
  | cons v vs ih =>
    intro t k hpcb h0 h1 hlen
    simp only [List.length_cons] at hlen ⊢
    obtain ⟨t1, s1, s2, s3, s4, s5, s6⟩ :=
      intel_fdc_param_written_step t v (7 - k) (n - k) hpcb h0 (by omega)
        (by omega) h1 (by omega) (by omega)
    have hkeep : ∀ r, 7 - k < r → r ≠ 0x17 → r ≠ 0x1E → t1.regs r = t.regs r :=
      fun r hr h23 h30 => s5 r (by omega) (by omega) (by omega) h23 h30
    constructor
    · intro hlt
      have hm : ¬ (n - k = 1) := by omega
      rw [if_neg hm] at s6
      obtain ⟨t', r1, r2, r3, r4, r5, r6⟩ :=
        (ih t1 (k + 1) s1 (by rw [s2]; omega) (by rw [s3]; omega)
          (by omega)).1 (by omega)
      refine ⟨t', ?_, r2, ?_, ?_, ?_, ?_⟩
      · simp only [intel_fdc_write_params, s6]
        exact r1
      · rw [r3]; omega
      · rw [r4]; omega
      · intro i hi
        cases i with
        | zero =>
          simp only [Nat.add_zero, List.getD_cons_zero]
          rw [r6 (7 - k) (by omega) (by omega) (by omega)]
          exact s4
        | succ i =>
          simp only [List.getD_cons_succ]
          have := r5 i (by omega)
          rw [← this]
          congr 1
          omega
      · intro r hr h23 h30
        rw [r6 r (by omega) h23 h30]
        exact hkeep r hr h23 h30
    · intro heq _
      cases vs with
      | nil =>
        simp only [List.length_nil] at heq
        have hm : n - k = 1 := by omega
        rw [if_pos hm] at s6
        refine ⟨t1, ?_, ?_, hkeep⟩
        · rw [intel_fdc_write_params_single]
          exact s6
        · intro i hi
          have hi0 : i = 0 := by simpa using hi
          subst hi0
          simpa using s4
      | cons w ws =>
        have hm : ¬ (n - k = 1) := by
          simp only [List.length_cons] at heq
          omega
        rw [if_neg hm] at s6
        obtain ⟨s', r1, r5, r6⟩ :=
          (ih t1 (k + 1) s1 (by rw [s2]; omega) (by rw [s3]; omega)
            (by omega)).2 (by omega) (by simp)
        refine ⟨s', ?_, ?_, ?_⟩
        · simp only [intel_fdc_write_params, s6]
          simpa only [intel_fdc_write_params] using r1
        · intro i hi
          cases i with
          | zero =>
            simp only [Nat.add_zero, List.getD_cons_zero]
            rw [r6 (7 - k) (by omega) (by omega) (by omega)]
            exact s4
          | succ i =>
            simp only [List.getD_cons_succ]
            have := r5 i (by simpa using hi)
            rw [← this]
            congr 1
            omega
        · intro r hr h23 h30
          rw [r6 r (by omega) h23 h30]
          exact hkeep r hr h23 h30
/-! ## CRC-16 -/

theorem xor_mod_two_pow_eq (a b n : Nat) :
    (a ^^^ b) % 2 ^ n = (a % 2 ^ n) ^^^ (b % 2 ^ n) := by
  apply Nat.eq_of_testBit_eq
  intro i
  simp only [Nat.testBit_mod_two_pow, Nat.testBit_xor]
  by_cases h : i < n <;> simp [h]

theorem and_two_pow_eq_zero_iff (c k : Nat) :
    c &&& 2 ^ k = 0 ↔ c / 2 ^ k % 2 = 0 := by
  have hbit : c.testBit k = decide (c / 2 ^ k % 2 = 1) := Nat.testBit_to_div_mod
  constructor
  · intro h
    have h1 : (c &&& 2 ^ k).testBit k = false := by rw [h]; exact Nat.zero_testBit k
    rw [Nat.testBit_and, Nat.testBit_two_pow_self, Bool.and_true, hbit] at h1
    have := of_decide_eq_false h1
    omega
  · intro h
    apply Nat.eq_of_testBit_eq
    intro i
    rw [Nat.testBit_and, Nat.zero_testBit, Nat.testBit_two_pow]
    by_cases hi : k = i
    · subst hi
      rw [hbit]
      simp [h]
    · simp [hi]

theorem ibm_disc_format_crc_shift_lt (c : Nat) :
    ibm_disc_format_crc_shift c < 65536 := by
  unfold ibm_disc_format_crc_shift
  split <;> exact Nat.mod_lt _ (by decide)

theorem ibm_disc_format_crc_shift_low (c : Nat) (h : c < 32768) :
    ibm_disc_format_crc_shift c = 2 * c := by
  unfold ibm_disc_format_crc_shift
  have h0 : c &&& 0x8000 = 0 := by
    show c &&& 2 ^ 15 = 0
    rw [and_two_pow_eq_zero_iff]
    omega
  rw [if_neg (by simp [h0]), Nat.shiftLeft_eq]
  omega

theorem ibm_disc_format_crc_shift_high (c : Nat) (h : 32768 ≤ c)
    (h2 : c < 65536) :
    ibm_disc_format_crc_shift c = (2 * c - 65536) ^^^ 0x1021 := by
  unfold ibm_disc_format_crc_shift
  have h0 : c &&& 0x8000 ≠ 0 := by
    show c &&& 2 ^ 15 ≠ 0
    rw [Ne, and_two_pow_eq_zero_iff]
    omega
  rw [if_pos h0, Nat.shiftLeft_eq]
  show (c * 2 ^ 1 ^^^ 4129) % 2 ^ 16 = _
  rw [xor_mod_two_pow_eq]
  have e1 : c * 2 ^ 1 % 2 ^ 16 = 2 * c - 65536 := by omega
  rw [e1]
  rfl

theorem ibm_disc_format_crc_shift_odd_iff (c : Nat) (h2 : c < 65536) :
    ibm_disc_format_crc_shift c % 2 = 1 ↔ 32768 ≤ c := by
  by_cases h : c < 32768
  · rw [ibm_disc_format_crc_shift_low c h]
    omega
  · rw [ibm_disc_format_crc_shift_high c (by omega) h2, Nat.xor_mod_two_eq_one]
    have : (2 * c - 65536) % 2 = 0 := by omega
    simp [this]
    omega

theorem ibm_disc_format_crc_shift_inj (c d : Nat) (hc : c < 65536)
    (hd : d < 65536)
    (h : ibm_disc_format_crc_shift c = ibm_disc_format_crc_shift d) : c = d := by
  have hp : (32768 ≤ c ↔ 32768 ≤ d) := by
    rw [← ibm_disc_format_crc_shift_odd_iff c hc,
      ← ibm_disc_format_crc_shift_odd_iff d hd, h]
  by_cases h1 : c < 32768
  · have h2 : d < 32768 := by omega
    rw [ibm_disc_format_crc_shift_low c h1,
      ibm_disc_format_crc_shift_low d h2] at h
    omega
  · have h2 : 32768 ≤ d := by omega
    rw [ibm_disc_format_crc_shift_high c (by omega) hc,
      ibm_disc_format_crc_shift_high d h2 hd, Nat.xor_left_inj] at h
    omega

theorem ibm_disc_format_crc_shift_iterate_lt (n c : Nat) (hc : c < 65536) :
    ibm_disc_format_crc_shift^[n] c < 65536 := by
  induction n generalizing c with
  | zero => simpa using hc
  | succ n ih =>
    rw [Function.iterate_succ_apply]
    exact ih _ (ibm_disc_format_crc_shift_lt c)

theorem ibm_disc_format_crc_shift_iterate_inj (n c d : Nat) (hc : c < 65536)
    (hd : d < 65536)
    (h : ibm_disc_format_crc_shift^[n] c = ibm_disc_format_crc_shift^[n] d) :
    c = d := by
  induction n generalizing c d with
  | zero => simpa using h
  | succ n ih =>
    rw [Function.iterate_succ_apply, Function.iterate_succ_apply] at h
    exact ibm_disc_format_crc_shift_inj c d hc hd
      (ih _ _ (ibm_disc_format_crc_shift_lt c) (ibm_disc_format_crc_shift_lt d) h)

theorem ibm_disc_format_crc_add_byte_lt (crc byte : Nat) :
    ibm_disc_format_crc_add_byte crc byte < 65536 := by
  unfold ibm_disc_format_crc_add_byte
  exact ibm_disc_format_crc_shift_iterate_lt 8 _ (Nat.mod_lt _ (by decide))

theorem ibm_disc_format_crc_shift_iterate_byte (lo : Nat) (h : lo < 256) :
    ibm_disc_format_crc_shift^[8] lo = lo <<< 8 := by
  have step : ∀ k c, c * 2 ^ k < 65536 →
      ibm_disc_format_crc_shift^[k] c = c * 2 ^ k := by
    intro k
    induction k with
    | zero => intro c _; simp
    | succ k ih =>
      intro c hc
      have hk : 0 < 2 ^ k := Nat.two_pow_pos k
      rw [Function.iterate_succ_apply, ibm_disc_format_crc_shift_low c, ih]
      · rw [Nat.pow_succ]; ring
      · rw [Nat.pow_succ] at hc
        calc 2 * c * 2 ^ k = c * (2 ^ k * 2) := by ring
          _ < 65536 := hc
      · rw [Nat.pow_succ] at hc
        by_contra hcon
        have : 32768 * 2 ≤ c * (2 ^ k * 2) :=
          Nat.mul_le_mul (by omega) (by omega)
        omega
  rw [step 8 lo (by omega), Nat.shiftLeft_eq]

theorem shiftLeft_xor_eq_or (hi lo : Nat) (hlo : lo < 256) :
    (hi <<< 8) ^^^ lo = (hi <<< 8) ||| lo := by
  apply Nat.eq_of_testBit_eq
  intro i
  rw [Nat.testBit_xor, Nat.testBit_or, Nat.testBit_shiftLeft]
  by_cases h : i ≥ 8
  · have : lo.testBit i = false :=
      Nat.testBit_lt_two_pow (lt_of_lt_of_le hlo
        (by
          calc 256 = 2 ^ 8 := by norm_num
            _ ≤ 2 ^ i := Nat.pow_le_pow_right (by decide) h))
    simp [this]
  · simp [h]

/-- The check of a record of the disc: with `c` the CRC of the bytes before
them, the CRC over the two bytes `hi`, `lo` as well is zero exactly when they
spell `c`. -/
theorem ibm_disc_format_crc_add_two_eq_zero (c hi lo : Nat) (hc : c < 65536)
    (hhi : hi < 256) (hlo : lo < 256) :
    ibm_disc_format_crc_add_byte (ibm_disc_format_crc_add_byte c hi) lo = 0 ↔
      (hi <<< 8) ||| lo = c := by
  have hhi8 : hi <<< 8 < 65536 := by rw [Nat.shiftLeft_eq]; omega
  have hlo8 : lo <<< 8 < 65536 := by rw [Nat.shiftLeft_eq]; omega
  have hx : c ^^^ (hi <<< 8) < 65536 := @Nat.xor_lt_two_pow _ _ 16 hc hhi8
  have hy := ibm_disc_format_crc_add_byte_lt c hi
  have hz : ibm_disc_format_crc_add_byte c hi ^^^ (lo <<< 8) < 65536 :=
    @Nat.xor_lt_two_pow _ _ 16 hy hlo8
  have h0 : ibm_disc_format_crc_shift^[8] 0 = 0 := by decide
  rw [← shiftLeft_xor_eq_or hi lo hlo]
  conv_lhs => rw [ibm_disc_format_crc_add_byte]
  rw [Nat.mod_eq_of_lt hz]
  constructor
  · intro h
    have h1 := ibm_disc_format_crc_shift_iterate_inj 8 _ 0 hz (by decide)
      (h.trans h0.symm)
    rw [Nat.xor_eq_zero] at h1
    rw [ibm_disc_format_crc_add_byte, Nat.mod_eq_of_lt hx,
      ← ibm_disc_format_crc_shift_iterate_byte lo hlo] at h1
    have h2 := ibm_disc_format_crc_shift_iterate_inj 8 _ lo hx (by omega) h1
    rw [← h2, Nat.xor_comm c, Nat.xor_cancel_left]
  · intro h
    have h2 : c ^^^ (hi <<< 8) = lo := by
      rw [← h, Nat.xor_comm (hi <<< 8) lo, Nat.xor_cancel_right]
    have h3 : ibm_disc_format_crc_add_byte c hi = lo <<< 8 := by
      rw [ibm_disc_format_crc_add_byte, Nat.mod_eq_of_lt hx, h2,
        ibm_disc_format_crc_shift_iterate_byte lo hlo]
    rw [h3, Nat.xor_self]
    exact h0

theorem disc_tool_crc_add_run_succ (crc : Nat) (p_data : Nat → Nat) (n : Nat) :
    disc_tool_crc_add_run crc p_data (n + 1) =
      ibm_disc_format_crc_add_byte (disc_tool_crc_add_run crc p_data n)
        (p_data n) := by
  unfold disc_tool_crc_add_run
  rw [List.range_succ, List.foldl_append, List.foldl_cons, List.foldl_nil]

theorem disc_tool_crc_add_run_congr (crc : Nat) (p q : Nat → Nat) (n : Nat)
    (h : ∀ i, i < n → p i = q i) :
    disc_tool_crc_add_run crc p n = disc_tool_crc_add_run crc q n := by
  induction n with
  | zero => simp [disc_tool_crc_add_run]
  | succ n ih =>
    rw [disc_tool_crc_add_run_succ, disc_tool_crc_add_run_succ,
      ih (fun i hi => h i (by omega)), h n (by omega)]

theorem disc_tool_crc_add_run_lt (crc : Nat) (p : Nat → Nat) (n : Nat)
    (h : crc < 65536) : disc_tool_crc_add_run crc p n < 65536 := by
  cases n with
  | zero => simpa [disc_tool_crc_add_run] using h
  | succ n =>
    rw [disc_tool_crc_add_run_succ]
    exact ibm_disc_format_crc_add_byte_lt _ _
/-! ## Pass 1 of the sector scan -/

theorem shift_or_bit_eq (md bit : Nat) (hb : bit ≤ 1) :
    ((md <<< 1) % 2 ^ 64) ||| bit = (2 * md + bit) % 2 ^ 64 := by
  rw [Nat.shiftLeft_eq]
  show md * 2 % 18446744073709551616 ||| bit =
    (2 * md + bit) % 18446744073709551616
  have he : md * 2 % 18446744073709551616 =
      2 ^ 1 * (md * 2 % 18446744073709551616 / 2) := by
    omega
  rw [he, ← Nat.mul_add_lt_is_or (by omega)]
  omega

theorem disc_tool_track_bit_le (p : Nat → Nat) (i : Nat) :
    disc_tool_track_bit p i ≤ 1 := by
  unfold disc_tool_track_bit
  omega

theorem disc_tool_track_bit_eq (p : Nat → Nat) (i : Nat) :
    disc_tool_track_bit p i =
      if (p (i / 32)).testBit (31 - i % 32) then 1 else 0 := by
  unfold disc_tool_track_bit
  rw [Nat.testBit_to_div_mod, Nat.shiftRight_eq_div_pow]
  by_cases h : p (i / 32) / 2 ^ (31 - i % 32) % 2 = 1
  · simp [h]
  · have h0 : p (i / 32) / 2 ^ (31 - i % 32) % 2 = 0 := by omega
    simp [h0]

theorem and_two_pow_ne_zero_iff (c k : Nat) :
    c &&& 2 ^ k ≠ 0 ↔ c.testBit k = true := by
  rw [Ne, and_two_pow_eq_zero_iff, Nat.testBit_to_div_mod]
  by_cases h : c / 2 ^ k % 2 = 1
  · simp [h]
  · have h0 : c / 2 ^ k % 2 = 0 := by omega
    simp [h0]

/-- The bit that a turn of the first loop shifts into the mark detector. -/
theorem disc_tool_loaded_bit (P r : Nat) (hr : r < 32) :
    (if ((P <<< r) % 2 ^ 32) &&& 0x80000000 ≠ 0 then 1 else 0) =
      (if P.testBit (31 - r) then 1 else 0) := by
  have hb : ((P <<< r) % 2 ^ 32).testBit 31 = P.testBit (31 - r) := by
    rw [Nat.testBit_mod_two_pow, Nat.testBit_shiftLeft]
    have : 31 ≥ r := by omega
    simp [this]
  have h1 : (((P <<< r) % 2 ^ 32) &&& 0x80000000 ≠ 0) ↔
      (P.testBit (31 - r) = true) := by
    rw [← hb]
    exact and_two_pow_ne_zero_iff _ 31
  by_cases h : P.testBit (31 - r) = true
  · rw [if_pos (h1.mpr h), if_pos h]
  · rw [if_neg (fun hc => h (h1.mp hc)), if_neg h]

theorem disc_tool_loaded_bit_zero (P : Nat) :
    (if P &&& 0x80000000 ≠ 0 then 1 else 0) =
      (if P.testBit 31 then 1 else 0) := by
  have h1 : (P &&& 0x80000000 ≠ 0) ↔ (P.testBit 31 = true) :=
    and_two_pow_ne_zero_iff _ 31
  by_cases h : P.testBit 31 = true
  · rw [if_pos (h1.mpr h), if_pos h]
  · rw [if_neg (fun hc => h (h1.mp hc)), if_neg h]
theorem and_31_eq_mod_32 (i : Nat) : i &&& 31 = i % 32 :=
  Nat.and_pow_two_sub_one_eq_mod i 5

theorem shiftLeft_mod_shiftLeft_one (P r : Nat) :
    (((P <<< r) % 2 ^ 32) <<< 1) % 2 ^ 32 = (P <<< (r + 1)) % 2 ^ 32 := by
  have e : P * 2 ^ (r + 1) = P * 2 ^ r * 2 := by
    rw [Nat.pow_succ, Nat.mul_assoc]
  rw [Nat.shiftLeft_eq, Nat.shiftLeft_eq, Nat.shiftLeft_eq, e]
  generalize P * 2 ^ r = X
  show X % 4294967296 * 2 % 4294967296 = X * 2 % 4294967296
  omega

theorem disc_tool_find_sectors_step_eq (p : Nat → Nat) (v : disc_tool_scan)
    (i : Nat)
    (hmd : v.mark_detector = disc_tool_track_leading p i % 2 ^ 64)
    (hpul : i % 32 ≠ 0 → v.pulses = (p (i / 32) <<< (i % 32)) % 2 ^ 32) :
    disc_tool_find_sectors_step (some p) v i =
      match disc_tool_mark_at p i with
      | none => Except.ok (disc_tool_scan_shift p v i)
      | some data =>
        disc_tool_find_sectors_mark (disc_tool_scan_shift p v i) i data := by
  have hbit : ∀ pulses, (pulses = if i % 32 = 0 then p (i / 32) else v.pulses) →
      (if pulses &&& 0x80000000 ≠ 0 then 1 else 0) = disc_tool_track_bit p i ∧
      (pulses <<< 1) % 2 ^ 32 = (p (i / 32) <<< (i % 32 + 1)) % 2 ^ 32 := by
    intro pulses hp
    rw [disc_tool_track_bit_eq]
    by_cases h0 : i % 32 = 0
    · rw [if_pos h0] at hp
      rw [hp, h0]
      exact ⟨disc_tool_loaded_bit_zero _, rfl⟩
    · rw [if_neg h0, hpul h0] at hp
      rw [hp]
      exact ⟨disc_tool_loaded_bit _ _ (Nat.mod_lt _ (by decide)),
        shiftLeft_mod_shiftLeft_one _ _⟩
  have hload : (if i &&& 31 = 0 then
        (Except.ok (p (i / 32)) : Except Fault Nat)
      else Except.ok v.pulses) =
      Except.ok (if i % 32 = 0 then p (i / 32) else v.pulses) := by
    rw [and_31_eq_mod_32]
    split <;> rfl
  obtain ⟨hb, hs⟩ := hbit _ rfl
  have hdet : ((v.mark_detector <<< 1) % 2 ^ 64) |||
      disc_tool_track_bit p i = disc_tool_track_leading p (i + 1) % 2 ^ 64 := by
    rw [shift_or_bit_eq _ _ (disc_tool_track_bit_le p i), hmd]
    show _ = (2 * disc_tool_track_leading p i + disc_tool_track_bit p i) % 2 ^ 64
    omega
  unfold disc_tool_find_sectors_step
  simp only [hload, hb, hs, hdet]
  unfold disc_tool_mark_at disc_tool_scan_shift
  simp only []
  by_cases h1 : disc_tool_track_leading p (i + 1) % 2 ^ 64 &&&
      0xFFFFFFFF00000000 = 0x8888888800000000
  · by_cases h2 : (ibm_disc_format_2us_pulses_to_fm
        (disc_tool_track_leading p (i + 1) % 2 ^ 64 % 2 ^ 32)).1 =
        k_ibm_disc_mark_clock_pattern
    · simp only [h1, h2, ne_eq, not_true_eq_false, if_false, if_true]
    · simp only [h1, h2, ne_eq, not_true_eq_false, not_false_eq_true,
        if_false, if_true]
  · simp only [h1, ne_eq, not_false_eq_true, if_true, if_false]
theorem disc_tool_track_leading_lt (p : Nat → Nat) (n : Nat) :
    disc_tool_track_leading p n < 2 ^ n := by
  induction n with
  | zero => simp [disc_tool_track_leading]
  | succ n ih =>
    have hb := disc_tool_track_bit_le p n
    rw [disc_tool_track_leading, Nat.pow_succ]
    omega

/-- A mark is recognised only once 64 bits have been shifted in. -/
theorem disc_tool_mark_at_ge (p : Nat → Nat) (i data : Nat)
    (h : disc_tool_mark_at p i = some data) : 63 ≤ i := by
  unfold disc_tool_mark_at at h
  simp only [] at h
  by_cases h1 : disc_tool_track_leading p (i + 1) % 2 ^ 64 &&&
      0xFFFFFFFF00000000 = 0x8888888800000000
  · have h2 : 0x8888888800000000 ≤ disc_tool_track_leading p (i + 1) % 2 ^ 64 := by
      have := @Nat.and_le_left (disc_tool_track_leading p (i + 1) % 2 ^ 64)
        0xFFFFFFFF00000000
      rw [h1] at this
      exact this
    have h3 : disc_tool_track_leading p (i + 1) % 2 ^ 64 ≤
        disc_tool_track_leading p (i + 1) := Nat.mod_le _ _
    have h4 := disc_tool_track_leading_lt p (i + 1)
    by_contra hc
    have h5 : 2 ^ (i + 1) ≤ 2 ^ 63 :=
      Nat.pow_le_pow_right (by decide) (by omega)
    have h6 : (2 : Nat) ^ 63 = 9223372036854775808 := by norm_num
    omega
  · rw [if_neg h1] at h
    exact absurd h (by simp)

theorem disc_tool_scan_shift_bits (p : Nat → Nat) (v : disc_tool_scan)
    (i : Nat) : disc_tool_scan_bits p (disc_tool_scan_shift p v i) (i + 1) := by
  refine ⟨rfl, ?_⟩
  intro h
  show (p (i / 32) <<< (i % 32 + 1)) % 2 ^ 32 = _
  have h1 : (i + 1) / 32 = i / 32 := by omega
  have h2 : (i + 1) % 32 = i % 32 + 1 := by omega
  rw [h1, h2]

theorem disc_tool_scan_shift_sectors (p : Nat → Nat) (t0 : disc_tool_struct)
    (v : disc_tool_scan) (i k : Nat) (h : disc_tool_scan_sectors t0 v k) :
    disc_tool_scan_sectors t0 (disc_tool_scan_shift p v i) k := h

theorem disc_tool_scan_sectors_mono (t0 : disc_tool_struct)
    (v : disc_tool_scan) (i k : Nat) (hik : i ≤ k)
    (h : disc_tool_scan_sectors t0 v i) : disc_tool_scan_sectors t0 v k := by
  obtain ⟨h1, h2, h3, h4, h5⟩ := h
  refine ⟨h1, h2, ?_, h4, h5⟩
  intro j hj
  obtain ⟨a, b, c⟩ := h3 j hj
  refine ⟨a, by omega, ?_⟩
  rcases c with c | ⟨c1, c2⟩
  · exact Or.inl c
  · exact Or.inr ⟨c1, by omega⟩
theorem disc_tool_find_sectors_mark_id_full (v : disc_tool_scan) (i : Nat)
    (hn : v.num_sectors = 32) :
    disc_tool_find_sectors_mark v i k_ibm_disc_id_mark_data_pattern =
      Except.error Fault.bail := by
  simp [disc_tool_find_sectors_mark, hn]

theorem disc_tool_find_sectors_mark_id (t0 : disc_tool_struct)
    (v : disc_tool_scan) (i : Nat) (hB : disc_tool_scan_sectors t0 v i)
    (hi : 63 ≤ i) (hn : v.num_sectors < 32) :
    ∃ v', disc_tool_find_sectors_mark v i k_ibm_disc_id_mark_data_pattern =
        Except.ok v' ∧
      disc_tool_scan_sectors t0 v' (i + 1) ∧
      v'.num_sectors = v.num_sectors + 1 ∧
      v'.mark_detector = v.mark_detector ∧ v'.pulses = v.pulses ∧
      v'.p_sector = some v.num_sectors ∧
      v'.p_tool.sectors v.num_sectors =
        { disc_tool_sector_zero with bit_pos_header := i } ∧
      ∀ j, j ≠ v.num_sectors → v'.p_tool.sectors j = v.p_tool.sectors j := by
  obtain ⟨h1, h2, h3, h4, s, h5⟩ := hB
  have hne : ¬ v.num_sectors = 32 := by omega
  have hmod : (v.num_sectors + 1) % 2 ^ 32 = v.num_sectors + 1 :=
    Nat.mod_eq_of_lt (by
      have : (2 : Nat) ^ 32 = 4294967296 := by norm_num
      omega)
  simp only [disc_tool_find_sectors_mark, hne, if_true, if_false,
    k_ibm_disc_id_mark_data_pattern, k_max_sectors]
  refine ⟨_, rfl, ⟨?_, ?_, ?_, ?_, ?_⟩, hmod, rfl, rfl, rfl, ?_, ?_⟩
  · show (v.num_sectors + 1) % 2 ^ 32 ≤ 32
    rw [hmod]; omega
  · show v.num_sectors + 1 = (v.num_sectors + 1) % 2 ^ 32
    rw [hmod]
  · intro j hj
    have hj' : j < v.num_sectors + 1 := by
      have : j < (v.num_sectors + 1) % 2 ^ 32 := hj
      rw [hmod] at this; exact this
    by_cases hjn : j = v.num_sectors
    · subst hjn
      simp only [disc_tool_set_sector, if_true]
      refine ⟨hi, by omega, Or.inl rfl⟩
    · simp only [disc_tool_set_sector, hjn, if_false]
      obtain ⟨a, b, c⟩ := h3 j (by omega)
      refine ⟨a, by omega, ?_⟩
      rcases c with c | ⟨c1, c2⟩
      · exact Or.inl c
      · exact Or.inr ⟨c1, by omega⟩
  · intro j hj
    have hj' : v.num_sectors + 1 ≤ j := by
      have : (v.num_sectors + 1) % 2 ^ 32 ≤ j := hj
      rw [hmod] at this; exact this
    have hjn : ¬ j = v.num_sectors := by omega
    simp only [disc_tool_set_sector, hjn, if_false]
    exact h4 j (by omega)
  · rw [h5]
    exact ⟨_, rfl⟩
  · simp only [disc_tool_set_sector, if_true]
  · intro j hj
    simp only [disc_tool_set_sector, hj, if_false]

theorem disc_tool_find_sectors_mark_other (t0 : disc_tool_struct)
    (v : disc_tool_scan) (i data : Nat) (hB : disc_tool_scan_sectors t0 v i)
    (hd : data ≠ k_ibm_disc_id_mark_data_pattern) :
    ∃ v', disc_tool_find_sectors_mark v i data = Except.ok v' ∧
      disc_tool_scan_sectors t0 v' (i + 1) ∧
      v'.num_sectors = v.num_sectors ∧
      v'.mark_detector = v.mark_detector ∧ v'.pulses = v.pulses ∧
      v'.p_sector = v.p_sector := by
  have hmono := disc_tool_scan_sectors_mono t0 v i (i + 1) (by omega) hB
  obtain ⟨h1, h2, h3, h4, s, h5⟩ := hB
  unfold disc_tool_find_sectors_mark
  rw [if_neg hd]
  by_cases hdm : data = k_ibm_disc_data_mark_data_pattern ∨
      data = k_ibm_disc_deleted_data_mark_data_pattern
  · rw [if_pos hdm]
    cases hp : v.p_sector with
    | none => exact ⟨_, rfl, hmono, rfl, rfl, rfl, hp⟩
    | some k =>
      rw [hp] at h2
      have hk : k + 1 = v.num_sectors := h2
      simp only []
      by_cases hdata : (v.p_tool.sectors k).bit_pos_data = 0
      · obtain ⟨a, b, c⟩ := h3 k (by omega)
        have hh : ¬ (v.p_tool.sectors k).bit_pos_header = 0 := by omega
        simp only [hdata, ne_eq, not_true_eq_false, if_false, hh]
        refine ⟨_, rfl, ⟨h1, ?_, ?_, ?_, ?_⟩, rfl, rfl, rfl, rfl⟩
        · exact hk
        · intro j hj
          by_cases hjk : j = k
          · subst hjk
            simp only [disc_tool_set_sector, if_true]
            exact ⟨a, by omega, Or.inr ⟨b, by omega⟩⟩
          · simp only [disc_tool_set_sector, hjk, if_false]
            obtain ⟨a', b', c'⟩ := h3 j hj
            refine ⟨a', by omega, ?_⟩
            rcases c' with c' | ⟨c1, c2⟩
            · exact Or.inl c'
            · exact Or.inr ⟨c1, by omega⟩
        · intro j hj
          have hjk : ¬ j = k := by
            have : v.num_sectors ≤ j := hj
            omega
          simp only [disc_tool_set_sector, hjk, if_false]
          exact h4 j hj
        · rw [h5]
          exact ⟨_, rfl⟩
      · simp only [hdata, ne_eq, not_false_eq_true, if_true]
        exact ⟨_, rfl, hmono, rfl, rfl, rfl, hp⟩
  · rw [if_neg hdm]
    exact ⟨_, rfl, hmono, rfl, rfl, rfl, rfl⟩
theorem disc_tool_id_marks_mono (p : Nat → Nat) (a b : Nat) :
    disc_tool_id_marks p a ≤ disc_tool_id_marks p (a + b) := by
  induction b with
  | zero => exact le_refl _
  | succ b ih =>
    show _ ≤ disc_tool_id_marks p (a + b) + _
    omega

/-- One turn of the first loop, from a state that satisfies the invariants:
it bails out exactly when a 33rd ID mark ends at this bit, and otherwise
re-establishes the invariants. -/
theorem disc_tool_find_sectors_step_run (p : Nat → Nat)
    (t0 : disc_tool_struct) (v : disc_tool_scan) (i : Nat)
    (hA : disc_tool_scan_bits p v i) (hB : disc_tool_scan_sectors t0 v i)
    (hc : v.num_sectors = disc_tool_id_marks p i) :
    (disc_tool_id_marks p (i + 1) ≤ 32 →
      ∃ v', disc_tool_find_sectors_step (some p) v i = Except.ok v' ∧
        disc_tool_scan_bits p v' (i + 1) ∧
        disc_tool_scan_sectors t0 v' (i + 1) ∧
        v'.num_sectors = disc_tool_id_marks p (i + 1)) ∧
    (32 < disc_tool_id_marks p (i + 1) →
      disc_tool_find_sectors_step (some p) v i = Except.error Fault.bail) := by
  have hstep := disc_tool_find_sectors_step_eq p v i hA.1 hA.2
  have hsA := disc_tool_scan_shift_bits p v i
  have hsB := disc_tool_scan_shift_sectors p t0 v i i hB
  have hcnt : disc_tool_id_marks p (i + 1) = disc_tool_id_marks p i +
      (if disc_tool_mark_at p i = some k_ibm_disc_id_mark_data_pattern
        then 1 else 0) := rfl
  have hle : v.num_sectors ≤ 32 := hB.1
  cases hm : disc_tool_mark_at p i with
  | none =>
    rw [hm] at hstep hcnt
    simp only [if_false, Nat.add_zero, reduceCtorEq] at hcnt
    rw [hstep, hcnt]
    constructor
    · intro _
      exact ⟨_, rfl, hsA,
        disc_tool_scan_sectors_mono t0 _ i (i + 1) (by omega) hsB, hc⟩
    · intro h
      have : v.num_sectors ≤ 32 := hle
      omega
  | some data =>
    have hi := disc_tool_mark_at_ge p i data hm
    rw [hm] at hstep hcnt
    simp only [] at hstep
    rw [hstep, hcnt]
    by_cases hd : data = k_ibm_disc_id_mark_data_pattern
    · subst hd
      simp only [if_true]
      constructor
      · intro h
        obtain ⟨v', h1, h2, h3, h4, h5, _⟩ :=
          disc_tool_find_sectors_mark_id t0 _ i hsB hi
            (show (disc_tool_scan_shift p v i).num_sectors < 32 by
              show v.num_sectors < 32
              omega)
        refine ⟨v', h1, ⟨h4.trans hsA.1, ?_⟩, h2, ?_⟩
        · intro hne
          rw [h5]
          exact hsA.2 hne
        · rw [h3]
          show v.num_sectors + 1 = _
          omega
      · intro h
        exact disc_tool_find_sectors_mark_id_full _ i
          (show v.num_sectors = 32 by omega)
    · have hd' : ¬ (some data = some k_ibm_disc_id_mark_data_pattern) := by
        intro h
        exact hd (Option.some.inj h)
      simp only [hd', if_false, Nat.add_zero]
      constructor
      · intro _
        obtain ⟨v', h1, h2, h3, h4, h5, _⟩ :=
          disc_tool_find_sectors_mark_other t0 _ i data hsB hd
        refine ⟨v', h1, ⟨h4.trans hsA.1, ?_⟩, h2, ?_⟩
        · intro hne
          rw [h5]
          exact hsA.2 hne
        · rw [h3]
          exact hc
      · intro h
        omega

/-- Pass 1 from a state that satisfies the invariants: it bails out exactly
when the bits it walks over bring the number of ID marks above 32, and
otherwise ends in a state that satisfies the invariants. -/
theorem disc_tool_find_sectors_pass_1_run (p : Nat → Nat)
    (t0 : disc_tool_struct) (n : Nat) :
    ∀ (i : Nat) (v : disc_tool_scan), disc_tool_scan_bits p v i →
      disc_tool_scan_sectors t0 v i →
      v.num_sectors = disc_tool_id_marks p i →
      (disc_tool_id_marks p (i + n) ≤ 32 →
        ∃ v', disc_tool_find_sectors_pass_1 (some p) n i v = Except.ok v' ∧
          disc_tool_scan_bits p v' (i + n) ∧
          disc_tool_scan_sectors t0 v' (i + n) ∧
          v'.num_sectors = disc_tool_id_marks p (i + n)) ∧
      (32 < disc_tool_id_marks p (i + n) →
        disc_tool_find_sectors_pass_1 (some p) n i v =
          Except.error Fault.bail) := by
  induction n with
  | zero =>
    intro i v hA hB hc
    refine ⟨fun _ => ⟨v, rfl, hA, hB, hc⟩, fun h => ?_⟩
    have := hB.1
    rw [Nat.add_zero] at h
    omega
  | succ n ih =>
    intro i v hA hB hc
    have hidx : i + (n + 1) = (i + 1) + n := by omega
    rw [hidx]
    have hmono := disc_tool_id_marks_mono p (i + 1) n
    obtain ⟨s1, s2⟩ := disc_tool_find_sectors_step_run p t0 v i hA hB hc
    by_cases hfirst : disc_tool_id_marks p (i + 1) ≤ 32
    · obtain ⟨v1, e1, a1, b1, c1⟩ := s1 hfirst
      obtain ⟨r1, r2⟩ := ih (i + 1) v1 a1 b1 c1
      have hrun : disc_tool_find_sectors_pass_1 (some p) (n + 1) i v =
          disc_tool_find_sectors_pass_1 (some p) n (i + 1) v1 := by
        rw [disc_tool_find_sectors_pass_1, e1]
      rw [hrun]
      exact ⟨r1, r2⟩
    · have e1 := s2 (by omega)
      have hrun : disc_tool_find_sectors_pass_1 (some p) (n + 1) i v =
          Except.error Fault.bail := by
        rw [disc_tool_find_sectors_pass_1, e1]
      rw [hrun]
      refine ⟨fun h => ?_, fun _ => rfl⟩
      omega
/-! ## Pass 2 of the sector scan -/

theorem disc_tool_get_pulses_congr (tpd : Nat) (t t' : disc_tool_struct)
    (h : disc_tool_same_track t t') :
    disc_tool_get_pulses tpd t' = disc_tool_get_pulses tpd t := by
  obtain ⟨h1, h2, h3, _, _⟩ := h
  unfold disc_tool_get_pulses
  rw [h1, h2, h3]

theorem disc_tool_same_track_refl (t : disc_tool_struct) :
    disc_tool_same_track t t := ⟨rfl, rfl, rfl, rfl, rfl⟩

theorem disc_tool_same_track_trans {a b c : disc_tool_struct}
    (h1 : disc_tool_same_track a b) (h2 : disc_tool_same_track b c) :
    disc_tool_same_track a c := by
  obtain ⟨a1, a2, a3, a4, a5⟩ := h1
  obtain ⟨b1, b2, b3, b4, b5⟩ := h2
  exact ⟨b1.trans a1, b2.trans a2, b3.trans a3, b4.trans a4, b5.trans a5⟩

theorem disc_tool_same_marks_refl (t : disc_tool_struct) :
    disc_tool_same_marks t t := fun _ => ⟨rfl, rfl, rfl⟩

theorem disc_tool_same_marks_trans {a b c : disc_tool_struct}
    (h1 : disc_tool_same_marks a b) (h2 : disc_tool_same_marks b c) :
    disc_tool_same_marks a c := by
  intro j
  obtain ⟨a1, a2, a3⟩ := h1 j
  obtain ⟨b1, b2, b3⟩ := h2 j
  exact ⟨b1.trans a1, b2.trans a2, b3.trans a3⟩

/-- With a pulse buffer, `disc_tool_read_pulses` returns and moves nothing
but the position. -/
theorem disc_tool_read_pulses_ok (tpd : Nat) (t : disc_tool_struct)
    (p : Nat → Nat) (hp : disc_tool_get_pulses tpd t = some p) :
    ∃ t' pulses, disc_tool_read_pulses tpd t = Except.ok (t', pulses) ∧
      disc_tool_same_track t t' ∧ t'.sectors = t.sectors := by
  unfold disc_tool_read_pulses
  rw [hp]
  simp only []
  by_cases h : t.pos / 32 = t.track_length
  · rw [if_pos h]
    exact ⟨_, _, rfl, ⟨rfl, rfl, rfl, rfl, rfl⟩, rfl⟩
  · rw [if_neg h]
    exact ⟨_, _, rfl, ⟨rfl, rfl, rfl, rfl, rfl⟩, rfl⟩

theorem disc_tool_read_fm_data_loop_ok (tpd : Nat) (p : Nat → Nat) (n : Nat) :
    ∀ (i : Nat) (t : disc_tool_struct) (pc pd : Option (Nat → Nat)),
      disc_tool_get_pulses tpd t = some p →
      ∃ t' pc' pd', disc_tool_read_fm_data_loop tpd n i t pc pd =
          Except.ok (t', pc', pd') ∧
        disc_tool_same_track t t' ∧ t'.sectors = t.sectors ∧
        pc'.isSome = pc.isSome ∧ pd'.isSome = pd.isSome := by
  induction n with
  | zero =>
    intro i t pc pd _
    exact ⟨t, pc, pd, rfl, disc_tool_same_track_refl t, rfl, rfl, rfl⟩
  | succ n ih =>
    intro i t pc pd hp
    obtain ⟨t1, pulses, e1, f1, s1⟩ := disc_tool_read_pulses_ok tpd t p hp
    have hp1 : disc_tool_get_pulses tpd t1 = some p := by
      rw [disc_tool_get_pulses_congr tpd t t1 f1, hp]
    obtain ⟨t2, pc2, pd2, e2, f2, s2, c2, d2⟩ := ih (i + 1) t1
      (pc.map (fun a => array_set a i
        (ibm_disc_format_2us_pulses_to_fm pulses).1))
      (pd.map (fun a => array_set a i
        (ibm_disc_format_2us_pulses_to_fm pulses).2)) hp1
    refine ⟨t2, pc2, pd2, ?_, disc_tool_same_track_trans f1 f2,
      s2.trans s1, ?_, ?_⟩
    · rw [disc_tool_read_fm_data_loop, e1]
      exact e2
    · rw [c2, Option.isSome_map']
    · rw [d2, Option.isSome_map']
theorem disc_tool_get_pulses_pos (tpd : Nat) (t : disc_tool_struct)
    (pos : Nat) :
    disc_tool_get_pulses tpd { t with pos := pos } =
      disc_tool_get_pulses tpd t := rfl

theorem disc_tool_read_fm_data_ok (tpd : Nat) (p : Nat → Nat) (n : Nat)
    (t : disc_tool_struct) (pc pd : Option (Nat → Nat))
    (hp : disc_tool_get_pulses tpd t = some p) :
    ∃ t' pc' pd', disc_tool_read_fm_data tpd t pc pd n =
        Except.ok (t', pc', pd') ∧
      disc_tool_same_track t t' ∧ t'.sectors = t.sectors ∧
      pc'.isSome = pc.isSome ∧ pd'.isSome = pd.isSome :=
  disc_tool_read_fm_data_loop_ok tpd p n 0 t pc pd hp

theorem disc_tool_find_sectors_check_header_marks (s : disc_tool_sector) :
    (disc_tool_find_sectors_check_header s).bit_pos_header = s.bit_pos_header ∧
      (disc_tool_find_sectors_check_header s).bit_pos_data = s.bit_pos_data ∧
      (disc_tool_find_sectors_check_header s).is_deleted = s.is_deleted := by
  unfold disc_tool_find_sectors_check_header
  simp only []
  split <;> exact ⟨rfl, rfl, rfl⟩

theorem disc_tool_find_sectors_check_data_marks (s : disc_tool_sector)
    (a : Nat → Nat) (n : Nat) :
    (disc_tool_find_sectors_check_data s a n).bit_pos_header =
        s.bit_pos_header ∧
      (disc_tool_find_sectors_check_data s a n).bit_pos_data = s.bit_pos_data ∧
      (disc_tool_find_sectors_check_data s a n).is_deleted = s.is_deleted := by
  unfold disc_tool_find_sectors_check_data
  simp only []
  split_ifs <;> exact ⟨rfl, rfl, rfl⟩

/-- One turn of the second loop on a descriptor with a header position: it
returns, and leaves the marks of all descriptors and everything of the other
descriptors as they were. -/
theorem disc_tool_find_sectors_check_ok (tpd : Nat) (t : disc_tool_struct)
    (p : Nat → Nat) (k : Nat) (hp : disc_tool_get_pulses tpd t = some p)
    (hh : (t.sectors k).bit_pos_header ≠ 0) :
    ∃ t', disc_tool_find_sectors_check tpd t k = Except.ok t' ∧
      disc_tool_same_track t t' ∧ disc_tool_same_marks t t' ∧
      ∀ j, j ≠ k → t'.sectors j = t.sectors j := by
  obtain ⟨t1, pc1, pd1, e1, f1, s1, _, _⟩ :=
    disc_tool_read_fm_data_ok tpd p 6
      { t with pos := (t.sectors k).bit_pos_header } none
      (some (t.sectors k).header_bytes) hp
  have hm1 := disc_tool_find_sectors_check_header_marks
    { t.sectors k with
      header_bytes := pd1.getD (t.sectors k).header_bytes }
  unfold disc_tool_find_sectors_check
  simp only [hh, if_false, e1]
  generalize disc_tool_find_sectors_check_header
    { t.sectors k with
      header_bytes := pd1.getD (t.sectors k).header_bytes } = A at hm1 ⊢
  obtain ⟨m1, m2, m3⟩ := hm1
  have hs1 : ∀ B, disc_tool_same_track t (disc_tool_set_sector t1 k B) := by
    intro B
    exact f1
  by_cases hdata : A.bit_pos_data = 0
  · rw [if_pos hdata]
    refine ⟨_, rfl, hs1 A, ?_, ?_⟩
    · intro j
      by_cases hj : j = k
      · subst hj
        simp only [disc_tool_set_sector, if_true]
        exact ⟨m1, m2, m3⟩
      · simp only [disc_tool_set_sector, hj, if_false]
        rw [s1]
        exact ⟨rfl, rfl, rfl⟩
    · intro j hj
      simp only [disc_tool_set_sector, hj, if_false]
      rw [s1]
  · rw [if_neg hdata]
    obtain ⟨t2, pc2, pd2, e2, f2, s2, _, _⟩ :=
      disc_tool_read_fm_data_ok tpd p
        (disc_tool_find_sectors_sector_size A + 2)
        { disc_tool_set_sector t1 k A with pos := A.bit_pos_data } none
        (some (fun _ => 0))
        (by
          rw [← hp]
          exact disc_tool_get_pulses_congr tpd t _ (hs1 A))
    rw [e2]
    simp only []
    have hm2 := disc_tool_find_sectors_check_data_marks A
      (pd2.getD (fun _ => 0)) (disc_tool_find_sectors_sector_size A)
    generalize disc_tool_find_sectors_check_data A
      (pd2.getD (fun _ => 0)) (disc_tool_find_sectors_sector_size A) = B
      at hm2 ⊢
    obtain ⟨n1, n2, n3⟩ := hm2
    refine ⟨_, rfl, ?_, ?_, ?_⟩
    · exact disc_tool_same_track_trans (hs1 A) f2
    · intro j
      by_cases hj : j = k
      · subst hj
        simp only [disc_tool_set_sector, if_true]
        exact ⟨n1.trans m1, n2.trans m2, n3.trans m3⟩
      · simp only [disc_tool_set_sector, hj, if_false]
        rw [s2]
        simp only [disc_tool_set_sector, hj, if_false]
        rw [s1]
        exact ⟨rfl, rfl, rfl⟩
    · intro j hj
      simp only [disc_tool_set_sector, hj, if_false]
      rw [s2]
      simp only [disc_tool_set_sector, hj, if_false]
      rw [s1]
theorem disc_tool_find_sectors_pass_2_ok (tpd : Nat) (p : Nat → Nat)
    (n : Nat) :
    ∀ (i : Nat) (t : disc_tool_struct),
      disc_tool_get_pulses tpd t = some p →
      (∀ j, i ≤ j → j < i + n → (t.sectors j).bit_pos_header ≠ 0) →
      ∃ t', disc_tool_find_sectors_pass_2 tpd n i t = Except.ok t' ∧
        disc_tool_same_track t t' ∧ disc_tool_same_marks t t' ∧
        ∀ j, (j < i ∨ i + n ≤ j) → t'.sectors j = t.sectors j := by
  induction n with
  | zero =>
    intro i t _ _
    exact ⟨t, rfl, disc_tool_same_track_refl t, disc_tool_same_marks_refl t,
      fun _ _ => rfl⟩
  | succ n ih =>
    intro i t hp hh
    obtain ⟨t1, e1, f1, m1, o1⟩ :=
      disc_tool_find_sectors_check_ok tpd t p i hp (hh i (le_refl _) (by omega))
    have hp1 : disc_tool_get_pulses tpd t1 = some p := by
      rw [disc_tool_get_pulses_congr tpd t t1 f1, hp]
    obtain ⟨t2, e2, f2, m2, o2⟩ := ih (i + 1) t1 hp1 (by
      intro j h1 h2
      rw [(m1 j).1]
      exact hh j (by omega) (by omega))
    refine ⟨t2, ?_, disc_tool_same_track_trans f1 f2,
      disc_tool_same_marks_trans m1 m2, ?_⟩
    · rw [disc_tool_find_sectors_pass_2, e1]
      exact e2
    · intro j hj
      rw [o2 j (by omega), o1 j (by omega)]

/-- The scan of a track that has a pulse buffer: it bails out exactly when
the track holds more than 32 ID marks; otherwise it returns with one
descriptor for each ID mark, whose bit positions lie inside the track and
after bit 62, with the data position behind the header position, and touches
no descriptor beyond those. -/
theorem disc_tool_find_sectors_run (tpd : Nat) (t : disc_tool_struct)
    (d : disc_struct) (hd : t.p_disc = some d) (ht : t.track < tpd) :
    (disc_tool_id_marks (disc_get_raw_pulses_buffer d t.is_side_upper t.track)
        ((t.track_length * 32) % 2 ^ 32) ≤ 32 →
      ∃ t', disc_tool_find_sectors tpd t 0 = Except.ok t' ∧
        t'.num_sectors = disc_tool_id_marks
          (disc_get_raw_pulses_buffer d t.is_side_upper t.track)
          ((t.track_length * 32) % 2 ^ 32) ∧
        (∀ j, j < t'.num_sectors →
          63 ≤ (t'.sectors j).bit_pos_header ∧
          (t'.sectors j).bit_pos_header < (t.track_length * 32) % 2 ^ 32 ∧
          ((t'.sectors j).bit_pos_data = 0 ∨
            ((t'.sectors j).bit_pos_header < (t'.sectors j).bit_pos_data ∧
              (t'.sectors j).bit_pos_data <
                (t.track_length * 32) % 2 ^ 32))) ∧
        (∀ j, t'.num_sectors ≤ j → t'.sectors j = t.sectors j) ∧
        t'.p_disc = t.p_disc ∧ t'.is_side_upper = t.is_side_upper ∧
        t'.track = t.track ∧ t'.track_length = t.track_length) ∧
    (32 < disc_tool_id_marks
        (disc_get_raw_pulses_buffer d t.is_side_upper t.track)
        ((t.track_length * 32) % 2 ^ 32) →
      disc_tool_find_sectors tpd t 0 = Except.error Fault.bail) := by
  have hp : disc_tool_get_pulses tpd t =
      some (disc_get_raw_pulses_buffer d t.is_side_upper t.track) := by
    unfold disc_tool_get_pulses
    rw [hd]
    simp only []
    rw [if_neg (by omega)]
  generalize disc_get_raw_pulses_buffer d t.is_side_upper t.track = p at hp ⊢
  generalize hn : (t.track_length * 32) % 2 ^ 32 = n
  obtain ⟨r1, r2⟩ := disc_tool_find_sectors_pass_1_run p
    { t with num_sectors := 0 } n 0
    { p_tool := { t with num_sectors := 0 },
      shift_register := 0,
      num_shifts := 0,
      pulses := 0,
      num_sectors := 0,
      mark_detector := 0,
      p_sector := none }
    ⟨rfl, fun h => absurd rfl h⟩
    ⟨Nat.zero_le _, rfl, fun j hj => absurd hj (Nat.not_lt_zero j),
      fun _ _ => rfl, ⟨_, rfl⟩⟩
    rfl
  rw [Nat.zero_add] at r1 r2
  have hfs : disc_tool_find_sectors tpd t 0 =
      match disc_tool_find_sectors_pass_1 (some p) n 0
        { p_tool := { t with num_sectors := 0 },
          shift_register := 0,
          num_shifts := 0,
          pulses := 0,
          num_sectors := 0,
          mark_detector := 0,
          p_sector := none } with
      | Except.error e => Except.error e
      | Except.ok v =>
        match disc_tool_find_sectors_pass_2 tpd v.num_sectors 0 v.p_tool with
        | Except.error e => Except.error e
        | Except.ok p_tool =>
          Except.ok { p_tool with num_sectors := v.num_sectors } := by
    simp only [disc_tool_find_sectors, hp, hn, ne_eq, not_true_eq_false,
      if_false]
    first
      | (rw [hd]; done)
      | (rw [hd]; rfl)
  rw [hfs]
  constructor
  · intro h
    obtain ⟨v, e, _, hB, hc⟩ := r1 h
    obtain ⟨b1, _, b3, b4, s, b5⟩ := hB
    have hpv : disc_tool_get_pulses tpd v.p_tool = some p := by
      rw [b5, ← hp]
      rfl
    obtain ⟨t2, e2, f2, m2, o2⟩ := disc_tool_find_sectors_pass_2_ok tpd p
      v.num_sectors 0 v.p_tool hpv (by
        intro j _ hj
        have := (b3 j (by omega)).1
        omega)
    rw [e]
    simp only [e2]
    obtain ⟨g1, g2, g3, g4, _⟩ := f2
    refine ⟨_, rfl, hc, ?_, ?_, ?_, ?_, ?_, ?_⟩
    · intro j hj
      show 63 ≤ (t2.sectors j).bit_pos_header ∧ _
      rw [(m2 j).1, (m2 j).2.1]
      exact b3 j hj
    · intro j hj
      show t2.sectors j = t.sectors j
      rw [o2 j (Or.inr (by
        have : v.num_sectors ≤ j := hj
        omega))]
      exact b4 j hj
    · show t2.p_disc = t.p_disc
      rw [g1, b5]
    · show t2.is_side_upper = t.is_side_upper
      rw [g2, b5]
    · show t2.track = t.track
      rw [g3, b5]
    · show t2.track_length = t.track_length
      rw [g4, b5]
  · intro h
    rw [r2 h]
/-! ## Stores into the pulse buffer -/

theorem disc_tool_store_pulses_words (t : disc_tool_struct) (d : disc_struct)
    (hd : t.p_disc = some d) (i v : Nat) :
    disc_tool_track_words (disc_tool_store_pulses t i v) =
        array_set (disc_tool_track_words t) i v ∧
      (∃ d', (disc_tool_store_pulses t i v).p_disc = some d') ∧
      (disc_tool_store_pulses t i v).is_side_upper = t.is_side_upper ∧
      (disc_tool_store_pulses t i v).track = t.track ∧
      (disc_tool_store_pulses t i v).track_length = t.track_length ∧
      (disc_tool_store_pulses t i v).pos = t.pos ∧
      (disc_tool_store_pulses t i v).sectors = t.sectors ∧
      (disc_tool_store_pulses t i v).num_sectors = t.num_sectors := by
  unfold disc_tool_store_pulses disc_tool_track_words
  rw [hd]
  simp only [and_self, if_true]
  exact ⟨trivial, ⟨_, rfl⟩, trivial⟩

theorem disc_tool_get_pulses_some (tpd : Nat) (t : disc_tool_struct)
    (d : disc_struct) (hd : t.p_disc = some d) (ht : t.track < tpd) :
    disc_tool_get_pulses tpd t = some (disc_tool_track_words t) := by
  unfold disc_tool_get_pulses disc_tool_track_words
  rw [hd]
  simp only []
  rw [if_neg (by omega)]
  rfl
theorem disc_tool_fill_loop_words (W : Nat) (n : Nat) :
    ∀ (t : disc_tool_struct), (∃ d, t.p_disc = some d) →
      (∀ i, disc_tool_track_words
          ((List.range n).foldl
            (fun p_tool i => disc_tool_store_pulses p_tool i W) t) i =
        if i < n then W else disc_tool_track_words t i) ∧
      (∃ d', ((List.range n).foldl
        (fun p_tool i => disc_tool_store_pulses p_tool i W) t).p_disc =
          some d') ∧
      ((List.range n).foldl
        (fun p_tool i => disc_tool_store_pulses p_tool i W) t).is_side_upper =
          t.is_side_upper ∧
      ((List.range n).foldl
        (fun p_tool i => disc_tool_store_pulses p_tool i W) t).track =
          t.track ∧
      ((List.range n).foldl
        (fun p_tool i => disc_tool_store_pulses p_tool i W) t).track_length =
          t.track_length ∧
      ((List.range n).foldl
        (fun p_tool i => disc_tool_store_pulses p_tool i W) t).sectors =
          t.sectors := by
  induction n with
  | zero =>
    intro t hd
    refine ⟨fun i => ?_, hd, rfl, rfl, rfl, rfl⟩
    show disc_tool_track_words t i = if i < 0 then W else disc_tool_track_words t i
    rw [if_neg (Nat.not_lt_zero i)]
  | succ n ih =>
    intro t hd
    obtain ⟨h1, ⟨d1, h2⟩, h3, h4, h5, h6⟩ := ih t hd
    rw [List.range_succ, List.foldl_append, List.foldl_cons, List.foldl_nil]
    obtain ⟨s1, s2, s3, s4, s5, _, s7, _⟩ :=
      disc_tool_store_pulses_words _ d1 h2 n W
    refine ⟨?_, s2, s3.trans h3, s4.trans h4, s5.trans h5, s7.trans h6⟩
    intro i
    rw [s1]
    unfold array_set
    by_cases hi : i = n
    · subst hi
      simp
    · rw [if_neg hi, h1 i]
      by_cases hlt : i < n
      · rw [if_pos hlt, if_pos (by omega)]
      · rw [if_neg hlt, if_neg (by omega)]

theorem disc_tool_commit_write_words (t : disc_tool_struct) :
    disc_tool_track_words (disc_tool_commit_write t) =
        disc_tool_track_words t ∧
      ((∃ d, t.p_disc = some d) →
        ∃ d', (disc_tool_commit_write t).p_disc = some d') ∧
      (disc_tool_commit_write t).is_side_upper = t.is_side_upper ∧
      (disc_tool_commit_write t).track = t.track ∧
      (disc_tool_commit_write t).track_length = t.track_length ∧
      (disc_tool_commit_write t).pos = t.pos ∧
      (disc_tool_commit_write t).sectors = t.sectors := by
  cases h : t.p_disc with
  | none =>
    have e : disc_tool_commit_write t = t := by
      unfold disc_tool_commit_write
      rw [h]
    rw [e]
    exact ⟨rfl, fun ⟨d, hd⟩ => absurd hd (by simp), rfl, rfl,
      rfl, rfl, rfl⟩
  | some d =>
    have e : disc_tool_commit_write t =
        { t with
          p_disc :=
            some (disc_dirty_and_flush d t.is_side_upper t.track) } := by
      unfold disc_tool_commit_write
      rw [h]
    rw [e]
    refine ⟨?_, fun _ => ⟨_, rfl⟩, rfl, rfl, rfl, rfl, rfl⟩
    unfold disc_tool_track_words
    rw [h]
    rfl

/-- After `disc_tool_fill_fm_data` on a track with a pulse buffer, the first
3125 words of the track hold the FM encoding of the data byte with clocks
0xFF, and the position is 0. -/
theorem disc_tool_fill_fm_data_words (tpd : Nat) (t : disc_tool_struct)
    (d : disc_struct) (data : Nat) (hd : t.p_disc = some d)
    (ht : t.track < tpd) :
    (∀ i, disc_tool_track_words (disc_tool_fill_fm_data tpd t data) i =
      if i < 3125 then ibm_disc_format_fm_to_2us_pulses 0xFF data
      else disc_tool_track_words t i) ∧
    (∃ d', (disc_tool_fill_fm_data tpd t data).p_disc = some d') ∧
    (disc_tool_fill_fm_data tpd t data).is_side_upper = t.is_side_upper ∧
    (disc_tool_fill_fm_data tpd t data).track = t.track ∧
    (disc_tool_fill_fm_data tpd t data).track_length = t.track_length ∧
    (disc_tool_fill_fm_data tpd t data).pos = 0 ∧
    (disc_tool_fill_fm_data tpd t data).sectors = t.sectors := by
  obtain ⟨h1, ⟨d1, h2⟩, h3, h4, h5, h6⟩ := disc_tool_fill_loop_words
    (ibm_disc_format_fm_to_2us_pulses 0xFF data) 3125 t ⟨d, hd⟩
  unfold disc_tool_fill_fm_data
  rw [disc_tool_get_pulses_some tpd t d hd ht]
  simp only [k_ibm_disc_bytes_per_track]
  generalize (List.range 3125).foldl
    (fun p_tool i => disc_tool_store_pulses p_tool i
      (ibm_disc_format_fm_to_2us_pulses 0xFF data)) t = t1 at h1 h2 h3 h4 h5 h6
  obtain ⟨c1, c2, c3, c4, c5, c6, c7⟩ :=
    disc_tool_commit_write_words { t1 with pos := 0 }
  refine ⟨?_, c2 ⟨d1, h2⟩, c3.trans h3, c4.trans h4, c5.trans h5, c6,
    c7.trans h6⟩
  intro i
  rw [c1]
  have : disc_tool_track_words { t1 with pos := 0 } =
      disc_tool_track_words t1 := rfl
  rw [this]
  exact h1 i
/-! ## The bits in the mark detector -/

theorem disc_tool_track_leading_testBit (p : Nat → Nat) (n : Nat) :
    ∀ k, k < n →
      (disc_tool_track_leading p n).testBit k =
        decide (disc_tool_track_bit p (n - 1 - k) = 1) := by
  induction n with
  | zero => intro k hk; omega
  | succ n ih =>
    intro k hk
    have hb := disc_tool_track_bit_le p n
    rw [disc_tool_track_leading]
    cases k with
    | zero =>
      rw [Nat.testBit_zero]
      have e : n + 1 - 1 - 0 = n := by omega
      rw [e]
      exact decide_eq_decide.mpr (by omega)
    | succ k =>
      rw [Nat.testBit_succ]
      have e : (2 * disc_tool_track_leading p n + disc_tool_track_bit p n) / 2 =
          disc_tool_track_leading p n := by omega
      have e2 : n + 1 - 1 - (k + 1) = n - 1 - k := by omega
      rw [e, e2]
      exact ih k (by omega)

theorem testBit_high_mask (j : Nat) :
    (0xFFFFFFFF00000000 : Nat).testBit j = (decide (32 ≤ j) && decide (j < 64)) := by
  have e : (0xFFFFFFFF00000000 : Nat) = 2 ^ 32 * (2 ^ 32 - 1) := by norm_num
  rw [e, Nat.testBit_mul_pow_two, Nat.testBit_two_pow_sub_one]
  by_cases h : 32 ≤ j
  · by_cases h2 : j < 64
    · have : j - 32 < 32 := by omega
      simp [h, h2, this]
    · have : ¬ j - 32 < 32 := by omega
      simp [h, h2, this]
  · simp [h]

theorem and_high_mask (D : Nat) (hD : D < 2 ^ 64) :
    D &&& 0xFFFFFFFF00000000 = D / 2 ^ 32 * 2 ^ 32 := by
  apply Nat.eq_of_testBit_eq
  intro j
  rw [Nat.testBit_and, testBit_high_mask, Nat.mul_comm,
    Nat.testBit_mul_pow_two, ← Nat.shiftRight_eq_div_pow,
    Nat.testBit_shiftRight]
  by_cases h : 32 ≤ j
  · have e : 32 + (j - 32) = j := by omega
    rw [e]
    by_cases h2 : j < 64
    · simp [h, h2]
    · have : D.testBit j = false :=
        Nat.testBit_lt_two_pow (lt_of_lt_of_le hD
          (Nat.pow_le_pow_right (by decide) (by omega)))
      simp [h, h2, this]
  · simp [h]

/-- The test of the mark detector against the fingerprint looks at its high
half only. -/
theorem detector_high_half (D : Nat) (hD : D < 2 ^ 64) :
    D &&& 0xFFFFFFFF00000000 = 0x8888888800000000 ↔
      D / 2 ^ 32 = 0x88888888 := by
  rw [and_high_mask D hD]
  have e : (2 : Nat) ^ 32 = 4294967296 := by norm_num
  rw [e]
  omega

/-- In a stretch of track whose bits repeat with period 32, the two halves of
the mark detector are equal once 64 bits have been read. -/
theorem disc_tool_track_leading_halves (p : Nat → Nat) (n : Nat)
    (hn : 64 ≤ n)
    (hper : ∀ i, n - 64 ≤ i → i + 32 < n →
      disc_tool_track_bit p (i + 32) = disc_tool_track_bit p i) :
    disc_tool_track_leading p n % 2 ^ 64 / 2 ^ 32 =
      disc_tool_track_leading p n % 2 ^ 64 % 2 ^ 32 := by
  apply Nat.eq_of_testBit_eq
  intro k
  rw [← Nat.shiftRight_eq_div_pow, Nat.testBit_shiftRight,
    Nat.testBit_mod_two_pow, Nat.testBit_mod_two_pow, Nat.testBit_mod_two_pow]
  by_cases hk : k < 32
  · have h1 : 32 + k < 64 := by omega
    have h2 : k < 64 := by omega
    rw [disc_tool_track_leading_testBit p n (32 + k) (by omega),
      disc_tool_track_leading_testBit p n k (by omega)]
    have e : n - 1 - k = (n - 1 - (32 + k)) + 32 := by omega
    rw [e, hper (n - 1 - (32 + k)) (by omega) (by omega)]
    simp [hk, h1, h2]
  · have h1 : ¬ 32 + k < 64 := by omega
    simp [hk, h1]
theorem disc_tool_track_bit_const (p : Nat → Nat) (W L i : Nat)
    (hW : ∀ j, j < L → p j = W) (hi : i < 32 * L) :
    disc_tool_track_bit p i = (W >>> (31 - i % 32)) % 2 := by
  unfold disc_tool_track_bit
  rw [hW (i / 32) (by omega)]

/-- A stretch of track in which every word is the same holds no mark, whatever
the word is. -/
theorem disc_tool_mark_at_const (p : Nat → Nat) (W L i : Nat)
    (hW : ∀ j, j < L → p j = W) (hi : i < 32 * L) :
    disc_tool_mark_at p i = none := by
  cases hm : disc_tool_mark_at p i with
  | none => rfl
  | some data =>
    exfalso
    have h63 := disc_tool_mark_at_ge p i data hm
    have hD : disc_tool_track_leading p (i + 1) % 2 ^ 64 < 2 ^ 64 :=
      Nat.mod_lt _ (Nat.two_pow_pos 64)
    have hhalf := disc_tool_track_leading_halves p (i + 1) (by omega) (by
      intro k _ hk
      rw [disc_tool_track_bit_const p W L (k + 32) hW (by omega),
        disc_tool_track_bit_const p W L k hW (by omega)]
      have : (k + 32) % 32 = k % 32 := by omega
      rw [this])
    unfold disc_tool_mark_at at hm
    simp only [] at hm
    by_cases h1 : disc_tool_track_leading p (i + 1) % 2 ^ 64 &&&
        0xFFFFFFFF00000000 = 0x8888888800000000
    · rw [if_pos h1] at hm
      have h2 := (detector_high_half _ hD).mp h1
      rw [h2] at hhalf
      rw [← hhalf] at hm
      have h3 : (ibm_disc_format_2us_pulses_to_fm 0x88888888).1 ≠
          k_ibm_disc_mark_clock_pattern := by decide
      rw [if_neg h3] at hm
      exact absurd hm (by simp)
    · rw [if_neg h1] at hm
      exact absurd hm (by simp)

theorem disc_tool_id_marks_zero (p : Nat → Nat) (n : Nat)
    (h : ∀ i, i < n → disc_tool_mark_at p i = none) :
    disc_tool_id_marks p n = 0 := by
  induction n with
  | zero => rfl
  | succ n ih =>
    rw [disc_tool_id_marks, ih (fun i hi => h i (by omega)),
      h n (by omega)]
    simp
/-! ## The scan without a pulse buffer -/

theorem disc_tool_find_sectors_no_disc (tpd : Nat) (t : disc_tool_struct)
    (hd : t.p_disc = none) :
    disc_tool_find_sectors tpd t 0 =
      Except.ok { t with num_sectors := 0 } := by
  simp only [disc_tool_find_sectors, ne_eq, not_true_eq_false, if_false]
  first
    | (rw [hd]; done)
    | (rw [hd]; rfl)

theorem disc_tool_find_sectors_pass_1_null (n : Nat) (v : disc_tool_scan) :
    disc_tool_find_sectors_pass_1 none (n + 1) 0 v =
      Except.error Fault.null_dereference := rfl

/-- The scan of a track that is out of range on a disc: `disc_tool_get_pulses`
gives the null pointer, and the first turn of the first loop reads through
it. -/
theorem disc_tool_find_sectors_out_of_range (tpd : Nat)
    (t : disc_tool_struct) (d : disc_struct) (hd : t.p_disc = some d)
    (ht : tpd ≤ t.track) :
    ((t.track_length * 32) % 2 ^ 32 = 0 →
      disc_tool_find_sectors tpd t 0 =
        Except.ok { t with num_sectors := 0 }) ∧
    ((t.track_length * 32) % 2 ^ 32 ≠ 0 →
      disc_tool_find_sectors tpd t 0 =
        Except.error Fault.null_dereference) := by
  have hp : disc_tool_get_pulses tpd t = none := by
    unfold disc_tool_get_pulses
    rw [hd]
    simp only []
    rw [if_pos ht]
  constructor
  · intro hn
    simp only [disc_tool_find_sectors, ne_eq, not_true_eq_false, if_false,
      hp, hn]
    first
      | (rw [hd]; done)
      | (rw [hd]; rfl)
  · intro hn
    obtain ⟨m, hm⟩ := Nat.exists_eq_succ_of_ne_zero hn
    simp only [disc_tool_find_sectors, ne_eq, not_true_eq_false, if_false,
      hp, hm, Nat.succ_eq_add_one, disc_tool_find_sectors_pass_1_null]
    first
      | (rw [hd]; done)
      | (rw [hd]; rfl)
/-! ## Reading and writing FM bytes at a byte position -/

theorem disc_tool_store_pulses_pulses (t : disc_tool_struct) (d : disc_struct)
    (hd : t.p_disc = some d) (i v : Nat) (side : Int) (track j : Nat) :
    disc_tool_pulses (disc_tool_store_pulses t i v) side track j =
      if side = t.is_side_upper ∧ track = t.track ∧ j = i then v
      else disc_tool_pulses t side track j := by
  unfold disc_tool_store_pulses disc_tool_pulses
  rw [hd]
  simp only []
  by_cases h1 : side = t.is_side_upper ∧ track = t.track
  · rw [if_pos h1]
    unfold array_set
    by_cases h2 : j = i
    · rw [if_pos h2, if_pos ⟨h1.1, h1.2, h2⟩]
    · rw [if_neg h2, if_neg (fun h => h2 h.2.2)]
  · rw [if_neg h1, if_neg (fun h => h1 ⟨h.1, h.2.1⟩)]

theorem disc_tool_track_words_eq_pulses (t : disc_tool_struct) (i : Nat) :
    disc_tool_track_words t i =
      disc_tool_pulses t t.is_side_upper t.track i := by
  unfold disc_tool_track_words disc_tool_pulses
  cases t.p_disc <;> rfl

theorem disc_tool_read_pulses_aligned (tpd : Nat) (t : disc_tool_struct)
    (p : Nat → Nat) (q : Nat) (hp : disc_tool_get_pulses tpd t = some p)
    (hpos : t.pos = 32 * q) (hq : q ≠ t.track_length) :
    disc_tool_read_pulses tpd t =
      Except.ok ({ t with pos := (32 * (q + 1)) % 2 ^ 32 }, p q % 2 ^ 32) := by
  unfold disc_tool_read_pulses
  rw [hp]
  have h1 : t.pos / 32 = q := by omega
  have h2 : t.pos % 32 = 0 := by omega
  have h3 : (t.pos + 32) % 2 ^ 32 = (32 * (q + 1)) % 2 ^ 32 := by
    rw [hpos]
    congr 1
  simp only [h1, h2, h3, hq, if_false, Nat.lt_irrefl, Nat.shiftLeft_zero]

/-- Reading bytes from a byte position inside the track: byte `k` read is
decoded from word `q + k`, and the position ends `n` words on. -/
theorem disc_tool_read_fm_data_loop_aligned (tpd : Nat) (p : Nat → Nat)
    (n : Nat) :
    ∀ (i0 : Nat) (t : disc_tool_struct) (c d : Nat → Nat) (q : Nat),
      disc_tool_get_pulses tpd t = some p → t.pos = (32 * q) % 2 ^ 32 →
      q + n ≤ t.track_length → t.track_length ≤ 2 ^ 27 →
      ∃ c' d', disc_tool_read_fm_data_loop tpd n i0 t (some c) (some d) =
          Except.ok ({ t with pos := (32 * (q + n)) % 2 ^ 32 },
            some c', some d') ∧
        (∀ k, k < n →
          c' (i0 + k) =
            (ibm_disc_format_2us_pulses_to_fm (p (q + k) % 2 ^ 32)).1 ∧
          d' (i0 + k) =
            (ibm_disc_format_2us_pulses_to_fm (p (q + k) % 2 ^ 32)).2) ∧
        (∀ j, j < i0 → c' j = c j ∧ d' j = d j) := by
  induction n with
  | zero =>
    intro i0 t c d q _ hpos _ _
    refine ⟨c, d, ?_, fun k hk => absurd hk (Nat.not_lt_zero k),
      fun _ _ => ⟨rfl, rfl⟩⟩
    rw [disc_tool_read_fm_data_loop, Nat.add_zero, ← hpos]
  | succ n ih =>
    intro i0 t c d q hp hpos hlen hL
    have e27 : (2 : Nat) ^ 27 = 134217728 := by norm_num
    have e32 : (2 : Nat) ^ 32 = 4294967296 := by norm_num
    have hpos' : t.pos = 32 * q := by
      rw [hpos, e32]
      omega
    have e1 := disc_tool_read_pulses_aligned tpd t p q hp hpos' (by omega)
    obtain ⟨c', d', e2, h2, h3⟩ := ih (i0 + 1)
      { t with pos := (32 * (q + 1)) % 2 ^ 32 }
      (array_set c i0 (ibm_disc_format_2us_pulses_to_fm (p q % 2 ^ 32)).1)
      (array_set d i0 (ibm_disc_format_2us_pulses_to_fm (p q % 2 ^ 32)).2)
      (q + 1) hp rfl (by show q + 1 + n ≤ t.track_length; omega) hL
    refine ⟨c', d', ?_, ?_, ?_⟩
    · rw [disc_tool_read_fm_data_loop, e1]
      simp only [Option.map_some']
      rw [e2]
      have : q + 1 + n = q + (n + 1) := by omega
      rw [this]
    · intro k hk
      cases k with
      | zero =>
        obtain ⟨a, b⟩ := h3 i0 (by omega)
        rw [Nat.add_zero, Nat.add_zero, a, b]
        unfold array_set
        simp
      | succ k =>
        have := h2 k (by omega)
        have e3 : i0 + 1 + k = i0 + (k + 1) := by omega
        have e4 : q + 1 + k = q + (k + 1) := by omega
        rw [e3, e4] at this
        exact this
    · intro j hj
      obtain ⟨a, b⟩ := h3 j (by omega)
      rw [a, b]
      unfold array_set
      have : ¬ j = i0 := by omega
      simp [this]
/-- Writing bytes from a word inside the track that do not run past its end:
word `q + k` receives the encoding of byte `k`, and no other word of the disc
changes. -/
theorem disc_tool_write_fm_data_loop_pulses (pc : Option (Nat → Nat))
    (pd : Nat → Nat) (L : Nat) (t : disc_tool_struct) (q pos : Nat)
    (hd : ∃ d, t.p_disc = some d) (hq : q < L) (hL : L < 2 ^ 32) (n : Nat) :
    q + n ≤ L →
      (∀ side track j,
        disc_tool_pulses ((List.range n).foldl
            (disc_tool_write_fm_data_step pc pd L) (t, q, pos)).1 side track j =
          if side = t.is_side_upper ∧ track = t.track ∧ q ≤ j ∧ j < q + n then
            ibm_disc_format_fm_to_2us_pulses
              (disc_tool_write_fm_data_clocks pc (j - q))
              (pd (j - q))
          else disc_tool_pulses t side track j) ∧
      ((List.range n).foldl
        (disc_tool_write_fm_data_step pc pd L) (t, q, pos)).2.1 =
          (if q + n = L then 0 else q + n) ∧
      (∃ d', ((List.range n).foldl
        (disc_tool_write_fm_data_step pc pd L) (t, q, pos)).1.p_disc =
          some d') ∧
      ((List.range n).foldl
        (disc_tool_write_fm_data_step pc pd L) (t, q, pos)).1.is_side_upper =
          t.is_side_upper ∧
      ((List.range n).foldl
        (disc_tool_write_fm_data_step pc pd L) (t, q, pos)).1.track =
          t.track := by
  induction n with
  | zero =>
    intro _
    refine ⟨fun side track j => ?_, ?_, hd, rfl, rfl⟩
    · show disc_tool_pulses t side track j = _
      rw [if_neg (by omega)]
    · show q = _
      rw [if_neg (by omega), Nat.add_zero]
  | succ n ih =>
    intro hlen
    obtain ⟨h1, h2, ⟨d1, h3⟩, h4, h5⟩ := ih (by omega)
    rw [List.range_succ, List.foldl_append, List.foldl_cons, List.foldl_nil]
    generalize (List.range n).foldl
      (disc_tool_write_fm_data_step pc pd L) (t, q, pos) = v at h1 h2 h3 h4 h5
    rw [if_neg (by omega)] at h2
    have e32 : (2 : Nat) ^ 32 = 4294967296 := by norm_num
    have hmod : (q + n + 1) % 2 ^ 32 = q + n + 1 :=
      Nat.mod_eq_of_lt (by omega)
    obtain ⟨s1, s2, s3, s4, _⟩ := disc_tool_store_pulses_words v.1 d1 h3
      (q + n)
      (ibm_disc_format_fm_to_2us_pulses
        (disc_tool_write_fm_data_clocks pc n)
        (pd n))
    have hstep : (disc_tool_write_fm_data_step pc pd L v n).1 =
        disc_tool_store_pulses v.1 (q + n)
          (ibm_disc_format_fm_to_2us_pulses
            (disc_tool_write_fm_data_clocks pc n)
            (pd n)) ∧
        (disc_tool_write_fm_data_step pc pd L v n).2.1 =
          (if q + (n + 1) = L then 0 else q + (n + 1)) := by
      unfold disc_tool_write_fm_data_step
      simp only [h2, hmod]
      by_cases hend : q + n + 1 = L
      · rw [if_pos hend, if_pos (by omega)]
        exact ⟨rfl, rfl⟩
      · rw [if_neg hend, if_neg (by omega)]
        exact ⟨rfl, rfl⟩
    rw [hstep.1, hstep.2]
    refine ⟨?_, rfl, s2, s3.trans h4, s4.trans h5⟩
    intro side track j
    rw [disc_tool_store_pulses_pulses v.1 d1 h3, h4, h5, h1]
    by_cases hsel : side = t.is_side_upper ∧ track = t.track
    · by_cases hj : j = q + n
      · have e : j - q = n := by omega
        rw [if_pos ⟨hsel.1, hsel.2, hj⟩,
          if_pos ⟨hsel.1, hsel.2, by omega, by omega⟩, e]
      · rw [if_neg (fun h => hj h.2.2)]
        by_cases hr : q ≤ j ∧ j < q + n
        · rw [if_pos ⟨hsel.1, hsel.2, hr.1, hr.2⟩,
            if_pos ⟨hsel.1, hsel.2, hr.1, by omega⟩]
        · rw [if_neg (fun h => hr ⟨h.2.2.1, h.2.2.2⟩),
            if_neg (fun h => hr ⟨h.2.2.1, by omega⟩)]
    · rw [if_neg (fun h => hsel ⟨h.1, h.2.1⟩),
        if_neg (fun h => hsel ⟨h.1, h.2.1⟩),
        if_neg (fun h => hsel ⟨h.1, h.2.1⟩)]
theorem ibm_disc_format_fm_cell_lt (c d i : Nat) :
    ibm_disc_format_fm_cell c d i < 2 ^ 4 := by
  unfold ibm_disc_format_fm_cell
  split <;> split <;> decide

theorem ibm_disc_format_fm_to_2us_pulses_lt (c d : Nat) :
    ibm_disc_format_fm_to_2us_pulses c d < 2 ^ 32 := by
  have h : ∀ k, (List.range k).foldl
      (fun ret i => (ret <<< 4) ||| ibm_disc_format_fm_cell c d i) 0 <
        2 ^ (4 * k) := by
    intro k
    induction k with
    | zero => simp
    | succ k ih =>
      rw [List.range_succ, List.foldl_append, List.foldl_cons, List.foldl_nil]
      apply Nat.or_lt_two_pow
      · rw [Nat.shiftLeft_eq]
        have e : 4 * (k + 1) = 4 * k + 4 := by ring
        rw [e, Nat.pow_add]
        exact Nat.mul_lt_mul_of_pos_right ih (by decide)
      · exact lt_of_lt_of_le (ibm_disc_format_fm_cell_lt c d k)
          (Nat.pow_le_pow_right (by decide) (by omega))
  exact h 8

theorem disc_tool_commit_write_pulses (t : disc_tool_struct) (side : Int)
    (track i : Nat) :
    disc_tool_pulses (disc_tool_commit_write t) side track i =
      disc_tool_pulses t side track i := by
  unfold disc_tool_commit_write disc_tool_pulses
  cases h : t.p_disc with
  | none => simp only [h]
  | some d => rfl

/-! ## The FM encoding -/

theorem testBit_as_nat (c k : Nat) :
    (if c.testBit k then (1 : Nat) else 0) = c / 2 ^ k % 2 := by
  rw [Nat.testBit_to_div_mod]
  by_cases h : c / 2 ^ k % 2 = 1
  · simp [h]
  · have h0 : c / 2 ^ k % 2 = 0 := by omega
    simp [h0]

theorem ibm_disc_format_fm_cell_eq (c d i : Nat) :
    ibm_disc_format_fm_cell c d i =
      8 * (c / 2 ^ (7 - i) % 2) + 2 * (d / 2 ^ (7 - i) % 2) := by
  unfold ibm_disc_format_fm_cell
  rw [← testBit_as_nat c, ← testBit_as_nat d]
  by_cases h1 : c.testBit (7 - i) = true <;>
    by_cases h2 : d.testBit (7 - i) = true <;> simp [h1, h2]

theorem shiftLeft_four_or (x a : Nat) (ha : a < 16) :
    (x <<< 4) ||| a = 16 * x + a := by
  rw [Nat.shiftLeft_eq, Nat.mul_comm]
  exact (Nat.mul_add_lt_is_or (show a < 2 ^ 4 from ha) x).symm

theorem ibm_disc_format_fm_to_2us_pulses_eq (c d : Nat) :
    ibm_disc_format_fm_to_2us_pulses c d =
      16 * (16 * (16 * (16 * (16 * (16 * (16 *
        ibm_disc_format_fm_cell c d 0 +
        ibm_disc_format_fm_cell c d 1) +
        ibm_disc_format_fm_cell c d 2) +
        ibm_disc_format_fm_cell c d 3) +
        ibm_disc_format_fm_cell c d 4) +
        ibm_disc_format_fm_cell c d 5) +
        ibm_disc_format_fm_cell c d 6) +
        ibm_disc_format_fm_cell c d 7 := by
  have hr : List.range 8 = [0, 1, 2, 3, 4, 5, 6, 7] := by decide
  have hc := fun i => ibm_disc_format_fm_cell_lt c d i
  unfold ibm_disc_format_fm_to_2us_pulses
  rw [hr]
  simp only [List.foldl]
  rw [shiftLeft_four_or _ _ (hc 0), shiftLeft_four_or _ _ (hc 1),
    shiftLeft_four_or _ _ (hc 2), shiftLeft_four_or _ _ (hc 3),
    shiftLeft_four_or _ _ (hc 4), shiftLeft_four_or _ _ (hc 5),
    shiftLeft_four_or _ _ (hc 6), shiftLeft_four_or _ _ (hc 7)]
  omega

/-- The clock bit and the data bit that the decoder takes from a group of
four slots. -/
theorem ibm_disc_format_group_bits (top cb db : Nat) (ht : top ≤ 1)
    (hc : cb ≤ 1) (hd : db ≤ 1) :
    (if (8 * top + 4 * cb + db) &&& 0x03 ≠ 0 then 1 else 0) = db ∧
      (if (8 * cb + 2 * db) &&& 0x03 ≠ 0 then 1 else 0) = db ∧
      (if (8 * cb + 2 * db) &&& 0x0C ≠ 0 then 1 else 0) = cb := by
  interval_cases top <;> interval_cases cb <;> interval_cases db <;> decide

theorem ibm_disc_format_2us_pulses_to_fm_eq (w : Nat) :
    ibm_disc_format_2us_pulses_to_fm w =
      ((((((((0 * 2 +
        (if (w >>> 28 &&& 0x0F) &&& 0x0C ≠ 0 then 1 else 0)) * 2 +
        (if (w >>> 24 &&& 0x0F) &&& 0x0C ≠ 0 then 1 else 0)) * 2 +
        (if (w >>> 20 &&& 0x0F) &&& 0x0C ≠ 0 then 1 else 0)) * 2 +
        (if (w >>> 16 &&& 0x0F) &&& 0x0C ≠ 0 then 1 else 0)) * 2 +
        (if (w >>> 12 &&& 0x0F) &&& 0x0C ≠ 0 then 1 else 0)) * 2 +
        (if (w >>> 8 &&& 0x0F) &&& 0x0C ≠ 0 then 1 else 0)) * 2 +
        (if (w >>> 4 &&& 0x0F) &&& 0x0C ≠ 0 then 1 else 0)) * 2 +
        (if (w >>> 0 &&& 0x0F) &&& 0x0C ≠ 0 then 1 else 0),
       (((((((0 * 2 +
        (if (w >>> 28 &&& 0x0F) &&& 0x03 ≠ 0 then 1 else 0)) * 2 +
        (if (w >>> 24 &&& 0x0F) &&& 0x03 ≠ 0 then 1 else 0)) * 2 +
        (if (w >>> 20 &&& 0x0F) &&& 0x03 ≠ 0 then 1 else 0)) * 2 +
        (if (w >>> 16 &&& 0x0F) &&& 0x03 ≠ 0 then 1 else 0)) * 2 +
        (if (w >>> 12 &&& 0x0F) &&& 0x03 ≠ 0 then 1 else 0)) * 2 +
        (if (w >>> 8 &&& 0x0F) &&& 0x03 ≠ 0 then 1 else 0)) * 2 +
        (if (w >>> 4 &&& 0x0F) &&& 0x03 ≠ 0 then 1 else 0)) * 2 +
        (if (w >>> 0 &&& 0x0F) &&& 0x03 ≠ 0 then 1 else 0)) := by
  have hr : List.range 8 = [0, 1, 2, 3, 4, 5, 6, 7] := by decide
  unfold ibm_disc_format_2us_pulses_to_fm
  rw [hr]
  rfl

theorem group_eq_div_mod (w k : Nat) : w >>> k &&& 0x0F = w / 2 ^ k % 16 := by
  rw [Nat.shiftRight_eq_div_pow]
  exact Nat.and_pow_two_sub_one_eq_mod _ 4

theorem byte_bits_sum_all : ∀ d : Nat, d < 256 →
    (((((((0 * 2 + d / 128 % 2) * 2 + d / 64 % 2) * 2 + d / 32 % 2) * 2 +
      d / 16 % 2) * 2 + d / 8 % 2) * 2 + d / 4 % 2) * 2 + d / 2 % 2) * 2 +
      d / 1 % 2 = d := by
  decide

theorem byte_bits_sum (d : Nat) (hd : d < 256) :
    (((((((0 * 2 + d / 128 % 2) * 2 + d / 64 % 2) * 2 + d / 32 % 2) * 2 +
      d / 16 % 2) * 2 + d / 8 % 2) * 2 + d / 4 % 2) * 2 + d / 2 % 2) * 2 +
      d / 1 % 2 = d :=
  byte_bits_sum_all d hd

theorem shifted_word_eq (x E : Nat) (hE : E < 2 ^ 32) :
    ((x <<< 31) % 2 ^ 32) ||| (E >>> 1) = 2147483648 * (x % 2) + E / 2 := by
  have e1 : (x <<< 31) % 2 ^ 32 = 2 ^ 31 * (x % 2) := by
    rw [Nat.shiftLeft_eq]
    show x * 2147483648 % 4294967296 = 2147483648 * (x % 2)
    omega
  have e2 : E >>> 1 = E / 2 := by
    rw [Nat.shiftRight_eq_div_pow, Nat.pow_one]
  have e3 : E / 2 < 2 ^ 31 := by
    have : (2 : Nat) ^ 32 = 4294967296 := by norm_num
    show E / 2 < 2147483648
    omega
  rw [e1, e2, ← Nat.mul_add_lt_is_or e3]

/-- The groups of four slots of a word that starts one slot before an FM
encoding: the first group has the slot in front on top, and every group holds
the clock bit and the data bit of its cell one place further down. -/
theorem shifted_groups (top h0 h1 h2 h3 h4 h5 h6 h7 S : Nat) (ht : top ≤ 1)
    (b0 : h0 < 8) (b1 : h1 < 8) (b2 : h2 < 8) (b3 : h3 < 8) (b4 : h4 < 8)
    (b5 : h5 < 8) (b6 : h6 < 8) (b7 : h7 < 8)
    (hS : S = 2147483648 * top +
      (16 * (16 * (16 * (16 * (16 * (16 * (16 * h0 + h1) + h2) + h3) + h4) +
        h5) + h6) + h7)) :
    S / 2 ^ 28 % 16 = 8 * top + h0 ∧ S / 2 ^ 24 % 16 = h1 ∧
      S / 2 ^ 20 % 16 = h2 ∧ S / 2 ^ 16 % 16 = h3 ∧ S / 2 ^ 12 % 16 = h4 ∧
      S / 2 ^ 8 % 16 = h5 ∧ S / 2 ^ 4 % 16 = h6 ∧ S / 2 ^ 0 % 16 = h7 := by
  subst hS
  norm_num
  refine ⟨?_, ?_, ?_, ?_, ?_, ?_, ?_, ?_⟩ <;> omega

theorem ibm_disc_format_fm_cell_half (c d i : Nat) :
    ibm_disc_format_fm_cell c d i =
      2 * (4 * (c / 2 ^ (7 - i) % 2) + d / 2 ^ (7 - i) % 2) := by
  rw [ibm_disc_format_fm_cell_eq]
  omega

theorem horner_half (h0 h1 h2 h3 h4 h5 h6 h7 : Nat) :
    (16 * (16 * (16 * (16 * (16 * (16 * (16 * (2 * h0) + 2 * h1) + 2 * h2) +
      2 * h3) + 2 * h4) + 2 * h5) + 2 * h6) + 2 * h7) / 2 =
      16 * (16 * (16 * (16 * (16 * (16 * (16 * h0 + h1) + h2) + h3) + h4) +
        h5) + h6) + h7 := by
  omega

/-- Decoding 32 slots that start one slot before an FM encoding gives the data
byte of the encoding, whatever the slot in front holds. -/
theorem ibm_disc_format_2us_pulses_to_fm_shifted (x c d : Nat)
    (hd : d < 256) :
    (ibm_disc_format_2us_pulses_to_fm
      (((x <<< 31) % 2 ^ 32) |||
        (ibm_disc_format_fm_to_2us_pulses c d >>> 1))).2 = d := by
  rw [shifted_word_eq x _ (ibm_disc_format_fm_to_2us_pulses_lt c d),
    ibm_disc_format_fm_to_2us_pulses_eq]
  simp only [ibm_disc_format_fm_cell_half]
  rw [horner_half]
  have hb : ∀ a b : Nat, 4 * (a % 2) + b % 2 < 8 := by
    intro a b
    omega
  obtain ⟨g0, g1, g2, g3, g4, g5, g6, g7⟩ := shifted_groups (x % 2)
    _ _ _ _ _ _ _ _ _ (by omega) (hb _ _) (hb _ _) (hb _ _) (hb _ _) (hb _ _)
    (hb _ _) (hb _ _) (hb _ _) rfl
  rw [ibm_disc_format_2us_pulses_to_fm_eq]
  simp only [group_eq_div_mod]
  rw [g0, g1, g2, g3, g4, g5, g6, g7]
  have hg : ∀ top a b : Nat, top ≤ 1 →
      (if (8 * top + (4 * (a % 2) + b % 2)) &&& 0x03 ≠ 0 then 1 else 0) =
        b % 2 := by
    intro top a b ht
    have := (ibm_disc_format_group_bits top (a % 2) (b % 2) ht (by omega)
      (by omega)).1
    rw [← Nat.add_assoc]
    exact this
  have hg0 : ∀ a b : Nat,
      (if (4 * (a % 2) + b % 2) &&& 0x03 ≠ 0 then 1 else 0) = b % 2 := by
    intro a b
    have := hg 0 a b (by omega)
    simpa using this
  rw [hg (x % 2) _ _ (by omega)]
  simp only [hg0]
  exact byte_bits_sum d hd

/-! ## Marks on word boundaries -/

theorem disc_tool_track_leading_word (p : Nat → Nat) (q : Nat) :
    disc_tool_track_leading p (32 * (q + 1)) =
      2 ^ 32 * disc_tool_track_leading p (32 * q) + p q % 2 ^ 32 := by
  have hB : p q % 2 ^ 32 < 2 ^ 32 := Nat.mod_lt _ (Nat.two_pow_pos 32)
  apply Nat.eq_of_testBit_eq
  intro k
  rw [Nat.testBit_mul_pow_two_add _ hB]
  by_cases h1 : k < 32
  · rw [if_pos h1, disc_tool_track_leading_testBit p _ k (by omega),
      disc_tool_track_bit_eq, Nat.testBit_mod_two_pow]
    have e1 : (32 * (q + 1) - 1 - k) / 32 = q := by omega
    have e2 : 31 - (32 * (q + 1) - 1 - k) % 32 = k := by omega
    rw [e1, e2]
    by_cases hb : (p q).testBit k = true <;> simp [hb, h1]
  · rw [if_neg h1]
    by_cases h2 : k < 32 * (q + 1)
    · rw [disc_tool_track_leading_testBit p _ k h2,
        disc_tool_track_leading_testBit p _ (k - 32) (by omega)]
      have e : 32 * (q + 1) - 1 - k = 32 * q - 1 - (k - 32) := by omega
      rw [e]
    · have l1 := disc_tool_track_leading_lt p (32 * (q + 1))
      have l2 := disc_tool_track_leading_lt p (32 * q)
      rw [Nat.testBit_eq_false_of_lt, Nat.testBit_eq_false_of_lt]
      · exact Nat.lt_of_lt_of_le l2
          (Nat.pow_le_pow_right (by omega) (by omega))
      · exact Nat.lt_of_lt_of_le l1
          (Nat.pow_le_pow_right (by omega) (by omega))

/-- The mark detector after the last bit of word `w` holds the words `w - 1`
and `w`. -/
theorem disc_tool_track_leading_words (p : Nat → Nat) (w : Nat)
    (hw : 1 ≤ w) :
    disc_tool_track_leading p (32 * w + 31 + 1) % 2 ^ 64 =
      2 ^ 32 * (p (w - 1) % 2 ^ 32) + p w % 2 ^ 32 := by
  obtain ⟨u, rfl⟩ : ∃ u, w = u + 1 := ⟨w - 1, by omega⟩
  have e : 32 * (u + 1) + 31 + 1 = 32 * (u + 1 + 1) := by omega
  rw [e, disc_tool_track_leading_word p (u + 1),
    disc_tool_track_leading_word p u, Nat.add_sub_cancel]
  have h1 : p u % 2 ^ 32 < 2 ^ 32 := Nat.mod_lt _ (Nat.two_pow_pos 32)
  have h2 : p (u + 1) % 2 ^ 32 < 2 ^ 32 := Nat.mod_lt _ (Nat.two_pow_pos 32)
  generalize p u % 2 ^ 32 = a at h1 ⊢
  generalize p (u + 1) % 2 ^ 32 = b at h2 ⊢
  generalize disc_tool_track_leading p (32 * u) = L
  show (4294967296 * (4294967296 * L + a) + b) % 18446744073709551616 =
    4294967296 * a + b
  have h1' : a < 4294967296 := h1
  have h2' : b < 4294967296 := h2
  omega

/-- A word behind a sync byte is recognised as a mark at its last bit when it
decodes to the mark clock pattern. -/
theorem disc_tool_mark_at_word (p : Nat → Nat) (w W : Nat) (hw : 1 ≤ w)
    (hs : p (w - 1) = 0x88888888) (hW : p w = W) (hlt : W < 2 ^ 32) :
    disc_tool_mark_at p (32 * w + 31) =
      if (ibm_disc_format_2us_pulses_to_fm W).1 = k_ibm_disc_mark_clock_pattern
      then some (ibm_disc_format_2us_pulses_to_fm W).2 else none := by
  have hD := disc_tool_track_leading_words p w hw
  rw [hs, hW, Nat.mod_eq_of_lt hlt] at hD
  have hlt' : W < 4294967296 := hlt
  have hDlt : 2 ^ 32 * (0x88888888 % 2 ^ 32) + W < 2 ^ 64 := by
    show 4294967296 * (0x88888888 % 4294967296) + W < 18446744073709551616
    omega
  have e1 : (2 ^ 32 * (0x88888888 % 2 ^ 32) + W) / 2 ^ 32 = 0x88888888 := by
    show (4294967296 * (0x88888888 % 4294967296) + W) / 4294967296 = 0x88888888
    omega
  have e2 : (2 ^ 32 * (0x88888888 % 2 ^ 32) + W) % 2 ^ 32 = W := by
    show (4294967296 * (0x88888888 % 4294967296) + W) % 4294967296 = W
    omega
  unfold disc_tool_mark_at
  simp only [hD]
  rw [if_pos ((detector_high_half _ hDlt).mpr e1), e2]

/-! ## Pass 1 in stages -/

theorem disc_tool_find_sectors_pass_1_add (pp : Option (Nat → Nat))
    (a b : Nat) :
    ∀ (i : Nat) (v : disc_tool_scan),
      disc_tool_find_sectors_pass_1 pp (a + b) i v =
        match disc_tool_find_sectors_pass_1 pp a i v with
        | Except.error e => Except.error e
        | Except.ok v1 => disc_tool_find_sectors_pass_1 pp b (i + a) v1 := by
  induction a with
  | zero =>
    intro i v
    simp [disc_tool_find_sectors_pass_1]
  | succ a ih =>
    intro i v
    have e : a + 1 + b = (a + b) + 1 := by omega
    rw [e, disc_tool_find_sectors_pass_1, disc_tool_find_sectors_pass_1]
    cases h : disc_tool_find_sectors_step pp v i with
    | error e => rfl
    | ok v1 =>
      simp only []
      rw [ih (i + 1) v1]
      have e2 : i + 1 + a = i + (a + 1) := by omega
      rw [e2]

theorem disc_tool_find_sectors_mark_ignored (v : disc_tool_scan)
    (i data : Nat) (h1 : data ≠ k_ibm_disc_id_mark_data_pattern)
    (h2 : data ≠ k_ibm_disc_data_mark_data_pattern)
    (h3 : data ≠ k_ibm_disc_deleted_data_mark_data_pattern) :
    disc_tool_find_sectors_mark v i data = Except.ok v := by
  unfold disc_tool_find_sectors_mark
  rw [if_neg h1, if_neg (by
    intro h
    rcases h with h | h
    · exact h2 h
    · exact h3 h)]

/-- A turn of the first loop at a bit where no ID mark and no data mark ends
only shifts the bit in. -/
theorem disc_tool_find_sectors_step_quiet (p : Nat → Nat)
    (v : disc_tool_scan) (i : Nat) (hA : disc_tool_scan_bits p v i)
    (hq : disc_tool_no_marks p i (i + 1)) :
    disc_tool_find_sectors_step (some p) v i =
      Except.ok (disc_tool_scan_shift p v i) := by
  rw [disc_tool_find_sectors_step_eq p v i hA.1 hA.2]
  obtain ⟨q1, q2, q3⟩ := hq i (Nat.le_refl i) (Nat.lt_succ_self i)
  cases hm : disc_tool_mark_at p i with
  | none => rfl
  | some data =>
    rw [hm] at q1 q2 q3
    exact disc_tool_find_sectors_mark_ignored _ i data
      (fun h => q1 (by rw [h]))
      (fun h => q2 (by rw [h]))
      (fun h => q3 (by rw [h]))

theorem disc_tool_find_sectors_pass_1_quiet (p : Nat → Nat) (n : Nat) :
    ∀ (i : Nat) (v : disc_tool_scan), disc_tool_scan_bits p v i →
      disc_tool_no_marks p i (i + n) →
      ∃ v', disc_tool_find_sectors_pass_1 (some p) n i v = Except.ok v' ∧
        disc_tool_scan_bits p v' (i + n) ∧ v'.p_tool = v.p_tool ∧
        v'.num_sectors = v.num_sectors ∧ v'.p_sector = v.p_sector := by
  induction n with
  | zero =>
    intro i v hA _
    exact ⟨v, rfl, hA, rfl, rfl, rfl⟩
  | succ n ih =>
    intro i v hA hq
    have e1 := disc_tool_find_sectors_step_quiet p v i hA
      (fun k h1 h2 => hq k h1 (by omega))
    obtain ⟨v', e2, hA', f1, f2, f3⟩ := ih (i + 1)
      (disc_tool_scan_shift p v i) (disc_tool_scan_shift_bits p v i)
      (fun k h1 h2 => hq k (by omega) (by omega))
    refine ⟨v', ?_, ?_, f1, f2, f3⟩
    · rw [disc_tool_find_sectors_pass_1, e1]
      exact e2
    · have e3 : i + 1 + n = i + (n + 1) := by omega
      rw [← e3]
      exact hA'

/-- The turn of the first loop at the last bit of an ID mark, with room for a
descriptor: descriptor `num_sectors` is taken for it. -/
theorem disc_tool_find_sectors_step_id (p : Nat → Nat)
    (t0 : disc_tool_struct) (v : disc_tool_scan) (i : Nat)
    (hA : disc_tool_scan_bits p v i) (hB : disc_tool_scan_sectors t0 v i)
    (hm : disc_tool_mark_at p i = some k_ibm_disc_id_mark_data_pattern)
    (hn : v.num_sectors < 32) :
    ∃ v', disc_tool_find_sectors_step (some p) v i = Except.ok v' ∧
      disc_tool_scan_bits p v' (i + 1) ∧
      v'.num_sectors = v.num_sectors + 1 ∧
      v'.p_sector = some v.num_sectors ∧
      disc_tool_sector_found (v'.p_tool.sectors v.num_sectors) i 0 0 := by
  rw [disc_tool_find_sectors_step_eq p v i hA.1 hA.2, hm]
  obtain ⟨v', e, _, f1, f2, f3, f4, f5, _⟩ :=
    disc_tool_find_sectors_mark_id t0 (disc_tool_scan_shift p v i) i
      (disc_tool_scan_shift_sectors p t0 v i i hB)
      (disc_tool_mark_at_ge p i _ hm) hn
  refine ⟨v', e, ?_, f1, f4, ?_⟩
  · have hs := disc_tool_scan_shift_bits p v i
    unfold disc_tool_scan_bits at hs ⊢
    rw [f2, f3]
    exact hs
  · have f5' : v'.p_tool.sectors v.num_sectors =
        { disc_tool_sector_zero with bit_pos_header := i } := f5
    rw [f5']
    exact ⟨rfl, rfl, rfl, rfl, rfl⟩

/-- The turn of the first loop at the last bit of a data mark, when the latest
descriptor has no data position yet: the descriptor receives it. -/
theorem disc_tool_find_sectors_step_data (p : Nat → Nat)
    (v : disc_tool_scan) (i mark j header : Nat)
    (hA : disc_tool_scan_bits p v i)
    (hm : disc_tool_mark_at p i = some mark)
    (hmk : mark = k_ibm_disc_data_mark_data_pattern ∨
      mark = k_ibm_disc_deleted_data_mark_data_pattern)
    (hp : v.p_sector = some j) (hh : header ≠ 0)
    (hs : disc_tool_sector_found (v.p_tool.sectors j) header 0 0) :
    ∃ v', disc_tool_find_sectors_step (some p) v i = Except.ok v' ∧
      disc_tool_scan_bits p v' (i + 1) ∧
      v'.num_sectors = v.num_sectors ∧
      disc_tool_sector_found (v'.p_tool.sectors j) header i
        (if mark = k_ibm_disc_deleted_data_mark_data_pattern then 1
          else 0) := by
  rw [disc_tool_find_sectors_step_eq p v i hA.1 hA.2, hm]
  show ∃ v', disc_tool_find_sectors_mark (disc_tool_scan_shift p v i) i
    mark = Except.ok v' ∧ _
  obtain ⟨s1, s2, s3, s4, s5⟩ := hs
  have hne : mark ≠ k_ibm_disc_id_mark_data_pattern := by
    rcases hmk with h | h <;> rw [h] <;> decide
  have hp' : (disc_tool_scan_shift p v i).p_sector = some j := hp
  have hnum : (disc_tool_scan_shift p v i).num_sectors = v.num_sectors := rfl
  have s1' : ((disc_tool_scan_shift p v i).p_tool.sectors j).bit_pos_header =
      header := s1
  have s2' : ((disc_tool_scan_shift p v i).p_tool.sectors j).bit_pos_data =
      0 := s2
  have s3' : ((disc_tool_scan_shift p v i).p_tool.sectors j).is_deleted =
      0 := s3
  have s4' : ((disc_tool_scan_shift p v i).p_tool.sectors
      j).has_header_crc_error = 0 := s4
  have s5' : ((disc_tool_scan_shift p v i).p_tool.sectors
      j).has_data_crc_error = 0 := s5
  have hsb := disc_tool_scan_shift_bits p v i
  generalize disc_tool_scan_shift p v i = u at hp' hnum s1' s2' s3' s4' s5' hsb
  unfold disc_tool_find_sectors_mark
  rw [if_neg hne, if_pos hmk, hp']
  simp only [s2', s1', ne_eq, not_true_eq_false, if_false, hh]
  refine ⟨_, rfl, hsb, hnum, ?_⟩
  simp [disc_tool_sector_found, disc_tool_set_sector, s1', s3', s4', s5']

/-! ## A descriptor that pass 1 has completed stays as it is -/

theorem disc_tool_find_sectors_mark_frozen (v v' : disc_tool_scan)
    (i data j : Nat)
    (h : disc_tool_find_sectors_mark v i data = Except.ok v')
    (hn : v.num_sectors ≤ 32) (hj : j < v.num_sectors)
    (hd : (v.p_tool.sectors j).bit_pos_data ≠ 0) :
    v'.num_sectors ≤ 32 ∧ j < v'.num_sectors ∧
      v'.p_tool.sectors j = v.p_tool.sectors j := by
  unfold disc_tool_find_sectors_mark at h
  by_cases h1 : data = k_ibm_disc_id_mark_data_pattern
  · rw [if_pos h1] at h
    by_cases h2 : v.num_sectors = k_max_sectors
    · rw [if_pos h2] at h
      exact absurd h (by simp)
    · rw [if_neg h2] at h
      injection h with h
      subst h
      have h2' : v.num_sectors ≠ 32 := h2
      have e : (v.num_sectors + 1) % 2 ^ 32 = v.num_sectors + 1 :=
        Nat.mod_eq_of_lt (by
          show v.num_sectors + 1 < 4294967296
          omega)
      refine ⟨?_, ?_, ?_⟩
      · show (v.num_sectors + 1) % 2 ^ 32 ≤ 32
        rw [e]
        omega
      · show j < (v.num_sectors + 1) % 2 ^ 32
        rw [e]
        omega
      · show (if j = v.num_sectors then _ else v.p_tool.sectors j) = _
        rw [if_neg (by omega)]
  · rw [if_neg h1] at h
    by_cases h3 : data = k_ibm_disc_data_mark_data_pattern ∨
        data = k_ibm_disc_deleted_data_mark_data_pattern
    · rw [if_pos h3] at h
      cases hp : v.p_sector with
      | none =>
        rw [hp] at h
        injection h with h
        subst h
        exact ⟨hn, hj, rfl⟩
      | some k =>
        rw [hp] at h
        simp only [] at h
        by_cases h4 : (v.p_tool.sectors k).bit_pos_data ≠ 0
        · rw [if_pos h4] at h
          injection h with h
          subst h
          exact ⟨hn, hj, rfl⟩
        · rw [if_neg h4] at h
          by_cases h5 : (v.p_tool.sectors k).bit_pos_header = 0
          · rw [if_pos h5] at h
            exact absurd h (by simp)
          · rw [if_neg h5] at h
            injection h with h
            subst h
            have hjk : j ≠ k := fun e => h4 (e ▸ hd)
            refine ⟨hn, hj, ?_⟩
            show (if j = k then _ else v.p_tool.sectors j) = _
            rw [if_neg hjk]
    · rw [if_neg h3] at h
      injection h with h
      subst h
      exact ⟨hn, hj, rfl⟩

theorem disc_tool_find_sectors_step_frozen (pp : Option (Nat → Nat))
    (v v' : disc_tool_scan) (i j : Nat)
    (h : disc_tool_find_sectors_step pp v i = Except.ok v')
    (hn : v.num_sectors ≤ 32) (hj : j < v.num_sectors)
    (hd : (v.p_tool.sectors j).bit_pos_data ≠ 0) :
    v'.num_sectors ≤ 32 ∧ j < v'.num_sectors ∧
      v'.p_tool.sectors j = v.p_tool.sectors j := by
  unfold disc_tool_find_sectors_step at h
  simp only [] at h
  split at h
  · exact absurd h (by simp)
  · repeat' split at h
    all_goals first
      | (injection h with h
         subst h
         exact ⟨hn, hj, rfl⟩)
      | exact (disc_tool_find_sectors_mark_frozen _ v' i _ j h) hn hj hd

theorem disc_tool_find_sectors_pass_1_frozen (pp : Option (Nat → Nat))
    (j n : Nat) :
    ∀ (i : Nat) (v v' : disc_tool_scan),
      disc_tool_find_sectors_pass_1 pp n i v = Except.ok v' →
      v.num_sectors ≤ 32 → j < v.num_sectors →
      (v.p_tool.sectors j).bit_pos_data ≠ 0 →
      v'.num_sectors ≤ 32 ∧ j < v'.num_sectors ∧
        v'.p_tool.sectors j = v.p_tool.sectors j := by
  induction n with
  | zero =>
    intro i v v' h hn hj _
    rw [disc_tool_find_sectors_pass_1] at h
    injection h with h
    subst h
    exact ⟨hn, hj, rfl⟩
  | succ n ih =>
    intro i v v' h hn hj hd
    rw [disc_tool_find_sectors_pass_1] at h
    cases h1 : disc_tool_find_sectors_step pp v i with
    | error e =>
      rw [h1] at h
      exact absurd h (by simp)
    | ok v1 =>
      rw [h1] at h
      obtain ⟨a, b, c⟩ := disc_tool_find_sectors_step_frozen pp v v1 i j h1
        hn hj hd
      obtain ⟨a', b', c'⟩ := ih (i + 1) v1 v' h a b (by rw [c]; exact hd)
      exact ⟨a', b', by rw [c', c]⟩

theorem disc_tool_find_sectors_pass_1_succ (pp : Option (Nat → Nat))
    (n i : Nat) (v v1 : disc_tool_scan)
    (h : disc_tool_find_sectors_step pp v i = Except.ok v1) :
    disc_tool_find_sectors_pass_1 pp (n + 1) i v =
      disc_tool_find_sectors_pass_1 pp n (i + 1) v1 := by
  rw [disc_tool_find_sectors_pass_1, h]

theorem disc_tool_id_marks_le (p : Nat → Nat) (a b : Nat) (h : a ≤ b) :
    disc_tool_id_marks p a ≤ disc_tool_id_marks p b := by
  have := disc_tool_id_marks_mono p a (b - a)
  have e : a + (b - a) = b := by omega
  rw [e] at this
  exact this

/-- Pass 1 on a track that holds an ID mark ending at bit `iw` and, with no
ID mark or data mark between, a data mark ending at bit `iv`: the descriptor
whose index is the number of ID marks before has these two positions. -/
theorem disc_tool_find_sectors_pass_1_sector (p : Nat → Nat)
    (t0 : disc_tool_struct) (n iw iv mark : Nat) (v0 : disc_tool_scan)
    (hA : disc_tool_scan_bits p v0 0) (hB : disc_tool_scan_sectors t0 v0 0)
    (hc0 : v0.num_sectors = disc_tool_id_marks p 0)
    (hiw : disc_tool_mark_at p iw = some k_ibm_disc_id_mark_data_pattern)
    (hiv : disc_tool_mark_at p iv = some mark)
    (hmk : mark = k_ibm_disc_data_mark_data_pattern ∨
      mark = k_ibm_disc_deleted_data_mark_data_pattern)
    (hq : disc_tool_no_marks p (iw + 1) iv) (hwv : iw < iv) (hn : iv < n)
    (hc : disc_tool_id_marks p n ≤ 32) :
    ∃ vD, disc_tool_find_sectors_pass_1 (some p) n 0 v0 = Except.ok vD ∧
      disc_tool_scan_sectors t0 vD n ∧
      vD.num_sectors = disc_tool_id_marks p n ∧
      disc_tool_id_marks p iw < vD.num_sectors ∧
      disc_tool_sector_found (vD.p_tool.sectors (disc_tool_id_marks p iw))
        iw iv
        (if mark = k_ibm_disc_deleted_data_mark_data_pattern then 1
          else 0) := by
  -- the whole run
  obtain ⟨vD, eD, _, hBD, hcD⟩ :=
    (disc_tool_find_sectors_pass_1_run p t0 n 0 v0 hA hB hc0).1
      (by rw [Nat.zero_add]; exact hc)
  rw [Nat.zero_add] at hBD hcD
  -- up to the ID mark
  have hj1 : disc_tool_id_marks p (iw + 1) = disc_tool_id_marks p iw + 1 := by
    rw [disc_tool_id_marks, if_pos hiw]
  have hj2 := disc_tool_id_marks_le p (iw + 1) n (by omega)
  obtain ⟨vA, eA, hAA, hBA, hcA⟩ :=
    (disc_tool_find_sectors_pass_1_run p t0 iw 0 v0 hA hB hc0).1
      (by rw [Nat.zero_add]; omega)
  rw [Nat.zero_add] at hAA hBA hcA
  -- the ID mark
  obtain ⟨vB, eB, hAB, hnB, hpB, hsB⟩ :=
    disc_tool_find_sectors_step_id p t0 vA iw hAA hBA hiw (by omega)
  rw [hcA] at hnB hpB hsB
  -- up to the data mark
  obtain ⟨vC0, eC0, hAC0, f1, f2, f3⟩ :=
    disc_tool_find_sectors_pass_1_quiet p (iv - (iw + 1)) (iw + 1) vB hAB
      (by
        have e : iw + 1 + (iv - (iw + 1)) = iv := by omega
        rw [e]
        exact hq)
  have e1 : iw + 1 + (iv - (iw + 1)) = iv := by omega
  rw [e1] at hAC0
  -- the data mark
  have hiw0 : iw ≠ 0 := by
    have := disc_tool_mark_at_ge p iw _ hiw
    omega
  obtain ⟨vC, eC, _, hnC, hsC⟩ :=
    disc_tool_find_sectors_step_data p vC0 iv mark (disc_tool_id_marks p iw)
      iw hAC0 hiv hmk (by rw [f3]; exact hpB) hiw0 (by rw [f1]; exact hsB)
  -- the rest of the track
  have hrun : disc_tool_find_sectors_pass_1 (some p) n 0 v0 =
      disc_tool_find_sectors_pass_1 (some p) (n - (iv + 1)) (iv + 1) vC := by
    have s1 : n = iw + ((iv - (iw + 1) + (n - (iv + 1) + 1)) + 1) := by omega
    conv => lhs; rw [s1]
    rw [disc_tool_find_sectors_pass_1_add, eA]
    simp only [Nat.zero_add]
    rw [disc_tool_find_sectors_pass_1_succ _ _ _ _ _ eB,
      disc_tool_find_sectors_pass_1_add, eC0]
    simp only [e1]
    rw [disc_tool_find_sectors_pass_1_succ _ _ _ _ _ eC]
  rw [hrun] at eD
  obtain ⟨_, g2, g3⟩ := disc_tool_find_sectors_pass_1_frozen (some p)
    (disc_tool_id_marks p iw) (n - (iv + 1)) (iv + 1) vC vD eD
    (by rw [hnC, f2, hnB]; omega) (by rw [hnC, f2, hnB]; omega)
    (by rw [hsC.2.1]; omega)
  refine ⟨vD, ?_, hBD, hcD, g2, ?_⟩
  · rw [hrun]
    exact eD
  · rw [g3]
    exact hsC

/-! ## Reads that start at the last bit of a word -/

theorem disc_tool_read_pulses_shifted (tpd : Nat) (t : disc_tool_struct)
    (p : Nat → Nat) (q : Nat) (hp : disc_tool_get_pulses tpd t = some p)
    (hpos : t.pos = 32 * q + 31) (hq : q ≠ t.track_length) :
    disc_tool_read_pulses tpd t =
      Except.ok ({ t with pos := (32 * (q + 1) + 31) % 2 ^ 32 },
        ((p q <<< 31) % 2 ^ 32) ||| (p (q + 1) >>> 1)) := by
  unfold disc_tool_read_pulses
  rw [hp]
  have h1 : t.pos / 32 = q := by omega
  have h2 : t.pos % 32 = 31 := by omega
  have h3 : (t.pos + 32) % 2 ^ 32 = (32 * (q + 1) + 31) % 2 ^ 32 := by
    rw [hpos]
    congr 1
  simp only [h1, h2, h3, hq, if_false]
  rfl

/-- Reading bytes from the last bit of word `q`, as pass 2 of
`disc_tool_find_sectors` does behind a mark: byte `k` is decoded from the last
bit of word `q + k` and the first 31 bits of word `q + k + 1`. -/
theorem disc_tool_read_fm_data_loop_shifted (tpd : Nat) (p : Nat → Nat)
    (n : Nat) :
    ∀ (i0 : Nat) (t : disc_tool_struct) (d : Nat → Nat) (q : Nat),
      disc_tool_get_pulses tpd t = some p →
      t.pos = (32 * q + 31) % 2 ^ 32 →
      q + n < t.track_length → t.track_length ≤ 2 ^ 27 →
      ∃ d', disc_tool_read_fm_data_loop tpd n i0 t none (some d) =
          Except.ok ({ t with pos := (32 * (q + n) + 31) % 2 ^ 32 },
            none, some d') ∧
        (∀ k, k < n →
          d' (i0 + k) =
            (ibm_disc_format_2us_pulses_to_fm
              (((p (q + k) <<< 31) % 2 ^ 32) |||
                (p (q + k + 1) >>> 1))).2) ∧
        (∀ j, j < i0 → d' j = d j) := by
  induction n with
  | zero =>
    intro i0 t d q _ hpos _ _
    refine ⟨d, ?_, fun k hk => absurd hk (Nat.not_lt_zero k), fun _ _ => rfl⟩
    rw [disc_tool_read_fm_data_loop]
    show _ = Except.ok
      ({ t with pos := (32 * q + 31) % 2 ^ 32 }, none, some d)
    rw [← hpos]
  | succ n ih =>
    intro i0 t d q hp hpos hlen hL
    have e27 : (2 : Nat) ^ 27 = 134217728 := by norm_num
    have e32 : (2 : Nat) ^ 32 = 4294967296 := by norm_num
    have hpos' : t.pos = 32 * q + 31 := by
      rw [hpos, e32]
      omega
    have e1 := disc_tool_read_pulses_shifted tpd t p q hp hpos' (by omega)
    obtain ⟨d', e2, h2, h3⟩ := ih (i0 + 1)
      { t with pos := (32 * (q + 1) + 31) % 2 ^ 32 }
      (array_set d i0 (ibm_disc_format_2us_pulses_to_fm
        (((p q <<< 31) % 2 ^ 32) ||| (p (q + 1) >>> 1))).2)
      (q + 1) hp rfl (by show q + 1 + n < t.track_length; omega) hL
    refine ⟨d', ?_, ?_, ?_⟩
    · rw [disc_tool_read_fm_data_loop, e1]
      simp only [Option.map_some', Option.map_none']
      rw [e2]
      have : q + 1 + n = q + (n + 1) := by omega
      rw [this]
    · intro k hk
      cases k with
      | zero =>
        rw [Nat.add_zero, Nat.add_zero, h3 i0 (by omega)]
        unfold array_set
        simp
      | succ k =>
        have := h2 k (by omega)
        have e3 : i0 + 1 + k = i0 + (k + 1) := by omega
        have e4 : q + 1 + k = q + (k + 1) := by omega
        rw [e3, e4] at this
        exact this
    · intro j hj
      rw [h3 j (by omega)]
      unfold array_set
      have : ¬ j = i0 := by omega
      simp [this]

/-- Reading bytes behind a mark in word `q` when the words that follow hold
the FM encodings of the bytes `b 0`, `b 1`, ...: the bytes come back. -/
theorem disc_tool_read_fm_data_shifted (tpd : Nat) (p : Nat → Nat)
    (n : Nat) (t : disc_tool_struct) (d b : Nat → Nat) (q : Nat)
    (hp : disc_tool_get_pulses tpd t = some p)
    (hpos : t.pos = 32 * q + 31) (hlen : q + n < t.track_length)
    (hL : t.track_length ≤ 2 ^ 27)
    (hw : ∀ k, k < n →
      p (q + 1 + k) = ibm_disc_format_fm_to_2us_pulses 0xFF (b k))
    (hb : ∀ k, k < n → b k < 256) :
    ∃ d', disc_tool_read_fm_data tpd t none (some d) n =
        Except.ok ({ t with pos := (32 * (q + n) + 31) % 2 ^ 32 },
          none, some d') ∧
      ∀ k, k < n → d' k = b k := by
  have e27 : (2 : Nat) ^ 27 = 134217728 := by norm_num
  have e32 : (2 : Nat) ^ 32 = 4294967296 := by norm_num
  obtain ⟨d', e, h1, _⟩ := disc_tool_read_fm_data_loop_shifted tpd p n 0 t d q
    hp (by rw [hpos, e32]; omega) hlen hL
  refine ⟨d', e, ?_⟩
  intro k hk
  have := h1 k hk
  rw [Nat.zero_add] at this
  have e2 : q + k + 1 = q + 1 + k := by omega
  rw [this, e2, hw k hk]
  exact ibm_disc_format_2us_pulses_to_fm_shifted _ _ _ (hb k hk)

/-! ## Pass 2 on a sector that is on the track -/

theorem disc_crc_bytes (a b : Nat) (ha : a < 256) (hb : b < 256) :
    ((a <<< 8) % 65536) ||| b = a * 256 + b := by
  have e : (a <<< 8) % 65536 = 2 ^ 8 * a := by
    rw [Nat.shiftLeft_eq]
    show a * 256 % 65536 = 256 * a
    omega
  rw [e, ← Nat.mul_add_lt_is_or (show b < 2 ^ 8 from hb)]
  show 256 * a + b = a * 256 + b
  omega

theorem disc_tool_find_sectors_check_header_fields (s : disc_tool_sector) :
    (disc_tool_find_sectors_check_header s).header_bytes = s.header_bytes ∧
      (disc_tool_find_sectors_check_header s).has_data_crc_error =
        s.has_data_crc_error ∧
      (disc_tool_find_sectors_check_header s).has_header_crc_error =
        if disc_tool_record_crc k_ibm_disc_id_mark_data_pattern
            s.header_bytes 4 =
          ((s.header_bytes 4 <<< 8) % 65536) ||| s.header_bytes 5
        then s.has_header_crc_error else 1 := by
  unfold disc_tool_find_sectors_check_header disc_tool_record_crc
  simp only []
  split_ifs <;> simp_all

theorem disc_tool_find_sectors_check_data_fields (s : disc_tool_sector)
    (a : Nat → Nat) (n : Nat) :
    (disc_tool_find_sectors_check_data s a n).header_bytes = s.header_bytes ∧
      (disc_tool_find_sectors_check_data s a n).has_header_crc_error =
        s.has_header_crc_error ∧
      (disc_tool_find_sectors_check_data s a n).has_data_crc_error =
        if disc_tool_record_crc
            (if s.is_deleted ≠ 0 then
              k_ibm_disc_deleted_data_mark_data_pattern
            else k_ibm_disc_data_mark_data_pattern) a n =
          ((a n <<< 8) % 65536) ||| a (n + 1)
        then s.has_data_crc_error else 1 := by
  unfold disc_tool_find_sectors_check_data disc_tool_record_crc
  simp only []
  split_ifs <;> simp_all

theorem disc_tool_find_sectors_sector_size_eq (s : disc_tool_sector) :
    disc_tool_find_sectors_sector_size s =
      min (128 <<< (s.header_bytes 3 &&& 0x07)) 2048 := by
  unfold disc_tool_find_sectors_sector_size
  simp only []
  split <;> omega

theorem disc_tool_record_crc_congr (mark : Nat) (a b : Nat → Nat) (n : Nat)
    (h : ∀ i, i < n → a i = b i) :
    disc_tool_record_crc mark a n = disc_tool_record_crc mark b n := by
  unfold disc_tool_record_crc
  exact disc_tool_crc_add_run_congr _ a b n h

/-- The turn of the second loop for a descriptor whose ID mark is in word `w`
and whose data mark is in word `v`, when the six words behind the ID mark
hold the bytes `hb` and the words behind the data mark hold the bytes `sd`:
the header bytes are read back, and each CRC error flag is set exactly when
the CRC worked out differs from the two bytes on the track. -/
theorem disc_tool_find_sectors_check_sector (tpd : Nat)
    (t : disc_tool_struct) (p : Nat → Nat) (j w v mark : Nat)
    (hb sd : Nat → Nat)
    (hp : disc_tool_get_pulses tpd t = some p)
    (hL : t.track_length ≤ 2 ^ 27)
    (hmk : mark = k_ibm_disc_data_mark_data_pattern ∨
      mark = k_ibm_disc_deleted_data_mark_data_pattern)
    (hs : disc_tool_sector_found (t.sectors j) (32 * w + 31) (32 * v + 31)
      (if mark = k_ibm_disc_deleted_data_mark_data_pattern then 1 else 0))
    (hw : w + 6 < t.track_length)
    (hhw : ∀ k, k < 6 →
      p (w + 1 + k) = ibm_disc_format_fm_to_2us_pulses 0xFF (hb k))
    (hhb : ∀ k, k < 6 → hb k < 256)
    (hv : v + (min (128 <<< (hb 3 &&& 0x07)) 2048 + 2) < t.track_length)
    (hdw : ∀ k, k < min (128 <<< (hb 3 &&& 0x07)) 2048 + 2 →
      p (v + 1 + k) = ibm_disc_format_fm_to_2us_pulses 0xFF (sd k))
    (hsd : ∀ k, k < min (128 <<< (hb 3 &&& 0x07)) 2048 + 2 → sd k < 256) :
    ∃ t', disc_tool_find_sectors_check tpd t j = Except.ok t' ∧
      (t'.sectors j).bit_pos_header = 32 * w + 31 ∧
      (t'.sectors j).bit_pos_data = 32 * v + 31 ∧
      (t'.sectors j).is_deleted =
        (if mark = k_ibm_disc_deleted_data_mark_data_pattern then 1 else 0) ∧
      (∀ k, k < 6 → (t'.sectors j).header_bytes k = hb k) ∧
      (t'.sectors j).has_header_crc_error =
        (if disc_tool_record_crc k_ibm_disc_id_mark_data_pattern hb 4 =
          hb 4 * 256 + hb 5 then 0 else 1) ∧
      (t'.sectors j).has_data_crc_error =
        (if disc_tool_record_crc mark sd
            (min (128 <<< (hb 3 &&& 0x07)) 2048) =
          sd (min (128 <<< (hb 3 &&& 0x07)) 2048) * 256 +
            sd (min (128 <<< (hb 3 &&& 0x07)) 2048 + 1) then 0 else 1) := by
  obtain ⟨s1, s2, s3, s4, s5⟩ := hs
  have hh : (t.sectors j).bit_pos_header ≠ 0 := by
    rw [s1]
    omega
  obtain ⟨d1, e1, hd1⟩ := disc_tool_read_fm_data_shifted tpd p 6
    { t with pos := (t.sectors j).bit_pos_header }
    (t.sectors j).header_bytes hb w hp s1 hw hL hhw hhb
  have hf1 := disc_tool_find_sectors_check_header_fields
    { t.sectors j with
      header_bytes := (some d1).getD (t.sectors j).header_bytes }
  have hm1 := disc_tool_find_sectors_check_header_marks
    { t.sectors j with
      header_bytes := (some d1).getD (t.sectors j).header_bytes }
  unfold disc_tool_find_sectors_check
  simp only [hh, if_false, e1]
  generalize disc_tool_find_sectors_check_header
    { t.sectors j with
      header_bytes := (some d1).getD (t.sectors j).header_bytes } = A
    at hf1 hm1 ⊢
  obtain ⟨m1, m2, m3⟩ := hm1
  obtain ⟨k1, k2, k3⟩ := hf1
  have m1' : A.bit_pos_header = 32 * w + 31 := m1.trans s1
  have m2' : A.bit_pos_data = 32 * v + 31 := m2.trans s2
  have m3' : A.is_deleted =
      (if mark = k_ibm_disc_deleted_data_mark_data_pattern then 1 else 0) :=
    m3.trans s3
  have k1' : A.header_bytes = d1 := k1
  have k2' : A.has_data_crc_error = 0 := k2.trans s5
  have hA3 : A.header_bytes 3 = hb 3 := by
    rw [k1']
    exact hd1 3 (by omega)
  have hsz : disc_tool_find_sectors_sector_size A =
      min (128 <<< (hb 3 &&& 0x07)) 2048 := by
    rw [disc_tool_find_sectors_sector_size_eq, hA3]
  have hdata : ¬ A.bit_pos_data = 0 := by
    rw [m2']
    omega
  rw [if_neg hdata]
  obtain ⟨d2, e2, hd2⟩ := disc_tool_read_fm_data_shifted tpd p
    (disc_tool_find_sectors_sector_size A + 2)
    { disc_tool_set_sector
        { t with pos := (32 * (w + 6) + 31) % 2 ^ 32 } j A with
      pos := A.bit_pos_data }
    (fun _ => 0) sd v hp m2' (by rw [hsz]; exact hv) hL
    (by rw [hsz]; exact hdw) (by rw [hsz]; exact hsd)
  rw [e2]
  simp only []
  have hf2 := disc_tool_find_sectors_check_data_fields A
    ((some d2).getD (fun _ => 0)) (disc_tool_find_sectors_sector_size A)
  have hm2 := disc_tool_find_sectors_check_data_marks A
    ((some d2).getD (fun _ => 0)) (disc_tool_find_sectors_sector_size A)
  generalize disc_tool_find_sectors_check_data A
    ((some d2).getD (fun _ => 0)) (disc_tool_find_sectors_sector_size A) = B
    at hf2 hm2 ⊢
  obtain ⟨n1, n2, n3⟩ := hm2
  obtain ⟨l1, l2, l3⟩ := hf2
  have k3' : A.has_header_crc_error =
      if disc_tool_record_crc k_ibm_disc_id_mark_data_pattern d1 4 =
        ((d1 4 <<< 8) % 65536) ||| d1 5
      then (t.sectors j).has_header_crc_error else 1 := k3
  have l3' : B.has_data_crc_error =
      if disc_tool_record_crc
          (if A.is_deleted ≠ 0 then
            k_ibm_disc_deleted_data_mark_data_pattern
          else k_ibm_disc_data_mark_data_pattern) d2
          (disc_tool_find_sectors_sector_size A) =
        ((d2 (disc_tool_find_sectors_sector_size A) <<< 8) % 65536) |||
          d2 (disc_tool_find_sectors_sector_size A + 1)
      then A.has_data_crc_error else 1 := l3
  have hmark : (if A.is_deleted ≠ 0 then
        k_ibm_disc_deleted_data_mark_data_pattern
      else k_ibm_disc_data_mark_data_pattern) = mark := by
    rw [m3']
    rcases hmk with h | h <;> subst h <;> decide
  rw [hsz] at hd2 l3'
  refine ⟨_, rfl, ?_, ?_, ?_, ?_, ?_, ?_⟩
  all_goals simp only [disc_tool_set_sector, if_true]
  · exact n1.trans m1'
  · exact n2.trans m2'
  · exact n3.trans m3'
  · intro k hk
    rw [l1, k1']
    exact hd1 k hk
  · rw [l2, k3',
      disc_tool_record_crc_congr _ d1 hb 4 (fun i hi => hd1 i (by omega)),
      hd1 4 (by omega), hd1 5 (by omega),
      disc_crc_bytes _ _ (hhb 4 (by omega)) (hhb 5 (by omega)), s4]
  · rw [l3', hmark,
      disc_tool_record_crc_congr _ d2 sd _ (fun i hi => hd2 i (by omega)),
      hd2 _ (by omega), hd2 _ (by omega),
      disc_crc_bytes _ _ (hsd _ (by omega)) (hsd _ (by omega)), k2']

/-- Pass 2 leaves in descriptor `j` what its own turn of the loop puts there,
and that turn starts from the descriptor as pass 1 left it. -/
theorem disc_tool_find_sectors_pass_2_sector (tpd : Nat) (p : Nat → Nat)
    (j n : Nat) :
    ∀ (i : Nat) (t : disc_tool_struct),
      disc_tool_get_pulses tpd t = some p →
      (∀ k, i ≤ k → k < i + n → (t.sectors k).bit_pos_header ≠ 0) →
      i ≤ j → j < i + n →
      ∃ t' tj t2, disc_tool_find_sectors_pass_2 tpd n i t = Except.ok t' ∧
        disc_tool_same_track t t' ∧ disc_tool_same_track t tj ∧
        tj.sectors j = t.sectors j ∧
        disc_tool_find_sectors_check tpd tj j = Except.ok t2 ∧
        t'.sectors j = t2.sectors j := by
  induction n with
  | zero =>
    intro i t _ _ h1 h2
    omega
  | succ n ih =>
    intro i t hp hh hij hjn
    obtain ⟨t1, e1, f1, m1, o1⟩ :=
      disc_tool_find_sectors_check_ok tpd t p i hp (hh i (le_refl _) (by omega))
    have hp1 : disc_tool_get_pulses tpd t1 = some p := by
      rw [disc_tool_get_pulses_congr tpd t t1 f1, hp]
    have hh1 : ∀ k, i + 1 ≤ k → k < i + 1 + n →
        (t1.sectors k).bit_pos_header ≠ 0 := by
      intro k h1 h2
      rw [(m1 k).1]
      exact hh k (by omega) (by omega)
    by_cases hi : i = j
    · subst hi
      obtain ⟨t2, e2, f2, _, o2⟩ :=
        disc_tool_find_sectors_pass_2_ok tpd p n (i + 1) t1 hp1 hh1
      refine ⟨t2, t, t1, ?_, disc_tool_same_track_trans f1 f2,
        disc_tool_same_track_refl t, rfl, e1, o2 i (Or.inl (by omega))⟩
      rw [disc_tool_find_sectors_pass_2, e1]
      exact e2
    · obtain ⟨t', tj, t2, e2, f2, f3, g1, g2, g3⟩ :=
        ih (i + 1) t1 hp1 hh1 (by omega) (by omega)
      refine ⟨t', tj, t2, ?_, disc_tool_same_track_trans f1 f2,
        disc_tool_same_track_trans f1 f3, ?_, g2, g3⟩
      · rw [disc_tool_find_sectors_pass_2, e1]
        exact e2
      · rw [g1, o1 j (fun h => hi h.symm)]

/-! ## Further lemmas -/

/-! ## The byte counter of a sector -/

theorem intel_fdc_decrement_counter_step (s : intel_fdc_struct) (l m : Nat)
    (hl : s.regs k_intel_fdc_register_internal_count_lsb = l)
    (hm : s.regs k_intel_fdc_register_internal_count_msb = m)
    (hl1 : 1 ≤ l) (hl2 : l ≤ 128) (hm2 : m < 255) :
    (1 < l →
      (intel_fdc_decrement_counter s).2 = false ∧
      (intel_fdc_decrement_counter s).1.regs
        k_intel_fdc_register_internal_count_lsb = l - 1 ∧
      (intel_fdc_decrement_counter s).1.regs
        k_intel_fdc_register_internal_count_msb = m) ∧
    (l = 1 → 1 ≤ m →
      (intel_fdc_decrement_counter s).2 = false ∧
      (intel_fdc_decrement_counter s).1.regs
        k_intel_fdc_register_internal_count_lsb = 128 ∧
      (intel_fdc_decrement_counter s).1.regs
        k_intel_fdc_register_internal_count_msb = m - 1) ∧
    (l = 1 → m = 0 →
      (intel_fdc_decrement_counter s).2 = true ∧
      (intel_fdc_decrement_counter s).1.regs
        k_intel_fdc_register_internal_count_lsb = 0 ∧
      (intel_fdc_decrement_counter s).1.regs
        k_intel_fdc_register_internal_count_msb = 0) := by
  simp only [k_intel_fdc_register_internal_count_lsb,
    k_intel_fdc_register_internal_count_msb] at hl hm ⊢
  refine ⟨?_, ?_, ?_⟩
  · intro h
    have e : (l + 255) % 256 = l - 1 := by omega
    have ne : l - 1 ≠ 0 := by omega
    simp [intel_fdc_decrement_counter, hl, hm, set_reg, e, ne]
  · intro h h1
    subst h
    have e : (m + 255) % 256 = m - 1 := by omega
    have ne : m - 1 ≠ 255 := by omega
    simp [intel_fdc_decrement_counter, hl, hm, set_reg, e, ne]
  · intro h h0
    subst h
    subst h0
    simp [intel_fdc_decrement_counter, hl, hm, set_reg]

/-- With `l` in the low counter and `m` in the high counter the countdown
ends at call number `128 * m + l`, and not before. -/
theorem intel_fdc_decrement_counter_calls_run (n : Nat) :
    ∀ (s : intel_fdc_struct) (l m : Nat),
      s.regs k_intel_fdc_register_internal_count_lsb = l →
      s.regs k_intel_fdc_register_internal_count_msb = m →
      1 ≤ l → l ≤ 128 → m < 255 → n + 1 = 128 * m + l →
      (intel_fdc_decrement_counter_calls (n + 1) s).2 =
          List.replicate n false ++ [true] ∧
        (intel_fdc_decrement_counter_calls (n + 1) s).1.regs
          k_intel_fdc_register_internal_count_lsb = 0 ∧
        (intel_fdc_decrement_counter_calls (n + 1) s).1.regs
          k_intel_fdc_register_internal_count_msb = 0 := by
  induction n with
  | zero =>
    intro s l m hl hm hl1 hl2 hm2 hn
    have h1 : l = 1 := by omega
    have h0 : m = 0 := by omega
    obtain ⟨a, b, c⟩ :=
      (intel_fdc_decrement_counter_step s l m hl hm hl1 hl2 hm2).2.2 h1 h0
    simp only [intel_fdc_decrement_counter_calls]
    exact ⟨by rw [a]; rfl, b, c⟩
  | succ n ih =>
    intro s l m hl hm hl1 hl2 hm2 hn
    obtain ⟨c1, c2, _⟩ :=
      intel_fdc_decrement_counter_step s l m hl hm hl1 hl2 hm2
    have key : (intel_fdc_decrement_counter s).2 = false ∧
        ∃ l' m', (intel_fdc_decrement_counter s).1.regs
            k_intel_fdc_register_internal_count_lsb = l' ∧
          (intel_fdc_decrement_counter s).1.regs
            k_intel_fdc_register_internal_count_msb = m' ∧
          1 ≤ l' ∧ l' ≤ 128 ∧ m' < 255 ∧ n + 1 = 128 * m' + l' := by
      by_cases h : 1 < l
      · obtain ⟨a, b, c⟩ := c1 h
        exact ⟨a, l - 1, m, b, c, by omega, by omega, hm2, by omega⟩
      · have h1 : l = 1 := by omega
        obtain ⟨a, b, c⟩ := c2 h1 (by omega)
        exact ⟨a, 128, m - 1, b, c, by omega, by omega, by omega, by omega⟩
    obtain ⟨a, l', m', b, c, d1, d2, d3, d4⟩ := key
    obtain ⟨e1, e2, e3⟩ := ih (intel_fdc_decrement_counter s).1 l' m' b c d1
      d2 d3 d4
    rw [intel_fdc_decrement_counter_calls]
    simp only []
    refine ⟨?_, e2, e3⟩
    rw [a, e1]
    rfl

/-! ## Seeks -/

/-- A seek step writes no register other than the seek count and those of
the head-load and post-seek machinery. -/
theorem intel_fdc_do_seek_step_regs (s t : intel_fdc_struct)
    (h : intel_fdc_do_seek_step s = Except.ok t) :
    ∀ r, r ≠ 0x0A → ¬ post_seek_footprint r → t.regs r = s.regs r := by
  intro r h10 hr
  unfold intel_fdc_do_seek_step at h
  rcases hp : s.p_current_drive with _ | d
  · simp [hp] at h
  · simp only [hp] at h
    split_ifs at h
    · cases h
      exact (intel_fdc_do_load_head_frame _ _).1 r hr
    · cases h
      exact (intel_fdc_do_load_head_frame _ _).1 r hr
    · cases h
      rw [(intel_fdc_set_timer_ms_frame _ _ _).1 r hr]
      cases d <;> simp [disc_drive_seek_track, set_drive, set_reg, h10]
    · cases h
      rw [(intel_fdc_set_timer_ms_frame _ _ _).1 r hr]
      cases d <;> simp [disc_drive_seek_track, set_drive, set_reg, h10]

/-- A seek step returns when a drive is selected and the step rate is not
0. -/
theorem intel_fdc_do_seek_step_ok (s : intel_fdc_struct)
    (hp : s.p_current_drive ≠ none)
    (hr : s.regs k_intel_fdc_register_head_step_rate ≠ 0) :
    ∃ t, intel_fdc_do_seek_step s = Except.ok t := by
  unfold intel_fdc_do_seek_step
  rcases hd : s.p_current_drive with _ | d
  · exact absurd hd hp
  · simp only []
    split_ifs with h1 h2 h3 h4
    · exact ⟨_, rfl⟩
    · exact ⟨_, rfl⟩
    · exfalso
      revert h4
      cases d <;> simp [disc_drive_seek_track, set_drive, set_reg] <;>
        exact hr
    · exact ⟨_, rfl⟩
    · exfalso
      rename_i h5
      revert h5
      cases d <;> simp [disc_drive_seek_track, set_drive, set_reg] <;>
        exact hr
    · exact ⟨_, rfl⟩

/-- Where `intel_fdc_do_seek` hands over: to the head load when the target is
the current track, to the first seek step otherwise; by then both seek-target
registers hold the target. -/
theorem intel_fdc_do_seek_transfer (s : intel_fdc_struct) :
    ∃ s1, (intel_fdc_do_seek s = Except.ok (intel_fdc_do_load_head s1 false) ∨
        intel_fdc_do_seek s = intel_fdc_do_seek_step s1) ∧
      s1.regs 0x0B = intel_fdc_do_seek_new_track s ∧
      s1.regs 0x0C = intel_fdc_do_seek_new_track s ∧
      s1.p_current_drive = s.p_current_drive ∧
      s1.regs 0x0D = s.regs 0x0D := by
  unfold intel_fdc_do_seek
  simp only []
  split_ifs
  all_goals
    first
    | exact ⟨_, Or.inl rfl, by simp [set_reg], by simp [set_reg], rfl,
        by simp [set_reg]⟩
    | (refine ⟨_, Or.inr rfl, ?_, ?_, rfl, ?_⟩ <;>
        rcases intel_fdc_do_seek_track_regs_cases s with e | e <;>
        simp [set_reg, e])

/-- The drive-out bits after `intel_fdc_do_seek` has set or cleared the
low-head-current bit and the direction bit and cleared the step bit. -/
theorem intel_fdc_do_seek_drive_out_bits : ∀ d : Nat, d < 256 →
    (and_not8 ((((d ||| 0x10) % 256) ||| 0x04) % 256) 0x02 &&& 0x10 ≠ 0 ∧
      and_not8 ((((d ||| 0x10) % 256) ||| 0x04) % 256) 0x02 &&& 0x04 ≠ 0 ∧
      and_not8 ((((d ||| 0x10) % 256) ||| 0x04) % 256) 0x02 &&& 0x02 = 0 ∧
      and_not8 ((((d ||| 0x10) % 256) ||| 0x04) % 256) 0x02 &&& 0xE9 =
        d &&& 0xE9) ∧
    (and_not8 (and_not8 ((d ||| 0x10) % 256) 0x04) 0x02 &&& 0x10 ≠ 0 ∧
      and_not8 (and_not8 ((d ||| 0x10) % 256) 0x04) 0x02 &&& 0x04 = 0 ∧
      and_not8 (and_not8 ((d ||| 0x10) % 256) 0x04) 0x02 &&& 0x02 = 0 ∧
      and_not8 (and_not8 ((d ||| 0x10) % 256) 0x04) 0x02 &&& 0xE9 =
        d &&& 0xE9) ∧
    (and_not8 (((and_not8 d 0x10) ||| 0x04) % 256) 0x02 &&& 0x10 = 0 ∧
      and_not8 (((and_not8 d 0x10) ||| 0x04) % 256) 0x02 &&& 0x04 ≠ 0 ∧
      and_not8 (((and_not8 d 0x10) ||| 0x04) % 256) 0x02 &&& 0x02 = 0 ∧
      and_not8 (((and_not8 d 0x10) ||| 0x04) % 256) 0x02 &&& 0xE9 =
        d &&& 0xE9) ∧
    (and_not8 (and_not8 (and_not8 d 0x10) 0x04) 0x02 &&& 0x10 = 0 ∧
      and_not8 (and_not8 (and_not8 d 0x10) 0x04) 0x02 &&& 0x04 = 0 ∧
      and_not8 (and_not8 (and_not8 d 0x10) 0x04) 0x02 &&& 0x02 = 0 ∧
      and_not8 (and_not8 (and_not8 d 0x10) 0x04) 0x02 &&& 0xE9 =
        d &&& 0xE9) := by
  decide

/-- The register stores of `intel_fdc_do_seek` on the way to the first seek
step, without the single-actuator mode: seek targets, seek count and the track
register `p + 2` of the selected drive. -/
theorem intel_fdc_do_seek_regs (regs : Nat → Nat) (p T cnt : Nat)
    (hp : p = 0x18 ∨ p = 0x10) :
    set_reg (set_reg (set_reg (set_reg regs 0x0B T) 0x0C T) 0x0A cnt) (p + 2)
        (set_reg (set_reg (set_reg regs 0x0B T) 0x0C T) 0x0A cnt 0x0C)
        0x0A = cnt ∧
      set_reg (set_reg (set_reg (set_reg regs 0x0B T) 0x0C T) 0x0A cnt) (p + 2)
        (set_reg (set_reg (set_reg regs 0x0B T) 0x0C T) 0x0A cnt 0x0C)
        (p + 2) = T ∧
      ∀ r, r ≠ 0x0A → r ≠ 0x0B → r ≠ 0x0C → r ≠ p + 2 →
        set_reg (set_reg (set_reg (set_reg regs 0x0B T) 0x0C T) 0x0A cnt)
          (p + 2)
          (set_reg (set_reg (set_reg regs 0x0B T) 0x0C T) 0x0A cnt 0x0C)
          r = regs r := by
  rcases hp with e | e <;> subst e
  · refine ⟨by simp [set_reg], by simp [set_reg], ?_⟩
    intro r h1 h2 h3 h4
    simp [set_reg, h1, h2, h3, h4]
  · refine ⟨by simp [set_reg], by simp [set_reg], ?_⟩
    intro r h1 h2 h3 h4
    simp [set_reg, h1, h2, h3, h4]

/-- The further stores of `intel_fdc_do_seek` in the single-actuator mode:
both track registers receive the track register of the selected drive. -/
theorem intel_fdc_do_seek_regs_single (R : Nat → Nat) (p : Nat)
    (hp : p = 0x18 ∨ p = 0x10) :
    set_reg (set_reg R 0x12 (R (p + 2))) 0x1A
        (set_reg R 0x12 (R (p + 2)) (p + 2)) 0x12 = R (p + 2) ∧
      set_reg (set_reg R 0x12 (R (p + 2))) 0x1A
        (set_reg R 0x12 (R (p + 2)) (p + 2)) 0x1A = R (p + 2) ∧
      ∀ r, r ≠ 0x12 → r ≠ 0x1A →
        set_reg (set_reg R 0x12 (R (p + 2))) 0x1A
          (set_reg R 0x12 (R (p + 2)) (p + 2)) r = R r := by
  rcases hp with e | e <;> subst e
  · refine ⟨by simp [set_reg], by simp [set_reg], ?_⟩
    intro r h1 h2
    simp [set_reg, h1, h2]
  · refine ⟨by simp [set_reg], by simp [set_reg], ?_⟩
    intro r h1 h2
    simp [set_reg, h1, h2]

/-! ## Counting index pulses -/

/-- A call of `intel_fdc_check_index_pulse` that does not see the index level
go from low to high only records the level. -/
theorem intel_fdc_check_index_pulse_level (s : intel_fdc_struct)
    (h : ¬ intel_fdc_index_pulse_rising s) :
    (intel_fdc_check_index_pulse s).regs = s.regs ∧
      (intel_fdc_check_index_pulse s).drive_out = s.drive_out ∧
      (intel_fdc_check_index_pulse s).index_pulse_callback =
        s.index_pulse_callback ∧
      (intel_fdc_check_index_pulse s).state = s.state ∧
      (intel_fdc_check_index_pulse s).state_is_index_pulse =
        intel_fdc_get_INDEX s := by
  unfold intel_fdc_index_pulse_rising at h
  unfold intel_fdc_check_index_pulse
  simp only []
  have hc : intel_fdc_get_INDEX s = false ∨ s.state_is_index_pulse = true := by
    cases h1 : intel_fdc_get_INDEX s
    · exact Or.inl rfl
    · cases h2 : s.state_is_index_pulse
      · exact absurd ⟨h1, h2⟩ h
      · exact Or.inr rfl
  rw [if_pos hc]
  exact ⟨rfl, rfl, rfl, rfl, rfl⟩

/-- A call that sees the index level go from low to high with a countdown
armed and more than one pulse left takes one off the count and does nothing
else. -/
theorem intel_fdc_check_index_pulse_count (s : intel_fdc_struct)
    (h : intel_fdc_index_pulse_rising s)
    (hc : s.index_pulse_callback ≠ IndexPulseCallback.none)
    (hn : (s.regs k_intel_fdc_register_internal_index_pulse_count + 255) %
      256 ≠ 0) :
    (intel_fdc_check_index_pulse s).regs =
        set_reg s.regs k_intel_fdc_register_internal_index_pulse_count
          ((s.regs k_intel_fdc_register_internal_index_pulse_count + 255) %
            256) ∧
      (intel_fdc_check_index_pulse s).drive_out = s.drive_out ∧
      (intel_fdc_check_index_pulse s).index_pulse_callback =
        s.index_pulse_callback ∧
      (intel_fdc_check_index_pulse s).state = s.state ∧
      (intel_fdc_check_index_pulse s).state_is_index_pulse = true := by
  obtain ⟨h1, h2⟩ := h
  unfold intel_fdc_check_index_pulse
  simp only [h1, h2]
  rw [if_neg (by simp)]
  cases hcb : s.index_pulse_callback with
  | none => exact absurd hcb hc
  | timeout =>
    simp only []
    rw [if_neg (by simpa [set_reg] using hn)]
    exact ⟨rfl, rfl, hcb.symm ▸ rfl, rfl, rfl⟩
  | spindown =>
    simp only []
    rw [if_neg (by simpa [set_reg] using hn)]
    exact ⟨rfl, rfl, hcb.symm ▸ rfl, rfl, rfl⟩

/-- The call that sees the last pulse of the spin-down countdown lowers the
select and load-head bits and disarms the callback. -/
theorem intel_fdc_check_index_pulse_spindown (s : intel_fdc_struct)
    (h : intel_fdc_index_pulse_rising s)
    (hc : s.index_pulse_callback = IndexPulseCallback.spindown)
    (hn : (s.regs k_intel_fdc_register_internal_index_pulse_count + 255) %
      256 = 0) :
    (intel_fdc_check_index_pulse s).drive_out =
        and_not8 s.drive_out
          (k_intel_fdc_drive_out_select_1 ||| k_intel_fdc_drive_out_select_0 |||
            k_intel_fdc_drive_out_load_head) ∧
      (intel_fdc_check_index_pulse s).index_pulse_callback =
        IndexPulseCallback.none ∧
      (intel_fdc_check_index_pulse s).regs
        k_intel_fdc_register_internal_index_pulse_count = 0 := by
  obtain ⟨h1, h2⟩ := h
  unfold intel_fdc_check_index_pulse
  simp only [h1, h2, hc]
  rw [if_neg (by simp), if_pos (by simpa [set_reg] using hn)]
  refine ⟨?_, rfl, ?_⟩
  · simp [intel_fdc_spindown_eq]
  · simp [intel_fdc_spindown_eq, set_reg, hn]

/-- The call that sees the last pulse of the timeout finishes the command
with "sector not found". -/
theorem intel_fdc_check_index_pulse_timeout (s : intel_fdc_struct)
    (h : intel_fdc_index_pulse_rising s)
    (hc : s.index_pulse_callback = IndexPulseCallback.timeout)
    (hn : (s.regs k_intel_fdc_register_internal_index_pulse_count + 255) %
      256 = 0) :
    ∃ u, intel_fdc_check_index_pulse s =
        intel_fdc_finish_command u k_intel_fdc_result_sector_not_found ∧
      u.regs k_intel_fdc_register_internal_result =
        s.regs k_intel_fdc_register_internal_result ∧
      u.regs k_intel_fdc_register_internal_status =
        s.regs k_intel_fdc_register_internal_status ∧
      u.drive_out = s.drive_out := by
  obtain ⟨h1, h2⟩ := h
  unfold intel_fdc_check_index_pulse
  simp only [h1, h2, hc]
  rw [if_neg (by simp), if_pos (by simpa [set_reg] using hn)]
  exact ⟨_, rfl, by simp [set_reg], by simp [set_reg], rfl⟩

theorem intel_fdc_index_pulse_edges_le (st : Nat → intel_fdc_struct)
    (a b : Nat) (h : a ≤ b) :
    intel_fdc_index_pulse_edges st a ≤ intel_fdc_index_pulse_edges st b := by
  induction b with
  | zero =>
    have : a = 0 := by omega
    subst this
    exact Nat.le_refl _
  | succ b ih =>
    by_cases hab : a = b + 1
    · subst hab
      exact Nat.le_refl _
    · have := ih (by omega)
      rw [intel_fdc_index_pulse_edges]
      omega

/-- While nothing but `intel_fdc_check_index_pulse` changes the callback and
the pulse count, an armed countdown from `n` holds `n` less the number of
low-to-high transitions seen so far, up to the call that sees the `n`-th. -/
theorem intel_fdc_index_pulse_countdown (st : Nat → intel_fdc_struct)
    (n m : Nat) (cb : IndexPulseCallback) (hcb : cb ≠ IndexPulseCallback.none)
    (h0 : (st 0).index_pulse_callback = cb)
    (h1 : (st 0).regs k_intel_fdc_register_internal_index_pulse_count = n)
    (hn1 : 1 ≤ n) (hn2 : n < 256)
    (hnext : ∀ j, j < m →
      (st (j + 1)).index_pulse_callback =
        (intel_fdc_check_index_pulse (st j)).index_pulse_callback ∧
      (st (j + 1)).regs k_intel_fdc_register_internal_index_pulse_count =
        (intel_fdc_check_index_pulse (st j)).regs
          k_intel_fdc_register_internal_index_pulse_count)
    (hm : intel_fdc_index_pulse_edges st m = n - 1) :
    ∀ j, j ≤ m →
      (st j).index_pulse_callback = cb ∧
      (st j).regs k_intel_fdc_register_internal_index_pulse_count =
        n - intel_fdc_index_pulse_edges st j ∧
      intel_fdc_index_pulse_edges st j ≤ n - 1 := by
  intro j
  induction j with
  | zero =>
    intro _
    exact ⟨h0, by rw [h1]; rfl, Nat.zero_le _⟩
  | succ j ih =>
    intro hj
    obtain ⟨a, b, c⟩ := ih (by omega)
    obtain ⟨n1, n2⟩ := hnext j (by omega)
    have hle := intel_fdc_index_pulse_edges_le st (j + 1) m hj
    rw [hm] at hle
    refine ⟨?_, ?_, hle⟩
    · by_cases hr : intel_fdc_index_pulse_rising (st j)
      · have he : intel_fdc_index_pulse_edges st (j + 1) =
            intel_fdc_index_pulse_edges st j + 1 := by
          rw [intel_fdc_index_pulse_edges, if_pos hr]
        rw [n1, (intel_fdc_check_index_pulse_count (st j) hr
          (by rw [a]; exact hcb) (by rw [b]; omega)).2.2.1]
        exact a
      · rw [n1, (intel_fdc_check_index_pulse_level (st j) hr).2.2.1]
        exact a
    · by_cases hr : intel_fdc_index_pulse_rising (st j)
      · have he : intel_fdc_index_pulse_edges st (j + 1) =
            intel_fdc_index_pulse_edges st j + 1 := by
          rw [intel_fdc_index_pulse_edges, if_pos hr]
        rw [n2, (intel_fdc_check_index_pulse_count (st j) hr
          (by rw [a]; exact hcb) (by rw [b]; omega)).1, set_reg_same, b, he]
        omega
      · have he : intel_fdc_index_pulse_edges st (j + 1) =
            intel_fdc_index_pulse_edges st j := by
          rw [intel_fdc_index_pulse_edges, if_neg hr]
          rfl
        rw [n2, (intel_fdc_check_index_pulse_level (st j) hr).1, b, he]

/-- What `intel_fdc_finish_simple_command` does with the head-unload count
`head_load_unload >> 4`. -/
theorem intel_fdc_head_unload_cases (s : intel_fdc_struct) :
    (s.regs 0x0F >>> 4 = 0 →
      (intel_fdc_finish_simple_command s).drive_out =
        and_not8 s.drive_out 0xC8 ∧
      (intel_fdc_finish_simple_command s).index_pulse_callback =
        IndexPulseCallback.none) ∧
    (s.regs 0x0F >>> 4 = 0xF →
      (intel_fdc_finish_simple_command s).drive_out = s.drive_out ∧
      (intel_fdc_finish_simple_command s).index_pulse_callback =
        IndexPulseCallback.none) ∧
    (s.regs 0x0F >>> 4 ≠ 0 → s.regs 0x0F >>> 4 ≠ 0xF →
      (intel_fdc_finish_simple_command s).drive_out = s.drive_out ∧
      (intel_fdc_finish_simple_command s).index_pulse_callback =
        IndexPulseCallback.spindown ∧
      (intel_fdc_finish_simple_command s).regs 0x1C = s.regs 0x0F >>> 4) := by
  unfold intel_fdc_finish_simple_command intel_fdc_spindown
    intel_fdc_drive_out_lower intel_fdc_lower_busy_and_log
  simp only [intel_fdc_clear_callbacks_eq, intel_fdc_status_lower_eq,
    intel_fdc_set_state_eq]
  refine ⟨?_, ?_, ?_⟩
  · intro h0
    simp +decide [h0, set_reg]
  · intro h15
    simp +decide [h15, set_reg]
  · intro h0 h15
    simp +decide [h0, h15, set_reg]

/-! ## Track mismatch retries -/

/-- The byte that completes a header with a correct ID CRC and a track byte
other than parameter 1, for a command register other than 0x18: the retry
count goes up by one, then the command is finished at 3 and the seek is
dispatched again otherwise. -/
theorem intel_fdc_byte_callback_reading_track_mismatch (s : intel_fdc_struct)
    (data_byte clocks_byte : Nat)
    (hs : s.state = FdcState.in_id_crc) (hc : s.state_count = 1)
    (hcrc : s.crc = ((s.on_disc_crc <<< 8) % 65536 ||| data_byte) % 65536)
    (hcmd : s.regs 0x1F ≠ 0x18) (hmis : s.regs 0x0C ≠ s.regs 0x07) :
    ∃ s1, s1.regs = set_reg s.regs 0x01 ((s.regs 0x01 + 1) % 256) ∧
      s1.drive_out = s.drive_out ∧
      s1.p_current_drive = s.p_current_drive ∧
      intel_fdc_byte_callback_reading s data_byte clocks_byte =
        if (s.regs 0x01 + 1) % 256 = 3 then
          Except.ok (intel_fdc_finish_command s1
            k_intel_fdc_result_sector_not_found)
        else intel_fdc_do_seek s1 := by
  unfold intel_fdc_byte_callback_reading
  simp only [hs, hc, intel_fdc_check_crc, hcrc,
    k_intel_fdc_register_internal_command,
    k_intel_fdc_register_internal_id_track,
    k_intel_fdc_register_internal_param_1,
    k_intel_fdc_register_internal_seek_retry_count]
  simp only [hcmd, hmis, set_reg_same, ↓reduceIte, ne_eq, not_false_eq_true,
    Nat.reduceAdd, Nat.reduceMod]
  by_cases h3 : (s.regs 1 + 1) % 256 = 3
  · simp only [h3, ↓reduceIte]
    refine ⟨_, ?_, ?_, ?_, rfl⟩ <;> rfl
  · simp only [h3, ↓reduceIte]
    refine ⟨_, ?_, ?_, ?_, rfl⟩ <;> rfl

/-- A seek that returns leaves the retry count as it was. -/
theorem intel_fdc_do_seek_retry_count (s t : intel_fdc_struct)
    (h : intel_fdc_do_seek s = Except.ok t) :
    t.regs k_intel_fdc_register_internal_seek_retry_count =
      s.regs k_intel_fdc_register_internal_seek_retry_count :=
  (intel_fdc_do_seek_frame s t h).1 _
    (by simp [seek_footprint, post_seek_footprint])

/-- The seek target when no bad track is at or below it: parameter 1 plus the
retry count, in 8 bits. -/
theorem intel_fdc_do_seek_new_track_plain (s : intel_fdc_struct)
    (h1 : (s.regs k_intel_fdc_register_internal_param_1 +
        s.regs k_intel_fdc_register_internal_seek_retry_count) % 256 <
      s.regs (intel_fdc_do_seek_track_regs s))
    (h2 : (s.regs k_intel_fdc_register_internal_param_1 +
        s.regs k_intel_fdc_register_internal_seek_retry_count) % 256 <
      s.regs (intel_fdc_do_seek_track_regs s + 1)) :
    intel_fdc_do_seek_new_track s =
      (s.regs k_intel_fdc_register_internal_param_1 +
        s.regs k_intel_fdc_register_internal_seek_retry_count) % 256 := by
  unfold intel_fdc_do_seek_new_track
  simp only [Nat.add_zero]
  rw [if_neg (Nat.not_le.mpr h1), if_neg (Nat.not_le.mpr h2)]
  split_ifs <;> rfl

/-! ## Sync detection -/

/-- One bit in a sync state: a bit that continues the pattern 1,0,1,0,...
is counted; a 1 at an odd count of 32 or more enters the marker check with
two bits in the shift register; any other bit restarts the count. -/
theorem intel_fdc_sync_bit_cases (s : intel_fdc_struct)
    (bit : Nat)
    (hs : s.state = FdcState.syncing_for_id ∨
      s.state = FdcState.syncing_for_data)
    (hbit : bit ≤ 1) :
    (bit = (if s.state_count % 2 = 0 then 1 else 0) →
      intel_fdc_shift_data_bit s bit =
        Except.ok { s with state_count := (s.state_count + 1) % 4294967296 }) ∧
    (bit ≠ (if s.state_count % 2 = 0 then 1 else 0) →
      32 ≤ s.state_count ∧ s.state_count % 2 = 1 →
      bit = 1 ∧
      intel_fdc_shift_data_bit s bit =
        Except.ok { s with
          state :=
            if s.state = FdcState.syncing_for_id then FdcState.check_id_marker
            else FdcState.check_data_marker,
          state_count := 0, shift_register := 3, num_shifts := 2 }) ∧
    (bit ≠ (if s.state_count % 2 = 0 then 1 else 0) →
      ¬ (32 ≤ s.state_count ∧ s.state_count % 2 = 1) →
      intel_fdc_shift_data_bit s bit =
        Except.ok { s with state_count := 0 }) := by
  have hand : s.state_count &&& 1 = s.state_count % 2 :=
    Nat.and_one_is_mod _
  have hsh : intel_fdc_shift_data_bit s bit =
      if bit = (if s.state_count % 2 = 0 then 1 else 0) then
        Except.ok { s with state_count := (s.state_count + 1) % 4294967296 }
      else if s.state_count ≥ 32 ∧ s.state_count % 2 ≠ 0 then
        if bit ≠ 1 then Except.error Fault.assertion
        else
          Except.ok { (if s.state = FdcState.syncing_for_id then
              intel_fdc_set_state s FdcState.check_id_marker
            else intel_fdc_set_state s FdcState.check_data_marker) with
            shift_register := 3, num_shifts := 2 }
      else Except.ok { s with state_count := 0 } := by
    unfold intel_fdc_shift_data_bit
    rcases hs with h | h <;> simp only [h, hand]
  refine ⟨?_, ?_, ?_⟩
  · intro hb
    rw [hsh, if_pos hb]
  · intro hb hc
    have h1 : bit = 1 := by
      have h2 := hc.2
      rw [if_neg (by omega)] at hb
      omega
    refine ⟨h1, ?_⟩
    rw [hsh, if_neg hb, if_pos ⟨hc.1, by omega⟩, if_neg (by simpa using h1)]
    rcases hs with h | h <;> simp [h, intel_fdc_set_state]
  · intro hb hc
    rw [hsh, if_neg hb, if_neg (by
      intro h
      exact hc ⟨h.1, by omega⟩)]

/-! ## The JIT compiler -/

/-- The length and branch class that `jit_compiler_get_opcode_details` stores
depend on the opcode byte alone. -/
theorem jit_compiler_get_opcode_details_fields (D : defs_6502)
    (c : jit_compiler) (d : jit_opcode_details) (addr : Nat)
    (r : jit_opcode_details × Nat)
    (h : jit_compiler_get_opcode_details D c d addr = Except.ok r) :
    r.1.branches = jit_compiler_opcode_branches D c addr ∧
      r.1.len = jit_compiler_opcode_len D c addr := by
  unfold jit_compiler_get_opcode_details at h
  simp only [] at h
  split at h
  · exact absurd h (by simp)
  · injection h with h
    rw [← h]
    exact ⟨rfl, rfl⟩

theorem jit_compiler_process_uop_mem (D : defs_6502) (c : jit_compiler)
    (u : jit_uop) :
    (jit_compiler_process_uop D c u).1.p_mem_read = c.p_mem_read := by
  unfold jit_compiler_process_uop
  lift_lets
  extract_lets opcode optype value1 opreg cc opreg2 cc2 u2 call c1 c2 c3
  show c3.p_mem_read = _
  have h1 : c1.p_mem_read = c.p_mem_read := by
    simp only [c1]
    split_ifs <;> rfl
  have h2 : c2.p_mem_read = c.p_mem_read := by
    simp only [c2]
    split_ifs <;> first | rfl | exact h1
  simp only [c3]
  split_ifs <;> first | rfl | exact h2

theorem jit_compiler_compile_block_uops_mem (D : defs_6502) (n : Nat) :
    ∀ (i : Nat) (c : jit_compiler) (uops : Nat → jit_uop)
      (buf : List asm_x64_call),
      (jit_compiler_compile_block_uops D n i c uops buf).1.p_mem_read =
        c.p_mem_read := by
  induction n with
  | zero => intro i c uops buf; rfl
  | succ n ih =>
    intro i c uops buf
    rw [jit_compiler_compile_block_uops, ih]
    exact jit_compiler_process_uop_mem D c (uops i)

/-- One pass of the loop body leaves the memory alone and records the length
and branch class of the instruction at the address. -/
theorem jit_compiler_compile_block_body_fields (D : defs_6502)
    (c : jit_compiler) (d : jit_opcode_details) (buf : List asm_x64_call)
    (addr : Nat) (r : jit_compiler × jit_opcode_details × List asm_x64_call)
    (h : jit_compiler_compile_block_body D c d buf addr = Except.ok r) :
    r.1.p_mem_read = c.p_mem_read ∧
      r.2.1.branches = jit_compiler_opcode_branches D c addr ∧
      r.2.1.len = jit_compiler_opcode_len D c addr := by
  unfold jit_compiler_compile_block_body at h
  cases hg : jit_compiler_get_opcode_details D c d addr with
  | error e =>
    rw [hg] at h
    exact absurd h (by simp)
  | ok g =>
    rw [hg] at h
    simp only [] at h
    injection h with h
    obtain ⟨f1, f2⟩ := jit_compiler_get_opcode_details_fields D c d addr g hg
    rw [← h]
    exact ⟨jit_compiler_compile_block_uops_mem D _ _ _ _ _, f1, f2⟩

theorem jit_compiler_block_addr_mem (D : defs_6502) (c1 c2 : jit_compiler)
    (h : c1.p_mem_read = c2.p_mem_read) (addr k : Nat) :
    jit_compiler_block_addr D c1 addr k =
      jit_compiler_block_addr D c2 addr k := by
  induction k with
  | zero => rfl
  | succ k ih =>
    rw [jit_compiler_block_addr, jit_compiler_block_addr, ih]
    unfold jit_compiler_opcode_len
    rw [h]

theorem jit_compiler_block_addr_succ (D : defs_6502) (c : jit_compiler)
    (addr k : Nat) :
    jit_compiler_block_addr D c addr (k + 1) =
      jit_compiler_block_addr D c
        ((addr + jit_compiler_opcode_len D c addr) % 65536) k := by
  induction k with
  | zero => rfl
  | succ k ih =>
    rw [jit_compiler_block_addr, ih]
    rfl

/-- The loop of `jit_compiler_compile_block` when instruction `n` of the
block is the first of branch class `k_bra_y`: with more than `n` units of fuel
it compiles instructions 0 to `n` one after the other and stops. -/
theorem jit_compiler_compile_block_loop_run (D : defs_6502) (n : Nat) :
    ∀ (fuel : Nat) (c : jit_compiler) (d : jit_opcode_details)
      (buf : List asm_x64_call) (addr : Nat),
      n < fuel →
      (∀ k, k < n → jit_compiler_opcode_branches D c
        (jit_compiler_block_addr D c addr k) ≠ D.k_bra_y) →
      jit_compiler_opcode_branches D c
        (jit_compiler_block_addr D c addr n) = D.k_bra_y →
      jit_compiler_compile_block_loop D fuel c d buf addr =
        some ((jit_compiler_compile_opcodes D
          (List.map (jit_compiler_block_addr D c addr) (List.range (n + 1)))
          c d buf).map (fun r => (r.1, r.2.2))) := by
  induction n with
  | zero =>
    intro fuel c d buf addr hf _ hy
    obtain ⟨fuel, rfl⟩ : ∃ f, fuel = f + 1 := ⟨fuel - 1, by omega⟩
    rw [jit_compiler_compile_block_loop]
    simp only [List.range_succ, List.range_zero, List.nil_append, List.map_cons,
      List.map_nil, jit_compiler_compile_opcodes, jit_compiler_block_addr]
    cases hb : jit_compiler_compile_block_body D c d buf addr with
    | error e => rfl
    | ok r =>
      obtain ⟨_, f2, _⟩ :=
        jit_compiler_compile_block_body_fields D c d buf addr r hb
      simp only []
      rw [if_pos (f2.trans hy)]
      rfl
  | succ n ih =>
    intro fuel c d buf addr hf hn hy
    obtain ⟨fuel, rfl⟩ : ∃ f, fuel = f + 1 := ⟨fuel - 1, by omega⟩
    rw [jit_compiler_compile_block_loop]
    have hl : List.map (jit_compiler_block_addr D c addr)
        (List.range (n + 1 + 1)) =
        addr :: List.map (jit_compiler_block_addr D c
          ((addr + jit_compiler_opcode_len D c addr) % 65536))
          (List.range (n + 1)) := by
      rw [List.range_succ_eq_map, List.map_cons, List.map_map]
      congr 1
      apply List.map_congr_left
      intro k _
      exact jit_compiler_block_addr_succ D c addr k
    rw [hl, jit_compiler_compile_opcodes]
    cases hb : jit_compiler_compile_block_body D c d buf addr with
    | error e => rfl
    | ok r =>
      obtain ⟨f1, f2, f3⟩ :=
        jit_compiler_compile_block_body_fields D c d buf addr r hb
      simp only []
      have h0 := hn 0 (by omega)
      rw [if_neg (by rw [f2]; exact h0), f3]
      have hbr : ∀ a, jit_compiler_opcode_branches D r.1 a =
          jit_compiler_opcode_branches D c a := by
        intro a
        unfold jit_compiler_opcode_branches
        rw [f1]
      have hlen : ∀ a, jit_compiler_opcode_len D r.1 a =
          jit_compiler_opcode_len D c a := by
        intro a
        unfold jit_compiler_opcode_len
        rw [f1]
      have hadr := jit_compiler_block_addr_mem D r.1 c f1
      rw [ih fuel r.1 r.2.1 r.2.2 _ (by omega)
        (by
          intro k hk
          rw [hbr, hadr, ← jit_compiler_block_addr_succ]
          exact hn (k + 1) (by omega))
        (by
          rw [hbr, hadr, ← jit_compiler_block_addr_succ]
          exact hy)]
      congr 3
      apply List.map_congr_left
      intro k _
      exact hadr _ k

/-- The micro-ops of LDA immediate with debug off: the load with its operand
byte, then FLAGA. -/
theorem jit_compiler_get_opcode_details_lda_imm (D : defs_6502)
    (c : jit_compiler) (d : jit_opcode_details) (addr v : Nat)
    (hdbg : c.debug = 0)
    (hlda : D.g_optypes 0xA9 = D.k_lda) (hldab : D.k_lda < 256)
    (hldan : D.k_lda ∉ [D.k_adc, D.k_bcc, D.k_bcs, D.k_rol, D.k_ror, D.k_bvc,
      D.k_bvs, D.k_sbc, D.k_alr, D.k_asl, D.k_lsr, D.k_slo, D.k_brk, D.k_cmp,
      D.k_cpx, D.k_cpy])
    (himm : D.g_opmodes 0xA9 = D.k_imm) (himmb : D.k_imm < 256)
    (himmn : D.k_imm ∉ [0, D.k_nil, D.k_acc])
    (m0 : c.p_mem_read addr = 0xA9)
    (m1 : c.p_mem_read ((addr + 1) % 65536) = v) (hv : v < 256) :
    ∃ d1, jit_compiler_get_opcode_details D c d addr = Except.ok (d1, 2) ∧
      d1.len = D.g_opmodelens D.k_imm % 256 ∧
      d1.branches = D.g_opbranch D.k_lda ∧
      d1.uops 0 =
        { opcode := 0xA9, value1 := v, value2 := (d.uops 0).value2,
          optype := D.k_lda } ∧
      d1.uops 1 =
        { opcode := k_opcode_FLAGA, value1 := (d.uops 1).value1,
          value2 := (d.uops 1).value2, optype := -1 } := by
  simp only [List.mem_cons, List.mem_singleton, not_or, List.not_mem_nil,
    not_false_eq_true, and_true] at hldan himmn
  obtain ⟨a1, a2, a3, a4, a5, a6, a7, a8, a9, a10, a11, a12, a13, a14, a15,
    a16⟩ := hldan
  obtain ⟨b1, b2, b3⟩ := himmn
  have e1 : D.k_lda % 256 = D.k_lda := Nat.mod_eq_of_lt hldab
  have e2 : D.k_imm % 256 = D.k_imm := Nat.mod_eq_of_lt himmb
  have e3 : v % 256 = v := Nat.mod_eq_of_lt hv
  unfold jit_compiler_get_opcode_details
  simp only [m0, m1, hdbg, hlda, himm, e1, e2, e3, Nat.reduceMod, a1, a2, a3,
    a4, a5, a6, a7, a8, a9, a10, a11, a12, a13, a14, a15, a16, b1, b2, b3,
    ne_eq, not_true_eq_false, ↓reduceIte, or_self, or_false, false_or,
    true_or, or_true]
  refine ⟨_, rfl, rfl, rfl, ?_, ?_⟩ <;> simp [jit_uops_set]

/-- The micro-op of a store to an absolute address with debug off, for an
optype that has no pre-main or post-main micro-ops and is no jump: the store
with its 16-bit operand. -/
theorem jit_compiler_get_opcode_details_store_abs (D : defs_6502)
    (c : jit_compiler) (d : jit_opcode_details) (addr op sta lo hi : Nat)
    (hdbg : c.debug = 0)
    (hsta : D.g_optypes op = sta) (hstab : sta < 256)
    (hstan : sta ∉ [D.k_adc, D.k_bcc, D.k_bcs, D.k_rol, D.k_ror, D.k_bvc,
      D.k_bvs, D.k_sbc, D.k_jmp, D.k_jsr, D.k_alr, D.k_asl, D.k_lsr, D.k_slo,
      D.k_brk, D.k_cmp, D.k_cpx, D.k_cpy, D.k_lda, D.k_txa, D.k_tya, D.k_pla,
      D.k_ldx, D.k_tax, D.k_tsx, D.k_ldy, D.k_tay])
    (habs : D.g_opmodes op = D.k_abs) (habsb : D.k_abs < 256)
    (habsn : D.k_abs ∉ [0, D.k_nil, D.k_acc, D.k_imm, D.k_zpg, D.k_zpx,
      D.k_zpy, D.k_rel])
    (m0 : c.p_mem_read addr = op) (hop : op < 256)
    (m1 : c.p_mem_read ((addr + 1) % 65536) = lo) (hlo : lo < 256)
    (m2 : c.p_mem_read ((addr + 2) % 65536) = hi) (hhi : hi < 256) :
    ∃ d1, jit_compiler_get_opcode_details D c d addr = Except.ok (d1, 1) ∧
      d1.len = D.g_opmodelens D.k_abs % 256 ∧
      d1.branches = D.g_opbranch sta ∧
      d1.uops 0 =
        { opcode := op, value1 := ((hi <<< 8 ||| lo : Nat) : Int),
          value2 := (d.uops 0).value2, optype := sta } := by
  simp only [List.mem_cons, List.mem_singleton, not_or, List.not_mem_nil,
    not_false_eq_true, and_true] at hstan habsn
  obtain ⟨a1, a2, a3, a4, a5, a6, a7, a8, a9, a10, a11, a12, a13, a14, a15,
    a16, a17, a18, a19, a20, a21, a22, a23, a24, a25, a26, a27⟩ := hstan
  obtain ⟨b1, b2, b3, b4, b5, b6, b7, b8⟩ := habsn
  have e1 : sta % 256 = sta := Nat.mod_eq_of_lt hstab
  have e2 : D.k_abs % 256 = D.k_abs := Nat.mod_eq_of_lt habsb
  have e3 : lo % 256 = lo := Nat.mod_eq_of_lt hlo
  have e4 : hi % 256 = hi := Nat.mod_eq_of_lt hhi
  have e5 : op % 256 = op := Nat.mod_eq_of_lt hop
  unfold jit_compiler_get_opcode_details
  simp only [m0, m1, m2, hdbg, hsta, habs, e1, e2, e3, e4, e5, Nat.reduceMod,
    a1, a2, a3, a4, a5, a6, a7, a8, a9, a10, a11, a12, a13, a14, a15, a16,
    a17, a18, a19, a20, a21, a22, a23, a24, a25, a26, a27, b1, b2, b3, b4, b5,
    b6, b7, b8, ne_eq, not_true_eq_false, ↓reduceIte, or_self, or_false,
    false_or, true_or, or_true]
  refine ⟨_, rfl, rfl, rfl, ?_⟩
  simp [jit_uops_set]

/-- Processing LDA immediate: the micro-op is emitted as it is and the
operand becomes the known value of A. -/
theorem jit_compiler_process_uop_lda_imm (D : defs_6502) (c : jit_compiler)
    (u : jit_uop) (h : u.opcode = 0xA9) :
    (jit_compiler_process_uop D c u).1.reg_a = u.value1 ∧
      (jit_compiler_process_uop D c u).2.1 = u ∧
      (jit_compiler_process_uop D c u).2.2 =
        ⟨asm_x64_emit.jit_LDA_IMM, [cast_uint8 u.value1]⟩ := by
  unfold jit_compiler_process_uop
  simp only [h]
  refine ⟨?_, ?_, ?_⟩
  · simp
  · simp
  · simp [jit_compiler_emit_uop, h]

/-- Processing a synthetic micro-op other than the rewritten ones leaves the
compiler state and the micro-op alone. -/
theorem jit_compiler_process_uop_flaga (D : defs_6502) (c : jit_compiler)
    (u : jit_uop) (h : u.opcode = k_opcode_FLAGA) (ht : u.optype = -1) :
    (jit_compiler_process_uop D c u).1 = c ∧
      (jit_compiler_process_uop D c u).2.1 = u ∧
      (jit_compiler_process_uop D c u).2.2 = ⟨asm_x64_emit.jit_FLAGA, []⟩ := by
  have hk : ∀ k : Nat, ¬ ((-1 : Int) = (k : Int)) := by
    intro k
    omega
  unfold jit_compiler_process_uop
  simp only [h, ht]
  refine ⟨?_, ?_, ?_⟩
  · simp [hk]
  · simp
  · simp [jit_compiler_emit_uop, h]

/-- Processing STA abs while the value of A is known: the micro-op is
rewritten to STOA_IMM with the known value as second operand, and that is
what is emitted. -/
theorem jit_compiler_process_uop_sta_abs (D : defs_6502) (c : jit_compiler)
    (u : jit_uop) (h : u.opcode = 0x8D) (ha : c.reg_a ≠ k_value_unknown) :
    (jit_compiler_process_uop D c u).2.1 =
        { u with opcode := k_opcode_STOA_IMM, value2 := c.reg_a } ∧
      (jit_compiler_process_uop D c u).2.2 =
        ⟨asm_x64_emit.jit_STOA_IMM,
          [cast_uint16 u.value1, cast_uint8 c.reg_a]⟩ := by
  have ha' : ¬ (c.reg_a = -1) := ha
  unfold jit_compiler_process_uop
  simp only [h]
  refine ⟨?_, ?_⟩
  · simp [ha']
  · simp [jit_compiler_emit_uop, ha']

/-- The loop body for an instruction of one micro-op. -/
theorem jit_compiler_compile_block_body_one (D : defs_6502) (c : jit_compiler)
    (d d1 : jit_opcode_details) (p_buf : List asm_x64_call) (addr : Nat)
    (h : jit_compiler_get_opcode_details D c d addr = Except.ok (d1, 1)) :
    jit_compiler_compile_block_body D c d p_buf addr =
      Except.ok
        ((jit_compiler_process_uop D c (d1.uops 0)).1,
          { d1 with
            uops := jit_uops_set d1.uops 0
              (jit_compiler_process_uop D c (d1.uops 0)).2.1 },
          p_buf ++ [(jit_compiler_process_uop D c (d1.uops 0)).2.2]) := by
  unfold jit_compiler_compile_block_body
  rw [h]
  simp only [jit_compiler_compile_block_uops, List.nil_append]

/-- The loop body for an instruction of two micro-ops. -/
theorem jit_compiler_compile_block_body_two (D : defs_6502) (c : jit_compiler)
    (d d1 : jit_opcode_details) (p_buf : List asm_x64_call) (addr : Nat)
    (h : jit_compiler_get_opcode_details D c d addr = Except.ok (d1, 2)) :
    jit_compiler_compile_block_body D c d p_buf addr =
      Except.ok
        ((jit_compiler_process_uop D
            (jit_compiler_process_uop D c (d1.uops 0)).1 (d1.uops 1)).1,
          { d1 with
            uops := jit_uops_set
              (jit_uops_set d1.uops 0
                (jit_compiler_process_uop D c (d1.uops 0)).2.1) 1
              (jit_compiler_process_uop D
                (jit_compiler_process_uop D c (d1.uops 0)).1
                (d1.uops 1)).2.1 },
          p_buf ++ [(jit_compiler_process_uop D c (d1.uops 0)).2.2,
            (jit_compiler_process_uop D
              (jit_compiler_process_uop D c (d1.uops 0)).1
              (d1.uops 1)).2.2]) := by
  have e : jit_uops_set d1.uops 0
      (jit_compiler_process_uop D c (d1.uops 0)).2.1 1 = d1.uops 1 := by
    simp [jit_uops_set]
  unfold jit_compiler_compile_block_body
  rw [h]
  simp only [jit_compiler_compile_block_uops, List.nil_append, Nat.zero_add,
    e, List.singleton_append]

/-! ## Lemmas on runs of byte callbacks and of micro-ops -/

/-! ## `jit_compiler_get_opcode_details` in parts -/

/-- The function `jit_compiler_get_opcode_details` is the composition of its
parts. -/
theorem jit_compiler_get_opcode_details_parts (D : defs_6502)
    (c : jit_compiler) (d : jit_opcode_details) (addr : Nat) :
    jit_compiler_get_opcode_details D c d addr =
      match jit_compiler_uops_main D c
          (jit_compiler_opcode_optype D c addr)
          (jit_compiler_opcode_opmode D c addr) addr
          (jit_compiler_uops_head D c addr d.uops).1
          (jit_compiler_uops_head D c addr d.uops).2 with
      | Except.error e => Except.error e
      | Except.ok m =>
        Except.ok
          ({ d with
              opcode_6502 := jit_compiler_opcode_6502 c addr,
              len := jit_compiler_opcode_len D c addr,
              branches := jit_compiler_opcode_branches D c addr,
              uops := jit_compiler_uops_fixup c m.2
                (jit_compiler_uops_head D c addr d.uops).2
                (jit_compiler_uops_post_main D
                  (jit_compiler_opcode_optype D c addr)
                  (jit_compiler_opcode_opmode D c addr) addr
                  (jit_compiler_uops_head D c addr d.uops).2 m.1
                  ((jit_compiler_uops_head D c addr d.uops).2 + 1)).1 },
            (jit_compiler_uops_post_main D
              (jit_compiler_opcode_optype D c addr)
              (jit_compiler_opcode_opmode D c addr) addr
              (jit_compiler_uops_head D c addr d.uops).2 m.1
              ((jit_compiler_uops_head D c addr d.uops).2 + 1)).2 % 256) := by
  rfl

theorem jit_uops_set_above (u : Nat → jit_uop) (i j : Nat) (x : jit_uop)
    (h : i < j) : jit_uops_set u i x j = u j := by
  unfold jit_uops_set
  rw [if_neg (by omega)]

theorem jit_uops_agree_below_set (u1 u2 : Nat → jit_uop) (k : Nat)
    (x1 x2 : jit_uop) (h : jit_uops_agree_below u1 u2 k)
    (ho : x1.opcode = x2.opcode) (ht : x1.optype = x2.optype) :
    jit_uops_agree_below (jit_uops_set u1 k x1) (jit_uops_set u2 k x2)
      (k + 1) := by
  intro j hj
  unfold jit_uops_set
  by_cases e : j = k
  · rw [if_pos e, if_pos e]
    exact ⟨ho, ht⟩
  · rw [if_neg e, if_neg e]
    exact h j (by omega)

theorem jit_uops_agree_below_update (u1 u2 : Nat → jit_uop) (k i : Nat)
    (x1 x2 : jit_uop) (h : jit_uops_agree_below u1 u2 k)
    (ho : x1.opcode = x2.opcode) (ht : x1.optype = x2.optype) :
    jit_uops_agree_below (jit_uops_set u1 i x1) (jit_uops_set u2 i x2) k := by
  intro j hj
  unfold jit_uops_set
  by_cases e : j = i
  · rw [if_pos e, if_pos e]
    exact ⟨ho, ht⟩
  · rw [if_neg e, if_neg e]
    exact h j hj

/-- The debug block writes at most the slot `p_uop`, with an opcode and an
optype that do not depend on the array. -/
theorem jit_compiler_uops_debug_spec (c : jit_compiler) (addr : Nat)
    (u1 u2 : Nat → jit_uop) (p : Nat) :
    (jit_compiler_uops_debug c addr u1 p).2 =
        (jit_compiler_uops_debug c addr u2 p).2 ∧
      p ≤ (jit_compiler_uops_debug c addr u1 p).2 ∧
      (jit_compiler_uops_debug c addr u1 p).2 ≤ p + 1 ∧
      (∀ j, (jit_compiler_uops_debug c addr u1 p).2 ≤ j →
        (jit_compiler_uops_debug c addr u1 p).1 j = u1 j) ∧
      (jit_uops_agree_below u1 u2 p →
        jit_uops_agree_below (jit_compiler_uops_debug c addr u1 p).1
          (jit_compiler_uops_debug c addr u2 p).1
          (jit_compiler_uops_debug c addr u1 p).2) := by
  unfold jit_compiler_uops_debug
  split_ifs
  · refine ⟨rfl, by simp, by simp, ?_, ?_⟩
    · intro j hj
      exact jit_uops_set_above _ _ _ _ (by simpa using hj)
    · intro h
      exact jit_uops_agree_below_set _ _ _ _ _ h rfl rfl
  · exact ⟨rfl, Nat.le_refl _, Nat.le_succ _, fun _ _ => rfl, fun h => h⟩

/-- The pre-main switch writes at most the slot `p_uop`, with an opcode and an
optype that do not depend on the array. -/
theorem jit_compiler_uops_pre_main_spec (D : defs_6502) (t : Nat)
    (u1 u2 : Nat → jit_uop) (p : Nat) :
    (jit_compiler_uops_pre_main D t u1 p).2 =
        (jit_compiler_uops_pre_main D t u2 p).2 ∧
      p ≤ (jit_compiler_uops_pre_main D t u1 p).2 ∧
      (jit_compiler_uops_pre_main D t u1 p).2 ≤ p + 1 ∧
      (∀ j, (jit_compiler_uops_pre_main D t u1 p).2 ≤ j →
        (jit_compiler_uops_pre_main D t u1 p).1 j = u1 j) ∧
      (jit_uops_agree_below u1 u2 p →
        jit_uops_agree_below (jit_compiler_uops_pre_main D t u1 p).1
          (jit_compiler_uops_pre_main D t u2 p).1
          (jit_compiler_uops_pre_main D t u1 p).2) := by
  unfold jit_compiler_uops_pre_main
  split_ifs
  all_goals
    first
    | exact ⟨rfl, Nat.le_refl _, Nat.le_succ _, fun _ _ => rfl, fun h => h⟩
    | (refine ⟨rfl, by simp, by simp, ?_, ?_⟩
       · intro j hj
         exact jit_uops_set_above _ _ _ _ (by simpa using hj)
       · intro h
         exact jit_uops_agree_below_set _ _ _ _ _ h rfl rfl)

/-- The array up to the main micro-op: at most three slots from 0 are
written, the main micro-op is in slot `p_main_uop`, which is at most 2. -/
theorem jit_compiler_uops_head_spec (D : defs_6502) (c : jit_compiler)
    (addr : Nat) (u1 u2 : Nat → jit_uop) :
    (jit_compiler_uops_head D c addr u1).2 =
        (jit_compiler_uops_head D c addr u2).2 ∧
      (jit_compiler_uops_head D c addr u1).2 ≤ 2 ∧
      (∀ j, (jit_compiler_uops_head D c addr u1).2 < j →
        (jit_compiler_uops_head D c addr u1).1 j = u1 j) ∧
      jit_uops_agree_below (jit_compiler_uops_head D c addr u1).1
        (jit_compiler_uops_head D c addr u2).1
        ((jit_compiler_uops_head D c addr u1).2 + 1) := by
  obtain ⟨a1, a2, a3, a4, a5⟩ := jit_compiler_uops_debug_spec c addr u1 u2 0
  obtain ⟨b1, b2, b3, b4, b5⟩ := jit_compiler_uops_pre_main_spec D
    (jit_compiler_opcode_optype D c addr)
    (jit_compiler_uops_debug c addr u1 0).1
    (jit_compiler_uops_debug c addr u2 0).1
    (jit_compiler_uops_debug c addr u1 0).2
  unfold jit_compiler_uops_head
  simp only []
  rw [← a1]
  refine ⟨b1, by omega, ?_, ?_⟩
  · intro j hj
    rw [jit_uops_set_above _ _ _ _ hj, b4 j (by omega), a4 j (by omega)]
  · rw [← b1]
    exact jit_uops_agree_below_set _ _ _ _ _
      (b5 (a5 (fun j hj => absurd hj (Nat.not_lt_zero j)))) rfl rfl

/-- The switch on the addressing mode fails or returns for both arrays alike;
it writes only `value1` of the main micro-op. -/
theorem jit_compiler_uops_main_spec (D : defs_6502) (c : jit_compiler)
    (t m addr : Nat) (u1 u2 : Nat → jit_uop) (p : Nat) :
    (∀ e, jit_compiler_uops_main D c t m addr u1 p = Except.error e →
      jit_compiler_uops_main D c t m addr u2 p = Except.error e) ∧
    (∀ r1, jit_compiler_uops_main D c t m addr u1 p = Except.ok r1 →
      (∀ j, j ≠ p → r1.1 j = u1 j) ∧
      (r1.1 p).opcode = (u1 p).opcode ∧ (r1.1 p).optype = (u1 p).optype ∧
      ∃ r2, jit_compiler_uops_main D c t m addr u2 p = Except.ok r2 ∧
        r2.2 = r1.2) := by
  unfold jit_compiler_uops_main
  simp only []
  split_ifs
  all_goals
    refine ⟨?_, ?_⟩
    · intro e h
      cases h <;> rfl
    · intro r1 h
      cases h <;>
        (refine ⟨?_, ?_, ?_, _, rfl, rfl⟩
         · intro j hj
           first
           | rfl
           | simp [jit_uops_set, hj]
         · first
           | rfl
           | simp [jit_uops_set]
         · first
           | rfl
           | simp [jit_uops_set])

/-- The post-main switch writes at most three slots from `p_uop`, and the
main micro-op, with opcodes and optypes that do not depend on the array. -/
theorem jit_compiler_uops_post_main_spec (D : defs_6502)
    (t m addr pm : Nat) (u1 u2 : Nat → jit_uop) (p : Nat) (hpm : pm < p) :
    (jit_compiler_uops_post_main D t m addr pm u1 p).2 =
        (jit_compiler_uops_post_main D t m addr pm u2 p).2 ∧
      p ≤ (jit_compiler_uops_post_main D t m addr pm u1 p).2 ∧
      (jit_compiler_uops_post_main D t m addr pm u1 p).2 ≤ p + 3 ∧
      (∀ j, (jit_compiler_uops_post_main D t m addr pm u1 p).2 ≤ j →
        (jit_compiler_uops_post_main D t m addr pm u1 p).1 j = u1 j) ∧
      (jit_uops_agree_below u1 u2 p →
        jit_uops_agree_below (jit_compiler_uops_post_main D t m addr pm u1 p).1
          (jit_compiler_uops_post_main D t m addr pm u2 p).1
          (jit_compiler_uops_post_main D t m addr pm u1 p).2) := by
  unfold jit_compiler_uops_post_main
  by_cases h1 : t = D.k_adc
  · rw [if_pos h1, if_pos h1]
    dsimp only
    first
    | exact ⟨rfl, Nat.le_refl _, by omega, fun _ _ => rfl, fun h => h⟩
    | (refine ⟨rfl, by omega, by omega, ?_, ?_⟩
       · intro j hj
         simp only [jit_uops_set]
         repeat' rw [if_neg (by omega)]
       · intro h
         first
         | exact jit_uops_agree_below_set _ _ _ _ _ h rfl rfl
         | exact jit_uops_agree_below_set _ _ _ _ _
             (jit_uops_agree_below_set _ _ _ _ _ h rfl rfl) rfl rfl
         | exact jit_uops_agree_below_set _ _ _ _ _
             (jit_uops_agree_below_set _ _ _ _ _
               (jit_uops_agree_below_set _ _ _ _ _
                 (jit_uops_agree_below_update _ _ _ _ _ _ h rfl rfl)
                 rfl rfl) rfl rfl) rfl rfl)
  rw [if_neg h1, if_neg h1]
  by_cases h2 : t = D.k_alr ∨ t = D.k_asl ∨ t = D.k_lsr ∨ t = D.k_slo
  · rw [if_pos h2, if_pos h2]
    dsimp only
    first
    | exact ⟨rfl, Nat.le_refl _, by omega, fun _ _ => rfl, fun h => h⟩
    | (refine ⟨rfl, by omega, by omega, ?_, ?_⟩
       · intro j hj
         simp only [jit_uops_set]
         repeat' rw [if_neg (by omega)]
       · intro h
         first
         | exact jit_uops_agree_below_set _ _ _ _ _ h rfl rfl
         | exact jit_uops_agree_below_set _ _ _ _ _
             (jit_uops_agree_below_set _ _ _ _ _ h rfl rfl) rfl rfl
         | exact jit_uops_agree_below_set _ _ _ _ _
             (jit_uops_agree_below_set _ _ _ _ _
               (jit_uops_agree_below_set _ _ _ _ _
                 (jit_uops_agree_below_update _ _ _ _ _ _ h rfl rfl)
                 rfl rfl) rfl rfl) rfl rfl)
  rw [if_neg h2, if_neg h2]
  by_cases h3 : t = D.k_brk
  · rw [if_pos h3, if_pos h3]
    dsimp only
    first
    | exact ⟨rfl, Nat.le_refl _, by omega, fun _ _ => rfl, fun h => h⟩
    | (refine ⟨rfl, by omega, by omega, ?_, ?_⟩
       · intro j hj
         simp only [jit_uops_set]
         repeat' rw [if_neg (by omega)]
       · intro h
         first
         | exact jit_uops_agree_below_set _ _ _ _ _ h rfl rfl
         | exact jit_uops_agree_below_set _ _ _ _ _
             (jit_uops_agree_below_set _ _ _ _ _ h rfl rfl) rfl rfl
         | exact jit_uops_agree_below_set _ _ _ _ _
             (jit_uops_agree_below_set _ _ _ _ _
               (jit_uops_agree_below_set _ _ _ _ _
                 (jit_uops_agree_below_update _ _ _ _ _ _ h rfl rfl)
                 rfl rfl) rfl rfl) rfl rfl)
  rw [if_neg h3, if_neg h3]
  by_cases h4 : t = D.k_cmp ∨ t = D.k_cpx ∨ t = D.k_cpy
  · rw [if_pos h4, if_pos h4]
    dsimp only
    first
    | exact ⟨rfl, Nat.le_refl _, by omega, fun _ _ => rfl, fun h => h⟩
    | (refine ⟨rfl, by omega, by omega, ?_, ?_⟩
       · intro j hj
         simp only [jit_uops_set]
         repeat' rw [if_neg (by omega)]
       · intro h
         first
         | exact jit_uops_agree_below_set _ _ _ _ _ h rfl rfl
         | exact jit_uops_agree_below_set _ _ _ _ _
             (jit_uops_agree_below_set _ _ _ _ _ h rfl rfl) rfl rfl
         | exact jit_uops_agree_below_set _ _ _ _ _
             (jit_uops_agree_below_set _ _ _ _ _
               (jit_uops_agree_below_set _ _ _ _ _
                 (jit_uops_agree_below_update _ _ _ _ _ _ h rfl rfl)
                 rfl rfl) rfl rfl) rfl rfl)
  rw [if_neg h4, if_neg h4]
  by_cases h5 : t = D.k_lda ∨ t = D.k_txa ∨ t = D.k_tya ∨ t = D.k_pla
  · rw [if_pos h5, if_pos h5]
    dsimp only
    first
    | exact ⟨rfl, Nat.le_refl _, by omega, fun _ _ => rfl, fun h => h⟩
    | (refine ⟨rfl, by omega, by omega, ?_, ?_⟩
       · intro j hj
         simp only [jit_uops_set]
         repeat' rw [if_neg (by omega)]
       · intro h
         first
         | exact jit_uops_agree_below_set _ _ _ _ _ h rfl rfl
         | exact jit_uops_agree_below_set _ _ _ _ _
             (jit_uops_agree_below_set _ _ _ _ _ h rfl rfl) rfl rfl
         | exact jit_uops_agree_below_set _ _ _ _ _
             (jit_uops_agree_below_set _ _ _ _ _
               (jit_uops_agree_below_set _ _ _ _ _
                 (jit_uops_agree_below_update _ _ _ _ _ _ h rfl rfl)
                 rfl rfl) rfl rfl) rfl rfl)
  rw [if_neg h5, if_neg h5]
  by_cases h6 : t = D.k_ldx ∨ t = D.k_tax ∨ t = D.k_tsx
  · rw [if_pos h6, if_pos h6]
    dsimp only
    first
    | exact ⟨rfl, Nat.le_refl _, by omega, fun _ _ => rfl, fun h => h⟩
    | (refine ⟨rfl, by omega, by omega, ?_, ?_⟩
       · intro j hj
         simp only [jit_uops_set]
         repeat' rw [if_neg (by omega)]
       · intro h
         first
         | exact jit_uops_agree_below_set _ _ _ _ _ h rfl rfl
         | exact jit_uops_agree_below_set _ _ _ _ _
             (jit_uops_agree_below_set _ _ _ _ _ h rfl rfl) rfl rfl
         | exact jit_uops_agree_below_set _ _ _ _ _
             (jit_uops_agree_below_set _ _ _ _ _
               (jit_uops_agree_below_set _ _ _ _ _
                 (jit_uops_agree_below_update _ _ _ _ _ _ h rfl rfl)
                 rfl rfl) rfl rfl) rfl rfl)
  rw [if_neg h6, if_neg h6]
  by_cases h7 : t = D.k_ldy ∨ t = D.k_tay
  · rw [if_pos h7, if_pos h7]
    dsimp only
    first
    | exact ⟨rfl, Nat.le_refl _, by omega, fun _ _ => rfl, fun h => h⟩
    | (refine ⟨rfl, by omega, by omega, ?_, ?_⟩
       · intro j hj
         simp only [jit_uops_set]
         repeat' rw [if_neg (by omega)]
       · intro h
         first
         | exact jit_uops_agree_below_set _ _ _ _ _ h rfl rfl
         | exact jit_uops_agree_below_set _ _ _ _ _
             (jit_uops_agree_below_set _ _ _ _ _ h rfl rfl) rfl rfl
         | exact jit_uops_agree_below_set _ _ _ _ _
             (jit_uops_agree_below_set _ _ _ _ _
               (jit_uops_agree_below_set _ _ _ _ _
                 (jit_uops_agree_below_update _ _ _ _ _ _ h rfl rfl)
                 rfl rfl) rfl rfl) rfl rfl)
  rw [if_neg h7, if_neg h7]
  by_cases h8 : t = D.k_rol ∨ t = D.k_ror
  · rw [if_pos h8, if_pos h8]
    dsimp only
    by_cases hacc : m = D.k_acc
    · rw [if_pos hacc, if_pos hacc]
      first
      | exact ⟨rfl, Nat.le_refl _, by omega, fun _ _ => rfl, fun h => h⟩
      | (refine ⟨rfl, by omega, by omega, ?_, ?_⟩
         · intro j hj
           simp only [jit_uops_set]
           repeat' rw [if_neg (by omega)]
         · intro h
           first
           | exact jit_uops_agree_below_set _ _ _ _ _ h rfl rfl
           | exact jit_uops_agree_below_set _ _ _ _ _
               (jit_uops_agree_below_set _ _ _ _ _ h rfl rfl) rfl rfl
           | exact jit_uops_agree_below_set _ _ _ _ _
               (jit_uops_agree_below_set _ _ _ _ _
                 (jit_uops_agree_below_set _ _ _ _ _
                   (jit_uops_agree_below_update _ _ _ _ _ _ h rfl rfl)
                   rfl rfl) rfl rfl) rfl rfl)
    · rw [if_neg hacc, if_neg hacc]
      first
      | exact ⟨rfl, Nat.le_refl _, by omega, fun _ _ => rfl, fun h => h⟩
      | (refine ⟨rfl, by omega, by omega, ?_, ?_⟩
         · intro j hj
           simp only [jit_uops_set]
           repeat' rw [if_neg (by omega)]
         · intro h
           first
           | exact jit_uops_agree_below_set _ _ _ _ _ h rfl rfl
           | exact jit_uops_agree_below_set _ _ _ _ _
               (jit_uops_agree_below_set _ _ _ _ _ h rfl rfl) rfl rfl
           | exact jit_uops_agree_below_set _ _ _ _ _
               (jit_uops_agree_below_set _ _ _ _ _
                 (jit_uops_agree_below_set _ _ _ _ _
                   (jit_uops_agree_below_update _ _ _ _ _ _ h rfl rfl)
                   rfl rfl) rfl rfl) rfl rfl)
  rw [if_neg h8, if_neg h8]
  by_cases h9 : t = D.k_sbc
  · rw [if_pos h9, if_pos h9]
    dsimp only
    first
    | exact ⟨rfl, Nat.le_refl _, by omega, fun _ _ => rfl, fun h => h⟩
    | (refine ⟨rfl, by omega, by omega, ?_, ?_⟩
       · intro j hj
         simp only [jit_uops_set]
         repeat' rw [if_neg (by omega)]
       · intro h
         first
         | exact jit_uops_agree_below_set _ _ _ _ _ h rfl rfl
         | exact jit_uops_agree_below_set _ _ _ _ _
             (jit_uops_agree_below_set _ _ _ _ _ h rfl rfl) rfl rfl
         | exact jit_uops_agree_below_set _ _ _ _ _
             (jit_uops_agree_below_set _ _ _ _ _
               (jit_uops_agree_below_set _ _ _ _ _
                 (jit_uops_agree_below_update _ _ _ _ _ _ h rfl rfl)
                 rfl rfl) rfl rfl) rfl rfl)
  rw [if_neg h9, if_neg h9]
  exact ⟨rfl, Nat.le_refl _, by omega, fun _ _ => rfl, fun h => h⟩

/-- The jump fix-up writes only `value1` of the main micro-op. -/
theorem jit_compiler_uops_fixup_spec (c : jit_compiler) (f : Bool) (pm : Nat)
    (u : Nat → jit_uop) :
    (∀ j, j ≠ pm → jit_compiler_uops_fixup c f pm u j = u j) ∧
      ∀ j, (jit_compiler_uops_fixup c f pm u j).opcode = (u j).opcode ∧
        (jit_compiler_uops_fixup c f pm u j).optype = (u j).optype := by
  unfold jit_compiler_uops_fixup
  split_ifs
  · refine ⟨?_, ?_⟩
    · intro j hj
      simp [jit_uops_set, hj]
    · intro j
      unfold jit_uops_set
      by_cases e : j = pm
      · rw [if_pos e, e]
        exact ⟨rfl, rfl⟩
      · rw [if_neg e]
        exact ⟨rfl, rfl⟩
  · exact ⟨fun _ _ => rfl, fun _ => ⟨rfl, rfl⟩⟩

/-- The loop over `i_uops` makes one emitter call for each of the `n` slots
from slot `i` and leaves the other slots of the array alone. -/
theorem jit_compiler_compile_block_uops_slots (D : defs_6502) (n : Nat) :
    ∀ (i : Nat) (c : jit_compiler) (uops : Nat → jit_uop)
      (buf : List asm_x64_call),
      (jit_compiler_compile_block_uops D n i c uops buf).2.2.length =
          buf.length + n ∧
        ∀ j, j < i ∨ i + n ≤ j →
          (jit_compiler_compile_block_uops D n i c uops buf).2.1 j =
            uops j := by
  induction n with
  | zero =>
    intro i c uops buf
    exact ⟨rfl, fun _ _ => rfl⟩
  | succ n ih =>
    intro i c uops buf
    rw [jit_compiler_compile_block_uops]
    obtain ⟨h1, h2⟩ := ih (i + 1) (jit_compiler_process_uop D c (uops i)).1
      (jit_uops_set uops i (jit_compiler_process_uop D c (uops i)).2.1)
      (buf ++ [(jit_compiler_process_uop D c (uops i)).2.2])
    refine ⟨?_, ?_⟩
    · rw [h1, List.length_append]
      simp only [List.length_singleton]
      omega
    · intro j hj
      rw [h2 j (by omega)]
      unfold jit_uops_set
      rw [if_neg (by omega)]

/-- What `jit_compiler_get_opcode_details` returns, in terms of its parts. -/
theorem jit_compiler_get_opcode_details_ok (D : defs_6502) (c : jit_compiler)
    (d : jit_opcode_details) (addr : Nat) (r : jit_opcode_details × Nat)
    (h : jit_compiler_get_opcode_details D c d addr = Except.ok r) :
    ∃ m, jit_compiler_uops_main D c (jit_compiler_opcode_optype D c addr)
        (jit_compiler_opcode_opmode D c addr) addr
        (jit_compiler_uops_head D c addr d.uops).1
        (jit_compiler_uops_head D c addr d.uops).2 = Except.ok m ∧
      r.1.uops = jit_compiler_uops_fixup c m.2
        (jit_compiler_uops_head D c addr d.uops).2
        (jit_compiler_uops_post_main D (jit_compiler_opcode_optype D c addr)
          (jit_compiler_opcode_opmode D c addr) addr
          (jit_compiler_uops_head D c addr d.uops).2 m.1
          ((jit_compiler_uops_head D c addr d.uops).2 + 1)).1 ∧
      r.2 = (jit_compiler_uops_post_main D
        (jit_compiler_opcode_optype D c addr)
        (jit_compiler_opcode_opmode D c addr) addr
        (jit_compiler_uops_head D c addr d.uops).2 m.1
        ((jit_compiler_uops_head D c addr d.uops).2 + 1)).2 % 256 := by
  rw [jit_compiler_get_opcode_details_parts] at h
  cases hm : jit_compiler_uops_main D c (jit_compiler_opcode_optype D c addr)
      (jit_compiler_opcode_opmode D c addr) addr
      (jit_compiler_uops_head D c addr d.uops).1
      (jit_compiler_uops_head D c addr d.uops).2 with
  | error e =>
    rw [hm] at h
    cases h
  | ok m =>
    rw [hm] at h
    simp only [] at h
    injection h with h
    rw [← h]
    exact ⟨m, rfl, rfl, rfl⟩

/-- The switch on the addressing mode returns for the modes it names and
fails its assertion for every other mode. -/
theorem jit_compiler_uops_main_total (D : defs_6502) (c : jit_compiler)
    (t m addr : Nat) (u : Nat → jit_uop) (p : Nat) :
    (m ∈ [0, D.k_nil, D.k_acc, D.k_imm, D.k_zpg, D.k_zpx, D.k_zpy, D.k_rel,
        D.k_abs, D.k_abx, D.k_aby, D.k_ind] →
      ∃ r, jit_compiler_uops_main D c t m addr u p = Except.ok r) ∧
    (m ∉ [0, D.k_nil, D.k_acc, D.k_imm, D.k_zpg, D.k_zpx, D.k_zpy, D.k_rel,
        D.k_abs, D.k_abx, D.k_aby, D.k_ind] →
      jit_compiler_uops_main D c t m addr u p =
        Except.error Fault.assertion) := by
  simp only [List.mem_cons, List.mem_singleton, List.not_mem_nil, or_false,
    not_or]
  unfold jit_compiler_uops_main
  simp only []
  refine ⟨?_, ?_⟩
  · intro hm
    split_ifs
    all_goals
      first
      | exact ⟨_, rfl⟩
      | (exfalso; tauto)
  · intro hm
    obtain ⟨b1, b2, b3, b4, b5, b6, b7, b8, b9, b10, b11, b12⟩ := hm
    rw [if_neg (by tauto), if_neg (by tauto), if_neg b8, if_neg (by tauto),
      if_neg b12]

/-- The switch on the addressing mode asks for a jump fix-up only for the
relative mode and for JMP and JSR. -/
theorem jit_compiler_uops_main_fixup (D : defs_6502) (c : jit_compiler)
    (t m addr : Nat) (u : Nat → jit_uop) (p : Nat)
    (r : (Nat → jit_uop) × Bool)
    (h : jit_compiler_uops_main D c t m addr u p = Except.ok r)
    (hr : r.2 = true) : m = D.k_rel ∨ t = D.k_jmp ∨ t = D.k_jsr := by
  unfold jit_compiler_uops_main at h
  simp only [] at h
  split_ifs at h
  all_goals
    (cases h; first | (simp at hr; done) | tauto)

/-- The post-main switch for BRK: the main micro-op becomes PUSH_16 of the
address plus 2 and three micro-ops follow it: PHP, SEI and JMP indirect
through the IRQ vector. -/
theorem jit_compiler_uops_post_main_brk (D : defs_6502)
    (m addr pm p : Nat) (u : Nat → jit_uop) (hpm : pm < p)
    (hn : D.k_brk ∉ [D.k_adc, D.k_alr, D.k_asl, D.k_lsr, D.k_slo]) :
    (jit_compiler_uops_post_main D D.k_brk m addr pm u p).2 = p + 3 ∧
      ((jit_compiler_uops_post_main D D.k_brk m addr pm u p).1 pm).opcode =
        k_opcode_PUSH_16 ∧
      ((jit_compiler_uops_post_main D D.k_brk m addr pm u p).1 pm).value1 =
        ((addr + 2) % 65536 : Nat) ∧
      ((jit_compiler_uops_post_main D D.k_brk m addr pm u p).1 pm).optype =
        -1 ∧
      ((jit_compiler_uops_post_main D D.k_brk m addr pm u p).1 p).opcode =
        0x08 ∧
      ((jit_compiler_uops_post_main D D.k_brk m addr pm u p).1 p).optype =
        D.k_php ∧
      ((jit_compiler_uops_post_main D D.k_brk m addr pm u p).1
        (p + 1)).opcode = 0x78 ∧
      ((jit_compiler_uops_post_main D D.k_brk m addr pm u p).1
        (p + 1)).optype = D.k_sei ∧
      ((jit_compiler_uops_post_main D D.k_brk m addr pm u p).1
        (p + 2)).opcode = 0x6C ∧
      ((jit_compiler_uops_post_main D D.k_brk m addr pm u p).1
        (p + 2)).value1 = D.k_6502_vector_irq ∧
      ((jit_compiler_uops_post_main D D.k_brk m addr pm u p).1
        (p + 2)).optype = D.k_jmp := by
  simp only [List.mem_cons, List.mem_singleton, not_or, List.not_mem_nil,
    not_false_eq_true, and_true] at hn
  obtain ⟨a1, a2, a3, a4, a5⟩ := hn
  have n0 : pm ≠ p := by omega
  have n0' : pm ≠ p + 1 := by omega
  have n0'' : pm ≠ p + 1 + 1 := by omega
  have n1 : p ≠ p + 1 := by omega
  have n2 : p ≠ p + 1 + 1 := by omega
  have n3 : p + 1 ≠ p + 1 + 1 := by omega
  have n4 : p + 2 = p + 1 + 1 := rfl
  unfold jit_compiler_uops_post_main
  rw [if_neg a1, if_neg (by tauto), if_pos rfl]
  dsimp only
  rw [n4]
  simp [jit_uops_set, n0, n0', n0'', n1, n2, n3]

/-! ## Tracking of registers and carry -/

/-- What `jit_compiler_process_uop` does to the tracked carry and to the
tracked registers. -/
theorem jit_compiler_process_uop_state (D : defs_6502) (c : jit_compiler)
    (u : jit_uop) :
    (jit_compiler_process_uop D c u).1.flag_carry =
        (if u.opcode = 0x18 then 0 else if u.opcode = 0x38 then 1
          else if jit_compiler_uop_changes_carry D u ≠ 0 then -1
          else c.flag_carry) ∧
      (jit_compiler_process_uop D c u).1.reg_a =
        (if u.opcode = 0xA9 then u.value1
          else if jit_compiler_uop_opreg D u = D.k_a then -1 else c.reg_a) ∧
      (jit_compiler_process_uop D c u).1.reg_x =
        (if u.opcode = 0xA2 then u.value1
          else if jit_compiler_uop_opreg D u ≠ D.k_a ∧
              jit_compiler_uop_opreg D u = D.k_x then -1
          else c.reg_x) ∧
      (jit_compiler_process_uop D c u).1.reg_y =
        (if u.opcode = 0xA0 then u.value1
          else if jit_compiler_uop_opreg D u ≠ D.k_a ∧
              jit_compiler_uop_opreg D u ≠ D.k_x ∧
              jit_compiler_uop_opreg D u = D.k_y then -1
          else c.reg_y) := by
  unfold jit_compiler_process_uop jit_compiler_uop_changes_carry
    jit_compiler_uop_opreg
  lift_lets
  extract_lets opcode optype value1 opreg cc opreg2 cc2 u2 call c1 c2 c3
  show c3.flag_carry =
        (if opcode = 0x18 then 0 else if opcode = 0x38 then 1
          else if cc2 ≠ 0 then -1 else c.flag_carry) ∧
      c3.reg_a =
        (if opcode = 0xA9 then value1
          else if opreg2 = D.k_a then -1 else c.reg_a) ∧
      c3.reg_x =
        (if opcode = 0xA2 then value1
          else if opreg2 ≠ D.k_a ∧ opreg2 = D.k_x then -1 else c.reg_x) ∧
      c3.reg_y =
        (if opcode = 0xA0 then value1
          else if opreg2 ≠ D.k_a ∧ opreg2 ≠ D.k_x ∧ opreg2 = D.k_y then -1
          else c.reg_y)
  clear_value opreg2 cc2 u2 call opcode value1
  clear opreg cc optype
  have h1 : c1.flag_carry = c.flag_carry ∧
      c1.reg_a = (if opreg2 = D.k_a then -1 else c.reg_a) ∧
      c1.reg_x = (if opreg2 ≠ D.k_a ∧ opreg2 = D.k_x then -1 else c.reg_x) ∧
      c1.reg_y = (if opreg2 ≠ D.k_a ∧ opreg2 ≠ D.k_x ∧ opreg2 = D.k_y then -1
        else c.reg_y) := by
    simp only [c1]
    split_ifs <;>
      (refine ⟨?_, ?_, ?_, ?_⟩ <;> first | rfl | (exfalso; tauto))
  have h2 : c2.flag_carry = (if cc2 ≠ 0 then -1 else c.flag_carry) ∧
      c2.reg_a = c1.reg_a ∧ c2.reg_x = c1.reg_x ∧ c2.reg_y = c1.reg_y := by
    simp only [c2]
    by_cases hc : cc2 ≠ 0
    · rw [if_pos hc, if_pos hc]
      exact ⟨rfl, rfl, rfl, rfl⟩
    · rw [if_neg hc, if_neg hc]
      exact ⟨h1.1, rfl, rfl, rfl⟩
  obtain ⟨a1, a2, a3, a4⟩ := h1
  obtain ⟨b1, b2, b3, b4⟩ := h2
  rw [a2] at b2
  rw [a3] at b3
  rw [a4] at b4
  clear_value c2
  clear a1 a2 a3 a4 c1
  simp only [c3]
  by_cases o1 : opcode = 0x18
  · subst o1
    simp only [↓reduceIte, Int.reduceEq]
    exact ⟨trivial, b2, b3, b4⟩
  by_cases o2 : opcode = 0x38
  · subst o2
    simp only [↓reduceIte, Int.reduceEq]
    exact ⟨trivial, b2, b3, b4⟩
  by_cases o3 : opcode = 0xA9
  · subst o3
    simp only [↓reduceIte, Int.reduceEq]
    exact ⟨b1, trivial, b3, b4⟩
  by_cases o4 : opcode = 0xA2
  · subst o4
    simp only [↓reduceIte, Int.reduceEq]
    exact ⟨b1, b2, trivial, b4⟩
  by_cases o5 : opcode = 0xA0
  · subst o5
    simp only [↓reduceIte, Int.reduceEq]
    exact ⟨b1, b2, b3, trivial⟩
  simp only [o1, o2, o3, o4, o5, if_false]
  by_cases o6 : opcode = 0xD8
  · rw [if_pos o6]
    exact ⟨b1, b2, b3, b4⟩
  rw [if_neg o6]
  by_cases o7 : opcode = 0xF8
  · rw [if_pos o7]
    exact ⟨b1, b2, b3, b4⟩
  rw [if_neg o7]
  exact ⟨b1, b2, b3, b4⟩

/-- ADC immediate: the micro-op is rewritten to ADD_IMM exactly when the
tracked carry is 0. -/
theorem jit_compiler_process_uop_adc_imm (D : defs_6502) (c : jit_compiler)
    (u : jit_uop) (h : u.opcode = 0x69) :
    (jit_compiler_process_uop D c u).2 =
      (if c.flag_carry = 0 then
        ({ u with opcode := k_opcode_ADD_IMM },
          ⟨asm_x64_emit.jit_ADD_IMM, [cast_uint8 u.value1]⟩)
      else (u, ⟨asm_x64_emit.jit_ADC_IMM, [cast_uint8 u.value1]⟩)) := by
  unfold jit_compiler_process_uop
  simp only [h]
  by_cases hc : c.flag_carry = 0
  · simp [jit_compiler_emit_uop, hc]
  · simp [jit_compiler_emit_uop, hc, h, k_opcode_debug, k_opcode_ADD_IMM,
      k_opcode_FLAGA, k_opcode_FLAGX, k_opcode_FLAGY, k_opcode_LOAD_CARRY,
      k_opcode_LOAD_CARRY_INV, k_opcode_LOAD_OVERFLOW, k_opcode_PUSH_16,
      k_opcode_SAVE_CARRY, k_opcode_SAVE_CARRY_INV, k_opcode_SAVE_OVERFLOW,
      k_opcode_STOA_IMM, k_opcode_SUB_IMM]

/-- SBC immediate: the micro-op is rewritten to SUB_IMM exactly when the
tracked carry is 1. -/
theorem jit_compiler_process_uop_sbc_imm (D : defs_6502) (c : jit_compiler)
    (u : jit_uop) (h : u.opcode = 0xE9) :
    (jit_compiler_process_uop D c u).2 =
      (if c.flag_carry = 1 then
        ({ u with opcode := k_opcode_SUB_IMM },
          ⟨asm_x64_emit.jit_SUB_IMM, [cast_uint8 u.value1]⟩)
      else (u, ⟨asm_x64_emit.jit_SBC_IMM, [cast_uint8 u.value1]⟩)) := by
  unfold jit_compiler_process_uop
  simp only [h]
  by_cases hc : c.flag_carry = 1
  · simp [jit_compiler_emit_uop, hc, k_opcode_debug, k_opcode_ADD_IMM,
      k_opcode_FLAGA, k_opcode_FLAGX, k_opcode_FLAGY, k_opcode_LOAD_CARRY,
      k_opcode_LOAD_CARRY_INV, k_opcode_LOAD_OVERFLOW, k_opcode_PUSH_16,
      k_opcode_SAVE_CARRY, k_opcode_SAVE_CARRY_INV, k_opcode_SAVE_OVERFLOW,
      k_opcode_STOA_IMM, k_opcode_SUB_IMM]
  · simp [jit_compiler_emit_uop, hc, h, k_opcode_debug, k_opcode_ADD_IMM,
      k_opcode_FLAGA, k_opcode_FLAGX, k_opcode_FLAGY, k_opcode_LOAD_CARRY,
      k_opcode_LOAD_CARRY_INV, k_opcode_LOAD_OVERFLOW, k_opcode_PUSH_16,
      k_opcode_SAVE_CARRY, k_opcode_SAVE_CARRY_INV, k_opcode_SAVE_OVERFLOW,
      k_opcode_STOA_IMM, k_opcode_SUB_IMM]

/-- Over micro-ops that keep the carry the tracked carry does not change. -/
theorem jit_compiler_process_uops_carry_kept (D : defs_6502)
    (c : jit_compiler) (u : Nat → jit_uop) (i : Nat) :
    ∀ m, i ≤ m → (∀ k, i ≤ k → k < m → jit_compiler_uop_keeps_carry D (u k)) →
      (jit_compiler_process_uops D c u m).flag_carry =
        (jit_compiler_process_uops D c u i).flag_carry := by
  intro m him
  induction m, him using Nat.le_induction with
  | base => intro _; rfl
  | succ m him ih =>
    intro hk
    have h1 := ih (fun k a b => hk k a (by omega))
    obtain ⟨k1, k2, k3⟩ := hk m him (by omega)
    show (jit_compiler_process_uop D _ (u m)).1.flag_carry = _
    rw [(jit_compiler_process_uop_state D _ (u m)).1, if_neg k1, if_neg k2,
      if_neg (by simpa using k3)]
    exact h1

/-- Over micro-ops that neither load the accumulator with an immediate nor
write it according to the table, the tracked accumulator does not change. -/
theorem jit_compiler_process_uops_reg_a_kept (D : defs_6502)
    (c : jit_compiler) (u : Nat → jit_uop) (i : Nat) :
    ∀ m, i ≤ m →
      (∀ k, i ≤ k → k < m →
        (u k).opcode ≠ 0xA9 ∧ jit_compiler_uop_opreg D (u k) ≠ D.k_a) →
      (jit_compiler_process_uops D c u m).reg_a =
        (jit_compiler_process_uops D c u i).reg_a := by
  intro m him
  induction m, him using Nat.le_induction with
  | base => intro _; rfl
  | succ m him ih =>
    intro hk
    have h1 := ih (fun k a b => hk k a (by omega))
    obtain ⟨k1, k2⟩ := hk m him (by omega)
    show (jit_compiler_process_uop D _ (u m)).1.reg_a = _
    rw [(jit_compiler_process_uop_state D _ (u m)).2.1, if_neg k1, if_neg k2]
    exact h1

/-- Over micro-ops that neither load X with an immediate nor write it
according to the table, the tracked X does not change. -/
theorem jit_compiler_process_uops_reg_x_kept (D : defs_6502)
    (c : jit_compiler) (u : Nat → jit_uop) (i : Nat) :
    ∀ m, i ≤ m →
      (∀ k, i ≤ k → k < m →
        (u k).opcode ≠ 0xA2 ∧ jit_compiler_uop_opreg D (u k) ≠ D.k_x) →
      (jit_compiler_process_uops D c u m).reg_x =
        (jit_compiler_process_uops D c u i).reg_x := by
  intro m him
  induction m, him using Nat.le_induction with
  | base => intro _; rfl
  | succ m him ih =>
    intro hk
    have h1 := ih (fun k a b => hk k a (by omega))
    obtain ⟨k1, k2⟩ := hk m him (by omega)
    show (jit_compiler_process_uop D _ (u m)).1.reg_x = _
    rw [(jit_compiler_process_uop_state D _ (u m)).2.2.1, if_neg k1,
      if_neg (fun h => k2 h.2)]
    exact h1

/-- Over micro-ops that neither load Y with an immediate nor write it
according to the table, the tracked Y does not change. -/
theorem jit_compiler_process_uops_reg_y_kept (D : defs_6502)
    (c : jit_compiler) (u : Nat → jit_uop) (i : Nat) :
    ∀ m, i ≤ m →
      (∀ k, i ≤ k → k < m →
        (u k).opcode ≠ 0xA0 ∧ jit_compiler_uop_opreg D (u k) ≠ D.k_y) →
      (jit_compiler_process_uops D c u m).reg_y =
        (jit_compiler_process_uops D c u i).reg_y := by
  intro m him
  induction m, him using Nat.le_induction with
  | base => intro _; rfl
  | succ m him ih =>
    intro hk
    have h1 := ih (fun k a b => hk k a (by omega))
    obtain ⟨k1, k2⟩ := hk m him (by omega)
    show (jit_compiler_process_uop D _ (u m)).1.reg_y = _
    rw [(jit_compiler_process_uop_state D _ (u m)).2.2.2, if_neg k1,
      if_neg (fun h => k2 h.2.2)]
    exact h1

/-- Processing a sequence of micro-ops: the first one, then the rest. -/
theorem jit_compiler_process_uops_shift (D : defs_6502) (c : jit_compiler)
    (u : Nat → jit_uop) (n : Nat) :
    jit_compiler_process_uops D c u (n + 1) =
      jit_compiler_process_uops D (jit_compiler_process_uop D c (u 0)).1
        (fun k => u (k + 1)) n := by
  induction n with
  | zero => rfl
  | succ n ih =>
    show (jit_compiler_process_uop D
        (jit_compiler_process_uops D c u (n + 1)) (u (n + 1))).1 = _
    rw [ih]
    rfl

/-- The loop over the micro-ops of one instruction leaves the compiler in the
state that processing its micro-ops one after the other gives. -/
theorem jit_compiler_compile_block_uops_state (D : defs_6502) :
    ∀ (n i : Nat) (c : jit_compiler) (uops : Nat → jit_uop)
      (buf : List asm_x64_call),
      (jit_compiler_compile_block_uops D n i c uops buf).1 =
        jit_compiler_process_uops D c (fun k => uops (i + k)) n := by
  intro n
  induction n with
  | zero => intro i c uops buf; rfl
  | succ n ih =>
    intro i c uops buf
    rw [jit_compiler_process_uops_shift]
    show (jit_compiler_compile_block_uops D n (i + 1) _ _ _).1 = _
    rw [ih]
    have e : (fun k => jit_uops_set uops i
        (jit_compiler_process_uop D c (uops i)).2.1 (i + 1 + k)) =
        (fun k => uops (i + (k + 1))) := by
      funext k
      rw [jit_uops_set_above _ _ _ _ (by omega)]
      congr 1
      omega
    rw [e]
    rfl

/-! ## Tracked registers along a block -/

theorem disc_tool_find_sectors_mark_not_deleted (v v' : disc_tool_scan)
    (i data : Nat) (h : disc_tool_find_sectors_mark v i data = Except.ok v')
    (hn : v.num_sectors ≤ 32) (hi : i ≠ 0)
    (hd : disc_tool_scan_not_deleted v) : disc_tool_scan_not_deleted v' := by
  unfold disc_tool_find_sectors_mark at h
  by_cases h1 : data = k_ibm_disc_id_mark_data_pattern
  · rw [if_pos h1] at h
    by_cases h2 : v.num_sectors = k_max_sectors
    · rw [if_pos h2] at h
      cases h
    · rw [if_neg h2] at h
      injection h with h
      subst h
      have h2' : v.num_sectors ≠ 32 := h2
      have e : (v.num_sectors + 1) % 2 ^ 32 = v.num_sectors + 1 :=
        Nat.mod_eq_of_lt (by
          show v.num_sectors + 1 < 4294967296
          omega)
      intro j hj h0
      have hj' : j < (v.num_sectors + 1) % 2 ^ 32 := hj
      rw [e] at hj'
      by_cases hjn : j = v.num_sectors
      · show ((if j = v.num_sectors then _ else v.p_tool.sectors j)).is_deleted
          = 0
        rw [if_pos hjn]
        rfl
      · have h0' : ((if j = v.num_sectors then
            { disc_tool_sector_zero with bit_pos_header := i }
            else v.p_tool.sectors j)).bit_pos_data = 0 := h0
        rw [if_neg hjn] at h0'
        show ((if j = v.num_sectors then _ else v.p_tool.sectors j)).is_deleted
          = 0
        rw [if_neg hjn]
        exact hd j (by omega) h0'
  · rw [if_neg h1] at h
    by_cases h3 : data = k_ibm_disc_data_mark_data_pattern ∨
        data = k_ibm_disc_deleted_data_mark_data_pattern
    · rw [if_pos h3] at h
      cases hp : v.p_sector with
      | none =>
        rw [hp] at h
        injection h with h
        subst h
        exact hd
      | some k =>
        rw [hp] at h
        simp only [] at h
        by_cases h4 : (v.p_tool.sectors k).bit_pos_data ≠ 0
        · rw [if_pos h4] at h
          injection h with h
          subst h
          exact hd
        · rw [if_neg h4] at h
          by_cases h5 : (v.p_tool.sectors k).bit_pos_header = 0
          · rw [if_pos h5] at h
            cases h
          · rw [if_neg h5] at h
            injection h with h
            subst h
            intro j hj h0
            have hj' : j < v.num_sectors := hj
            by_cases hjk : j = k
            · have h0' : ((if j = k then
                  { v.p_tool.sectors k with
                    bit_pos_data := i,
                    is_deleted :=
                      if data = k_ibm_disc_deleted_data_mark_data_pattern
                      then 1 else (v.p_tool.sectors k).is_deleted }
                  else v.p_tool.sectors j)).bit_pos_data = 0 := h0
              rw [if_pos hjk] at h0'
              exact absurd h0' hi
            · have h0' : ((if j = k then
                  { v.p_tool.sectors k with
                    bit_pos_data := i,
                    is_deleted :=
                      if data = k_ibm_disc_deleted_data_mark_data_pattern
                      then 1 else (v.p_tool.sectors k).is_deleted }
                  else v.p_tool.sectors j)).bit_pos_data = 0 := h0
              rw [if_neg hjk] at h0'
              show ((if j = k then _ else v.p_tool.sectors j)).is_deleted = 0
              rw [if_neg hjk]
              exact hd j hj' h0'
    · rw [if_neg h3] at h
      injection h with h
      subst h
      exact hd

theorem disc_tool_find_sectors_step_not_deleted (p : Nat → Nat)
    (v v' : disc_tool_scan) (i : Nat) (hA : disc_tool_scan_bits p v i)
    (h : disc_tool_find_sectors_step (some p) v i = Except.ok v')
    (hn : v.num_sectors ≤ 32) (hd : disc_tool_scan_not_deleted v) :
    disc_tool_scan_not_deleted v' := by
  rw [disc_tool_find_sectors_step_eq p v i hA.1 hA.2] at h
  cases hm : disc_tool_mark_at p i with
  | none =>
    rw [hm] at h
    injection h with h
    subst h
    exact hd
  | some data =>
    rw [hm] at h
    have hi := disc_tool_mark_at_ge p i data hm
    exact disc_tool_find_sectors_mark_not_deleted _ v' i data h hn (by omega)
      hd

/-- The invariants of the first loop hold after every number of turns that
return. -/
theorem disc_tool_find_sectors_pass_1_kept (p : Nat → Nat)
    (t0 : disc_tool_struct) (n : Nat) :
    ∀ (i : Nat) (v v' : disc_tool_scan), disc_tool_scan_bits p v i →
      disc_tool_scan_sectors t0 v i →
      v.num_sectors = disc_tool_id_marks p i →
      disc_tool_scan_not_deleted v →
      disc_tool_find_sectors_pass_1 (some p) n i v = Except.ok v' →
      disc_tool_scan_bits p v' (i + n) ∧
        disc_tool_scan_sectors t0 v' (i + n) ∧
        v'.num_sectors = disc_tool_id_marks p (i + n) ∧
        disc_tool_scan_not_deleted v' := by
  induction n with
  | zero =>
    intro i v v' hA hB hc hd h
    rw [disc_tool_find_sectors_pass_1] at h
    injection h with h
    subst h
    exact ⟨hA, hB, hc, hd⟩
  | succ n ih =>
    intro i v v' hA hB hc hd h
    rw [disc_tool_find_sectors_pass_1] at h
    obtain ⟨s1, s2⟩ := disc_tool_find_sectors_step_run p t0 v i hA hB hc
    by_cases hfirst : disc_tool_id_marks p (i + 1) ≤ 32
    · obtain ⟨v1, e1, a1, b1, c1⟩ := s1 hfirst
      rw [e1] at h
      have d1 := disc_tool_find_sectors_step_not_deleted p v v1 i hA e1 hB.1
        hd
      have hidx : i + (n + 1) = (i + 1) + n := by omega
      rw [hidx]
      exact ih (i + 1) v1 v' a1 b1 c1 d1 h
    · rw [s2 (by omega)] at h
      cases h

/-- The invariants of the first loop hold after every number of turns from
the start of the scan. -/
theorem disc_tool_find_sectors_pass_1_start (p : Nat → Nat)
    (t : disc_tool_struct) (n : Nat) (v : disc_tool_scan)
    (h : disc_tool_find_sectors_pass_1 (some p) n 0 (disc_tool_scan_start t) =
      Except.ok v) :
    disc_tool_scan_bits p v n ∧
      disc_tool_scan_sectors { t with num_sectors := 0 } v n ∧
      disc_tool_scan_not_deleted v := by
  have r := disc_tool_find_sectors_pass_1_kept p { t with num_sectors := 0 } n
    0 (disc_tool_scan_start t) v ⟨rfl, fun h => absurd rfl h⟩
    ⟨Nat.zero_le _, rfl, fun j hj => absurd hj (Nat.not_lt_zero j),
      fun _ _ => rfl, ⟨_, rfl⟩⟩ rfl
    (fun j hj => absurd hj (Nat.not_lt_zero j)) h
  rw [Nat.zero_add] at r
  exact ⟨r.1, r.2.1, r.2.2.2⟩

/-- A data mark while the latest descriptor has no data position: the
descriptor receives the position and, for a deleted data mark, the flag. -/
theorem disc_tool_find_sectors_mark_attach (u : disc_tool_scan)
    (i mark k : Nat)
    (hmk : mark = k_ibm_disc_data_mark_data_pattern ∨
      mark = k_ibm_disc_deleted_data_mark_data_pattern)
    (hp : u.p_sector = some k) (h0 : (u.p_tool.sectors k).bit_pos_data = 0)
    (hh : (u.p_tool.sectors k).bit_pos_header ≠ 0) :
    disc_tool_find_sectors_mark u i mark =
      Except.ok { u with
        p_tool := disc_tool_set_sector u.p_tool k
          { u.p_tool.sectors k with
            bit_pos_data := i,
            is_deleted :=
              if mark = k_ibm_disc_deleted_data_mark_data_pattern then 1
              else (u.p_tool.sectors k).is_deleted },
        shift_register := 0,
        num_shifts := 0 } := by
  have hne : mark ≠ k_ibm_disc_id_mark_data_pattern := by
    rcases hmk with h | h <;> rw [h] <;> decide
  unfold disc_tool_find_sectors_mark
  rw [if_neg hne, if_pos hmk, hp]
  simp only []
  rw [if_neg (fun h => h h0), if_neg hh]

/-- A data mark before any ID mark, or while the latest descriptor already
has a data position, changes nothing. -/
theorem disc_tool_find_sectors_mark_orphan (u : disc_tool_scan)
    (i mark : Nat)
    (hmk : mark = k_ibm_disc_data_mark_data_pattern ∨
      mark = k_ibm_disc_deleted_data_mark_data_pattern)
    (hp : u.p_sector = none ∨
      ∃ k, u.p_sector = some k ∧ (u.p_tool.sectors k).bit_pos_data ≠ 0) :
    disc_tool_find_sectors_mark u i mark = Except.ok u := by
  have hne : mark ≠ k_ibm_disc_id_mark_data_pattern := by
    rcases hmk with h | h <;> rw [h] <;> decide
  unfold disc_tool_find_sectors_mark
  rw [if_neg hne, if_pos hmk]
  rcases hp with hp | ⟨k, hp, hd⟩
  · rw [hp]
  · rw [hp]
    simp only []
    rw [if_pos hd]

/-! ## Runs of the write and format states -/

theorem intel_fdc_written_succ (p : Option DriveId) (f : Nat → Nat × Nat)
    (n : Nat) :
    intel_fdc_written p f (n + 1) =
      intel_fdc_written p f n ++ [⟨p, (f n).1, (f n).2⟩] := by
  unfold intel_fdc_written
  rw [List.range_succ, List.map_append]
  rfl

theorem intel_fdc_written_length (p : Option DriveId) (f : Nat → Nat × Nat)
    (n : Nat) : (intel_fdc_written p f n).length = n := by
  unfold intel_fdc_written
  rw [List.length_map, List.length_range]

/-- Induction along a run of calls of `intel_fdc_byte_callback_writing`: from
`st a` on, call `k` is made in a state that satisfies `Q k` and `H k`, and
what a call leaves of `Q` is what the next one finds. -/
theorem intel_fdc_write_phase (st : Nat → intel_fdc_struct) (a n : Nat)
    (Q : Nat → intel_fdc_struct → Prop)
    (H : Nat → intel_fdc_struct → Prop)
    (R : Nat → intel_fdc_struct → intel_fdc_struct → Prop)
    (h0 : Q 0 (st a))
    (hstep : ∀ k, k < n → ∀ s, Q k s → H k s →
      ∃ t, intel_fdc_byte_callback_writing s = Except.ok t ∧
        Q (k + 1) t ∧ R k s t)
    (hH : ∀ k, k < n → H k (st (a + k)))
    (hkept : ∀ k, k < n → ∀ t,
      intel_fdc_byte_callback_writing (st (a + k)) = Except.ok t →
      Q (k + 1) t → Q (k + 1) (st (a + k + 1))) :
    (∀ k, k ≤ n → Q k (st (a + k))) ∧
      ∀ k, k < n → ∃ t,
        intel_fdc_byte_callback_writing (st (a + k)) = Except.ok t ∧
        Q (k + 1) t ∧ R k (st (a + k)) t := by
  have hQ : ∀ k, k ≤ n → Q k (st (a + k)) := by
    intro k
    induction k with
    | zero => intro _; exact h0
    | succ k ih =>
      intro hk
      obtain ⟨t, e, q, _⟩ := hstep k (by omega) (st (a + k)) (ih (by omega))
        (hH k (by omega))
      exact hkept k (by omega) t e q
  exact ⟨hQ, fun k hk => hstep k hk (st (a + k)) (hQ k (by omega)) (hH k hk)⟩

theorem intel_fdc_write_inv_kept
    (v : FdcState × Nat × Nat × List DriveWrite × Option DriveId)
    (regs : Nat → Nat) (t s : intel_fdc_struct)
    (hk : intel_fdc_host_kept t s) (h : intel_fdc_write_inv v regs t) :
    intel_fdc_write_inv v regs s :=
  ⟨hk.1.trans h.1, fun r h1 h2 => (hk.2 r h1 h2).trans (h.2 r h1 h2)⟩

/-- A call that leaves the registers as they are, or changes the status
register only, keeps the registers of the invariant. -/
theorem intel_fdc_write_inv_of (a : FdcState) (b c : Nat)
    (d : List DriveWrite) (e : Option DriveId) (regs : Nat → Nat)
    (s t : intel_fdc_struct)
    (hv : intel_fdc_write_view t = (a, b, c, d, e))
    (hr : ∀ r, r ≠ k_intel_fdc_register_internal_data →
      r ≠ k_intel_fdc_register_internal_status → s.regs r = regs r)
    (ht : t.regs = s.regs ∨ ∃ x, t.regs =
      set_reg s.regs k_intel_fdc_register_internal_status x) :
    intel_fdc_write_inv (a, b, c, d, e) regs t := by
  refine ⟨hv, ?_⟩
  intro r h1 h2
  rcases ht with ht | ⟨x, ht⟩
  · rw [ht]
    exact hr r h1 h2
  · rw [ht, set_reg_other _ _ _ _ h2]
    exact hr r h1 h2

theorem intel_fdc_get_sector_size_of_reg (s t : intel_fdc_struct)
    (h : s.regs k_intel_fdc_register_internal_param_3 =
      t.regs k_intel_fdc_register_internal_param_3) :
    intel_fdc_get_sector_size s = intel_fdc_get_sector_size t := by
  unfold intel_fdc_get_sector_size
  rw [h]

theorem intel_fdc_get_internal_command_of_reg (s t : intel_fdc_struct)
    (h : s.regs k_intel_fdc_register_internal_command =
      t.regs k_intel_fdc_register_internal_command) :
    intel_fdc_get_internal_command s = intel_fdc_get_internal_command t := by
  unfold intel_fdc_get_internal_command
  rw [h]

/-! ## Single calls of `intel_fdc_byte_callback_writing` -/

/-- Raising NMI and need-data: the status register, the NMI line, and
nothing of the view. -/
theorem intel_fdc_status_raise_need (s : intel_fdc_struct) :
    intel_fdc_write_view (intel_fdc_status_raise s
        (k_intel_fdc_status_flag_nmi ||| k_intel_fdc_status_flag_need_data)) =
        intel_fdc_write_view s ∧
      (intel_fdc_status_raise s
        (k_intel_fdc_status_flag_nmi |||
          k_intel_fdc_status_flag_need_data)).regs =
        set_reg s.regs k_intel_fdc_register_internal_status
          ((s.regs k_intel_fdc_register_internal_status ||| 0x0C) % 256) ∧
      (intel_fdc_status_raise s
        (k_intel_fdc_status_flag_nmi |||
          k_intel_fdc_status_flag_need_data)).nmi_level = true := by
  rw [intel_fdc_status_raise_eq]
  refine ⟨rfl, rfl, ?_⟩
  show (if (8 ||| 4) &&& 8 ≠ 0 then
    decide ((s.regs 0x17 ||| (8 ||| 4)) % 256 &&& 8 ≠ 0) else s.nmi_level) =
    true
  rw [if_pos (by decide)]
  exact decide_eq_true (nmi_raised_bit_of _ _ (by decide))

theorem intel_fdc_consume_data_byte_in_time (s : intel_fdc_struct)
    (h : s.regs k_intel_fdc_register_internal_status &&&
      k_intel_fdc_status_flag_need_data = 0)
    (h0 : intel_fdc_get_internal_command s ≠ k_intel_fdc_command_SCAN_DATA)
    (h1 : intel_fdc_get_internal_command s ≠
      k_intel_fdc_command_SCAN_DATA_AND_DELETED) :
    intel_fdc_consume_data_byte s =
      (disc_drive_write_byte s s.p_current_drive
        (s.regs k_intel_fdc_register_internal_data) 0xFF, true) := by
  unfold intel_fdc_consume_data_byte
  rw [intel_fdc_check_data_loss_ok_in_time s h h0 h1]
  rfl

theorem intel_fdc_byte_callback_writing_gap_2 (s : intel_fdc_struct)
    (hs : s.state = FdcState.write_gap_2) (hc : s.state_count < 6) :
    ∃ t, intel_fdc_byte_callback_writing s = Except.ok t ∧
      intel_fdc_write_view t =
        (if s.state_count + 1 = 6 then FdcState.write_sector_data
          else FdcState.write_gap_2,
          if s.state_count + 1 = 6 then 0 else s.state_count + 1, s.crc,
          s.drive_writes ++ [⟨s.p_current_drive, 0x00, 0xFF⟩],
          s.p_current_drive) ∧
      t.regs = s.regs ∧ t.nmi_level = s.nmi_level := by
  have e : (s.state_count + 1) % 4294967296 = s.state_count + 1 :=
    Nat.mod_eq_of_lt (by omega)
  unfold intel_fdc_byte_callback_writing
  simp only [hs, disc_drive_write_byte, e]
  by_cases h6 : s.state_count + 1 = 6
  · rw [if_pos h6, if_pos h6, if_pos h6]
    exact ⟨_, rfl, rfl, rfl, rfl⟩
  · rw [if_neg h6, if_neg h6, if_neg h6]
    exact ⟨_, rfl, rfl, rfl, rfl⟩

/-- The data marker of a sector that is written. -/
theorem intel_fdc_byte_callback_writing_data_mark (s : intel_fdc_struct)
    (hs : s.state = FdcState.write_sector_data) (hc : s.state_count = 0)
    (hS : 1 ≤ intel_fdc_get_sector_size s) :
    ∃ t, intel_fdc_byte_callback_writing s = Except.ok t ∧
      intel_fdc_write_view t =
        (FdcState.write_sector_data, 1,
          ibm_disc_format_crc_add_byte ibm_disc_format_crc_init
            (s.regs k_intel_fdc_register_internal_param_data_marker),
          s.drive_writes ++ [⟨s.p_current_drive,
            s.regs k_intel_fdc_register_internal_param_data_marker,
            k_ibm_disc_mark_clock_pattern⟩],
          s.p_current_drive) ∧
      t.regs = set_reg s.regs k_intel_fdc_register_internal_status
        ((s.regs k_intel_fdc_register_internal_status ||| 0x0C) % 256) ∧
      t.nmi_level = true := by
  obtain ⟨nmi, tr, tv, d0, d1, W, u, pd0, pd1, p, pc, ipc, ts, regs, dout, sr,
    ns, state, count, iip, crc, odc⟩ := s
  simp only at hs hc
  subst hs hc
  have hS' : 1 ≤ 128 <<< (regs 5 >>> 5) := hS
  unfold intel_fdc_byte_callback_writing
  simp only [↓reduceIte, Bool.true_eq_false, disc_drive_write_byte,
    intel_fdc_get_sector_size, Nat.zero_add, Nat.reduceMod,
    k_intel_fdc_register_internal_param_3]
  rw [if_neg (by omega), if_pos (by omega)]
  refine ⟨_, rfl, ?_, ?_, ?_⟩
  · rw [(intel_fdc_status_raise_need _).1]
    rfl
  · rw [(intel_fdc_status_raise_need _).2.1]
  · exact (intel_fdc_status_raise_need _).2.2

/-- A data byte of a sector that is written: taken from the data register. -/
theorem intel_fdc_byte_callback_writing_data_byte (s : intel_fdc_struct)
    (hs : s.state = FdcState.write_sector_data) (hc1 : 0 < s.state_count)
    (hc2 : s.state_count < intel_fdc_get_sector_size s + 1)
    (hSb : intel_fdc_get_sector_size s + 3 < 4294967296)
    (hneed : s.regs k_intel_fdc_register_internal_status &&&
      k_intel_fdc_status_flag_need_data = 0)
    (h0 : intel_fdc_get_internal_command s ≠ k_intel_fdc_command_SCAN_DATA)
    (h1 : intel_fdc_get_internal_command s ≠
      k_intel_fdc_command_SCAN_DATA_AND_DELETED) :
    ∃ t, intel_fdc_byte_callback_writing s = Except.ok t ∧
      intel_fdc_write_view t =
        (FdcState.write_sector_data, s.state_count + 1,
          ibm_disc_format_crc_add_byte s.crc
            (s.regs k_intel_fdc_register_internal_data),
          s.drive_writes ++ [⟨s.p_current_drive,
            s.regs k_intel_fdc_register_internal_data, 0xFF⟩],
          s.p_current_drive) ∧
      (s.state_count + 1 < intel_fdc_get_sector_size s + 1 →
        t.regs = set_reg s.regs k_intel_fdc_register_internal_status
          ((s.regs k_intel_fdc_register_internal_status ||| 0x0C) % 256) ∧
        t.nmi_level = true) ∧
      (¬ (s.state_count + 1 < intel_fdc_get_sector_size s + 1) →
        t.regs = s.regs ∧ t.nmi_level = s.nmi_level) := by
  have hcons := intel_fdc_consume_data_byte_in_time s hneed h0 h1
  obtain ⟨nmi, tr, tv, d0, d1, W, u, pd0, pd1, p, pc, ipc, ts, regs, dout, sr,
    ns, state, count, iip, crc, odc⟩ := s
  simp only at hs hc1 hc2 hSb
  subst hs
  have hc2' : count < 128 <<< (regs 5 >>> 5) + 1 := hc2
  have hSb' : 128 <<< (regs 5 >>> 5) + 3 < 4294967296 := hSb
  have e : (count + 1) % 4294967296 = count + 1 :=
    Nat.mod_eq_of_lt (by omega)
  unfold intel_fdc_byte_callback_writing
  simp only [hcons]
  simp only [↓reduceIte, Bool.true_eq_false, disc_drive_write_byte,
    intel_fdc_get_sector_size, k_intel_fdc_register_internal_param_3, e,
    if_neg (show ¬ (count = 0) by omega), if_pos hc2',
    if_neg (show ¬ (count + 1 = 128 <<< (regs 5 >>> 5) + 3) by omega)]
  by_cases hr : count + 1 < 128 <<< (regs 5 >>> 5) + 1
  · rw [if_pos hr]
    refine ⟨_, rfl, ?_, ?_, ?_⟩
    · rw [(intel_fdc_status_raise_need _).1]
      rfl
    · intro _
      exact ⟨(intel_fdc_status_raise_need _).2.1,
        (intel_fdc_status_raise_need _).2.2⟩
    · intro h
      exact absurd hr h
  · rw [if_neg hr]
    refine ⟨_, rfl, rfl, ?_, ?_⟩
    · intro h
      exact absurd h hr
    · intro _
      exact ⟨rfl, rfl⟩

/-- The first CRC byte of a sector that is written. -/
theorem intel_fdc_byte_callback_writing_data_crc_hi (s : intel_fdc_struct)
    (hs : s.state = FdcState.write_sector_data)
    (hc : s.state_count = intel_fdc_get_sector_size s + 1)
    (hSb : intel_fdc_get_sector_size s + 3 < 4294967296) :
    ∃ t, intel_fdc_byte_callback_writing s = Except.ok t ∧
      intel_fdc_write_view t =
        (FdcState.write_sector_data, s.state_count + 1, s.crc,
          s.drive_writes ++ [⟨s.p_current_drive, (s.crc >>> 8) % 256, 0xFF⟩],
          s.p_current_drive) ∧
      t.regs = s.regs ∧ t.nmi_level = s.nmi_level := by
  obtain ⟨nmi, tr, tv, d0, d1, W, u, pd0, pd1, p, pc, ipc, ts, regs, dout, sr,
    ns, state, count, iip, crc, odc⟩ := s
  simp only at hs hc hSb
  subst hs
  have hc' : count = 128 <<< (regs 5 >>> 5) + 1 := hc
  have hSb' : 128 <<< (regs 5 >>> 5) + 3 < 4294967296 := hSb
  have e : (count + 1) % 4294967296 = count + 1 :=
    Nat.mod_eq_of_lt (by omega)
  unfold intel_fdc_byte_callback_writing
  simp only [↓reduceIte, Bool.true_eq_false, disc_drive_write_byte,
    intel_fdc_get_sector_size, k_intel_fdc_register_internal_param_3, e,
    if_neg (show ¬ (count = 0) by omega),
    if_neg (show ¬ (count < 128 <<< (regs 5 >>> 5) + 1) by omega),
    if_pos hc',
    if_neg (show ¬ (count + 1 = 128 <<< (regs 5 >>> 5) + 3) by omega),
    if_neg (show ¬ (count + 1 < 128 <<< (regs 5 >>> 5) + 1) by omega)]
  exact ⟨_, rfl, rfl, rfl, rfl⟩

/-- The second CRC byte of a sector that is written, after which
`intel_fdc_check_completion` runs. -/
theorem intel_fdc_byte_callback_writing_data_crc_lo (s : intel_fdc_struct)
    (hs : s.state = FdcState.write_sector_data)
    (hc : s.state_count = intel_fdc_get_sector_size s + 2)
    (hSb : intel_fdc_get_sector_size s + 3 < 4294967296) :
    intel_fdc_byte_callback_writing s =
      intel_fdc_check_completion
        { s with
          drive_writes :=
            s.drive_writes ++ [⟨s.p_current_drive, s.crc &&& 0xFF, 0xFF⟩],
          state_count := s.state_count + 1 } := by
  obtain ⟨nmi, tr, tv, d0, d1, W, u, pd0, pd1, p, pc, ipc, ts, regs, dout, sr,
    ns, state, count, iip, crc, odc⟩ := s
  simp only at hs hc hSb
  subst hs
  have hc' : count = 128 <<< (regs 5 >>> 5) + 2 := hc
  have hSb' : 128 <<< (regs 5 >>> 5) + 3 < 4294967296 := hSb
  have e : (count + 1) % 4294967296 = count + 1 :=
    Nat.mod_eq_of_lt (by omega)
  unfold intel_fdc_byte_callback_writing
  simp only [↓reduceIte, Bool.true_eq_false, disc_drive_write_byte,
    intel_fdc_get_sector_size, k_intel_fdc_register_internal_param_3, e,
    if_neg (show ¬ (count = 0) by omega),
    if_neg (show ¬ (count < 128 <<< (regs 5 >>> 5) + 1) by omega),
    if_neg (show ¬ (count = 128 <<< (regs 5 >>> 5) + 1) by omega),
    if_pos hc',
    if_pos (show count + 1 = 128 <<< (regs 5 >>> 5) + 3 by omega)]

/-- A byte of gap 1 of a format. -/
theorem intel_fdc_byte_callback_writing_gap_1 (s : intel_fdc_struct)
    (hs : s.state = FdcState.format_gap_1)
    (hc : s.state_count < s.regs k_intel_fdc_register_internal_param_5 + 6)
    (hb : s.regs k_intel_fdc_register_internal_param_5 < 256) :
    ∃ t, intel_fdc_byte_callback_writing s = Except.ok t ∧
      intel_fdc_write_view t =
        (if s.state_count + 1 =
            s.regs k_intel_fdc_register_internal_param_5 + 6 then
            FdcState.format_write_id
          else FdcState.format_gap_1,
          if s.state_count + 1 =
            s.regs k_intel_fdc_register_internal_param_5 + 6 then 0
          else s.state_count + 1, s.crc,
          s.drive_writes ++ [⟨s.p_current_drive,
            (intel_fdc_gap_byte
              (s.regs k_intel_fdc_register_internal_param_5)
              s.state_count).1,
            (intel_fdc_gap_byte
              (s.regs k_intel_fdc_register_internal_param_5)
              s.state_count).2⟩],
          s.p_current_drive) ∧
      t.regs = s.regs ∧ t.nmi_level = s.nmi_level := by
  obtain ⟨nmi, tr, tv, d0, d1, W, u, pd0, pd1, p, pc, ipc, ts, regs, dout, sr,
    ns, state, count, iip, crc, odc⟩ := s
  simp only at hs hc hb
  subst hs
  have hc' : count < regs 3 + 6 := hc
  have hb' : regs 3 < 256 := hb
  have e : (count + 1) % 4294967296 = count + 1 :=
    Nat.mod_eq_of_lt (by omega)
  unfold intel_fdc_byte_callback_writing intel_fdc_gap_byte
  simp only [disc_drive_write_byte, k_intel_fdc_register_internal_param_5, e,
    intel_fdc_set_state]
  have e2 : (regs 3 + 6) % 4294967296 = regs 3 + 6 :=
    Nat.mod_eq_of_lt (by omega)
  by_cases hf : count < regs 3 <;> by_cases hl : count + 1 = regs 3 + 6 <;>
    simp only [hf, hl, e, e2, ↓reduceIte, reduceCtorEq, or_self] <;>
    exact ⟨_, rfl, rfl, rfl, rfl⟩

/-- A byte of gap 3 of a format. -/
theorem intel_fdc_byte_callback_writing_gap_3 (s : intel_fdc_struct)
    (hs : s.state = FdcState.format_gap_3)
    (hc : s.state_count < s.regs k_intel_fdc_register_internal_param_2 + 6)
    (hb : s.regs k_intel_fdc_register_internal_param_2 < 256) :
    ∃ t, intel_fdc_byte_callback_writing s = Except.ok t ∧
      intel_fdc_write_view t =
        (if s.state_count + 1 =
            s.regs k_intel_fdc_register_internal_param_2 + 6 then
            FdcState.format_write_id
          else FdcState.format_gap_3,
          if s.state_count + 1 =
            s.regs k_intel_fdc_register_internal_param_2 + 6 then 0
          else s.state_count + 1, s.crc,
          s.drive_writes ++ [⟨s.p_current_drive,
            (intel_fdc_gap_byte
              (s.regs k_intel_fdc_register_internal_param_2)
              s.state_count).1,
            (intel_fdc_gap_byte
              (s.regs k_intel_fdc_register_internal_param_2)
              s.state_count).2⟩],
          s.p_current_drive) ∧
      t.regs = s.regs ∧ t.nmi_level = s.nmi_level := by
  obtain ⟨nmi, tr, tv, d0, d1, W, u, pd0, pd1, p, pc, ipc, ts, regs, dout, sr,
    ns, state, count, iip, crc, odc⟩ := s
  simp only at hs hc hb
  subst hs
  have hc' : count < regs 6 + 6 := hc
  have hb' : regs 6 < 256 := hb
  have e : (count + 1) % 4294967296 = count + 1 :=
    Nat.mod_eq_of_lt (by omega)
  unfold intel_fdc_byte_callback_writing intel_fdc_gap_byte
  simp only [disc_drive_write_byte, k_intel_fdc_register_internal_param_2, e,
    intel_fdc_set_state]
  have e2 : (regs 6 + 6) % 4294967296 = regs 6 + 6 :=
    Nat.mod_eq_of_lt (by omega)
  by_cases hf : count < regs 6 <;> by_cases hl : count + 1 = regs 6 + 6 <;>
    simp only [hf, hl, e, e2, ↓reduceIte, reduceCtorEq, or_self] <;>
    exact ⟨_, rfl, rfl, rfl, rfl⟩

/-- The ID mark of a format. -/
theorem intel_fdc_byte_callback_writing_id_mark (s : intel_fdc_struct)
    (hs : s.state = FdcState.format_write_id) (hc : s.state_count = 0) :
    ∃ t, intel_fdc_byte_callback_writing s = Except.ok t ∧
      intel_fdc_write_view t =
        (FdcState.format_write_id, 1,
          ibm_disc_format_crc_add_byte ibm_disc_format_crc_init
            k_ibm_disc_id_mark_data_pattern,
          s.drive_writes ++ [⟨s.p_current_drive,
            k_ibm_disc_id_mark_data_pattern, k_ibm_disc_mark_clock_pattern⟩],
          s.p_current_drive) ∧
      t.regs = set_reg s.regs k_intel_fdc_register_internal_status
        ((s.regs k_intel_fdc_register_internal_status ||| 0x0C) % 256) ∧
      t.nmi_level = true := by
  obtain ⟨nmi, tr, tv, d0, d1, W, u, pd0, pd1, p, pc, ipc, ts, regs, dout, sr,
    ns, state, count, iip, crc, odc⟩ := s
  simp only at hs hc
  subst hs hc
  unfold intel_fdc_byte_callback_writing
  simp only [↓reduceIte, Bool.true_eq_false, disc_drive_write_byte,
    Nat.zero_add, Nat.reduceMod, Nat.reduceLT]
  refine ⟨_, rfl, ?_, ?_, ?_⟩
  · rw [(intel_fdc_status_raise_need _).1]
    rfl
  · rw [(intel_fdc_status_raise_need _).2.1]
  · exact (intel_fdc_status_raise_need _).2.2

/-- A header byte of a format: taken from the data register. -/
theorem intel_fdc_byte_callback_writing_id_byte (s : intel_fdc_struct)
    (hs : s.state = FdcState.format_write_id) (hc1 : 0 < s.state_count)
    (hc2 : s.state_count < 5)
    (hneed : s.regs k_intel_fdc_register_internal_status &&&
      k_intel_fdc_status_flag_need_data = 0)
    (h0 : intel_fdc_get_internal_command s ≠ k_intel_fdc_command_SCAN_DATA)
    (h1 : intel_fdc_get_internal_command s ≠
      k_intel_fdc_command_SCAN_DATA_AND_DELETED) :
    ∃ t, intel_fdc_byte_callback_writing s = Except.ok t ∧
      intel_fdc_write_view t =
        (FdcState.format_write_id, s.state_count + 1,
          ibm_disc_format_crc_add_byte s.crc
            (s.regs k_intel_fdc_register_internal_data),
          s.drive_writes ++ [⟨s.p_current_drive,
            s.regs k_intel_fdc_register_internal_data, 0xFF⟩],
          s.p_current_drive) ∧
      (s.state_count + 1 < 5 →
        t.regs = set_reg s.regs k_intel_fdc_register_internal_status
          ((s.regs k_intel_fdc_register_internal_status ||| 0x0C) % 256) ∧
        t.nmi_level = true) ∧
      (¬ (s.state_count + 1 < 5) →
        t.regs = s.regs ∧ t.nmi_level = s.nmi_level) := by
  have hcons := intel_fdc_consume_data_byte_in_time s hneed h0 h1
  obtain ⟨nmi, tr, tv, d0, d1, W, u, pd0, pd1, p, pc, ipc, ts, regs, dout, sr,
    ns, state, count, iip, crc, odc⟩ := s
  simp only at hs hc1 hc2
  subst hs
  have e : (count + 1) % 4294967296 = count + 1 :=
    Nat.mod_eq_of_lt (by omega)
  unfold intel_fdc_byte_callback_writing
  simp only [hcons]
  simp only [↓reduceIte, Bool.true_eq_false, disc_drive_write_byte, e,
    if_neg (show ¬ (count = 0) by omega), if_pos hc2]
  by_cases hr : count + 1 < 5
  · rw [if_pos hr]
    refine ⟨_, rfl, ?_, ?_, ?_⟩
    · rw [(intel_fdc_status_raise_need _).1]
      rfl
    · intro _
      exact ⟨(intel_fdc_status_raise_need _).2.1,
        (intel_fdc_status_raise_need _).2.2⟩
    · intro h
      exact absurd hr h
  · rw [if_neg hr, if_neg (show ¬ (count + 1 = 7 + 11 + 6) by omega)]
    refine ⟨_, rfl, rfl, ?_, ?_⟩
    · intro h
      exact absurd h hr
    · intro _
      exact ⟨rfl, rfl⟩

/-- The bytes that follow the header in the state format_write_id: the two
CRC bytes, 11 bytes 0xFF and 6 bytes 0x00. -/
theorem intel_fdc_byte_callback_writing_id_tail (s : intel_fdc_struct)
    (hs : s.state = FdcState.format_write_id) (hc1 : 5 ≤ s.state_count)
    (hc2 : s.state_count < 24) :
    ∃ t, intel_fdc_byte_callback_writing s = Except.ok t ∧
      intel_fdc_write_view t =
        (if s.state_count + 1 = 24 then FdcState.format_write_data
          else FdcState.format_write_id,
          if s.state_count + 1 = 24 then 0 else s.state_count + 1, s.crc,
          s.drive_writes ++ [⟨s.p_current_drive,
            if s.state_count = 5 then (s.crc >>> 8) % 256
            else if s.state_count = 6 then s.crc &&& 0xFF
            else if s.state_count < 18 then 0xFF else 0x00, 0xFF⟩],
          s.p_current_drive) ∧
      t.regs = s.regs ∧ t.nmi_level = s.nmi_level := by
  obtain ⟨nmi, tr, tv, d0, d1, W, u, pd0, pd1, p, pc, ipc, ts, regs, dout, sr,
    ns, state, count, iip, crc, odc⟩ := s
  simp only at hs hc1 hc2
  subst hs
  have e : (count + 1) % 4294967296 = count + 1 :=
    Nat.mod_eq_of_lt (by omega)
  have n0 : ¬ (count = 0) := by omega
  have n5 : ¬ (count < 5) := by omega
  have r5 : ¬ (count + 1 < 5) := by omega
  unfold intel_fdc_byte_callback_writing
  by_cases h5 : count = 5 <;> by_cases h6 : count = 6 <;>
    by_cases h18 : count < 18 <;> by_cases hl : count + 1 = 24 <;>
    first
    | (exfalso; omega)
    | (simp only [n0, n5, r5, e, h5, h6, h18, hl, ↓reduceIte,
        Bool.true_eq_false, disc_drive_write_byte, intel_fdc_set_state,
        reduceCtorEq, or_self, Nat.reduceAdd, Nat.reduceEqDiff,
        Nat.reduceLT, Nat.reduceMod, Nat.reduceLeDiff]
       exact ⟨_, rfl, rfl, rfl, rfl⟩)

/-- The data mark of a format. -/
theorem intel_fdc_byte_callback_writing_format_mark (s : intel_fdc_struct)
    (hs : s.state = FdcState.format_write_data) (hc : s.state_count = 0) :
    ∃ t, intel_fdc_byte_callback_writing s = Except.ok t ∧
      intel_fdc_write_view t =
        (FdcState.format_write_data, 1,
          ibm_disc_format_crc_add_byte ibm_disc_format_crc_init
            k_ibm_disc_data_mark_data_pattern,
          s.drive_writes ++ [⟨s.p_current_drive,
            k_ibm_disc_data_mark_data_pattern,
            k_ibm_disc_mark_clock_pattern⟩],
          s.p_current_drive) ∧
      t.regs = s.regs ∧ t.nmi_level = s.nmi_level := by
  obtain ⟨nmi, tr, tv, d0, d1, W, u, pd0, pd1, p, pc, ipc, ts, regs, dout, sr,
    ns, state, count, iip, crc, odc⟩ := s
  simp only at hs hc
  subst hs hc
  unfold intel_fdc_byte_callback_writing
  simp only [↓reduceIte, disc_drive_write_byte, Nat.zero_add, Nat.reduceMod,
    intel_fdc_get_sector_size,
    if_neg (show ¬ (1 = 128 <<< (regs 5 >>> 5) + 3) by omega)]
  exact ⟨_, rfl, rfl, rfl, rfl⟩

/-- A filler byte of a format. -/
theorem intel_fdc_byte_callback_writing_format_byte (s : intel_fdc_struct)
    (hs : s.state = FdcState.format_write_data) (hc1 : 0 < s.state_count)
    (hc2 : s.state_count < intel_fdc_get_sector_size s + 1)
    (hSb : intel_fdc_get_sector_size s + 3 < 4294967296) :
    ∃ t, intel_fdc_byte_callback_writing s = Except.ok t ∧
      intel_fdc_write_view t =
        (FdcState.format_write_data, s.state_count + 1,
          ibm_disc_format_crc_add_byte s.crc 0xE5,
          s.drive_writes ++ [⟨s.p_current_drive, 0xE5, 0xFF⟩],
          s.p_current_drive) ∧
      t.regs = s.regs ∧ t.nmi_level = s.nmi_level := by
  obtain ⟨nmi, tr, tv, d0, d1, W, u, pd0, pd1, p, pc, ipc, ts, regs, dout, sr,
    ns, state, count, iip, crc, odc⟩ := s
  simp only at hs hc1 hc2 hSb
  subst hs
  have hc2' : count < 128 <<< (regs 5 >>> 5) + 1 := hc2
  have hSb' : 128 <<< (regs 5 >>> 5) + 3 < 4294967296 := hSb
  have e : (count + 1) % 4294967296 = count + 1 :=
    Nat.mod_eq_of_lt (by omega)
  unfold intel_fdc_byte_callback_writing
  simp only [↓reduceIte, disc_drive_write_byte, e,
    intel_fdc_get_sector_size, k_intel_fdc_register_internal_param_3,
    if_neg (show ¬ (count = 0) by omega), if_pos hc2',
    if_neg (show ¬ (count + 1 = 128 <<< (regs 5 >>> 5) + 3) by omega)]
  exact ⟨_, rfl, rfl, rfl, rfl⟩

/-- The first CRC byte of the data field of a format: the assertion on the
CRC of a 256-byte sector stands before it. -/
theorem intel_fdc_byte_callback_writing_format_crc_hi (s : intel_fdc_struct)
    (hs : s.state = FdcState.format_write_data)
    (hc : s.state_count = intel_fdc_get_sector_size s + 1)
    (hSb : intel_fdc_get_sector_size s + 3 < 4294967296) :
    (intel_fdc_get_sector_size s = 256 ∧ s.crc ≠ 0xA40C →
      intel_fdc_byte_callback_writing s = Except.error Fault.assertion) ∧
    (¬ (intel_fdc_get_sector_size s = 256 ∧ s.crc ≠ 0xA40C) →
      ∃ t, intel_fdc_byte_callback_writing s = Except.ok t ∧
        intel_fdc_write_view t =
          (FdcState.format_write_data, s.state_count + 1, s.crc,
            s.drive_writes ++
              [⟨s.p_current_drive, (s.crc >>> 8) % 256, 0xFF⟩],
            s.p_current_drive) ∧
        t.regs = s.regs ∧ t.nmi_level = s.nmi_level) := by
  obtain ⟨nmi, tr, tv, d0, d1, W, u, pd0, pd1, p, pc, ipc, ts, regs, dout, sr,
    ns, state, count, iip, crc, odc⟩ := s
  simp only at hs hc hSb
  subst hs
  have hc' : count = 128 <<< (regs 5 >>> 5) + 1 := hc
  have hSb' : 128 <<< (regs 5 >>> 5) + 3 < 4294967296 := hSb
  have e : (count + 1) % 4294967296 = count + 1 :=
    Nat.mod_eq_of_lt (by omega)
  unfold intel_fdc_byte_callback_writing
  simp only [↓reduceIte, disc_drive_write_byte, e,
    intel_fdc_get_sector_size, k_intel_fdc_register_internal_param_3,
    if_neg (show ¬ (count = 0) by omega),
    if_neg (show ¬ (count < 128 <<< (regs 5 >>> 5) + 1) by omega),
    if_pos hc']
  constructor
  · intro h
    rw [if_pos h]
  · intro h
    rw [if_neg h]
    simp only [e,
      if_neg (show ¬ (count + 1 = 128 <<< (regs 5 >>> 5) + 3) by omega)]
    exact ⟨_, rfl, rfl, rfl, rfl⟩

/-- The second CRC byte of the data field of a format: the sector count in
the low five bits of the register is decremented and gap 3 or gap 4
follows. -/
theorem intel_fdc_byte_callback_writing_format_crc_lo (s : intel_fdc_struct)
    (hs : s.state = FdcState.format_write_data)
    (hc : s.state_count = intel_fdc_get_sector_size s + 2)
    (hSb : intel_fdc_get_sector_size s + 3 < 4294967296) :
    ∃ t, intel_fdc_byte_callback_writing s = Except.ok t ∧
      intel_fdc_write_view t =
        (if (s.regs k_intel_fdc_register_internal_param_3 + 255) % 256 &&&
            0x1F = 0 then FdcState.format_gap_4
          else FdcState.format_gap_3, 0, s.crc,
          s.drive_writes ++ [⟨s.p_current_drive, s.crc &&& 0xFF, 0xFF⟩],
          s.p_current_drive) ∧
      t.regs = set_reg s.regs k_intel_fdc_register_internal_param_3
        ((s.regs k_intel_fdc_register_internal_param_3 + 255) % 256) ∧
      t.nmi_level = s.nmi_level := by
  obtain ⟨nmi, tr, tv, d0, d1, W, u, pd0, pd1, p, pc, ipc, ts, regs, dout, sr,
    ns, state, count, iip, crc, odc⟩ := s
  simp only at hs hc hSb
  subst hs
  have hc' : count = 128 <<< (regs 5 >>> 5) + 2 := hc
  have hSb' : 128 <<< (regs 5 >>> 5) + 3 < 4294967296 := hSb
  have e : (count + 1) % 4294967296 = count + 1 :=
    Nat.mod_eq_of_lt (by omega)
  have g : set_reg regs 5 ((regs 5 + 255) % 256) 5 = (regs 5 + 255) % 256 := by
    unfold set_reg
    rw [if_pos rfl]
  unfold intel_fdc_byte_callback_writing
  simp only [↓reduceIte, disc_drive_write_byte, e, g,
    intel_fdc_get_sector_size, k_intel_fdc_register_internal_param_3,
    if_neg (show ¬ (count = 0) by omega),
    if_neg (show ¬ (count < 128 <<< (regs 5 >>> 5) + 1) by omega),
    if_neg (show ¬ (count = 128 <<< (regs 5 >>> 5) + 1) by omega),
    if_pos (show count + 1 = 128 <<< (regs 5 >>> 5) + 3 by omega),
    intel_fdc_set_state, reduceCtorEq, or_self]
  by_cases h : (regs 5 + 255) % 256 &&& 0x1F = 0
  · simp only [h, ↓reduceIte]
    exact ⟨_, rfl, rfl, rfl, rfl⟩
  · simp only [h, ↓reduceIte]
    exact ⟨_, rfl, rfl, rfl, rfl⟩

/-- Gap 4 of a format: bytes 0xFF until the callback sees the index pulse,
which finishes the command with result OK. -/
theorem intel_fdc_byte_callback_writing_gap_4 (s : intel_fdc_struct)
    (hs : s.state = FdcState.format_gap_4) :
    (s.state_is_index_pulse = true →
      intel_fdc_byte_callback_writing s =
        Except.ok (intel_fdc_finish_command s k_intel_fdc_result_ok)) ∧
    (s.state_is_index_pulse = false →
      intel_fdc_byte_callback_writing s =
        Except.ok (disc_drive_write_byte s s.p_current_drive 0xFF 0xFF)) := by
  unfold intel_fdc_byte_callback_writing
  simp only [hs]
  constructor
  · intro h
    rw [if_pos h]
  · intro h
    rw [if_neg (by rw [h]; decide)]

/-! ## The CRC of the data field of a formatted 256-byte sector -/

theorem ibm_disc_format_crc_add_bytes_add (crc v : Nat) (m n : Nat) :
    ibm_disc_format_crc_add_bytes crc (fun _ => v) (m + n) =
      ibm_disc_format_crc_add_bytes
        (ibm_disc_format_crc_add_bytes crc (fun _ => v) m) (fun _ => v) n := by
  induction n with
  | zero => rfl
  | succ n ih =>
    show ibm_disc_format_crc_add_byte
      (ibm_disc_format_crc_add_bytes crc (fun _ => v) (m + n)) v = _
    rw [ih]
    rfl

/-- The CRC-16 of the data mark 0xFB followed by 256 bytes 0xE5 is 0xA40C. -/
theorem ibm_disc_format_crc_filler_256 :
    ibm_disc_format_crc_add_bytes
      (ibm_disc_format_crc_add_byte ibm_disc_format_crc_init
        k_ibm_disc_data_mark_data_pattern) (fun _ => 0xE5) 256 = 0xA40C := by
  have h0 : ibm_disc_format_crc_add_byte ibm_disc_format_crc_init
      k_ibm_disc_data_mark_data_pattern = 49028 := by decide!
  have h1 : ibm_disc_format_crc_add_bytes 49028 (fun _ => 0xE5) 32 = 58502 := by
    decide!
  have h2 : ibm_disc_format_crc_add_bytes 58502 (fun _ => 0xE5) 32 = 3839 := by
    decide!
  have h3 : ibm_disc_format_crc_add_bytes 3839 (fun _ => 0xE5) 32 = 12095 := by
    decide!
  have h4 : ibm_disc_format_crc_add_bytes 12095 (fun _ => 0xE5) 32 = 23856 := by
    decide!
  have h5 : ibm_disc_format_crc_add_bytes 23856 (fun _ => 0xE5) 32 = 15061 := by
    decide!
  have h6 : ibm_disc_format_crc_add_bytes 15061 (fun _ => 0xE5) 32 = 64999 := by
    decide!
  have h7 : ibm_disc_format_crc_add_bytes 64999 (fun _ => 0xE5) 32 = 44630 := by
    decide!
  have h8 : ibm_disc_format_crc_add_bytes 44630 (fun _ => 0xE5) 32 = 0xA40C := by
    decide!
  rw [h0, show (256 : Nat) = 32 + 32 + 32 + 32 + 32 + 32 + 32 + 32 from rfl,
    ibm_disc_format_crc_add_bytes_add, ibm_disc_format_crc_add_bytes_add,
    ibm_disc_format_crc_add_bytes_add, ibm_disc_format_crc_add_bytes_add,
    ibm_disc_format_crc_add_bytes_add, ibm_disc_format_crc_add_bytes_add,
    ibm_disc_format_crc_add_bytes_add, h1, h2, h3, h4, h5, h6, h7, h8]

/-! ## Phases of the write and format runs -/

theorem intel_fdc_write_view_eq (s : intel_fdc_struct) (a : FdcState)
    (b c : Nat) (d : List DriveWrite) (e : Option DriveId) :
    intel_fdc_write_view s = (a, b, c, d, e) ↔
      s.state = a ∧ s.state_count = b ∧ s.crc = c ∧ s.drive_writes = d ∧
        s.p_current_drive = e := by
  unfold intel_fdc_write_view
  simp only [Prod.mk.injEq]

theorem intel_fdc_get_sector_size_le (s : intel_fdc_struct)
    (h : s.regs k_intel_fdc_register_internal_param_3 < 256) :
    128 ≤ intel_fdc_get_sector_size s ∧ intel_fdc_get_sector_size s ≤ 16384 := by
  unfold intel_fdc_get_sector_size
  simp only [k_intel_fdc_register_internal_param_3]
  have h1 : s.regs 5 >>> 5 < 8 := by
    rw [Nat.shiftRight_eq_div_pow]
    show s.regs 5 / 32 < 8
    have : s.regs 5 < 256 := h
    omega
  generalize s.regs 5 >>> 5 = n at h1
  interval_cases n <;> decide

theorem intel_fdc_get_sector_size_pos (s : intel_fdc_struct) :
    1 ≤ intel_fdc_get_sector_size s := by
  unfold intel_fdc_get_sector_size
  rw [Nat.shiftLeft_eq]
  have := Nat.two_pow_pos (s.regs k_intel_fdc_register_internal_param_3 >>> 5)
  show 1 ≤ 128 * 2 ^ (s.regs k_intel_fdc_register_internal_param_3 >>> 5)
  nlinarith

/-- A gap of `n` bytes 0xFF and 6 bytes 0x00 written in the state `X`, which
`Y` follows. -/
theorem intel_fdc_gap_phase (X Y : FdcState) (G : intel_fdc_struct → Prop)
    (n : Nat)
    (hX : ∀ s, s.state = X → s.state_count < n + 6 → G s →
      ∃ t, intel_fdc_byte_callback_writing s = Except.ok t ∧
        intel_fdc_write_view t =
          (if s.state_count + 1 = n + 6 then Y else X,
            if s.state_count + 1 = n + 6 then 0 else s.state_count + 1,
            s.crc,
            s.drive_writes ++ [⟨s.p_current_drive,
              (intel_fdc_gap_byte n s.state_count).1,
              (intel_fdc_gap_byte n s.state_count).2⟩],
            s.p_current_drive) ∧
        t.regs = s.regs ∧ t.nmi_level = s.nmi_level)
    (st : Nat → intel_fdc_struct) (a : Nat) (W : List DriveWrite)
    (p : Option DriveId) (C : Nat)
    (h0 : intel_fdc_write_view (st a) = (X, 0, C, W, p))
    (hG : ∀ s, (∀ r, r ≠ k_intel_fdc_register_internal_data →
      r ≠ k_intel_fdc_register_internal_status →
      s.regs r = (st a).regs r) → G s)
    (hkept : ∀ k, k < n + 6 → ∀ t,
      intel_fdc_byte_callback_writing (st (a + k)) = Except.ok t →
      intel_fdc_host_kept t (st (a + k + 1))) :
    intel_fdc_write_inv
        (Y, 0, C, W ++ intel_fdc_written p (intel_fdc_gap_byte n) (n + 6), p)
        (st a).regs (st (a + (n + 6))) ∧
      ∀ k, k < n + 6 → ∃ t,
        intel_fdc_byte_callback_writing (st (a + k)) = Except.ok t ∧
        t.drive_writes =
          W ++ intel_fdc_written p (intel_fdc_gap_byte n) (k + 1) ∧
        t.regs = (st (a + k)).regs ∧ t.nmi_level = (st (a + k)).nmi_level := by
  obtain ⟨r1, r2⟩ := intel_fdc_write_phase st a (n + 6)
    (fun k s => intel_fdc_write_inv
      (if k = n + 6 then Y else X, if k = n + 6 then 0 else k, C,
        W ++ intel_fdc_written p (intel_fdc_gap_byte n) k, p) (st a).regs s)
    (fun _ _ => True)
    (fun _ s t => t.regs = s.regs ∧ t.nmi_level = s.nmi_level)
    (by
      refine ⟨?_, fun _ _ _ => rfl⟩
      rw [h0, if_neg (show ¬ (0 = n + 6) by omega),
        if_neg (show ¬ (0 = n + 6) by omega)]
      simp [intel_fdc_written])
    (by
      intro k hk s hq _
      obtain ⟨hq', hr⟩ := hq
      rw [if_neg (show ¬ (k = n + 6) by omega),
        if_neg (show ¬ (k = n + 6) by omega)] at hq'
      obtain ⟨q1, q2, q3, q4, q5⟩ :=
        (intel_fdc_write_view_eq _ _ _ _ _ _).mp hq'
      obtain ⟨t, e, v, g1, g2⟩ := hX s q1 (by omega) (hG s hr)
      refine ⟨t, e, ?_, g1, g2⟩
      refine intel_fdc_write_inv_of _ _ _ _ _ _ s t ?_ hr (Or.inl g1)
      rw [v, q2, q3, q4, q5, intel_fdc_written_succ p _ k,
        List.append_assoc])
    (fun _ _ => trivial)
    (fun k hk t e q => intel_fdc_write_inv_kept _ _ t _ (hkept k hk t e) q)
  refine ⟨?_, ?_⟩
  · have := r1 (n + 6) (le_refl _)
    rw [if_pos rfl, if_pos rfl] at this
    exact this
  · intro k hk
    obtain ⟨t, e, q, g⟩ := r2 k hk
    obtain ⟨_, _, _, q4, _⟩ :=
      (intel_fdc_write_view_eq _ _ _ _ _ _).mp q.1
    exact ⟨t, e, q4, g.1, g.2⟩

theorem intel_fdc_record_byte_mark (mark : Nat) (data : Nat → Nat)
    (size : Nat) :
    intel_fdc_record_byte mark data size 0 =
      (mark, k_ibm_disc_mark_clock_pattern) := by
  unfold intel_fdc_record_byte
  rw [if_pos rfl]

theorem intel_fdc_record_byte_data (mark : Nat) (data : Nat → Nat)
    (size k : Nat) (h1 : 0 < k) (h2 : k < size + 1) :
    intel_fdc_record_byte mark data size k = (data (k - 1), 0xFF) := by
  unfold intel_fdc_record_byte
  rw [if_neg (by omega), if_pos h2]

theorem intel_fdc_record_byte_crc_hi (mark : Nat) (data : Nat → Nat)
    (size : Nat) :
    intel_fdc_record_byte mark data size (size + 1) =
      ((ibm_disc_format_crc_add_bytes
        (ibm_disc_format_crc_add_byte ibm_disc_format_crc_init mark) data
        size >>> 8) % 256, 0xFF) := by
  unfold intel_fdc_record_byte
  rw [if_neg (by omega), if_neg (by omega), if_pos rfl]

theorem intel_fdc_record_byte_crc_lo (mark : Nat) (data : Nat → Nat)
    (size : Nat) :
    intel_fdc_record_byte mark data size (size + 2) =
      (ibm_disc_format_crc_add_bytes
        (ibm_disc_format_crc_add_byte ibm_disc_format_crc_init mark) data
        size &&& 0xFF, 0xFF) := by
  unfold intel_fdc_record_byte
  rw [if_neg (by omega), if_neg (by omega), if_neg (by omega)]


/-- The data record of a sector written in the state write_sector_data: the
marker, `S` bytes from the data register and the first CRC byte, with NMI
and need-data raised after the marker and after each but the last data
byte; the call for the second CRC byte ends in
`intel_fdc_check_completion`. -/
theorem intel_fdc_sector_data_phase (st : Nat → intel_fdc_struct) (a : Nat)
    (W : List DriveWrite) (p : Option DriveId) (C : Nat)
    (data : Nat → Nat) (S : Nat)
    (h0 : intel_fdc_write_view (st a) =
      (FdcState.write_sector_data, 0, C, W, p))
    (hS : intel_fdc_get_sector_size (st a) = S) (hSb : S + 3 < 4294967296)
    (hcmd : intel_fdc_get_internal_command (st a) ≠
        k_intel_fdc_command_SCAN_DATA ∧
      intel_fdc_get_internal_command (st a) ≠
        k_intel_fdc_command_SCAN_DATA_AND_DELETED)
    (hdata : ∀ k, 1 ≤ k → k ≤ S →
      (st (a + k)).regs k_intel_fdc_register_internal_data = data (k - 1) ∧
      (st (a + k)).regs k_intel_fdc_register_internal_status &&&
        k_intel_fdc_status_flag_need_data = 0)
    (hkept : ∀ k, k < S + 2 → ∀ t,
      intel_fdc_byte_callback_writing (st (a + k)) = Except.ok t →
      intel_fdc_host_kept t (st (a + k + 1))) :
    (∀ k, k < S + 2 → ∃ t,
        intel_fdc_byte_callback_writing (st (a + k)) = Except.ok t ∧
        t.drive_writes =
          W ++ intel_fdc_written p
            (intel_fdc_record_byte
              ((st a).regs k_intel_fdc_register_internal_param_data_marker)
              data S) (k + 1) ∧
        (k < S →
          t.regs = set_reg (st (a + k)).regs
            k_intel_fdc_register_internal_status
            (((st (a + k)).regs k_intel_fdc_register_internal_status |||
              0x0C) % 256) ∧
          t.nmi_level = true) ∧
        (S ≤ k →
          t.regs = (st (a + k)).regs ∧
          t.nmi_level = (st (a + k)).nmi_level)) ∧
      intel_fdc_byte_callback_writing (st (a + (S + 2))) =
        intel_fdc_check_completion
          { st (a + (S + 2)) with
            drive_writes :=
              W ++ intel_fdc_written p
                (intel_fdc_record_byte
                  ((st a).regs
                    k_intel_fdc_register_internal_param_data_marker)
                  data S) (S + 3),
            state_count := S + 3 } := by
  have hS1 : 1 ≤ S := by
    rw [← hS]
    exact intel_fdc_get_sector_size_pos _
  have hsize : ∀ s : intel_fdc_struct,
      (∀ r, r ≠ k_intel_fdc_register_internal_data →
        r ≠ k_intel_fdc_register_internal_status →
        s.regs r = (st a).regs r) → intel_fdc_get_sector_size s = S := by
    intro s hr
    rw [intel_fdc_get_sector_size_of_reg s (st a)
      (hr _ (by decide) (by decide)), hS]
  have hcommand : ∀ s : intel_fdc_struct,
      (∀ r, r ≠ k_intel_fdc_register_internal_data →
        r ≠ k_intel_fdc_register_internal_status →
        s.regs r = (st a).regs r) →
      intel_fdc_get_internal_command s ≠ k_intel_fdc_command_SCAN_DATA ∧
      intel_fdc_get_internal_command s ≠
        k_intel_fdc_command_SCAN_DATA_AND_DELETED := by
    intro s hr
    rw [intel_fdc_get_internal_command_of_reg s (st a)
      (hr _ (by decide) (by decide))]
    exact hcmd
  obtain ⟨r1, r2⟩ := intel_fdc_write_phase st a (S + 2)
    (fun k s => intel_fdc_write_inv (FdcState.write_sector_data, k,
      if k = 0 then C
      else ibm_disc_format_crc_add_bytes
        (ibm_disc_format_crc_add_byte ibm_disc_format_crc_init
          ((st a).regs k_intel_fdc_register_internal_param_data_marker))
        data (min (k - 1) S),
      W ++ intel_fdc_written p
        (intel_fdc_record_byte
          ((st a).regs k_intel_fdc_register_internal_param_data_marker)
          data S) k, p) (st a).regs s)
    (fun k s =>
      (1 ≤ k → k ≤ S →
        s.regs k_intel_fdc_register_internal_data = data (k - 1) ∧
        s.regs k_intel_fdc_register_internal_status &&&
          k_intel_fdc_status_flag_need_data = 0))
    (fun k s t =>
      (k < S →
        t.regs = set_reg s.regs k_intel_fdc_register_internal_status
          ((s.regs k_intel_fdc_register_internal_status ||| 0x0C) % 256) ∧
        t.nmi_level = true) ∧
      (S ≤ k → t.regs = s.regs ∧ t.nmi_level = s.nmi_level))
    (by
      refine ⟨?_, fun _ _ _ => rfl⟩
      rw [h0, if_pos rfl]
      simp [intel_fdc_written])
    (by
      intro k hk s hq hd
      obtain ⟨hq', hr⟩ := hq
      obtain ⟨q1, q2, q3, q4, q5⟩ :=
        (intel_fdc_write_view_eq _ _ _ _ _ _).mp hq'
      have hsz := hsize s hr
      have hm : s.regs k_intel_fdc_register_internal_param_data_marker =
          (st a).regs k_intel_fdc_register_internal_param_data_marker :=
        hr _ (by decide) (by decide)
      by_cases k0 : k = 0
      · subst k0
        obtain ⟨t, e, v, g1, g2⟩ :=
          intel_fdc_byte_callback_writing_data_mark s q1 q2
            (by rw [hsz]; exact hS1)
        refine ⟨t, e, ?_, fun _ => ⟨g1, g2⟩, fun h => by omega⟩
        refine intel_fdc_write_inv_of _ _ _ _ _ _ s t ?_ hr
          (Or.inr ⟨_, g1⟩)
        rw [v, q4, q5, hm, intel_fdc_written_succ p _ 0, List.append_assoc,
          intel_fdc_record_byte_mark,
          if_neg (show ¬ (0 + 1 = 0) by omega)]
        have e0 : min (0 + 1 - 1) S = 0 := by omega
        rw [e0]
        rfl
      by_cases kS : k ≤ S
      · obtain ⟨d1, d2⟩ := hd (by omega) kS
        obtain ⟨d3, d4⟩ := hcommand s hr
        obtain ⟨t, e, v, g1, g2⟩ :=
          intel_fdc_byte_callback_writing_data_byte s q1 (by omega)
            (by rw [hsz, q2]; omega) (by rw [hsz]; exact hSb) d2 d3 d4
        rw [hsz, q2] at g1 g2
        refine ⟨t, e, ?_, fun h => g1 (by omega), fun h => g2 (by omega)⟩
        have ht : t.regs = s.regs ∨ ∃ x, t.regs =
            set_reg s.regs k_intel_fdc_register_internal_status x := by
          by_cases hh : k + 1 < S + 1
          · exact Or.inr ⟨_, (g1 hh).1⟩
          · exact Or.inl (g2 hh).1
        refine intel_fdc_write_inv_of _ _ _ _ _ _ s t ?_ hr ht
        rw [v, q2, q3, q4, q5, d1, intel_fdc_written_succ p _ k,
          List.append_assoc,
          intel_fdc_record_byte_data _ _ _ k (by omega) (by omega),
          if_neg k0, if_neg (show ¬ (k + 1 = 0) by omega)]
        have e1 : min (k - 1) S = k - 1 := by omega
        have e2 : min (k + 1 - 1) S = (k - 1) + 1 := by omega
        rw [e1, e2]
        rfl
      · have kS1 : k = S + 1 := by omega
        subst kS1
        obtain ⟨t, e, v, g1, g2⟩ :=
          intel_fdc_byte_callback_writing_data_crc_hi s q1
            (by rw [hsz, q2]) (by rw [hsz]; exact hSb)
        refine ⟨t, e, ?_, fun h => by omega, fun _ => ⟨g1, g2⟩⟩
        refine intel_fdc_write_inv_of _ _ _ _ _ _ s t ?_ hr (Or.inl g1)
        rw [v, q2, q3, q4, q5, intel_fdc_written_succ p _ (S + 1),
          List.append_assoc,
          intel_fdc_record_byte_crc_hi,
          if_neg (show ¬ (S + 1 = 0) by omega),
          if_neg (show ¬ (S + 1 + 1 = 0) by omega)]
        have e1 : min (S + 1 - 1) S = S := by omega
        have e2 : min (S + 1 + 1 - 1) S = S := by omega
        rw [e1, e2])
    (by
      intro k hk h1 h2
      exact hdata k h1 h2)
    (fun k hk t e q => intel_fdc_write_inv_kept _ _ t _ (hkept k hk t e) q)
  refine ⟨?_, ?_⟩
  · intro k hk
    obtain ⟨t, e, q, g⟩ := r2 k hk
    obtain ⟨_, _, _, q4, _⟩ := (intel_fdc_write_view_eq _ _ _ _ _ _).mp q.1
    exact ⟨t, e, q4, g.1, g.2⟩
  · obtain ⟨q, hr⟩ := r1 (S + 2) (le_refl _)
    obtain ⟨q1, q2, q3, q4, q5⟩ :=
      (intel_fdc_write_view_eq _ _ _ _ _ _).mp q
    have hsz := hsize _ hr
    rw [intel_fdc_byte_callback_writing_data_crc_lo _ q1 (by rw [hsz, q2])
      (by rw [hsz]; exact hSb)]
    have e1 : min (S + 2 - 1) S = S := by omega
    have ew : (st (a + (S + 2))).drive_writes ++
        [⟨(st (a + (S + 2))).p_current_drive,
          (st (a + (S + 2))).crc &&& 0xFF, 0xFF⟩] =
        W ++ intel_fdc_written p
          (intel_fdc_record_byte
            ((st a).regs k_intel_fdc_register_internal_param_data_marker)
            data S) (S + 3) := by
      rw [q3, q4, q5, if_neg (show ¬ (S + 2 = 0) by omega),
        intel_fdc_written_succ p _ (S + 2),
        List.append_assoc, intel_fdc_record_byte_crc_lo, e1]
    have ec : (st (a + (S + 2))).state_count + 1 = S + 3 := by rw [q2]
    rw [ew, ec]

/-- What the state format_write_id writes: the ID mark, four header bytes
from the data register, the two CRC bytes, 11 bytes 0xFF and 6 bytes 0x00,
with NMI and need-data raised after the mark and after each but the last
header byte; the state format_write_data follows. -/
theorem intel_fdc_format_id_phase (st : Nat → intel_fdc_struct) (a : Nat)
    (W : List DriveWrite) (p : Option DriveId) (C : Nat) (header : Nat → Nat)
    (h0 : intel_fdc_write_view (st a) =
      (FdcState.format_write_id, 0, C, W, p))
    (hcmd : intel_fdc_get_internal_command (st a) ≠
        k_intel_fdc_command_SCAN_DATA ∧
      intel_fdc_get_internal_command (st a) ≠
        k_intel_fdc_command_SCAN_DATA_AND_DELETED)
    (hdata : ∀ k, 1 ≤ k → k ≤ 4 →
      (st (a + k)).regs k_intel_fdc_register_internal_data = header (k - 1) ∧
      (st (a + k)).regs k_intel_fdc_register_internal_status &&&
        k_intel_fdc_status_flag_need_data = 0)
    (hkept : ∀ k, k < 24 → ∀ t,
      intel_fdc_byte_callback_writing (st (a + k)) = Except.ok t →
      intel_fdc_host_kept t (st (a + k + 1))) :
    intel_fdc_write_inv
        (FdcState.format_write_data, 0,
          ibm_disc_format_crc_add_bytes
            (ibm_disc_format_crc_add_byte ibm_disc_format_crc_init
              k_ibm_disc_id_mark_data_pattern) header 4,
          W ++ intel_fdc_written p (intel_fdc_id_byte header) 24, p)
        (st a).regs (st (a + 24)) ∧
      ∀ k, k < 24 → ∃ t,
        intel_fdc_byte_callback_writing (st (a + k)) = Except.ok t ∧
        t.drive_writes =
          W ++ intel_fdc_written p (intel_fdc_id_byte header) (k + 1) ∧
        (k < 4 →
          t.regs = set_reg (st (a + k)).regs
            k_intel_fdc_register_internal_status
            (((st (a + k)).regs k_intel_fdc_register_internal_status |||
              0x0C) % 256) ∧
          t.nmi_level = true) ∧
        (4 ≤ k →
          t.regs = (st (a + k)).regs ∧
          t.nmi_level = (st (a + k)).nmi_level) := by
  have hcommand : ∀ s : intel_fdc_struct,
      (∀ r, r ≠ k_intel_fdc_register_internal_data →
        r ≠ k_intel_fdc_register_internal_status →
        s.regs r = (st a).regs r) →
      intel_fdc_get_internal_command s ≠ k_intel_fdc_command_SCAN_DATA ∧
      intel_fdc_get_internal_command s ≠
        k_intel_fdc_command_SCAN_DATA_AND_DELETED := by
    intro s hr
    rw [intel_fdc_get_internal_command_of_reg s (st a)
      (hr _ (by decide) (by decide))]
    exact hcmd
  obtain ⟨r1, r2⟩ := intel_fdc_write_phase st a 24
    (fun k s => intel_fdc_write_inv
      (if k = 24 then FdcState.format_write_data
        else FdcState.format_write_id,
      if k = 24 then 0 else k,
      if k = 0 then C
      else ibm_disc_format_crc_add_bytes
        (ibm_disc_format_crc_add_byte ibm_disc_format_crc_init
          k_ibm_disc_id_mark_data_pattern) header (min (k - 1) 4),
      W ++ intel_fdc_written p (intel_fdc_id_byte header) k, p)
      (st a).regs s)
    (fun k s =>
      (1 ≤ k → k ≤ 4 →
        s.regs k_intel_fdc_register_internal_data = header (k - 1) ∧
        s.regs k_intel_fdc_register_internal_status &&&
          k_intel_fdc_status_flag_need_data = 0))
    (fun k s t =>
      (k < 4 →
        t.regs = set_reg s.regs k_intel_fdc_register_internal_status
          ((s.regs k_intel_fdc_register_internal_status ||| 0x0C) % 256) ∧
        t.nmi_level = true) ∧
      (4 ≤ k → t.regs = s.regs ∧ t.nmi_level = s.nmi_level))
    (by
      refine ⟨?_, fun _ _ _ => rfl⟩
      rw [h0, if_pos rfl, if_neg (show ¬ (0 = 24) by omega),
        if_neg (show ¬ (0 = 24) by omega)]
      simp [intel_fdc_written])
    (by
      intro k hk s hq hd
      obtain ⟨hq', hr⟩ := hq
      rw [if_neg (show ¬ (k = 24) by omega),
        if_neg (show ¬ (k = 24) by omega)] at hq'
      obtain ⟨q1, q2, q3, q4, q5⟩ :=
        (intel_fdc_write_view_eq _ _ _ _ _ _).mp hq'
      by_cases k0 : k = 0
      · subst k0
        obtain ⟨t, e, v, g1, g2⟩ :=
          intel_fdc_byte_callback_writing_id_mark s q1 q2
        refine ⟨t, e, ?_, fun _ => ⟨g1, g2⟩, fun h => by omega⟩
        refine intel_fdc_write_inv_of _ _ _ _ _ _ s t ?_ hr
          (Or.inr ⟨_, g1⟩)
        rw [v, q4, q5, intel_fdc_written_succ p _ 0, List.append_assoc,
          if_neg (show ¬ (0 + 1 = 24) by omega),
          if_neg (show ¬ (0 + 1 = 24) by omega),
          if_neg (show ¬ (0 + 1 = 0) by omega)]
        have e0 : min (0 + 1 - 1) 4 = 0 := by omega
        rw [e0]
        rfl
      by_cases k4 : k ≤ 4
      · obtain ⟨d1, d2⟩ := hd (by omega) k4
        obtain ⟨d3, d4⟩ := hcommand s hr
        obtain ⟨t, e, v, g1, g2⟩ :=
          intel_fdc_byte_callback_writing_id_byte s q1 (by omega)
            (by rw [q2]; omega) d2 d3 d4
        rw [q2] at g1 g2
        refine ⟨t, e, ?_, fun h => g1 (by omega), fun h => g2 (by omega)⟩
        have ht : t.regs = s.regs ∨ ∃ x, t.regs =
            set_reg s.regs k_intel_fdc_register_internal_status x := by
          by_cases hh : k + 1 < 5
          · exact Or.inr ⟨_, (g1 hh).1⟩
          · exact Or.inl (g2 hh).1
        refine intel_fdc_write_inv_of _ _ _ _ _ _ s t ?_ hr ht
        rw [v, q2, q3, q4, q5, d1, intel_fdc_written_succ p _ k,
          List.append_assoc, if_neg k0,
          if_neg (show ¬ (k + 1 = 24) by omega),
          if_neg (show ¬ (k + 1 = 24) by omega),
          if_neg (show ¬ (k + 1 = 0) by omega)]
        have e1 : min (k - 1) 4 = k - 1 := by omega
        have e2 : min (k + 1 - 1) 4 = (k - 1) + 1 := by omega
        have e3 : intel_fdc_id_byte header k = (header (k - 1), 0xFF) := by
          unfold intel_fdc_id_byte
          rw [if_pos (by omega),
            intel_fdc_record_byte_data _ _ _ k (by omega) (by omega)]
        rw [e1, e2, e3]
        rfl
      · obtain ⟨t, e, v, g1, g2⟩ :=
          intel_fdc_byte_callback_writing_id_tail s q1 (by rw [q2]; omega)
            (by rw [q2]; omega)
        refine ⟨t, e, ?_, fun h => by omega, fun _ => ⟨g1, g2⟩⟩
        refine intel_fdc_write_inv_of _ _ _ _ _ _ s t ?_ hr (Or.inl g1)
        rw [v, q2, q3, q4, q5, intel_fdc_written_succ p _ k,
          List.append_assoc, if_neg k0,
          if_neg (show ¬ (k + 1 = 0) by omega)]
        have e1 : min (k - 1) 4 = 4 := by omega
        have e2 : min (k + 1 - 1) 4 = 4 := by omega
        have e3 : intel_fdc_id_byte header k =
            (if k = 5 then
              (ibm_disc_format_crc_add_bytes
                (ibm_disc_format_crc_add_byte ibm_disc_format_crc_init
                  k_ibm_disc_id_mark_data_pattern) header 4 >>> 8) % 256
            else if k = 6 then
              ibm_disc_format_crc_add_bytes
                (ibm_disc_format_crc_add_byte ibm_disc_format_crc_init
                  k_ibm_disc_id_mark_data_pattern) header 4 &&& 0xFF
            else if k < 18 then 0xFF else 0x00, 0xFF) := by
          unfold intel_fdc_id_byte
          by_cases h5 : k = 5
          · subst h5
            rw [if_pos (by omega), if_pos rfl]
            exact intel_fdc_record_byte_crc_hi _ _ 4
          by_cases h6 : k = 6
          · subst h6
            rw [if_pos (by omega), if_neg (by omega), if_pos rfl]
            exact intel_fdc_record_byte_crc_lo _ _ 4
          rw [if_neg (by omega), if_neg h5, if_neg h6]
          by_cases h18 : k < 18
          · rw [if_pos h18, if_pos h18]
          · rw [if_neg h18, if_neg h18]
        rw [e1, e2, e3])
    (by
      intro k hk h1 h2
      exact hdata k h1 h2)
    (fun k hk t e q => intel_fdc_write_inv_kept _ _ t _ (hkept k hk t e) q)
  refine ⟨?_, ?_⟩
  · have q := r1 24 (le_refl _)
    rw [if_pos rfl, if_pos rfl, if_neg (show ¬ (24 = 0) by omega)] at q
    exact q
  · intro k hk
    obtain ⟨t, e, q, g⟩ := r2 k hk
    obtain ⟨_, _, _, q4, _⟩ := (intel_fdc_write_view_eq _ _ _ _ _ _).mp q.1
    exact ⟨t, e, q4, g.1, g.2⟩

/-- The first `n` calls for the data field of a formatted sector, which
consists of the data mark, `S` bytes 0xE5 and the two CRC bytes; the
assertion on the CRC of a 256-byte sector does not fail; the size register
is decremented by the last call and gap 3 or gap 4 follows. -/
theorem intel_fdc_format_data_phase (st : Nat → intel_fdc_struct) (a : Nat)
    (W : List DriveWrite) (p : Option DriveId) (C S n : Nat)
    (h0 : intel_fdc_write_view (st a) =
      (FdcState.format_write_data, 0, C, W, p))
    (hn : n ≤ S + 3)
    (hS : intel_fdc_get_sector_size (st a) = S) (hSb : S + 3 < 4294967296)
    (hkept : ∀ k, k < n → ∀ t,
      intel_fdc_byte_callback_writing (st (a + k)) = Except.ok t →
      intel_fdc_host_kept t (st (a + k + 1))) :
    (∀ k, k ≤ n →
      intel_fdc_write_inv
        (if k = S + 3 then
            (if ((st a).regs k_intel_fdc_register_internal_param_3 + 255) %
                256 &&& 0x1F = 0 then FdcState.format_gap_4
              else FdcState.format_gap_3)
          else FdcState.format_write_data,
          if k = S + 3 then 0 else k,
          if k = 0 then C
          else ibm_disc_format_crc_add_bytes
            (ibm_disc_format_crc_add_byte ibm_disc_format_crc_init
              k_ibm_disc_data_mark_data_pattern) (fun _ => 0xE5)
            (min (k - 1) S),
          W ++ intel_fdc_written p
            (intel_fdc_record_byte k_ibm_disc_data_mark_data_pattern
              (fun _ => 0xE5) S) k, p)
        (if k = S + 3 then
          set_reg (st a).regs k_intel_fdc_register_internal_param_3
            (((st a).regs k_intel_fdc_register_internal_param_3 + 255) % 256)
          else (st a).regs)
        (st (a + k))) ∧
      (∀ k, k < n → ∃ t,
        intel_fdc_byte_callback_writing (st (a + k)) = Except.ok t ∧
        t.drive_writes =
          W ++ intel_fdc_written p
            (intel_fdc_record_byte k_ibm_disc_data_mark_data_pattern
              (fun _ => 0xE5) S) (k + 1) ∧
        t.nmi_level = (st (a + k)).nmi_level ∧
        (k < S + 2 → t.regs = (st (a + k)).regs) ∧
        (k = S + 2 →
          t.regs = set_reg (st (a + k)).regs
            k_intel_fdc_register_internal_param_3
            (((st a).regs k_intel_fdc_register_internal_param_3 + 255) %
              256))) := by
  have hsize : ∀ s : intel_fdc_struct,
      (∀ r, r ≠ k_intel_fdc_register_internal_data →
        r ≠ k_intel_fdc_register_internal_status →
        s.regs r = (st a).regs r) → intel_fdc_get_sector_size s = S := by
    intro s hr
    rw [intel_fdc_get_sector_size_of_reg s (st a)
      (hr _ (by decide) (by decide)), hS]
  obtain ⟨r1, r2⟩ := intel_fdc_write_phase st a n
    (fun k s => intel_fdc_write_inv
      (if k = S + 3 then
        (if ((st a).regs k_intel_fdc_register_internal_param_3 + 255) %
            256 &&& 0x1F = 0 then FdcState.format_gap_4
          else FdcState.format_gap_3)
        else FdcState.format_write_data,
      if k = S + 3 then 0 else k,
      if k = 0 then C
      else ibm_disc_format_crc_add_bytes
        (ibm_disc_format_crc_add_byte ibm_disc_format_crc_init
          k_ibm_disc_data_mark_data_pattern) (fun _ => 0xE5) (min (k - 1) S),
      W ++ intel_fdc_written p
        (intel_fdc_record_byte k_ibm_disc_data_mark_data_pattern
          (fun _ => 0xE5) S) k, p)
      (if k = S + 3 then
        set_reg (st a).regs k_intel_fdc_register_internal_param_3
          (((st a).regs k_intel_fdc_register_internal_param_3 + 255) % 256)
        else (st a).regs) s)
    (fun _ _ => True)
    (fun k s t => t.nmi_level = s.nmi_level ∧
      (k < S + 2 → t.regs = s.regs) ∧
      (k = S + 2 →
        t.regs = set_reg s.regs k_intel_fdc_register_internal_param_3
          (((st a).regs k_intel_fdc_register_internal_param_3 + 255) % 256)))
    (by
      beta_reduce
      rw [if_neg (show ¬ (0 = S + 3) by omega),
        if_neg (show ¬ (0 = S + 3) by omega),
        if_neg (show ¬ (0 = S + 3) by omega), if_pos rfl]
      refine ⟨?_, fun _ _ _ => rfl⟩
      rw [h0]
      simp [intel_fdc_written])
    (by
      intro k hk s hq _
      beta_reduce at hq
      rw [if_neg (show ¬ (k = S + 3) by omega),
        if_neg (show ¬ (k = S + 3) by omega),
        if_neg (show ¬ (k = S + 3) by omega)] at hq
      obtain ⟨hq', hr⟩ := hq
      obtain ⟨q1, q2, q3, q4, q5⟩ :=
        (intel_fdc_write_view_eq _ _ _ _ _ _).mp hq'
      have hsz := hsize s hr
      by_cases k0 : k = 0
      · subst k0
        obtain ⟨t, e, v, g1, g2⟩ :=
          intel_fdc_byte_callback_writing_format_mark s q1 q2
        refine ⟨t, e, ?_, g2, fun _ => g1, fun h => by omega⟩
        beta_reduce
        rw [if_neg (show ¬ (0 + 1 = S + 3) by omega),
          if_neg (show ¬ (0 + 1 = S + 3) by omega),
          if_neg (show ¬ (0 + 1 = S + 3) by omega),
          if_neg (show ¬ (0 + 1 = 0) by omega)]
        refine intel_fdc_write_inv_of _ _ _ _ _ _ s t ?_ hr (Or.inl g1)
        rw [v, q4, q5, intel_fdc_written_succ p _ 0, List.append_assoc,
          intel_fdc_record_byte_mark]
        have e0 : min (0 + 1 - 1) S = 0 := by omega
        rw [e0]
        rfl
      by_cases kS : k ≤ S
      · obtain ⟨t, e, v, g1, g2⟩ :=
          intel_fdc_byte_callback_writing_format_byte s q1 (by omega)
            (by rw [hsz, q2]; omega) (by rw [hsz]; exact hSb)
        refine ⟨t, e, ?_, g2, fun _ => g1, fun h => by omega⟩
        beta_reduce
        rw [if_neg (show ¬ (k + 1 = S + 3) by omega),
          if_neg (show ¬ (k + 1 = S + 3) by omega),
          if_neg (show ¬ (k + 1 = S + 3) by omega),
          if_neg (show ¬ (k + 1 = 0) by omega)]
        refine intel_fdc_write_inv_of _ _ _ _ _ _ s t ?_ hr (Or.inl g1)
        rw [v, q2, q3, q4, q5, intel_fdc_written_succ p _ k,
          List.append_assoc,
          intel_fdc_record_byte_data _ _ _ k (by omega) (by omega),
          if_neg k0]
        have e1 : min (k - 1) S = k - 1 := by omega
        have e2 : min (k + 1 - 1) S = (k - 1) + 1 := by omega
        rw [e1, e2]
        rfl
      by_cases kS1 : k = S + 1
      · subst kS1
        have e1 : min (S + 1 - 1) S = S := by omega
        have e2 : min (S + 1 + 1 - 1) S = S := by omega
        rw [if_neg (show ¬ (S + 1 = 0) by omega), e1] at q3
        have hok : ¬ (intel_fdc_get_sector_size s = 256 ∧ s.crc ≠ 0xA40C) := by
          intro h
          rw [hsz] at h
          obtain ⟨h1, h2⟩ := h
          apply h2
          rw [q3, h1]
          exact ibm_disc_format_crc_filler_256
        obtain ⟨t, e, v, g1, g2⟩ :=
          (intel_fdc_byte_callback_writing_format_crc_hi s q1
            (by rw [hsz, q2]) (by rw [hsz]; exact hSb)).2 hok
        refine ⟨t, e, ?_, g2, fun _ => g1, fun h => by omega⟩
        beta_reduce
        rw [if_neg (show ¬ (S + 1 + 1 = S + 3) by omega),
          if_neg (show ¬ (S + 1 + 1 = S + 3) by omega),
          if_neg (show ¬ (S + 1 + 1 = S + 3) by omega),
          if_neg (show ¬ (S + 1 + 1 = 0) by omega)]
        refine intel_fdc_write_inv_of _ _ _ _ _ _ s t ?_ hr (Or.inl g1)
        rw [v, q2, q3, q4, q5, intel_fdc_written_succ p _ (S + 1),
          List.append_assoc, intel_fdc_record_byte_crc_hi, e2]
      · have kS2 : k = S + 2 := by omega
        subst kS2
        have e1 : min (S + 2 - 1) S = S := by omega
        have e2 : min (S + 2 + 1 - 1) S = S := by omega
        rw [if_neg (show ¬ (S + 2 = 0) by omega), e1] at q3
        obtain ⟨t, e, v, g1, g2⟩ :=
          intel_fdc_byte_callback_writing_format_crc_lo s q1
            (by rw [hsz, q2]) (by rw [hsz]; exact hSb)
        have h5 : s.regs k_intel_fdc_register_internal_param_3 =
            (st a).regs k_intel_fdc_register_internal_param_3 :=
          hr _ (by decide) (by decide)
        rw [h5] at v g1
        refine ⟨t, e, ?_, g2, fun h => by omega, fun _ => g1⟩
        beta_reduce
        rw [if_pos (show S + 2 + 1 = S + 3 by omega),
          if_pos (show S + 2 + 1 = S + 3 by omega),
          if_pos (show S + 2 + 1 = S + 3 by omega),
          if_neg (show ¬ (S + 2 + 1 = 0) by omega)]
        refine ⟨?_, ?_⟩
        · rw [v, q3, q4, q5, intel_fdc_written_succ p _ (S + 2),
            List.append_assoc, intel_fdc_record_byte_crc_lo, e2]
        · intro r h1 h2
          rw [g1]
          by_cases hr5 : r = k_intel_fdc_register_internal_param_3
          · rw [hr5, set_reg_same, set_reg_same]
          · rw [set_reg_other _ _ _ _ hr5, set_reg_other _ _ _ _ hr5]
            exact hr r h1 h2)
    (fun _ _ => trivial)
    (fun k hk t e q => intel_fdc_write_inv_kept _ _ t _ (hkept k hk t e) q)
  refine ⟨r1, ?_⟩
  intro k hk
  obtain ⟨t, e, q, g⟩ := r2 k hk
  obtain ⟨_, _, _, q4, _⟩ := (intel_fdc_write_view_eq _ _ _ _ _ _).mp q.1
  exact ⟨t, e, q4, g.1, g.2.1, g.2.2⟩

/-! ## The host between two byte callbacks -/

theorem intel_fdc_host_data_eq (t : intel_fdc_struct) (v : Nat) :
    intel_fdc_host_data t v =
      { intel_fdc_status_lower t
          (k_intel_fdc_status_flag_need_data ||| k_intel_fdc_status_flag_nmi)
        with
        regs := set_reg (intel_fdc_status_lower t
          (k_intel_fdc_status_flag_need_data |||
            k_intel_fdc_status_flag_nmi)).regs
          k_intel_fdc_register_internal_data v } := by
  have e : (4 : Nat) &&& 7 = 4 := by decide
  unfold intel_fdc_host_data intel_fdc_write
  simp [e]

theorem and_not8_need_data (x : Nat) : and_not8 x (4 ||| 8) &&& 4 = 0 := by
  unfold and_not8
  rw [Nat.land_assoc]
  exact Nat.and_zero _

/-- A write to the data register leaves the view and every register but the
data register and the status register as they are, stores the value, and
clears need-data. -/
theorem intel_fdc_host_data_spec (t : intel_fdc_struct) (v : Nat) :
    intel_fdc_host_kept t (intel_fdc_host_data t v) ∧
      (intel_fdc_host_data t v).regs k_intel_fdc_register_internal_data = v ∧
      (intel_fdc_host_data t v).regs k_intel_fdc_register_internal_status &&&
        k_intel_fdc_status_flag_need_data = 0 := by
  rw [intel_fdc_host_data_eq, intel_fdc_status_lower_eq]
  refine ⟨⟨rfl, ?_⟩, ?_, ?_⟩
  · intro r h1 h2
    show set_reg (set_reg t.regs 0x17 (and_not8 (t.regs 0x17) (4 ||| 8)))
      0x1D v r = t.regs r
    rw [set_reg_other _ _ _ _ h1, set_reg_other _ _ _ _ h2]
  · show set_reg (set_reg t.regs 0x17 (and_not8 (t.regs 0x17) (4 ||| 8)))
      0x1D v 0x1D = v
    exact set_reg_same _ _ _
  · show set_reg (set_reg t.regs 0x17 (and_not8 (t.regs 0x17) (4 ||| 8))) 0x1D
      v 0x17 &&& 4 = 0
    rw [set_reg_other _ _ _ _ (by decide), set_reg_same]
    exact and_not8_need_data _

theorem intel_fdc_write_run_kept (s : intel_fdc_struct) (host : Nat → Nat)
    (k : Nat) (t : intel_fdc_struct)
    (h : intel_fdc_byte_callback_writing (intel_fdc_write_run s host k) =
      Except.ok t) :
    intel_fdc_host_kept t (intel_fdc_write_run s host (k + 1)) := by
  show intel_fdc_host_kept t
    (match intel_fdc_byte_callback_writing (intel_fdc_write_run s host k) with
    | Except.ok t => intel_fdc_host_data t (host k)
    | Except.error _ =>
      intel_fdc_host_data (intel_fdc_write_run s host k) (host k))
  rw [h]
  exact (intel_fdc_host_data_spec t (host k)).1

theorem intel_fdc_write_run_data (s : intel_fdc_struct) (host : Nat → Nat)
    (k : Nat) :
    (intel_fdc_write_run s host (k + 1)).regs
        k_intel_fdc_register_internal_data = host k ∧
      (intel_fdc_write_run s host (k + 1)).regs
        k_intel_fdc_register_internal_status &&&
        k_intel_fdc_status_flag_need_data = 0 := by
  show (match intel_fdc_byte_callback_writing (intel_fdc_write_run s host k)
      with
    | Except.ok t => intel_fdc_host_data t (host k)
    | Except.error _ =>
      intel_fdc_host_data (intel_fdc_write_run s host k) (host k)).regs
        k_intel_fdc_register_internal_data = host k ∧
    (match intel_fdc_byte_callback_writing (intel_fdc_write_run s host k)
      with
    | Except.ok t => intel_fdc_host_data t (host k)
    | Except.error _ =>
      intel_fdc_host_data (intel_fdc_write_run s host k) (host k)).regs
        k_intel_fdc_register_internal_status &&&
        k_intel_fdc_status_flag_need_data = 0
  cases intel_fdc_byte_callback_writing (intel_fdc_write_run s host k) with
  | ok t => exact (intel_fdc_host_data_spec t (host k)).2
  | error e =>
    exact (intel_fdc_host_data_spec (intel_fdc_write_run s host k)
      (host k)).2

/-! ## The bytes of a record and of a gap as lists -/

theorem intel_fdc_written_record (p : Option DriveId) (mark : Nat)
    (data : Nat → Nat) (S : Nat) :
    intel_fdc_written p (intel_fdc_record_byte mark data S) (S + 3) =
      [⟨p, mark, k_ibm_disc_mark_clock_pattern⟩] ++
        (List.range S).map (fun k => ⟨p, data k, 0xFF⟩) ++
        [⟨p, (ibm_disc_format_crc_add_bytes
            (ibm_disc_format_crc_add_byte ibm_disc_format_crc_init mark) data
            S >>> 8) % 256, 0xFF⟩,
          ⟨p, ibm_disc_format_crc_add_bytes
            (ibm_disc_format_crc_add_byte ibm_disc_format_crc_init mark) data
            S &&& 0xFF, 0xFF⟩] := by
  rw [show S + 3 = (S + 2) + 1 from rfl, intel_fdc_written_succ,
    show S + 2 = (S + 1) + 1 from rfl, intel_fdc_written_succ,
    intel_fdc_record_byte_crc_hi, intel_fdc_record_byte_crc_lo]
  have e : intel_fdc_written p (intel_fdc_record_byte mark data S) (S + 1) =
      [⟨p, mark, k_ibm_disc_mark_clock_pattern⟩] ++
        (List.range S).map (fun k => ⟨p, data k, 0xFF⟩) := by
    unfold intel_fdc_written
    rw [List.range_succ_eq_map, List.map_cons, List.map_map,
      intel_fdc_record_byte_mark]
    refine congrArg (fun l => _ :: l) ?_
    apply List.map_congr_left
    intro k hk
    have hk' : k < S := List.mem_range.mp hk
    show (⟨p, (intel_fdc_record_byte mark data S (k + 1)).1,
      (intel_fdc_record_byte mark data S (k + 1)).2⟩ : DriveWrite) = _
    rw [intel_fdc_record_byte_data _ _ _ (k + 1) (by omega) (by omega)]
    rfl
  rw [e, List.append_assoc]
  rfl

theorem intel_fdc_written_gap (p : Option DriveId) (n : Nat) :
    intel_fdc_written p (intel_fdc_gap_byte n) (n + 6) =
      List.replicate n ⟨p, 0xFF, 0xFF⟩ ++ List.replicate 6 ⟨p, 0x00, 0xFF⟩ := by
  have e : ∀ m, m ≤ n → intel_fdc_written p (intel_fdc_gap_byte n) m =
      List.replicate m ⟨p, 0xFF, 0xFF⟩ := by
    intro m
    induction m with
    | zero => intro _; rfl
    | succ m ih =>
      intro hm
      rw [intel_fdc_written_succ, ih (by omega), List.replicate_succ']
      unfold intel_fdc_gap_byte
      rw [if_pos (by omega)]
  have e2 : ∀ j, j ≤ 6 → intel_fdc_written p (intel_fdc_gap_byte n) (n + j) =
      List.replicate n ⟨p, 0xFF, 0xFF⟩ ++ List.replicate j ⟨p, 0x00, 0xFF⟩ := by
    intro j
    induction j with
    | zero =>
      intro _
      rw [Nat.add_zero, e n (le_refl _)]
      simp
    | succ j ih =>
      intro hj
      rw [show n + (j + 1) = (n + j) + 1 from rfl, intel_fdc_written_succ,
        ih (by omega), List.replicate_succ', List.append_assoc]
      unfold intel_fdc_gap_byte
      rw [if_neg (by omega)]
  exact e2 6 (le_refl _)

theorem intel_fdc_written_id (p : Option DriveId) (header : Nat → Nat) :
    intel_fdc_written p (intel_fdc_id_byte header) 24 =
      [⟨p, k_ibm_disc_id_mark_data_pattern, k_ibm_disc_mark_clock_pattern⟩,
        ⟨p, header 0, 0xFF⟩, ⟨p, header 1, 0xFF⟩, ⟨p, header 2, 0xFF⟩,
        ⟨p, header 3, 0xFF⟩,
        ⟨p, (ibm_disc_format_crc_add_bytes
            (ibm_disc_format_crc_add_byte ibm_disc_format_crc_init
              k_ibm_disc_id_mark_data_pattern) header 4 >>> 8) % 256, 0xFF⟩,
        ⟨p, ibm_disc_format_crc_add_bytes
            (ibm_disc_format_crc_add_byte ibm_disc_format_crc_init
              k_ibm_disc_id_mark_data_pattern) header 4 &&& 0xFF, 0xFF⟩] ++
        List.replicate 11 ⟨p, 0xFF, 0xFF⟩ ++
        List.replicate 6 ⟨p, 0x00, 0xFF⟩ := rfl

/-! ## The gap before a sector of a format -/

/-- Gap 1 (before the first sector, length in param_5) or gap 3 (before a
later sector, length in param_2) of a format: `n` bytes 0xFF and 6 bytes
0x00, after which the state is format_write_id with count 0. -/
theorem intel_fdc_format_gap_phase (first : Bool)
    (st : Nat → intel_fdc_struct) (a : Nat) (W : List DriveWrite)
    (p : Option DriveId) (C n : Nat)
    (h0 : intel_fdc_write_view (st a) =
      (if first = true then FdcState.format_gap_1 else FdcState.format_gap_3,
        0, C, W, p))
    (hn : (st a).regs
      (if first = true then k_intel_fdc_register_internal_param_5
        else k_intel_fdc_register_internal_param_2) = n)
    (hb : n < 256)
    (hkept : ∀ k, k < n + 6 → ∀ t,
      intel_fdc_byte_callback_writing (st (a + k)) = Except.ok t →
      intel_fdc_host_kept t (st (a + k + 1))) :
    intel_fdc_write_inv
        (FdcState.format_write_id, 0, C,
          W ++ intel_fdc_written p (intel_fdc_gap_byte n) (n + 6), p)
        (st a).regs (st (a + (n + 6))) ∧
      ∀ k, k < n + 6 → ∃ t,
        intel_fdc_byte_callback_writing (st (a + k)) = Except.ok t ∧
        t.drive_writes =
          W ++ intel_fdc_written p (intel_fdc_gap_byte n) (k + 1) ∧
        t.regs = (st (a + k)).regs ∧ t.nmi_level = (st (a + k)).nmi_level := by
  cases first with
  | true =>
    rw [if_pos rfl] at h0 hn
    exact intel_fdc_gap_phase FdcState.format_gap_1 FdcState.format_write_id
      (fun s => s.regs k_intel_fdc_register_internal_param_5 = n) n
      (fun s hs hc hg => by
        have hc' : s.state_count <
            s.regs k_intel_fdc_register_internal_param_5 + 6 := by
          rw [hg]
          exact hc
        obtain ⟨t, e, v, r1, r2⟩ :=
          intel_fdc_byte_callback_writing_gap_1 s hs hc' (by rw [hg]; exact hb)
        rw [hg] at v
        exact ⟨t, e, v, r1, r2⟩)
      st a W p C h0
      (fun s hr => (hr _ (by decide) (by decide)).trans hn) hkept
  | false =>
    rw [if_neg (by decide)] at h0 hn
    exact intel_fdc_gap_phase FdcState.format_gap_3 FdcState.format_write_id
      (fun s => s.regs k_intel_fdc_register_internal_param_2 = n) n
      (fun s hs hc hg => by
        have hc' : s.state_count <
            s.regs k_intel_fdc_register_internal_param_2 + 6 := by
          rw [hg]
          exact hc
        obtain ⟨t, e, v, r1, r2⟩ :=
          intel_fdc_byte_callback_writing_gap_3 s hs hc' (by rw [hg]; exact hb)
        rw [hg] at v
        exact ⟨t, e, v, r1, r2⟩)
      st a W p C h0
      (fun s hr => (hr _ (by decide) (by decide)).trans hn) hkept

/-- In gap 4 the byte callback of the drive first notes the index pulse and
then goes to the writing states. -/
theorem intel_fdc_byte_callback_gap_4 (s : intel_fdc_struct) (d : DriveId)
    (data_byte clocks_byte : Nat)
    (hd : s.p_current_drive = some d)
    (hs : s.state = FdcState.format_gap_4)
    (hi : s.index_pulse_callback = IndexPulseCallback.none) :
    intel_fdc_byte_callback s data_byte clocks_byte =
      intel_fdc_byte_callback_writing
        { s with state_is_index_pulse := intel_fdc_get_INDEX s } := by
  have e : intel_fdc_check_index_pulse s =
      { s with state_is_index_pulse := intel_fdc_get_INDEX s } := by
    unfold intel_fdc_check_index_pulse
    simp only [hi]
    split_ifs <;> rfl
  unfold intel_fdc_byte_callback
  simp only [hd, e, hs]

/-! ## Sixteen bits make one byte pair -/

theorem intel_fdc_bit_test (x k : Nat) :
    x &&& 2 ^ k ≠ 0 ↔ x.testBit k = true := by
  constructor
  · intro h
    by_contra hc
    apply h
    apply Nat.eq_of_testBit_eq
    intro i
    rw [Nat.testBit_and, Nat.testBit_two_pow, Nat.zero_testBit]
    by_cases e : k = i
    · subst e
      simp [hc]
    · simp [e]
  · intro h e
    have h2 : (x &&& 2 ^ k).testBit k = true := by
      rw [Nat.testBit_and, Nat.testBit_two_pow, h]
      simp
    rw [e, Nat.zero_testBit] at h2
    exact absurd h2 (by simp)

theorem intel_fdc_shift_in_low (x b : Nat) (hb : b ≤ 1) :
    ((x <<< 1) % 4294967296 ||| b).testBit 0 = decide (b = 1) := by
  rw [Nat.testBit_or, show (4294967296 : Nat) = 2 ^ 32 from rfl,
    Nat.testBit_mod_two_pow, Nat.testBit_shiftLeft]
  have hb2 : b = 0 ∨ b = 1 := by omega
  rcases hb2 with h | h <;> subst h <;> simp

theorem intel_fdc_shift_in_high (x b k : Nat) (hb : b ≤ 1) (hk : k + 1 < 32) :
    ((x <<< 1) % 4294967296 ||| b).testBit (k + 1) = x.testBit k := by
  rw [Nat.testBit_or, show (4294967296 : Nat) = 2 ^ 32 from rfl,
    Nat.testBit_mod_two_pow, Nat.testBit_shiftLeft]
  have hb2 : b = 0 ∨ b = 1 := by omega
  rcases hb2 with h | h <;> subst h <;> simp [hk, Nat.testBit_succ]

theorem intel_fdc_shift_register_clocks_eq (x : Nat) :
    intel_fdc_shift_register_clocks x =
      intel_fdc_byte_of_bits (x.testBit 15) (x.testBit 13) (x.testBit 11)
        (x.testBit 9) (x.testBit 7) (x.testBit 5) (x.testBit 3)
        (x.testBit 1) := by
  have e15 : x &&& 32768 ≠ 0 ↔ x.testBit 15 = true :=
    intel_fdc_bit_test x 15
  have e13 : x &&& 8192 ≠ 0 ↔ x.testBit 13 = true :=
    intel_fdc_bit_test x 13
  have e11 : x &&& 2048 ≠ 0 ↔ x.testBit 11 = true :=
    intel_fdc_bit_test x 11
  have e9 : x &&& 512 ≠ 0 ↔ x.testBit 9 = true :=
    intel_fdc_bit_test x 9
  have e7 : x &&& 128 ≠ 0 ↔ x.testBit 7 = true :=
    intel_fdc_bit_test x 7
  have e5 : x &&& 32 ≠ 0 ↔ x.testBit 5 = true :=
    intel_fdc_bit_test x 5
  have e3 : x &&& 8 ≠ 0 ↔ x.testBit 3 = true :=
    intel_fdc_bit_test x 3
  have e1 : x &&& 2 ≠ 0 ↔ x.testBit 1 = true :=
    intel_fdc_bit_test x 1
  unfold intel_fdc_shift_register_clocks intel_fdc_byte_of_bits
  simp only [ne_eq, e15, e13, e11, e9, e7, e5, e3, e1]

theorem intel_fdc_shift_register_data_eq (x : Nat) :
    intel_fdc_shift_register_data x =
      intel_fdc_byte_of_bits (x.testBit 14) (x.testBit 12) (x.testBit 10)
        (x.testBit 8) (x.testBit 6) (x.testBit 4) (x.testBit 2)
        (x.testBit 0) := by
  have e14 : x &&& 16384 ≠ 0 ↔ x.testBit 14 = true :=
    intel_fdc_bit_test x 14
  have e12 : x &&& 4096 ≠ 0 ↔ x.testBit 12 = true :=
    intel_fdc_bit_test x 12
  have e10 : x &&& 1024 ≠ 0 ↔ x.testBit 10 = true :=
    intel_fdc_bit_test x 10
  have e8 : x &&& 256 ≠ 0 ↔ x.testBit 8 = true :=
    intel_fdc_bit_test x 8
  have e6 : x &&& 64 ≠ 0 ↔ x.testBit 6 = true :=
    intel_fdc_bit_test x 6
  have e4 : x &&& 16 ≠ 0 ↔ x.testBit 4 = true :=
    intel_fdc_bit_test x 4
  have e2 : x &&& 4 ≠ 0 ↔ x.testBit 2 = true :=
    intel_fdc_bit_test x 2
  have e0 : x &&& 1 ≠ 0 ↔ x.testBit 0 = true :=
    intel_fdc_bit_test x 0
  unfold intel_fdc_shift_register_data intel_fdc_byte_of_bits
  simp only [ne_eq, e14, e12, e10, e8, e6, e4, e2, e0]

theorem intel_fdc_shift_in_low_if (x : Nat) (p : Prop) [Decidable p] :
    ((x <<< 1) % 4294967296 ||| (if p then 1 else 0)).testBit 0 =
      decide p := by
  rw [intel_fdc_shift_in_low _ _ (by split_ifs <;> omega)]
  by_cases h : p <;> simp [h]

theorem intel_fdc_shift_in_high_if (x : Nat) (p : Prop) [Decidable p]
    (k : Nat) (hk : k + 1 < 32) :
    ((x <<< 1) % 4294967296 ||| (if p then 1 else 0)).testBit (k + 1) =
      x.testBit k :=
  intel_fdc_shift_in_high _ _ _ (by split_ifs <;> omega) hk

theorem intel_fdc_byte_of_bits_top :
    ∀ c, c < 256 →
      intel_fdc_byte_of_bits
        (decide (c &&& 0x80 ≠ 0))
        (decide (((c <<< 1) % 256) &&& 0x80 ≠ 0))
        (decide (((((c <<< 1) % 256) <<< 1) % 256) &&& 0x80 ≠ 0))
        (decide (((((((c <<< 1) % 256) <<< 1) % 256) <<< 1) % 256) &&& 0x80 ≠ 0))
        (decide (((((((((c <<< 1) % 256) <<< 1) % 256) <<< 1) % 256) <<< 1) % 256) &&& 0x80 ≠ 0))
        (decide (((((((((((c <<< 1) % 256) <<< 1) % 256) <<< 1) % 256) <<< 1) % 256) <<< 1) % 256) &&& 0x80 ≠ 0))
        (decide (((((((((((((c <<< 1) % 256) <<< 1) % 256) <<< 1) % 256) <<< 1) % 256) <<< 1) % 256) <<< 1) % 256) &&& 0x80 ≠ 0))
        (decide (((((((((((((((c <<< 1) % 256) <<< 1) % 256) <<< 1) % 256) <<< 1) % 256) <<< 1) % 256) <<< 1) % 256) <<< 1) % 256) &&& 0x80 ≠ 0)) = c := by
  decide!

theorem intel_fdc_shift_bits_bytes (x data_byte clocks_byte : Nat)
    (hd : data_byte < 256) (hc : clocks_byte < 256) :
    intel_fdc_shift_register_data
        (intel_fdc_shift_bits 8 x data_byte clocks_byte) = data_byte ∧
      intel_fdc_shift_register_clocks
        (intel_fdc_shift_bits 8 x data_byte clocks_byte) = clocks_byte := by
  rw [intel_fdc_shift_register_data_eq, intel_fdc_shift_register_clocks_eq]
  simp only [intel_fdc_shift_bits]
  have l := intel_fdc_shift_in_low_if
  have h1 := fun x p (i : Decidable p) =>
    @intel_fdc_shift_in_high_if x p i 0 (by decide)
  have h2 := fun x p (i : Decidable p) =>
    @intel_fdc_shift_in_high_if x p i 1 (by decide)
  have h3 := fun x p (i : Decidable p) =>
    @intel_fdc_shift_in_high_if x p i 2 (by decide)
  have h4 := fun x p (i : Decidable p) =>
    @intel_fdc_shift_in_high_if x p i 3 (by decide)
  have h5 := fun x p (i : Decidable p) =>
    @intel_fdc_shift_in_high_if x p i 4 (by decide)
  have h6 := fun x p (i : Decidable p) =>
    @intel_fdc_shift_in_high_if x p i 5 (by decide)
  have h7 := fun x p (i : Decidable p) =>
    @intel_fdc_shift_in_high_if x p i 6 (by decide)
  have h8 := fun x p (i : Decidable p) =>
    @intel_fdc_shift_in_high_if x p i 7 (by decide)
  have h9 := fun x p (i : Decidable p) =>
    @intel_fdc_shift_in_high_if x p i 8 (by decide)
  have h10 := fun x p (i : Decidable p) =>
    @intel_fdc_shift_in_high_if x p i 9 (by decide)
  have h11 := fun x p (i : Decidable p) =>
    @intel_fdc_shift_in_high_if x p i 10 (by decide)
  have h12 := fun x p (i : Decidable p) =>
    @intel_fdc_shift_in_high_if x p i 11 (by decide)
  have h13 := fun x p (i : Decidable p) =>
    @intel_fdc_shift_in_high_if x p i 12 (by decide)
  have h14 := fun x p (i : Decidable p) =>
    @intel_fdc_shift_in_high_if x p i 13 (by decide)
  have h15 := fun x p (i : Decidable p) =>
    @intel_fdc_shift_in_high_if x p i 14 (by decide)
  simp only [Nat.reduceAdd] at h1 h2 h3 h4 h5 h6 h7 h8 h9 h10 h11 h12 h13 h14 h15
  simp only [l, h1, h2, h3, h4, h5, h6, h7, h8, h9, h10, h11, h12, h13, h14,
    h15]
  exact ⟨intel_fdc_byte_of_bits_top data_byte hd,
    intel_fdc_byte_of_bits_top clocks_byte hc⟩

theorem intel_fdc_shift_data_bit_collect (s : intel_fdc_struct) (bit : Nat)
    (hs : intel_fdc_state_takes_bytes s.state) (hn : s.num_shifts < 15) :
    intel_fdc_shift_data_bit s bit =
      Except.ok { s with
        shift_register := (s.shift_register <<< 1) % 4294967296 ||| bit,
        num_shifts := s.num_shifts + 1 } := by
  have e : (s.num_shifts + 1) % 4294967296 = s.num_shifts + 1 := by omega
  have e2 : s.num_shifts + 1 ≠ 16 := by omega
  unfold intel_fdc_shift_data_bit
  rcases hs with h | h | h | h | h | h | h | h <;>
    simp only [h, e, ne_eq, e2, not_false_eq_true, ↓reduceIte]

theorem intel_fdc_shift_data_bit_emit (s : intel_fdc_struct) (bit : Nat)
    (hs : intel_fdc_state_takes_bytes s.state) (hn : s.num_shifts = 15) :
    intel_fdc_shift_data_bit s bit =
      match intel_fdc_byte_callback_reading
        { s with
          shift_register := (s.shift_register <<< 1) % 4294967296 ||| bit,
          num_shifts := 16 }
        (intel_fdc_shift_register_data
          ((s.shift_register <<< 1) % 4294967296 ||| bit))
        (intel_fdc_shift_register_clocks
          ((s.shift_register <<< 1) % 4294967296 ||| bit)) with
      | Except.error e => Except.error e
      | Except.ok t => Except.ok { t with shift_register := 0, num_shifts := 0 } := by
  unfold intel_fdc_shift_data_bit
  rcases hs with h | h | h | h | h | h | h | h <;>
    (simp only [h, hn]; rfl)

theorem intel_fdc_byte_callback_bits_collect :
    ∀ (n : Nat) (s : intel_fdc_struct) (data_byte clocks_byte : Nat),
      intel_fdc_state_takes_bytes s.state →
      s.num_shifts + 2 * (n + 1) = 16 →
      intel_fdc_byte_callback_bits (n + 1) s data_byte clocks_byte =
        match intel_fdc_byte_callback_reading
          { s with
            shift_register :=
              intel_fdc_shift_bits (n + 1) s.shift_register data_byte
                clocks_byte,
            num_shifts := 16 }
          (intel_fdc_shift_register_data
            (intel_fdc_shift_bits (n + 1) s.shift_register data_byte
              clocks_byte))
          (intel_fdc_shift_register_clocks
            (intel_fdc_shift_bits (n + 1) s.shift_register data_byte
              clocks_byte)) with
        | Except.error e => Except.error e
        | Except.ok t =>
          Except.ok { t with shift_register := 0, num_shifts := 0 } := by
  intro n
  induction n with
  | zero =>
    intro s d c hs hn
    unfold intel_fdc_byte_callback_bits
    simp only []
    rw [intel_fdc_shift_data_bit_collect s _ hs (by omega)]
    simp only []
    rw [intel_fdc_shift_data_bit_emit
      { s with
        shift_register := (s.shift_register <<< 1) % 4294967296 |||
          (if c &&& 0x80 ≠ 0 then 1 else 0),
        num_shifts := s.num_shifts + 1 } _ hs (by
      show s.num_shifts + 1 = 15
      omega)]
    simp only [intel_fdc_shift_bits]
    cases intel_fdc_byte_callback_reading _ _ _ with
    | error e => rfl
    | ok t => rfl
  | succ n ih =>
    intro s d c hs hn
    unfold intel_fdc_byte_callback_bits
    simp only []
    rw [intel_fdc_shift_data_bit_collect s _ hs (by omega)]
    simp only []
    rw [intel_fdc_shift_data_bit_collect
      { s with
        shift_register := (s.shift_register <<< 1) % 4294967296 |||
          (if c &&& 0x80 ≠ 0 then 1 else 0),
        num_shifts := s.num_shifts + 1 } _ hs (by
      show s.num_shifts + 1 < 15
      omega)]
    simp only []
    rw [ih
      { s with
        shift_register :=
          ((s.shift_register <<< 1) % 4294967296 |||
            (if c &&& 0x80 ≠ 0 then 1 else 0)) <<< 1 % 4294967296 |||
            (if d &&& 0x80 ≠ 0 then 1 else 0),
        num_shifts := s.num_shifts + 1 + 1 } _ _ hs (by
      show s.num_shifts + 1 + 1 + 2 * (n + 1) = 16
      omega)]
    rfl

theorem intel_fdc_byte_top_bits :
    ∀ c, c < 256 →
      decide (c &&& 0x80 ≠ 0) = c.testBit 7 ∧
      decide (((c <<< 1) % 256) &&& 0x80 ≠ 0) = c.testBit 6 ∧
      decide (((((c <<< 1) % 256) <<< 1) % 256) &&& 0x80 ≠ 0) = c.testBit 5 ∧
      decide (((((((c <<< 1) % 256) <<< 1) % 256) <<< 1) % 256) &&& 0x80 ≠ 0) = c.testBit 4 ∧
      decide (((((((((c <<< 1) % 256) <<< 1) % 256) <<< 1) % 256) <<< 1) % 256) &&& 0x80 ≠ 0) = c.testBit 3 ∧
      decide (((((((((((c <<< 1) % 256) <<< 1) % 256) <<< 1) % 256) <<< 1) % 256) <<< 1) % 256) &&& 0x80 ≠ 0) = c.testBit 2 ∧
      decide (((((((((((((c <<< 1) % 256) <<< 1) % 256) <<< 1) % 256) <<< 1) % 256) <<< 1) % 256) <<< 1) % 256) &&& 0x80 ≠ 0) = c.testBit 1 ∧
      decide (((((((((((((((c <<< 1) % 256) <<< 1) % 256) <<< 1) % 256) <<< 1) % 256) <<< 1) % 256) <<< 1) % 256) <<< 1) % 256) &&& 0x80 ≠ 0) = c.testBit 0 := by
  decide!

theorem intel_fdc_shift_bits_layout (x data_byte clocks_byte : Nat)
    (hd : data_byte < 256) (hc : clocks_byte < 256) (i : Nat) (hi : i < 8) :
    (intel_fdc_shift_bits 8 x data_byte clocks_byte).testBit (2 * i + 1) =
        clocks_byte.testBit i ∧
      (intel_fdc_shift_bits 8 x data_byte clocks_byte).testBit (2 * i) =
        data_byte.testBit i := by
  have l := intel_fdc_shift_in_low_if
  have h1 := fun x p (i : Decidable p) =>
    @intel_fdc_shift_in_high_if x p i 0 (by decide)
  have h2 := fun x p (i : Decidable p) =>
    @intel_fdc_shift_in_high_if x p i 1 (by decide)
  have h3 := fun x p (i : Decidable p) =>
    @intel_fdc_shift_in_high_if x p i 2 (by decide)
  have h4 := fun x p (i : Decidable p) =>
    @intel_fdc_shift_in_high_if x p i 3 (by decide)
  have h5 := fun x p (i : Decidable p) =>
    @intel_fdc_shift_in_high_if x p i 4 (by decide)
  have h6 := fun x p (i : Decidable p) =>
    @intel_fdc_shift_in_high_if x p i 5 (by decide)
  have h7 := fun x p (i : Decidable p) =>
    @intel_fdc_shift_in_high_if x p i 6 (by decide)
  have h8 := fun x p (i : Decidable p) =>
    @intel_fdc_shift_in_high_if x p i 7 (by decide)
  have h9 := fun x p (i : Decidable p) =>
    @intel_fdc_shift_in_high_if x p i 8 (by decide)
  have h10 := fun x p (i : Decidable p) =>
    @intel_fdc_shift_in_high_if x p i 9 (by decide)
  have h11 := fun x p (i : Decidable p) =>
    @intel_fdc_shift_in_high_if x p i 10 (by decide)
  have h12 := fun x p (i : Decidable p) =>
    @intel_fdc_shift_in_high_if x p i 11 (by decide)
  have h13 := fun x p (i : Decidable p) =>
    @intel_fdc_shift_in_high_if x p i 12 (by decide)
  have h14 := fun x p (i : Decidable p) =>
    @intel_fdc_shift_in_high_if x p i 13 (by decide)
  have h15 := fun x p (i : Decidable p) =>
    @intel_fdc_shift_in_high_if x p i 14 (by decide)
  simp only [Nat.reduceAdd] at h1 h2 h3 h4 h5 h6 h7 h8 h9 h10 h11 h12 h13 h14 h15
  obtain ⟨c7, c6, c5, c4, c3, c2, c1, c0⟩ :=
    intel_fdc_byte_top_bits clocks_byte hc
  obtain ⟨d7, d6, d5, d4, d3, d2, d1, d0⟩ :=
    intel_fdc_byte_top_bits data_byte hd
  interval_cases i <;>
    simp only [intel_fdc_shift_bits, Nat.reduceMul, Nat.reduceAdd, l, h1, h2, h3, h4, h5, h6, h7, h8, h9, h10, h11, h12, h13, h14, h15,
      c7, c6, c5, c4, c3, c2, c1, c0, d7, d6, d5, d4, d3, d2, d1, d0,
      and_self]

theorem intel_fdc_check_index_pulse_quiet (u : intel_fdc_struct)
    (h : u.state_is_index_pulse = true ∨ intel_fdc_get_INDEX u = false ∨
      u.index_pulse_callback = IndexPulseCallback.none) :
    intel_fdc_check_index_pulse u =
      { u with state_is_index_pulse := intel_fdc_get_INDEX u } := by
  unfold intel_fdc_check_index_pulse
  rcases h with h | h | h
  · simp only []
    rw [if_pos (Or.inr h)]
  · simp only []
    rw [if_pos (Or.inl h)]
  · simp only [h]
    split_ifs <;> rfl

theorem intel_fdc_byte_callback_takes_bytes (u : intel_fdc_struct)
    (d : DriveId) (data_byte clocks_byte : Nat)
    (hd : u.p_current_drive = some d)
    (hs : intel_fdc_state_takes_bytes (intel_fdc_check_index_pulse u).state) :
    intel_fdc_byte_callback u data_byte clocks_byte =
      intel_fdc_byte_callback_bits 8 (intel_fdc_check_index_pulse u)
        data_byte clocks_byte := by
  unfold intel_fdc_byte_callback
  simp only [hd]
  rcases hs with h | h | h | h | h | h | h | h <;> simp only [h]

/-! ## Header bytes -/

theorem intel_fdc_provide_data_byte_in_time (s : intel_fdc_struct)
    (byte : Nat)
    (h : s.regs k_intel_fdc_register_internal_status &&&
      k_intel_fdc_status_flag_need_data = 0)
    (h0 : intel_fdc_get_internal_command s ≠ k_intel_fdc_command_SCAN_DATA)
    (h1 : intel_fdc_get_internal_command s ≠
      k_intel_fdc_command_SCAN_DATA_AND_DELETED) :
    intel_fdc_provide_data_byte s byte =
      ({ s with
        regs := set_reg
          (set_reg s.regs k_intel_fdc_register_internal_data byte)
          k_intel_fdc_register_internal_status
          ((s.regs k_intel_fdc_register_internal_status ||| 0x0C) % 256),
        nmi_level := true }, true) := by
  unfold intel_fdc_provide_data_byte
  rw [intel_fdc_check_data_loss_ok_in_time s h h0 h1]
  simp only [Bool.true_eq_false, ↓reduceIte]
  have e := (intel_fdc_status_raise_need
    { s with regs := set_reg s.regs k_intel_fdc_register_internal_data byte })
  obtain ⟨_, e2, e3⟩ := e
  rw [intel_fdc_status_raise_eq] at e2 e3 ⊢
  simp only [] at e3
  simp only [e3]
  rfl

theorem intel_fdc_provide_data_byte_late (s : intel_fdc_struct) (byte : Nat)
    (h : s.regs k_intel_fdc_register_internal_status &&&
      k_intel_fdc_status_flag_need_data ≠ 0) :
    intel_fdc_provide_data_byte s byte =
      (intel_fdc_finish_command (intel_fdc_command_abort s)
        k_intel_fdc_result_late_dma, false) := by
  unfold intel_fdc_provide_data_byte
  rw [intel_fdc_check_data_loss_ok_late s h]
  rfl

theorem intel_fdc_byte_callback_reading_in_id (s : intel_fdc_struct)
    (byte clocks p : Nat)
    (hs : s.state = FdcState.in_id)
    (hp : s.regs k_intel_fdc_register_internal_header_pointer = p)
    (hr : 9 ≤ p ∧ p ≤ 12)
    (hh : intel_fdc_get_internal_command s = k_intel_fdc_command_READ_ID →
      s.regs k_intel_fdc_register_internal_status &&&
        k_intel_fdc_status_flag_need_data = 0) :
    ∃ t, intel_fdc_byte_callback_reading s byte clocks = Except.ok t ∧
      t.state = (if p = 9 then FdcState.in_id_crc else FdcState.in_id) ∧
      t.state_count = (if p = 9 then 0 else s.state_count) ∧
      t.crc = ibm_disc_format_crc_add_byte s.crc byte ∧
      t.on_disc_crc = (if p = 9 then 0 else s.on_disc_crc) ∧
      t.regs p = byte ∧
      t.regs k_intel_fdc_register_internal_header_pointer = p - 1 ∧
      (∀ r, r ≠ p → r ≠ k_intel_fdc_register_internal_header_pointer →
        r ≠ k_intel_fdc_register_internal_data →
        r ≠ k_intel_fdc_register_internal_status → t.regs r = s.regs r) ∧
      (intel_fdc_get_internal_command s = k_intel_fdc_command_READ_ID →
        t.regs k_intel_fdc_register_internal_data = byte ∧
        t.regs k_intel_fdc_register_internal_status =
          (s.regs k_intel_fdc_register_internal_status ||| 0x0C) % 256 ∧
        t.nmi_level = true) ∧
      (intel_fdc_get_internal_command s ≠ k_intel_fdc_command_READ_ID →
        t.regs k_intel_fdc_register_internal_data =
          s.regs k_intel_fdc_register_internal_data ∧
        t.regs k_intel_fdc_register_internal_status =
          s.regs k_intel_fdc_register_internal_status ∧
        t.nmi_level = s.nmi_level) := by
  have e12 : (12 : Nat) &&& 0x3F = 12 := by decide
  have e11 : (11 : Nat) &&& 0x3F = 11 := by decide
  have e10 : (10 : Nat) &&& 0x3F = 10 := by decide
  have e9 : (9 : Nat) &&& 0x3F = 9 := by decide
  have f12 : (11 : Nat) &&& 0x07 = 3 := by decide
  have f11 : (10 : Nat) &&& 0x07 = 2 := by decide
  have f10 : (9 : Nat) &&& 0x07 = 1 := by decide
  have f9 : (8 : Nat) &&& 0x07 = 0 := by decide
  have hp4 : p = 12 ∨ p = 11 ∨ p = 10 ∨ p = 9 := by omega
  obtain ⟨nmi, tr, tv, d0, d1, W, u, pd0, pd1, pc, pcb, ipc, ts, regs, dout,
    sr, ns, state, count, iip, crc, odc⟩ := s
  simp only at hs hp hh
  subst hs
  by_cases hc : intel_fdc_get_internal_command
      ⟨nmi, tr, tv, d0, d1, W, u, pd0, pd1, pc, pcb, ipc, ts, regs, dout,
        sr, ns, FdcState.in_id, count, iip, crc, odc⟩ =
      k_intel_fdc_command_READ_ID
  · have hn := hh hc
    have e := intel_fdc_provide_data_byte_in_time
      ⟨nmi, tr, tv, d0, d1, W, u, pd0, pd1, pc, pcb, ipc, ts, regs, dout,
        sr, ns, FdcState.in_id, count, iip,
        ibm_disc_format_crc_add_byte crc byte, odc⟩ byte hn
      (by
        rw [intel_fdc_get_internal_command] at hc ⊢
        simp only [] at hc ⊢
        rw [hc]
        decide)
      (by
        rw [intel_fdc_get_internal_command] at hc ⊢
        simp only [] at hc ⊢
        rw [hc]
        decide)
    have hq : ∀ v, set_reg
        (set_reg (set_reg regs k_intel_fdc_register_internal_data byte)
          k_intel_fdc_register_internal_status v) p byte
        k_intel_fdc_register_internal_header_pointer = p := by
      intro v
      rw [set_reg_other _ _ _ _ (show (0x08 : Nat) ≠ p by omega),
        set_reg_other _ _ _ _ (by decide), set_reg_other _ _ _ _ (by decide)]
      exact hp
    have hq0 : ∀ v, set_reg
        (set_reg regs k_intel_fdc_register_internal_data byte)
        k_intel_fdc_register_internal_status v
        k_intel_fdc_register_internal_header_pointer = p := by
      intro v
      rw [set_reg_other _ _ _ _ (by decide), set_reg_other _ _ _ _ (by decide)]
      exact hp
    have hm : p &&& 0x3F = p := by
      rcases hp4 with h | h | h | h <;> subst h <;> rfl
    have hz : ((p - 1) &&& 0x07 = 0) ↔ p = 9 := by
      rcases hp4 with h | h | h | h <;> subst h <;> decide
    have hp8 : p ≠ 8 := by omega
    have hpd : p ≠ 29 := by omega
    have hps : p ≠ 23 := by omega
    have hd : (p + 255) % 256 = p - 1 := by omega
    unfold intel_fdc_byte_callback_reading
    simp only [hc, ↓reduceIte, e, Bool.true_eq_false,
      intel_fdc_write_register, intel_fdc_set_state, hp, hm,
      show p < k_intel_num_registers from (by
        show p < 32
        omega), hq0, hq, hz, hd, reduceCtorEq, or_self, set_reg_same]
    by_cases h9 : p = 9
    · simp only [h9, ↓reduceIte]
      refine ⟨_, rfl, rfl, rfl, rfl, rfl, ?_, ?_, ?_, ?_, ?_⟩
      · simp [set_reg]
      · simp [set_reg]
      · intro r h1 h2 h3 h4
        simp only [k_intel_fdc_register_internal_header_pointer,
          k_intel_fdc_register_internal_data,
          k_intel_fdc_register_internal_status] at h2 h3 h4
        simp [set_reg, h1, h2, h3, h4]
      · intro _
        simp [set_reg]
      · intro h
        exact absurd rfl h
    · simp only [h9, ↓reduceIte]
      refine ⟨_, rfl, rfl, rfl, rfl, rfl, ?_, ?_, ?_, ?_, ?_⟩
      · simp [set_reg, hp8]
      · simp [set_reg]
      · intro r h1 h2 h3 h4
        simp only [k_intel_fdc_register_internal_header_pointer,
          k_intel_fdc_register_internal_data,
          k_intel_fdc_register_internal_status] at h2 h3 h4
        simp [set_reg, h1, h2, h3, h4]
      · intro _
        simp [set_reg, hpd.symm, hps.symm]
      · intro h
        exact absurd rfl h
  · have hq : set_reg regs p byte
        k_intel_fdc_register_internal_header_pointer = p := by
      rw [set_reg_other _ _ _ _ (show (0x08 : Nat) ≠ p by omega)]
      exact hp
    have hm : p &&& 0x3F = p := by
      rcases hp4 with h | h | h | h <;> subst h <;> rfl
    have hz : ((p - 1) &&& 0x07 = 0) ↔ p = 9 := by
      rcases hp4 with h | h | h | h <;> subst h <;> decide
    have hp8 : p ≠ 8 := by omega
    have hpd : p ≠ 29 := by omega
    have hps : p ≠ 23 := by omega
    have hd : (p + 255) % 256 = p - 1 := by omega
    unfold intel_fdc_byte_callback_reading
    simp only [hc, ↓reduceIte, Bool.true_eq_false,
      intel_fdc_write_register, intel_fdc_set_state, hp, hm,
      show p < k_intel_num_registers from (by
        show p < 32
        omega), hq, hz, hd, reduceCtorEq, or_self, set_reg_same]
    by_cases h9 : p = 9
    · simp only [h9, ↓reduceIte]
      refine ⟨_, rfl, rfl, rfl, rfl, rfl, ?_, ?_, ?_, ?_, ?_⟩
      · simp [set_reg]
      · simp [set_reg]
      · intro r h1 h2 h3 h4
        simp only [k_intel_fdc_register_internal_header_pointer,
          k_intel_fdc_register_internal_data,
          k_intel_fdc_register_internal_status] at h2 h3 h4
        simp [set_reg, h1, h2, h3, h4]
      · intro h
        exact absurd h (by simp)
      · intro _
        simp [set_reg]
    · simp only [h9, ↓reduceIte]
      refine ⟨_, rfl, rfl, rfl, rfl, rfl, ?_, ?_, ?_, ?_, ?_⟩
      · simp [set_reg, hp8]
      · simp [set_reg]
      · intro r h1 h2 h3 h4
        simp only [k_intel_fdc_register_internal_header_pointer,
          k_intel_fdc_register_internal_data,
          k_intel_fdc_register_internal_status] at h2 h3 h4
        simp [set_reg, h1, h2, h3, h4]
      · intro h
        exact absurd h (by simp)
      · intro _
        simp [set_reg, hpd.symm, hps.symm]

theorem intel_fdc_byte_callback_reading_in_id_crc_first
    (s : intel_fdc_struct) (byte clocks : Nat)
    (hs : s.state = FdcState.in_id_crc) (hc : s.state_count = 0) :
    intel_fdc_byte_callback_reading s byte clocks =
      Except.ok { s with
        on_disc_crc := ((s.on_disc_crc <<< 8) % 65536 ||| byte) % 65536,
        state_count := 1 } := by
  unfold intel_fdc_byte_callback_reading
  simp only [hs, hc]
  rfl

theorem intel_fdc_byte_callback_reading_in_id_crc_second
    (s : intel_fdc_struct) (byte clocks : Nat)
    (hs : s.state = FdcState.in_id_crc) (hc : s.state_count = 1) :
    (s.crc ≠ ((s.on_disc_crc <<< 8) % 65536 ||| byte) % 65536 →
      intel_fdc_byte_callback_reading s byte clocks =
        Except.ok (intel_fdc_finish_command
          { s with
            on_disc_crc := ((s.on_disc_crc <<< 8) % 65536 ||| byte) % 65536,
            state_count := 2 } k_intel_fdc_result_id_crc_error)) ∧
      (s.crc = ((s.on_disc_crc <<< 8) % 65536 ||| byte) % 65536 →
        s.regs k_intel_fdc_register_internal_command = 0x18 →
        intel_fdc_byte_callback_reading s byte clocks =
          intel_fdc_check_completion
            { s with
              on_disc_crc :=
                ((s.on_disc_crc <<< 8) % 65536 ||| byte) % 65536,
              state_count := 2 }) := by
  constructor
  · intro h
    unfold intel_fdc_byte_callback_reading
    simp only [hs, hc, intel_fdc_check_crc, Nat.reduceAdd, Nat.reduceMod,
      ↓reduceIte, h]
  · intro h h2
    unfold intel_fdc_byte_callback_reading
    simp only [hs, hc, intel_fdc_check_crc, Nat.reduceAdd, Nat.reduceMod,
      ↓reduceIte, h, h2, Bool.true_eq_false]

theorem intel_fdc_header_phase (st : Nat → intel_fdc_struct)
    (bytes clocks : Nat → Nat)
    (h0 : (st 0).state = FdcState.in_id ∧
      (st 0).regs k_intel_fdc_register_internal_header_pointer = 0x0C)
    (hhost : intel_fdc_get_internal_command (st 0) =
        k_intel_fdc_command_READ_ID →
      ∀ k, k < 4 →
        (st k).regs k_intel_fdc_register_internal_status &&&
          k_intel_fdc_status_flag_need_data = 0)
    (hkept : ∀ k, k < 4 → ∀ t,
      intel_fdc_byte_callback_reading (st k) (bytes k) (clocks k) =
        Except.ok t →
      intel_fdc_host_kept_reading t (st (k + 1))) :
    ∀ k, k ≤ 4 →
      (st k).state = (if k = 4 then FdcState.in_id_crc else FdcState.in_id) ∧
      (st k).regs k_intel_fdc_register_internal_header_pointer = 12 - k ∧
      (st k).regs k_intel_fdc_register_internal_command =
        (st 0).regs k_intel_fdc_register_internal_command ∧
      (∀ j, j < k → (st k).regs (12 - j) = bytes j) ∧
      (st k).crc = ibm_disc_format_crc_add_bytes (st 0).crc bytes k ∧
      (k = 4 → (st k).on_disc_crc = 0 ∧ (st k).state_count = 0) := by
  intro k
  induction k with
  | zero =>
    intro _
    exact ⟨h0.1, h0.2, rfl, fun j hj => absurd hj (by omega), rfl,
      fun h => absurd h (by decide)⟩
  | succ k ih =>
    intro hk
    obtain ⟨i1, i2, i3, i4, i5, _⟩ := ih (by omega)
    rw [if_neg (show ¬ k = 4 by omega)] at i1
    obtain ⟨t, e, t1, t2, t3, t4, t5, t6, t7, _, _⟩ :=
      intel_fdc_byte_callback_reading_in_id (st k) (bytes k) (clocks k)
        (12 - k) i1 i2 (by omega)
        (fun hc => hhost (by
          rw [← intel_fdc_get_internal_command_of_reg (st k) (st 0) i3]
          exact hc) k (by omega))
    obtain ⟨k1, k2, k3, k4, k5⟩ := hkept k (by omega) t e
    have hr : ∀ r, 8 ≤ r → r ≤ 12 → (st (k + 1)).regs r = t.regs r :=
      fun r a b => k5 r
        (by
          show r ≠ 29
          omega)
        (by
          show r ≠ 23
          omega)
    refine ⟨?_, ?_, ?_, ?_, ?_, ?_⟩
    · rw [k1, t1]
      by_cases h : k = 3
      · subst h
        rfl
      · rw [if_neg (show ¬ 12 - k = 9 by omega),
          if_neg (show ¬ k + 1 = 4 by omega)]
    · rw [hr 8 (by omega) (by omega), t6]
      omega
    · rw [k5 _ (by decide) (by decide)]
      rw [t7 _
        (by
          show (31 : Nat) ≠ 12 - k
          omega) (by decide) (by decide) (by decide)]
      exact i3
    · intro j hj
      rw [hr _ (by omega) (by omega)]
      by_cases h : j = k
      · subst h
        exact t5
      · rw [t7 _ (by omega)
          (by
            show 12 - j ≠ 8
            omega)
          (by
            show 12 - j ≠ 29
            omega)
          (by
            show 12 - j ≠ 23
            omega)]
        exact i4 j (by omega)
    · rw [k3, t3, i5]
      rfl
    · intro h
      have h3 : k = 3 := by omega
      subst h3
      rw [k4, k2, t4, t2]
      exact ⟨rfl, rfl⟩

theorem intel_fdc_host_read_data_eq (t : intel_fdc_struct) :
    intel_fdc_host_read_data t =
      intel_fdc_status_lower t
        (k_intel_fdc_status_flag_need_data ||| k_intel_fdc_status_flag_nmi) := by
  have e : (4 : Nat) &&& 7 = 4 := by decide
  unfold intel_fdc_host_read_data intel_fdc_read
  simp [e]

/-- A read of the data register leaves the state, the count, the CRCs and
every register but the status register as they are, and clears need-data. -/
theorem intel_fdc_host_read_data_spec (t : intel_fdc_struct) :
    intel_fdc_host_kept_reading t (intel_fdc_host_read_data t) ∧
      (intel_fdc_host_read_data t).regs k_intel_fdc_register_internal_status
        &&& k_intel_fdc_status_flag_need_data = 0 := by
  rw [intel_fdc_host_read_data_eq, intel_fdc_status_lower_eq]
  refine ⟨⟨rfl, rfl, rfl, rfl, ?_⟩, ?_⟩
  · intro r _ h2
    show set_reg t.regs 0x17 (and_not8 (t.regs 0x17) (4 ||| 8)) r = t.regs r
    rw [set_reg_other _ _ _ _ h2]
  · show set_reg t.regs 0x17 (and_not8 (t.regs 0x17) (4 ||| 8)) 0x17 &&& 4 = 0
    rw [set_reg_same]
    exact and_not8_need_data _

theorem intel_fdc_read_run_kept (s : intel_fdc_struct) (bytes : Nat → Nat)
    (k : Nat) (t : intel_fdc_struct)
    (h : intel_fdc_byte_callback_reading (intel_fdc_read_run s bytes k)
      (bytes k) 0xFF = Except.ok t) :
    intel_fdc_host_kept_reading t (intel_fdc_read_run s bytes (k + 1)) := by
  show intel_fdc_host_kept_reading t
    (match intel_fdc_byte_callback_reading (intel_fdc_read_run s bytes k)
        (bytes k) 0xFF with
    | Except.ok t => intel_fdc_host_read_data t
    | Except.error _ => intel_fdc_host_read_data (intel_fdc_read_run s bytes k))
  rw [h]
  exact (intel_fdc_host_read_data_spec t).1

theorem intel_fdc_read_run_in_time (s : intel_fdc_struct) (bytes : Nat → Nat)
    (h : s.regs k_intel_fdc_register_internal_status &&&
      k_intel_fdc_status_flag_need_data = 0) (k : Nat) :
    (intel_fdc_read_run s bytes k).regs k_intel_fdc_register_internal_status
      &&& k_intel_fdc_status_flag_need_data = 0 := by
  cases k with
  | zero => exact h
  | succ k =>
    show (match intel_fdc_byte_callback_reading (intel_fdc_read_run s bytes k)
        (bytes k) 0xFF with
      | Except.ok t => intel_fdc_host_read_data t
      | Except.error _ =>
        intel_fdc_host_read_data (intel_fdc_read_run s bytes k)).regs
        k_intel_fdc_register_internal_status &&&
        k_intel_fdc_status_flag_need_data = 0
    cases intel_fdc_byte_callback_reading (intel_fdc_read_run s bytes k)
        (bytes k) 0xFF with
    | ok t => exact (intel_fdc_host_read_data_spec t).2
    | error e =>
      exact (intel_fdc_host_read_data_spec (intel_fdc_read_run s bytes k)).2

theorem intel_fdc_on_disc_crc_bytes (b1 b2 : Nat) (h1 : b1 < 256)
    (h2 : b2 < 256) :
    ((0 <<< 8) % 65536 ||| b1) % 65536 = b1 ∧
      ((b1 <<< 8) % 65536 ||| b2) % 65536 = b1 <<< 8 ||| b2 := by
  have e1 : b1 <<< 8 < 2 ^ 16 := by
    rw [Nat.shiftLeft_eq]
    omega
  have e2 : b2 < 2 ^ 16 := by omega
  have e3 := Nat.or_lt_two_pow e1 e2
  rw [show (2 : Nat) ^ 16 = 65536 from rfl] at e1 e3
  constructor
  · rw [show (0 : Nat) <<< 8 % 65536 = 0 from rfl, Nat.zero_or]
    omega
  · rw [Nat.mod_eq_of_lt e1]
    exact Nat.mod_eq_of_lt e3

/-! ## A command written in the middle of a format -/

theorem intel_fdc_host_kept_refl (t : intel_fdc_struct) :
    intel_fdc_host_kept t t :=
  ⟨rfl, fun _ _ _ => rfl⟩

theorem intel_fdc_quiet_run_kept (s : intel_fdc_struct) (k : Nat)
    (t : intel_fdc_struct)
    (h : intel_fdc_byte_callback_writing (intel_fdc_quiet_run s k) =
      Except.ok t) :
    intel_fdc_host_kept t (intel_fdc_quiet_run s (k + 1)) := by
  show intel_fdc_host_kept t
    (match intel_fdc_byte_callback_writing (intel_fdc_quiet_run s k) with
    | Except.ok t => t
    | Except.error _ => intel_fdc_quiet_run s k)
  rw [h]
  exact intel_fdc_host_kept_refl t

theorem intel_fdc_quiet_run_add (s : intel_fdc_struct) (a k : Nat) :
    intel_fdc_quiet_run (intel_fdc_quiet_run s a) k =
      intel_fdc_quiet_run s (a + k) := by
  induction k with
  | zero => rfl
  | succ k ih =>
    show (match intel_fdc_byte_callback_writing
        (intel_fdc_quiet_run (intel_fdc_quiet_run s a) k) with
      | Except.ok t => t
      | Except.error _ => intel_fdc_quiet_run (intel_fdc_quiet_run s a) k) =
      (match intel_fdc_byte_callback_writing
        (intel_fdc_quiet_run s (a + k)) with
      | Except.ok t => t
      | Except.error _ => intel_fdc_quiet_run s (a + k))
    rw [ih]

/-- A command byte that takes five parameters leaves the view as it is and
waits for the parameters, which go to register 7 downwards. -/
theorem intel_fdc_command_written_five (s : intel_fdc_struct) :
    ∃ t, intel_fdc_write s k_intel_fdc_command 0x00 = Except.ok t ∧
      intel_fdc_write_view t = intel_fdc_write_view s ∧
      t.parameter_callback = ParameterCallback.accept_command ∧
      t.regs k_intel_fdc_register_internal_pointer = 7 ∧
      t.regs k_intel_fdc_register_internal_param_count = 5 := by
  obtain ⟨nmi, tr, tv, d0, d1, W, u, pd0, pd1, p, pc, ipc, ts, regs, dout, sr,
    ns, state, count, iip, crc, odc⟩ := s
  have e : (0 : Nat) &&& 7 = 0 := by decide
  have e2 : (0 : Nat) &&& 0x18 = 0 := by decide
  unfold intel_fdc_write intel_fdc_command_written
  simp [e, e2, intel_fdc_status_raise_eq, intel_fdc_status_lower_eq,
    intel_fdc_set_result, set_reg, intel_fdc_write_view]

/-- A parameter byte that is not the last one of its command goes to the
register the pointer names and leaves the view as it is. -/
theorem intel_fdc_param_written_stored (s : intel_fdc_struct) (q c v : Nat)
    (hcb : s.parameter_callback = ParameterCallback.accept_command)
    (hq : s.regs k_intel_fdc_register_internal_pointer = q)
    (hq2 : 5 ≤ q ∧ q ≤ 7)
    (hc : s.regs k_intel_fdc_register_internal_param_count = c)
    (hc2 : 2 ≤ c ∧ c < 256) :
    ∃ t, intel_fdc_write s k_intel_fdc_parameter v = Except.ok t ∧
      intel_fdc_write_view t = intel_fdc_write_view s ∧
      t.parameter_callback = ParameterCallback.accept_command ∧
      t.regs k_intel_fdc_register_internal_pointer = q - 1 ∧
      t.regs k_intel_fdc_register_internal_param_count = c - 1 ∧
      t.regs q = v := by
  obtain ⟨nmi, tr, tv, d0, d1, W, u, pd0, pd1, p, pc, ipc, ts, regs, dout, sr,
    ns, state, count, iip, crc, odc⟩ := s
  simp only at hcb hq hc
  subst hcb
  have e : (1 : Nat) &&& 7 = 1 := by decide
  have hm : q &&& 0x3F = q := by
    have h3 : q = 5 ∨ q = 6 ∨ q = 7 := by omega
    rcases h3 with h | h | h <;> subst h <;> rfl
  have hd : (q + 255) % 256 = q - 1 := by omega
  have hd2 : (c + 255) % 256 = c - 1 := by omega
  have hc3 : c - 1 ≠ 0 := by omega
  have hq3 : q ≠ 0 := by omega
  have hq4 : q ≠ 1 := by omega
  have hq5 : q ≠ 30 := by omega
  have hq6 : q ≠ 23 := by omega
  have hq7 : q < 32 := by omega
  simp only [k_intel_fdc_register_internal_pointer,
    k_intel_fdc_register_internal_param_count] at hq hc
  unfold intel_fdc_write intel_fdc_param_written
  simp [e, intel_fdc_status_lower_eq, set_reg, intel_fdc_write_view,
    intel_fdc_write_register, hq, hc, hm, hd, hd2, hc3, hq3, hq4, hq5, hq6,
    hq7, Ne.symm hq3, Ne.symm hq4]

theorem intel_fdc_host_resize_spec (s : intel_fdc_struct) :
    ∃ u, intel_fdc_host_resize s = Except.ok u ∧
      intel_fdc_write_view u = intel_fdc_write_view s ∧
      u.regs k_intel_fdc_register_internal_param_3 = 0x21 := by
  obtain ⟨t0, e0, v0, c0, p0, n0⟩ := intel_fdc_command_written_five s
  obtain ⟨t1, e1, v1, c1, p1, n1, _⟩ :=
    intel_fdc_param_written_stored t0 7 5 0x00 c0 p0 (by omega) n0 (by omega)
  obtain ⟨t2, e2, v2, c2, p2, n2, _⟩ :=
    intel_fdc_param_written_stored t1 6 4 0x00 c1 p1 (by omega) n1 (by omega)
  obtain ⟨t3, e3, v3, _, _, _, r3⟩ :=
    intel_fdc_param_written_stored t2 5 3 0x21 c2 p2 (by omega) n2 (by omega)
  refine ⟨t3, ?_, ?_, r3⟩
  · unfold intel_fdc_host_resize
    simp only [e0, e1, e2, e3]
  · rw [v3, v2, v1, v0]

/-- Filler bytes of the data field of a format, from any count on. -/
theorem intel_fdc_format_fill_phase (st : Nat → intel_fdc_struct) (a : Nat)
    (W : List DriveWrite) (p : Option DriveId) (C S c n : Nat)
    (h0 : intel_fdc_write_view (st a) =
      (FdcState.format_write_data, c, C, W, p))
    (hc : 0 < c) (hn : c + n ≤ S + 1)
    (hS : intel_fdc_get_sector_size (st a) = S) (hSb : S + 3 < 4294967296)
    (hkept : ∀ k, k < n → ∀ t,
      intel_fdc_byte_callback_writing (st (a + k)) = Except.ok t →
      intel_fdc_host_kept t (st (a + k + 1))) :
    (∀ k, k ≤ n →
      intel_fdc_write_inv
        (FdcState.format_write_data, c + k,
          ibm_disc_format_crc_add_bytes C (fun _ => 0xE5) k,
          W ++ intel_fdc_written p (fun _ => (0xE5, 0xFF)) k, p)
        (st a).regs (st (a + k))) ∧
      (∀ k, k < n → ∃ t,
        intel_fdc_byte_callback_writing (st (a + k)) = Except.ok t ∧
        t.drive_writes =
          W ++ intel_fdc_written p (fun _ => (0xE5, 0xFF)) (k + 1)) := by
  have hsize : ∀ s : intel_fdc_struct,
      (∀ r, r ≠ k_intel_fdc_register_internal_data →
        r ≠ k_intel_fdc_register_internal_status →
        s.regs r = (st a).regs r) → intel_fdc_get_sector_size s = S := by
    intro s hr
    rw [intel_fdc_get_sector_size_of_reg s (st a)
      (hr _ (by decide) (by decide)), hS]
  obtain ⟨r1, r2⟩ := intel_fdc_write_phase st a n
    (fun k s => intel_fdc_write_inv
      (FdcState.format_write_data, c + k,
        ibm_disc_format_crc_add_bytes C (fun _ => 0xE5) k,
        W ++ intel_fdc_written p (fun _ => (0xE5, 0xFF)) k, p)
      (st a).regs s)
    (fun _ _ => True)
    (fun k _ t => t.drive_writes =
      W ++ intel_fdc_written p (fun _ => (0xE5, 0xFF)) (k + 1))
    (by
      beta_reduce
      refine ⟨?_, fun _ _ _ => rfl⟩
      rw [h0]
      simp [intel_fdc_written, ibm_disc_format_crc_add_bytes])
    (by
      intro k hk s hq _
      beta_reduce at hq
      obtain ⟨hq', hr⟩ := hq
      obtain ⟨q1, q2, q3, q4, q5⟩ :=
        (intel_fdc_write_view_eq _ _ _ _ _ _).mp hq'
      have hsz := hsize s hr
      obtain ⟨t, e, v, g1, _⟩ :=
        intel_fdc_byte_callback_writing_format_byte s q1 (by omega)
          (by rw [hsz, q2]; omega) (by rw [hsz]; exact hSb)
      have hv : intel_fdc_write_view t =
          (FdcState.format_write_data, c + (k + 1),
            ibm_disc_format_crc_add_bytes C (fun _ => 0xE5) (k + 1),
            W ++ intel_fdc_written p (fun _ => (0xE5, 0xFF)) (k + 1), p) := by
        rw [v, q2, q3, q4, q5, intel_fdc_written_succ p _ k,
          List.append_assoc]
        rfl
      refine ⟨t, e, ?_, ?_⟩
      · beta_reduce
        exact intel_fdc_write_inv_of _ _ _ _ _ _ s t hv hr (Or.inl g1)
      · beta_reduce
        exact ((intel_fdc_write_view_eq _ _ _ _ _ _).mp hv).2.2.2.1)
    (fun _ _ => trivial)
    (by
      intro k hk t e q
      exact intel_fdc_write_inv_kept _ _ t _ (hkept k hk t e) q)
  exact ⟨r1, fun k hk => (r2 k hk).elim fun t h => ⟨t, h.1, h.2.2⟩⟩

/-- The CRC-16 of the data mark 0xFB followed by 255 bytes 0xE5 is 0x6175,
not 0xA40C. -/
theorem ibm_disc_format_crc_filler_255 :
    ibm_disc_format_crc_add_bytes
      (ibm_disc_format_crc_add_bytes
        (ibm_disc_format_crc_add_byte ibm_disc_format_crc_init
          k_ibm_disc_data_mark_data_pattern) (fun _ => 0xE5) 128)
      (fun _ => 0xE5) 127 = 0x6175 := by
  have h0 : ibm_disc_format_crc_add_byte ibm_disc_format_crc_init
      k_ibm_disc_data_mark_data_pattern = 49028 := by decide!
  have h1 : ibm_disc_format_crc_add_bytes 49028 (fun _ => 0xE5) 32 = 58502 := by
    decide!
  have h2 : ibm_disc_format_crc_add_bytes 58502 (fun _ => 0xE5) 32 = 3839 := by
    decide!
  have h3 : ibm_disc_format_crc_add_bytes 3839 (fun _ => 0xE5) 32 = 12095 := by
    decide!
  have h4 : ibm_disc_format_crc_add_bytes 12095 (fun _ => 0xE5) 32 = 23856 := by
    decide!
  have h5 : ibm_disc_format_crc_add_bytes 23856 (fun _ => 0xE5) 32 = 15061 := by
    decide!
  have h6 : ibm_disc_format_crc_add_bytes 15061 (fun _ => 0xE5) 32 = 64999 := by
    decide!
  have h7 : ibm_disc_format_crc_add_bytes 64999 (fun _ => 0xE5) 32 = 44630 := by
    decide!
  have h8 : ibm_disc_format_crc_add_bytes 44630 (fun _ => 0xE5) 31 = 0x6175 := by
    decide!
  have a : ibm_disc_format_crc_add_bytes 49028 (fun _ => 0xE5) 128 =
      23856 := by
    rw [show (128 : Nat) = 32 + 32 + 32 + 32 from rfl,
      ibm_disc_format_crc_add_bytes_add, ibm_disc_format_crc_add_bytes_add,
      ibm_disc_format_crc_add_bytes_add, h1, h2, h3, h4]
  rw [h0, a, show (127 : Nat) = 32 + 32 + 32 + 31 from rfl,
    ibm_disc_format_crc_add_bytes_add, ibm_disc_format_crc_add_bytes_add,
    ibm_disc_format_crc_add_bytes_add, h5, h6, h7, h8]

/-- A format of 128-byte sectors in which the host writes a command byte and
three parameters between the first and the second CRC byte of a data field:
the sector size register then reads 256, the callbacks go on with filler
bytes, and at count 257 the running CRC is that of the mark and 255 filler
bytes, so the assertion of the state format_write_data fails. -/
theorem intel_fdc_format_resized_run :
    (∀ k, k < 130 → ∃ r,
      intel_fdc_byte_callback_writing
        (intel_fdc_quiet_run intel_fdc_formatting_small k) = Except.ok r) ∧
      (intel_fdc_quiet_run intel_fdc_formatting_small 130).state =
        FdcState.format_write_data ∧
      (intel_fdc_quiet_run intel_fdc_formatting_small 130).state_count =
        130 ∧
      intel_fdc_get_sector_size
        (intel_fdc_quiet_run intel_fdc_formatting_small 130) = 128 ∧
      ∃ u, intel_fdc_host_resize
          (intel_fdc_quiet_run intel_fdc_formatting_small 130) =
          Except.ok u ∧
        u.state = FdcState.format_write_data ∧ u.state_count = 130 ∧
        intel_fdc_get_sector_size u = 256 ∧
        (∀ k, k < 127 → ∃ r,
          intel_fdc_byte_callback_writing (intel_fdc_quiet_run u k) =
            Except.ok r) ∧
        (intel_fdc_quiet_run u 127).state = FdcState.format_write_data ∧
        (intel_fdc_quiet_run u 127).state_count = 257 ∧
        intel_fdc_get_sector_size (intel_fdc_quiet_run u 127) = 256 ∧
        (intel_fdc_quiet_run u 127).crc = 0x6175 ∧
        intel_fdc_byte_callback_writing (intel_fdc_quiet_run u 127) =
          Except.error Fault.assertion := by
  obtain ⟨a1, a2⟩ := intel_fdc_format_data_phase
    (intel_fdc_quiet_run intel_fdc_formatting_small) 0 []
    (some DriveId.drive_0) 0 128 130 rfl (by omega) (by decide) (by omega)
    (fun k _ t e => by
      rw [Nat.zero_add] at e ⊢
      exact intel_fdc_quiet_run_kept _ k t e)
  have q := a1 130 (le_refl _)
  rw [Nat.zero_add, if_neg (show ¬ (130 = 128 + 3) by omega),
    if_neg (show ¬ (130 = 128 + 3) by omega),
    if_neg (show ¬ (130 = 128 + 3) by omega),
    if_neg (show ¬ (130 = 0) by omega)] at q
  obtain ⟨qv, qr⟩ := q
  obtain ⟨q1, q2, q3, q4, q5⟩ := (intel_fdc_write_view_eq _ _ _ _ _ _).mp qv
  have e128 : min (130 - 1) 128 = 128 := by omega
  rw [e128] at q3
  have hs : intel_fdc_get_sector_size
      (intel_fdc_quiet_run intel_fdc_formatting_small 130) = 128 := by
    rw [intel_fdc_get_sector_size_of_reg _
      (intel_fdc_quiet_run intel_fdc_formatting_small 0)
      (qr _ (by decide) (by decide))]
    decide
  obtain ⟨u, eu, uv, ur⟩ := intel_fdc_host_resize_spec
    (intel_fdc_quiet_run intel_fdc_formatting_small 130)
  obtain ⟨u1, u2, u3, u4, u5⟩ :=
    (intel_fdc_write_view_eq u _ _ _ _ _).mp (uv.trans qv)
  have hu : intel_fdc_get_sector_size u = 256 := by
    unfold intel_fdc_get_sector_size
    rw [ur]
    rfl
  obtain ⟨b1, b2⟩ := intel_fdc_format_fill_phase (intel_fdc_quiet_run u) 0
    _ _ _ 256 130 127 (uv.trans qv) (by omega) (by omega) hu (by omega)
    (fun k _ t e => by
      rw [Nat.zero_add] at e ⊢
      exact intel_fdc_quiet_run_kept _ k t e)
  obtain ⟨wv, wr⟩ := b1 127 (le_refl _)
  rw [Nat.zero_add] at wv wr
  obtain ⟨w1, w2, w3, _, _⟩ := (intel_fdc_write_view_eq _ _ _ _ _ _).mp wv
  have hw : intel_fdc_get_sector_size (intel_fdc_quiet_run u 127) = 256 := by
    rw [intel_fdc_get_sector_size_of_reg _ (intel_fdc_quiet_run u 0)
      (wr _ (by decide) (by decide))]
    exact hu
  have hcrc : (intel_fdc_quiet_run u 127).crc = 0x6175 := by
    rw [w3]
    exact ibm_disc_format_crc_filler_255
  refine ⟨?_, q1, q2, hs, u, eu, u1, u2, hu, ?_, w1, w2, hw, hcrc, ?_⟩
  · intro k hk
    obtain ⟨t, e, _⟩ := a2 k hk
    rw [Nat.zero_add] at e
    exact ⟨t, e⟩
  · intro k hk
    obtain ⟨t, e, _⟩ := b2 k hk
    rw [Nat.zero_add] at e
    exact ⟨t, e⟩
  · exact (intel_fdc_byte_callback_writing_format_crc_hi _ w1
      (by rw [hw, w2]) (by rw [hw]; decide)).1
      ⟨hw, by rw [hcrc]; decide⟩

/-! ## Load-immediate micro-ops in the array of an instruction -/

/-- C1: a command byte `c` written to MMIO address 0 stores the expected
parameter count `n` (`c & 3` when `c & 0x18` is non-zero, else 5) in register
1.  With `n = 0` the command is started at once.  Otherwise the controller
waits: after fewer than `n` parameter writes it still waits (parameter
callback armed, count `n` minus the writes so far, write number `i + 1` held
in register `7 - i`), and the `n`-th write is the start of the command with
all `n` parameters in registers 7 downwards.  A started command never leaves
the parameter callback armed for command parameters, so the states before the
`n`-th write are states in which no command has started. -/
theorem intel_fdc_command_parameter_count (s : intel_fdc_struct) (c n : Nat)
    (hn : n = if c &&& 0x18 ≠ 0 then c &&& 0x03 else 5) :
    (n = 0 →
      ∃ a, a.regs k_intel_fdc_register_internal_param_count = n ∧
        a.regs k_intel_fdc_register_internal_command = c ∧
        intel_fdc_write s k_intel_fdc_command c = intel_fdc_start_command a) ∧
    (0 < n →
      ∃ t0, intel_fdc_write s k_intel_fdc_command c = Except.ok t0 ∧
        t0.regs k_intel_fdc_register_internal_param_count = n ∧
        (∀ vs : List Nat, vs.length < n →
          ∃ t, intel_fdc_write_params t0 vs = Except.ok t ∧
            t.parameter_callback = ParameterCallback.accept_command ∧
            t.regs k_intel_fdc_register_internal_param_count = n - vs.length ∧
            ∀ i, i < vs.length →
              t.regs (k_intel_fdc_register_internal_param_1 - i) =
                vs.getD i 0) ∧
        (∀ vs : List Nat, vs.length = n →
          ∃ s', intel_fdc_write_params t0 vs = intel_fdc_start_command s' ∧
            ∀ i, i < vs.length →
              s'.regs (k_intel_fdc_register_internal_param_1 - i) =
                vs.getD i 0)) ∧
    (∀ s' t, intel_fdc_start_command s' = Except.ok t →
      t.parameter_callback ≠ ParameterCallback.accept_command) := by
  obtain ⟨a, t0, a1, a31, b1, b0, bp, -, hw⟩ :=
    intel_fdc_command_written_cases s c
  rw [← hn] at a1 b1 hw
  have hn5 : n ≤ 5 := by
    rw [hn]
    split_ifs
    · have : c &&& 0x03 ≤ 0x03 := Nat.and_le_right
      omega
    · exact Nat.le_refl 5
  refine ⟨fun h0 => ⟨a, a1, a31, ?_⟩, fun hpos => ⟨t0, ?_, b1, ?_, ?_⟩,
    intel_fdc_start_command_parameter_callback⟩
  · rw [hw, if_neg (by omega)]
  · rw [hw, if_pos hpos]
  · intro vs hlen
    obtain ⟨t, r1, r2, -, r4, r5, -⟩ :=
      (intel_fdc_write_params_run n hn5 vs t0 0 bp (by simpa using b0)
        (by simpa using b1) (by omega)).1 (by omega)
    exact ⟨t, r1, r2, by simpa using r4, by simpa using r5⟩
  · intro vs hlen
    have hne : vs ≠ [] := by
      intro h
      rw [h] at hlen
      simp at hlen
      omega
    obtain ⟨s', r1, r5, -⟩ :=
      (intel_fdc_write_params_run n hn5 vs t0 0 bp (by simpa using b0)
        (by simpa using b1) (by omega)).2 (by omega) hne
    exact ⟨s', r1, by simpa using r5⟩

/-- Witness for C1: the three-parameter READ_DATA command byte 0x13 written
to the powered-on controller. -/
theorem intel_fdc_command_parameter_count_witness :
    (3 = if 0x13 &&& 0x18 ≠ 0 then 0x13 &&& 0x03 else 5) ∧
      ∃ t0, intel_fdc_write intel_fdc_powered_on k_intel_fdc_command 0x13 =
          Except.ok t0 ∧
        t0.regs k_intel_fdc_register_internal_param_count = 3 ∧
        ∃ s', intel_fdc_write_params t0 [2, 4, 0x21] =
            intel_fdc_start_command s' ∧
          s'.regs 7 = 2 ∧ s'.regs 6 = 4 ∧ s'.regs 5 = 0x21 :=
  ⟨by decide,
    ((intel_fdc_command_parameter_count intel_fdc_powered_on 0x13 3
      (by decide)).2.1 (by decide)).imp
      (fun _ h => ⟨h.1, h.2.1,
        (h.2.2.2 [2, 4, 0x21] rfl).imp
          (fun _ g => ⟨g.1, g.2 0 (by decide), g.2 1 (by decide),
            g.2 2 (by decide)⟩)⟩)⟩

/-- C2: the internal command index is `(cmd & 0x3C) >> 2` and is one of the
sixteen table slots 0..15, for every content of the command register. -/
theorem intel_fdc_get_internal_command_index (s : intel_fdc_struct) :
    intel_fdc_get_internal_command s =
        (s.regs k_intel_fdc_register_internal_command &&& 0x3C) >>> 2 ∧
      intel_fdc_get_internal_command s ≤ 15 := by
  refine ⟨rfl, ?_⟩
  have h : s.regs k_intel_fdc_register_internal_command &&& 0x3C ≤ 0x3C :=
    Nat.and_le_right
  simp only [intel_fdc_get_internal_command, Nat.shiftRight_eq_div_pow]
  omega

/-- C3: after `intel_fdc_break_reset` the status register is 0, drive-out is
0, the state is idle, both callbacks and the timer state are "none" and no
drive is selected, so `intel_fdc_power_on_reset` passes all its assertions;
`intel_fdc_break_reset` keeps every register other than the status register,
and `intel_fdc_power_on_reset` zeroes the whole register file. -/
theorem intel_fdc_break_reset_clears_status (s : intel_fdc_struct)
    (hst : s.regs k_intel_fdc_register_internal_status < 256) :
    (intel_fdc_break_reset s).regs k_intel_fdc_register_internal_status = 0 ∧
      (intel_fdc_break_reset s).drive_out = 0 ∧
      (intel_fdc_break_reset s).state = FdcState.idle ∧
      (intel_fdc_break_reset s).parameter_callback =
        ParameterCallback.accept_none ∧
      (intel_fdc_break_reset s).index_pulse_callback = IndexPulseCallback.none ∧
      (intel_fdc_break_reset s).timer_state = TimerState.none ∧
      (intel_fdc_break_reset s).p_current_drive = none ∧
      (∀ r, r ≠ k_intel_fdc_register_internal_status →
        (intel_fdc_break_reset s).regs r = s.regs r) ∧
      ∃ t, intel_fdc_power_on_reset s = Except.ok t ∧ ∀ r, t.regs r = 0 := by
  have hreset : intel_fdc_break_reset s =
      { intel_fdc_set_drive_out (intel_fdc_clear_callbacks
          (intel_fdc_set_state (intel_fdc_command_abort s) FdcState.idle)) 0 with
        regs := set_reg s.regs 0x17 0,
        nmi_level := false } := by
    unfold intel_fdc_break_reset
    simp only [intel_fdc_status_lower_eq, intel_fdc_get_status,
      intel_fdc_set_drive_out_regs, intel_fdc_set_drive_out_nmi_level,
      k_intel_fdc_register_internal_status]
    simp [intel_fdc_clear_callbacks_eq, intel_fdc_set_state_eq,
      intel_fdc_command_abort_eq, and_not8_self _ hst]
  have h1 : (intel_fdc_break_reset s).regs 0x17 = 0 := by
    rw [hreset]
    simp
  have h2 : (intel_fdc_break_reset s).drive_out = 0 := by
    rw [hreset]
    simp
  have h3 : (intel_fdc_break_reset s).state = FdcState.idle := by
    rw [hreset]
    simp [intel_fdc_clear_callbacks_eq, intel_fdc_set_state_eq]
  have h4 : (intel_fdc_break_reset s).parameter_callback =
      ParameterCallback.accept_none := by
    rw [hreset]
    simp [intel_fdc_clear_callbacks_eq]
  have h5 : (intel_fdc_break_reset s).index_pulse_callback =
      IndexPulseCallback.none := by
    rw [hreset]
    simp [intel_fdc_clear_callbacks_eq]
  have h6 : (intel_fdc_break_reset s).timer_state = TimerState.none := by
    rw [hreset]
    simp [intel_fdc_clear_callbacks_eq]
  have h7 : (intel_fdc_break_reset s).p_current_drive = none := by
    rw [hreset]
    simp [intel_fdc_set_drive_out_none]
  refine ⟨h1, h2, h3, h4, h5, h6, h7, ?_, ?_⟩
  · intro r hr
    rw [hreset]
    simp [set_reg_other _ _ _ _ hr]
  · refine ⟨{ intel_fdc_break_reset s with
      regs := fun _ => 0, state_count := 0, state_is_index_pulse := false },
      ?_, fun _ => rfl⟩
    unfold intel_fdc_power_on_reset
    simp [h2, h3, h4, h5, h6, h7]

/-- Witness for C3: a break reset in the middle of a sector read. -/
theorem intel_fdc_break_reset_clears_status_witness :
    intel_fdc_reading_sector.regs k_intel_fdc_register_internal_status < 256 ∧
      (intel_fdc_break_reset intel_fdc_reading_sector).regs
        k_intel_fdc_register_internal_status = 0 :=
  ⟨by decide,
    (intel_fdc_break_reset_clears_status intel_fdc_reading_sector
      (by decide)).1⟩

/-- C4: `intel_fdc_finish_command` ORs its code into the result register,
sets result-ready and NMI and clears busy in the status register, leaves the
controller idle with the parameter callback at "none" and, for every code
other than OK, leaves the direction, step and write-enable bits of drive-out
clear. -/
theorem intel_fdc_finish_command_result (s : intel_fdc_struct) (code : Nat)
    (hcode : code < 256)
    (hres : s.regs k_intel_fdc_register_internal_result < 256)
    (hst : s.regs k_intel_fdc_register_internal_status < 256) :
    (intel_fdc_finish_command s code).regs k_intel_fdc_register_internal_result =
        s.regs k_intel_fdc_register_internal_result ||| code ∧
      (intel_fdc_finish_command s code).regs
          k_intel_fdc_register_internal_status &&&
        (k_intel_fdc_status_flag_busy ||| k_intel_fdc_status_flag_result_ready |||
          k_intel_fdc_status_flag_nmi) =
        (k_intel_fdc_status_flag_result_ready ||| k_intel_fdc_status_flag_nmi) ∧
      (intel_fdc_finish_command s code).state = FdcState.idle ∧
      (intel_fdc_finish_command s code).parameter_callback =
        ParameterCallback.accept_none ∧
      (code ≠ k_intel_fdc_result_ok →
        (intel_fdc_finish_command s code).drive_out &&&
          (k_intel_fdc_drive_out_direction ||| k_intel_fdc_drive_out_step |||
            k_intel_fdc_drive_out_write_enable) = 0) := by
  obtain ⟨h1, h2, -, h4, h5, -, h7, -, -, -⟩ :=
    intel_fdc_finish_command_summary s code
  refine ⟨?_, ?_, h1, h2, h7⟩
  · show (intel_fdc_finish_command s code).regs 0x16 = s.regs 0x16 ||| code
    rw [h4, byte_or_mod _ _ hcode hres, Nat.lor_comm]
  · show (intel_fdc_finish_command s code).regs 0x17 &&& 0x98 = 0x18
    rw [h5]
    exact status_after_finish _ hst

/-- Witness for C4: a sector read that ends with a data CRC error. -/
theorem intel_fdc_finish_command_result_witness :
    k_intel_fdc_result_data_crc_error < 256 ∧
      intel_fdc_reading_sector.regs k_intel_fdc_register_internal_result < 256 ∧
      intel_fdc_reading_sector.regs k_intel_fdc_register_internal_status < 256 ∧
      (intel_fdc_finish_command intel_fdc_reading_sector
        k_intel_fdc_result_data_crc_error).regs
          k_intel_fdc_register_internal_result =
        intel_fdc_reading_sector.regs k_intel_fdc_register_internal_result |||
          k_intel_fdc_result_data_crc_error :=
  ⟨by decide, by decide, by decide,
    (intel_fdc_finish_command_result intel_fdc_reading_sector
      k_intel_fdc_result_data_crc_error (by decide) (by decide) (by decide)).1⟩

/-- C5: when the need-data bit is still set, `intel_fdc_provide_data_byte`
and `intel_fdc_consume_data_byte` abort the command with LATE_DMA: 0x0A is
ORed into the result register (which is exactly 0x0A when it was 0), the
state is idle, busy is clear and the data register keeps its old content.
When need-data is clear and the command is not a scan, the read byte is put
in the data register with NMI and need-data raised, and a write byte is
handed to the drive. -/
theorem intel_fdc_data_loss_check (s : intel_fdc_struct) (byte : Nat)
    (hres : s.regs k_intel_fdc_register_internal_result < 256) :
    (s.regs k_intel_fdc_register_internal_status &&&
        k_intel_fdc_status_flag_need_data ≠ 0 →
      ∃ t, intel_fdc_provide_data_byte s byte = (t, false) ∧
        intel_fdc_consume_data_byte s = (t, false) ∧
        t.regs k_intel_fdc_register_internal_result =
          s.regs k_intel_fdc_register_internal_result |||
            k_intel_fdc_result_late_dma ∧
        (s.regs k_intel_fdc_register_internal_result = 0 →
          t.regs k_intel_fdc_register_internal_result =
            k_intel_fdc_result_late_dma) ∧
        t.state = FdcState.idle ∧
        t.regs k_intel_fdc_register_internal_status &&&
          k_intel_fdc_status_flag_busy = 0 ∧
        t.regs k_intel_fdc_register_internal_data =
          s.regs k_intel_fdc_register_internal_data) ∧
    (s.regs k_intel_fdc_register_internal_status &&&
        k_intel_fdc_status_flag_need_data = 0 →
      intel_fdc_get_internal_command s ≠ k_intel_fdc_command_SCAN_DATA →
      intel_fdc_get_internal_command s ≠
        k_intel_fdc_command_SCAN_DATA_AND_DELETED →
      intel_fdc_provide_data_byte s byte =
          ({ s with
            regs := set_reg
              (set_reg s.regs k_intel_fdc_register_internal_data byte)
              k_intel_fdc_register_internal_status
              ((s.regs k_intel_fdc_register_internal_status |||
                (k_intel_fdc_status_flag_nmi |||
                  k_intel_fdc_status_flag_need_data)) % 256),
            nmi_level := true }, true) ∧
        intel_fdc_consume_data_byte s =
          ({ s with
            drive_writes := s.drive_writes ++
              [⟨s.p_current_drive,
                s.regs k_intel_fdc_register_internal_data, 0xFF⟩] }, true)) := by
  constructor
  · intro hneed
    have hl := intel_fdc_check_data_loss_ok_late s hneed
    obtain ⟨h1, -, -, h4, h5, h6, -, -, -, -⟩ :=
      intel_fdc_finish_command_summary (intel_fdc_command_abort s) 0x0A
    have hregs : (intel_fdc_command_abort s).regs = s.regs := by
      rw [intel_fdc_command_abort_eq]
    rw [hregs] at h4 h5 h6
    have hr : (intel_fdc_finish_command (intel_fdc_command_abort s) 0x0A).regs
        0x16 = s.regs 0x16 ||| 0x0A := by
      rw [h4, byte_or_mod _ _ (by decide) hres, Nat.lor_comm]
    refine ⟨_, ?_, ?_, hr, ?_, h1, ?_, ?_⟩
    · unfold intel_fdc_provide_data_byte
      simp [hl]
    · unfold intel_fdc_consume_data_byte
      simp [hl]
    · intro h0
      show (intel_fdc_finish_command (intel_fdc_command_abort s) 0x0A).regs
        0x16 = 0x0A
      rw [hr]
      show s.regs 0x16 ||| 0x0A = 0x0A
      rw [show s.regs 0x16 = 0 from h0]
      rfl
    · show (intel_fdc_finish_command (intel_fdc_command_abort s) 0x0A).regs
        0x17 &&& 0x80 = 0
      rw [h5]
      unfold and_not8
      rw [Nat.land_assoc]
      exact Nat.and_zero _
    · exact h6 0x1D (by decide) (by decide) (by decide)
  · intro hclear hs0 hs1
    have hl := intel_fdc_check_data_loss_ok_in_time s hclear hs0 hs1
    constructor
    · unfold intel_fdc_provide_data_byte
      simp +decide [hl, intel_fdc_status_raise_eq, set_reg]
      exact nmi_raised_bit_of _ 12 (by decide)
    · unfold intel_fdc_consume_data_byte
      simp [hl, disc_drive_write_byte]

/-- Witness for C5: a byte arrives while the previous one is still waiting,
and a byte arrives after the previous one was collected. -/
theorem intel_fdc_data_loss_check_witness :
    intel_fdc_reading_sector.regs k_intel_fdc_register_internal_result < 256 ∧
      intel_fdc_reading_sector.regs k_intel_fdc_register_internal_status &&&
        k_intel_fdc_status_flag_need_data ≠ 0 ∧
      (∃ t, intel_fdc_provide_data_byte intel_fdc_reading_sector 0x5A =
          (t, false) ∧
        t.regs k_intel_fdc_register_internal_result =
          k_intel_fdc_result_late_dma) ∧
      (intel_fdc_provide_data_byte intel_fdc_reading_sector_collected 0x5A).2 =
        true :=
  ⟨by decide, by decide,
    ((intel_fdc_data_loss_check intel_fdc_reading_sector 0x5A (by decide)).1
      (by decide)).imp (fun _ h => ⟨h.1, h.2.2.2.1 (by decide)⟩),
    congrArg Prod.snd
      (((intel_fdc_data_loss_check intel_fdc_reading_sector_collected 0x5A
        (by decide)).2 (by decide) (by decide) (by decide)).1)⟩

/-- C6: for a writing command on a ready drive with the write-protect bit
latched, `intel_fdc_post_seek_dispatch` ends the command with 0x12 ORed into
the result register (exactly 0x12 when the result was 0, as it is from command
acceptance on), the controller idle and busy clear; it makes no
`disc_drive_write_byte` call, and no run of later disc bytes makes one
either. -/
theorem intel_fdc_post_seek_dispatch_no_write (s : intel_fdc_struct)
    (hw : intel_fdc_command_is_writing s = true)
    (hready : (intel_fdc_check_drive_ready s).2 = true)
    (hwp : (intel_fdc_do_read_drive_status s).1.regs
      k_intel_fdc_register_internal_drive_in_latched &&& 0x08 ≠ 0)
    (hres : s.regs k_intel_fdc_register_internal_result < 256) :
    (intel_fdc_post_seek_dispatch s).regs k_intel_fdc_register_internal_result =
        s.regs k_intel_fdc_register_internal_result |||
          k_intel_fdc_result_write_protected ∧
      (s.regs k_intel_fdc_register_internal_result = 0 →
        (intel_fdc_post_seek_dispatch s).regs
          k_intel_fdc_register_internal_result =
            k_intel_fdc_result_write_protected) ∧
      (intel_fdc_post_seek_dispatch s).state = FdcState.idle ∧
      (intel_fdc_post_seek_dispatch s).regs
        k_intel_fdc_register_internal_status &&&
          k_intel_fdc_status_flag_busy = 0 ∧
      (intel_fdc_post_seek_dispatch s).drive_writes = s.drive_writes ∧
      ∀ evs t,
        disc_drive_deliver_bytes (intel_fdc_post_seek_dispatch s) evs =
          Except.ok t →
        t.drive_writes = s.drive_writes := by
  obtain ⟨m, hm, m1, m2, m3⟩ :=
    intel_fdc_post_seek_dispatch_write_protected s hw hready hwp
  obtain ⟨a1, -, -, a4, a5, -, a7, -, -, a10⟩ :=
    intel_fdc_finish_command_summary m k_intel_fdc_result_write_protected
  rw [hm]
  have hr : (intel_fdc_finish_command m 0x12).regs 0x16 = s.regs 0x16 ||| 0x12 := by
    rw [a4, m1, byte_or_mod _ _ (by decide) hres, Nat.lor_comm]
  have hwe : (intel_fdc_finish_command m 0x12).drive_out &&& 0x01 = 0 := by
    have h7 := a7 (by decide)
    have h1 := congrArg (fun n => n &&& 1) h7
    simp only [Nat.land_assoc] at h1
    exact h1
  have hdw : (intel_fdc_finish_command m 0x12).drive_writes = s.drive_writes :=
    a10.2.1.trans m3.2.1
  refine ⟨hr, ?_, a1, ?_, hdw, ?_⟩
  · intro h0
    show (intel_fdc_finish_command m 0x12).regs 0x16 = 0x12
    rw [hr, show s.regs 0x16 = 0 from h0]
    rfl
  · show (intel_fdc_finish_command m 0x12).regs 0x17 &&& 0x80 = 0
    rw [a5]
    unfold and_not8
    rw [Nat.land_assoc]
    exact Nat.and_zero _
  · intro evs t ht
    exact (disc_drive_deliver_bytes_idle evs _ t a1 hwe ht).2.2.trans hdw

/-- Witness for C6: WRITE_DATA on a write-protected disc. -/
theorem intel_fdc_post_seek_dispatch_no_write_witness :
    intel_fdc_command_is_writing intel_fdc_write_on_protected_disc = true ∧
      (intel_fdc_check_drive_ready intel_fdc_write_on_protected_disc).2 = true ∧
      (intel_fdc_do_read_drive_status intel_fdc_write_on_protected_disc).1.regs
        k_intel_fdc_register_internal_drive_in_latched &&& 0x08 ≠ 0 ∧
      intel_fdc_write_on_protected_disc.regs
        k_intel_fdc_register_internal_result < 256 ∧
      (intel_fdc_post_seek_dispatch intel_fdc_write_on_protected_disc).regs
        k_intel_fdc_register_internal_result =
          k_intel_fdc_result_write_protected :=
  ⟨by decide, by decide, by decide, by decide,
    (intel_fdc_post_seek_dispatch_no_write intel_fdc_write_on_protected_disc
      (by decide) (by decide) (by decide) (by decide)).2.1 (by decide)⟩

/-- C7: with the drive ready at every sector end and nothing but
`intel_fdc_check_completion` changing parameter 3 between sector ends, a
sector command (internal command 0..7) that starts with parameter 3 = `p` is
finished by `intel_fdc_check_completion` on the `k`-th completed sector,
`k = p & 0x1F` or 32 when that is 0, and not on an earlier one: each earlier
call advances parameter 2 by `param_4 & 0x3F` modulo 256 and re-dispatches
the command.  `st j` is the controller state on entry to call `j + 1`. -/
theorem intel_fdc_check_completion_sector_count (st : Nat → intel_fdc_struct)
    (k : Nat)
    (hk : k = if (st 0).regs k_intel_fdc_register_internal_param_3 &&& 0x1F ≠ 0
      then (st 0).regs k_intel_fdc_register_internal_param_3 &&& 0x1F else 32)
    (hready : ∀ j, j < k → (intel_fdc_check_drive_ready (st j)).2 = true)
    (hcmd : ∀ j, j < k → intel_fdc_get_internal_command (st j) ≤ 7)
    (hnext : ∀ j, j + 1 < k →
      (intel_fdc_check_completion (st j)).toOption.map
          (fun t => t.regs k_intel_fdc_register_internal_param_3) =
        some ((st (j + 1)).regs k_intel_fdc_register_internal_param_3)) :
    (∀ j, j + 1 < k →
      ∃ m, intel_fdc_check_completion (st j) = intel_fdc_do_command_dispatch m ∧
        m.regs k_intel_fdc_register_internal_param_3 &&& 0x1F ≠ 0 ∧
        m.regs k_intel_fdc_register_internal_param_2 =
          ((st j).regs k_intel_fdc_register_internal_param_2 +
            ((st j).regs k_intel_fdc_register_internal_param_4 &&& 0x3F)) % 256) ∧
      (∃ m, intel_fdc_check_completion (st (k - 1)) =
          Except.ok (intel_fdc_finish_command m k_intel_fdc_result_ok) ∧
        m.regs k_intel_fdc_register_internal_param_3 &&& 0x1F = 0) ∧
      1 ≤ k ∧ k ≤ 32 := by
  simp only [k_intel_fdc_register_internal_param_3,
    k_intel_fdc_register_internal_param_2,
    k_intel_fdc_register_internal_param_4, and_31_eq_mod] at hk hnext ⊢
  have hk1 : 1 ≤ k ∧ k ≤ 32 := by
    rw [hk]
    split_ifs <;> omega
  have hinv : ∀ j, j < k → (st j).regs 5 % 32 = ((st 0).regs 5 + 255 * j) % 32 := by
    intro j
    induction j with
    | zero => intro _; simp
    | succ j ih =>
      intro hj
      have ihj := ih (by omega)
      obtain ⟨m, m', -, m5, -, m31, hm⟩ :=
        intel_fdc_check_completion_ready (st j) (hready j (by omega))
      have hn := hnext j hj
      have hne : ¬ (((st j).regs 5 + 255) % 256 &&& 0x1F = 0) := by
        rw [and_31_eq_mod]
        have := (sector_countdown ((st 0).regs 5) j).1
        have := (sector_countdown ((st 0).regs 5) j).2.1
        split_ifs at hk <;> omega
      rw [hm, if_neg hne] at hn
      rcases hd : intel_fdc_do_command_dispatch m' with e | t
      · rw [hd] at hn
        simp [Except.toOption] at hn
      · rw [hd] at hn
        simp only [Except.toOption, Option.map_some', Option.some.injEq] at hn
        have hc : intel_fdc_get_internal_command m' ≤ 7 := by
          rw [intel_fdc_get_internal_command_congr (st j) m' m31]
          exact hcmd j (by omega)
        have hfr := (intel_fdc_do_command_dispatch_frame m' t hc hd).1 5
          (by simp [seek_footprint, post_seek_footprint])
        rw [← hn, hfr, m5]
        omega
  refine ⟨fun j hj => ?_, ?_, hk1⟩
  · obtain ⟨m, m', -, m5, m6, -, hm⟩ :=
      intel_fdc_check_completion_ready (st j) (hready j (by omega))
    have hne : ¬ (((st j).regs 5 + 255) % 256 &&& 0x1F = 0) := by
      rw [and_31_eq_mod]
      have := hinv j (by omega)
      have := (sector_countdown ((st 0).regs 5) j).1
      have := (sector_countdown ((st 0).regs 5) j).2.1
      split_ifs at hk <;> omega
    rw [if_neg hne] at hm
    refine ⟨m', hm, ?_, m6⟩
    rw [m5, ← and_31_eq_mod]
    exact hne
  · obtain ⟨m, m', m5, -, -, -, hm⟩ :=
      intel_fdc_check_completion_ready (st (k - 1)) (hready (k - 1) (by omega))
    have he : ((st (k - 1)).regs 5 + 255) % 256 &&& 0x1F = 0 := by
      rw [and_31_eq_mod]
      have := hinv (k - 1) (by omega)
      have := (sector_countdown ((st 0).regs 5) 0).2.2.1
      have := (sector_countdown ((st 0).regs 5) 0).2.2.2
      split_ifs at hk <;> omega
    rw [if_pos he] at hm
    refine ⟨m, hm, ?_⟩
    rw [m5, ← and_31_eq_mod]
    exact he

/-- Witness for C7: a READ_DATA command for two sectors. -/
theorem intel_fdc_check_completion_sector_count_witness :
    (2 = if (intel_fdc_sector_read 0).regs
          k_intel_fdc_register_internal_param_3 &&& 0x1F ≠ 0
        then (intel_fdc_sector_read 0).regs
          k_intel_fdc_register_internal_param_3 &&& 0x1F else 32) ∧
      (∀ j, j < 2 →
        (intel_fdc_check_drive_ready (intel_fdc_sector_read j)).2 = true) ∧
      (∀ j, j < 2 →
        intel_fdc_get_internal_command (intel_fdc_sector_read j) ≤ 7) ∧
      (intel_fdc_check_completion (intel_fdc_sector_read 0)).toOption.map
          (fun t => t.regs k_intel_fdc_register_internal_param_3) =
        some ((intel_fdc_sector_read 1).regs
          k_intel_fdc_register_internal_param_3) ∧
      (∃ m, intel_fdc_check_completion (intel_fdc_sector_read 0) =
          intel_fdc_do_command_dispatch m ∧
        m.regs k_intel_fdc_register_internal_param_2 = 5) ∧
      ∃ m, intel_fdc_check_completion (intel_fdc_sector_read 1) =
        Except.ok (intel_fdc_finish_command m k_intel_fdc_result_ok) :=
  ⟨by decide, by decide, by decide, by decide,
    ((intel_fdc_check_completion_sector_count intel_fdc_sector_read 2
      (by decide) (by decide) (by decide)
      (fun j hj => by
        have h0 : j = 0 := by omega
        subst h0
        decide)).1 0 (by decide)).imp
      (fun _ h => ⟨h.1, h.2.2⟩),
    (intel_fdc_check_completion_sector_count intel_fdc_sector_read 2
      (by decide) (by decide) (by decide)
      (fun j hj => by
        have h0 : j = 0 := by omega
        subst h0
        decide)).2.1.imp
      (fun _ h => h.1)⟩

/-- C8: when the remapped seek target equals the current track (the track
register of the selected drive, or 255 for target 0), `intel_fdc_do_seek`
goes straight to `intel_fdc_do_load_head` with `is_settle = 0`.  On that
transfer only the two seek-target registers and the low-head-current bit have
changed: seek count, direction bit, track register and both drives are as
before.  After the head load the seek count, the track registers and the
physical tracks of both drives are still unchanged. -/
theorem intel_fdc_do_seek_same_track (s : intel_fdc_struct)
    (hd : s.drive_out < 256)
    (h : intel_fdc_do_seek_new_track s =
      (if intel_fdc_do_seek_new_track s = 0 then 255
        else s.regs (intel_fdc_do_seek_track_regs s + 2))) :
    ∃ s1,
      s1 = { s with
        regs := set_reg
          (set_reg s.regs k_intel_fdc_register_internal_seek_target_1
            (intel_fdc_do_seek_new_track s))
          k_intel_fdc_register_internal_seek_target_2
          (intel_fdc_do_seek_new_track s),
        drive_out :=
          if intel_fdc_do_seek_new_track s ≥ 43 then
            (s.drive_out ||| k_intel_fdc_drive_out_low_head_current) % 256
          else
            and_not8 s.drive_out k_intel_fdc_drive_out_low_head_current } ∧
      intel_fdc_do_seek s = Except.ok (intel_fdc_do_load_head s1 false) ∧
      s1.regs k_intel_fdc_register_internal_seek_count =
        s.regs k_intel_fdc_register_internal_seek_count ∧
      s1.drive_out &&& k_intel_fdc_drive_out_direction =
        s.drive_out &&& k_intel_fdc_drive_out_direction ∧
      s1.regs (intel_fdc_do_seek_track_regs s + 2) =
        s.regs (intel_fdc_do_seek_track_regs s + 2) ∧
      s1.drive_0 = s.drive_0 ∧ s1.drive_1 = s.drive_1 ∧
      (intel_fdc_do_load_head s1 false).regs
          k_intel_fdc_register_internal_seek_count =
        s.regs k_intel_fdc_register_internal_seek_count ∧
      (intel_fdc_do_load_head s1 false).regs
          (intel_fdc_do_seek_track_regs s + 2) =
        s.regs (intel_fdc_do_seek_track_regs s + 2) ∧
      (intel_fdc_do_load_head s1 false).drive_0.track = s.drive_0.track ∧
      (intel_fdc_do_load_head s1 false).drive_1.track = s.drive_1.track := by
  have htr : ∀ v, set_reg (set_reg s.regs 0x0B v) 0x0C v
      (intel_fdc_do_seek_track_regs s + 2) =
      s.regs (intel_fdc_do_seek_track_regs s + 2) := by
    intro v
    rcases intel_fdc_do_seek_track_regs_cases s with h | h <;>
      simp [h, set_reg]
  refine ⟨_, rfl, ?_, ?_, ?_, ?_, rfl, rfl, ?_, ?_, ?_, ?_⟩
  · unfold intel_fdc_do_seek
    by_cases h43 : intel_fdc_do_seek_new_track s ≥ 43
    · simp only [h43, if_true, k_intel_fdc_register_internal_seek_target_1,
        k_intel_fdc_register_internal_seek_target_2, htr]
      rw [if_pos h]
    · simp only [h43, if_false, k_intel_fdc_register_internal_seek_target_1,
        k_intel_fdc_register_internal_seek_target_2, htr]
      rw [if_pos h]
  · simp [set_reg]
  · show (if intel_fdc_do_seek_new_track s ≥ 43 then (s.drive_out ||| 0x10) % 256
      else and_not8 s.drive_out 0x10) &&& 0x04 = s.drive_out &&& 0x04
    split_ifs
    · exact low_head_current_keeps_direction _ hd
    · unfold and_not8
      rw [Nat.land_assoc]
      rfl
  · exact htr _
  · rw [(intel_fdc_do_load_head_frame _ false).1 0x0A
      (by simp [post_seek_footprint])]
    simp [set_reg]
  · have hfoot : ¬ post_seek_footprint (intel_fdc_do_seek_track_regs s + 2) := by
      rcases intel_fdc_do_seek_track_regs_cases s with h | h <;>
        simp [h, post_seek_footprint]
    rw [(intel_fdc_do_load_head_frame _ false).1 _ hfoot]
    exact htr _
  · exact (intel_fdc_do_load_head_frame _ false).2.2.1
  · exact (intel_fdc_do_load_head_frame _ false).2.2.2.1

/-- Witness for C8: a seek to track 2 while the track register of drive 0
holds 2. -/
theorem intel_fdc_do_seek_same_track_witness :
    intel_fdc_seek_on_track.drive_out < 256 ∧
      intel_fdc_do_seek_new_track intel_fdc_seek_on_track =
        (if intel_fdc_do_seek_new_track intel_fdc_seek_on_track = 0 then 255
          else intel_fdc_seek_on_track.regs
            (intel_fdc_do_seek_track_regs intel_fdc_seek_on_track + 2)) ∧
      ∃ s1, intel_fdc_do_seek intel_fdc_seek_on_track =
        Except.ok (intel_fdc_do_load_head s1 false) :=
  ⟨by decide, by decide,
    (intel_fdc_do_seek_same_track intel_fdc_seek_on_track (by decide)
      (by decide)).imp (fun _ h => h.2.1)⟩

/-- C9: a read of MMIO address 0 (any address whose low three bits are 0)
returns the internal status register masked with 0xBC, so bits 0x03 and 0x40
read as zero, and leaves the controller state as it was. -/
theorem intel_fdc_read_status (s : intel_fdc_struct) (addr : Nat)
    (h : addr &&& 0x07 = 0) :
    intel_fdc_read s addr =
        Except.ok (s, s.regs k_intel_fdc_register_internal_status &&& 0xBC) ∧
      (s.regs k_intel_fdc_register_internal_status &&& 0xBC) &&& 0x43 = 0 := by
  constructor
  · simp only [intel_fdc_read, h, k_intel_fdc_status, if_true,
      intel_fdc_get_external_status, intel_fdc_get_status, and_not8]
    rw [Nat.land_assoc]
    rfl
  · rw [Nat.land_assoc]
    exact Nat.and_zero _

/-- Witness for C9: the status read at address 8 in the middle of a sector
read, where the status register holds 0x8C. -/
theorem intel_fdc_read_status_witness :
    (8 &&& 0x07 = 0) ∧
      intel_fdc_read intel_fdc_reading_sector 8 =
        Except.ok (intel_fdc_reading_sector,
          intel_fdc_reading_sector.regs k_intel_fdc_register_internal_status &&&
            0xBC) :=
  ⟨by decide, (intel_fdc_read_status intel_fdc_reading_sector 8 (by decide)).1⟩

/-- C10: a read of MMIO address 1 returns the result register and clears
exactly the result-ready (0x10) and NMI (0x08) bits of the status register;
the result register, the other status bits and all other registers keep their
values, and the only other change is that the NMI line is lowered. -/
theorem intel_fdc_read_result (s : intel_fdc_struct) (addr : Nat)
    (h : addr &&& 0x07 = 1) :
    ∃ t, intel_fdc_read s addr =
        Except.ok (t, s.regs k_intel_fdc_register_internal_result) ∧
      t = { s with
        regs := set_reg s.regs k_intel_fdc_register_internal_status
          (s.regs k_intel_fdc_register_internal_status &&& 0xE7),
        nmi_level := false } ∧
      t.regs k_intel_fdc_register_internal_status &&& 0x18 = 0 ∧
      t.regs k_intel_fdc_register_internal_status &&& 0xE7 =
        s.regs k_intel_fdc_register_internal_status &&& 0xE7 ∧
      t.regs k_intel_fdc_register_internal_result =
        s.regs k_intel_fdc_register_internal_result ∧
      ∀ r, r ≠ k_intel_fdc_register_internal_status → t.regs r = s.regs r := by
  refine ⟨_, ?_, rfl, ?_, ?_, ?_, ?_⟩
  · have h8 : (s.regs 23 &&& 231) &&& 8 = 0 := by
      rw [Nat.land_assoc]
      exact Nat.and_zero _
    have hc : (255 ^^^ (16 ||| 8) : Nat) = 231 := by decide
    simp [intel_fdc_read, h, intel_fdc_get_result, intel_fdc_status_lower,
      and_not8, intel_fdc_update_nmi, intel_fdc_get_status,
      state_6502_set_irq_level, h8, hc]
  · show set_reg s.regs 23 (s.regs 23 &&& 231) 23 &&& 24 = 0
    rw [set_reg_same, Nat.land_assoc]
    exact Nat.and_zero _
  · show set_reg s.regs 23 (s.regs 23 &&& 231) 23 &&& 231 = s.regs 23 &&& 231
    rw [set_reg_same, Nat.land_assoc]
    rfl
  · show set_reg s.regs 23 (s.regs 23 &&& 231) 22 = s.regs 22
    exact set_reg_other _ _ _ _ (by decide)
  · intro r hr
    exact set_reg_other s.regs _ _ _ hr

/-- Witness for C10: the result read at address 9 in the middle of a sector
read. -/
theorem intel_fdc_read_result_witness :
    (9 &&& 0x07 = 1) ∧
      ∃ t, intel_fdc_read intel_fdc_reading_sector 9 =
        Except.ok (t, intel_fdc_reading_sector.regs
          k_intel_fdc_register_internal_result) :=
  ⟨by decide,
    (intel_fdc_read_result intel_fdc_reading_sector 9 (by decide)).imp
      (fun _ h => h.1)⟩

/-! ## The claims, continued -/

/-- C11: for every address whose low three bits are 4, 5, 6 or 7,
`intel_fdc_read` returns the data register (0x1D) and `intel_fdc_write` stores
the written value there; both clear exactly the need-data (0x04) and NMI
(0x08) bits of the status register, lower the NMI line, and change no other
register.  The outcome is the same for all four addresses and is the one of
the address reduced to its low three bits. -/
theorem intel_fdc_data_register_access (s : intel_fdc_struct) (addr val : Nat)
    (h : addr &&& 0x07 = 4 ∨ addr &&& 0x07 = 5 ∨ addr &&& 0x07 = 6 ∨
      addr &&& 0x07 = 7) :
    ∃ t u,
      intel_fdc_read s addr =
        Except.ok (t, s.regs k_intel_fdc_register_internal_data) ∧
      intel_fdc_write s addr val = Except.ok u ∧
      t = { s with
        regs := set_reg s.regs k_intel_fdc_register_internal_status
          (s.regs k_intel_fdc_register_internal_status &&& 0xF3),
        nmi_level := false } ∧
      u = { t with
        regs := set_reg t.regs k_intel_fdc_register_internal_data val } ∧
      t.regs k_intel_fdc_register_internal_status &&& 0x0C = 0 ∧
      t.regs k_intel_fdc_register_internal_status &&& 0xF3 =
        s.regs k_intel_fdc_register_internal_status &&& 0xF3 ∧
      u.regs k_intel_fdc_register_internal_status =
        t.regs k_intel_fdc_register_internal_status ∧
      u.regs k_intel_fdc_register_internal_data = val ∧
      (∀ r, r ≠ k_intel_fdc_register_internal_status → t.regs r = s.regs r) ∧
      (∀ r, r ≠ k_intel_fdc_register_internal_status →
        r ≠ k_intel_fdc_register_internal_data → u.regs r = s.regs r) ∧
      intel_fdc_read s (addr &&& 0x07) = intel_fdc_read s addr ∧
      intel_fdc_write s (addr &&& 0x07) val = intel_fdc_write s addr val := by
  have h8 : (s.regs 23 &&& 243) &&& 8 = 0 := by
    rw [Nat.land_assoc]
    exact Nat.and_zero _
  have hc : (255 ^^^ (4 ||| 8) : Nat) = 243 := by decide
  have hm : (addr &&& 7) &&& 7 = addr &&& 7 := by
    rw [Nat.land_assoc]
    rfl
  have hr : intel_fdc_read s addr =
      Except.ok ({ s with
        regs := set_reg s.regs 23 (s.regs 23 &&& 243),
        nmi_level := false }, s.regs 29) := by
    rcases h with h | h | h | h <;>
      simp [intel_fdc_read, h, intel_fdc_get_result, intel_fdc_status_lower,
        and_not8, intel_fdc_update_nmi, intel_fdc_get_status,
        state_6502_set_irq_level, h8, hc, set_reg]
  have hw : intel_fdc_write s addr val =
      Except.ok { s with
        regs := set_reg (set_reg s.regs 23 (s.regs 23 &&& 243)) 29 val,
        nmi_level := false } := by
    rcases h with h | h | h | h <;>
      simp [intel_fdc_write, h, intel_fdc_status_lower,
        and_not8, intel_fdc_update_nmi, intel_fdc_get_status,
        state_6502_set_irq_level, h8, hc]
  refine ⟨_, _, hr, hw, rfl, rfl, ?_, ?_, ?_, ?_, ?_, ?_, ?_, ?_⟩
  · show set_reg s.regs 23 (s.regs 23 &&& 243) 23 &&& 12 = 0
    rw [set_reg_same, Nat.land_assoc]
    exact Nat.and_zero _
  · show set_reg s.regs 23 (s.regs 23 &&& 243) 23 &&& 243 = s.regs 23 &&& 243
    rw [set_reg_same, Nat.land_assoc]
    rfl
  · show set_reg (set_reg s.regs 23 (s.regs 23 &&& 243)) 29 val 23 =
      set_reg s.regs 23 (s.regs 23 &&& 243) 23
    exact set_reg_other _ _ _ _ (by decide)
  · show set_reg (set_reg s.regs 23 (s.regs 23 &&& 243)) 29 val 29 = val
    exact set_reg_same _ _ _
  · intro r hr
    exact set_reg_other s.regs _ _ _ hr
  · intro r h1 h2
    show set_reg (set_reg s.regs 23 (s.regs 23 &&& 243)) 29 val r = s.regs r
    rw [set_reg_other _ _ _ _ h2, set_reg_other _ _ _ _ h1]
  · unfold intel_fdc_read
    rw [hm]
  · unfold intel_fdc_write
    rw [hm]

/-- Witness for C11: the data register is read and written at address 6 in the
middle of a sector read. -/
theorem intel_fdc_data_register_access_witness :
    (6 &&& 0x07 = 4 ∨ 6 &&& 0x07 = 5 ∨ 6 &&& 0x07 = 6 ∨ 6 &&& 0x07 = 7) ∧
      ∃ t u,
        intel_fdc_read intel_fdc_reading_sector 6 =
          Except.ok (t, intel_fdc_reading_sector.regs
            k_intel_fdc_register_internal_data) ∧
        intel_fdc_write intel_fdc_reading_sector 6 0x5A = Except.ok u :=
  ⟨by decide,
    (intel_fdc_data_register_access intel_fdc_reading_sector 6 0x5A
      (by decide)).imp
      (fun _ h => h.imp (fun _ h2 => ⟨h2.1, h2.2.1⟩))⟩

/-- C12: read at the failing input.  On a track of 3125 words with the
position in its last word, `disc_tool_read_pulses` leaves the position at or
beyond 32 * 3125 instead of wrapping it, and with a bit offset of 8 it takes
the low 8 bits of its result from word 3125, outside the track, where the
circular bit stream continues with word 0. -/
theorem disc_tool_read_pulses_last_word :
    (disc_tool_read_pulses 80 (disc_tool_in_last_word 0)).toOption.map
        (fun r => (r.1.pos, r.2)) = some (100000, 0) ∧
      (32 * 3124 + 0 + 32) % (32 * 3125) = 0 ∧
      (disc_tool_read_pulses 80 (disc_tool_in_last_word 8)).toOption.map
        (fun r => (r.1.pos, r.2)) = some (100008, 0xFF) ∧
      (32 * 3124 + 8 + 32) % (32 * 3125) = 8 ∧
      disc_tool_circular_pulses (disc_with_word_after_track.pulses 0 0) 3125
        (32 * 3124 + 8) = 0 := by
  decide

/-- C13, counterexample: the last word of a track of 3126 words holds
0xFFFFFFFF, pulses in all 32 slots.  Reading one byte of clocks and data at
byte position 3125 and writing them back there leaves 0xAAAAAAAA in the
word. -/
theorem disc_tool_read_write_back_changes_word :
    disc_tool_on_long_track.track < 80 ∧
      3125 < disc_tool_on_long_track.track_length ∧
      1 ≤ disc_tool_on_long_track.track_length ∧
      disc_tool_pulses disc_tool_on_long_track 0 0 3125 = 0xFFFFFFFF ∧
      (disc_tool_read_write_back 80 disc_tool_on_long_track 3125
        1).toOption.map (fun t => disc_tool_pulses t 0 0 3125) =
          some 0xAAAAAAAA := by
  decide!

/-- C13, amended: on a track with a pulse buffer, of at most 2 ^ 27 words,
for a byte position `pos` inside the track and a length `len` that does not
run past the end of the track, when each of the words `pos` to
`pos + len - 1` is the FM encoding of the clocks and data it decodes to:
reading `len` bytes of clocks and data at `pos` and writing them back at `pos`
returns and leaves every word of every pulse buffer of the disc as it was. -/
theorem disc_tool_read_write_back_unchanged (tpd : Nat)
    (t : disc_tool_struct) (d : disc_struct) (pos len : Nat)
    (hd : t.p_disc = some d) (ht : t.track < tpd)
    (hpos : pos < t.track_length) (hlen : pos + len ≤ t.track_length)
    (hL : t.track_length ≤ 2 ^ 27)
    (hfm : ∀ i, pos ≤ i → i < pos + len →
      ibm_disc_format_is_fm (disc_tool_track_words t i)) :
    ∃ t', disc_tool_read_write_back tpd t pos len = Except.ok t' ∧
      ∀ side track i,
        disc_tool_pulses t' side track i =
          disc_tool_pulses t side track i := by
  have e27 : (2 : Nat) ^ 27 = 134217728 := by norm_num
  have e32 : (2 : Nat) ^ 32 = 4294967296 := by norm_num
  have hp0 : disc_tool_get_pulses tpd (disc_tool_set_byte_pos t pos) =
      some (disc_tool_track_words t) :=
    disc_tool_get_pulses_some tpd t d hd ht
  have hnot : ¬ pos ≥ t.track_length := by omega
  have hpos0 : (disc_tool_set_byte_pos t pos).pos = (32 * pos) % 2 ^ 32 := by
    unfold disc_tool_set_byte_pos
    simp only [hnot, if_false]
    rw [Nat.mul_comm]
  obtain ⟨c', d', e1, r1, _⟩ := disc_tool_read_fm_data_loop_aligned tpd
    (disc_tool_track_words t) len 0 (disc_tool_set_byte_pos t pos)
    (fun _ => 0) (fun _ => 0) pos hp0 hpos0 hlen hL
  unfold disc_tool_read_write_back disc_tool_read_fm_data
  rw [e1]
  simp only [Option.getD_some]
  generalize ht1 : disc_tool_set_byte_pos
    { disc_tool_set_byte_pos t pos with
      pos := (32 * (pos + len)) % 2 ^ 32 } pos = t1
  have f1 : t1.p_disc = t.p_disc ∧ t1.is_side_upper = t.is_side_upper ∧
      t1.track = t.track ∧ t1.track_length = t.track_length ∧
      t1.pos = 32 * pos := by
    rw [← ht1]
    refine ⟨rfl, rfl, rfl, rfl, ?_⟩
    unfold disc_tool_set_byte_pos
    simp only [hnot, if_false]
    rw [e32]
    omega
  obtain ⟨g1, g2, g3, g4, g5⟩ := f1
  have hp1 : disc_tool_get_pulses tpd t1 = some (disc_tool_track_words t1) :=
    disc_tool_get_pulses_some tpd t1 d (g1.trans hd) (by rw [g3]; exact ht)
  obtain ⟨w1, _, _, w4, w5⟩ := disc_tool_write_fm_data_loop_pulses (some c')
    d' t.track_length t1 pos (32 * pos) ⟨d, g1.trans hd⟩ hpos (by omega) len
    hlen
  have hw : disc_tool_write_fm_data tpd t1 (some c') d' len =
      Except.ok (disc_tool_commit_write
        { ((List.range len).foldl
            (disc_tool_write_fm_data_step (some c') d' t.track_length)
            (t1, pos, 32 * pos)).1 with
          pos := ((List.range len).foldl
            (disc_tool_write_fm_data_step (some c') d' t.track_length)
            (t1, pos, 32 * pos)).2.2 }) := by
    unfold disc_tool_write_fm_data
    have b1 : 32 * pos % 32 = 0 := by omega
    have b2 : 32 * pos / 32 = pos := by omega
    simp only [b1, b2, hp1, g4, g5, ne_eq, not_true_eq_false, if_false]
  rw [hw]
  refine ⟨_, rfl, ?_⟩
  intro side track i
  rw [disc_tool_commit_write_pulses]
  show disc_tool_pulses ((List.range len).foldl
    (disc_tool_write_fm_data_step (some c') d' t.track_length)
    (t1, pos, 32 * pos)).1 side track i = _
  rw [w1 side track i]
  have hsame : disc_tool_pulses t1 side track i =
      disc_tool_pulses t side track i := by
    unfold disc_tool_pulses
    rw [g1]
  by_cases hsel : side = t1.is_side_upper ∧ track = t1.track ∧ pos ≤ i ∧
      i < pos + len
  · rw [if_pos hsel]
    obtain ⟨s1, s2, s3, s4⟩ := hsel
    obtain ⟨a, b⟩ := r1 (i - pos) (by omega)
    have ei : pos + (i - pos) = i := by omega
    rw [Nat.zero_add, ei] at a b
    have hfmi := hfm i s3 s4
    have hlt : disc_tool_track_words t i < 2 ^ 32 := by
      unfold ibm_disc_format_is_fm at hfmi
      rw [← hfmi]
      exact ibm_disc_format_fm_to_2us_pulses_lt _ _
    rw [Nat.mod_eq_of_lt hlt] at a b
    show ibm_disc_format_fm_to_2us_pulses (c' (i - pos)) (d' (i - pos)) = _
    rw [a, b, hfmi, disc_tool_track_words_eq_pulses, s1, s2, g2, g3]
  · rw [if_neg hsel]
    exact hsame

/-- Witness for C13: two bytes are read and written back at byte position 1
of a track of four words that hold a sync byte, an ID mark, a sync byte and a
data mark. -/
theorem disc_tool_read_write_back_unchanged_witness :
    (disc_tool_on_marks.p_disc = some disc_with_marks ∧
        disc_tool_on_marks.track < 80 ∧
        1 < disc_tool_on_marks.track_length ∧
        1 + 2 ≤ disc_tool_on_marks.track_length ∧
        disc_tool_on_marks.track_length ≤ 2 ^ 27 ∧
        ∀ i, 1 ≤ i → i < 1 + 2 →
          ibm_disc_format_is_fm
            (disc_tool_track_words disc_tool_on_marks i)) ∧
      ∃ t', disc_tool_read_write_back 80 disc_tool_on_marks 1 2 =
          Except.ok t' ∧
        ∀ side track i,
          disc_tool_pulses t' side track i =
            disc_tool_pulses disc_tool_on_marks side track i :=
  ⟨⟨rfl, by decide, by decide, by decide, by decide,
      fun i h1 h2 => by
        have h : i = 1 ∨ i = 2 := by omega
        rcases h with h | h <;> subst h <;> decide⟩,
    disc_tool_read_write_back_unchanged 80 disc_tool_on_marks disc_with_marks
      1 2 rfl (by decide) (by decide) (by decide) (by decide)
      (fun i h1 h2 => by
        have h : i = 1 ∨ i = 2 := by omega
        rcases h with h | h <;> subst h <;> decide)⟩

/-- C14, counterexample: on a track of 2 ^ 27 + 1 words the byte position
2 ^ 27 lies inside the track, yet after `disc_tool_set_byte_pos` the tool
reports byte position 0, because the bit position 2 ^ 32 does not fit the
32-bit field. -/
theorem disc_tool_set_byte_pos_overflow :
    134217728 < (disc_tool_with_track_length 134217729).track_length ∧
      (disc_tool_with_track_length 134217729).track_length < 2 ^ 32 ∧
      disc_tool_get_byte_pos
        (disc_tool_set_byte_pos (disc_tool_with_track_length 134217729)
          134217728) = 0 := by
  decide

/-- C14, amended: after `disc_tool_set_byte_pos p`, on a track of at most
2 ^ 27 words the byte position read back is `p` when `p` is inside the track
and 0 otherwise; on every track, whatever its length, the byte position read
back is `p` modulo 2 ^ 27 when `p` is inside the track and 0 otherwise, the
bit position is a multiple of 32 and, when the track is not empty, it is below
32 times the track length. -/
theorem disc_tool_set_byte_pos_get_byte_pos (p_tool : disc_tool_struct)
    (p : Nat) :
    (p_tool.track_length ≤ 2 ^ 27 →
        disc_tool_get_byte_pos (disc_tool_set_byte_pos p_tool p) =
          (if p < p_tool.track_length then p else 0)) ∧
      disc_tool_get_byte_pos (disc_tool_set_byte_pos p_tool p) =
        (if p < p_tool.track_length then p % 2 ^ 27 else 0) ∧
      (disc_tool_set_byte_pos p_tool p).pos % 32 = 0 ∧
      (0 < p_tool.track_length →
        (disc_tool_set_byte_pos p_tool p).pos < 32 * p_tool.track_length) := by
  unfold disc_tool_get_byte_pos disc_tool_set_byte_pos
  simp only []
  by_cases hp : p < p_tool.track_length
  · have h1 : ¬ p ≥ p_tool.track_length := by omega
    simp only [h1, hp, if_true, if_false]
    refine ⟨?_, ?_, ?_, ?_⟩
    · intro h
      norm_num at h
      omega
    · omega
    · omega
    · intro _
      omega
  · have h1 : p ≥ p_tool.track_length := by omega
    simp only [h1, hp, if_true, if_false]
    refine ⟨?_, ?_, ?_, ?_⟩
    · intro _
      omega
    · omega
    · omega
    · intro h
      omega

/-- C14, witness: a standard track of 3125 words is within the bound, and byte
position 7 set on it is read back as 7. -/
theorem disc_tool_set_byte_pos_get_byte_pos_witness :
    (disc_tool_with_track_length 3125).track_length ≤ 2 ^ 27 ∧
      disc_tool_get_byte_pos
        (disc_tool_set_byte_pos (disc_tool_with_track_length 3125) 7) =
          (if 7 < (disc_tool_with_track_length 3125).track_length then 7
            else 0) :=
  ⟨by decide,
    (disc_tool_set_byte_pos_get_byte_pos (disc_tool_with_track_length 3125)
      7).1 (by decide)⟩

/-- C15, counterexample: three tracks that hold the example sector, a sync
byte, an ID mark, the header 0, 0, 1, 0 with its CRC 0xD2C3, a sync byte, the
data mark 0xFB and 128 bytes 0xE5 with their CRC 0x5D30, word-aligned.  On the
first the sector comes behind 32 other ID marks and the scan ends in
`util_bail`.  On the second one more data mark stands between the header and
the data record of the sector, and the descriptor takes that mark as its data
position, bit 319, with `has_data_crc_error` 1.  The third has 2 ^ 27 words,
the bit length of the track is 0 in 32 bits, and the scan returns no
descriptor. -/
theorem disc_tool_find_sectors_sector_not_described :
    disc_tool_record_crc k_ibm_disc_id_mark_data_pattern
        disc_tool_example_header 4 =
      disc_tool_example_header 4 * 256 + disc_tool_example_header 5 ∧
    disc_tool_record_crc k_ibm_disc_data_mark_data_pattern
        disc_tool_example_data 128 =
      disc_tool_example_data 128 * 256 + disc_tool_example_data 129 ∧
    (∀ i, i < 140 →
      disc_tool_track_words disc_tool_on_sector_after_32 (64 + i) =
        disc_tool_example_sector i) ∧
    disc_tool_find_sectors 80 disc_tool_on_sector_after_32 0 =
      Except.error Fault.bail ∧
    (∀ i, i < 8 →
      disc_tool_track_words disc_tool_on_sector_behind_mark i =
        disc_tool_example_sector i) ∧
    (∀ i, 8 ≤ i → i < 140 →
      disc_tool_track_words disc_tool_on_sector_behind_mark (2 + i) =
        disc_tool_example_sector i) ∧
    (disc_tool_find_sectors 80 disc_tool_on_sector_behind_mark
        0).toOption.map
      (fun t => (t.num_sectors, (t.sectors 0).bit_pos_header,
        (t.sectors 0).bit_pos_data, (t.sectors 0).has_data_crc_error)) =
      some (1, 63, 319, 1) ∧
    (∀ i, i < 140 →
      disc_tool_track_words (disc_tool_on_sector (2 ^ 27)) i =
        disc_tool_example_sector i) ∧
    (disc_tool_find_sectors 80 (disc_tool_on_sector (2 ^ 27))
        0).toOption.map (fun t => t.num_sectors) = some 0 := by
  refine ⟨by decide!, by decide!, by decide!, ?_, by decide!, by decide!,
    by decide!, by decide!, by decide!⟩
  have h1 : k_max_sectors < disc_tool_id_marks
      (disc_tool_track_words disc_tool_on_sector_after_32) (32 * 66) := by
    decide!
  have h2 := disc_tool_id_marks_le
    (disc_tool_track_words disc_tool_on_sector_after_32) (32 * 66)
    ((disc_tool_on_sector_after_32.track_length * 32) % 2 ^ 32) (by decide)
  exact (disc_tool_find_sectors_run 80 disc_tool_on_sector_after_32
    disc_with_sector_after_32 rfl (by decide)).2 (Nat.lt_of_lt_of_le h1 h2)

/-- C15, amended: on a track with a pulse buffer, of fewer than 2 ^ 27 words,
that holds no more than 32 ID marks: when the track holds, word-aligned and
in this order inside the track, a sync byte (clocks 0xFF, data 0x00) in word
`w - 1`, an ID mark (clocks 0xC7, data 0xFE) in word `w`, the six bytes `hb`
(t, h, s, n and two CRC bytes) behind it, a sync byte in word `v - 1`, a data
mark (clocks 0xC7, data 0xFB or 0xF8) in word `v` and behind it
min(128 << (n & 7), 2048) data bytes and two CRC bytes `sd`, and no ID mark
and no data mark is recognised between the two marks, then
`disc_tool_find_sectors` returns with a descriptor for the sector, the one
whose index is the number of ID marks before it: it has the bit positions of
the two marks, the deleted flag set for the mark 0xF8 only, the six header
bytes as they are on the track, `has_header_crc_error` 0 when the CRC-16 of
(0xFE, t, h, s, n) is the two CRC bytes on the track and 1 when it is not,
and `has_data_crc_error` 0 when the CRC-16 of the mark and the data is the two
CRC bytes on the track and 1 when it is not. -/
theorem disc_tool_find_sectors_sector_on_track (tpd : Nat)
    (t : disc_tool_struct) (d : disc_struct) (w v mark : Nat)
    (hb sd : Nat → Nat)
    (hd : t.p_disc = some d) (ht : t.track < tpd)
    (hL : t.track_length < 2 ^ 27)
    (hc : disc_tool_id_marks (disc_tool_track_words t)
      (32 * t.track_length) ≤ k_max_sectors)
    (hw : 1 ≤ w) (hwv : w + 8 ≤ v)
    (hv : v + (min (128 <<< (hb 3 &&& 0x07)) 2048 + 2) < t.track_length)
    (hsync : disc_tool_track_words t (w - 1) =
      ibm_disc_format_fm_to_2us_pulses 0xFF 0x00)
    (hid : disc_tool_track_words t w =
      ibm_disc_format_fm_to_2us_pulses k_ibm_disc_mark_clock_pattern
        k_ibm_disc_id_mark_data_pattern)
    (hhw : ∀ k, k < 6 → disc_tool_track_words t (w + 1 + k) =
      ibm_disc_format_fm_to_2us_pulses 0xFF (hb k))
    (hhb : ∀ k, k < 6 → hb k < 256)
    (hq : disc_tool_no_marks (disc_tool_track_words t) (32 * w + 32)
      (32 * v + 31))
    (hsync2 : disc_tool_track_words t (v - 1) =
      ibm_disc_format_fm_to_2us_pulses 0xFF 0x00)
    (hmk : mark = k_ibm_disc_data_mark_data_pattern ∨
      mark = k_ibm_disc_deleted_data_mark_data_pattern)
    (hdm : disc_tool_track_words t v =
      ibm_disc_format_fm_to_2us_pulses k_ibm_disc_mark_clock_pattern mark)
    (hdw : ∀ k, k < min (128 <<< (hb 3 &&& 0x07)) 2048 + 2 →
      disc_tool_track_words t (v + 1 + k) =
        ibm_disc_format_fm_to_2us_pulses 0xFF (sd k))
    (hsd : ∀ k, k < min (128 <<< (hb 3 &&& 0x07)) 2048 + 2 → sd k < 256) :
    ∃ t' j, disc_tool_find_sectors tpd t 0 = Except.ok t' ∧
      j = disc_tool_id_marks (disc_tool_track_words t) (32 * w + 31) ∧
      j < t'.num_sectors ∧
      (t'.sectors j).bit_pos_header = 32 * w + 31 ∧
      (t'.sectors j).bit_pos_data = 32 * v + 31 ∧
      (t'.sectors j).is_deleted =
        (if mark = k_ibm_disc_deleted_data_mark_data_pattern then 1 else 0) ∧
      (∀ k, k < 6 → (t'.sectors j).header_bytes k = hb k) ∧
      (t'.sectors j).has_header_crc_error =
        (if disc_tool_record_crc k_ibm_disc_id_mark_data_pattern hb 4 =
          hb 4 * 256 + hb 5 then 0 else 1) ∧
      (t'.sectors j).has_data_crc_error =
        (if disc_tool_record_crc mark sd
            (min (128 <<< (hb 3 &&& 0x07)) 2048) =
          sd (min (128 <<< (hb 3 &&& 0x07)) 2048) * 256 +
            sd (min (128 <<< (hb 3 &&& 0x07)) 2048 + 1) then 0 else 1) := by
  have e27 : (2 : Nat) ^ 27 = 134217728 := by norm_num
  have e32 : (2 : Nat) ^ 32 = 4294967296 := by norm_num
  have hp := disc_tool_get_pulses_some tpd t d hd ht
  generalize disc_tool_track_words t = p at *
  have hL' : t.track_length < 134217728 := hL
  have hn : (t.track_length * 32) % 2 ^ 32 = 32 * t.track_length := by
    rw [e32]
    omega
  have hv' : v + 2 < t.track_length :=
    Nat.lt_of_le_of_lt (Nat.add_le_add_left (Nat.le_add_left 2 _) v) hv
  -- the two marks
  have hsy : ibm_disc_format_fm_to_2us_pulses 0xFF 0x00 = 0x88888888 := by
    decide
  have hiw : disc_tool_mark_at p (32 * w + 31) =
      some k_ibm_disc_id_mark_data_pattern := by
    rw [disc_tool_mark_at_word p w _ hw (hsync.trans hsy) hid
      (ibm_disc_format_fm_to_2us_pulses_lt _ _)]
    decide
  have hiv : disc_tool_mark_at p (32 * v + 31) = some mark := by
    rw [disc_tool_mark_at_word p v _ (by omega) (hsync2.trans hsy) hdm
      (ibm_disc_format_fm_to_2us_pulses_lt _ _)]
    rcases hmk with h | h <;> subst h <;> decide
  -- pass 1
  obtain ⟨vD, eD, hBD, hcD, hjD, hsD⟩ :=
    disc_tool_find_sectors_pass_1_sector p { t with num_sectors := 0 }
      (32 * t.track_length) (32 * w + 31) (32 * v + 31) mark
      { p_tool := { t with num_sectors := 0 },
        shift_register := 0,
        num_shifts := 0,
        pulses := 0,
        num_sectors := 0,
        mark_detector := 0,
        p_sector := none }
      ⟨rfl, fun h => absurd rfl h⟩
      ⟨Nat.zero_le _, rfl, fun j hj => absurd hj (Nat.not_lt_zero j),
        fun _ _ => rfl, ⟨_, rfl⟩⟩
      rfl hiw hiv hmk hq (by omega) (by omega) hc
  have hfs : disc_tool_find_sectors tpd t 0 =
      match disc_tool_find_sectors_pass_1 (some p) (32 * t.track_length) 0
        { p_tool := { t with num_sectors := 0 },
          shift_register := 0,
          num_shifts := 0,
          pulses := 0,
          num_sectors := 0,
          mark_detector := 0,
          p_sector := none } with
      | Except.error e => Except.error e
      | Except.ok v =>
        match disc_tool_find_sectors_pass_2 tpd v.num_sectors 0 v.p_tool with
        | Except.error e => Except.error e
        | Except.ok p_tool =>
          Except.ok { p_tool with num_sectors := v.num_sectors } := by
    simp only [disc_tool_find_sectors, hp, hn, ne_eq, not_true_eq_false,
      if_false]
    first
      | (rw [hd]; done)
      | (rw [hd]; rfl)
  rw [hfs, eD]
  obtain ⟨_, _, b3, _, s, b5⟩ := hBD
  have hpv : disc_tool_get_pulses tpd vD.p_tool = some p := by
    rw [b5, ← hp]
    rfl
  -- pass 2
  obtain ⟨t', tj, t2, e2, _, f3, g1, g2, g3⟩ :=
    disc_tool_find_sectors_pass_2_sector tpd p (disc_tool_id_marks p
      (32 * w + 31)) vD.num_sectors 0 vD.p_tool hpv
      (by
        intro k _ hk
        have := (b3 k (by omega)).1
        omega)
      (Nat.zero_le _) (by omega)
  have hptj : disc_tool_get_pulses tpd tj = some p := by
    rw [disc_tool_get_pulses_congr tpd vD.p_tool tj f3, hpv]
  have hltj : tj.track_length = t.track_length := by
    rw [f3.2.2.2.1, b5]
  obtain ⟨t3, e3, c1, c2, c3, c4, c5, c6⟩ :=
    disc_tool_find_sectors_check_sector tpd tj p
      (disc_tool_id_marks p (32 * w + 31)) w v mark hb sd hptj
      (by rw [hltj]; exact Nat.le_of_lt hL) hmk (by rw [g1]; exact hsD)
      (by rw [hltj]; omega) hhw hhb (by rw [hltj]; exact hv) hdw hsd
  rw [g2] at e3
  injection e3 with e3
  subst e3
  simp only [e2]
  refine ⟨_, _, rfl, rfl, hjD, ?_, ?_, ?_, ?_, ?_, ?_⟩
  · show (t'.sectors _).bit_pos_header = _
    rw [g3]
    exact c1
  · show (t'.sectors _).bit_pos_data = _
    rw [g3]
    exact c2
  · show (t'.sectors _).is_deleted = _
    rw [g3]
    exact c3
  · intro k hk
    show (t'.sectors _).header_bytes k = _
    rw [g3]
    exact c4 k hk
  · show (t'.sectors _).has_header_crc_error = _
    rw [g3]
    exact c5
  · show (t'.sectors _).has_data_crc_error = _
    rw [g3]
    exact c6

/-- Witness for C15: a track of 142 words that holds the example sector in
words 0 to 139, with the ID mark in word 1 and the data mark in word 9. -/
theorem disc_tool_find_sectors_sector_on_track_witness :
    ((disc_tool_on_sector 142).p_disc = some disc_with_sector ∧
        (disc_tool_on_sector 142).track < 80 ∧
        (disc_tool_on_sector 142).track_length < 2 ^ 27 ∧
        disc_tool_id_marks (disc_tool_track_words (disc_tool_on_sector 142))
          (32 * (disc_tool_on_sector 142).track_length) ≤ k_max_sectors ∧
        9 + (min (128 <<< (disc_tool_example_header 3 &&& 0x07)) 2048 + 2) <
          (disc_tool_on_sector 142).track_length ∧
        disc_tool_no_marks (disc_tool_track_words (disc_tool_on_sector 142))
          (32 * 1 + 32) (32 * 9 + 31)) ∧
      ∃ t' j, disc_tool_find_sectors 80 (disc_tool_on_sector 142) 0 =
          Except.ok t' ∧
        j = disc_tool_id_marks
          (disc_tool_track_words (disc_tool_on_sector 142)) (32 * 1 + 31) ∧
        j < t'.num_sectors ∧
        (t'.sectors j).bit_pos_header = 32 * 1 + 31 ∧
        (t'.sectors j).bit_pos_data = 32 * 9 + 31 ∧
        (t'.sectors j).is_deleted =
          (if k_ibm_disc_data_mark_data_pattern =
            k_ibm_disc_deleted_data_mark_data_pattern then 1 else 0) ∧
        (∀ k, k < 6 →
          (t'.sectors j).header_bytes k = disc_tool_example_header k) ∧
        (t'.sectors j).has_header_crc_error =
          (if disc_tool_record_crc k_ibm_disc_id_mark_data_pattern
              disc_tool_example_header 4 =
            disc_tool_example_header 4 * 256 + disc_tool_example_header 5
          then 0 else 1) ∧
        (t'.sectors j).has_data_crc_error =
          (if disc_tool_record_crc k_ibm_disc_data_mark_data_pattern
              disc_tool_example_data
              (min (128 <<< (disc_tool_example_header 3 &&& 0x07)) 2048) =
            disc_tool_example_data
                (min (128 <<< (disc_tool_example_header 3 &&& 0x07)) 2048) *
                256 +
              disc_tool_example_data
                (min (128 <<< (disc_tool_example_header 3 &&& 0x07)) 2048 +
                  1)
          then 0 else 1) := by
  have hc : disc_tool_id_marks
      (disc_tool_track_words (disc_tool_on_sector 142))
      (32 * (disc_tool_on_sector 142).track_length) ≤ k_max_sectors := by
    apply Nat.le_of_not_lt
    intro h
    have hr : (disc_tool_find_sectors 80 (disc_tool_on_sector 142)
        0).toOption.isSome = true := by
      decide!
    rw [(disc_tool_find_sectors_run 80 (disc_tool_on_sector 142)
      disc_with_sector rfl (by decide)).2 h] at hr
    exact absurd hr (by decide)
  have hq : disc_tool_no_marks
      (disc_tool_track_words (disc_tool_on_sector 142)) (32 * 1 + 32)
      (32 * 9 + 31) := by
    decide!
  exact ⟨⟨rfl, by decide, by decide, hc, by decide, hq⟩,
    disc_tool_find_sectors_sector_on_track 80 (disc_tool_on_sector 142)
      disc_with_sector 1 9 k_ibm_disc_data_mark_data_pattern
      disc_tool_example_header disc_tool_example_data rfl (by decide)
      (by decide) hc (by decide) (by decide) (by decide) (by decide!)
      (by decide!) (by decide!) (by decide!) hq (by decide!)
      (Or.inl rfl) (by decide!) (by decide!) (by decide!)⟩

/-- C16: on a standard-length track with a pulse buffer,
`disc_tool_fill_fm_data` with any data byte puts the FM encoding of clocks
0xFF and that data byte into each of the 3125 pulse words, and
`disc_tool_find_sectors` then returns with `num_sectors = 0`. -/
theorem disc_tool_find_sectors_filled_track (tpd : Nat)
    (t : disc_tool_struct) (d : disc_struct) (data : Nat)
    (hd : t.p_disc = some d) (ht : t.track < tpd)
    (hl : t.track_length = k_ibm_disc_bytes_per_track) :
    (∀ i, i < k_ibm_disc_bytes_per_track →
      disc_tool_track_words (disc_tool_fill_fm_data tpd t data) i =
        ibm_disc_format_fm_to_2us_pulses 0xFF data) ∧
    ∃ t', disc_tool_find_sectors tpd (disc_tool_fill_fm_data tpd t data) 0 =
        Except.ok t' ∧
      t'.num_sectors = 0 := by
  obtain ⟨w, ⟨d1, hd1⟩, f1, f2, f3, _, _⟩ :=
    disc_tool_fill_fm_data_words tpd t d data hd ht
  have hwords : ∀ i, i < 3125 →
      disc_tool_track_words (disc_tool_fill_fm_data tpd t data) i =
        ibm_disc_format_fm_to_2us_pulses 0xFF data := by
    intro i hi
    rw [w i, if_pos hi]
  refine ⟨hwords, ?_⟩
  have hbuf : disc_get_raw_pulses_buffer d1
      (disc_tool_fill_fm_data tpd t data).is_side_upper
      (disc_tool_fill_fm_data tpd t data).track =
      disc_tool_track_words (disc_tool_fill_fm_data tpd t data) := by
    unfold disc_tool_track_words disc_get_raw_pulses_buffer
    rw [hd1]
  have hlen : ((disc_tool_fill_fm_data tpd t data).track_length * 32) % 2 ^ 32
      = 32 * 3125 := by
    rw [f3, hl]
    rfl
  have hzero : disc_tool_id_marks
      (disc_tool_track_words (disc_tool_fill_fm_data tpd t data))
      (32 * 3125) = 0 :=
    disc_tool_id_marks_zero _ _ (fun i hi =>
      disc_tool_mark_at_const _ _ 3125 i hwords hi)
  obtain ⟨r, _⟩ := disc_tool_find_sectors_run tpd
    (disc_tool_fill_fm_data tpd t data) d1 hd1 (by rw [f2]; exact ht)
  rw [hbuf, hlen, hzero] at r
  obtain ⟨t', e, n, _⟩ := r (Nat.zero_le _)
  exact ⟨t', e, n⟩

/-- Witness for C16: track 0 of a disc is filled with data byte 0xFF and
scanned. -/
theorem disc_tool_find_sectors_filled_track_witness :
    ((disc_tool_in_last_word 0).p_disc = some disc_with_word_after_track ∧
        (disc_tool_in_last_word 0).track < 80 ∧
        (disc_tool_in_last_word 0).track_length =
          k_ibm_disc_bytes_per_track) ∧
      ∃ t', disc_tool_find_sectors 80
          (disc_tool_fill_fm_data 80 (disc_tool_in_last_word 0) 0xFF) 0 =
            Except.ok t' ∧
        t'.num_sectors = 0 :=
  ⟨⟨rfl, by decide, rfl⟩,
    (disc_tool_find_sectors_filled_track 80 (disc_tool_in_last_word 0)
      disc_with_word_after_track 0xFF rfl (by decide) rfl).2⟩

/-- C17: for every tool and track content, `disc_tool_find_sectors` never
fails an assertion, so both `assert(bit_pos_header != 0)` hold; and when it
returns, every descriptor below `num_sectors` has a header position that is at
least 63 (a mark needs 64 bits in the detector), hence not 0, and below
`track_length * 32`, and a data position that is either 0 or below
`track_length * 32` and greater than the header position. -/
theorem disc_tool_find_sectors_bit_positions (tpd : Nat)
    (t : disc_tool_struct) :
    disc_tool_find_sectors tpd t 0 ≠ Except.error Fault.assertion ∧
    ∀ t', disc_tool_find_sectors tpd t 0 = Except.ok t' →
      ∀ j, j < t'.num_sectors →
        0 < (t'.sectors j).bit_pos_header ∧
        63 ≤ (t'.sectors j).bit_pos_header ∧
        (t'.sectors j).bit_pos_header < t.track_length * 32 ∧
        ((t'.sectors j).bit_pos_data ≠ 0 →
          (t'.sectors j).bit_pos_data < t.track_length * 32 ∧
          (t'.sectors j).bit_pos_header < (t'.sectors j).bit_pos_data) := by
  have hle : (t.track_length * 32) % 2 ^ 32 ≤ t.track_length * 32 :=
    Nat.mod_le _ _
  cases hd : t.p_disc with
  | none =>
    rw [disc_tool_find_sectors_no_disc tpd t hd]
    refine ⟨by simp, ?_⟩
    intro t' e j hj
    injection e with e
    rw [← e] at hj
    exact absurd hj (Nat.not_lt_zero j)
  | some d =>
    by_cases ht : t.track < tpd
    · obtain ⟨r1, r2⟩ := disc_tool_find_sectors_run tpd t d hd ht
      by_cases hc : disc_tool_id_marks
          (disc_get_raw_pulses_buffer d t.is_side_upper t.track)
          ((t.track_length * 32) % 2 ^ 32) ≤ 32
      · obtain ⟨t1, e1, _, b, _⟩ := r1 hc
        rw [e1]
        refine ⟨by simp, ?_⟩
        intro t' e j hj
        injection e with e
        subst e
        obtain ⟨b1, b2, b3⟩ := b j hj
        refine ⟨by omega, b1, by omega, ?_⟩
        intro hne
        rcases b3 with b3 | ⟨b3, b4⟩
        · exact absurd b3 hne
        · exact ⟨by omega, b3⟩
      · rw [r2 (by omega)]
        refine ⟨by simp, ?_⟩
        intro t' e
        exact absurd e (by simp)
    · obtain ⟨r1, r2⟩ := disc_tool_find_sectors_out_of_range tpd t d hd
        (by omega)
      by_cases hn : (t.track_length * 32) % 2 ^ 32 = 0
      · rw [r1 hn]
        refine ⟨by simp, ?_⟩
        intro t' e j hj
        injection e with e
        rw [← e] at hj
        exact absurd hj (Nat.not_lt_zero j)
      · rw [r2 hn]
        refine ⟨by simp, ?_⟩
        intro t' e
        exact absurd e (by simp)

/-- Witness for C17: the scan of a track of four words with an ID mark that
ends at bit 63 and a data mark that ends at bit 127 returns one descriptor,
with these two positions. -/
theorem disc_tool_find_sectors_bit_positions_witness :
    ((disc_tool_find_sectors 80 disc_tool_on_marks 0).toOption.map
        (fun t => (t.num_sectors, (t.sectors 0).bit_pos_header,
          (t.sectors 0).bit_pos_data)) = some (1, 63, 127)) ∧
      ∀ t', disc_tool_find_sectors 80 disc_tool_on_marks 0 = Except.ok t' →
        ∀ j, j < t'.num_sectors →
          0 < (t'.sectors j).bit_pos_header ∧
          63 ≤ (t'.sectors j).bit_pos_header ∧
          (t'.sectors j).bit_pos_header <
            disc_tool_on_marks.track_length * 32 ∧
          ((t'.sectors j).bit_pos_data ≠ 0 →
            (t'.sectors j).bit_pos_data <
              disc_tool_on_marks.track_length * 32 ∧
            (t'.sectors j).bit_pos_header < (t'.sectors j).bit_pos_data) :=
  ⟨by decide!, (disc_tool_find_sectors_bit_positions 80 disc_tool_on_marks).2⟩

/-- C18: for every tool and track content, when `disc_tool_find_sectors`
returns, `num_sectors` is at most 32 and the descriptors from index 32 on are
as they were; and on a track with a pulse buffer that holds more than 32 ID
marks the scan ends in `util_bail`. -/
theorem disc_tool_find_sectors_sector_cap (tpd : Nat) (t : disc_tool_struct) :
    (∀ t', disc_tool_find_sectors tpd t 0 = Except.ok t' →
      t'.num_sectors ≤ k_max_sectors ∧
      ∀ j, k_max_sectors ≤ j → t'.sectors j = t.sectors j) ∧
    (∀ d, t.p_disc = some d → t.track < tpd →
      k_max_sectors < disc_tool_id_marks (disc_tool_track_words t)
        ((t.track_length * 32) % 2 ^ 32) →
      disc_tool_find_sectors tpd t 0 = Except.error Fault.bail) := by
  constructor
  · intro t' e
    cases hd : t.p_disc with
    | none =>
      rw [disc_tool_find_sectors_no_disc tpd t hd] at e
      injection e with e
      subst e
      exact ⟨Nat.zero_le _, fun _ _ => rfl⟩
    | some d =>
      by_cases ht : t.track < tpd
      · obtain ⟨r1, r2⟩ := disc_tool_find_sectors_run tpd t d hd ht
        by_cases hc : disc_tool_id_marks
            (disc_get_raw_pulses_buffer d t.is_side_upper t.track)
            ((t.track_length * 32) % 2 ^ 32) ≤ 32
        · obtain ⟨t1, e1, n1, _, f1, _⟩ := r1 hc
          rw [e1] at e
          injection e with e
          subst e
          refine ⟨by rw [n1]; exact hc, ?_⟩
          intro j hj
          exact f1 j (by
            have : t1.num_sectors ≤ 32 := by rw [n1]; exact hc
            exact le_trans this hj)
        · rw [r2 (by omega)] at e
          exact absurd e (by simp)
      · obtain ⟨r1, r2⟩ := disc_tool_find_sectors_out_of_range tpd t d hd
          (by omega)
        by_cases hn : (t.track_length * 32) % 2 ^ 32 = 0
        · rw [r1 hn] at e
          injection e with e
          subst e
          exact ⟨Nat.zero_le _, fun _ _ => rfl⟩
        · rw [r2 hn] at e
          exact absurd e (by simp)
  · intro d hd ht hc
    have hw : disc_tool_track_words t =
        disc_get_raw_pulses_buffer d t.is_side_upper t.track := by
      unfold disc_tool_track_words disc_get_raw_pulses_buffer
      rw [hd]
    rw [hw] at hc
    exact (disc_tool_find_sectors_run tpd t d hd ht).2 hc

/-- Witness for C18: a track of 66 words with 33 ID marks makes the scan bail
out, and the scan of its first 64 words, with 32 ID marks, returns. -/
theorem disc_tool_find_sectors_sector_cap_witness :
    ((disc_tool_on_id_marks 66).p_disc = some disc_with_id_marks ∧
        (disc_tool_on_id_marks 66).track < 80 ∧
        k_max_sectors <
          disc_tool_id_marks (disc_tool_track_words (disc_tool_on_id_marks 66))
            (((disc_tool_on_id_marks 66).track_length * 32) % 2 ^ 32)) ∧
      disc_tool_find_sectors 80 (disc_tool_on_id_marks 66) 0 =
        Except.error Fault.bail ∧
      (disc_tool_find_sectors 80 (disc_tool_on_id_marks 64) 0).toOption.map
        (fun t => t.num_sectors) = some 32 :=
  ⟨⟨rfl, by decide, by decide!⟩,
    (disc_tool_find_sectors_sector_cap 80 (disc_tool_on_id_marks 66)).2
      disc_with_id_marks rfl (by decide) (by decide!),
    by decide!⟩

/-- C19: at the failing input.  Without a disc `disc_tool_find_sectors`
returns with `num_sectors = 0`; with a disc and the track set to the number of
tracks per disc, for which `disc_tool_get_pulses` gives the null pointer, and
a track length of 3125, the first turn of the first loop reads a pulse word
through the null pointer instead of returning. -/
theorem disc_tool_find_sectors_without_pulse_buffer (tpd : Nat) :
    disc_tool_find_sectors tpd (disc_tool_with_track_length 3125) 0 =
        Except.ok
          { disc_tool_with_track_length 3125 with num_sectors := 0 } ∧
      disc_tool_get_pulses tpd (disc_tool_past_last_track tpd) = none ∧
      disc_tool_find_sectors tpd (disc_tool_past_last_track tpd) 0 =
        Except.error Fault.null_dereference :=
  ⟨disc_tool_find_sectors_no_disc tpd _ rfl,
    by simp [disc_tool_get_pulses, disc_tool_past_last_track,
      disc_tool_create],
    (disc_tool_find_sectors_out_of_range tpd (disc_tool_past_last_track tpd)
      disc_with_marks rfl (le_refl _)).2
      (by show (3125 * 32) % 2 ^ 32 ≠ 0; decide)⟩

/-- C20: for the CRC-16 of the disc format (start value 0xFFFF, polynomial
0x1021, most significant bit first, no final XOR) folded over a run of bytes
as `disc_tool_crc_add_run` does, and for every byte sequence `m` and bytes
`hi`, `lo`: the CRC of `m` followed by `hi`, `lo` is zero if and only if
`(hi << 8) | lo` is the CRC of `m`. -/
theorem disc_tool_crc_add_run_zero_iff (m : List Nat) (hi lo : Nat)
    (hhi : hi < 256) (hlo : lo < 256) :
    disc_tool_crc_add_run ibm_disc_format_crc_init
        (fun i => (m ++ [hi, lo]).getD i 0) (m ++ [hi, lo]).length = 0 ↔
      (hi <<< 8) ||| lo =
        disc_tool_crc_add_run ibm_disc_format_crc_init
          (fun i => m.getD i 0) m.length := by
  have hlen : (m ++ [hi, lo]).length = m.length + 1 + 1 := by simp
  have e0 : ∀ i, i < m.length → (m ++ [hi, lo]).getD i 0 = m.getD i 0 := by
    intro i hi'
    simp [List.getD_eq_getElem?_getD, List.getElem?_append_left hi']
  have e1 : (m ++ [hi, lo]).getD m.length 0 = hi := by
    rw [List.getD_eq_getElem?_getD, List.getElem?_append_right (le_refl _)]
    simp
  have e2 : (m ++ [hi, lo]).getD (m.length + 1) 0 = lo := by
    rw [List.getD_eq_getElem?_getD,
      List.getElem?_append_right (Nat.le_succ _)]
    simp
  rw [hlen, disc_tool_crc_add_run_succ, disc_tool_crc_add_run_succ, e1, e2,
    disc_tool_crc_add_run_congr _ _ (fun i => m.getD i 0) m.length e0]
  exact ibm_disc_format_crc_add_two_eq_zero _ hi lo
    (disc_tool_crc_add_run_lt _ _ _ (by decide)) hhi hlo

/-- Witness for C20: the header bytes 0xFE, 0, 0, 0, 1, whose CRC is 0xF1D3,
followed by 0xF1 and 0xD3. -/
theorem disc_tool_crc_add_run_zero_iff_witness :
    (0xF1 < 256 ∧ 0xD3 < 256) ∧
      (disc_tool_crc_add_run ibm_disc_format_crc_init
          (fun i => ([0xFE, 0, 0, 0, 1] ++ [0xF1, 0xD3]).getD i 0)
          ([0xFE, 0, 0, 0, 1] ++ [0xF1, 0xD3]).length = 0 ↔
        (0xF1 <<< 8) ||| 0xD3 =
          disc_tool_crc_add_run ibm_disc_format_crc_init
            (fun i => [0xFE, 0, 0, 0, 1].getD i 0)
            [0xFE, 0, 0, 0, 1].length) :=
  ⟨by decide,
    disc_tool_crc_add_run_zero_iff [0xFE, 0, 0, 0, 1] 0xF1 0xD3 (by decide)
      (by decide)⟩


/-! ## The claims, third part -/

/-- C21, counterexample: with debug off, compiling the block
`LDA #$42; STA $1234; JMP $2000` at 0x2000 makes four emitter calls, and the
first is `asm_x64_emit_jit_LDA_IMM` with operand 0x42: a host LDA is emitted
for the load. -/
theorem jit_compiler_compile_block_emits_lda :
    jit_compiler_example.debug = 0 ∧
      List.map jit_compiler_example.p_mem_read
          [0x2000, 0x2001, 0x2002, 0x2003, 0x2004] =
        [0xA9, 0x42, 0x8D, 0x34, 0x12] ∧
      jit_compiler_emitted
          (jit_compiler_compile_block defs_6502_example 3 jit_compiler_example
            [] 0x2000) =
        some [⟨asm_x64_emit.jit_LDA_IMM, [0x42]⟩,
          ⟨asm_x64_emit.jit_FLAGA, []⟩,
          ⟨asm_x64_emit.jit_STOA_IMM, [0x1234, 0x42]⟩,
          ⟨asm_x64_emit.jit_JMP, [0x10002000]⟩] := by
  decide

/-- C21, amended: compiling a block that starts with LDA #$42; STA $1234
(debug off; LDA immediate of two bytes and not ending a block, the constants
of `defs_6502.h` distinct where the switches tell them apart, and the optype
of STA with no pre-main or post-main micro-ops).  The first pass of the loop
hands the micro-ops LDA #$42 and FLAGA to the emitter, which makes the calls
LDA_IMM 0x42 and FLAGA, and leaves 0x42 as the known value of A.  The second
pass hands one micro-op to the emitter in place of the STA: STOA_IMM with
operands (0x1234, 0x42), emitted as one STOA_IMM call, and no STA_ABS call is
made.  `jit_compiler_compile_block` then stops if the STA optype ends a block
and goes on from the next address otherwise, with these three calls appended
to the buffer. -/
theorem jit_compiler_compile_block_store_fold (D : defs_6502)
    (p_compiler : jit_compiler) (p_buf : List asm_x64_call)
    (addr_6502 sta : Nat)
    (hdbg : p_compiler.debug = 0)
    (hlda : D.g_optypes 0xA9 = D.k_lda) (hldab : D.k_lda < 256)
    (hldan : D.k_lda ∉ [D.k_adc, D.k_bcc, D.k_bcs, D.k_rol, D.k_ror, D.k_bvc,
      D.k_bvs, D.k_sbc, D.k_alr, D.k_asl, D.k_lsr, D.k_slo, D.k_brk, D.k_cmp,
      D.k_cpx, D.k_cpy])
    (himm : D.g_opmodes 0xA9 = D.k_imm) (himmb : D.k_imm < 256)
    (himmn : D.k_imm ∉ [0, D.k_nil, D.k_acc])
    (hlen : D.g_opmodelens D.k_imm = 2)
    (hbra : D.g_opbranch D.k_lda ≠ D.k_bra_y)
    (hsta : D.g_optypes 0x8D = sta) (hstab : sta < 256)
    (hstan : sta ∉ [D.k_adc, D.k_bcc, D.k_bcs, D.k_rol, D.k_ror, D.k_bvc,
      D.k_bvs, D.k_sbc, D.k_jmp, D.k_jsr, D.k_alr, D.k_asl, D.k_lsr, D.k_slo,
      D.k_brk, D.k_cmp, D.k_cpx, D.k_cpy, D.k_lda, D.k_txa, D.k_tya, D.k_pla,
      D.k_ldx, D.k_tax, D.k_tsx, D.k_ldy, D.k_tay])
    (habs : D.g_opmodes 0x8D = D.k_abs) (habsb : D.k_abs < 256)
    (habsn : D.k_abs ∉ [0, D.k_nil, D.k_acc, D.k_imm, D.k_zpg, D.k_zpx,
      D.k_zpy, D.k_rel])
    (m0 : p_compiler.p_mem_read addr_6502 = 0xA9)
    (m1 : p_compiler.p_mem_read ((addr_6502 + 1) % 65536) = 0x42)
    (m2 : p_compiler.p_mem_read ((addr_6502 + 2) % 65536) = 0x8D)
    (m3 : p_compiler.p_mem_read ((addr_6502 + 3) % 65536) = 0x34)
    (m4 : p_compiler.p_mem_read ((addr_6502 + 4) % 65536) = 0x12) :
    ∃ (c1 c2 : jit_compiler) (d1 d2 : jit_opcode_details),
      jit_compiler_compile_block_body D (jit_compiler_reset p_compiler)
          jit_opcode_details_zero p_buf addr_6502 =
        Except.ok (c1, d1,
          p_buf ++ [⟨asm_x64_emit.jit_LDA_IMM, [0x42]⟩,
            ⟨asm_x64_emit.jit_FLAGA, []⟩]) ∧
      d1.uops 0 =
        { opcode := 0xA9, value1 := 0x42, value2 := 0, optype := D.k_lda } ∧
      d1.uops 1 =
        { opcode := k_opcode_FLAGA, value1 := 0, value2 := 0, optype := -1 } ∧
      c1.reg_a = 0x42 ∧
      (∀ buf, jit_compiler_compile_block_body D c1 d1 buf
          ((addr_6502 + 2) % 65536) =
        Except.ok (c2, d2,
          buf ++ [⟨asm_x64_emit.jit_STOA_IMM, [0x1234, 0x42]⟩])) ∧
      d2.uops 0 =
        { opcode := k_opcode_STOA_IMM, value1 := 0x1234, value2 := 0x42,
          optype := sta } ∧
      jit_compiler_emit_uop (d2.uops 0) =
        ⟨asm_x64_emit.jit_STOA_IMM, [0x1234, 0x42]⟩ ∧
      ∀ fuel, jit_compiler_compile_block D (fuel + 2) p_compiler p_buf
          addr_6502 =
        if D.g_opbranch sta = D.k_bra_y then
          some (Except.ok (c2,
            p_buf ++ [⟨asm_x64_emit.jit_LDA_IMM, [0x42]⟩,
              ⟨asm_x64_emit.jit_FLAGA, []⟩,
              ⟨asm_x64_emit.jit_STOA_IMM, [0x1234, 0x42]⟩]))
        else
          jit_compiler_compile_block_loop D fuel c2 d2
            (p_buf ++ [⟨asm_x64_emit.jit_LDA_IMM, [0x42]⟩,
              ⟨asm_x64_emit.jit_FLAGA, []⟩,
              ⟨asm_x64_emit.jit_STOA_IMM, [0x1234, 0x42]⟩])
            (((addr_6502 + 2) % 65536 + D.g_opmodelens D.k_abs % 256) %
              65536) := by
  obtain ⟨dA, hA, lenA, brA, uA0, uA1⟩ :=
    jit_compiler_get_opcode_details_lda_imm D (jit_compiler_reset p_compiler)
      jit_opcode_details_zero addr_6502 0x42 hdbg hlda hldab hldan himm himmb
      himmn m0 m1 (by decide)
  have bodyA := fun buf => jit_compiler_compile_block_body_two D
    (jit_compiler_reset p_compiler) jit_opcode_details_zero dA buf addr_6502 hA
  obtain ⟨p1, p2, p3⟩ := jit_compiler_process_uop_lda_imm D
    (jit_compiler_reset p_compiler) (dA.uops 0) (by rw [uA0])
  obtain ⟨q1, q2, q3⟩ := jit_compiler_process_uop_flaga D
    (jit_compiler_process_uop D (jit_compiler_reset p_compiler)
      (dA.uops 0)).1 (dA.uops 1) (by rw [uA1]) (by rw [uA1])
  rw [q1, q2, q3, p2, p3] at bodyA
  have hmem1 : (jit_compiler_process_uop D (jit_compiler_reset p_compiler)
      (dA.uops 0)).1.p_mem_read = p_compiler.p_mem_read :=
    jit_compiler_process_uop_mem D _ _
  have hdbg1 : (jit_compiler_process_uop D (jit_compiler_reset p_compiler)
      (dA.uops 0)).1.debug = 0 := by
    have : ∀ (c : jit_compiler) (u : jit_uop),
        (jit_compiler_process_uop D c u).1.debug = c.debug := by
      intro c u
      unfold jit_compiler_process_uop
      lift_lets
      extract_lets opcode optype value1 opreg cc opreg2 cc2 u2 call c1 c2 c3
      show c3.debug = _
      have h1 : c1.debug = c.debug := by
        simp only [c1]
        split_ifs <;> rfl
      have h2 : c2.debug = c.debug := by
        simp only [c2]
        split_ifs <;> first | rfl | exact h1
      simp only [c3]
      split_ifs <;> first | rfl | exact h2
    rw [this]
    exact hdbg
  have hrega : (jit_compiler_process_uop D (jit_compiler_reset p_compiler)
      (dA.uops 0)).1.reg_a = 0x42 := by
    rw [p1, uA0]
    rfl
  have a3 : ((addr_6502 + 2) % 65536 + 1) % 65536 =
      (addr_6502 + 3) % 65536 := by omega
  have a4 : ((addr_6502 + 2) % 65536 + 2) % 65536 =
      (addr_6502 + 4) % 65536 := by omega
  obtain ⟨dB, hB, lenB, brB, uB0⟩ :=
    jit_compiler_get_opcode_details_store_abs D
      (jit_compiler_process_uop D (jit_compiler_reset p_compiler)
        (dA.uops 0)).1
      { dA with
        uops := (jit_uops_set (jit_uops_set dA.uops 0 (dA.uops 0)) 1
          (dA.uops 1)) }
      ((addr_6502 + 2) % 65536) 0x8D sta 0x34 0x12 hdbg1 hsta hstab hstan
      habs habsb habsn (by rw [hmem1]; exact m2) (by decide)
      (by rw [hmem1, a3]; exact m3) (by decide)
      (by rw [hmem1, a4]; exact m4) (by decide)
  have bodyB := fun buf => jit_compiler_compile_block_body_one D _ _ dB buf
    ((addr_6502 + 2) % 65536) hB
  obtain ⟨s1, s2⟩ := jit_compiler_process_uop_sta_abs D
    (jit_compiler_process_uop D (jit_compiler_reset p_compiler)
      (dA.uops 0)).1 (dB.uops 0) (by rw [uB0]; rfl)
    (by rw [hrega]; decide)
  rw [s1, s2, hrega] at bodyB
  have hv1 : cast_uint16 (dB.uops 0).value1 = 0x1234 := by
    rw [uB0]
    rfl
  have hv2 : cast_uint8 (0x42 : Int) = 0x42 := by decide
  have hv0 : cast_uint8 (dA.uops 0).value1 = 0x42 := by
    rw [uA0]
    rfl
  have hl2 : dA.len = 2 := by rw [lenA, hlen]
  rw [hv1, hv2, hl2] at bodyB
  rw [hv0, hl2] at bodyA
  refine ⟨_, _, _, _, bodyA p_buf, ?_, ?_, hrega, bodyB, ?_, ?_, ?_⟩
  · simp [jit_uops_set, uA0, jit_opcode_details_zero]
  · simp [jit_uops_set, uA1, jit_opcode_details_zero]
  · simp [jit_uops_set, uB0, jit_opcode_details_zero, uA0]
  · simp [jit_uops_set, uB0, jit_opcode_details_zero, uA0,
      jit_compiler_emit_uop]
    decide
  · intro fuel
    unfold jit_compiler_compile_block
    simp only []
    rw [jit_compiler_compile_block_loop, bodyA p_buf]
    simp only []
    rw [if_neg (by rw [brA]; exact hbra)]
    rw [jit_compiler_compile_block_loop, bodyB]
    simp only [brB, lenB, List.append_assoc, List.cons_append,
      List.nil_append]

/-- Witness for C21: the block `LDA #$42; STA $1234; JMP $2000` at 0x2000. -/
theorem jit_compiler_compile_block_store_fold_witness :
    jit_compiler_example.debug = 0 ∧
      ∃ (c1 c2 : jit_compiler) (d1 d2 : jit_opcode_details),
        jit_compiler_compile_block_body defs_6502_example
            (jit_compiler_reset jit_compiler_example) jit_opcode_details_zero
            [] 0x2000 =
          Except.ok (c1, d1,
            [] ++ [⟨asm_x64_emit.jit_LDA_IMM, [0x42]⟩,
              ⟨asm_x64_emit.jit_FLAGA, []⟩]) ∧
        c1.reg_a = 0x42 ∧
        (∀ buf, jit_compiler_compile_block_body defs_6502_example c1 d1 buf
            ((0x2000 + 2) % 65536) =
          Except.ok (c2, d2,
            buf ++ [⟨asm_x64_emit.jit_STOA_IMM, [0x1234, 0x42]⟩])) ∧
        d2.uops 0 =
          { opcode := k_opcode_STOA_IMM, value1 := 0x1234, value2 := 0x42,
            optype := 28 } :=
  ⟨by decide,
    (jit_compiler_compile_block_store_fold defs_6502_example
      jit_compiler_example [] 0x2000 28 (by decide) (by decide) (by decide)
      (by decide) (by decide) (by decide) (by decide) (by decide) (by decide)
      (by decide) (by decide) (by decide) (by decide) (by decide) (by decide)
      (by decide) (by decide) (by decide) (by decide) (by decide)).elim
      (fun c1 h => h.elim (fun c2 h => h.elim (fun d1 h => h.elim
        (fun d2 h => ⟨c1, c2, d1, d2, h.1, h.2.2.2.1, h.2.2.2.2.1,
          h.2.2.2.2.2.1⟩))))⟩

/-- C22: let a_0 = addr and a_(k+1) = (a_k + len_k) mod 65536, with len_k and
the branch class of instruction k as `jit_compiler_get_opcode_details` stores
them.  If instruction `n` is the first of branch class `k_bra_y`,
`jit_compiler_compile_block` leaves its loop within `n + 1` passes and its
result is that of compiling the instructions at a_0, ..., a_n, each once and
in this order, and nothing after a_n. -/
theorem jit_compiler_compile_block_terminal (D : defs_6502)
    (p_compiler : jit_compiler) (p_buf : List asm_x64_call)
    (addr_6502 n fuel : Nat)
    (hy : jit_compiler_opcode_branches D p_compiler
      (jit_compiler_block_addr D p_compiler addr_6502 n) = D.k_bra_y)
    (hn : ∀ k, k < n → jit_compiler_opcode_branches D p_compiler
      (jit_compiler_block_addr D p_compiler addr_6502 k) ≠ D.k_bra_y)
    (hf : n < fuel) :
    jit_compiler_compile_block D fuel p_compiler p_buf addr_6502 =
        some ((jit_compiler_compile_opcodes D
          (List.map (jit_compiler_block_addr D p_compiler addr_6502)
            (List.range (n + 1)))
          (jit_compiler_reset p_compiler) jit_opcode_details_zero p_buf).map
            (fun r => (r.1, r.2.2))) ∧
      (List.map (jit_compiler_block_addr D p_compiler addr_6502)
        (List.range (n + 1))).length = n + 1 ∧
      jit_compiler_block_addr D p_compiler addr_6502 0 = addr_6502 ∧
      (∀ k, jit_compiler_block_addr D p_compiler addr_6502 (k + 1) =
        (jit_compiler_block_addr D p_compiler addr_6502 k +
          jit_compiler_opcode_len D p_compiler
            (jit_compiler_block_addr D p_compiler addr_6502 k)) % 65536) ∧
      ∀ (c : jit_compiler) (d : jit_opcode_details) (a : Nat)
        (r : jit_opcode_details × Nat),
        c.p_mem_read = p_compiler.p_mem_read →
        jit_compiler_get_opcode_details D c d a = Except.ok r →
        r.1.branches = jit_compiler_opcode_branches D p_compiler a ∧
        r.1.len = jit_compiler_opcode_len D p_compiler a := by
  have hmem : (jit_compiler_reset p_compiler).p_mem_read =
      p_compiler.p_mem_read := rfl
  have hadr := jit_compiler_block_addr_mem D (jit_compiler_reset p_compiler)
    p_compiler hmem addr_6502
  refine ⟨?_, by simp, rfl, fun k => rfl, ?_⟩
  · unfold jit_compiler_compile_block
    simp only []
    rw [jit_compiler_compile_block_loop_run D n fuel
      (jit_compiler_reset p_compiler) jit_opcode_details_zero p_buf addr_6502
      hf
      (by
        intro k hk
        rw [hadr]
        exact hn k hk)
      (by
        rw [hadr]
        exact hy)]
    congr 3
    apply List.map_congr_left
    intro k _
    exact hadr k
  · intro c d a r hc hr
    obtain ⟨f1, f2⟩ := jit_compiler_get_opcode_details_fields D c d a r hr
    unfold jit_compiler_opcode_branches at f1
    unfold jit_compiler_opcode_len at f2
    rw [hc] at f1 f2
    exact ⟨f1, f2⟩

/-- Witness for C22: `LDA #$42; STA $1234; JMP $2000` at 0x2000: the block is
the three instructions at 0x2000, 0x2002 and 0x2005. -/
theorem jit_compiler_compile_block_terminal_witness :
    jit_compiler_opcode_branches defs_6502_example jit_compiler_example
        (jit_compiler_block_addr defs_6502_example jit_compiler_example
          0x2000 2) = defs_6502_example.k_bra_y ∧
      List.map (jit_compiler_block_addr defs_6502_example jit_compiler_example
        0x2000) (List.range (2 + 1)) = [0x2000, 0x2002, 0x2005] ∧
      jit_compiler_compile_block defs_6502_example 3 jit_compiler_example []
          0x2000 =
        some ((jit_compiler_compile_opcodes defs_6502_example
          (List.map (jit_compiler_block_addr defs_6502_example
            jit_compiler_example 0x2000) (List.range (2 + 1)))
          (jit_compiler_reset jit_compiler_example) jit_opcode_details_zero
          []).map (fun r => (r.1, r.2.2))) :=
  ⟨by decide, by decide,
    (jit_compiler_compile_block_terminal defs_6502_example
      jit_compiler_example [] 0x2000 2 3 (by decide) (by decide)
      (by decide)).1⟩

/-- C23, counterexample: parameter 1 and the seek retry count are 0, drive 0
is selected, and its first bad-track register holds 0.  The remapping of the
claim gives t0 = 0, t1 = 1 (as 0 <= 0) and target 1 (the second bad-track
register holds 0xFF); `intel_fdc_do_seek` stores 0 in both seek-target
registers. -/
theorem intel_fdc_do_seek_target_zero_not_remapped :
    intel_fdc_seek_to_track_0.regs k_intel_fdc_register_internal_param_1 =
        0 ∧
      intel_fdc_seek_to_track_0.regs
        k_intel_fdc_register_internal_seek_retry_count = 0 ∧
      intel_fdc_seek_to_track_0.drive_out &&&
        k_intel_fdc_drive_out_select_1 = 0 ∧
      intel_fdc_seek_to_track_0.regs
        k_intel_fdc_register_bad_track_1_drive_0 = 0 ∧
      intel_fdc_seek_to_track_0.regs
        k_intel_fdc_register_bad_track_2_drive_0 = 0xFF ∧
      (intel_fdc_do_seek intel_fdc_seek_to_track_0).toOption.map
          (fun t => (t.regs k_intel_fdc_register_internal_seek_target_1,
            t.regs k_intel_fdc_register_internal_seek_target_2)) =
        some (0, 0) := by
  decide

/-- C23, amended: for all register values, with
t0 = (param_1 + seek_retry_count) mod 256 and the bad-track registers of the
selected drive, t1 = t0 + 1 if t0 > 0 and bad_track_1 <= t0, else t0, and
target = t1 + 1 if t0 > 0 and bad_track_2 <= t1, else t1 (8-bit wrapping; a
target of 0 is not remapped): `intel_fdc_do_seek` computes `target` as the
seek target, both seek-target registers (0x0B and 0x0C) hold it when the
function returns, and the function returns whenever a drive is selected and
the step rate is not 0. -/
theorem intel_fdc_do_seek_target (s : intel_fdc_struct)
    (t0 t1 target bad_1 bad_2 : Nat)
    (ht0 : t0 = (s.regs k_intel_fdc_register_internal_param_1 +
      s.regs k_intel_fdc_register_internal_seek_retry_count) % 256)
    (hb1 : bad_1 =
      if s.drive_out &&& k_intel_fdc_drive_out_select_1 ≠ 0 then
        s.regs k_intel_fdc_register_bad_track_1_drive_1
      else s.regs k_intel_fdc_register_bad_track_1_drive_0)
    (hb2 : bad_2 =
      if s.drive_out &&& k_intel_fdc_drive_out_select_1 ≠ 0 then
        s.regs k_intel_fdc_register_bad_track_2_drive_1
      else s.regs k_intel_fdc_register_bad_track_2_drive_0)
    (ht1 : t1 = if 0 < t0 ∧ bad_1 ≤ t0 then (t0 + 1) % 256 else t0)
    (htg : target = if 0 < t0 ∧ bad_2 ≤ t1 then (t1 + 1) % 256 else t1) :
    intel_fdc_do_seek_new_track s = target ∧
      (∀ t, intel_fdc_do_seek s = Except.ok t →
        t.regs k_intel_fdc_register_internal_seek_target_1 = target ∧
        t.regs k_intel_fdc_register_internal_seek_target_2 = target) ∧
      (s.p_current_drive ≠ none →
        s.regs k_intel_fdc_register_head_step_rate ≠ 0 →
        ∃ t, intel_fdc_do_seek s = Except.ok t) := by
  have hT : intel_fdc_do_seek_new_track s = target := by
    subst ht0 hb1 hb2
    rw [htg, ht1]
    unfold intel_fdc_do_seek_new_track intel_fdc_do_seek_track_regs
    simp only [k_intel_fdc_register_bad_track_1_drive_1,
      k_intel_fdc_register_bad_track_1_drive_0,
      k_intel_fdc_register_bad_track_2_drive_1,
      k_intel_fdc_register_bad_track_2_drive_0]
    split_ifs <;> simp_all <;> omega
  obtain ⟨s1, hs, h11, h12, hp1, hr1⟩ := intel_fdc_do_seek_transfer s
  have f11 : ¬ post_seek_footprint 0x0B := by simp [post_seek_footprint]
  have f12 : ¬ post_seek_footprint 0x0C := by simp [post_seek_footprint]
  refine ⟨hT, ?_, ?_⟩
  · intro t h
    rw [← hT]
    rcases hs with hs | hs
    · rw [hs] at h
      injection h with h
      rw [← h]
      exact ⟨((intel_fdc_do_load_head_frame s1 false).1 _ f11).trans h11,
        ((intel_fdc_do_load_head_frame s1 false).1 _ f12).trans h12⟩
    · rw [hs] at h
      exact ⟨(intel_fdc_do_seek_step_regs s1 t h _ (by decide) f11).trans h11,
        (intel_fdc_do_seek_step_regs s1 t h _ (by decide) f12).trans h12⟩
  · intro hp hr
    rcases hs with hs | hs
    · exact ⟨_, hs⟩
    · rw [hs]
      exact intel_fdc_do_seek_step_ok s1 (by rw [hp1]; exact hp)
        (by
          show s1.regs 0x0D ≠ 0
          rw [hr1]
          exact hr)

/-- Witness for C23: a seek for track 2 with track 1 marked bad goes to
track 3. -/
theorem intel_fdc_do_seek_target_witness :
    intel_fdc_do_seek_new_track intel_fdc_seek_past_bad_track = 3 ∧
      (intel_fdc_do_seek intel_fdc_seek_past_bad_track).toOption.map
          (fun t => (t.regs k_intel_fdc_register_internal_seek_target_1,
            t.regs k_intel_fdc_register_internal_seek_target_2)) =
        some (3, 3) ∧
      ∀ t, intel_fdc_do_seek intel_fdc_seek_past_bad_track = Except.ok t →
        t.regs k_intel_fdc_register_internal_seek_target_1 = 3 ∧
        t.regs k_intel_fdc_register_internal_seek_target_2 = 3 :=
  ⟨by decide, by decide,
    (intel_fdc_do_seek_target intel_fdc_seek_past_bad_track 2 3 3 1 0xFF
      (by decide) (by decide) (by decide) (by decide) (by decide)).2.1⟩

/-- C24: in `intel_fdc_do_seek` with the target different from the current
track (the track register of the selected drive, or 255 when the target is
0), at the hand-over to the first seek step: the seek-count register holds
|target - current|, the direction bit of drive-out is set exactly when
target > current (for target 0 the count is 255 and the bit is clear), the
step bit is clear, the low-head-current bit is set exactly when target >= 43,
the other bits of drive-out are as before, the track register of the selected
drive holds the target, and so do both track registers when the
single-actuator bit 0x02 of the mode register is set. -/
theorem intel_fdc_do_seek_step_setup (s : intel_fdc_struct)
    (target current : Nat) (hd : s.drive_out < 256)
    (htg : target = intel_fdc_do_seek_new_track s)
    (hc : current =
      if target = 0 then 255
      else s.regs (intel_fdc_do_seek_track_regs s + 2))
    (hb : current < 256) (hne : target ≠ current) :
    ∃ s1, intel_fdc_do_seek s = intel_fdc_do_seek_step s1 ∧
      s1.regs k_intel_fdc_register_internal_seek_count =
        (if target > current then target - current
          else current - target) ∧
      (s1.drive_out &&& k_intel_fdc_drive_out_direction ≠ 0 ↔
        target > current) ∧
      (target = 0 →
        s1.regs k_intel_fdc_register_internal_seek_count = 255 ∧
        s1.drive_out &&& k_intel_fdc_drive_out_direction = 0) ∧
      s1.drive_out &&& k_intel_fdc_drive_out_step = 0 ∧
      (s1.drive_out &&& k_intel_fdc_drive_out_low_head_current ≠ 0 ↔
        target ≥ 43) ∧
      s1.drive_out &&& 0xE9 = s.drive_out &&& 0xE9 ∧
      s1.regs (intel_fdc_do_seek_track_regs s + 2) = target ∧
      (s.regs k_intel_fdc_register_mode &&&
          k_intel_fdc_mode_single_actuator ≠ 0 →
        s1.regs k_intel_fdc_register_track_drive_0 = target ∧
        s1.regs k_intel_fdc_register_track_drive_1 = target) ∧
      (s.regs k_intel_fdc_register_mode &&&
          k_intel_fdc_mode_single_actuator = 0 →
        ∀ r, r ≠ 0x0A → r ≠ 0x0B → r ≠ 0x0C →
          r ≠ intel_fdc_do_seek_track_regs s + 2 → s1.regs r = s.regs r) ∧
      (∀ r, r ≠ 0x0A → r ≠ 0x0B → r ≠ 0x0C → r ≠ 0x12 → r ≠ 0x1A →
        s1.regs r = s.regs r) := by
  obtain ⟨⟨a1, a2, a3, a4⟩, ⟨b1, b2, b3, b4⟩, ⟨c1, c2, c3, c4⟩,
    ⟨d1, d2, d3, d4⟩⟩ := intel_fdc_do_seek_drive_out_bits s.drive_out hd
  have hT : intel_fdc_do_seek_new_track s < 256 := by
    unfold intel_fdc_do_seek_new_track
    simp only []
    split_ifs <;> omega
  rw [← htg] at hT
  have hcur : (if target = 0 then 255
      else set_reg (set_reg s.regs k_intel_fdc_register_internal_seek_target_1
        target) k_intel_fdc_register_internal_seek_target_2 target
        (intel_fdc_do_seek_track_regs s + 2)) = current := by
    rw [hc]
    rcases intel_fdc_do_seek_track_regs_cases s with e | e <;>
      simp [set_reg, e]
  have hp := intel_fdc_do_seek_track_regs_cases s
  have hmode : ∀ (cnt v : Nat), set_reg (set_reg (set_reg (set_reg s.regs
      k_intel_fdc_register_internal_seek_target_1 target)
      k_intel_fdc_register_internal_seek_target_2 target)
      k_intel_fdc_register_internal_seek_count cnt)
      (intel_fdc_do_seek_track_regs s + 2) v k_intel_fdc_register_mode =
      s.regs k_intel_fdc_register_mode := by
    intro cnt v
    rcases hp with e | e <;> simp [set_reg, e]
  have hlt : (current > target) = ¬ (target > current) := by
    apply propext
    constructor <;> intro h <;> omega
  have hm1 : (target - current) % 256 = target - current := by omega
  have hm2 : (current - target) % 256 = current - target := by omega
  have fin : ∀ (D cnt : Nat),
      cnt = (if target > current then target - current
        else current - target) →
      (D &&& 0x04 ≠ 0 ↔ target > current) → D &&& 0x02 = 0 →
      (D &&& 0x10 ≠ 0 ↔ target ≥ 43) →
      D &&& 0xE9 = s.drive_out &&& 0xE9 →
      ∃ s1, intel_fdc_do_seek_step
          (if s.regs k_intel_fdc_register_mode &&&
              k_intel_fdc_mode_single_actuator ≠ 0 then
            { s with
              regs := set_reg (set_reg
                (set_reg (set_reg (set_reg (set_reg s.regs 0x0B target) 0x0C
                  target) 0x0A cnt) (intel_fdc_do_seek_track_regs s + 2)
                  (set_reg (set_reg (set_reg s.regs 0x0B target) 0x0C target)
                    0x0A cnt 0x0C))
                0x12
                (set_reg (set_reg (set_reg (set_reg s.regs 0x0B target) 0x0C
                  target) 0x0A cnt) (intel_fdc_do_seek_track_regs s + 2)
                  (set_reg (set_reg (set_reg s.regs 0x0B target) 0x0C target)
                    0x0A cnt 0x0C) (intel_fdc_do_seek_track_regs s + 2)))
                0x1A
                (set_reg
                  (set_reg (set_reg (set_reg (set_reg s.regs 0x0B target) 0x0C
                    target) 0x0A cnt) (intel_fdc_do_seek_track_regs s + 2)
                    (set_reg (set_reg (set_reg s.regs 0x0B target) 0x0C
                      target) 0x0A cnt 0x0C))
                  0x12
                  (set_reg (set_reg (set_reg (set_reg s.regs 0x0B target) 0x0C
                    target) 0x0A cnt) (intel_fdc_do_seek_track_regs s + 2)
                    (set_reg (set_reg (set_reg s.regs 0x0B target) 0x0C
                      target) 0x0A cnt 0x0C)
                    (intel_fdc_do_seek_track_regs s + 2))
                  (intel_fdc_do_seek_track_regs s + 2)),
              drive_out := D }
          else
            { s with
              regs := set_reg (set_reg (set_reg (set_reg s.regs 0x0B target)
                0x0C target) 0x0A cnt) (intel_fdc_do_seek_track_regs s + 2)
                (set_reg (set_reg (set_reg s.regs 0x0B target) 0x0C target)
                  0x0A cnt 0x0C),
              drive_out := D }) = intel_fdc_do_seek_step s1 ∧
        s1.regs k_intel_fdc_register_internal_seek_count =
          (if target > current then target - current
            else current - target) ∧
        (s1.drive_out &&& k_intel_fdc_drive_out_direction ≠ 0 ↔
          target > current) ∧
        (target = 0 →
          s1.regs k_intel_fdc_register_internal_seek_count = 255 ∧
          s1.drive_out &&& k_intel_fdc_drive_out_direction = 0) ∧
        s1.drive_out &&& k_intel_fdc_drive_out_step = 0 ∧
        (s1.drive_out &&& k_intel_fdc_drive_out_low_head_current ≠ 0 ↔
          target ≥ 43) ∧
        s1.drive_out &&& 0xE9 = s.drive_out &&& 0xE9 ∧
        s1.regs (intel_fdc_do_seek_track_regs s + 2) = target ∧
        (s.regs k_intel_fdc_register_mode &&&
            k_intel_fdc_mode_single_actuator ≠ 0 →
          s1.regs k_intel_fdc_register_track_drive_0 = target ∧
          s1.regs k_intel_fdc_register_track_drive_1 = target) ∧
        (s.regs k_intel_fdc_register_mode &&&
            k_intel_fdc_mode_single_actuator = 0 →
          ∀ r, r ≠ 0x0A → r ≠ 0x0B → r ≠ 0x0C →
            r ≠ intel_fdc_do_seek_track_regs s + 2 → s1.regs r = s.regs r) ∧
        (∀ r, r ≠ 0x0A → r ≠ 0x0B → r ≠ 0x0C → r ≠ 0x12 → r ≠ 0x1A →
          s1.regs r = s.regs r) := by
    intro D cnt hcnt hD4 hD2 hD16 hDo
    obtain ⟨r1, r2, r3⟩ := intel_fdc_do_seek_regs s.regs
      (intel_fdc_do_seek_track_regs s) target cnt hp
    obtain ⟨q1, q2, q3⟩ := intel_fdc_do_seek_regs_single
      (set_reg (set_reg (set_reg (set_reg s.regs 0x0B target) 0x0C target)
        0x0A cnt) (intel_fdc_do_seek_track_regs s + 2)
        (set_reg (set_reg (set_reg s.regs 0x0B target) 0x0C target) 0x0A cnt
          0x0C))
      (intel_fdc_do_seek_track_regs s) hp
    have hp2 : intel_fdc_do_seek_track_regs s + 2 = 0x1A ∨
        intel_fdc_do_seek_track_regs s + 2 = 0x12 := by
      rcases hp with e | e <;> rw [e]
      · exact Or.inl rfl
      · exact Or.inr rfl
    have hz : target = 0 → cnt = 255 ∧ D &&& 0x04 = 0 := by
      intro h0
      have hc255 : current = 255 := by rw [hc, if_pos h0]
      have hng : ¬ target > current := by omega
      refine ⟨by rw [hcnt, if_neg hng]; omega, ?_⟩
      by_contra hne4
      exact hng (hD4.mp hne4)
    by_cases hm : s.regs k_intel_fdc_register_mode &&&
        k_intel_fdc_mode_single_actuator ≠ 0
    · rw [if_pos hm]
      have t12 : ∀ r, r = 0x12 ∨ r = 0x1A → set_reg (set_reg
          (set_reg (set_reg (set_reg (set_reg s.regs 0x0B target) 0x0C
            target) 0x0A cnt) (intel_fdc_do_seek_track_regs s + 2)
            (set_reg (set_reg (set_reg s.regs 0x0B target) 0x0C target)
              0x0A cnt 0x0C))
          0x12
          (set_reg (set_reg (set_reg (set_reg s.regs 0x0B target) 0x0C
            target) 0x0A cnt) (intel_fdc_do_seek_track_regs s + 2)
            (set_reg (set_reg (set_reg s.regs 0x0B target) 0x0C target)
              0x0A cnt 0x0C) (intel_fdc_do_seek_track_regs s + 2)))
          0x1A
          (set_reg
            (set_reg (set_reg (set_reg (set_reg s.regs 0x0B target) 0x0C
              target) 0x0A cnt) (intel_fdc_do_seek_track_regs s + 2)
              (set_reg (set_reg (set_reg s.regs 0x0B target) 0x0C
                target) 0x0A cnt 0x0C))
            0x12
            (set_reg (set_reg (set_reg (set_reg s.regs 0x0B target) 0x0C
              target) 0x0A cnt) (intel_fdc_do_seek_track_regs s + 2)
              (set_reg (set_reg (set_reg s.regs 0x0B target) 0x0C
                target) 0x0A cnt 0x0C)
              (intel_fdc_do_seek_track_regs s + 2))
            (intel_fdc_do_seek_track_regs s + 2)) r = target := by
        intro r hr
        rcases hr with hr | hr <;> subst hr
        · exact q1.trans r2
        · exact q2.trans r2
      refine ⟨_, rfl, ?_, ?_, ?_, hD2, hD16, hDo, ?_, ?_, ?_, ?_⟩
      · exact ((q3 _ (by decide) (by decide)).trans r1).trans hcnt
      · exact hD4
      · intro h0
        exact ⟨((q3 _ (by decide) (by decide)).trans r1).trans (hz h0).1,
          (hz h0).2⟩
      · exact t12 (intel_fdc_do_seek_track_regs s + 2) (by
          rcases hp2 with e | e
          · exact Or.inr e
          · exact Or.inl e)
      · intro _
        exact ⟨t12 _ (Or.inl rfl), t12 _ (Or.inr rfl)⟩
      · intro h0
        exact absurd h0 hm
      · intro r h1 h2 h3 h4 h5
        exact (q3 r h4 h5).trans (r3 r h1 h2 h3 (by
          rcases hp2 with e | e <;> rw [e] <;> assumption))
    · rw [if_neg hm]
      refine ⟨_, rfl, ?_, ?_, ?_, hD2, hD16, hDo, r2, ?_, ?_, ?_⟩
      · exact r1.trans hcnt
      · exact hD4
      · intro h0
        exact ⟨r1.trans (hz h0).1, (hz h0).2⟩
      · intro h0
        exact absurd h0 hm
      · intro _ r h1 h2 h3 h4
        exact r3 r h1 h2 h3 h4
      · intro r h1 h2 h3 h4 h5
        exact r3 r h1 h2 h3 (by
          rcases hp2 with e | e <;> rw [e] <;> assumption)
  by_cases h43 : target ≥ 43 <;> by_cases hgt : target > current
  · obtain ⟨s1, e, rest⟩ := fin
      (and_not8 ((((s.drive_out ||| 0x10) % 256) ||| 0x04) % 256) 0x02)
      (target - current) (by rw [if_pos hgt]) ⟨fun _ => hgt, fun _ => a2⟩ a3
      ⟨fun _ => h43, fun _ => a1⟩ a4
    refine ⟨s1, ?_, rest⟩
    rw [← e]
    unfold intel_fdc_do_seek
    simp only [← htg, hlt, h43, hgt, not_true_eq_false, not_false_eq_true,
      if_true, if_false, hcur, if_neg hne, hmode, hm1, hm2]
  · obtain ⟨s1, e, rest⟩ := fin
      (and_not8 (and_not8 ((s.drive_out ||| 0x10) % 256) 0x04) 0x02)
      (current - target) (by rw [if_neg hgt])
      ⟨fun h => absurd b2 h, fun h => absurd h hgt⟩ b3
      ⟨fun _ => h43, fun _ => b1⟩ b4
    refine ⟨s1, ?_, rest⟩
    rw [← e]
    unfold intel_fdc_do_seek
    simp only [← htg, hlt, h43, hgt, not_true_eq_false, not_false_eq_true,
      if_true, if_false, hcur, if_neg hne, hmode, hm1, hm2]
  · obtain ⟨s1, e, rest⟩ := fin
      (and_not8 (((and_not8 s.drive_out 0x10) ||| 0x04) % 256) 0x02)
      (target - current) (by rw [if_pos hgt]) ⟨fun _ => hgt, fun _ => c2⟩ c3
      ⟨fun h => absurd c1 h, fun h => absurd h h43⟩ c4
    refine ⟨s1, ?_, rest⟩
    rw [← e]
    unfold intel_fdc_do_seek
    simp only [← htg, hlt, h43, hgt, not_true_eq_false, not_false_eq_true,
      if_true, if_false, hcur, if_neg hne, hmode, hm1, hm2]
  · obtain ⟨s1, e, rest⟩ := fin
      (and_not8 (and_not8 (and_not8 s.drive_out 0x10) 0x04) 0x02)
      (current - target) (by rw [if_neg hgt])
      ⟨fun h => absurd d2 h, fun h => absurd h hgt⟩ d3
      ⟨fun h => absurd d1 h, fun h => absurd h h43⟩ d4
    refine ⟨s1, ?_, rest⟩
    rw [← e]
    unfold intel_fdc_do_seek
    simp only [← htg, hlt, h43, hgt, not_true_eq_false, not_false_eq_true,
      if_true, if_false, hcur, if_neg hne, hmode, hm1, hm2]

/-- Witness for C24: a seek for track 2 with track 1 marked bad goes from
track 2 to track 3: one step inwards. -/
theorem intel_fdc_do_seek_step_setup_witness :
    (intel_fdc_seek_past_bad_track.drive_out < 256 ∧
        3 = intel_fdc_do_seek_new_track intel_fdc_seek_past_bad_track ∧
        (2 : Nat) = (if (3 : Nat) = 0 then 255
          else intel_fdc_seek_past_bad_track.regs
            (intel_fdc_do_seek_track_regs intel_fdc_seek_past_bad_track +
              2))) ∧
      ∃ s1, intel_fdc_do_seek intel_fdc_seek_past_bad_track =
          intel_fdc_do_seek_step s1 ∧
        s1.regs k_intel_fdc_register_internal_seek_count = 1 ∧
        s1.regs k_intel_fdc_register_track_drive_0 = 3 :=
  ⟨⟨by decide, by decide, by decide⟩,
    (intel_fdc_do_seek_step_setup intel_fdc_seek_past_bad_track 3 2
      (by decide) (by decide) (by decide) (by decide) (by decide)).imp
      (fun _ h => ⟨h.1, h.2.1, h.2.2.2.2.2.2.2.1⟩)⟩

/-- C25: with the head already loaded (drive-out 0x48) and `is_settle` 0, the
call that `intel_fdc_do_seek` makes when the target is the current track,
`intel_fdc_do_load_head` reads `post_seek_time` without having stored to it.
When the indeterminate content is 0 the post-seek dispatch runs at once (the
three-pulse timeout is armed and the sync for the header starts); when it is
5 the post-seek timer is started with 10000 ticks instead.  The drive-out
latch, `is_settle` and all registers are the same in both runs. -/
theorem intel_fdc_do_load_head_unset_delay :
    (intel_fdc_head_loaded 0).drive_out = (intel_fdc_head_loaded 5).drive_out ∧
      (∀ r, (intel_fdc_head_loaded 0).regs r =
        (intel_fdc_head_loaded 5).regs r) ∧
      (intel_fdc_head_loaded 0).drive_out &&&
        k_intel_fdc_drive_out_load_head ≠ 0 ∧
      intel_fdc_do_load_head (intel_fdc_head_loaded 0) false =
        intel_fdc_post_seek_dispatch (intel_fdc_head_loaded 0) ∧
      (intel_fdc_do_load_head (intel_fdc_head_loaded 0) false).timer_running =
        false ∧
      (intel_fdc_do_load_head (intel_fdc_head_loaded 0) false).state =
        FdcState.syncing_for_id ∧
      intel_fdc_do_load_head (intel_fdc_head_loaded 5) false =
        intel_fdc_set_timer_ms (intel_fdc_head_loaded 5)
          TimerState.post_seek 5 ∧
      (intel_fdc_do_load_head (intel_fdc_head_loaded 5) false).timer_running =
        true ∧
      (intel_fdc_do_load_head (intel_fdc_head_loaded 5) false).timer_value =
        10000 ∧
      (intel_fdc_do_load_head (intel_fdc_head_loaded 5) false).state =
        FdcState.idle :=
  ⟨rfl, fun _ => rfl, by decide, rfl, by decide, by decide, rfl, by decide,
    by decide, by decide⟩

/-- C26: for every byte in parameter 3, with S = 128 << (param_3 >> 5) the
sector size: after `intel_fdc_setup_sector_size`, S successive calls of
`intel_fdc_decrement_counter` return 0 on the first S - 1 calls and 1 on the
S-th call, and after that call `count_lsb` and `count_msb` are both 0. -/
theorem intel_fdc_decrement_counter_sector_size (s : intel_fdc_struct)
    (hp : s.regs k_intel_fdc_register_internal_param_3 < 256) :
    intel_fdc_get_sector_size s =
        128 <<< (s.regs k_intel_fdc_register_internal_param_3 >>> 5) ∧
      (intel_fdc_decrement_counter_calls (intel_fdc_get_sector_size s)
          (intel_fdc_setup_sector_size s)).2 =
        List.replicate (intel_fdc_get_sector_size s - 1) false ++ [true] ∧
      (intel_fdc_decrement_counter_calls (intel_fdc_get_sector_size s)
          (intel_fdc_setup_sector_size s)).1.regs
        k_intel_fdc_register_internal_count_lsb = 0 ∧
      (intel_fdc_decrement_counter_calls (intel_fdc_get_sector_size s)
          (intel_fdc_setup_sector_size s)).1.regs
        k_intel_fdc_register_internal_count_msb = 0 := by
  refine ⟨rfl, ?_⟩
  have he : s.regs 5 >>> 5 ≤ 7 := by
    have hp' : s.regs 5 < 256 := hp
    rw [Nat.shiftRight_eq_div_pow]
    omega
  have hsz : intel_fdc_get_sector_size s = 128 <<< (s.regs 5 >>> 5) := rfl
  have hl : (intel_fdc_setup_sector_size s).regs
      k_intel_fdc_register_internal_count_lsb = 128 := by
    simp [intel_fdc_setup_sector_size, set_reg]
  have hm : (intel_fdc_setup_sector_size s).regs
      k_intel_fdc_register_internal_count_msb =
      (intel_fdc_get_sector_size s / 128 - 1) % 256 := by
    simp [intel_fdc_setup_sector_size, set_reg]
  generalize s.regs 5 >>> 5 = e at he hsz
  have hS : ∃ n, intel_fdc_get_sector_size s = n + 1 ∧
      (n + 1) / 128 - 1 < 255 ∧
      n + 1 = 128 * (((n + 1) / 128 - 1) % 256) + 128 := by
    rw [hsz]
    interval_cases e
    · exact ⟨127, by decide, by decide, by decide⟩
    · exact ⟨255, by decide, by decide, by decide⟩
    · exact ⟨511, by decide, by decide, by decide⟩
    · exact ⟨1023, by decide, by decide, by decide⟩
    · exact ⟨2047, by decide, by decide, by decide⟩
    · exact ⟨4095, by decide, by decide, by decide⟩
    · exact ⟨8191, by decide, by decide, by decide⟩
    · exact ⟨16383, by decide, by decide, by decide⟩
  obtain ⟨n, hn, h1, h2⟩ := hS
  rw [hn] at hm ⊢
  have := intel_fdc_decrement_counter_calls_run n
    (intel_fdc_setup_sector_size s) 128 (((n + 1) / 128 - 1) % 256) hl hm
    (by omega) (by omega) (by omega) h2
  rw [Nat.add_sub_cancel]
  exact this

/-- Witness for C26: parameter 3 = 0x23 in the middle of a sector read, a
sector size of 256 bytes. -/
theorem intel_fdc_decrement_counter_sector_size_witness :
    intel_fdc_reading_sector.regs k_intel_fdc_register_internal_param_3 <
        256 ∧
      intel_fdc_get_sector_size intel_fdc_reading_sector = 256 ∧
      (intel_fdc_decrement_counter_calls 256
          (intel_fdc_setup_sector_size intel_fdc_reading_sector)).2 =
        List.replicate 255 false ++ [true] :=
  ⟨by decide, by decide,
    (intel_fdc_decrement_counter_sector_size intel_fdc_reading_sector
      (by decide)).2.1⟩

/-- C27: `intel_fdc_finish_simple_command` with n = head_load_unload >> 4.
If n = 0 the select-0, select-1 and load-head bits of drive-out are lowered at
once.  If n = 0x0F drive-out is unchanged and no index-pulse callback is
armed.  Otherwise drive-out is unchanged, the spin-down callback is armed and
the pulse count is n; and with `st j` the controller on entry to the
`j + 1`-th later call of `intel_fdc_check_index_pulse`, while nothing else
changes the callback and the count, the call that sees the n-th low-to-high
transition of the index level lowers the three bits and disarms the callback,
and no earlier call changes drive-out. -/
theorem intel_fdc_finish_simple_command_unload (s : intel_fdc_struct)
    (n : Nat) (hb : s.regs k_intel_fdc_register_head_load_unload < 256)
    (hn : n = s.regs k_intel_fdc_register_head_load_unload >>> 4) :
    (n = 0 →
      (intel_fdc_finish_simple_command s).drive_out =
        and_not8 s.drive_out
          (k_intel_fdc_drive_out_select_1 ||| k_intel_fdc_drive_out_select_0 |||
            k_intel_fdc_drive_out_load_head) ∧
      (intel_fdc_finish_simple_command s).drive_out &&&
        (k_intel_fdc_drive_out_select_1 ||| k_intel_fdc_drive_out_select_0 |||
          k_intel_fdc_drive_out_load_head) = 0) ∧
    (n = 0x0F →
      (intel_fdc_finish_simple_command s).drive_out = s.drive_out ∧
      (intel_fdc_finish_simple_command s).index_pulse_callback =
        IndexPulseCallback.none) ∧
    (n ≠ 0 → n ≠ 0x0F →
      (intel_fdc_finish_simple_command s).drive_out = s.drive_out ∧
      (intel_fdc_finish_simple_command s).index_pulse_callback =
        IndexPulseCallback.spindown ∧
      (intel_fdc_finish_simple_command s).regs
        k_intel_fdc_register_internal_index_pulse_count = n ∧
      ∀ (st : Nat → intel_fdc_struct) (m : Nat),
        (st 0).index_pulse_callback =
          (intel_fdc_finish_simple_command s).index_pulse_callback →
        (st 0).regs k_intel_fdc_register_internal_index_pulse_count =
          (intel_fdc_finish_simple_command s).regs
            k_intel_fdc_register_internal_index_pulse_count →
        (∀ j, j < m →
          (st (j + 1)).index_pulse_callback =
            (intel_fdc_check_index_pulse (st j)).index_pulse_callback ∧
          (st (j + 1)).regs k_intel_fdc_register_internal_index_pulse_count =
            (intel_fdc_check_index_pulse (st j)).regs
              k_intel_fdc_register_internal_index_pulse_count) →
        intel_fdc_index_pulse_edges st m + 1 = n →
        intel_fdc_index_pulse_rising (st m) →
        (∀ j, j < m →
          (intel_fdc_check_index_pulse (st j)).drive_out =
            (st j).drive_out ∧
          (intel_fdc_check_index_pulse (st j)).index_pulse_callback =
            IndexPulseCallback.spindown) ∧
        (intel_fdc_check_index_pulse (st m)).drive_out =
          and_not8 (st m).drive_out
            (k_intel_fdc_drive_out_select_1 |||
              k_intel_fdc_drive_out_select_0 |||
              k_intel_fdc_drive_out_load_head) ∧
        (intel_fdc_check_index_pulse (st m)).drive_out &&&
          (k_intel_fdc_drive_out_select_1 ||| k_intel_fdc_drive_out_select_0 |||
            k_intel_fdc_drive_out_load_head) = 0 ∧
        (intel_fdc_check_index_pulse (st m)).index_pulse_callback =
          IndexPulseCallback.none) := by
  have hlow : ∀ d : Nat, and_not8 d 0xC8 &&& 0xC8 = 0 := by
    intro d
    unfold and_not8
    rw [Nat.land_assoc]
    exact Nat.and_zero _
  have hn15 : n ≤ 15 := by
    have hb' : s.regs 0x0F < 256 := hb
    rw [hn, Nat.shiftRight_eq_div_pow]
    show s.regs 0x0F / 2 ^ 4 ≤ 15
    omega
  have hn' : s.regs 0x0F >>> 4 = n := hn.symm
  obtain ⟨c0, c15, cn⟩ := intel_fdc_head_unload_cases s
  rw [hn'] at c0 c15 cn
  refine ⟨?_, ?_, ?_⟩
  · intro h0
    refine ⟨(c0 h0).1, ?_⟩
    rw [(c0 h0).1]
    exact hlow _
  · intro h15
    exact c15 h15
  · intro h0 h15
    obtain ⟨a1, a2, a3⟩ := cn h0 h15
    refine ⟨a1, a2, a3, ?_⟩
    intro st m g0 g1 gnext gm gr
    rw [a2] at g0
    rw [a3] at g1
    have inv := intel_fdc_index_pulse_countdown st n m
      IndexPulseCallback.spindown (by decide) g0 g1 (by omega) (by omega)
      gnext (by omega)
    refine ⟨?_, ?_⟩
    · intro j hj
      obtain ⟨i1, i2, i3⟩ := inv j (by omega)
      by_cases hr : intel_fdc_index_pulse_rising (st j)
      · have he : intel_fdc_index_pulse_edges st (j + 1) =
            intel_fdc_index_pulse_edges st j + 1 := by
          rw [intel_fdc_index_pulse_edges, if_pos hr]
        have hle := intel_fdc_index_pulse_edges_le st (j + 1) m (by omega)
        obtain ⟨_, b2, b3, _⟩ := intel_fdc_check_index_pulse_count (st j) hr
          (by rw [i1]; decide) (by rw [i2]; omega)
        exact ⟨b2, b3.trans i1⟩
      · obtain ⟨_, b2, b3, _⟩ := intel_fdc_check_index_pulse_level (st j) hr
        exact ⟨b2, b3.trans i1⟩
    · obtain ⟨i1, i2, i3⟩ := inv m (Nat.le_refl m)
      obtain ⟨b1, b2, _⟩ := intel_fdc_check_index_pulse_spindown (st m) gr i1
        (by rw [i2]; omega)
      refine ⟨b1, ?_, b2⟩
      rw [b1]
      exact hlow _

/-- Witness for C27: `intel_fdc_reading_sector` has head unload count 2; the
third later call of `intel_fdc_check_index_pulse` sees the second rising edge
and lowers the select and load-head bits. -/
theorem intel_fdc_finish_simple_command_unload_witness :
    intel_fdc_reading_sector.regs k_intel_fdc_register_head_load_unload < 256 ∧
      2 = intel_fdc_reading_sector.regs
        k_intel_fdc_register_head_load_unload >>> 4 ∧
      intel_fdc_index_pulse_edges intel_fdc_unload_calls 2 + 1 = 2 ∧
      intel_fdc_index_pulse_rising (intel_fdc_unload_calls 2) ∧
      (intel_fdc_unload_calls 2).drive_out = 0x48 ∧
      (intel_fdc_check_index_pulse (intel_fdc_unload_calls 2)).drive_out = 0 ∧
      (intel_fdc_check_index_pulse
        (intel_fdc_unload_calls 2)).index_pulse_callback =
          IndexPulseCallback.none :=
  have h := ((intel_fdc_finish_simple_command_unload intel_fdc_reading_sector 2
    (by decide) (by decide)).2.2 (by decide) (by decide)).2.2.2
    intel_fdc_unload_calls 2 (by decide) (by decide) (by decide) (by decide)
    (by decide)
  ⟨by decide, by decide, by decide, by decide, by decide,
    h.2.1.trans (by decide), h.2.2.2⟩

/-- C28: the byte that completes a header with a correct ID CRC and a track
byte (register 0x0C) other than parameter 1, for a command other than READ_ID,
adds one to the seek retry count (8 bits).  If the count is then 3 the command
is finished through `intel_fdc_finish_command` with "sector not found" (0x18);
otherwise `intel_fdc_do_seek` is called again, starting from
(parameter 1 + retry count) mod 256, which is the seek target stored in both
seek-target registers when no bad-track register of the selected drive is at
or below it.  With `st j` the controller on entry to the `j + 1`-th such byte,
the retry count 0 at first and changed by nothing else, the first two re-seek
with retry counts 1 and 2 and the third finishes the command with 0x18. -/
theorem intel_fdc_track_mismatch_retry (s : intel_fdc_struct)
    (data_byte clocks_byte : Nat)
    (hs : s.state = FdcState.in_id_crc) (hc : s.state_count = 1)
    (hcrc : s.crc = ((s.on_disc_crc <<< 8) % 65536 ||| data_byte) % 65536)
    (hcmd : intel_fdc_get_internal_command s ≠ k_intel_fdc_command_READ_ID)
    (hmis : s.regs k_intel_fdc_register_internal_id_track ≠
      s.regs k_intel_fdc_register_internal_param_1) :
    (∃ s1,
      s1.regs = set_reg s.regs k_intel_fdc_register_internal_seek_retry_count
        ((s.regs k_intel_fdc_register_internal_seek_retry_count + 1) % 256) ∧
      s1.drive_out = s.drive_out ∧
      s1.p_current_drive = s.p_current_drive ∧
      ((s.regs k_intel_fdc_register_internal_seek_retry_count + 1) % 256 = 3 →
        intel_fdc_byte_callback_reading s data_byte clocks_byte =
          Except.ok (intel_fdc_finish_command s1
            k_intel_fdc_result_sector_not_found) ∧
        (intel_fdc_finish_command s1
          k_intel_fdc_result_sector_not_found).regs
            k_intel_fdc_register_internal_result =
          (k_intel_fdc_result_sector_not_found |||
            s.regs k_intel_fdc_register_internal_result) % 256 ∧
        (intel_fdc_finish_command s1
          k_intel_fdc_result_sector_not_found).state = FdcState.idle) ∧
      ((s.regs k_intel_fdc_register_internal_seek_retry_count + 1) % 256 ≠ 3 →
        intel_fdc_byte_callback_reading s data_byte clocks_byte =
          intel_fdc_do_seek s1 ∧
        (∀ t, intel_fdc_do_seek s1 = Except.ok t →
          t.regs k_intel_fdc_register_internal_seek_retry_count =
            (s.regs k_intel_fdc_register_internal_seek_retry_count + 1) %
              256) ∧
        ((s.regs k_intel_fdc_register_internal_param_1 +
            (s.regs k_intel_fdc_register_internal_seek_retry_count + 1) %
              256) % 256 < s.regs (intel_fdc_do_seek_track_regs s) →
          (s.regs k_intel_fdc_register_internal_param_1 +
            (s.regs k_intel_fdc_register_internal_seek_retry_count + 1) %
              256) % 256 < s.regs (intel_fdc_do_seek_track_regs s + 1) →
          intel_fdc_do_seek_new_track s1 =
            (s.regs k_intel_fdc_register_internal_param_1 +
              (s.regs k_intel_fdc_register_internal_seek_retry_count + 1) %
                256) % 256 ∧
          ∀ t, intel_fdc_do_seek s1 = Except.ok t →
            t.regs k_intel_fdc_register_internal_seek_target_1 =
              (s.regs k_intel_fdc_register_internal_param_1 +
                (s.regs k_intel_fdc_register_internal_seek_retry_count + 1) %
                  256) % 256 ∧
            t.regs k_intel_fdc_register_internal_seek_target_2 =
              (s.regs k_intel_fdc_register_internal_param_1 +
                (s.regs k_intel_fdc_register_internal_seek_retry_count + 1) %
                  256) % 256))) ∧
    ∀ (st : Nat → intel_fdc_struct) (data clocks : Nat → Nat),
      (∀ j, j < 3 → (st j).state = FdcState.in_id_crc ∧
        (st j).state_count = 1 ∧
        (st j).crc =
          (((st j).on_disc_crc <<< 8) % 65536 ||| data j) % 65536 ∧
        intel_fdc_get_internal_command (st j) ≠ k_intel_fdc_command_READ_ID ∧
        (st j).regs k_intel_fdc_register_internal_id_track ≠
          (st j).regs k_intel_fdc_register_internal_param_1) →
      (st 0).regs k_intel_fdc_register_internal_seek_retry_count = 0 →
      (∀ j, j < 2 →
        (intel_fdc_byte_callback_reading (st j) (data j)
          (clocks j)).toOption.map
            (fun t => t.regs k_intel_fdc_register_internal_seek_retry_count) =
          some ((st (j + 1)).regs
            k_intel_fdc_register_internal_seek_retry_count)) →
      (∀ j, j < 2 → ∃ s1,
        intel_fdc_byte_callback_reading (st j) (data j) (clocks j) =
          intel_fdc_do_seek s1 ∧
        s1.regs k_intel_fdc_register_internal_seek_retry_count = j + 1 ∧
        s1.regs k_intel_fdc_register_internal_param_1 =
          (st j).regs k_intel_fdc_register_internal_param_1) ∧
      ∃ s1,
        intel_fdc_byte_callback_reading (st 2) (data 2) (clocks 2) =
          Except.ok (intel_fdc_finish_command s1
            k_intel_fdc_result_sector_not_found) ∧
        s1.regs k_intel_fdc_register_internal_seek_retry_count = 3 ∧
        (intel_fdc_finish_command s1
          k_intel_fdc_result_sector_not_found).regs
            k_intel_fdc_register_internal_result =
          (k_intel_fdc_result_sector_not_found |||
            (st 2).regs k_intel_fdc_register_internal_result) % 256 ∧
        (intel_fdc_finish_command s1
          k_intel_fdc_result_sector_not_found).state = FdcState.idle := by
  have hreg : ∀ a : intel_fdc_struct,
      intel_fdc_get_internal_command a ≠ k_intel_fdc_command_READ_ID →
      a.regs 0x1F ≠ 0x18 := by
    intro a h e
    apply h
    unfold intel_fdc_get_internal_command
    simp only [k_intel_fdc_register_internal_command, e]
    decide
  refine ⟨?_, ?_⟩
  · obtain ⟨s1, r1, r2, r3, r4⟩ :=
      intel_fdc_byte_callback_reading_track_mismatch s data_byte clocks_byte
        hs hc hcrc (hreg s hcmd) hmis
    obtain ⟨f1, _, _, f4, _⟩ :=
      intel_fdc_finish_command_summary s1 k_intel_fdc_result_sector_not_found
    have htr : intel_fdc_do_seek_track_regs s1 =
        intel_fdc_do_seek_track_regs s := by
      unfold intel_fdc_do_seek_track_regs
      rw [r2]
    refine ⟨s1, r1, r2, r3, ?_, ?_⟩
    · intro h3
      rw [r4, if_pos h3]
      refine ⟨rfl, ?_, f1⟩
      show (intel_fdc_finish_command s1 0x18).regs 0x16 = _
      rw [f4, r1, set_reg_other _ _ _ _ (by decide)]
    · intro h3
      rw [r4, if_neg h3]
      have hret : s1.regs 0x01 = (s.regs 0x01 + 1) % 256 := by
        rw [r1, set_reg_same]
      have hp1 : s1.regs 0x07 = s.regs 0x07 := by
        rw [r1, set_reg_other _ _ _ _ (by decide)]
      refine ⟨rfl, ?_, ?_⟩
      · intro t ht
        exact (intel_fdc_do_seek_retry_count s1 t ht).trans hret
      · intro b1 b2
        have hb1 : s1.regs (intel_fdc_do_seek_track_regs s1) =
            s.regs (intel_fdc_do_seek_track_regs s) := by
          rw [htr, r1]
          rcases intel_fdc_do_seek_track_regs_cases s with e | e <;>
            rw [e, set_reg_other _ _ _ _ (by decide)]
        have hb2 : s1.regs (intel_fdc_do_seek_track_regs s1 + 1) =
            s.regs (intel_fdc_do_seek_track_regs s + 1) := by
          rw [htr, r1]
          rcases intel_fdc_do_seek_track_regs_cases s with e | e <;>
            rw [e, set_reg_other _ _ _ _ (by decide)]
        have hnt := intel_fdc_do_seek_new_track_plain s1
          (by
            show (s1.regs 0x07 + s1.regs 0x01) % 256 < _
            rw [hb1, hp1, hret]
            exact b1)
          (by
            show (s1.regs 0x07 + s1.regs 0x01) % 256 < _
            rw [hb2, hp1, hret]
            exact b2)
        have hnt2 : intel_fdc_do_seek_new_track s1 =
            (s.regs 0x07 + (s.regs 0x01 + 1) % 256) % 256 := by
          rw [hnt]
          show (s1.regs 0x07 + s1.regs 0x01) % 256 = _
          rw [hp1, hret]
        refine ⟨hnt2, ?_⟩
        intro t ht
        obtain ⟨s2, hs2, h11, h12, _, _⟩ := intel_fdc_do_seek_transfer s1
        have f11 : ¬ post_seek_footprint 0x0B := by simp [post_seek_footprint]
        have f12 : ¬ post_seek_footprint 0x0C := by simp [post_seek_footprint]
        rw [← hnt2]
        rcases hs2 with hs2 | hs2
        · rw [hs2] at ht
          injection ht with ht
          rw [← ht]
          exact ⟨((intel_fdc_do_load_head_frame s2 false).1 _ f11).trans h11,
            ((intel_fdc_do_load_head_frame s2 false).1 _ f12).trans h12⟩
        · rw [hs2] at ht
          exact
            ⟨(intel_fdc_do_seek_step_regs s2 t ht _ (by decide) f11).trans h11,
              (intel_fdc_do_seek_step_regs s2 t ht _ (by decide) f12).trans
                h12⟩
  · intro st data clocks hall h0 hnext
    have step : ∀ j k, j < 3 → k < 3 → (st j).regs 0x01 = k →
        ∃ s1, s1.regs 0x01 = k + 1 ∧ s1.regs 0x07 = (st j).regs 0x07 ∧
          s1.regs 0x16 = (st j).regs 0x16 ∧
          intel_fdc_byte_callback_reading (st j) (data j) (clocks j) =
            if k + 1 = 3 then
              Except.ok (intel_fdc_finish_command s1
                k_intel_fdc_result_sector_not_found)
            else intel_fdc_do_seek s1 := by
      intro j k hj hk hjk
      obtain ⟨a1, a2, a3, a4, a5⟩ := hall j hj
      obtain ⟨s1, r1, _, _, r4⟩ :=
        intel_fdc_byte_callback_reading_track_mismatch (st j) (data j)
          (clocks j) a1 a2 a3 (hreg _ a4) a5
      have hk1 : ((st j).regs 0x01 + 1) % 256 = k + 1 := by
        rw [hjk]
        omega
      rw [hk1] at r1 r4
      exact ⟨s1, by rw [r1, set_reg_same],
        by rw [r1, set_reg_other _ _ _ _ (by decide)],
        by rw [r1, set_reg_other _ _ _ _ (by decide)], r4⟩
    have next : ∀ j k, j < 2 → k < 2 → (st j).regs 0x01 = k →
        (st (j + 1)).regs 0x01 = k + 1 := by
      intro j k hj hk hjk
      obtain ⟨s1, b1, _, _, b4⟩ := step j k (by omega) (by omega) hjk
      have hn := hnext j hj
      rw [b4, if_neg (by omega)] at hn
      cases hd : intel_fdc_do_seek s1 with
      | error e =>
        rw [hd] at hn
        simp [Except.toOption] at hn
      | ok t =>
        rw [hd] at hn
        simp only [Except.toOption, Option.map_some', Option.some.injEq,
          k_intel_fdc_register_internal_seek_retry_count] at hn
        rw [← hn]
        exact (intel_fdc_do_seek_retry_count s1 t hd).trans b1
    have e0 : (st 0).regs 0x01 = 0 := h0
    have e1 : (st 1).regs 0x01 = 1 := next 0 0 (by omega) (by omega) e0
    have e2 : (st 2).regs 0x01 = 2 := next 1 1 (by omega) (by omega) e1
    refine ⟨?_, ?_⟩
    · intro j hj
      have hj' : j = 0 ∨ j = 1 := by omega
      rcases hj' with rfl | rfl
      · obtain ⟨s1, b1, b2, _, b4⟩ := step 0 0 (by omega) (by omega) e0
        rw [if_neg (by omega)] at b4
        exact ⟨s1, b4, b1, b2⟩
      · obtain ⟨s1, b1, b2, _, b4⟩ := step 1 1 (by omega) (by omega) e1
        rw [if_neg (by omega)] at b4
        exact ⟨s1, b4, b1, b2⟩
    · obtain ⟨s1, b1, _, b3, b4⟩ := step 2 2 (by omega) (by omega) e2
      rw [if_pos rfl] at b4
      obtain ⟨f1, _, _, f4, _⟩ :=
        intel_fdc_finish_command_summary s1 k_intel_fdc_result_sector_not_found
      refine ⟨s1, b4, b1, ?_, f1⟩
      show (intel_fdc_finish_command s1 0x18).regs 0x16 = _
      rw [f4, b3]

/-- Witness for C28: three headers for track 5 during a READ_DATA for track
2; the first two re-seek, the third finishes the command with 0x18. -/
theorem intel_fdc_track_mismatch_retry_witness :
    (intel_fdc_track_mismatch 2).state = FdcState.in_id_crc ∧
      (intel_fdc_track_mismatch 2).regs
        k_intel_fdc_register_internal_id_track = 5 ∧
      (intel_fdc_track_mismatch 2).regs
        k_intel_fdc_register_internal_param_1 = 2 ∧
      ∃ s1,
        intel_fdc_byte_callback_reading (intel_fdc_track_mismatch 2) 0x34
            0xFF =
          Except.ok (intel_fdc_finish_command s1
            k_intel_fdc_result_sector_not_found) ∧
        s1.regs k_intel_fdc_register_internal_seek_retry_count = 3 ∧
        (intel_fdc_finish_command s1
          k_intel_fdc_result_sector_not_found).regs
            k_intel_fdc_register_internal_result =
          (k_intel_fdc_result_sector_not_found |||
            (intel_fdc_track_mismatch 2).regs
              k_intel_fdc_register_internal_result) % 256 ∧
        (intel_fdc_finish_command s1
          k_intel_fdc_result_sector_not_found).state = FdcState.idle :=
  ⟨by decide, by decide, by decide,
    ((intel_fdc_track_mismatch_retry (intel_fdc_track_mismatch 0) 0x34 0xFF
      (by decide) (by decide) (by decide) (by decide) (by decide)).2
      intel_fdc_track_mismatch (fun _ => 0x34) (fun _ => 0xFF) (by decide)
      (by decide) (by decide)).2⟩

/-- C29: `intel_fdc_start_index_pulse_timeout` arms the timeout callback with
count 3.  With `st j` the controller on entry to the `j + 1`-th later byte
callback, while nothing else changes the callback and the count, the callback
that sees the third low-to-high transition of the index level finishes the
command through `intel_fdc_finish_command` with "sector not found" (0x18), no
earlier one finishes it, and a call of `intel_fdc_check_index_pulse` that does
not see a low-to-high transition changes no register. -/
theorem intel_fdc_index_pulse_timeout_third_pulse (s : intel_fdc_struct)
    (st : Nat → intel_fdc_struct) (m : Nat)
    (h0 : (st 0).index_pulse_callback =
        (intel_fdc_start_index_pulse_timeout s).index_pulse_callback ∧
      (st 0).regs k_intel_fdc_register_internal_index_pulse_count =
        (intel_fdc_start_index_pulse_timeout s).regs
          k_intel_fdc_register_internal_index_pulse_count)
    (hnext : ∀ j, j < m →
      (st (j + 1)).index_pulse_callback =
        (intel_fdc_check_index_pulse (st j)).index_pulse_callback ∧
      (st (j + 1)).regs k_intel_fdc_register_internal_index_pulse_count =
        (intel_fdc_check_index_pulse (st j)).regs
          k_intel_fdc_register_internal_index_pulse_count)
    (hm : intel_fdc_index_pulse_edges st m = 2)
    (hr : intel_fdc_index_pulse_rising (st m)) :
    (intel_fdc_start_index_pulse_timeout s).index_pulse_callback =
        IndexPulseCallback.timeout ∧
      (intel_fdc_start_index_pulse_timeout s).regs
        k_intel_fdc_register_internal_index_pulse_count = 3 ∧
      (∀ j, j < m →
        (intel_fdc_check_index_pulse (st j)).index_pulse_callback =
          IndexPulseCallback.timeout ∧
        (intel_fdc_check_index_pulse (st j)).regs
          k_intel_fdc_register_internal_index_pulse_count =
            3 - intel_fdc_index_pulse_edges st (j + 1) ∧
        0 < 3 - intel_fdc_index_pulse_edges st (j + 1) ∧
        (∀ r, r ≠ k_intel_fdc_register_internal_index_pulse_count →
          (intel_fdc_check_index_pulse (st j)).regs r = (st j).regs r) ∧
        (intel_fdc_check_index_pulse (st j)).state = (st j).state ∧
        (intel_fdc_check_index_pulse (st j)).drive_out = (st j).drive_out) ∧
      (∃ u, intel_fdc_check_index_pulse (st m) =
          intel_fdc_finish_command u k_intel_fdc_result_sector_not_found ∧
        u.regs k_intel_fdc_register_internal_result =
          (st m).regs k_intel_fdc_register_internal_result ∧
        u.regs k_intel_fdc_register_internal_status =
          (st m).regs k_intel_fdc_register_internal_status ∧
        u.drive_out = (st m).drive_out) ∧
      (intel_fdc_check_index_pulse (st m)).regs
          k_intel_fdc_register_internal_result =
        (k_intel_fdc_result_sector_not_found |||
          (st m).regs k_intel_fdc_register_internal_result) % 256 ∧
      (intel_fdc_check_index_pulse (st m)).state = FdcState.idle ∧
      (∀ data_byte clocks_byte, (st m).p_current_drive ≠ none →
        intel_fdc_byte_callback (st m) data_byte clocks_byte =
          Except.ok (intel_fdc_check_index_pulse (st m))) ∧
      ∀ t, ¬ intel_fdc_index_pulse_rising t →
        (intel_fdc_check_index_pulse t).regs = t.regs := by
  have a2 : (intel_fdc_start_index_pulse_timeout s).index_pulse_callback =
      IndexPulseCallback.timeout := rfl
  have a3 : (intel_fdc_start_index_pulse_timeout s).regs
      k_intel_fdc_register_internal_index_pulse_count = 3 := by
    simp [intel_fdc_start_index_pulse_timeout, set_reg]
  obtain ⟨g0, g1⟩ := h0
  rw [a2] at g0
  rw [a3] at g1
  have inv := intel_fdc_index_pulse_countdown st 3 m
    IndexPulseCallback.timeout (by decide) g0 g1 (by omega) (by omega)
    hnext hm
  obtain ⟨i1, i2, i3⟩ := inv m (Nat.le_refl m)
  obtain ⟨u, e, u1, u2, u3⟩ := intel_fdc_check_index_pulse_timeout (st m) hr i1
    (by rw [i2, hm])
  obtain ⟨f1, _, _, f4, _, _, f7, _⟩ :=
    intel_fdc_finish_command_summary u k_intel_fdc_result_sector_not_found
  refine ⟨a2, a3, ?_, ⟨u, e, u1, u2, u3⟩, ?_, ?_, ?_, ?_⟩
  · intro j hj
    obtain ⟨j1, j2, j3⟩ := inv j (by omega)
    by_cases hrj : intel_fdc_index_pulse_rising (st j)
    · have he : intel_fdc_index_pulse_edges st (j + 1) =
          intel_fdc_index_pulse_edges st j + 1 := by
        rw [intel_fdc_index_pulse_edges, if_pos hrj]
      have hle := intel_fdc_index_pulse_edges_le st (j + 1) m (by omega)
      obtain ⟨b1, b2, b3, b4, _⟩ := intel_fdc_check_index_pulse_count (st j) hrj
        (by rw [j1]; decide) (by rw [j2]; omega)
      refine ⟨b3.trans j1, ?_, by omega, ?_, b4, b2⟩
      · rw [b1, set_reg_same, j2, he]
        omega
      · intro r hr0
        rw [b1, set_reg_other _ _ _ _ hr0]
    · have he : intel_fdc_index_pulse_edges st (j + 1) =
          intel_fdc_index_pulse_edges st j := by
        rw [intel_fdc_index_pulse_edges, if_neg hrj]
        rfl
      have hle := intel_fdc_index_pulse_edges_le st (j + 1) m (by omega)
      obtain ⟨b1, b2, b3, b4, _⟩ := intel_fdc_check_index_pulse_level (st j) hrj
      refine ⟨b3.trans j1, ?_, by omega, ?_, b4, b2⟩
      · rw [b1, j2, he]
      · intro r _
        rw [b1]
  · rw [e]
    show (intel_fdc_finish_command u 0x18).regs 0x16 = _
    rw [f4, u1]
  · rw [e]
    exact f1
  · intro data_byte clocks_byte hp
    have hw : (intel_fdc_finish_command u
        k_intel_fdc_result_sector_not_found).drive_out &&& 1 = 0 := by
      have h7 := f7 (by decide)
      have : ∀ d : Nat, d &&& 7 = 0 → d &&& 1 = 0 := by
        intro d hd
        have : d &&& 1 = (d &&& 7) &&& 1 := by
          rw [Nat.land_assoc]
          rfl
        rw [this, hd]
        exact Nat.zero_and _
      exact this _ h7
    unfold intel_fdc_byte_callback
    cases hd : (st m).p_current_drive with
    | none => exact absurd hd hp
    | some d =>
      simp only []
      rw [e, f1]
      simp only [k_intel_fdc_drive_out_write_enable, hw]
      simp
  · intro t ht
    exact (intel_fdc_check_index_pulse_level t ht).1

/-- Witness for C29: `intel_fdc_reading_sector` with the timeout just armed
and the index level going high, low, high, low, high: the fifth call finishes
the command with result 0x18. -/
theorem intel_fdc_index_pulse_timeout_third_pulse_witness :
    intel_fdc_index_pulse_edges intel_fdc_timeout_calls 4 = 2 ∧
      intel_fdc_index_pulse_rising (intel_fdc_timeout_calls 4) ∧
      (intel_fdc_check_index_pulse (intel_fdc_timeout_calls 3)).regs
        k_intel_fdc_register_internal_index_pulse_count = 1 ∧
      (intel_fdc_check_index_pulse (intel_fdc_timeout_calls 4)).regs
        k_intel_fdc_register_internal_result = 0x18 ∧
      (intel_fdc_check_index_pulse (intel_fdc_timeout_calls 4)).state =
        FdcState.idle :=
  have h := intel_fdc_index_pulse_timeout_third_pulse intel_fdc_reading_sector
    intel_fdc_timeout_calls 4 (by decide) (by decide) (by decide) (by decide)
  ⟨by decide, by decide, ((h.2.2.1 3 (by decide)).2.1).trans (by decide),
    h.2.2.2.2.1.trans (by decide), h.2.2.2.2.2.1⟩

/-- C30: in state syncing_for_id or syncing_for_data, with a bit of 0 or 1,
`intel_fdc_shift_data_bit` returns without failing an assertion.  It leaves
the sync state exactly when the count of matched bits is at least 32 and odd
(a data position) and the bit is 1; it then enters check_id_marker (resp.
check_data_marker) with shift_register = 3 and num_shifts = 2.  A bit that
continues the pattern 1,0,1,0,... adds one to the count, and any other bit
sets the count to 0 and keeps the state.  Over a run `st` of calls that starts
with count 0 and stays in the sync state, the count never exceeds the number
of bits seen and the last `state_count` bits are 1,0,1,0,..., so the bit that
leaves the sync state follows at least 32 consecutive bits of the pattern. -/
theorem intel_fdc_shift_data_bit_sync (s : intel_fdc_struct) (bit : Nat)
    (hs : s.state = FdcState.syncing_for_id ∨
      s.state = FdcState.syncing_for_data)
    (hbit : bit ≤ 1) :
    (∃ t, intel_fdc_shift_data_bit s bit = Except.ok t ∧
      (t.state ≠ s.state ↔
        32 ≤ s.state_count ∧ s.state_count % 2 = 1 ∧ bit = 1) ∧
      (t.state ≠ s.state →
        t = { s with
          state :=
            if s.state = FdcState.syncing_for_id then FdcState.check_id_marker
            else FdcState.check_data_marker,
          state_count := 0, shift_register := 3, num_shifts := 2 }) ∧
      (bit = (if s.state_count % 2 = 0 then 1 else 0) →
        t = { s with state_count := (s.state_count + 1) % 4294967296 }) ∧
      (bit ≠ (if s.state_count % 2 = 0 then 1 else 0) →
        ¬ (32 ≤ s.state_count ∧ s.state_count % 2 = 1 ∧ bit = 1) →
        t = { s with state_count := 0 })) ∧
    ∀ (st : Nat → intel_fdc_struct) (bits : Nat → Nat) (m : Nat),
      (∀ j, j ≤ m → (st j).state = s.state) →
      (st 0).state_count = 0 →
      (∀ j, j < m → bits j ≤ 1 ∧
        intel_fdc_shift_data_bit (st j) (bits j) = Except.ok (st (j + 1))) →
      (∀ j, j ≤ m → (st j).state_count ≤ j ∧
        ∀ i, i < (st j).state_count →
          bits (j - (st j).state_count + i) = if i % 2 = 0 then 1 else 0) ∧
      ∀ b t, b ≤ 1 → intel_fdc_shift_data_bit (st m) b = Except.ok t →
        t.state ≠ s.state →
        32 ≤ (st m).state_count ∧ (st m).state_count ≤ m ∧
        (st m).state_count % 2 = 1 ∧ b = 1 ∧
        ∀ i, i < (st m).state_count →
          bits (m - (st m).state_count + i) = if i % 2 = 0 then 1 else 0 := by
  have hne : (if s.state = FdcState.syncing_for_id then
      FdcState.check_id_marker else FdcState.check_data_marker) ≠ s.state := by
    rcases hs with h | h <;> simp [h]
  have key : ∀ (a : intel_fdc_struct) (b : Nat) (t : intel_fdc_struct),
      a.state = s.state → b ≤ 1 →
      intel_fdc_shift_data_bit a b = Except.ok t →
      (t.state ≠ s.state ↔
        32 ≤ a.state_count ∧ a.state_count % 2 = 1 ∧ b = 1) ∧
      (t.state ≠ s.state →
        t = { a with
          state :=
            if a.state = FdcState.syncing_for_id then FdcState.check_id_marker
            else FdcState.check_data_marker,
          state_count := 0, shift_register := 3, num_shifts := 2 }) ∧
      (b = (if a.state_count % 2 = 0 then 1 else 0) →
        t = { a with state_count := (a.state_count + 1) % 4294967296 }) ∧
      (b ≠ (if a.state_count % 2 = 0 then 1 else 0) →
        ¬ (32 ≤ a.state_count ∧ a.state_count % 2 = 1 ∧ b = 1) →
        t = { a with state_count := 0 }) := by
    intro a b t ha hb ht
    obtain ⟨c1, c2, c3⟩ := intel_fdc_sync_bit_cases a b
      (by rw [ha]; exact hs) hb
    by_cases hm : b = (if a.state_count % 2 = 0 then 1 else 0)
    · have e := c1 hm
      rw [ht] at e
      injection e with e
      have hst : t.state = s.state := by rw [e]; exact ha
      have hx : ¬ (32 ≤ a.state_count ∧ a.state_count % 2 = 1 ∧ b = 1) := by
        rintro ⟨_, h2, h3⟩
        rw [if_neg (by omega)] at hm
        omega
      exact ⟨⟨fun h => absurd hst h, fun h => absurd h hx⟩,
        fun h => absurd hst h, fun _ => e, fun h => absurd hm h⟩
    · by_cases hc : 32 ≤ a.state_count ∧ a.state_count % 2 = 1
      · obtain ⟨h1, e⟩ := c2 hm hc
        rw [ht] at e
        injection e with e
        have hst : t.state ≠ s.state := by
          rw [e]
          show (if a.state = FdcState.syncing_for_id then
            FdcState.check_id_marker else FdcState.check_data_marker) ≠ s.state
          rw [ha]
          exact hne
        exact ⟨⟨fun _ => ⟨hc.1, hc.2, h1⟩, fun _ => hst⟩, fun _ => e,
          fun h => absurd h hm, fun _ h => absurd ⟨hc.1, hc.2, h1⟩ h⟩
      · have e := c3 hm hc
        rw [ht] at e
        injection e with e
        have hst : t.state = s.state := by rw [e]; exact ha
        exact ⟨⟨fun h => absurd hst h, fun h => absurd ⟨h.1, h.2.1⟩ hc⟩,
          fun h => absurd hst h, fun h => absurd h hm, fun _ _ => e⟩
  have ret : ∃ t, intel_fdc_shift_data_bit s bit = Except.ok t := by
    obtain ⟨c1, c2, c3⟩ := intel_fdc_sync_bit_cases s bit hs hbit
    by_cases hm : bit = (if s.state_count % 2 = 0 then 1 else 0)
    · exact ⟨_, c1 hm⟩
    · by_cases hc : 32 ≤ s.state_count ∧ s.state_count % 2 = 1
      · exact ⟨_, (c2 hm hc).2⟩
      · exact ⟨_, c3 hm hc⟩
  refine ⟨?_, ?_⟩
  · obtain ⟨t, ht⟩ := ret
    exact ⟨t, ht, key s bit t rfl hbit ht⟩
  · intro st bits m hst h0 hstep
    have inv : ∀ j, j ≤ m → ((st j).state_count ≤ j ∧
        (st j).state_count < 4294967296) ∧
        ∀ i, i < (st j).state_count →
          bits (j - (st j).state_count + i) = if i % 2 = 0 then 1 else 0 := by
      intro j
      induction j with
      | zero =>
        intro _
        rw [h0]
        exact ⟨⟨Nat.le_refl 0, by decide⟩,
          fun i hi => absurd hi (Nat.not_lt_zero i)⟩
      | succ j ih =>
        intro hj
        obtain ⟨⟨i1, i3⟩, i2⟩ := ih (by omega)
        obtain ⟨hb, hstp⟩ := hstep j (by omega)
        obtain ⟨k1, k2, k3, k4⟩ :=
          key (st j) (bits j) (st (j + 1)) (hst j (by omega)) hb hstp
        have hkeep : (st (j + 1)).state = s.state := hst (j + 1) hj
        by_cases hm : bits j = (if (st j).state_count % 2 = 0 then 1 else 0)
        · have e := k3 hm
          have ec : (st (j + 1)).state_count =
              ((st j).state_count + 1) % 4294967296 := by rw [e]
          by_cases hw : (st j).state_count + 1 < 4294967296
          · rw [Nat.mod_eq_of_lt hw] at ec
            rw [ec]
            refine ⟨⟨by omega, hw⟩, ?_⟩
            intro i hi
            by_cases hi2 : i < (st j).state_count
            · have := i2 i hi2
              rw [show j + 1 - ((st j).state_count + 1) + i =
                j - (st j).state_count + i from by omega]
              exact this
            · have hie : i = (st j).state_count := by omega
              rw [show j + 1 - ((st j).state_count + 1) + i = j from by omega,
                hm, hie]
          · have ez : (st (j + 1)).state_count = 0 := by
              rw [ec]
              omega
            rw [ez]
            exact ⟨⟨Nat.zero_le _, by decide⟩,
              fun i hi => absurd hi (Nat.not_lt_zero i)⟩
        · have hx : ¬ (32 ≤ (st j).state_count ∧
              (st j).state_count % 2 = 1 ∧ bits j = 1) := by
            intro h
            exact (k1.mpr h) hkeep
          have e := k4 hm hx
          have ez : (st (j + 1)).state_count = 0 := by rw [e]
          rw [ez]
          exact ⟨⟨Nat.zero_le _, by decide⟩,
            fun i hi => absurd hi (Nat.not_lt_zero i)⟩
    refine ⟨fun j hj => ⟨(inv j hj).1.1, (inv j hj).2⟩, ?_⟩
    intro b t hb ht hleave
    obtain ⟨k1, _⟩ := key (st m) b t (hst m (Nat.le_refl m)) hb ht
    obtain ⟨x1, x2, x3⟩ := k1.mp hleave
    obtain ⟨⟨i1, _⟩, i2⟩ := inv m (Nat.le_refl m)
    exact ⟨x1, i1, x2, x3, i2⟩

/-- Witness for C30: after 33 bits of the pattern a data bit of 1 enters the
ID marker check with two bits in the shift register. -/
theorem intel_fdc_shift_data_bit_sync_witness :
    (intel_fdc_synced.state = FdcState.syncing_for_id ∨
        intel_fdc_synced.state = FdcState.syncing_for_data) ∧
      intel_fdc_synced.state_count = 33 ∧
      ∃ t, intel_fdc_shift_data_bit intel_fdc_synced 1 = Except.ok t ∧
        t.state = FdcState.check_id_marker ∧ t.shift_register = 3 ∧
        t.num_shifts = 2 :=
  have h := (intel_fdc_shift_data_bit_sync intel_fdc_synced 1
    (by decide) (by decide)).1
  ⟨by decide, by decide,
    h.elim (fun t ht => ⟨t, ht.1,
      by rw [ht.2.2.1 (ht.2.1.mpr (by decide))]; rfl,
      by rw [ht.2.2.1 (ht.2.1.mpr (by decide))],
      by rw [ht.2.2.1 (ht.2.1.mpr (by decide))]⟩)⟩

/-! ## The claims, fourth part -/

/-! ## C31: the four header bytes and the two CRC bytes of an ID -/

/-- READ_ID hands each header byte to the host.  From the state
`intel_fdc_reading_id` (state in_id, header pointer 0x0C, command READ_ID)
the first byte 0x27 is stored and raises need-data; when the next byte 0x05
arrives with need-data still set, it is not stored in register 0x0B, the
header pointer stays at 0x0B and the command ends in the idle state with
result late DMA. -/
theorem intel_fdc_read_id_header_late :
    ∃ t1 t2,
      intel_fdc_byte_callback_reading intel_fdc_reading_id 0x27 0xFF =
        Except.ok t1 ∧
      t1.state = FdcState.in_id ∧
      t1.regs k_intel_fdc_register_internal_id_track = 0x27 ∧
      t1.regs k_intel_fdc_register_internal_header_pointer = 0x0B ∧
      t1.regs k_intel_fdc_register_internal_status &&&
        k_intel_fdc_status_flag_need_data ≠ 0 ∧
      intel_fdc_byte_callback_reading t1 0x05 0xFF = Except.ok t2 ∧
      t2.state = FdcState.idle ∧
      t2.regs 0x0B = 0 ∧
      t2.regs k_intel_fdc_register_internal_header_pointer = 0x0B ∧
      intel_fdc_get_result t2 = k_intel_fdc_result_late_dma :=
  ⟨_, _, rfl, by decide, by decide, by decide, by decide, rfl, by decide,
    by decide, by decide, by decide⟩

/-- C31: a run of `intel_fdc_byte_callback_reading` starts after an ID mark
was recognised (state in_id, header pointer 0x0C); the six data bytes are
bytes; between two callbacks the host leaves the state, its count, both CRCs
and every register but data and status as they are; and if the command is
READ_ID, need-data is clear at each of the first four callbacks.  Then the
first four callbacks return and store their byte in register 0x0C (id_track),
0x0B, 0x0A (id_sector) and 0x09, each adds its byte to the running CRC and
moves the header pointer down by one, and the fourth leaves the state
in_id_crc with count 0 and on_disc_crc 0, the four registers holding the four
bytes.  The fifth callback stores no register and leaves on_disc_crc = b1;
the sixth sets on_disc_crc = (b1 << 8) | b2 and compares it with the running
CRC of the four header bytes: if they differ the command finishes with
result ID CRC error, and if they agree and the command register holds 0x18
`intel_fdc_check_completion` runs. -/
theorem intel_fdc_byte_callback_reading_header
    (st : Nat → intel_fdc_struct) (bytes clocks : Nat → Nat)
    (h0 : (st 0).state = FdcState.in_id ∧
      (st 0).regs k_intel_fdc_register_internal_header_pointer = 0x0C)
    (hb : ∀ k, k < 6 → bytes k < 256)
    (hhost : intel_fdc_get_internal_command (st 0) =
        k_intel_fdc_command_READ_ID →
      ∀ k, k < 4 →
        (st k).regs k_intel_fdc_register_internal_status &&&
          k_intel_fdc_status_flag_need_data = 0)
    (hkept : ∀ k, k < 5 → ∀ t,
      intel_fdc_byte_callback_reading (st k) (bytes k) (clocks k) =
        Except.ok t →
      intel_fdc_host_kept_reading t (st (k + 1))) :
    (∀ k, k < 4 → ∃ t,
        intel_fdc_byte_callback_reading (st k) (bytes k) (clocks k) =
          Except.ok t ∧
        t.regs (0x0C - k) = bytes k ∧
        t.crc = ibm_disc_format_crc_add_byte (st k).crc (bytes k) ∧
        t.regs k_intel_fdc_register_internal_header_pointer = 0x0B - k ∧
        t.state = (if k = 3 then FdcState.in_id_crc else FdcState.in_id) ∧
        (k = 3 → t.on_disc_crc = 0 ∧ t.state_count = 0)) ∧
      ((st 4).state = FdcState.in_id_crc ∧ (st 4).state_count = 0 ∧
        (st 4).on_disc_crc = 0 ∧
        (st 4).regs k_intel_fdc_register_internal_id_track = bytes 0 ∧
        (st 4).regs 0x0B = bytes 1 ∧
        (st 4).regs k_intel_fdc_register_internal_id_sector = bytes 2 ∧
        (st 4).regs 0x09 = bytes 3 ∧
        (st 4).crc = ibm_disc_format_crc_add_bytes (st 0).crc bytes 4) ∧
      intel_fdc_byte_callback_reading (st 4) (bytes 4) (clocks 4) =
        Except.ok { st 4 with on_disc_crc := bytes 4, state_count := 1 } ∧
      ((st 5).state = FdcState.in_id_crc ∧ (st 5).state_count = 1 ∧
        (st 5).on_disc_crc = bytes 4 ∧
        (st 5).crc = ibm_disc_format_crc_add_bytes (st 0).crc bytes 4) ∧
      ((st 5).crc ≠ bytes 4 <<< 8 ||| bytes 5 →
        intel_fdc_byte_callback_reading (st 5) (bytes 5) (clocks 5) =
          Except.ok (intel_fdc_finish_command
            { st 5 with
              on_disc_crc := bytes 4 <<< 8 ||| bytes 5,
              state_count := 2 } k_intel_fdc_result_id_crc_error)) ∧
      ((st 5).crc = bytes 4 <<< 8 ||| bytes 5 →
        (st 5).regs k_intel_fdc_register_internal_command = 0x18 →
        intel_fdc_byte_callback_reading (st 5) (bytes 5) (clocks 5) =
          intel_fdc_check_completion
            { st 5 with
              on_disc_crc := bytes 4 <<< 8 ||| bytes 5,
              state_count := 2 }) := by
  have ph := intel_fdc_header_phase st bytes clocks h0 hhost
    (fun k hk => hkept k (by omega))
  obtain ⟨a1, _, _, a4, a5, a6⟩ := ph 4 (le_refl _)
  rw [if_pos rfl] at a1
  obtain ⟨a6, a7⟩ := a6 rfl
  have ob := intel_fdc_on_disc_crc_bytes (bytes 4) (bytes 5)
    (hb 4 (by decide)) (hb 5 (by decide))
  have c1 := intel_fdc_byte_callback_reading_in_id_crc_first (st 4) (bytes 4)
    (clocks 4) a1 a7
  rw [a6, ob.1] at c1
  obtain ⟨k1, k2, k3, k4, _⟩ := hkept 4 (by decide) _ c1
  have s1 : (st 5).state = FdcState.in_id_crc := k1.trans a1
  have s2 : (st 5).state_count = 1 := k2
  have s3 : (st 5).on_disc_crc = bytes 4 := k4
  have s4 : (st 5).crc = ibm_disc_format_crc_add_bytes (st 0).crc bytes 4 :=
    k3.trans a5
  have c2 := intel_fdc_byte_callback_reading_in_id_crc_second (st 5)
    (bytes 5) (clocks 5) s1 s2
  rw [s3, ob.2] at c2
  refine ⟨?_, ⟨a1, a7, a6, a4 0 (by decide), a4 1 (by decide),
    a4 2 (by decide), a4 3 (by decide), a5⟩, c1, ⟨s1, s2, s3, s4⟩, c2.1,
    c2.2⟩
  intro k hk
  obtain ⟨i1, i2, i3, _, _, _⟩ := ph k (by omega)
  rw [if_neg (show ¬ k = 4 by omega)] at i1
  obtain ⟨t, e, t1, t2, t3, t4, t5, t6, _, _, _⟩ :=
    intel_fdc_byte_callback_reading_in_id (st k) (bytes k) (clocks k)
      (12 - k) i1 i2 (by omega)
      (fun hc => hhost (by
        rw [← intel_fdc_get_internal_command_of_reg (st k) (st 0) i3]
        exact hc) k hk)
  refine ⟨t, e, t5, t3, ?_, ?_, ?_⟩
  · rw [t6]
    omega
  · rw [t1]
    by_cases h : k = 3
    · subst h
      rfl
    · rw [if_neg (show ¬ 12 - k = 9 by omega), if_neg h]
  · intro h
    subst h
    rw [t4, t2]
    exact ⟨rfl, rfl⟩

theorem intel_fdc_byte_callback_reading_header_witness :
    intel_fdc_get_internal_command intel_fdc_reading_id =
        k_intel_fdc_command_READ_ID ∧
      (intel_fdc_read_run intel_fdc_reading_id intel_fdc_id_field_example
          4).state = FdcState.in_id_crc ∧
      (intel_fdc_read_run intel_fdc_reading_id intel_fdc_id_field_example
          4).regs k_intel_fdc_register_internal_id_track = 0x27 ∧
      (intel_fdc_read_run intel_fdc_reading_id intel_fdc_id_field_example
          4).regs k_intel_fdc_register_internal_id_sector = 0x05 ∧
      (intel_fdc_read_run intel_fdc_reading_id intel_fdc_id_field_example
          5).on_disc_crc = 0x12 :=
  ⟨by decide,
    (intel_fdc_byte_callback_reading_header
      (intel_fdc_read_run intel_fdc_reading_id intel_fdc_id_field_example)
      intel_fdc_id_field_example (fun _ => 0xFF) ⟨rfl, rfl⟩ (by decide)
      (fun _ k _ => intel_fdc_read_run_in_time _ _ (by decide) k)
      (fun k _ t e => intel_fdc_read_run_kept _ _ k t e)).2.1.1,
    (intel_fdc_byte_callback_reading_header
      (intel_fdc_read_run intel_fdc_reading_id intel_fdc_id_field_example)
      intel_fdc_id_field_example (fun _ => 0xFF) ⟨rfl, rfl⟩ (by decide)
      (fun _ k _ => intel_fdc_read_run_in_time _ _ (by decide) k)
      (fun k _ t e => intel_fdc_read_run_kept _ _ k t e)).2.1.2.2.2.1,
    (intel_fdc_byte_callback_reading_header
      (intel_fdc_read_run intel_fdc_reading_id intel_fdc_id_field_example)
      intel_fdc_id_field_example (fun _ => 0xFF) ⟨rfl, rfl⟩ (by decide)
      (fun _ k _ => intel_fdc_read_run_in_time _ _ (by decide) k)
      (fun k _ t e => intel_fdc_read_run_kept _ _ k t e)).2.1.2.2.2.2.2.1,
    (intel_fdc_byte_callback_reading_header
      (intel_fdc_read_run intel_fdc_reading_id intel_fdc_id_field_example)
      intel_fdc_id_field_example (fun _ => 0xFF) ⟨rfl, rfl⟩ (by decide)
      (fun _ k _ => intel_fdc_read_run_in_time _ _ (by decide) k)
      (fun k _ t e => intel_fdc_read_run_kept _ _ k t e)).2.2.2.1.2.2.1⟩

/-! ## C32: the bytes written for a sector -/

/-- C32: a run of byte callbacks starts in the state write_gap_2 with count
0 and sector size `S = 128 << (param_3 >> 5)` (the register being a byte);
the command is not a scan; between two callbacks the host leaves the view
and all registers but data and status as they are, and before each of the
`S` callbacks that take a data byte it has cleared need-data, the data
register then holding `data 0`, …, `data (S - 1)`.  Then every callback
returns, and they write to the drive exactly: 6 bytes (data 0x00, clocks
0xFF); the data marker register with clocks 0xC7; the `S` bytes `data k`
with clocks 0xFF; the high and the low byte of the CRC-16 of the marker and
these bytes with clocks 0xFF; `S + 9` bytes in all, the last one in the call
that ends in `intel_fdc_check_completion`.  NMI and need-data are raised by
the call that writes the marker and by the calls that write the first
`S - 1` data bytes, and by no other: `S` times. -/
theorem intel_fdc_write_sector_run (st : Nat → intel_fdc_struct) (S : Nat)
    (data : Nat → Nat)
    (h0 : (st 0).state = FdcState.write_gap_2 ∧ (st 0).state_count = 0)
    (hS : intel_fdc_get_sector_size (st 0) = S)
    (hreg : (st 0).regs k_intel_fdc_register_internal_param_3 < 256)
    (hcmd : intel_fdc_get_internal_command (st 0) ≠
        k_intel_fdc_command_SCAN_DATA ∧
      intel_fdc_get_internal_command (st 0) ≠
        k_intel_fdc_command_SCAN_DATA_AND_DELETED)
    (hhost : ∀ k, 1 ≤ k → k ≤ S →
      (st (6 + k)).regs k_intel_fdc_register_internal_data = data (k - 1) ∧
      (st (6 + k)).regs k_intel_fdc_register_internal_status &&&
        k_intel_fdc_status_flag_need_data = 0)
    (hkept : ∀ k, k < S + 8 → ∀ t,
      intel_fdc_byte_callback_writing (st k) = Except.ok t →
      intel_fdc_host_kept t (st (k + 1))) :
    S = 128 <<< ((st 0).regs k_intel_fdc_register_internal_param_3 >>> 5) ∧
      (∀ k, k < 6 → ∃ t,
        intel_fdc_byte_callback_writing (st k) = Except.ok t ∧
        t.drive_writes =
          (st 0).drive_writes ++
            List.replicate (k + 1) ⟨(st 0).p_current_drive, 0x00, 0xFF⟩ ∧
        t.regs = (st k).regs ∧ t.nmi_level = (st k).nmi_level) ∧
      (∀ k, k < S + 2 → ∃ t,
        intel_fdc_byte_callback_writing (st (6 + k)) = Except.ok t ∧
        t.drive_writes =
          (st 0).drive_writes ++
            List.replicate 6 ⟨(st 0).p_current_drive, 0x00, 0xFF⟩ ++
            intel_fdc_written (st 0).p_current_drive
              (intel_fdc_record_byte
                ((st 0).regs k_intel_fdc_register_internal_param_data_marker)
                data S) (k + 1) ∧
        (k < S →
          t.regs = set_reg (st (6 + k)).regs
            k_intel_fdc_register_internal_status
            (((st (6 + k)).regs k_intel_fdc_register_internal_status |||
              (k_intel_fdc_status_flag_nmi |||
                k_intel_fdc_status_flag_need_data)) % 256) ∧
          t.nmi_level = true) ∧
        (S ≤ k →
          t.regs = (st (6 + k)).regs ∧
          t.nmi_level = (st (6 + k)).nmi_level)) ∧
      intel_fdc_byte_callback_writing (st (S + 8)) =
        intel_fdc_check_completion
          { st (S + 8) with
            drive_writes :=
              (st 0).drive_writes ++
                List.replicate 6 ⟨(st 0).p_current_drive, 0x00, 0xFF⟩ ++
                intel_fdc_written (st 0).p_current_drive
                  (intel_fdc_record_byte
                    ((st 0).regs
                      k_intel_fdc_register_internal_param_data_marker)
                    data S) (S + 3),
            state_count := S + 3 } ∧
      intel_fdc_written (st 0).p_current_drive
          (intel_fdc_record_byte
            ((st 0).regs k_intel_fdc_register_internal_param_data_marker)
            data S) (S + 3) =
        [⟨(st 0).p_current_drive,
            (st 0).regs k_intel_fdc_register_internal_param_data_marker,
            k_ibm_disc_mark_clock_pattern⟩] ++
          (List.range S).map
            (fun k => ⟨(st 0).p_current_drive, data k, 0xFF⟩) ++
          [⟨(st 0).p_current_drive,
              (ibm_disc_format_crc_add_bytes
                (ibm_disc_format_crc_add_byte ibm_disc_format_crc_init
                  ((st 0).regs
                    k_intel_fdc_register_internal_param_data_marker))
                data S >>> 8) % 256, 0xFF⟩,
            ⟨(st 0).p_current_drive,
              ibm_disc_format_crc_add_bytes
                (ibm_disc_format_crc_add_byte ibm_disc_format_crc_init
                  ((st 0).regs
                    k_intel_fdc_register_internal_param_data_marker))
                data S &&& 0xFF, 0xFF⟩] ∧
      (List.replicate 6
          (⟨(st 0).p_current_drive, 0x00, 0xFF⟩ : DriveWrite) ++
        intel_fdc_written (st 0).p_current_drive
          (intel_fdc_record_byte
            ((st 0).regs k_intel_fdc_register_internal_param_data_marker)
            data S) (S + 3)).length = S + 9 := by
  have hSle := (intel_fdc_get_sector_size_le (st 0) hreg).2
  rw [hS] at hSle
  have hg : ∀ k, intel_fdc_written (st 0).p_current_drive
      (intel_fdc_gap_byte 0) k =
      List.replicate k ⟨(st 0).p_current_drive, 0x00, 0xFF⟩ := by
    intro k
    induction k with
    | zero => rfl
    | succ k ih =>
      rw [intel_fdc_written_succ, ih, List.replicate_succ']
      rfl
  obtain ⟨g1, g2⟩ := intel_fdc_gap_phase FdcState.write_gap_2
    FdcState.write_sector_data (fun _ => True) 0
    (fun s hs hc _ => by
      obtain ⟨t, e, v, r1, r2⟩ :=
        intel_fdc_byte_callback_writing_gap_2 s hs (by omega)
      refine ⟨t, e, ?_, r1, r2⟩
      rw [v]
      rfl)
    st 0 (st 0).drive_writes (st 0).p_current_drive (st 0).crc
    ((intel_fdc_write_view_eq _ _ _ _ _ _).mpr ⟨h0.1, h0.2, rfl, rfl, rfl⟩)
    (fun _ _ => trivial)
    (by
      intro k hk t e
      rw [Nat.zero_add] at e ⊢
      exact hkept k (by omega) t e)
  rw [show 0 + (0 + 6) = 6 from rfl, hg] at g1
  obtain ⟨gv, gr⟩ := g1
  have hS6 : intel_fdc_get_sector_size (st 6) = S := by
    rw [intel_fdc_get_sector_size_of_reg (st 6) (st 0)
      (gr _ (by decide) (by decide)), hS]
  have hcmd6 : intel_fdc_get_internal_command (st 6) ≠
        k_intel_fdc_command_SCAN_DATA ∧
      intel_fdc_get_internal_command (st 6) ≠
        k_intel_fdc_command_SCAN_DATA_AND_DELETED := by
    rw [intel_fdc_get_internal_command_of_reg (st 6) (st 0)
      (gr _ (by decide) (by decide))]
    exact hcmd
  have hm6 : (st 6).regs k_intel_fdc_register_internal_param_data_marker =
      (st 0).regs k_intel_fdc_register_internal_param_data_marker :=
    gr _ (by decide) (by decide)
  obtain ⟨d1, d2⟩ := intel_fdc_sector_data_phase st 6
    ((st 0).drive_writes ++
      List.replicate 6 ⟨(st 0).p_current_drive, 0x00, 0xFF⟩)
    (st 0).p_current_drive (st 0).crc data S gv hS6 (by omega) hcmd6 hhost
    (fun k hk t e => hkept (6 + k) (by omega) t e)
  rw [hm6] at d1 d2
  refine ⟨?_, ?_, d1, ?_, intel_fdc_written_record _ _ _ _, ?_⟩
  · rw [← hS]
    rfl
  · intro k hk
    obtain ⟨t, e, w, r⟩ := g2 k (by omega)
    rw [Nat.zero_add] at e r
    rw [hg] at w
    exact ⟨t, e, w, r⟩
  · rw [show S + 8 = 6 + (S + 2) by omega]
    exact d2
  · rw [List.length_append, List.length_replicate, intel_fdc_written_length]
    omega

/-- Witness for C32: a WRITE_DATA of one 128-byte sector on drive 0, the
host writing the byte `j mod 256` to the data register after call `j`. -/
theorem intel_fdc_write_sector_run_witness :
    intel_fdc_get_sector_size
        (intel_fdc_write_run intel_fdc_writing_sector (fun j => j % 256) 0) =
        128 ∧
      (∀ k, k < 6 → ∃ t,
        intel_fdc_byte_callback_writing
          (intel_fdc_write_run intel_fdc_writing_sector (fun j => j % 256)
            k) = Except.ok t ∧
        t.drive_writes =
          [] ++ List.replicate (k + 1) ⟨some DriveId.drive_0, 0x00, 0xFF⟩) ∧
      (List.replicate 6
          (⟨some DriveId.drive_0, 0x00, 0xFF⟩ : DriveWrite) ++
        intel_fdc_written (some DriveId.drive_0)
          (intel_fdc_record_byte 0xFB (fun i => (6 + i) % 256) 128)
          (128 + 3)).length = 128 + 9 :=
  ⟨by decide,
    fun k hk =>
      ((intel_fdc_write_sector_run
        (intel_fdc_write_run intel_fdc_writing_sector (fun j => j % 256))
        128 (fun i => (6 + i) % 256) ⟨rfl, rfl⟩ (by decide) (by decide)
        (by decide)
        (fun k h1 _ => by
          have e : 6 + k = (5 + k) + 1 := by omega
          have e2 : 6 + (k - 1) = 5 + k := by omega
          rw [e]
          show _ = (6 + (k - 1)) % 256 ∧ _
          rw [e2]
          exact intel_fdc_write_run_data intel_fdc_writing_sector
            (fun j => j % 256) (5 + k))
        (fun k _ t e => intel_fdc_write_run_kept _ _ k t e)).2.1 k hk).elim
        (fun t h => ⟨t, h.1, h.2.1⟩),
    (intel_fdc_write_sector_run
      (intel_fdc_write_run intel_fdc_writing_sector (fun j => j % 256))
      128 (fun i => (6 + i) % 256) ⟨rfl, rfl⟩ (by decide) (by decide)
      (by decide)
      (fun k h1 _ => by
        have e : 6 + k = (5 + k) + 1 := by omega
        have e2 : 6 + (k - 1) = 5 + k := by omega
        rw [e]
        show _ = (6 + (k - 1)) % 256 ∧ _
        rw [e2]
        exact intel_fdc_write_run_data intel_fdc_writing_sector
          (fun j => j % 256) (5 + k))
      (fun k _ t e => intel_fdc_write_run_kept _ _ k t e)).2.2.2.2.2⟩

/-! ## C33: the bytes written by a format -/

/-- C33: a run of byte callbacks starts with count 0 in the state
format_gap_1 (`first`, the gap length `n` being param_5) or, for a later
sector, format_gap_3 (the gap length `n` being param_2); the registers are
bytes, the command is not a scan, between two callbacks the host leaves the
view and all registers but data and status as they are, and before each of
the four callbacks that take a header byte it has cleared need-data, the
data register then holding `header 0`, …, `header 3`.  Then every callback
returns and they write exactly: `n` bytes 0xFF and 6 bytes 0x00; the ID
mark 0xFE with clocks 0xC7, the four header bytes, the two bytes of the
CRC-16 of the mark and the header, 11 bytes 0xFF, 6 bytes 0x00; the data
mark 0xFB with clocks 0xC7, `S` bytes 0xE5 and the two bytes of the CRC-16
of the mark and the filler (`S = 128 << (param_3 >> 5)`).  NMI and need-data
are raised by the calls that write the ID mark and the first three header
bytes only.  The last call decrements param_3 and leaves count 0 in the
state format_gap_3 if `(param_3 - 1) & 0x1F` is not 0, from where the same
holds again with gap 3, and in format_gap_4 otherwise.  In format_gap_4 a
callback writes 0xFF while it does not see the index pulse, and when it
does it writes nothing and finishes the command with result OK. -/
theorem intel_fdc_format_run (first : Bool) (st : Nat → intel_fdc_struct)
    (n S : Nat) (header : Nat → Nat)
    (h0 : (st 0).state =
        (if first = true then FdcState.format_gap_1
          else FdcState.format_gap_3) ∧
      (st 0).state_count = 0)
    (hn : (st 0).regs
      (if first = true then k_intel_fdc_register_internal_param_5
        else k_intel_fdc_register_internal_param_2) = n)
    (hb : n < 256)
    (hS : intel_fdc_get_sector_size (st 0) = S)
    (hreg : (st 0).regs k_intel_fdc_register_internal_param_3 < 256)
    (hcmd : intel_fdc_get_internal_command (st 0) ≠
        k_intel_fdc_command_SCAN_DATA ∧
      intel_fdc_get_internal_command (st 0) ≠
        k_intel_fdc_command_SCAN_DATA_AND_DELETED)
    (hhost : ∀ k, 1 ≤ k → k ≤ 4 →
      (st (n + 6 + k)).regs k_intel_fdc_register_internal_data =
        header (k - 1) ∧
      (st (n + 6 + k)).regs k_intel_fdc_register_internal_status &&&
        k_intel_fdc_status_flag_need_data = 0)
    (hkept : ∀ k, k < n + 6 + 24 + (S + 3) → ∀ t,
      intel_fdc_byte_callback_writing (st k) = Except.ok t →
      intel_fdc_host_kept t (st (k + 1))) :
    S = 128 <<< ((st 0).regs k_intel_fdc_register_internal_param_3 >>> 5) ∧
      (∀ k, k < n + 6 → ∃ t,
        intel_fdc_byte_callback_writing (st k) = Except.ok t ∧
        t.drive_writes =
          (st 0).drive_writes ++
            intel_fdc_written (st 0).p_current_drive (intel_fdc_gap_byte n)
              (k + 1) ∧
        t.regs = (st k).regs ∧ t.nmi_level = (st k).nmi_level) ∧
      (∀ k, k < 24 → ∃ t,
        intel_fdc_byte_callback_writing (st (n + 6 + k)) = Except.ok t ∧
        t.drive_writes =
          (st 0).drive_writes ++
            intel_fdc_written (st 0).p_current_drive (intel_fdc_gap_byte n)
              (n + 6) ++
            intel_fdc_written (st 0).p_current_drive
              (intel_fdc_id_byte header) (k + 1) ∧
        (k < 4 →
          t.regs = set_reg (st (n + 6 + k)).regs
            k_intel_fdc_register_internal_status
            (((st (n + 6 + k)).regs k_intel_fdc_register_internal_status |||
              (k_intel_fdc_status_flag_nmi |||
                k_intel_fdc_status_flag_need_data)) % 256) ∧
          t.nmi_level = true) ∧
        (4 ≤ k →
          t.regs = (st (n + 6 + k)).regs ∧
          t.nmi_level = (st (n + 6 + k)).nmi_level)) ∧
      (∀ k, k < S + 3 → ∃ t,
        intel_fdc_byte_callback_writing (st (n + 6 + 24 + k)) = Except.ok t ∧
        t.drive_writes =
          (st 0).drive_writes ++
            intel_fdc_written (st 0).p_current_drive (intel_fdc_gap_byte n)
              (n + 6) ++
            intel_fdc_written (st 0).p_current_drive
              (intel_fdc_id_byte header) 24 ++
            intel_fdc_written (st 0).p_current_drive
              (intel_fdc_record_byte k_ibm_disc_data_mark_data_pattern
                (fun _ => 0xE5) S) (k + 1) ∧
        t.nmi_level = (st (n + 6 + 24 + k)).nmi_level ∧
        (k < S + 2 → t.regs = (st (n + 6 + 24 + k)).regs) ∧
        (k = S + 2 →
          t.regs = set_reg (st (n + 6 + 24 + k)).regs
            k_intel_fdc_register_internal_param_3
            (((st 0).regs k_intel_fdc_register_internal_param_3 + 255) %
              256) ∧
          t.state =
            (if ((st 0).regs k_intel_fdc_register_internal_param_3 + 255) %
                256 &&& 0x1F = 0 then FdcState.format_gap_4
              else FdcState.format_gap_3) ∧
          t.state_count = 0)) ∧
      ((st (n + 6 + 24 + (S + 3))).state =
          (if ((st 0).regs k_intel_fdc_register_internal_param_3 + 255) %
              256 &&& 0x1F = 0 then FdcState.format_gap_4
            else FdcState.format_gap_3) ∧
        (st (n + 6 + 24 + (S + 3))).state_count = 0 ∧
        (st (n + 6 + 24 + (S + 3))).regs
            k_intel_fdc_register_internal_param_3 =
          ((st 0).regs k_intel_fdc_register_internal_param_3 + 255) % 256 ∧
        (st (n + 6 + 24 + (S + 3))).regs
            k_intel_fdc_register_internal_param_2 =
          (st 0).regs k_intel_fdc_register_internal_param_2) ∧
      (intel_fdc_written (st 0).p_current_drive (intel_fdc_gap_byte n)
          (n + 6) =
          List.replicate n ⟨(st 0).p_current_drive, 0xFF, 0xFF⟩ ++
            List.replicate 6 ⟨(st 0).p_current_drive, 0x00, 0xFF⟩ ∧
        intel_fdc_written (st 0).p_current_drive (intel_fdc_id_byte header)
          24 =
          [⟨(st 0).p_current_drive, 0xFE, 0xC7⟩,
            ⟨(st 0).p_current_drive, header 0, 0xFF⟩,
            ⟨(st 0).p_current_drive, header 1, 0xFF⟩,
            ⟨(st 0).p_current_drive, header 2, 0xFF⟩,
            ⟨(st 0).p_current_drive, header 3, 0xFF⟩,
            ⟨(st 0).p_current_drive,
              (ibm_disc_format_crc_add_bytes
                (ibm_disc_format_crc_add_byte ibm_disc_format_crc_init 0xFE)
                header 4 >>> 8) % 256, 0xFF⟩,
            ⟨(st 0).p_current_drive,
              ibm_disc_format_crc_add_bytes
                (ibm_disc_format_crc_add_byte ibm_disc_format_crc_init 0xFE)
                header 4 &&& 0xFF, 0xFF⟩] ++
            List.replicate 11 ⟨(st 0).p_current_drive, 0xFF, 0xFF⟩ ++
            List.replicate 6 ⟨(st 0).p_current_drive, 0x00, 0xFF⟩ ∧
        intel_fdc_written (st 0).p_current_drive
          (intel_fdc_record_byte k_ibm_disc_data_mark_data_pattern
            (fun _ => 0xE5) S) (S + 3) =
          [⟨(st 0).p_current_drive, 0xFB, 0xC7⟩] ++
            List.replicate S ⟨(st 0).p_current_drive, 0xE5, 0xFF⟩ ++
            [⟨(st 0).p_current_drive,
                (ibm_disc_format_crc_add_bytes
                  (ibm_disc_format_crc_add_byte ibm_disc_format_crc_init 0xFB)
                  (fun _ => 0xE5) S >>> 8) % 256, 0xFF⟩,
              ⟨(st 0).p_current_drive,
                ibm_disc_format_crc_add_bytes
                  (ibm_disc_format_crc_add_byte ibm_disc_format_crc_init 0xFB)
                  (fun _ => 0xE5) S &&& 0xFF, 0xFF⟩]) ∧
      (∀ s : intel_fdc_struct, s.state = FdcState.format_gap_4 →
        (s.state_is_index_pulse = false →
          intel_fdc_byte_callback_writing s =
            Except.ok
              (disc_drive_write_byte s s.p_current_drive 0xFF 0xFF)) ∧
        (s.state_is_index_pulse = true →
          intel_fdc_byte_callback_writing s =
            Except.ok (intel_fdc_finish_command s k_intel_fdc_result_ok)) ∧
        (∀ d data_byte clocks_byte, s.p_current_drive = some d →
          s.index_pulse_callback = IndexPulseCallback.none →
          intel_fdc_byte_callback s data_byte clocks_byte =
            intel_fdc_byte_callback_writing
              { s with state_is_index_pulse := intel_fdc_get_INDEX s })) := by
  have hSle := (intel_fdc_get_sector_size_le (st 0) hreg).2
  rw [hS] at hSle
  obtain ⟨g1, g2⟩ := intel_fdc_format_gap_phase first st 0
    (st 0).drive_writes (st 0).p_current_drive (st 0).crc n
    ((intel_fdc_write_view_eq _ _ _ _ _ _).mpr ⟨h0.1, h0.2, rfl, rfl, rfl⟩)
    hn hb
    (by
      intro k hk t e
      rw [Nat.zero_add] at e ⊢
      exact hkept k (by omega) t e)
  rw [Nat.zero_add] at g1
  obtain ⟨gv, gr⟩ := g1
  have hcmd1 : intel_fdc_get_internal_command (st (n + 6)) ≠
        k_intel_fdc_command_SCAN_DATA ∧
      intel_fdc_get_internal_command (st (n + 6)) ≠
        k_intel_fdc_command_SCAN_DATA_AND_DELETED := by
    rw [intel_fdc_get_internal_command_of_reg (st (n + 6)) (st 0)
      (gr _ (by decide) (by decide))]
    exact hcmd
  obtain ⟨i1, i2⟩ := intel_fdc_format_id_phase st (n + 6)
    ((st 0).drive_writes ++
      intel_fdc_written (st 0).p_current_drive (intel_fdc_gap_byte n) (n + 6))
    (st 0).p_current_drive (st 0).crc header gv hcmd1 hhost
    (fun k hk t e => hkept (n + 6 + k) (by omega) t e)
  obtain ⟨iv, ir⟩ := i1
  have hreg1 : ∀ r, r ≠ k_intel_fdc_register_internal_data →
      r ≠ k_intel_fdc_register_internal_status →
      (st (n + 6 + 24)).regs r = (st 0).regs r :=
    fun r a b => (ir r a b).trans (gr r a b)
  have hS1 : intel_fdc_get_sector_size (st (n + 6 + 24)) = S := by
    rw [intel_fdc_get_sector_size_of_reg (st (n + 6 + 24)) (st 0)
      (hreg1 _ (by decide) (by decide)), hS]
  have h5 : (st (n + 6 + 24)).regs k_intel_fdc_register_internal_param_3 =
      (st 0).regs k_intel_fdc_register_internal_param_3 :=
    hreg1 _ (by decide) (by decide)
  obtain ⟨d1, d2⟩ := intel_fdc_format_data_phase st (n + 6 + 24)
    ((st 0).drive_writes ++
      intel_fdc_written (st 0).p_current_drive (intel_fdc_gap_byte n)
        (n + 6) ++
      intel_fdc_written (st 0).p_current_drive (intel_fdc_id_byte header) 24)
    (st 0).p_current_drive
    (ibm_disc_format_crc_add_bytes
      (ibm_disc_format_crc_add_byte ibm_disc_format_crc_init
        k_ibm_disc_id_mark_data_pattern) header 4)
    S (S + 3) iv (le_refl _) hS1 (by omega)
    (fun k hk t e => hkept (n + 6 + 24 + k) (by omega) t e)
  rw [h5] at d1 d2
  have dlast := d1 (S + 3) (le_refl _)
  rw [if_pos rfl, if_pos rfl, if_pos rfl] at dlast
  obtain ⟨lv, lr⟩ := dlast
  obtain ⟨l1, l2, _, _, _⟩ := (intel_fdc_write_view_eq _ _ _ _ _ _).mp lv
  refine ⟨?_, ?_, i2, ?_, ⟨l1, l2, ?_, ?_⟩,
    ⟨intel_fdc_written_gap _ _, intel_fdc_written_id _ _, ?_⟩, ?_⟩
  · rw [← hS]
    rfl
  · intro k hk
    obtain ⟨t, e, w, r⟩ := g2 k hk
    rw [Nat.zero_add] at e r
    exact ⟨t, e, w, r⟩
  · intro k hk
    obtain ⟨t, e, w, m, r1, r2⟩ := d2 k hk
    refine ⟨t, e, w, m, r1, ?_⟩
    intro hk2
    refine ⟨r2 hk2, ?_⟩
    subst hk2
    have q := d1 (S + 2 + 1) (le_refl _)
    rw [if_pos rfl, if_pos rfl, if_pos rfl] at q
    have hk' := hkept (n + 6 + 24 + (S + 2)) (by omega) t e
    obtain ⟨q1, q2, _, _, _⟩ :=
      (intel_fdc_write_view_eq _ _ _ _ _ _).mp (hk'.1.symm.trans q.1)
    exact ⟨q1, q2⟩
  · rw [lr _ (by decide) (by decide), set_reg_same]
  · rw [lr _ (by decide) (by decide), set_reg_other _ _ _ _ (by decide)]
    exact hreg1 _ (by decide) (by decide)
  · rw [intel_fdc_written_record]
    have e : (List.range S).map
        (fun _ => (⟨(st 0).p_current_drive, 0xE5, 0xFF⟩ : DriveWrite)) =
        List.replicate S ⟨(st 0).p_current_drive, 0xE5, 0xFF⟩ := by
      rw [List.map_const', List.length_range]
    rw [e]
  · intro s hs
    obtain ⟨a1, a2⟩ := intel_fdc_byte_callback_writing_gap_4 s hs
    exact ⟨a2, a1, fun d x y hd hi =>
      intel_fdc_byte_callback_gap_4 s d x y hd hs hi⟩

theorem intel_fdc_format_run_witness :
    intel_fdc_get_sector_size
        (intel_fdc_write_run intel_fdc_formatting (fun j => j % 256) 0) =
        128 ∧
      (∀ k, k < 16 + 6 → ∃ t,
        intel_fdc_byte_callback_writing
          (intel_fdc_write_run intel_fdc_formatting (fun j => j % 256) k) =
          Except.ok t ∧
        t.drive_writes =
          [] ++ intel_fdc_written (some DriveId.drive_0)
            (intel_fdc_gap_byte 16) (k + 1)) ∧
      (intel_fdc_write_run intel_fdc_formatting (fun j => j % 256)
          (16 + 6 + 24 + (128 + 3))).state = FdcState.format_gap_3 ∧
      (intel_fdc_write_run intel_fdc_formatting (fun j => j % 256)
          (16 + 6 + 24 + (128 + 3))).regs
          k_intel_fdc_register_internal_param_3 = 1 :=
  ⟨by decide,
    fun k hk =>
      ((intel_fdc_format_run true
        (intel_fdc_write_run intel_fdc_formatting (fun j => j % 256))
        16 128 (fun i => (22 + i) % 256) ⟨rfl, rfl⟩ (by decide) (by decide)
        (by decide) (by decide) (by decide)
        (fun k h1 _ => by
          have e : 16 + 6 + k = (21 + k) + 1 := by omega
          have e2 : 22 + (k - 1) = 21 + k := by omega
          rw [e]
          show _ = (22 + (k - 1)) % 256 ∧ _
          rw [e2]
          exact intel_fdc_write_run_data intel_fdc_formatting
            (fun j => j % 256) (21 + k))
        (fun k _ t e => intel_fdc_write_run_kept _ _ k t e)).2.1 k hk).elim
        (fun t h => ⟨t, h.1, h.2.1⟩),
    (intel_fdc_format_run true
      (intel_fdc_write_run intel_fdc_formatting (fun j => j % 256))
      16 128 (fun i => (22 + i) % 256) ⟨rfl, rfl⟩ (by decide) (by decide)
      (by decide) (by decide) (by decide)
      (fun k h1 _ => by
        have e : 16 + 6 + k = (21 + k) + 1 := by omega
        have e2 : 22 + (k - 1) = 21 + k := by omega
        rw [e]
        show _ = (22 + (k - 1)) % 256 ∧ _
        rw [e2]
        exact intel_fdc_write_run_data intel_fdc_formatting
          (fun j => j % 256) (21 + k))
      (fun k _ t e => intel_fdc_write_run_kept _ _ k t e)).2.2.2.2.1.1,
    (intel_fdc_format_run true
      (intel_fdc_write_run intel_fdc_formatting (fun j => j % 256))
      16 128 (fun i => (22 + i) % 256) ⟨rfl, rfl⟩ (by decide) (by decide)
      (by decide) (by decide) (by decide)
      (fun k h1 _ => by
        have e : 16 + 6 + k = (21 + k) + 1 := by omega
        have e2 : 22 + (k - 1) = 21 + k := by omega
        rw [e]
        show _ = (22 + (k - 1)) % 256 ∧ _
        rw [e2]
        exact intel_fdc_write_run_data intel_fdc_formatting
          (fun j => j % 256) (21 + k))
      (fun k _ t e => intel_fdc_write_run_kept _ _ k t e)).2.2.2.2.1.2.2.1⟩

/-! ## C34: data marks in pass 1 of the sector scan -/

/-- C34: let the first `i` turns of the first loop of
`disc_tool_find_sectors` on a track `p_pulses` have returned with the locals
`v`, and let a data mark (data 0xFB or 0xF8 with the mark clock pattern 0xC7)
end at bit `i`.  Then the turn for bit `i` returns, with the number of
sectors and the descriptor pointer as they were.  The pointer is null exactly
before any ID mark (no sector yet) and otherwise refers to the latest
descriptor.  If the latest descriptor has no data position yet, it receives
the data position `i` (which is not 0) and its deleted flag is 1 for 0xF8
and 0 for 0xFB, and no other descriptor changes.  If there is no descriptor
yet, or the latest one already has a data position, the tool with all its
descriptors stays as it was. -/
theorem disc_tool_find_sectors_data_mark (p_pulses : Nat → Nat)
    (p_tool : disc_tool_struct) (i mark : Nat) (v : disc_tool_scan)
    (hrun : disc_tool_find_sectors_pass_1 (some p_pulses) i 0
      (disc_tool_scan_start p_tool) = Except.ok v)
    (hm : disc_tool_mark_at p_pulses i = some mark)
    (hmk : mark = k_ibm_disc_data_mark_data_pattern ∨
      mark = k_ibm_disc_deleted_data_mark_data_pattern) :
    ∃ v1, disc_tool_find_sectors_step (some p_pulses) v i = Except.ok v1 ∧
      v1.num_sectors = v.num_sectors ∧ v1.p_sector = v.p_sector ∧
      (v.p_sector = none ↔ v.num_sectors = 0) ∧
      (∀ k, v.p_sector = some k → k + 1 = v.num_sectors) ∧
      (∀ k, v.p_sector = some k → (v.p_tool.sectors k).bit_pos_data = 0 →
        i ≠ 0 ∧
        v1.p_tool.sectors k =
          { v.p_tool.sectors k with
            bit_pos_data := i,
            is_deleted :=
              if mark = k_ibm_disc_deleted_data_mark_data_pattern then 1
              else 0 } ∧
        (v1.p_tool.sectors k).bit_pos_data = i ∧
        ((v1.p_tool.sectors k).is_deleted = 1 ↔
          mark = k_ibm_disc_deleted_data_mark_data_pattern) ∧
        ((v1.p_tool.sectors k).is_deleted = 0 ↔
          mark = k_ibm_disc_data_mark_data_pattern) ∧
        ∀ j, j ≠ k → v1.p_tool.sectors j = v.p_tool.sectors j) ∧
      (v.p_sector = none ∨
          (∃ k, v.p_sector = some k ∧
            (v.p_tool.sectors k).bit_pos_data ≠ 0) →
        v1.p_tool = v.p_tool) := by
  obtain ⟨hA, hB, hD⟩ := disc_tool_find_sectors_pass_1_start p_pulses p_tool i
    v hrun
  have hi := disc_tool_mark_at_ge p_pulses i mark hm
  obtain ⟨b1, b2, b3, _, _⟩ := hB
  have hne : mark ≠ k_ibm_disc_id_mark_data_pattern := by
    rcases hmk with h | h <;> rw [h] <;> decide
  have hnone : v.p_sector = none ↔ v.num_sectors = 0 := by
    cases hp : v.p_sector with
    | none =>
      rw [hp] at b2
      exact ⟨fun _ => b2, fun _ => rfl⟩
    | some k =>
      rw [hp] at b2
      have b2' : k + 1 = v.num_sectors := b2
      constructor
      · intro h
        cases h
      · intro h
        omega
  have hlast : ∀ k, v.p_sector = some k → k + 1 = v.num_sectors := by
    intro k hp
    rw [hp] at b2
    exact b2
  rw [disc_tool_find_sectors_step_eq p_pulses v i hA.1 hA.2, hm]
  show ∃ v1, disc_tool_find_sectors_mark (disc_tool_scan_shift p_pulses v i) i
    mark = Except.ok v1 ∧ _
  by_cases horph : v.p_sector = none ∨
      ∃ k, v.p_sector = some k ∧ (v.p_tool.sectors k).bit_pos_data ≠ 0
  · rw [disc_tool_find_sectors_mark_orphan (disc_tool_scan_shift p_pulses v i)
      i mark hmk horph]
    refine ⟨_, rfl, rfl, rfl, hnone, hlast, ?_, fun _ => rfl⟩
    intro k hp h0
    rcases horph with h | ⟨k1, h, h6⟩
    · rw [hp] at h
      cases h
    · rw [hp] at h
      cases h
      exact absurd h0 h6
  · have hk : ∃ k, v.p_sector = some k ∧
        (v.p_tool.sectors k).bit_pos_data = 0 := by
      cases hp : v.p_sector with
      | none => exact absurd (Or.inl hp) horph
      | some k =>
        refine ⟨k, rfl, ?_⟩
        by_contra h0
        exact horph (Or.inr ⟨k, hp, h0⟩)
    obtain ⟨k, hp, h0⟩ := hk
    have hkn : k + 1 = v.num_sectors := hlast k hp
    obtain ⟨c1, _, _⟩ := b3 k (by omega)
    have hdel : (v.p_tool.sectors k).is_deleted = 0 := hD k (by omega) h0
    rw [disc_tool_find_sectors_mark_attach (disc_tool_scan_shift p_pulses v i)
      i mark k hmk hp h0
      (show (v.p_tool.sectors k).bit_pos_header ≠ 0 by omega)]
    have hsec : (disc_tool_set_sector v.p_tool k
        { v.p_tool.sectors k with
          bit_pos_data := i,
          is_deleted :=
            if mark = k_ibm_disc_deleted_data_mark_data_pattern then 1
            else (v.p_tool.sectors k).is_deleted }).sectors k =
        { v.p_tool.sectors k with
          bit_pos_data := i,
          is_deleted :=
            if mark = k_ibm_disc_deleted_data_mark_data_pattern then 1
            else 0 } := by
      show (if k = k then _ else _) = _
      rw [if_pos rfl, hdel]
    have hdel1 : ((disc_tool_set_sector v.p_tool k
        { v.p_tool.sectors k with
          bit_pos_data := i,
          is_deleted :=
            if mark = k_ibm_disc_deleted_data_mark_data_pattern then 1
            else (v.p_tool.sectors k).is_deleted }).sectors k).is_deleted =
        (if mark = k_ibm_disc_deleted_data_mark_data_pattern then 1
          else 0) := congrArg disc_tool_sector.is_deleted hsec
    refine ⟨_, rfl, rfl, rfl, hnone, hlast, ?_, ?_⟩
    · intro k1 hp1 _
      rw [hp] at hp1
      cases hp1
      refine ⟨by omega, hsec, congrArg disc_tool_sector.bit_pos_data hsec,
        ?_, ?_, ?_⟩
      · refine Iff.trans (Eq.congr_left hdel1) ?_
        by_cases hx : mark = k_ibm_disc_deleted_data_mark_data_pattern
        · rw [if_pos hx]
          exact ⟨fun _ => hx, fun _ => rfl⟩
        · rw [if_neg hx]
          exact ⟨fun h => absurd h (by decide), fun h => absurd h hx⟩
      · refine Iff.trans (Eq.congr_left hdel1) ?_
        by_cases hx : mark = k_ibm_disc_deleted_data_mark_data_pattern
        · rw [if_pos hx]
          refine ⟨fun h => absurd h (by decide), fun h => ?_⟩
          rw [hx] at h
          exact absurd h (by decide)
        · rw [if_neg hx]
          refine ⟨fun _ => ?_, fun _ => rfl⟩
          rcases hmk with h | h
          · exact h
          · exact absurd h hx
      · intro j hj
        show (if j = k then _ else v.p_tool.sectors j) = _
        rw [if_neg hj]
    · intro h
      exact absurd h horph

/-- Witness for C34: on the track of `disc_tool_on_marks` the first 127 turns
leave one descriptor without data position, the data mark 0xFB ends at bit
127, and the turn for that bit gives the descriptor the data position 127
with the deleted flag 0. -/
theorem disc_tool_find_sectors_data_mark_witness :
    ∃ v, disc_tool_find_sectors_pass_1
        (some (disc_tool_track_words disc_tool_on_marks)) 127 0
        (disc_tool_scan_start disc_tool_on_marks) = Except.ok v ∧
      disc_tool_mark_at (disc_tool_track_words disc_tool_on_marks) 127 =
        some k_ibm_disc_data_mark_data_pattern ∧
      v.p_sector = some 0 ∧ (v.p_tool.sectors 0).bit_pos_data = 0 ∧
      ∃ v1, disc_tool_find_sectors_step
          (some (disc_tool_track_words disc_tool_on_marks)) v 127 =
          Except.ok v1 ∧
        v1.num_sectors = v.num_sectors ∧
        (v1.p_tool.sectors 0).bit_pos_data = 127 ∧
        (v1.p_tool.sectors 0).is_deleted = 0 := by
  have hev : (disc_tool_find_sectors_pass_1
      (some (disc_tool_track_words disc_tool_on_marks)) 127 0
      (disc_tool_scan_start disc_tool_on_marks)).toOption.map
      (fun v => (v.p_sector, (v.p_tool.sectors 0).bit_pos_data)) =
      some (some 0, 0) := by decide!
  have hm : disc_tool_mark_at (disc_tool_track_words disc_tool_on_marks) 127 =
      some k_ibm_disc_data_mark_data_pattern := by decide!
  cases h : disc_tool_find_sectors_pass_1
      (some (disc_tool_track_words disc_tool_on_marks)) 127 0
      (disc_tool_scan_start disc_tool_on_marks) with
  | error e =>
    rw [h] at hev
    cases hev
  | ok v =>
    rw [h] at hev
    have hv : (v.p_sector, (v.p_tool.sectors 0).bit_pos_data) = (some 0, 0) :=
      Option.some.inj hev
    have hp : v.p_sector = some 0 := congrArg Prod.fst hv
    have h0 : (v.p_tool.sectors 0).bit_pos_data = 0 := congrArg Prod.snd hv
    obtain ⟨v1, e1, e2, _, _, _, e6, _⟩ :=
      disc_tool_find_sectors_data_mark
        (disc_tool_track_words disc_tool_on_marks) disc_tool_on_marks 127
        k_ibm_disc_data_mark_data_pattern v h hm (Or.inl rfl)
    obtain ⟨_, _, f3, _, f5, _⟩ := e6 0 hp h0
    exact ⟨v, rfl, hm, hp, h0, v1, e1, e2, f3, f5.mpr rfl⟩

/-! ## C35: ADC / SBC immediate and the tracked carry -/

/-- C35: within one compiled block (the micro-ops `uops 0`, `uops 1`, … are
processed one after the other from the reset state), let micro-op `m` be
ADC #n (0x69) or SBC #n (0xE9).  The tracked carry is unknown at block entry
and still unknown at `m` when no micro-op before `m` affects the carry;
otherwise it is decided by the most recent carry-affecting micro-op `i`
before `m`: 0 after CLC, 1 after SEC, unknown after any other opcode whose
optype changes the carry.  ADC #n is emitted as ADD_IMM n exactly when the
tracked carry is 0 and as ADC_IMM n otherwise, SBC #n as SUB_IMM n exactly
when the tracked carry is 1 and as SBC_IMM n otherwise; so ADC after CLC
gives ADD_IMM, SBC after SEC gives SUB_IMM, and an unknown carry or one with
the other value gives the plain ADC_IMM / SBC_IMM.  After the micro-op the
tracked carry is unknown, the optype of ADC / SBC being one that changes the
carry.  The loop over the micro-ops of an instruction in
`jit_compiler_compile_block` threads the compiler state in this way. -/
theorem jit_compiler_process_uop_carry (D : defs_6502)
    (p_compiler : jit_compiler) (uops : Nat → jit_uop) (m : Nat)
    (hop : (uops m).opcode = 0x69 ∨ (uops m).opcode = 0xE9) :
    (jit_compiler_reset p_compiler).flag_carry = k_value_unknown ∧
      ((∀ k, k < m → jit_compiler_uop_keeps_carry D (uops k)) →
        (jit_compiler_process_uops D (jit_compiler_reset p_compiler) uops
          m).flag_carry = k_value_unknown) ∧
      (∀ i, i < m →
        (∀ k, i < k → k < m → jit_compiler_uop_keeps_carry D (uops k)) →
        ¬ jit_compiler_uop_keeps_carry D (uops i) →
        (jit_compiler_process_uops D (jit_compiler_reset p_compiler) uops
          m).flag_carry =
          (if (uops i).opcode = 0x18 then 0
            else if (uops i).opcode = 0x38 then 1 else k_value_unknown)) ∧
      ((uops m).opcode = 0x69 →
        (jit_compiler_process_uop D
          (jit_compiler_process_uops D (jit_compiler_reset p_compiler) uops m)
          (uops m)).2.2 =
          (if (jit_compiler_process_uops D (jit_compiler_reset p_compiler)
              uops m).flag_carry = 0 then
            ⟨asm_x64_emit.jit_ADD_IMM, [cast_uint8 (uops m).value1]⟩
          else ⟨asm_x64_emit.jit_ADC_IMM, [cast_uint8 (uops m).value1]⟩)) ∧
      ((uops m).opcode = 0xE9 →
        (jit_compiler_process_uop D
          (jit_compiler_process_uops D (jit_compiler_reset p_compiler) uops m)
          (uops m)).2.2 =
          (if (jit_compiler_process_uops D (jit_compiler_reset p_compiler)
              uops m).flag_carry = 1 then
            ⟨asm_x64_emit.jit_SUB_IMM, [cast_uint8 (uops m).value1]⟩
          else ⟨asm_x64_emit.jit_SBC_IMM, [cast_uint8 (uops m).value1]⟩)) ∧
      (∀ i, i < m →
        (∀ k, i < k → k < m → jit_compiler_uop_keeps_carry D (uops k)) →
        ((uops m).opcode = 0x69 → (uops i).opcode = 0x18 →
          (jit_compiler_process_uop D
            (jit_compiler_process_uops D (jit_compiler_reset p_compiler) uops
              m) (uops m)).2.2 =
            ⟨asm_x64_emit.jit_ADD_IMM, [cast_uint8 (uops m).value1]⟩) ∧
        ((uops m).opcode = 0xE9 → (uops i).opcode = 0x38 →
          (jit_compiler_process_uop D
            (jit_compiler_process_uops D (jit_compiler_reset p_compiler) uops
              m) (uops m)).2.2 =
            ⟨asm_x64_emit.jit_SUB_IMM, [cast_uint8 (uops m).value1]⟩) ∧
        ((uops m).opcode = 0x69 →
          ¬ jit_compiler_uop_keeps_carry D (uops i) →
          (uops i).opcode ≠ 0x18 →
          (jit_compiler_process_uop D
            (jit_compiler_process_uops D (jit_compiler_reset p_compiler) uops
              m) (uops m)).2.2 =
            ⟨asm_x64_emit.jit_ADC_IMM, [cast_uint8 (uops m).value1]⟩) ∧
        ((uops m).opcode = 0xE9 →
          ¬ jit_compiler_uop_keeps_carry D (uops i) →
          (uops i).opcode ≠ 0x38 →
          (jit_compiler_process_uop D
            (jit_compiler_process_uops D (jit_compiler_reset p_compiler) uops
              m) (uops m)).2.2 =
            ⟨asm_x64_emit.jit_SBC_IMM, [cast_uint8 (uops m).value1]⟩)) ∧
      ((∀ k, k < m → jit_compiler_uop_keeps_carry D (uops k)) →
        ((uops m).opcode = 0x69 →
          (jit_compiler_process_uop D
            (jit_compiler_process_uops D (jit_compiler_reset p_compiler) uops
              m) (uops m)).2.2 =
            ⟨asm_x64_emit.jit_ADC_IMM, [cast_uint8 (uops m).value1]⟩) ∧
        ((uops m).opcode = 0xE9 →
          (jit_compiler_process_uop D
            (jit_compiler_process_uops D (jit_compiler_reset p_compiler) uops
              m) (uops m)).2.2 =
            ⟨asm_x64_emit.jit_SBC_IMM, [cast_uint8 (uops m).value1]⟩)) ∧
      (jit_compiler_uop_changes_carry D (uops m) ≠ 0 →
        (jit_compiler_process_uops D (jit_compiler_reset p_compiler) uops
          (m + 1)).flag_carry = k_value_unknown) ∧
      (∀ n i c u buf,
        (jit_compiler_compile_block_uops D n i c u buf).1 =
          jit_compiler_process_uops D c (fun k => u (i + k)) n) := by
  have hentry : ((∀ k, k < m → jit_compiler_uop_keeps_carry D (uops k)) →
        (jit_compiler_process_uops D (jit_compiler_reset p_compiler) uops
          m).flag_carry = k_value_unknown) := by
    intro hk
    rw [jit_compiler_process_uops_carry_kept D _ uops 0 m (Nat.zero_le m)
      (fun k _ b => hk k b)]
    rfl
  have hlast : ∀ i, i < m →
        (∀ k, i < k → k < m → jit_compiler_uop_keeps_carry D (uops k)) →
        ¬ jit_compiler_uop_keeps_carry D (uops i) →
        (jit_compiler_process_uops D (jit_compiler_reset p_compiler) uops
          m).flag_carry =
          (if (uops i).opcode = 0x18 then 0
            else if (uops i).opcode = 0x38 then 1 else k_value_unknown) := by
    intro i him hk hn
    rw [jit_compiler_process_uops_carry_kept D _ uops (i + 1) m (by omega)
      (fun k a b => hk k (by omega) b)]
    show (jit_compiler_process_uop D _ (uops i)).1.flag_carry = _
    rw [(jit_compiler_process_uop_state D _ (uops i)).1]
    by_cases h1 : (uops i).opcode = 0x18
    · rw [if_pos h1, if_pos h1]
    rw [if_neg h1, if_neg h1]
    by_cases h2 : (uops i).opcode = 0x38
    · rw [if_pos h2, if_pos h2]
    rw [if_neg h2, if_neg h2]
    have h3 : jit_compiler_uop_changes_carry D (uops i) ≠ 0 :=
      fun h => hn ⟨h1, h2, h⟩
    rw [if_pos h3]
  have hadc := jit_compiler_process_uop_adc_imm D
    (jit_compiler_process_uops D (jit_compiler_reset p_compiler) uops m)
    (uops m)
  have hsbc := jit_compiler_process_uop_sbc_imm D
    (jit_compiler_process_uops D (jit_compiler_reset p_compiler) uops m)
    (uops m)
  have eadc : (uops m).opcode = 0x69 →
        (jit_compiler_process_uop D
          (jit_compiler_process_uops D (jit_compiler_reset p_compiler) uops m)
          (uops m)).2.2 =
          (if (jit_compiler_process_uops D (jit_compiler_reset p_compiler)
              uops m).flag_carry = 0 then
            ⟨asm_x64_emit.jit_ADD_IMM, [cast_uint8 (uops m).value1]⟩
          else ⟨asm_x64_emit.jit_ADC_IMM, [cast_uint8 (uops m).value1]⟩) := by
    intro h
    rw [hadc h]
    split_ifs <;> rfl
  have esbc : (uops m).opcode = 0xE9 →
        (jit_compiler_process_uop D
          (jit_compiler_process_uops D (jit_compiler_reset p_compiler) uops m)
          (uops m)).2.2 =
          (if (jit_compiler_process_uops D (jit_compiler_reset p_compiler)
              uops m).flag_carry = 1 then
            ⟨asm_x64_emit.jit_SUB_IMM, [cast_uint8 (uops m).value1]⟩
          else ⟨asm_x64_emit.jit_SBC_IMM, [cast_uint8 (uops m).value1]⟩) := by
    intro h
    rw [hsbc h]
    split_ifs <;> rfl
  have u0 : ¬ (k_value_unknown = (0 : Int)) := by decide
  have u1 : ¬ (k_value_unknown = (1 : Int)) := by decide
  have n18 : ∀ j, (uops j).opcode = 0x18 →
      ¬ jit_compiler_uop_keeps_carry D (uops j) := fun j h k => k.1 h
  have n38 : ∀ j, (uops j).opcode = 0x38 →
      ¬ jit_compiler_uop_keeps_carry D (uops j) := fun j h k => k.2.1 h
  refine ⟨rfl, hentry, hlast, eadc, esbc, ?_, ?_, ?_,
    jit_compiler_compile_block_uops_state D⟩
  · intro i him hk
    refine ⟨?_, ?_, ?_, ?_⟩
    · intro h h18
      rw [eadc h, hlast i him hk (n18 i h18), if_pos h18, if_pos rfl]
    · intro h h38
      have e : ¬ ((uops i).opcode = 0x18) := by rw [h38]; decide
      rw [esbc h, hlast i him hk (n38 i h38), if_neg e, if_pos h38,
        if_pos rfl]
    · intro h hn h18
      rw [eadc h, hlast i him hk hn, if_neg h18]
      by_cases h38 : (uops i).opcode = 0x38
      · rw [if_pos h38, if_neg (by decide)]
      · rw [if_neg h38, if_neg u0]
    · intro h hn h38
      rw [esbc h, hlast i him hk hn]
      by_cases h18 : (uops i).opcode = 0x18
      · rw [if_pos h18, if_neg (by decide)]
      · rw [if_neg h18, if_neg h38, if_neg u1]
  · intro hk
    refine ⟨?_, ?_⟩
    · intro h
      rw [eadc h, hentry hk, if_neg u0]
    · intro h
      rw [esbc h, hentry hk, if_neg u1]
  · intro hc
    show (jit_compiler_process_uop D _ (uops m)).1.flag_carry = _
    rw [(jit_compiler_process_uop_state D _ (uops m)).1]
    have a1 : ¬ ((uops m).opcode = 0x18) := by
      rcases hop with h | h <;> rw [h] <;> decide
    have a2 : ¬ ((uops m).opcode = 0x38) := by
      rcases hop with h | h <;> rw [h] <;> decide
    rw [if_neg a1, if_neg a2, if_pos hc]

/-- Witness for C35: `CLC; ADC #5` at the start of a block is emitted as
CLC, LOAD_CARRY, ADD_IMM 5, and the whole block `CLC; ADC #5; SEC; SBC #3;
ADC #7; JMP` of the example memory as ADD_IMM 5, SUB_IMM 3 and ADC_IMM 7. -/
theorem jit_compiler_process_uop_carry_witness :
    ((jit_uops_clc_adc 2).opcode = 0x69 ∨ (jit_uops_clc_adc 2).opcode = 0xE9) ∧
      (jit_compiler_process_uop defs_6502_example
        (jit_compiler_process_uops defs_6502_example
          (jit_compiler_reset jit_compiler_carry_example) jit_uops_clc_adc 2)
        (jit_uops_clc_adc 2)).2.2 = ⟨asm_x64_emit.jit_ADD_IMM, [5]⟩ ∧
      (jit_compiler_process_uops defs_6502_example
        (jit_compiler_reset jit_compiler_carry_example) jit_uops_clc_adc
        3).flag_carry = k_value_unknown ∧
      jit_compiler_emitted
        (jit_compiler_compile_block defs_6502_example 8
          jit_compiler_carry_example [] 0x3000) =
        some [⟨asm_x64_emit.instruction_CLC, []⟩,
          ⟨asm_x64_emit.jit_LOAD_CARRY, []⟩, ⟨asm_x64_emit.jit_ADD_IMM, [5]⟩,
          ⟨asm_x64_emit.jit_SAVE_CARRY, []⟩,
          ⟨asm_x64_emit.jit_SAVE_OVERFLOW, []⟩,
          ⟨asm_x64_emit.instruction_SEC, []⟩,
          ⟨asm_x64_emit.jit_LOAD_CARRY_INV, []⟩,
          ⟨asm_x64_emit.jit_SUB_IMM, [3]⟩,
          ⟨asm_x64_emit.jit_SAVE_CARRY_INV, []⟩,
          ⟨asm_x64_emit.jit_SAVE_OVERFLOW, []⟩,
          ⟨asm_x64_emit.jit_LOAD_CARRY, []⟩, ⟨asm_x64_emit.jit_ADC_IMM, [7]⟩,
          ⟨asm_x64_emit.jit_SAVE_CARRY, []⟩,
          ⟨asm_x64_emit.jit_SAVE_OVERFLOW, []⟩,
          ⟨asm_x64_emit.jit_JMP, [0x10003000]⟩] :=
  ⟨Or.inl rfl,
    ((jit_compiler_process_uop_carry defs_6502_example
      jit_compiler_carry_example jit_uops_clc_adc 2
      (Or.inl rfl)).2.2.2.2.2.1 0 (by decide)
      (fun k a b => by
        have e : k = 1 := by omega
        subst e
        exact ⟨by decide, by decide, by decide⟩)).1 rfl rfl,
    (jit_compiler_process_uop_carry defs_6502_example
      jit_compiler_carry_example jit_uops_clc_adc 2
      (Or.inl rfl)).2.2.2.2.2.2.2.1 (by decide),
    by rfl⟩

/-- C36: for the BRK opcode (byte 0x00 with optype `k_brk`) at any address
`a`, with debug off, an addressing mode that the mode switch handles other
than relative, and `k_brk` distinct from the optypes the switches test before
it, `jit_compiler_get_opcode_details` returns 4 and the four micro-ops are, in
this order, PUSH_16 with operand (a + 2) mod 65536, PHP (0x08), SEI (0x78) and
JMP indirect (0x6C) with operand `k_6502_vector_irq`; none of them has the
opcode 0x00. -/
theorem jit_compiler_get_opcode_details_brk (D : defs_6502)
    (p_compiler : jit_compiler) (p_details : jit_opcode_details)
    (addr_6502 opmode : Nat)
    (hdbg : p_compiler.debug = 0)
    (m0 : p_compiler.p_mem_read addr_6502 = 0x00)
    (hbrk : D.g_optypes 0x00 = D.k_brk) (hbrkb : D.k_brk < 256)
    (hbrkn : D.k_brk ∉ [D.k_adc, D.k_bcc, D.k_bcs, D.k_rol, D.k_ror, D.k_bvc,
      D.k_bvs, D.k_sbc, D.k_jmp, D.k_jsr, D.k_alr, D.k_asl, D.k_lsr,
      D.k_slo])
    (hmode : D.g_opmodes 0x00 = opmode) (hmodeb : opmode < 256)
    (hmoden : opmode ∈ [0, D.k_nil, D.k_acc, D.k_imm, D.k_zpg, D.k_zpx,
      D.k_zpy, D.k_abs, D.k_abx, D.k_aby, D.k_ind])
    (hrel : opmode ≠ D.k_rel) :
    ∃ d1, jit_compiler_get_opcode_details D p_compiler p_details addr_6502 =
        Except.ok (d1, 4) ∧
      (d1.uops 0).opcode = k_opcode_PUSH_16 ∧
      (d1.uops 0).value1 = ((addr_6502 + 2) % 65536 : Nat) ∧
      (d1.uops 0).optype = -1 ∧
      (d1.uops 1).opcode = 0x08 ∧ (d1.uops 1).optype = D.k_php ∧
      (d1.uops 2).opcode = 0x78 ∧ (d1.uops 2).optype = D.k_sei ∧
      (d1.uops 3).opcode = 0x6C ∧
      (d1.uops 3).value1 = D.k_6502_vector_irq ∧
      (d1.uops 3).optype = D.k_jmp ∧
      (∀ j, j < 4 → (d1.uops j).opcode ≠ 0x00) ∧
      List.map (fun j => jit_compiler_emit_uop (d1.uops j)) [0, 1, 2, 3] =
        [⟨asm_x64_emit.jit_PUSH_16, [(addr_6502 + 2) % 65536]⟩,
          ⟨asm_x64_emit.instruction_PHP, []⟩,
          ⟨asm_x64_emit.instruction_SEI, []⟩,
          ⟨asm_x64_emit.jit_JMP_IND, [D.k_6502_vector_irq % 65536]⟩] := by
  simp only [List.mem_cons, List.mem_singleton, not_or, List.not_mem_nil,
    not_false_eq_true, and_true] at hbrkn
  obtain ⟨a1, a2, a3, a4, a5, a6, a7, a8, a9, a10, a11, a12, a13, a14⟩ := hbrkn
  have ht : jit_compiler_opcode_optype D p_compiler addr_6502 = D.k_brk := by
    unfold jit_compiler_opcode_optype
    rw [m0, show (0 : Nat) % 256 = 0 from rfl, hbrk, Nat.mod_eq_of_lt hbrkb]
  have hm : jit_compiler_opcode_opmode D p_compiler addr_6502 = opmode := by
    unfold jit_compiler_opcode_opmode
    rw [m0, show (0 : Nat) % 256 = 0 from rfl, hmode, Nat.mod_eq_of_lt hmodeb]
  have hhead : (jit_compiler_uops_head D p_compiler addr_6502
      p_details.uops).2 = 0 := by
    unfold jit_compiler_uops_head jit_compiler_uops_debug
      jit_compiler_uops_pre_main
    simp only [ht, hdbg, ne_eq, not_true_eq_false, ↓reduceIte, a1, a2, a3, a4,
      a5, a6, a7, a8, or_self]
  obtain ⟨mm, hmm⟩ := (jit_compiler_uops_main_total D p_compiler D.k_brk
    opmode addr_6502
    (jit_compiler_uops_head D p_compiler addr_6502 p_details.uops).1 0).1
    (by
      simp only [List.mem_cons, List.mem_singleton, List.not_mem_nil,
        or_false] at hmoden ⊢
      tauto)
  have hfix : mm.2 = false := by
    cases h2 : mm.2 with
    | false => rfl
    | true =>
      rcases jit_compiler_uops_main_fixup D p_compiler D.k_brk opmode
        addr_6502 _ 0 mm hmm h2 with h | h | h
      · exact absurd h hrel
      · exact absurd h a9
      · exact absurd h a10
  obtain ⟨b1, b2, b3, b4, b5, b6, b7, b8, b9, b10, b11⟩ :=
    jit_compiler_uops_post_main_brk D opmode addr_6502 0 1 mm.1
      (by decide)
      (by
        simp only [List.mem_cons, List.mem_singleton, not_or,
          List.not_mem_nil, not_false_eq_true, and_true]
        exact ⟨a1, a11, a12, a13, a14⟩)
  have hget : jit_compiler_get_opcode_details D p_compiler p_details
      addr_6502 =
      Except.ok
        ({ p_details with
            opcode_6502 := jit_compiler_opcode_6502 p_compiler addr_6502,
            len := jit_compiler_opcode_len D p_compiler addr_6502,
            branches := jit_compiler_opcode_branches D p_compiler addr_6502,
            uops := (jit_compiler_uops_post_main D D.k_brk opmode addr_6502
              0 mm.1 1).1 }, 4) := by
    rw [jit_compiler_get_opcode_details_parts, ht, hm, hhead, hmm]
    simp only [hfix, b1, jit_compiler_uops_fixup, Bool.false_eq_true,
      ↓reduceIte, Nat.reduceAdd, Nat.reduceMod]
  have key : (∀ j, j < 4 → ((jit_compiler_uops_post_main D D.k_brk opmode
      addr_6502 0 mm.1 1).1 j).opcode ≠ 0x00) := by
    intro j hj
    have : j = 0 ∨ j = 1 ∨ j = 1 + 1 ∨ j = 1 + 2 := by omega
    rcases this with rfl | rfl | rfl | rfl
    · rw [b2]; decide
    · rw [b5]; decide
    · rw [b7]; decide
    · rw [b9]; decide
  refine ⟨_, hget, b2, b3, b4, b5, b6, b7, b8, b9, b10, b11, key, ?_⟩
  simp only [List.map_cons, List.map_nil]
  have e0 : jit_compiler_emit_uop ((jit_compiler_uops_post_main D D.k_brk
      opmode addr_6502 0 mm.1 1).1 0) =
      ⟨asm_x64_emit.jit_PUSH_16, [(addr_6502 + 2) % 65536]⟩ := by
    unfold jit_compiler_emit_uop
    simp only [b2, b3]
    simp [cast_uint16]
    omega
  have e1 : jit_compiler_emit_uop ((jit_compiler_uops_post_main D D.k_brk
      opmode addr_6502 0 mm.1 1).1 1) =
      ⟨asm_x64_emit.instruction_PHP, []⟩ := by
    unfold jit_compiler_emit_uop
    simp only [b5]
    simp
  have e2 : jit_compiler_emit_uop ((jit_compiler_uops_post_main D D.k_brk
      opmode addr_6502 0 mm.1 1).1 (1 + 1)) =
      ⟨asm_x64_emit.instruction_SEI, []⟩ := by
    unfold jit_compiler_emit_uop
    simp only [b7]
    simp
  have e3 : jit_compiler_emit_uop ((jit_compiler_uops_post_main D D.k_brk
      opmode addr_6502 0 mm.1 1).1 (1 + 2)) =
      ⟨asm_x64_emit.jit_JMP_IND, [D.k_6502_vector_irq % 65536]⟩ := by
    unfold jit_compiler_emit_uop
    simp only [b9, b10]
    simp [cast_uint16]
    omega
  rw [e0, e1]
  rw [show (2 : Nat) = 1 + 1 from rfl, e2, show (3 : Nat) = 1 + 2 from rfl, e3]

/-- Witness for C36: a BRK at 0x3000 in the example memory. -/
theorem jit_compiler_get_opcode_details_brk_witness :
    jit_compiler_example.p_mem_read 0x3000 = 0x00 ∧
      defs_6502_example.g_optypes 0x00 = defs_6502_example.k_brk ∧
      ∃ d1, jit_compiler_get_opcode_details defs_6502_example
          jit_compiler_example jit_opcode_details_zero 0x3000 =
          Except.ok (d1, 4) ∧
        (d1.uops 0).opcode = k_opcode_PUSH_16 ∧
        (d1.uops 0).value1 = ((0x3000 + 2) % 65536 : Nat) ∧
        (d1.uops 3).opcode = 0x6C ∧
        (d1.uops 3).value1 = defs_6502_example.k_6502_vector_irq :=
  ⟨by decide, by decide,
    (jit_compiler_get_opcode_details_brk defs_6502_example
      jit_compiler_example jit_opcode_details_zero 0x3000 1 (by decide)
      (by decide) (by decide) (by decide) (by decide) (by decide) (by decide)
      (by decide) (by decide)).elim
      (fun d1 h => ⟨d1, h.1, h.2.1, h.2.2.1, h.2.2.2.2.2.2.2.2.1,
        h.2.2.2.2.2.2.2.2.2.1⟩)⟩

/-! ## C37: soundness of the constant tracking of A, X and Y -/

/-- C38: for every opcode byte, every table content and both debug settings,
a call of `jit_compiler_get_opcode_details` that returns has a return value
between 1 and 8 (in fact at most 6), leaves every slot of the array from the
return value on as it was, so that no slot past the end of `uops[8]` is
written, and the opcode and optype of every slot below the return value are
written by the call: they are the same whatever the array held before.
`jit_compiler_compile_block` then makes exactly one emitter call for each of
these slots and touches no other slot.  The call returns for every addressing
mode that its switch names; for any other mode the `assert(0)` fails. -/
theorem jit_compiler_get_opcode_details_uop_count (D : defs_6502)
    (p_compiler : jit_compiler) (p_details : jit_opcode_details)
    (addr_6502 : Nat) (r : jit_opcode_details × Nat)
    (h : jit_compiler_get_opcode_details D p_compiler p_details addr_6502 =
      Except.ok r) :
    1 ≤ r.2 ∧ r.2 ≤ 6 ∧ r.2 ≤ 8 ∧
      (∀ j, r.2 ≤ j → r.1.uops j = p_details.uops j) ∧
      (∀ d1 r1, jit_compiler_get_opcode_details D p_compiler d1 addr_6502 =
          Except.ok r1 →
        r1.2 = r.2 ∧ jit_uops_agree_below r.1.uops r1.1.uops r.2) ∧
      (∀ (c : jit_compiler) (buf : List asm_x64_call),
        (jit_compiler_compile_block_uops D r.2 0 c r.1.uops buf).2.2.length =
            buf.length + r.2 ∧
          ∀ j, r.2 ≤ j →
            (jit_compiler_compile_block_uops D r.2 0 c r.1.uops buf).2.1 j =
              p_details.uops j) ∧
      (∀ (c : jit_compiler) (d1 : jit_opcode_details) (a : Nat),
        (jit_compiler_opcode_opmode D c a ∈
            [0, D.k_nil, D.k_acc, D.k_imm, D.k_zpg, D.k_zpx, D.k_zpy,
              D.k_rel, D.k_abs, D.k_abx, D.k_aby, D.k_ind] →
          ∃ r1, jit_compiler_get_opcode_details D c d1 a = Except.ok r1) ∧
        (jit_compiler_opcode_opmode D c a ∉
            [0, D.k_nil, D.k_acc, D.k_imm, D.k_zpg, D.k_zpx, D.k_zpy,
              D.k_rel, D.k_abs, D.k_abx, D.k_aby, D.k_ind] →
          jit_compiler_get_opcode_details D c d1 a =
            Except.error Fault.assertion)) := by
  have shape : ∀ (d1 : jit_opcode_details) (r1 : jit_opcode_details × Nat),
      jit_compiler_get_opcode_details D p_compiler d1 addr_6502 =
        Except.ok r1 →
      1 ≤ r1.2 ∧ r1.2 ≤ 6 ∧ (∀ j, r1.2 ≤ j → r1.1.uops j = d1.uops j) ∧
      ∀ d2 r2, jit_compiler_get_opcode_details D p_compiler d2 addr_6502 =
          Except.ok r2 →
        r2.2 = r1.2 ∧ jit_uops_agree_below r1.1.uops r2.1.uops r1.2 := by
    intro d1 r1 h1
    obtain ⟨m1, hm1, hu1, hn1⟩ :=
      jit_compiler_get_opcode_details_ok D p_compiler d1 addr_6502 r1 h1
    obtain ⟨-, hd2, hd3, -⟩ :=
      jit_compiler_uops_head_spec D p_compiler addr_6502 d1.uops d1.uops
    obtain ⟨-, hmok⟩ := jit_compiler_uops_main_spec D p_compiler
      (jit_compiler_opcode_optype D p_compiler addr_6502)
      (jit_compiler_opcode_opmode D p_compiler addr_6502) addr_6502
      (jit_compiler_uops_head D p_compiler addr_6502 d1.uops).1
      (jit_compiler_uops_head D p_compiler addr_6502 d1.uops).1
      (jit_compiler_uops_head D p_compiler addr_6502 d1.uops).2
    obtain ⟨hm2, hm3, hm4, -⟩ := hmok m1 hm1
    obtain ⟨-, hp2, hp3, hp4, -⟩ := jit_compiler_uops_post_main_spec D
      (jit_compiler_opcode_optype D p_compiler addr_6502)
      (jit_compiler_opcode_opmode D p_compiler addr_6502) addr_6502
      (jit_compiler_uops_head D p_compiler addr_6502 d1.uops).2 m1.1 m1.1
      ((jit_compiler_uops_head D p_compiler addr_6502 d1.uops).2 + 1)
      (Nat.lt_succ_self _)
    have hmod : r1.2 = (jit_compiler_uops_post_main D
        (jit_compiler_opcode_optype D p_compiler addr_6502)
        (jit_compiler_opcode_opmode D p_compiler addr_6502) addr_6502
        (jit_compiler_uops_head D p_compiler addr_6502 d1.uops).2 m1.1
        ((jit_compiler_uops_head D p_compiler addr_6502 d1.uops).2 + 1)).2 := by
      rw [hn1]
      omega
    refine ⟨by omega, by omega, ?_, ?_⟩
    · intro j hj
      rw [hu1, (jit_compiler_uops_fixup_spec p_compiler m1.2 _ _).1 j
        (by omega), hp4 j (by omega), hm2 j (by omega), hd3 j (by omega)]
    · intro d2 r2 h2
      obtain ⟨m2, hm2', hu2, hn2⟩ :=
        jit_compiler_get_opcode_details_ok D p_compiler d2 addr_6502 r2 h2
      obtain ⟨e1, -, -, e4⟩ :=
        jit_compiler_uops_head_spec D p_compiler addr_6502 d1.uops d2.uops
      obtain ⟨-, gok⟩ := jit_compiler_uops_main_spec D p_compiler
        (jit_compiler_opcode_optype D p_compiler addr_6502)
        (jit_compiler_opcode_opmode D p_compiler addr_6502) addr_6502
        (jit_compiler_uops_head D p_compiler addr_6502 d1.uops).1
        (jit_compiler_uops_head D p_compiler addr_6502 d2.uops).1
        (jit_compiler_uops_head D p_compiler addr_6502 d1.uops).2
      obtain ⟨-, -, -, m2', g5, g6⟩ := gok m1 hm1
      rw [← e1] at hm2' hu2 hn2
      rw [g5] at hm2'
      injection hm2' with hm2'
      subst hm2'
      obtain ⟨-, gok2⟩ := jit_compiler_uops_main_spec D p_compiler
        (jit_compiler_opcode_optype D p_compiler addr_6502)
        (jit_compiler_opcode_opmode D p_compiler addr_6502) addr_6502
        (jit_compiler_uops_head D p_compiler addr_6502 d2.uops).1
        (jit_compiler_uops_head D p_compiler addr_6502 d2.uops).1
        (jit_compiler_uops_head D p_compiler addr_6502 d1.uops).2
      obtain ⟨k2, k3, k4, -⟩ := gok2 m2' g5
      have hagree : jit_uops_agree_below m1.1 m2'.1
          ((jit_compiler_uops_head D p_compiler addr_6502 d1.uops).2 + 1) := by
        intro j hj
        by_cases e : j = (jit_compiler_uops_head D p_compiler addr_6502
            d1.uops).2
        · rw [e, hm3, hm4, k3, k4]
          exact e4 _ (Nat.lt_succ_self _)
        · rw [hm2 j e, k2 j e]
          exact e4 j hj
      obtain ⟨q1, -, -, -, q5⟩ := jit_compiler_uops_post_main_spec D
        (jit_compiler_opcode_optype D p_compiler addr_6502)
        (jit_compiler_opcode_opmode D p_compiler addr_6502) addr_6502
        (jit_compiler_uops_head D p_compiler addr_6502 d1.uops).2 m1.1 m2'.1
        ((jit_compiler_uops_head D p_compiler addr_6502 d1.uops).2 + 1)
        (Nat.lt_succ_self _)
      refine ⟨by rw [hn2, hn1, q1], ?_⟩
      intro j hj
      rw [hu1, hu2,
        ((jit_compiler_uops_fixup_spec p_compiler m1.2 _ _).2 j).1,
        ((jit_compiler_uops_fixup_spec p_compiler m1.2 _ _).2 j).2,
        ((jit_compiler_uops_fixup_spec p_compiler m2'.2 _ _).2 j).1,
        ((jit_compiler_uops_fixup_spec p_compiler m2'.2 _ _).2 j).2]
      exact q5 hagree j (by rw [← hmod]; exact hj)
  obtain ⟨s1, s2, s3, s4⟩ := shape p_details r h
  refine ⟨s1, s2, by omega, s3, s4, ?_, ?_⟩
  · intro c buf
    obtain ⟨t1, t2⟩ :=
      jit_compiler_compile_block_uops_slots D r.2 0 c r.1.uops buf
    refine ⟨t1, ?_⟩
    intro j hj
    rw [t2 j (by omega), s3 j hj]
  · intro c d1 a
    obtain ⟨t1, t2⟩ := jit_compiler_uops_main_total D c
      (jit_compiler_opcode_optype D c a) (jit_compiler_opcode_opmode D c a) a
      (jit_compiler_uops_head D c a d1.uops).1
      (jit_compiler_uops_head D c a d1.uops).2
    refine ⟨?_, ?_⟩
    · intro hm
      obtain ⟨m, hm'⟩ := t1 hm
      rw [jit_compiler_get_opcode_details_parts, hm']
      exact ⟨_, rfl⟩
    · intro hm
      rw [jit_compiler_get_opcode_details_parts, t2 hm]

/-- Witness for C38: LDA immediate at 0x2000 in the example memory has two
micro-ops. -/
theorem jit_compiler_get_opcode_details_uop_count_witness :
    ∃ r, jit_compiler_get_opcode_details defs_6502_example
        jit_compiler_example jit_opcode_details_zero 0x2000 = Except.ok r ∧
      r.2 = 2 ∧ 1 ≤ r.2 ∧ r.2 ≤ 8 :=
  (jit_compiler_get_opcode_details_lda_imm defs_6502_example
    jit_compiler_example jit_opcode_details_zero 0x2000 0x42 (by decide)
    (by decide) (by decide) (by decide) (by decide) (by decide) (by decide)
    (by decide) (by decide) (by decide)).elim
    (fun d1 h => ⟨(d1, 2), h.1, rfl,
      (jit_compiler_get_opcode_details_uop_count defs_6502_example
        jit_compiler_example jit_opcode_details_zero 0x2000 (d1, 2) h.1).1,
      (jit_compiler_get_opcode_details_uop_count defs_6502_example
        jit_compiler_example jit_opcode_details_zero 0x2000 (d1, 2)
        h.1).2.2.1⟩)

/-! ## C39: sixteen bits give the byte callback its two bytes back -/

/-- C39: let the controller be in a state that takes bytes (check_id_marker,
in_id, in_id_crc, check_data_marker, in_data, in_deleted_data, in_data_crc,
skip_gap_2) with no bits collected, and let the data byte and the clocks
byte be bytes.  The eight iterations of the loop of `intel_fdc_byte_callback`
hand `intel_fdc_shift_data_bit` the bits of both bytes from the top, the
clock bit before the data bit, and the result is that of one call of
`intel_fdc_byte_callback_reading` with the same data byte and the same
clocks byte, after which the shift register and the bit count are 0.  At
that call bit `2 * i + 1` of the shift register is bit `i` of the clocks
byte and bit `2 * i` is bit `i` of the data byte, and the bytes taken out of
the register are the two bytes given.  A call of `intel_fdc_shift_data_bit`
with fewer than fifteen bits collected only shifts the bit in and counts it.
`intel_fdc_byte_callback` runs this loop on the state its index pulse check
returns, which is the state it was given, with the index pulse flag set
anew, when there is no new index pulse or no index pulse callback. -/
theorem intel_fdc_byte_callback_bits_byte (s : intel_fdc_struct)
    (data_byte clocks_byte : Nat)
    (hs : intel_fdc_state_takes_bytes s.state)
    (hn : s.num_shifts = 0)
    (hd : data_byte < 256) (hc : clocks_byte < 256) :
    intel_fdc_byte_callback_bits 8 s data_byte clocks_byte =
        (match intel_fdc_byte_callback_reading
          { s with
            shift_register :=
              intel_fdc_shift_bits 8 s.shift_register data_byte clocks_byte,
            num_shifts := 16 } data_byte clocks_byte with
        | Except.error e => Except.error e
        | Except.ok t =>
          Except.ok { t with shift_register := 0, num_shifts := 0 }) ∧
      (∀ i, i < 8 →
        (intel_fdc_shift_bits 8 s.shift_register data_byte
            clocks_byte).testBit (2 * i + 1) = clocks_byte.testBit i ∧
          (intel_fdc_shift_bits 8 s.shift_register data_byte
            clocks_byte).testBit (2 * i) = data_byte.testBit i) ∧
      (intel_fdc_shift_register_data
          (intel_fdc_shift_bits 8 s.shift_register data_byte clocks_byte) =
          data_byte ∧
        intel_fdc_shift_register_clocks
          (intel_fdc_shift_bits 8 s.shift_register data_byte clocks_byte) =
          clocks_byte) ∧
      (∀ (t : intel_fdc_struct) (bit : Nat), t.state = s.state →
        t.num_shifts < 15 →
        intel_fdc_shift_data_bit t bit =
          Except.ok { t with
            shift_register := (t.shift_register <<< 1) % 4294967296 ||| bit,
            num_shifts := t.num_shifts + 1 }) ∧
      (∀ (u : intel_fdc_struct) (d : DriveId), u.p_current_drive = some d →
        intel_fdc_check_index_pulse u = s →
        intel_fdc_byte_callback u data_byte clocks_byte =
          intel_fdc_byte_callback_bits 8 s data_byte clocks_byte) ∧
      (∀ u : intel_fdc_struct,
        u.state_is_index_pulse = true ∨ intel_fdc_get_INDEX u = false ∨
          u.index_pulse_callback = IndexPulseCallback.none →
        intel_fdc_check_index_pulse u =
          { u with state_is_index_pulse := intel_fdc_get_INDEX u }) := by
  have hb := intel_fdc_shift_bits_bytes s.shift_register data_byte
    clocks_byte hd hc
  refine ⟨?_, fun i hi => intel_fdc_shift_bits_layout _ _ _ hd hc i hi, hb,
    ?_, ?_, intel_fdc_check_index_pulse_quiet⟩
  · rw [intel_fdc_byte_callback_bits_collect 7 s data_byte clocks_byte hs
      (by omega), hb.1, hb.2]
  · intro t bit ht hl
    exact intel_fdc_shift_data_bit_collect t bit (by
      rw [ht]
      exact hs) hl
  · intro u d hu he
    rw [intel_fdc_byte_callback_takes_bytes u d _ _ hu (by
      rw [he]
      exact hs), he]

theorem intel_fdc_byte_callback_bits_byte_witness :
    intel_fdc_reading_id.state = FdcState.in_id ∧
      intel_fdc_reading_id.num_shifts = 0 ∧
      intel_fdc_byte_callback_bits 8 intel_fdc_reading_id 0x12 0xFF =
        (match intel_fdc_byte_callback_reading
          { intel_fdc_reading_id with
            shift_register :=
              intel_fdc_shift_bits 8 intel_fdc_reading_id.shift_register 0x12
                0xFF,
            num_shifts := 16 } 0x12 0xFF with
        | Except.error e => Except.error e
        | Except.ok t =>
          Except.ok { t with shift_register := 0, num_shifts := 0 }) ∧
      intel_fdc_shift_bits 8 intel_fdc_reading_id.shift_register 0x12 0xFF =
        0xABAE :=
  ⟨rfl, rfl,
    (intel_fdc_byte_callback_bits_byte intel_fdc_reading_id 0x12 0xFF
      (Or.inr (Or.inl rfl)) rfl (by decide) (by decide)).1,
    by decide⟩

/-! ## C40: the assertion on the CRC of a formatted 256-byte sector -/

/-- C40: the CRC-16 (initial value 0xFFFF, polynomial 0x1021, no reflection,
no final XOR) of the data mark 0xFB followed by 256 bytes 0xE5 is 0xA40C.
In a run of byte callbacks that starts in the state format_write_data with
count 0 and sector size 256, where between two callbacks the host leaves the
view and all registers but data and status as they are, every one of the
first 257 calls returns; on entry to call `k` the state is still
format_write_data with count `k`, the size is 256 and for `k ≥ 1` the
running CRC is that of the mark and `k - 1` filler bytes, so that at count
257, the moment the first CRC byte is written, it is 0xA40C; the call with
the assertion returns and writes the byte 0xA4.  The assertion is what is
tested there: with size 256 and any other CRC the call fails it.  It does
fail in the run `intel_fdc_format_resized_run` describes: in a format of
128-byte sectors the first 130 callbacks of a data field return (mark, 128
filler bytes, first CRC byte); the host then writes the command byte 0x00
and the parameters 0x00, 0x00, 0x21 with `intel_fdc_write`, which leaves
state and count as they are and makes the sector size 256; the next 127
callbacks return and write filler bytes; and the callback at count 257 finds
the CRC 0x6175 and ends in the failed assertion. -/
theorem intel_fdc_format_crc_assertion (st : Nat → intel_fdc_struct)
    (h0 : (st 0).state = FdcState.format_write_data ∧ (st 0).state_count = 0)
    (hS : intel_fdc_get_sector_size (st 0) = 256)
    (hkept : ∀ k, k < 257 → ∀ t,
      intel_fdc_byte_callback_writing (st k) = Except.ok t →
      intel_fdc_host_kept t (st (k + 1))) :
    ibm_disc_format_crc_add_bytes
        (ibm_disc_format_crc_add_byte ibm_disc_format_crc_init
          k_ibm_disc_data_mark_data_pattern) (fun _ => 0xE5) 256 = 0xA40C ∧
      (∀ k, k ≤ 257 →
        (st k).state = FdcState.format_write_data ∧ (st k).state_count = k ∧
          intel_fdc_get_sector_size (st k) = 256) ∧
      (∀ k, 1 ≤ k → k ≤ 257 →
        (st k).crc =
          ibm_disc_format_crc_add_bytes
            (ibm_disc_format_crc_add_byte ibm_disc_format_crc_init
              k_ibm_disc_data_mark_data_pattern) (fun _ => 0xE5) (k - 1)) ∧
      (st 257).crc = 0xA40C ∧
      (∀ k, k < 257 →
        ∃ t, intel_fdc_byte_callback_writing (st k) = Except.ok t) ∧
      (∃ t, intel_fdc_byte_callback_writing (st 257) = Except.ok t ∧
        t.drive_writes =
          (st 257).drive_writes ++
            [⟨(st 257).p_current_drive, 0xA4, 0xFF⟩]) ∧
      (∀ s : intel_fdc_struct, s.state = FdcState.format_write_data →
        s.state_count = 257 → intel_fdc_get_sector_size s = 256 →
        s.crc ≠ 0xA40C →
        intel_fdc_byte_callback_writing s = Except.error Fault.assertion) ∧
      ((∀ k, k < 130 → ∃ r,
        intel_fdc_byte_callback_writing
          (intel_fdc_quiet_run intel_fdc_formatting_small k) = Except.ok r) ∧
        (intel_fdc_quiet_run intel_fdc_formatting_small 130).state =
          FdcState.format_write_data ∧
        (intel_fdc_quiet_run intel_fdc_formatting_small 130).state_count =
          130 ∧
        intel_fdc_get_sector_size
          (intel_fdc_quiet_run intel_fdc_formatting_small 130) = 128 ∧
        ∃ u, intel_fdc_host_resize
            (intel_fdc_quiet_run intel_fdc_formatting_small 130) =
            Except.ok u ∧
          u.state = FdcState.format_write_data ∧ u.state_count = 130 ∧
          intel_fdc_get_sector_size u = 256 ∧
          (∀ k, k < 127 → ∃ r,
            intel_fdc_byte_callback_writing (intel_fdc_quiet_run u k) =
              Except.ok r) ∧
          (intel_fdc_quiet_run u 127).state = FdcState.format_write_data ∧
          (intel_fdc_quiet_run u 127).state_count = 257 ∧
          intel_fdc_get_sector_size (intel_fdc_quiet_run u 127) = 256 ∧
          (intel_fdc_quiet_run u 127).crc = 0x6175 ∧
          intel_fdc_byte_callback_writing (intel_fdc_quiet_run u 127) =
            Except.error Fault.assertion) := by
  have hk' : ∀ k, k < 257 → ∀ t,
      intel_fdc_byte_callback_writing (st (0 + k)) = Except.ok t →
      intel_fdc_host_kept t (st (0 + k + 1)) := by
    intro k hk t e
    rw [Nat.zero_add] at e ⊢
    exact hkept k hk t e
  obtain ⟨r1, r2⟩ := intel_fdc_format_data_phase st 0 (st 0).drive_writes
    (st 0).p_current_drive (st 0).crc 256 257
    ((intel_fdc_write_view_eq _ _ _ _ _ _).mpr ⟨h0.1, h0.2, rfl, rfl, rfl⟩)
    (by omega) hS (by omega) hk'
  have hinv : ∀ k, k ≤ 257 →
      (st k).state = FdcState.format_write_data ∧ (st k).state_count = k ∧
        intel_fdc_get_sector_size (st k) = 256 ∧
        (1 ≤ k → (st k).crc =
          ibm_disc_format_crc_add_bytes
            (ibm_disc_format_crc_add_byte ibm_disc_format_crc_init
              k_ibm_disc_data_mark_data_pattern) (fun _ => 0xE5) (k - 1)) := by
    intro k hk
    have q := r1 k hk
    rw [Nat.zero_add, if_neg (show ¬ (k = 256 + 3) by omega),
      if_neg (show ¬ (k = 256 + 3) by omega),
      if_neg (show ¬ (k = 256 + 3) by omega)] at q
    obtain ⟨qv, qr⟩ := q
    obtain ⟨q1, q2, q3, _, _⟩ := (intel_fdc_write_view_eq _ _ _ _ _ _).mp qv
    refine ⟨q1, q2, ?_, ?_⟩
    · rw [intel_fdc_get_sector_size_of_reg (st k) (st 0)
        (qr _ (by decide) (by decide)), hS]
    · intro h1
      rw [q3, if_neg (show ¬ (k = 0) by omega)]
      have e : min (k - 1) 256 = k - 1 := by omega
      rw [e]
  have hcrc : (st 257).crc = 0xA40C := by
    rw [(hinv 257 (le_refl _)).2.2.2 (by omega)]
    exact ibm_disc_format_crc_filler_256
  refine ⟨ibm_disc_format_crc_filler_256,
    fun k hk => ⟨(hinv k hk).1, (hinv k hk).2.1, (hinv k hk).2.2.1⟩,
    fun k h1 h2 => (hinv k h2).2.2.2 h1, hcrc, ?_, ?_, ?_,
    intel_fdc_format_resized_run⟩
  · intro k hk
    obtain ⟨t, e, _⟩ := r2 k hk
    rw [Nat.zero_add] at e
    exact ⟨t, e⟩
  · obtain ⟨i1, i2, i3, _⟩ := hinv 257 (le_refl _)
    obtain ⟨t, e, v, _, _⟩ :=
      (intel_fdc_byte_callback_writing_format_crc_hi (st 257) i1
        (by rw [i3, i2]) (by rw [i3]; decide)).2
        (fun h => h.2 hcrc)
    obtain ⟨_, _, _, v4, _⟩ := (intel_fdc_write_view_eq _ _ _ _ _ _).mp v
    refine ⟨t, e, ?_⟩
    rw [v4, hcrc]
    rfl
  · intro s h1 h2 h3 h4
    exact (intel_fdc_byte_callback_writing_format_crc_hi s h1
      (by rw [h3, h2]) (by rw [h3]; decide)).1 ⟨h3, h4⟩

/-- Witness for C40: a FORMAT of a 256-byte sector on drive 0 that has
reached the data field, run without the host doing more than touching the
data register. -/
theorem intel_fdc_format_crc_assertion_witness :
    ((intel_fdc_write_run intel_fdc_formatting_data (fun _ => 0) 0).state =
        FdcState.format_write_data ∧
      (intel_fdc_write_run intel_fdc_formatting_data
        (fun _ => 0) 0).state_count = 0) ∧
      intel_fdc_get_sector_size
        (intel_fdc_write_run intel_fdc_formatting_data (fun _ => 0) 0) =
        256 ∧
      (intel_fdc_write_run intel_fdc_formatting_data (fun _ => 0) 257).crc =
        0xA40C ∧
      ∃ t, intel_fdc_byte_callback_writing
          (intel_fdc_write_run intel_fdc_formatting_data (fun _ => 0) 257) =
          Except.ok t ∧
        t.drive_writes =
          (intel_fdc_write_run intel_fdc_formatting_data
            (fun _ => 0) 257).drive_writes ++
            [⟨(intel_fdc_write_run intel_fdc_formatting_data
              (fun _ => 0) 257).p_current_drive, 0xA4, 0xFF⟩] :=
  ⟨⟨rfl, rfl⟩, by decide,
    (intel_fdc_format_crc_assertion
      (intel_fdc_write_run intel_fdc_formatting_data (fun _ => 0))
      ⟨rfl, rfl⟩ (by decide)
      (fun k _ t e => intel_fdc_write_run_kept _ _ k t e)).2.2.2.1,
    (intel_fdc_format_crc_assertion
      (intel_fdc_write_run intel_fdc_formatting_data (fun _ => 0))
      ⟨rfl, rfl⟩ (by decide)
      (fun k _ t e => intel_fdc_write_run_kept _ _ k t e)).2.2.2.2.2.1⟩
